import Mathlib

/-!
# The Motorola crypto self-test manager (`moto_testmgr.c`)

A shallow embedding of `src/motorola/security/moto_crypto/src/moto_testmgr.c`.

* Byte strings (`char *` pointing at a string literal) are lists of byte values; a read at
  an offset past the literal's last byte gives `0`, the literal's terminating NUL.
* The scratch pages `xbuf[0..7]` are a map from (buffer number, offset) to a byte.  A pointer
  into a scratch page is the pair (buffer number, offset).
* The kernel services the harness calls (page allocator, crypto API, completions) are an
  environment `Env σ` over an arbitrary state `σ`: every call takes the environment state and
  yields an answer and the next state.  The harness logs every call in a trace of `Event`s.
* `printk` diagnostics are left out, except the three verdict lines of `moto_alg_test`.
* A wait for a completion that never arrives does not return; such a run has no status
  (`none`, resp. `Flow.stuck`).
-/

namespace Moto

/-! ## Constants of the source -/

/-- Need slab memory for testing (size in number of pages). -/
def XBUFSIZE : Nat := 8

/-- First index into the xbuf to simulate cross-page access. -/
def IDX1 : Nat := 32
/-- Second index into the xbuf. -/
def IDX2 : Nat := 32400
/-- Third index into the xbuf. -/
def IDX3 : Nat := 1
/-- Fourth index into the xbuf. -/
def IDX4 : Nat := 8193
/-- Fifth index into the xbuf. -/
def IDX5 : Nat := 22222
/-- Sixth index into the xbuf. -/
def IDX6 : Nat := 17101
/-- Seventh index into the xbuf. -/
def IDX7 : Nat := 27333
/-- Eighth index into the xbuf. -/
def IDX8 : Nat := 3000

/-- The array `MOTO_IDX[8]`. -/
def MOTO_IDX : List Nat := [IDX1, IDX2, IDX3, IDX4, IDX5, IDX6, IDX7, IDX8]

/-- Direction flag of `moto_test_skcipher`: encrypt. -/
def ENCRYPT : Int := 1
/-- Direction flag of `moto_test_skcipher`: decrypt. -/
def DECRYPT : Int := 0

/-- Fault selector meaning "every key length". -/
def INJECT_FAULT_ALL_KEY_LENGHTS : Int := -1

/-- Linux errno `ENOMEM`. -/
def ENOMEM : Int := 12
/-- Linux errno `EBUSY`. -/
def EBUSY : Int := 16
/-- Linux errno `EINVAL`. -/
def EINVAL : Int := 22
/-- Linux errno `EINPROGRESS`. -/
def EINPROGRESS : Int := 115

/-- The names of the `MOTO_CRYPTO_ALG_*` bit masks used by the source.  Their values are
defined in `moto_crypto_main.h`, which is not part of the sources at hand; they are supplied
by `Config.alg_value`. -/
inductive MOTO_CRYPTO_ALG where
  | CPRNG | TDES_CBC | TDES_ECB
  | HMAC_SHA1 | HMAC_SHA224 | HMAC_SHA256 | HMAC_SHA384 | HMAC_SHA512
  | SHA1 | SHA224 | SHA256 | SHA384 | SHA512
  | AES_ECB_128 | AES_ECB_192 | AES_ECB_256
  | AES_CBC_128 | AES_CBC_192 | AES_CBC_256
  | AES_CTR_128 | AES_CTR_192 | AES_CTR_256
  deriving DecidableEq, Repr

/-- Platform and build constants that the source takes from kernel and project headers:
`PAGE_SHIFT` (so that `PAGE_SIZE = 1 << PAGE_SHIFT`), `MAX_IVLEN` (from `moto_testmgr.h`),
whether `CONFIG_CRYPTO_MOTOROLA_FAULT_INJECTION` is defined, the global
`fault_injection_mask`, and the values of the `MOTO_CRYPTO_ALG_*` macros.

`after_literal l k` is the byte the linked image holds `k` bytes after the terminating
NUL of the string literal with the bytes `l`: `memcpy(iv, template[i].iv, MAX_IVLEN)`
reads these bytes when the IV literal is shorter than `MAX_IVLEN`.  The sample
configurations take them to be zero. -/
structure Config where
  PAGE_SHIFT : Nat
  MAX_IVLEN : Nat
  FAULT_INJECTION : Bool
  fault_injection_mask : Nat
  alg_value : MOTO_CRYPTO_ALG → Nat
  after_literal : List Nat → Nat → Nat := fun _ _ => 0

/-- The kernel macro `PAGE_SIZE`. -/
def PAGE_SIZE (c : Config) : Nat := 2 ^ c.PAGE_SHIFT

/-- The kernel macro `offset_in_page(p)`, that is `p & (PAGE_SIZE - 1)`.  For a pointer into a
scratch page, `p` is its offset from the (page-aligned) start of the page. -/
def offset_in_page (c : Config) (p : Nat) : Nat := p &&& (PAGE_SIZE c - 1)

/-! ## C library routines -/

/-- The bytes of an ASCII string literal. -/
def ascii (s : String) : List Nat := s.toList.map Char.toNat

/-- The byte at offset `i` of a string literal: past the last byte it is the NUL. -/
def byteAt (l : List Nat) (i : Nat) : Nat := l.getD i 0

/-- The C string stored in a byte list: the bytes before the first NUL. -/
def cstr : List Nat → List Nat
  | [] => []
  | c :: cs => if c = 0 then [] else c :: cstr cs

/-- The kernel's `strcmp`: walks both strings, returns `-1` or `1` at the first
differing byte (compared as unsigned), and `0` when both end together. -/
def strcmp : List Nat → List Nat → Int
  | [], [] => 0
  | [], c2 :: _ => if c2 = 0 then 0 else -1
  | c1 :: _, [] => if c1 = 0 then 0 else 1
  | c1 :: cs, c2 :: ct =>
    if c1 ≠ c2 then (if c1 < c2 then -1 else 1)
    else if c1 = 0 then 0
    else strcmp cs ct

/-- The kernel's `memcmp` on two byte accessors: the difference of the first pair of
differing bytes among the first `count` ones, else `0`. -/
def memcmp (cs ct : Nat → Nat) : Nat → Int
  | 0 => 0
  | count + 1 =>
    if cs 0 ≠ ct 0 then (cs 0 : Int) - (ct 0 : Int)
    else memcmp (fun i => cs (i + 1)) (fun i => ct (i + 1)) count

/-- C's `|` on two `int`s in two's complement. -/
def int_or : Int → Int → Int
  | Int.ofNat m, Int.ofNat n => Int.ofNat (m ||| n)
  | Int.ofNat m, Int.negSucc n => Int.negSucc (n ^^^ (n &&& m))
  | Int.negSucc m, Int.ofNat n => Int.negSucc (m ^^^ (m &&& n))
  | Int.negSucc m, Int.negSucc n => Int.negSucc (m &&& n)

/-! ## Scratch memory -/

/-- The contents of the scratch pages: `m b o` is the byte at offset `o` of `xbuf[b]`. -/
abbrev Mem := Nat → Nat → Nat

/-- The result of `memcpy(xbuf[b] + off, src, n)`. -/
def Mem.memcpy (m : Mem) (b off : Nat) (src : Nat → Nat) (n : Nat) : Mem :=
  fun b' o => if b' = b ∧ off ≤ o ∧ o < off + n then src (o - off) else m b' o

/-- The result of storing byte `x` at `xbuf[b][off]`. -/
def Mem.store (m : Mem) (b off x : Nat) : Mem :=
  fun b' o => if b' = b ∧ o = off then x else m b' o

/-- One entry of a `struct scatterlist` array: the scratch buffer, the offset in it and the
length that `sg_set_buf` recorded. -/
structure scatterlist where
  buf : Nat
  offset : Nat
  length : Nat
  deriving DecidableEq, Repr

/-- The bytes a scatter list describes, read from the scratch pages in list order. -/
def gather (m : Mem) : List scatterlist → List Nat
  | [] => []
  | e :: es => (List.range e.length).map (fun j => m e.buf (e.offset + j)) ++ gather m es

/-! ## Test vectors -/

/-- Modelled from the spec: `struct moto_hash_testvec` is declared in `moto_testmgr.h`,
which is missing; the fields are those the source initialises and reads (key, plaintext,
expected digest, chunk sizes `tap`, and `psize`, `np`, `ksize`). -/
structure moto_hash_testvec where
  key : List Nat := []
  plaintext : List Nat := []
  digest : List Nat := []
  tap : List Nat := []
  psize : Nat := 0
  np : Nat := 0
  ksize : Nat := 0
  deriving DecidableEq, Repr

/-- Modelled from the spec: `struct moto_cipher_testvec` is declared in `moto_testmgr.h`,
which is missing; the fields are those the source initialises and reads.  `iv` is `none`
for a null pointer. -/
structure moto_cipher_testvec where
  key : List Nat := []
  iv : Option (List Nat) := none
  input : List Nat := []
  result : List Nat := []
  tap : List Nat := []
  np : Nat := 0
  fail : Nat := 0
  wk : Nat := 0
  klen : Nat := 0
  ilen : Nat := 0
  rlen : Nat := 0
  deriving DecidableEq, Repr

/-- Modelled from the spec: `struct moto_cprng_testvec` is declared in `moto_testmgr.h`,
which is missing; the fields are those the source initialises and reads. -/
structure moto_cprng_testvec where
  key : List Nat := []
  dt : List Nat := []
  v : List Nat := []
  result : List Nat := []
  klen : Nat := 0
  dtlen : Nat := 0
  vlen : Nat := 0
  rlen : Nat := 0
  loops : Nat := 0
  deriving DecidableEq, Repr

/-- Number of SHA1 test vectors. -/
def SHA1_TEST_VECTORS : Nat := 3
/-- Number of SHA224 test vectors. -/
def SHA224_TEST_VECTORS : Nat := 2
/-- Number of SHA256 test vectors. -/
def SHA256_TEST_VECTORS : Nat := 2
/-- Number of SHA384 test vectors. -/
def SHA384_TEST_VECTORS : Nat := 4
/-- Number of SHA512 test vectors. -/
def SHA512_TEST_VECTORS : Nat := 4
/-- Number of HMAC-SHA1 test vectors. -/
def HMAC_SHA1_TEST_VECTORS : Nat := 7
/-- Number of HMAC-SHA224 test vectors. -/
def HMAC_SHA224_TEST_VECTORS : Nat := 4
/-- Number of HMAC-SHA256 test vectors. -/
def HMAC_SHA256_TEST_VECTORS : Nat := 10
/-- Number of HMAC-SHA384 test vectors. -/
def HMAC_SHA384_TEST_VECTORS : Nat := 4
/-- Number of HMAC-SHA512 test vectors. -/
def HMAC_SHA512_TEST_VECTORS : Nat := 4
/-- Number of triple-DES ECB encryption vectors. -/
def DES3_EDE_ENC_TEST_VECTORS : Nat := 3
/-- Number of triple-DES ECB decryption vectors. -/
def DES3_EDE_DEC_TEST_VECTORS : Nat := 3
/-- Number of triple-DES CBC encryption vectors. -/
def DES3_EDE_CBC_ENC_TEST_VECTORS : Nat := 1
/-- Number of triple-DES CBC decryption vectors. -/
def DES3_EDE_CBC_DEC_TEST_VECTORS : Nat := 1
/-- Number of AES ECB encryption vectors. -/
def AES_ENC_TEST_VECTORS : Nat := 3
/-- Number of AES ECB decryption vectors. -/
def AES_DEC_TEST_VECTORS : Nat := 3
/-- Number of AES CBC encryption vectors. -/
def AES_CBC_ENC_TEST_VECTORS : Nat := 4
/-- Number of AES CBC decryption vectors. -/
def AES_CBC_DEC_TEST_VECTORS : Nat := 4
/-- Number of AES CTR encryption vectors. -/
def AES_CTR_ENC_TEST_VECTORS : Nat := 3
/-- Number of AES CTR decryption vectors. -/
def AES_CTR_DEC_TEST_VECTORS : Nat := 3
/-- Number of ANSI X9.31 RNG vectors. -/
def ANSI_CPRNG_AES_TEST_VECTORS : Nat := 6

/-- The table `moto_sha1_tv_template` of the source. -/
def moto_sha1_tv_template : List moto_hash_testvec := [
  { plaintext := [0x61, 0x62, 0x63],
    psize := 3,
    digest := [
        0xa9, 0x99, 0x3e, 0x36, 0x47, 0x06, 0x81, 0x6a, 0xba, 0x3e, 0x25, 0x71,
        0x78, 0x50, 0xc2, 0x6c, 0x9c, 0xd0, 0xd8, 0x9d] },
  { plaintext := [
        0x61, 0x62, 0x63, 0x64, 0x62, 0x63, 0x64, 0x65, 0x63, 0x64, 0x65, 0x66,
        0x64, 0x65, 0x66, 0x67, 0x65, 0x66, 0x67, 0x68, 0x66, 0x67, 0x68, 0x69,
        0x67, 0x68, 0x69, 0x6a, 0x68, 0x69, 0x6a, 0x6b, 0x69, 0x6a, 0x6b, 0x6c,
        0x6a, 0x6b, 0x6c, 0x6d, 0x6b, 0x6c, 0x6d, 0x6e, 0x6c, 0x6d, 0x6e, 0x6f,
        0x6d, 0x6e, 0x6f, 0x70, 0x6e, 0x6f, 0x70, 0x71],
    psize := 56,
    digest := [
        0x84, 0x98, 0x3e, 0x44, 0x1c, 0x3b, 0xd2, 0x6e, 0xba, 0xae, 0x4a, 0xa1,
        0xf9, 0x51, 0x29, 0xe5, 0xe5, 0x46, 0x70, 0xf1],
    np := 2,
    tap := [28, 28] },
  { plaintext := [
        0xec, 0x29, 0x56, 0x12, 0x44, 0xed, 0xe7, 0x06, 0xb6, 0xeb, 0x30, 0xa1,
        0xc3, 0x71, 0xd7, 0x44, 0x50, 0xa1, 0x05, 0xc3, 0xf9, 0x73, 0x5f, 0x7f,
        0xa9, 0xfe, 0x38, 0xcf, 0x67, 0xf3, 0x04, 0xa5, 0x73, 0x6a, 0x10, 0x6e,
        0x92, 0xe1, 0x71, 0x39, 0xa6, 0x81, 0x3b, 0x1c, 0x81, 0xa4, 0xf3, 0xd3,
        0xfb, 0x95, 0x46, 0xab, 0x42, 0x96, 0xfa, 0x9f, 0x72, 0x28, 0x26, 0xc0,
        0x66, 0x86, 0x9e, 0xda, 0xcd, 0x73, 0xb2, 0x54, 0x80, 0x35, 0x18, 0x58,
        0x13, 0xe2, 0x26, 0x34, 0xa9, 0xda, 0x44, 0x00, 0x0d, 0x95, 0xa2, 0x81,
        0xff, 0x9f, 0x26, 0x4e, 0xcc, 0xe0, 0xa9, 0x31, 0x22, 0x21, 0x62, 0xd0,
        0x21, 0xcc, 0xa2, 0x8d, 0xb5, 0xf3, 0xc2, 0xaa, 0x24, 0x94, 0x5a, 0xb1,
        0xe3, 0x1c, 0xb4, 0x13, 0xae, 0x29, 0x81, 0x0f, 0xd7, 0x94, 0xca, 0xd5,
        0xdf, 0xaf, 0x29, 0xec, 0x43, 0xcb, 0x38, 0xd1, 0x98, 0xfe, 0x4a, 0xe1,
        0xda, 0x23, 0x59, 0x78, 0x02, 0x21, 0x40, 0x5b, 0xd6, 0x71, 0x2a, 0x53,
        0x05, 0xda, 0x4b, 0x1b, 0x73, 0x7f, 0xce, 0x7c, 0xd2, 0x1c, 0x0e, 0xb7,
        0x72, 0x8d, 0x08, 0x23, 0x5a, 0x90, 0x11],
    psize := 163,
    digest := [
        0x97, 0x01, 0x11, 0xc4, 0xe7, 0x7b, 0xcc, 0x88, 0xcc, 0x20, 0x45, 0x9c,
        0x02, 0xb6, 0x9b, 0x4a, 0xa8, 0xf5, 0x82, 0x17],
    np := 4,
    tap := [63, 64, 31, 5] } ]

/-- The table `moto_sha224_tv_template` of the source. -/
def moto_sha224_tv_template : List moto_hash_testvec := [
  { plaintext := [0x61, 0x62, 0x63],
    psize := 3,
    digest := [
        0x23, 0x09, 0x7d, 0x22, 0x34, 0x05, 0xd8, 0x22, 0x86, 0x42, 0xa4, 0x77,
        0xbd, 0xa2, 0x55, 0xb3, 0x2a, 0xad, 0xbc, 0xe4, 0xbd, 0xa0, 0xb3, 0xf7,
        0xe3, 0x6c, 0x9d, 0xa7] },
  { plaintext := [
        0x61, 0x62, 0x63, 0x64, 0x62, 0x63, 0x64, 0x65, 0x63, 0x64, 0x65, 0x66,
        0x64, 0x65, 0x66, 0x67, 0x65, 0x66, 0x67, 0x68, 0x66, 0x67, 0x68, 0x69,
        0x67, 0x68, 0x69, 0x6a, 0x68, 0x69, 0x6a, 0x6b, 0x69, 0x6a, 0x6b, 0x6c,
        0x6a, 0x6b, 0x6c, 0x6d, 0x6b, 0x6c, 0x6d, 0x6e, 0x6c, 0x6d, 0x6e, 0x6f,
        0x6d, 0x6e, 0x6f, 0x70, 0x6e, 0x6f, 0x70, 0x71],
    psize := 56,
    digest := [
        0x75, 0x38, 0x8b, 0x16, 0x51, 0x27, 0x76, 0xcc, 0x5d, 0xba, 0x5d, 0xa1,
        0xfd, 0x89, 0x01, 0x50, 0xb0, 0xc6, 0x45, 0x5c, 0xb4, 0xf5, 0x8b, 0x19,
        0x52, 0x52, 0x25, 0x25],
    np := 2,
    tap := [28, 28] } ]

/-- The table `moto_sha256_tv_template` of the source. -/
def moto_sha256_tv_template : List moto_hash_testvec := [
  { plaintext := [0x61, 0x62, 0x63],
    psize := 3,
    digest := [
        0xba, 0x78, 0x16, 0xbf, 0x8f, 0x01, 0xcf, 0xea, 0x41, 0x41, 0x40, 0xde,
        0x5d, 0xae, 0x22, 0x23, 0xb0, 0x03, 0x61, 0xa3, 0x96, 0x17, 0x7a, 0x9c,
        0xb4, 0x10, 0xff, 0x61, 0xf2, 0x00, 0x15, 0xad] },
  { plaintext := [
        0x61, 0x62, 0x63, 0x64, 0x62, 0x63, 0x64, 0x65, 0x63, 0x64, 0x65, 0x66,
        0x64, 0x65, 0x66, 0x67, 0x65, 0x66, 0x67, 0x68, 0x66, 0x67, 0x68, 0x69,
        0x67, 0x68, 0x69, 0x6a, 0x68, 0x69, 0x6a, 0x6b, 0x69, 0x6a, 0x6b, 0x6c,
        0x6a, 0x6b, 0x6c, 0x6d, 0x6b, 0x6c, 0x6d, 0x6e, 0x6c, 0x6d, 0x6e, 0x6f,
        0x6d, 0x6e, 0x6f, 0x70, 0x6e, 0x6f, 0x70, 0x71],
    psize := 56,
    digest := [
        0x24, 0x8d, 0x6a, 0x61, 0xd2, 0x06, 0x38, 0xb8, 0xe5, 0xc0, 0x26, 0x93,
        0x0c, 0x3e, 0x60, 0x39, 0xa3, 0x3c, 0xe4, 0x59, 0x64, 0xff, 0x21, 0x67,
        0xf6, 0xec, 0xed, 0xd4, 0x19, 0xdb, 0x06, 0xc1],
    np := 2,
    tap := [28, 28] } ]

/-- The table `moto_sha384_tv_template` of the source. -/
def moto_sha384_tv_template : List moto_hash_testvec := [
  { plaintext := [0x61, 0x62, 0x63],
    psize := 3,
    digest := [
        0xcb, 0x00, 0x75, 0x3f, 0x45, 0xa3, 0x5e, 0x8b, 0xb5, 0xa0, 0x3d, 0x69,
        0x9a, 0xc6, 0x50, 0x07, 0x27, 0x2c, 0x32, 0xab, 0x0e, 0xde, 0xd1, 0x63,
        0x1a, 0x8b, 0x60, 0x5a, 0x43, 0xff, 0x5b, 0xed, 0x80, 0x86, 0x07, 0x2b,
        0xa1, 0xe7, 0xcc, 0x23, 0x58, 0xba, 0xec, 0xa1, 0x34, 0xc8, 0x25, 0xa7] },
  { plaintext := [
        0x61, 0x62, 0x63, 0x64, 0x62, 0x63, 0x64, 0x65, 0x63, 0x64, 0x65, 0x66,
        0x64, 0x65, 0x66, 0x67, 0x65, 0x66, 0x67, 0x68, 0x66, 0x67, 0x68, 0x69,
        0x67, 0x68, 0x69, 0x6a, 0x68, 0x69, 0x6a, 0x6b, 0x69, 0x6a, 0x6b, 0x6c,
        0x6a, 0x6b, 0x6c, 0x6d, 0x6b, 0x6c, 0x6d, 0x6e, 0x6c, 0x6d, 0x6e, 0x6f,
        0x6d, 0x6e, 0x6f, 0x70, 0x6e, 0x6f, 0x70, 0x71],
    psize := 56,
    digest := [
        0x33, 0x91, 0xfd, 0xdd, 0xfc, 0x8d, 0xc7, 0x39, 0x37, 0x07, 0xa6, 0x5b,
        0x1b, 0x47, 0x09, 0x39, 0x7c, 0xf8, 0xb1, 0xd1, 0x62, 0xaf, 0x05, 0xab,
        0xfe, 0x8f, 0x45, 0x0d, 0xe5, 0xf3, 0x6b, 0xc6, 0xb0, 0x45, 0x5a, 0x85,
        0x20, 0xbc, 0x4e, 0x6f, 0x5f, 0xe9, 0x5b, 0x1f, 0xe3, 0xc8, 0x45, 0x2b] },
  { plaintext := [
        0x61, 0x62, 0x63, 0x64, 0x65, 0x66, 0x67, 0x68, 0x62, 0x63, 0x64, 0x65,
        0x66, 0x67, 0x68, 0x69, 0x63, 0x64, 0x65, 0x66, 0x67, 0x68, 0x69, 0x6a,
        0x64, 0x65, 0x66, 0x67, 0x68, 0x69, 0x6a, 0x6b, 0x65, 0x66, 0x67, 0x68,
        0x69, 0x6a, 0x6b, 0x6c, 0x66, 0x67, 0x68, 0x69, 0x6a, 0x6b, 0x6c, 0x6d,
        0x67, 0x68, 0x69, 0x6a, 0x6b, 0x6c, 0x6d, 0x6e, 0x68, 0x69, 0x6a, 0x6b,
        0x6c, 0x6d, 0x6e, 0x6f, 0x69, 0x6a, 0x6b, 0x6c, 0x6d, 0x6e, 0x6f, 0x70,
        0x6a, 0x6b, 0x6c, 0x6d, 0x6e, 0x6f, 0x70, 0x71, 0x6b, 0x6c, 0x6d, 0x6e,
        0x6f, 0x70, 0x71, 0x72, 0x6c, 0x6d, 0x6e, 0x6f, 0x70, 0x71, 0x72, 0x73,
        0x6d, 0x6e, 0x6f, 0x70, 0x71, 0x72, 0x73, 0x74, 0x6e, 0x6f, 0x70, 0x71,
        0x72, 0x73, 0x74, 0x75],
    psize := 112,
    digest := [
        0x09, 0x33, 0x0c, 0x33, 0xf7, 0x11, 0x47, 0xe8, 0x3d, 0x19, 0x2f, 0xc7,
        0x82, 0xcd, 0x1b, 0x47, 0x53, 0x11, 0x1b, 0x17, 0x3b, 0x3b, 0x05, 0xd2,
        0x2f, 0xa0, 0x80, 0x86, 0xe3, 0xb0, 0xf7, 0x12, 0xfc, 0xc7, 0xc7, 0x1a,
        0x55, 0x7e, 0x2d, 0xb9, 0x66, 0xc3, 0xe9, 0xfa, 0x91, 0x74, 0x60, 0x39] },
  { plaintext := [
        0x61, 0x62, 0x63, 0x64, 0x65, 0x66, 0x67, 0x68, 0x69, 0x6a, 0x6b, 0x6c,
        0x6d, 0x6e, 0x6f, 0x70, 0x71, 0x72, 0x73, 0x74, 0x75, 0x76, 0x77, 0x78,
        0x79, 0x7a, 0x61, 0x62, 0x63, 0x64, 0x65, 0x66, 0x67, 0x68, 0x69, 0x6a,
        0x6b, 0x6c, 0x6d, 0x6e, 0x6f, 0x70, 0x71, 0x72, 0x73, 0x74, 0x75, 0x76,
        0x77, 0x78, 0x79, 0x7a, 0x61, 0x62, 0x63, 0x64, 0x65, 0x66, 0x67, 0x68,
        0x69, 0x6a, 0x6b, 0x6c, 0x6d, 0x6e, 0x6f, 0x70, 0x71, 0x72, 0x73, 0x74,
        0x75, 0x76, 0x77, 0x78, 0x79, 0x7a, 0x61, 0x62, 0x63, 0x64, 0x65, 0x66,
        0x67, 0x68, 0x69, 0x6a, 0x6b, 0x6c, 0x6d, 0x6e, 0x6f, 0x70, 0x71, 0x72,
        0x73, 0x74, 0x75, 0x76, 0x77, 0x78, 0x79, 0x7a],
    psize := 104,
    digest := [
        0x3d, 0x20, 0x89, 0x73, 0xab, 0x35, 0x08, 0xdb, 0xbd, 0x7e, 0x2c, 0x28,
        0x62, 0xba, 0x29, 0x0a, 0xd3, 0x01, 0x0e, 0x49, 0x78, 0xc1, 0x98, 0xdc,
        0x4d, 0x8f, 0xd0, 0x14, 0xe5, 0x82, 0x82, 0x3a, 0x89, 0xe1, 0x6f, 0x9b,
        0x2a, 0x7b, 0xbc, 0x1a, 0xc9, 0x38, 0xe2, 0xd1, 0x99, 0xe8, 0xbe, 0xa4],
    np := 4,
    tap := [26, 26, 26, 26] } ]

/-- The table `moto_sha512_tv_template` of the source. -/
def moto_sha512_tv_template : List moto_hash_testvec := [
  { plaintext := [0x61, 0x62, 0x63],
    psize := 3,
    digest := [
        0xdd, 0xaf, 0x35, 0xa1, 0x93, 0x61, 0x7a, 0xba, 0xcc, 0x41, 0x73, 0x49,
        0xae, 0x20, 0x41, 0x31, 0x12, 0xe6, 0xfa, 0x4e, 0x89, 0xa9, 0x7e, 0xa2,
        0x0a, 0x9e, 0xee, 0xe6, 0x4b, 0x55, 0xd3, 0x9a, 0x21, 0x92, 0x99, 0x2a,
        0x27, 0x4f, 0xc1, 0xa8, 0x36, 0xba, 0x3c, 0x23, 0xa3, 0xfe, 0xeb, 0xbd,
        0x45, 0x4d, 0x44, 0x23, 0x64, 0x3c, 0xe8, 0x0e, 0x2a, 0x9a, 0xc9, 0x4f,
        0xa5, 0x4c, 0xa4, 0x9f] },
  { plaintext := [
        0x61, 0x62, 0x63, 0x64, 0x62, 0x63, 0x64, 0x65, 0x63, 0x64, 0x65, 0x66,
        0x64, 0x65, 0x66, 0x67, 0x65, 0x66, 0x67, 0x68, 0x66, 0x67, 0x68, 0x69,
        0x67, 0x68, 0x69, 0x6a, 0x68, 0x69, 0x6a, 0x6b, 0x69, 0x6a, 0x6b, 0x6c,
        0x6a, 0x6b, 0x6c, 0x6d, 0x6b, 0x6c, 0x6d, 0x6e, 0x6c, 0x6d, 0x6e, 0x6f,
        0x6d, 0x6e, 0x6f, 0x70, 0x6e, 0x6f, 0x70, 0x71],
    psize := 56,
    digest := [
        0x20, 0x4a, 0x8f, 0xc6, 0xdd, 0xa8, 0x2f, 0x0a, 0x0c, 0xed, 0x7b, 0xeb,
        0x8e, 0x08, 0xa4, 0x16, 0x57, 0xc1, 0x6e, 0xf4, 0x68, 0xb2, 0x28, 0xa8,
        0x27, 0x9b, 0xe3, 0x31, 0xa7, 0x03, 0xc3, 0x35, 0x96, 0xfd, 0x15, 0xc1,
        0x3b, 0x1b, 0x07, 0xf9, 0xaa, 0x1d, 0x3b, 0xea, 0x57, 0x78, 0x9c, 0xa0,
        0x31, 0xad, 0x85, 0xc7, 0xa7, 0x1d, 0xd7, 0x03, 0x54, 0xec, 0x63, 0x12,
        0x38, 0xca, 0x34, 0x45] },
  { plaintext := [
        0x61, 0x62, 0x63, 0x64, 0x65, 0x66, 0x67, 0x68, 0x62, 0x63, 0x64, 0x65,
        0x66, 0x67, 0x68, 0x69, 0x63, 0x64, 0x65, 0x66, 0x67, 0x68, 0x69, 0x6a,
        0x64, 0x65, 0x66, 0x67, 0x68, 0x69, 0x6a, 0x6b, 0x65, 0x66, 0x67, 0x68,
        0x69, 0x6a, 0x6b, 0x6c, 0x66, 0x67, 0x68, 0x69, 0x6a, 0x6b, 0x6c, 0x6d,
        0x67, 0x68, 0x69, 0x6a, 0x6b, 0x6c, 0x6d, 0x6e, 0x68, 0x69, 0x6a, 0x6b,
        0x6c, 0x6d, 0x6e, 0x6f, 0x69, 0x6a, 0x6b, 0x6c, 0x6d, 0x6e, 0x6f, 0x70,
        0x6a, 0x6b, 0x6c, 0x6d, 0x6e, 0x6f, 0x70, 0x71, 0x6b, 0x6c, 0x6d, 0x6e,
        0x6f, 0x70, 0x71, 0x72, 0x6c, 0x6d, 0x6e, 0x6f, 0x70, 0x71, 0x72, 0x73,
        0x6d, 0x6e, 0x6f, 0x70, 0x71, 0x72, 0x73, 0x74, 0x6e, 0x6f, 0x70, 0x71,
        0x72, 0x73, 0x74, 0x75],
    psize := 112,
    digest := [
        0x8e, 0x95, 0x9b, 0x75, 0xda, 0xe3, 0x13, 0xda, 0x8c, 0xf4, 0xf7, 0x28,
        0x14, 0xfc, 0x14, 0x3f, 0x8f, 0x77, 0x79, 0xc6, 0xeb, 0x9f, 0x7f, 0xa1,
        0x72, 0x99, 0xae, 0xad, 0xb6, 0x88, 0x90, 0x18, 0x50, 0x1d, 0x28, 0x9e,
        0x49, 0x00, 0xf7, 0xe4, 0x33, 0x1b, 0x99, 0xde, 0xc4, 0xb5, 0x43, 0x3a,
        0xc7, 0xd3, 0x29, 0xee, 0xb6, 0xdd, 0x26, 0x54, 0x5e, 0x96, 0xe5, 0x5b,
        0x87, 0x4b, 0xe9, 0x09] },
  { plaintext := [
        0x61, 0x62, 0x63, 0x64, 0x65, 0x66, 0x67, 0x68, 0x69, 0x6a, 0x6b, 0x6c,
        0x6d, 0x6e, 0x6f, 0x70, 0x71, 0x72, 0x73, 0x74, 0x75, 0x76, 0x77, 0x78,
        0x79, 0x7a, 0x61, 0x62, 0x63, 0x64, 0x65, 0x66, 0x67, 0x68, 0x69, 0x6a,
        0x6b, 0x6c, 0x6d, 0x6e, 0x6f, 0x70, 0x71, 0x72, 0x73, 0x74, 0x75, 0x76,
        0x77, 0x78, 0x79, 0x7a, 0x61, 0x62, 0x63, 0x64, 0x65, 0x66, 0x67, 0x68,
        0x69, 0x6a, 0x6b, 0x6c, 0x6d, 0x6e, 0x6f, 0x70, 0x71, 0x72, 0x73, 0x74,
        0x75, 0x76, 0x77, 0x78, 0x79, 0x7a, 0x61, 0x62, 0x63, 0x64, 0x65, 0x66,
        0x67, 0x68, 0x69, 0x6a, 0x6b, 0x6c, 0x6d, 0x6e, 0x6f, 0x70, 0x71, 0x72,
        0x73, 0x74, 0x75, 0x76, 0x77, 0x78, 0x79, 0x7a],
    psize := 104,
    digest := [
        0x93, 0x0d, 0x0c, 0xef, 0xcb, 0x30, 0xff, 0x11, 0x33, 0xb6, 0x89, 0x81,
        0x21, 0xf1, 0xcf, 0x3d, 0x27, 0x57, 0x8a, 0xfc, 0xaf, 0xe8, 0x67, 0x7c,
        0x52, 0x57, 0xcf, 0x06, 0x99, 0x11, 0xf7, 0x5d, 0x8f, 0x58, 0x31, 0xb5,
        0x6e, 0xbf, 0xda, 0x67, 0xb2, 0x78, 0xe6, 0x6d, 0xff, 0x8b, 0x84, 0xfe,
        0x2b, 0x28, 0x70, 0xf7, 0x42, 0xa5, 0x80, 0xd8, 0xed, 0xb4, 0x19, 0x87,
        0x23, 0x28, 0x50, 0xc9],
    np := 4,
    tap := [26, 26, 26, 26] } ]

/-- The table `moto_hmac_sha1_tv_template` of the source. -/
def moto_hmac_sha1_tv_template : List moto_hash_testvec := [
  { key := [
        0x0b, 0x0b, 0x0b, 0x0b, 0x0b, 0x0b, 0x0b, 0x0b, 0x0b, 0x0b, 0x0b, 0x0b,
        0x0b, 0x0b, 0x0b, 0x0b, 0x0b, 0x0b, 0x0b, 0x0b],
    ksize := 20,
    plaintext := [0x48, 0x69, 0x20, 0x54, 0x68, 0x65, 0x72, 0x65],
    psize := 8,
    digest := [
        0xb6, 0x17, 0x31, 0x86, 0x55, 0x05, 0x72, 0x64, 0xe2, 0x8b, 0xc0, 0xb6,
        0xfb, 0x37, 0x8c, 0x8e, 0xf1, 0x46, 0xbe] },
  { key := [0x4a, 0x65, 0x66, 0x65],
    ksize := 4,
    plaintext := [
        0x77, 0x68, 0x61, 0x74, 0x20, 0x64, 0x6f, 0x20, 0x79, 0x61, 0x20, 0x77,
        0x61, 0x6e, 0x74, 0x20, 0x66, 0x6f, 0x72, 0x20, 0x6e, 0x6f, 0x74, 0x68,
        0x69, 0x6e, 0x67, 0x3f],
    psize := 28,
    digest := [
        0xef, 0xfc, 0xdf, 0x6a, 0xe5, 0xeb, 0x2f, 0xa2, 0xd2, 0x74, 0x16, 0xd5,
        0xf1, 0x84, 0xdf, 0x9c, 0x25, 0x9a, 0x7c, 0x79],
    np := 2,
    tap := [14, 14] },
  { key := [
        0xaa, 0xaa, 0xaa, 0xaa, 0xaa, 0xaa, 0xaa, 0xaa, 0xaa, 0xaa, 0xaa, 0xaa,
        0xaa, 0xaa, 0xaa, 0xaa, 0xaa, 0xaa, 0xaa, 0xaa],
    ksize := 20,
    plaintext := [
        0xdd, 0xdd, 0xdd, 0xdd, 0xdd, 0xdd, 0xdd, 0xdd, 0xdd, 0xdd, 0xdd, 0xdd,
        0xdd, 0xdd, 0xdd, 0xdd, 0xdd, 0xdd, 0xdd, 0xdd, 0xdd, 0xdd, 0xdd, 0xdd,
        0xdd, 0xdd, 0xdd, 0xdd, 0xdd, 0xdd, 0xdd, 0xdd, 0xdd, 0xdd, 0xdd, 0xdd,
        0xdd, 0xdd, 0xdd, 0xdd, 0xdd, 0xdd, 0xdd, 0xdd, 0xdd, 0xdd, 0xdd, 0xdd,
        0xdd, 0xdd],
    psize := 50,
    digest := [
        0x12, 0x5d, 0x73, 0x42, 0xb9, 0xac, 0x11, 0xcd, 0x91, 0xa3, 0x9a, 0xf4,
        0x8a, 0xa1, 0x7b, 0x4f, 0x63, 0xf1, 0x75, 0xd3] },
  { key := [
        0x01, 0x02, 0x03, 0x04, 0x05, 0x06, 0x07, 0x08, 0x09, 0x0a, 0x0b, 0x0c,
        0x0d, 0x0e, 0x0f, 0x10, 0x11, 0x12, 0x13, 0x14, 0x15, 0x16, 0x17, 0x18,
        0x19],
    ksize := 25,
    plaintext := [
        0xcd, 0xcd, 0xcd, 0xcd, 0xcd, 0xcd, 0xcd, 0xcd, 0xcd, 0xcd, 0xcd, 0xcd,
        0xcd, 0xcd, 0xcd, 0xcd, 0xcd, 0xcd, 0xcd, 0xcd, 0xcd, 0xcd, 0xcd, 0xcd,
        0xcd, 0xcd, 0xcd, 0xcd, 0xcd, 0xcd, 0xcd, 0xcd, 0xcd, 0xcd, 0xcd, 0xcd,
        0xcd, 0xcd, 0xcd, 0xcd, 0xcd, 0xcd, 0xcd, 0xcd, 0xcd, 0xcd, 0xcd, 0xcd,
        0xcd, 0xcd],
    psize := 50,
    digest := [
        0x4c, 0x90, 0x07, 0xf4, 0x02, 0x62, 0x50, 0xc6, 0xbc, 0x84, 0x14, 0xf9,
        0xbf, 0x50, 0xc8, 0x6c, 0x2d, 0x72, 0x35, 0xda] },
  { key := [
        0x0c, 0x0c, 0x0c, 0x0c, 0x0c, 0x0c, 0x0c, 0x0c, 0x0c, 0x0c, 0x0c, 0x0c,
        0x0c, 0x0c, 0x0c, 0x0c, 0x0c, 0x0c, 0x0c, 0x0c],
    ksize := 20,
    plaintext := [
        0x54, 0x65, 0x73, 0x74, 0x20, 0x57, 0x69, 0x74, 0x68, 0x20, 0x54, 0x72,
        0x75, 0x6e, 0x63, 0x61, 0x74, 0x69, 0x6f, 0x6e],
    psize := 20,
    digest := [
        0x4c, 0x1a, 0x03, 0x42, 0x4b, 0x55, 0xe0, 0x7f, 0xe7, 0xf2, 0x7b, 0xe1,
        0xd5, 0x8b, 0xb9, 0x32, 0x4a, 0x9a, 0x5a, 0x04] },
  { key := [
        0xaa, 0xaa, 0xaa, 0xaa, 0xaa, 0xaa, 0xaa, 0xaa, 0xaa, 0xaa, 0xaa, 0xaa,
        0xaa, 0xaa, 0xaa, 0xaa, 0xaa, 0xaa, 0xaa, 0xaa, 0xaa, 0xaa, 0xaa, 0xaa,
        0xaa, 0xaa, 0xaa, 0xaa, 0xaa, 0xaa, 0xaa, 0xaa, 0xaa, 0xaa, 0xaa, 0xaa,
        0xaa, 0xaa, 0xaa, 0xaa, 0xaa, 0xaa, 0xaa, 0xaa, 0xaa, 0xaa, 0xaa, 0xaa,
        0xaa, 0xaa, 0xaa, 0xaa, 0xaa, 0xaa, 0xaa, 0xaa, 0xaa, 0xaa, 0xaa, 0xaa,
        0xaa, 0xaa, 0xaa, 0xaa, 0xaa, 0xaa, 0xaa, 0xaa, 0xaa, 0xaa, 0xaa, 0xaa,
        0xaa, 0xaa, 0xaa, 0xaa, 0xaa, 0xaa, 0xaa, 0xaa],
    ksize := 80,
    plaintext := [
        0x54, 0x65, 0x73, 0x74, 0x20, 0x55, 0x73, 0x69, 0x6e, 0x67, 0x20, 0x4c,
        0x61, 0x72, 0x67, 0x65, 0x72, 0x20, 0x54, 0x68, 0x61, 0x6e, 0x20, 0x42,
        0x6c, 0x6f, 0x63, 0x6b, 0x2d, 0x53, 0x69, 0x7a, 0x65, 0x20, 0x4b, 0x65,
        0x79, 0x20, 0x2d, 0x20, 0x48, 0x61, 0x73, 0x68, 0x20, 0x4b, 0x65, 0x79,
        0x20, 0x46, 0x69, 0x72, 0x73, 0x74],
    psize := 54,
    digest := [
        0xaa, 0x4a, 0xe5, 0xe1, 0x52, 0x72, 0xd0, 0x0e, 0x95, 0x70, 0x56, 0x37,
        0xce, 0x8a, 0x3b, 0x55, 0xed, 0x40, 0x21, 0x12] },
  { key := [
        0xaa, 0xaa, 0xaa, 0xaa, 0xaa, 0xaa, 0xaa, 0xaa, 0xaa, 0xaa, 0xaa, 0xaa,
        0xaa, 0xaa, 0xaa, 0xaa, 0xaa, 0xaa, 0xaa, 0xaa, 0xaa, 0xaa, 0xaa, 0xaa,
        0xaa, 0xaa, 0xaa, 0xaa, 0xaa, 0xaa, 0xaa, 0xaa, 0xaa, 0xaa, 0xaa, 0xaa,
        0xaa, 0xaa, 0xaa, 0xaa, 0xaa, 0xaa, 0xaa, 0xaa, 0xaa, 0xaa, 0xaa, 0xaa,
        0xaa, 0xaa, 0xaa, 0xaa, 0xaa, 0xaa, 0xaa, 0xaa, 0xaa, 0xaa, 0xaa, 0xaa,
        0xaa, 0xaa, 0xaa, 0xaa, 0xaa, 0xaa, 0xaa, 0xaa, 0xaa, 0xaa, 0xaa, 0xaa,
        0xaa, 0xaa, 0xaa, 0xaa, 0xaa, 0xaa, 0xaa, 0xaa],
    ksize := 80,
    plaintext := [
        0x54, 0x65, 0x73, 0x74, 0x20, 0x55, 0x73, 0x69, 0x6e, 0x67, 0x20, 0x4c,
        0x61, 0x72, 0x67, 0x65, 0x72, 0x20, 0x54, 0x68, 0x61, 0x6e, 0x20, 0x42,
        0x6c, 0x6f, 0x63, 0x6b, 0x2d, 0x53, 0x69, 0x7a, 0x65, 0x20, 0x4b, 0x65,
        0x79, 0x20, 0x61, 0x6e, 0x64, 0x20, 0x4c, 0x61, 0x72, 0x67, 0x65, 0x72,
        0x20, 0x54, 0x68, 0x61, 0x6e, 0x20, 0x4f, 0x6e, 0x65, 0x20, 0x42, 0x6c,
        0x6f, 0x63, 0x6b, 0x2d, 0x53, 0x69, 0x7a, 0x65, 0x20, 0x44, 0x61, 0x74,
        0x61],
    psize := 73,
    digest := [
        0xe8, 0xe9, 0x9d, 0x0f, 0x45, 0x23, 0x7d, 0x78, 0x6d, 0x6b, 0xba, 0xa7,
        0x96, 0x5c, 0x78, 0x08, 0xbb, 0xff, 0x1a, 0x91] } ]

/-- The table `moto_hmac_sha224_tv_template` of the source. -/
def moto_hmac_sha224_tv_template : List moto_hash_testvec := [
  { key := [
        0x0b, 0x0b, 0x0b, 0x0b, 0x0b, 0x0b, 0x0b, 0x0b, 0x0b, 0x0b, 0x0b, 0x0b,
        0x0b, 0x0b, 0x0b, 0x0b, 0x0b, 0x0b, 0x0b, 0x0b],
    ksize := 20,
    plaintext := [0x48, 0x69, 0x20, 0x54, 0x68, 0x65, 0x72, 0x65],
    psize := 8,
    digest := [
        0x89, 0x6f, 0xb1, 0x12, 0x8a, 0xbb, 0xdf, 0x19, 0x68, 0x32, 0x10, 0x7c,
        0xd4, 0x9d, 0xf3, 0x3f, 0x47, 0xb4, 0xb1, 0x16, 0x99, 0x12, 0xba, 0x4f,
        0x53, 0x68, 0x4b, 0x22] },
  { key := [0x4a, 0x65, 0x66, 0x65],
    ksize := 4,
    plaintext := [
        0x77, 0x68, 0x61, 0x74, 0x20, 0x64, 0x6f, 0x20, 0x79, 0x61, 0x20, 0x77,
        0x61, 0x6e, 0x74, 0x20, 0x66, 0x6f, 0x72, 0x20, 0x6e, 0x6f, 0x74, 0x68,
        0x69, 0x6e, 0x67, 0x3f],
    psize := 28,
    digest := [
        0xa3, 0x0e, 0x01, 0x09, 0x8b, 0xc6, 0xdb, 0xbf, 0x45, 0x69, 0x0f, 0x3a,
        0x7e, 0x9e, 0x6d, 0x0f, 0x8b, 0xbe, 0xa2, 0xa3, 0x9e, 0x61, 0x48, 0x00,
        0x8f, 0xd0, 0x5e, 0x44],
    np := 4,
    tap := [7, 7, 7, 7] },
  { key := [
        0xaa, 0xaa, 0xaa, 0xaa, 0xaa, 0xaa, 0xaa, 0xaa, 0xaa, 0xaa, 0xaa, 0xaa,
        0xaa, 0xaa, 0xaa, 0xaa, 0xaa, 0xaa, 0xaa, 0xaa, 0xaa, 0xaa, 0xaa, 0xaa,
        0xaa, 0xaa, 0xaa, 0xaa, 0xaa, 0xaa, 0xaa, 0xaa, 0xaa, 0xaa, 0xaa, 0xaa,
        0xaa, 0xaa, 0xaa, 0xaa, 0xaa, 0xaa, 0xaa, 0xaa, 0xaa, 0xaa, 0xaa, 0xaa,
        0xaa, 0xaa, 0xaa, 0xaa, 0xaa, 0xaa, 0xaa, 0xaa, 0xaa, 0xaa, 0xaa, 0xaa,
        0xaa, 0xaa, 0xaa, 0xaa, 0xaa, 0xaa, 0xaa, 0xaa, 0xaa, 0xaa, 0xaa, 0xaa,
        0xaa, 0xaa, 0xaa, 0xaa, 0xaa, 0xaa, 0xaa, 0xaa, 0xaa, 0xaa, 0xaa, 0xaa,
        0xaa, 0xaa, 0xaa, 0xaa, 0xaa, 0xaa, 0xaa, 0xaa, 0xaa, 0xaa, 0xaa, 0xaa,
        0xaa, 0xaa, 0xaa, 0xaa, 0xaa, 0xaa, 0xaa, 0xaa, 0xaa, 0xaa, 0xaa, 0xaa,
        0xaa, 0xaa, 0xaa, 0xaa, 0xaa, 0xaa, 0xaa, 0xaa, 0xaa, 0xaa, 0xaa, 0xaa,
        0xaa, 0xaa, 0xaa, 0xaa, 0xaa, 0xaa, 0xaa, 0xaa, 0xaa, 0xaa, 0xaa],
    ksize := 131,
    plaintext := [
        0x54, 0x65, 0x73, 0x74, 0x20, 0x55, 0x73, 0x69, 0x6e, 0x67, 0x20, 0x4c,
        0x61, 0x72, 0x67, 0x65, 0x72, 0x20, 0x54, 0x68, 0x61, 0x6e, 0x20, 0x42,
        0x6c, 0x6f, 0x63, 0x6b, 0x2d, 0x53, 0x69, 0x7a, 0x65, 0x20, 0x4b, 0x65,
        0x79, 0x20, 0x2d, 0x20, 0x48, 0x61, 0x73, 0x68, 0x20, 0x4b, 0x65, 0x79,
        0x20, 0x46, 0x69, 0x72, 0x73, 0x74],
    psize := 54,
    digest := [
        0x95, 0xe9, 0xa0, 0xdb, 0x96, 0x20, 0x95, 0xad, 0xae, 0xbe, 0x9b, 0x2d,
        0x6f, 0x0d, 0xbc, 0xe2, 0xd4, 0x99, 0xf1, 0x12, 0xf2, 0xd2, 0xb7, 0x27,
        0x3f, 0xa6, 0x87, 0x0e] },
  { key := [
        0xaa, 0xaa, 0xaa, 0xaa, 0xaa, 0xaa, 0xaa, 0xaa, 0xaa, 0xaa, 0xaa, 0xaa,
        0xaa, 0xaa, 0xaa, 0xaa, 0xaa, 0xaa, 0xaa, 0xaa, 0xaa, 0xaa, 0xaa, 0xaa,
        0xaa, 0xaa, 0xaa, 0xaa, 0xaa, 0xaa, 0xaa, 0xaa, 0xaa, 0xaa, 0xaa, 0xaa,
        0xaa, 0xaa, 0xaa, 0xaa, 0xaa, 0xaa, 0xaa, 0xaa, 0xaa, 0xaa, 0xaa, 0xaa,
        0xaa, 0xaa, 0xaa, 0xaa, 0xaa, 0xaa, 0xaa, 0xaa, 0xaa, 0xaa, 0xaa, 0xaa,
        0xaa, 0xaa, 0xaa, 0xaa, 0xaa, 0xaa, 0xaa, 0xaa, 0xaa, 0xaa, 0xaa, 0xaa,
        0xaa, 0xaa, 0xaa, 0xaa, 0xaa, 0xaa, 0xaa, 0xaa, 0xaa, 0xaa, 0xaa, 0xaa,
        0xaa, 0xaa, 0xaa, 0xaa, 0xaa, 0xaa, 0xaa, 0xaa, 0xaa, 0xaa, 0xaa, 0xaa,
        0xaa, 0xaa, 0xaa, 0xaa, 0xaa, 0xaa, 0xaa, 0xaa, 0xaa, 0xaa, 0xaa, 0xaa,
        0xaa, 0xaa, 0xaa, 0xaa, 0xaa, 0xaa, 0xaa, 0xaa, 0xaa, 0xaa, 0xaa, 0xaa,
        0xaa, 0xaa, 0xaa, 0xaa, 0xaa, 0xaa, 0xaa, 0xaa, 0xaa, 0xaa, 0xaa],
    ksize := 131,
    plaintext := [
        0x54, 0x68, 0x69, 0x73, 0x20, 0x69, 0x73, 0x20, 0x61, 0x20, 0x74, 0x65,
        0x73, 0x74, 0x20, 0x75, 0x73, 0x69, 0x6e, 0x67, 0x20, 0x61, 0x20, 0x6c,
        0x61, 0x72, 0x67, 0x65, 0x72, 0x20, 0x74, 0x68, 0x61, 0x6e, 0x20, 0x62,
        0x6c, 0x6f, 0x63, 0x6b, 0x2d, 0x73, 0x69, 0x7a, 0x65, 0x20, 0x6b, 0x65,
        0x79, 0x20, 0x61, 0x6e, 0x64, 0x20, 0x61, 0x20, 0x6c, 0x61, 0x72, 0x67,
        0x65, 0x72, 0x20, 0x74, 0x68, 0x61, 0x6e, 0x20, 0x62, 0x6c, 0x6f, 0x63,
        0x6b, 0x2d, 0x73, 0x69, 0x7a, 0x65, 0x20, 0x64, 0x61, 0x74, 0x61, 0x2e,
        0x20, 0x54, 0x68, 0x65, 0x20, 0x6b, 0x65, 0x79, 0x20, 0x6e, 0x65, 0x65,
        0x64, 0x73, 0x20, 0x74, 0x6f, 0x20, 0x62, 0x65, 0x20, 0x68, 0x61, 0x73,
        0x68, 0x65, 0x64, 0x20, 0x62, 0x65, 0x66, 0x6f, 0x72, 0x65, 0x20, 0x62,
        0x65, 0x69, 0x6e, 0x67, 0x20, 0x75, 0x73, 0x65, 0x64, 0x20, 0x62, 0x79,
        0x20, 0x74, 0x68, 0x65, 0x20, 0x48, 0x4d, 0x41, 0x43, 0x20, 0x61, 0x6c,
        0x67, 0x6f, 0x72, 0x69, 0x74, 0x68, 0x6d, 0x2e],
    psize := 152,
    digest := [
        0x3a, 0x85, 0x41, 0x66, 0xac, 0x5d, 0x9f, 0x02, 0x3f, 0x54, 0xd5, 0x17,
        0xd0, 0xb3, 0x9d, 0xbd, 0x94, 0x67, 0x70, 0xdb, 0x9c, 0x2b, 0x95, 0xc9,
        0xf6, 0xf5, 0x65, 0xd1] } ]

/-- The table `moto_hmac_sha256_tv_template` of the source. -/
def moto_hmac_sha256_tv_template : List moto_hash_testvec := [
  { key := [
        0x01, 0x02, 0x03, 0x04, 0x05, 0x06, 0x07, 0x08, 0x09, 0x0a, 0x0b, 0x0c,
        0x0d, 0x0e, 0x0f, 0x10, 0x11, 0x12, 0x13, 0x14, 0x15, 0x16, 0x17, 0x18,
        0x19, 0x1a, 0x1b, 0x1c, 0x1d, 0x1e, 0x1f, 0x20],
    ksize := 32,
    plaintext := [0x61, 0x62, 0x63],
    psize := 3,
    digest := [
        0xa2, 0x1b, 0x1f, 0x5d, 0x4c, 0xf4, 0xf7, 0x3a, 0x4d, 0xd9, 0x39, 0x75,
        0x0f, 0x7a, 0x06, 0x6a, 0x7f, 0x98, 0xcc, 0x13, 0x1c, 0xb1, 0x6a, 0x66,
        0x92, 0x75, 0x90, 0x21, 0xcf, 0xab, 0x81, 0x81] },
  { key := [
        0x01, 0x02, 0x03, 0x04, 0x05, 0x06, 0x07, 0x08, 0x09, 0x0a, 0x0b, 0x0c,
        0x0d, 0x0e, 0x0f, 0x10, 0x11, 0x12, 0x13, 0x14, 0x15, 0x16, 0x17, 0x18,
        0x19, 0x1a, 0x1b, 0x1c, 0x1d, 0x1e, 0x1f, 0x20],
    ksize := 32,
    plaintext := [
        0x61, 0x62, 0x63, 0x64, 0x62, 0x63, 0x64, 0x65, 0x63, 0x64, 0x65, 0x66,
        0x64, 0x65, 0x66, 0x67, 0x65, 0x66, 0x67, 0x68, 0x66, 0x67, 0x68, 0x69,
        0x67, 0x68, 0x69, 0x6a, 0x68, 0x69, 0x6a, 0x6b, 0x69, 0x6a, 0x6b, 0x6c,
        0x6a, 0x6b, 0x6c, 0x6d, 0x6b, 0x6c, 0x6d, 0x6e, 0x6c, 0x6d, 0x6e, 0x6f,
        0x6d, 0x6e, 0x6f, 0x70, 0x6e, 0x6f, 0x70, 0x71],
    psize := 56,
    digest := [
        0x10, 0x4f, 0xdc, 0x12, 0x57, 0x32, 0x8f, 0x08, 0x18, 0x4b, 0xa7, 0x31,
        0x31, 0xc5, 0x3c, 0xae, 0xe6, 0x98, 0xe3, 0x61, 0x19, 0x42, 0x11, 0x49,
        0xea, 0x8c, 0x71, 0x24, 0x56, 0x69, 0x7d, 0x30] },
  { key := [
        0x01, 0x02, 0x03, 0x04, 0x05, 0x06, 0x07, 0x08, 0x09, 0x0a, 0x0b, 0x0c,
        0x0d, 0x0e, 0x0f, 0x10, 0x11, 0x12, 0x13, 0x14, 0x15, 0x16, 0x17, 0x18,
        0x19, 0x1a, 0x1b, 0x1c, 0x1d, 0x1e, 0x1f, 0x20],
    ksize := 32,
    plaintext := [
        0x61, 0x62, 0x63, 0x64, 0x62, 0x63, 0x64, 0x65, 0x63, 0x64, 0x65, 0x66,
        0x64, 0x65, 0x66, 0x67, 0x65, 0x66, 0x67, 0x68, 0x66, 0x67, 0x68, 0x69,
        0x67, 0x68, 0x69, 0x6a, 0x68, 0x69, 0x6a, 0x6b, 0x69, 0x6a, 0x6b, 0x6c,
        0x6a, 0x6b, 0x6c, 0x6d, 0x6b, 0x6c, 0x6d, 0x6e, 0x6c, 0x6d, 0x6e, 0x6f,
        0x6d, 0x6e, 0x6f, 0x70, 0x6e, 0x6f, 0x70, 0x71, 0x61, 0x62, 0x63, 0x64,
        0x62, 0x63, 0x64, 0x65, 0x63, 0x64, 0x65, 0x66, 0x64, 0x65, 0x66, 0x67,
        0x65, 0x66, 0x67, 0x68, 0x66, 0x67, 0x68, 0x69, 0x67, 0x68, 0x69, 0x6a,
        0x68, 0x69, 0x6a, 0x6b, 0x69, 0x6a, 0x6b, 0x6c, 0x6a, 0x6b, 0x6c, 0x6d,
        0x6b, 0x6c, 0x6d, 0x6e, 0x6c, 0x6d, 0x6e, 0x6f, 0x6d, 0x6e, 0x6f, 0x70,
        0x6e, 0x6f, 0x70, 0x71],
    psize := 112,
    digest := [
        0x47, 0x03, 0x05, 0xfc, 0x7e, 0x40, 0xfe, 0x34, 0xd3, 0xee, 0xb3, 0xe7,
        0x73, 0xd9, 0x5a, 0xab, 0x73, 0xac, 0xf0, 0xfd, 0x06, 0x04, 0x47, 0xa5,
        0xeb, 0x45, 0x95, 0xbf, 0x33, 0xa9, 0xd1, 0xa3] },
  { key := [
        0x0b, 0x0b, 0x0b, 0x0b, 0x0b, 0x0b, 0x0b, 0x0b, 0x0b, 0x0b, 0x0b, 0x0b,
        0x0b, 0x0b, 0x0b, 0x0b, 0x0b, 0x0b, 0x0b, 0x0b, 0x0b, 0x0b, 0x0b, 0x0b,
        0x0b, 0x0b, 0x0b, 0x0b, 0x0b, 0x0b, 0x0b, 0x0b],
    ksize := 32,
    plaintext := [0x48, 0x69, 0x20, 0x54, 0x68, 0x65, 0x72, 0x65],
    psize := 8,
    digest := [
        0x19, 0x8a, 0x60, 0x7e, 0xb4, 0x4b, 0xfb, 0xc6, 0x99, 0x03, 0xa0, 0xf1,
        0xcf, 0x2b, 0xbd, 0xc5, 0xba, 0x0a, 0xa3, 0xf3, 0xd9, 0xae, 0x3c, 0x1c,
        0x7a, 0x3b, 0x16, 0x96, 0xa0, 0xb6, 0x8c, 0xf7] },
  { key := [0x4a, 0x65, 0x66, 0x65],
    ksize := 4,
    plaintext := [
        0x77, 0x68, 0x61, 0x74, 0x20, 0x64, 0x6f, 0x20, 0x79, 0x61, 0x20, 0x77,
        0x61, 0x6e, 0x74, 0x20, 0x66, 0x6f, 0x72, 0x20, 0x6e, 0x6f, 0x74, 0x68,
        0x69, 0x6e, 0x67, 0x3f],
    psize := 28,
    digest := [
        0x5b, 0xdc, 0xc1, 0x46, 0xbf, 0x60, 0x75, 0x4e, 0x6a, 0x04, 0x24, 0x26,
        0x08, 0x95, 0x75, 0xc7, 0x5a, 0x00, 0x3f, 0x08, 0x9d, 0x27, 0x39, 0x83,
        0x9d, 0xec, 0x58, 0xb9, 0x64, 0xec, 0x38, 0x43],
    np := 2,
    tap := [14, 14] },
  { key := [
        0xaa, 0xaa, 0xaa, 0xaa, 0xaa, 0xaa, 0xaa, 0xaa, 0xaa, 0xaa, 0xaa, 0xaa,
        0xaa, 0xaa, 0xaa, 0xaa, 0xaa, 0xaa, 0xaa, 0xaa, 0xaa, 0xaa, 0xaa, 0xaa,
        0xaa, 0xaa, 0xaa, 0xaa, 0xaa, 0xaa, 0xaa, 0xaa],
    ksize := 32,
    plaintext := [
        0xdd, 0xdd, 0xdd, 0xdd, 0xdd, 0xdd, 0xdd, 0xdd, 0xdd, 0xdd, 0xdd, 0xdd,
        0xdd, 0xdd, 0xdd, 0xdd, 0xdd, 0xdd, 0xdd, 0xdd, 0xdd, 0xdd, 0xdd, 0xdd,
        0xdd, 0xdd, 0xdd, 0xdd, 0xdd, 0xdd, 0xdd, 0xdd, 0xdd, 0xdd, 0xdd, 0xdd,
        0xdd, 0xdd, 0xdd, 0xdd, 0xdd, 0xdd, 0xdd, 0xdd, 0xdd, 0xdd, 0xdd, 0xdd,
        0xdd, 0xdd],
    psize := 50,
    digest := [
        0xcd, 0xcb, 0x12, 0x20, 0xd1, 0xec, 0xcc, 0xea, 0x91, 0xe5, 0x3a, 0xba,
        0x30, 0x92, 0xf9, 0x62, 0xe5, 0x49, 0xfe, 0x6c, 0xe9, 0xed, 0x7f, 0xdc,
        0x43, 0x19, 0x1f, 0xbd, 0xe4, 0x5c, 0x30, 0xb0] },
  { key := [
        0x01, 0x02, 0x03, 0x04, 0x05, 0x06, 0x07, 0x08, 0x09, 0x0a, 0x0b, 0x0c,
        0x0d, 0x0e, 0x0f, 0x10, 0x11, 0x12, 0x13, 0x14, 0x15, 0x16, 0x17, 0x18,
        0x19, 0x1a, 0x1b, 0x1c, 0x1d, 0x1e, 0x1f, 0x20, 0x21, 0x22, 0x23, 0x24,
        0x25],
    ksize := 37,
    plaintext := [
        0xcd, 0xcd, 0xcd, 0xcd, 0xcd, 0xcd, 0xcd, 0xcd, 0xcd, 0xcd, 0xcd, 0xcd,
        0xcd, 0xcd, 0xcd, 0xcd, 0xcd, 0xcd, 0xcd, 0xcd, 0xcd, 0xcd, 0xcd, 0xcd,
        0xcd, 0xcd, 0xcd, 0xcd, 0xcd, 0xcd, 0xcd, 0xcd, 0xcd, 0xcd, 0xcd, 0xcd,
        0xcd, 0xcd, 0xcd, 0xcd, 0xcd, 0xcd, 0xcd, 0xcd, 0xcd, 0xcd, 0xcd, 0xcd,
        0xcd, 0xcd],
    psize := 50,
    digest := [
        0xd4, 0x63, 0x3c, 0x17, 0xf6, 0xfb, 0x8d, 0x74, 0x4c, 0x66, 0xde, 0xe0,
        0xf8, 0xf0, 0x74, 0x55, 0x6e, 0xc4, 0xaf, 0x55, 0xef, 0x07, 0x99, 0x85,
        0x41, 0x46, 0x8e, 0xb4, 0x9b, 0xd2, 0xe9, 0x17] },
  { key := [
        0x0c, 0x0c, 0x0c, 0x0c, 0x0c, 0x0c, 0x0c, 0x0c, 0x0c, 0x0c, 0x0c, 0x0c,
        0x0c, 0x0c, 0x0c, 0x0c, 0x0c, 0x0c, 0x0c, 0x0c, 0x0c, 0x0c, 0x0c, 0x0c,
        0x0c, 0x0c, 0x0c, 0x0c, 0x0c, 0x0c, 0x0c, 0x0c],
    ksize := 32,
    plaintext := [
        0x54, 0x65, 0x73, 0x74, 0x20, 0x57, 0x69, 0x74, 0x68, 0x20, 0x54, 0x72,
        0x75, 0x6e, 0x63, 0x61, 0x74, 0x69, 0x6f, 0x6e],
    psize := 20,
    digest := [
        0x75, 0x46, 0xaf, 0x01, 0x84, 0x1f, 0xc0, 0x9b, 0x1a, 0xb9, 0xc3, 0x74,
        0x9a, 0x5f, 0x1c, 0x17, 0xd4, 0xf5, 0x89, 0x66, 0x8a, 0x58, 0x7b, 0x27,
        0x00, 0xa9, 0xc9, 0x7c, 0x11, 0x93, 0xcf, 0x42] },
  { key := [
        0xaa, 0xaa, 0xaa, 0xaa, 0xaa, 0xaa, 0xaa, 0xaa, 0xaa, 0xaa, 0xaa, 0xaa,
        0xaa, 0xaa, 0xaa, 0xaa, 0xaa, 0xaa, 0xaa, 0xaa, 0xaa, 0xaa, 0xaa, 0xaa,
        0xaa, 0xaa, 0xaa, 0xaa, 0xaa, 0xaa, 0xaa, 0xaa, 0xaa, 0xaa, 0xaa, 0xaa,
        0xaa, 0xaa, 0xaa, 0xaa, 0xaa, 0xaa, 0xaa, 0xaa, 0xaa, 0xaa, 0xaa, 0xaa,
        0xaa, 0xaa, 0xaa, 0xaa, 0xaa, 0xaa, 0xaa, 0xaa, 0xaa, 0xaa, 0xaa, 0xaa,
        0xaa, 0xaa, 0xaa, 0xaa, 0xaa, 0xaa, 0xaa, 0xaa, 0xaa, 0xaa, 0xaa, 0xaa,
        0xaa, 0xaa, 0xaa, 0xaa, 0xaa, 0xaa, 0xaa, 0xaa],
    ksize := 80,
    plaintext := [
        0x54, 0x65, 0x73, 0x74, 0x20, 0x55, 0x73, 0x69, 0x6e, 0x67, 0x20, 0x4c,
        0x61, 0x72, 0x67, 0x65, 0x72, 0x20, 0x54, 0x68, 0x61, 0x6e, 0x20, 0x42,
        0x6c, 0x6f, 0x63, 0x6b, 0x2d, 0x53, 0x69, 0x7a, 0x65, 0x20, 0x4b, 0x65,
        0x79, 0x20, 0x2d, 0x20, 0x48, 0x61, 0x73, 0x68, 0x20, 0x4b, 0x65, 0x79,
        0x20, 0x46, 0x69, 0x72, 0x73, 0x74],
    psize := 54,
    digest := [
        0x69, 0x53, 0x02, 0x5e, 0xd9, 0x6f, 0x0c, 0x09, 0xf8, 0x0a, 0x96, 0xf7,
        0x8e, 0x65, 0x38, 0xdb, 0xe2, 0xe7, 0xb8, 0x20, 0xe3, 0xdd, 0x97, 0x0e,
        0x7d, 0xdd, 0x39, 0x09, 0x1b, 0x32, 0x35, 0x2f] },
  { key := [
        0xaa, 0xaa, 0xaa, 0xaa, 0xaa, 0xaa, 0xaa, 0xaa, 0xaa, 0xaa, 0xaa, 0xaa,
        0xaa, 0xaa, 0xaa, 0xaa, 0xaa, 0xaa, 0xaa, 0xaa, 0xaa, 0xaa, 0xaa, 0xaa,
        0xaa, 0xaa, 0xaa, 0xaa, 0xaa, 0xaa, 0xaa, 0xaa, 0xaa, 0xaa, 0xaa, 0xaa,
        0xaa, 0xaa, 0xaa, 0xaa, 0xaa, 0xaa, 0xaa, 0xaa, 0xaa, 0xaa, 0xaa, 0xaa,
        0xaa, 0xaa, 0xaa, 0xaa, 0xaa, 0xaa, 0xaa, 0xaa, 0xaa, 0xaa, 0xaa, 0xaa,
        0xaa, 0xaa, 0xaa, 0xaa, 0xaa, 0xaa, 0xaa, 0xaa, 0xaa, 0xaa, 0xaa, 0xaa,
        0xaa, 0xaa, 0xaa, 0xaa, 0xaa, 0xaa, 0xaa, 0xaa],
    ksize := 80,
    plaintext := [
        0x54, 0x65, 0x73, 0x74, 0x20, 0x55, 0x73, 0x69, 0x6e, 0x67, 0x20, 0x4c,
        0x61, 0x72, 0x67, 0x65, 0x72, 0x20, 0x54, 0x68, 0x61, 0x6e, 0x20, 0x42,
        0x6c, 0x6f, 0x63, 0x6b, 0x2d, 0x53, 0x69, 0x7a, 0x65, 0x20, 0x4b, 0x65,
        0x79, 0x20, 0x61, 0x6e, 0x64, 0x20, 0x4c, 0x61, 0x72, 0x67, 0x65, 0x72,
        0x20, 0x54, 0x68, 0x61, 0x6e, 0x20, 0x4f, 0x6e, 0x65, 0x20, 0x42, 0x6c,
        0x6f, 0x63, 0x6b, 0x2d, 0x53, 0x69, 0x7a, 0x65, 0x20, 0x44, 0x61, 0x74,
        0x61],
    psize := 73,
    digest := [
        0x63, 0x55, 0xac, 0x22, 0xe8, 0x90, 0xd0, 0xa3, 0xc8, 0x48, 0x1a, 0x5c,
        0xa4, 0x82, 0x5b, 0xc8, 0x84, 0xd3, 0xe7, 0xa1, 0xff, 0x98, 0xa2, 0xfc,
        0x2a, 0xc7, 0xd8, 0xe0, 0x64, 0xc3, 0xb2, 0xe6] } ]

/-- The table `moto_hmac_sha384_tv_template` of the source. -/
def moto_hmac_sha384_tv_template : List moto_hash_testvec := [
  { key := [
        0x0b, 0x0b, 0x0b, 0x0b, 0x0b, 0x0b, 0x0b, 0x0b, 0x0b, 0x0b, 0x0b, 0x0b,
        0x0b, 0x0b, 0x0b, 0x0b, 0x0b, 0x0b, 0x0b, 0x0b],
    ksize := 20,
    plaintext := [0x48, 0x69, 0x20, 0x54, 0x68, 0x65, 0x72, 0x65],
    psize := 8,
    digest := [
        0xaf, 0xd0, 0x39, 0x44, 0xd8, 0x48, 0x95, 0x62, 0x6b, 0x08, 0x25, 0xf4,
        0xab, 0x46, 0x90, 0x7f, 0x15, 0xf9, 0xda, 0xdb, 0xe4, 0x10, 0x1e, 0xc6,
        0x82, 0xaa, 0x03, 0x4c, 0x7c, 0xeb, 0xc5, 0x9c, 0xfa, 0xea, 0x9e, 0xa9,
        0x07, 0x6e, 0xde, 0x7f, 0x4a, 0xf1, 0x52, 0xe8, 0xb2, 0xfa, 0x9c, 0xb6] },
  { key := [0x4a, 0x65, 0x66, 0x65],
    ksize := 4,
    plaintext := [
        0x77, 0x68, 0x61, 0x74, 0x20, 0x64, 0x6f, 0x20, 0x79, 0x61, 0x20, 0x77,
        0x61, 0x6e, 0x74, 0x20, 0x66, 0x6f, 0x72, 0x20, 0x6e, 0x6f, 0x74, 0x68,
        0x69, 0x6e, 0x67, 0x3f],
    psize := 28,
    digest := [
        0xaf, 0x45, 0xd2, 0xe3, 0x76, 0x48, 0x40, 0x31, 0x61, 0x7f, 0x78, 0xd2,
        0xb5, 0x8a, 0x6b, 0x1b, 0x9c, 0x7e, 0xf4, 0x64, 0xf5, 0xa0, 0x1b, 0x47,
        0xe4, 0x2e, 0xc3, 0x73, 0x63, 0x22, 0x44, 0x5e, 0x8e, 0x22, 0x40, 0xca,
        0x5e, 0x69, 0xe2, 0xc7, 0x8b, 0x32, 0x39, 0xec, 0xfa, 0xb2, 0x16, 0x49],
    np := 4,
    tap := [7, 7, 7, 7] },
  { key := [
        0xaa, 0xaa, 0xaa, 0xaa, 0xaa, 0xaa, 0xaa, 0xaa, 0xaa, 0xaa, 0xaa, 0xaa,
        0xaa, 0xaa, 0xaa, 0xaa, 0xaa, 0xaa, 0xaa, 0xaa, 0xaa, 0xaa, 0xaa, 0xaa,
        0xaa, 0xaa, 0xaa, 0xaa, 0xaa, 0xaa, 0xaa, 0xaa, 0xaa, 0xaa, 0xaa, 0xaa,
        0xaa, 0xaa, 0xaa, 0xaa, 0xaa, 0xaa, 0xaa, 0xaa, 0xaa, 0xaa, 0xaa, 0xaa,
        0xaa, 0xaa, 0xaa, 0xaa, 0xaa, 0xaa, 0xaa, 0xaa, 0xaa, 0xaa, 0xaa, 0xaa,
        0xaa, 0xaa, 0xaa, 0xaa, 0xaa, 0xaa, 0xaa, 0xaa, 0xaa, 0xaa, 0xaa, 0xaa,
        0xaa, 0xaa, 0xaa, 0xaa, 0xaa, 0xaa, 0xaa, 0xaa, 0xaa, 0xaa, 0xaa, 0xaa,
        0xaa, 0xaa, 0xaa, 0xaa, 0xaa, 0xaa, 0xaa, 0xaa, 0xaa, 0xaa, 0xaa, 0xaa,
        0xaa, 0xaa, 0xaa, 0xaa, 0xaa, 0xaa, 0xaa, 0xaa, 0xaa, 0xaa, 0xaa, 0xaa,
        0xaa, 0xaa, 0xaa, 0xaa, 0xaa, 0xaa, 0xaa, 0xaa, 0xaa, 0xaa, 0xaa, 0xaa,
        0xaa, 0xaa, 0xaa, 0xaa, 0xaa, 0xaa, 0xaa, 0xaa, 0xaa, 0xaa, 0xaa],
    ksize := 131,
    plaintext := [
        0x54, 0x65, 0x73, 0x74, 0x20, 0x55, 0x73, 0x69, 0x6e, 0x67, 0x20, 0x4c,
        0x61, 0x72, 0x67, 0x65, 0x72, 0x20, 0x54, 0x68, 0x61, 0x6e, 0x20, 0x42,
        0x6c, 0x6f, 0x63, 0x6b, 0x2d, 0x53, 0x69, 0x7a, 0x65, 0x20, 0x4b, 0x65,
        0x79, 0x20, 0x2d, 0x20, 0x48, 0x61, 0x73, 0x68, 0x20, 0x4b, 0x65, 0x79,
        0x20, 0x46, 0x69, 0x72, 0x73, 0x74],
    psize := 54,
    digest := [
        0x4e, 0xce, 0x08, 0x44, 0x85, 0x81, 0x3e, 0x90, 0x88, 0xd2, 0xc6, 0x3a,
        0x04, 0x1b, 0xc5, 0xb4, 0x4f, 0x9e, 0xf1, 0x01, 0x2a, 0x2b, 0x58, 0x8f,
        0x3c, 0xd1, 0x1f, 0x05, 0x03, 0x3a, 0xc4, 0xc6, 0x0c, 0x2e, 0xf6, 0xab,
        0x40, 0x30, 0xfe, 0x82, 0x96, 0x24, 0x8d, 0xf1, 0x63, 0xf4, 0x49, 0x52] },
  { key := [
        0xaa, 0xaa, 0xaa, 0xaa, 0xaa, 0xaa, 0xaa, 0xaa, 0xaa, 0xaa, 0xaa, 0xaa,
        0xaa, 0xaa, 0xaa, 0xaa, 0xaa, 0xaa, 0xaa, 0xaa, 0xaa, 0xaa, 0xaa, 0xaa,
        0xaa, 0xaa, 0xaa, 0xaa, 0xaa, 0xaa, 0xaa, 0xaa, 0xaa, 0xaa, 0xaa, 0xaa,
        0xaa, 0xaa, 0xaa, 0xaa, 0xaa, 0xaa, 0xaa, 0xaa, 0xaa, 0xaa, 0xaa, 0xaa,
        0xaa, 0xaa, 0xaa, 0xaa, 0xaa, 0xaa, 0xaa, 0xaa, 0xaa, 0xaa, 0xaa, 0xaa,
        0xaa, 0xaa, 0xaa, 0xaa, 0xaa, 0xaa, 0xaa, 0xaa, 0xaa, 0xaa, 0xaa, 0xaa,
        0xaa, 0xaa, 0xaa, 0xaa, 0xaa, 0xaa, 0xaa, 0xaa, 0xaa, 0xaa, 0xaa, 0xaa,
        0xaa, 0xaa, 0xaa, 0xaa, 0xaa, 0xaa, 0xaa, 0xaa, 0xaa, 0xaa, 0xaa, 0xaa,
        0xaa, 0xaa, 0xaa, 0xaa, 0xaa, 0xaa, 0xaa, 0xaa, 0xaa, 0xaa, 0xaa, 0xaa,
        0xaa, 0xaa, 0xaa, 0xaa, 0xaa, 0xaa, 0xaa, 0xaa, 0xaa, 0xaa, 0xaa, 0xaa,
        0xaa, 0xaa, 0xaa, 0xaa, 0xaa, 0xaa, 0xaa, 0xaa, 0xaa, 0xaa, 0xaa],
    ksize := 131,
    plaintext := [
        0x54, 0x68, 0x69, 0x73, 0x20, 0x69, 0x73, 0x20, 0x61, 0x20, 0x74, 0x65,
        0x73, 0x74, 0x20, 0x75, 0x73, 0x69, 0x6e, 0x67, 0x20, 0x61, 0x20, 0x6c,
        0x61, 0x72, 0x67, 0x65, 0x72, 0x20, 0x74, 0x68, 0x61, 0x6e, 0x20, 0x62,
        0x6c, 0x6f, 0x63, 0x6b, 0x2d, 0x73, 0x69, 0x7a, 0x65, 0x20, 0x6b, 0x65,
        0x79, 0x20, 0x61, 0x6e, 0x64, 0x20, 0x61, 0x20, 0x6c, 0x61, 0x72, 0x67,
        0x65, 0x72, 0x20, 0x74, 0x68, 0x61, 0x6e, 0x20, 0x62, 0x6c, 0x6f, 0x63,
        0x6b, 0x2d, 0x73, 0x69, 0x7a, 0x65, 0x20, 0x64, 0x61, 0x74, 0x61, 0x2e,
        0x20, 0x54, 0x68, 0x65, 0x20, 0x6b, 0x65, 0x79, 0x20, 0x6e, 0x65, 0x65,
        0x64, 0x73, 0x20, 0x74, 0x6f, 0x20, 0x62, 0x65, 0x20, 0x68, 0x61, 0x73,
        0x68, 0x65, 0x64, 0x20, 0x62, 0x65, 0x66, 0x6f, 0x72, 0x65, 0x20, 0x62,
        0x65, 0x69, 0x6e, 0x67, 0x20, 0x75, 0x73, 0x65, 0x64, 0x20, 0x62, 0x79,
        0x20, 0x74, 0x68, 0x65, 0x20, 0x48, 0x4d, 0x41, 0x43, 0x20, 0x61, 0x6c,
        0x67, 0x6f, 0x72, 0x69, 0x74, 0x68, 0x6d, 0x2e],
    psize := 152,
    digest := [
        0x66, 0x17, 0x17, 0x8e, 0x94, 0x1f, 0x02, 0x0d, 0x35, 0x1e, 0x2f, 0x25,
        0x4e, 0x8f, 0xd3, 0x2c, 0x60, 0x24, 0x20, 0xfe, 0xb0, 0xb8, 0xfb, 0x9a,
        0xdc, 0xce, 0xbb, 0x82, 0x46, 0x1e, 0x99, 0xc5, 0xa6, 0x78, 0xcc, 0x31,
        0xe7, 0x99, 0x17, 0x6d, 0x38, 0x60, 0xe6, 0x11, 0x0c, 0x46, 0x52, 0x3e] } ]

/-- The table `moto_hmac_sha512_tv_template` of the source. -/
def moto_hmac_sha512_tv_template : List moto_hash_testvec := [
  { key := [
        0x0b, 0x0b, 0x0b, 0x0b, 0x0b, 0x0b, 0x0b, 0x0b, 0x0b, 0x0b, 0x0b, 0x0b,
        0x0b, 0x0b, 0x0b, 0x0b, 0x0b, 0x0b, 0x0b, 0x0b],
    ksize := 20,
    plaintext := [0x48, 0x69, 0x20, 0x54, 0x68, 0x65, 0x72, 0x65],
    psize := 8,
    digest := [
        0x87, 0xaa, 0x7c, 0xde, 0xa5, 0xef, 0x61, 0x9d, 0x4f, 0xf0, 0xb4, 0x24,
        0x1a, 0x1d, 0x6c, 0xb0, 0x23, 0x79, 0xf4, 0xe2, 0xce, 0x4e, 0xc2, 0x78,
        0x7a, 0xd0, 0xb3, 0x05, 0x45, 0xe1, 0x7c, 0xde, 0xda, 0xa8, 0x33, 0xb7,
        0xd6, 0xb8, 0xa7, 0x02, 0x03, 0x8b, 0x27, 0x4e, 0xae, 0xa3, 0xf4, 0xe4,
        0xbe, 0x9d, 0x91, 0x4e, 0xeb, 0x61, 0xf1, 0x70, 0x2e, 0x69, 0x6c, 0x20,
        0x3a, 0x12, 0x68, 0x54] },
  { key := [0x4a, 0x65, 0x66, 0x65],
    ksize := 4,
    plaintext := [
        0x77, 0x68, 0x61, 0x74, 0x20, 0x64, 0x6f, 0x20, 0x79, 0x61, 0x20, 0x77,
        0x61, 0x6e, 0x74, 0x20, 0x66, 0x6f, 0x72, 0x20, 0x6e, 0x6f, 0x74, 0x68,
        0x69, 0x6e, 0x67, 0x3f],
    psize := 28,
    digest := [
        0x16, 0x4b, 0x7a, 0x7b, 0xfc, 0xf8, 0x19, 0xe2, 0xe3, 0x95, 0xfb, 0xe7,
        0x3b, 0x56, 0xe0, 0xa3, 0x87, 0xbd, 0x64, 0x22, 0x2e, 0x83, 0x1f, 0xd6,
        0x10, 0x27, 0x0c, 0xd7, 0xea, 0x25, 0x05, 0x54, 0x97, 0x58, 0xbf, 0x75,
        0xc0, 0x5a, 0x99, 0x4a, 0x6d, 0x03, 0x4f, 0x65, 0xf8, 0xf0, 0xe6, 0xfd,
        0xca, 0xea, 0xb1, 0xa3, 0x4d, 0x4a, 0x6b, 0x4b, 0x63, 0x6e, 0x07, 0x0a,
        0x38, 0xbc, 0xe7, 0x37],
    np := 4,
    tap := [7, 7, 7, 7] },
  { key := [
        0xaa, 0xaa, 0xaa, 0xaa, 0xaa, 0xaa, 0xaa, 0xaa, 0xaa, 0xaa, 0xaa, 0xaa,
        0xaa, 0xaa, 0xaa, 0xaa, 0xaa, 0xaa, 0xaa, 0xaa, 0xaa, 0xaa, 0xaa, 0xaa,
        0xaa, 0xaa, 0xaa, 0xaa, 0xaa, 0xaa, 0xaa, 0xaa, 0xaa, 0xaa, 0xaa, 0xaa,
        0xaa, 0xaa, 0xaa, 0xaa, 0xaa, 0xaa, 0xaa, 0xaa, 0xaa, 0xaa, 0xaa, 0xaa,
        0xaa, 0xaa, 0xaa, 0xaa, 0xaa, 0xaa, 0xaa, 0xaa, 0xaa, 0xaa, 0xaa, 0xaa,
        0xaa, 0xaa, 0xaa, 0xaa, 0xaa, 0xaa, 0xaa, 0xaa, 0xaa, 0xaa, 0xaa, 0xaa,
        0xaa, 0xaa, 0xaa, 0xaa, 0xaa, 0xaa, 0xaa, 0xaa, 0xaa, 0xaa, 0xaa, 0xaa,
        0xaa, 0xaa, 0xaa, 0xaa, 0xaa, 0xaa, 0xaa, 0xaa, 0xaa, 0xaa, 0xaa, 0xaa,
        0xaa, 0xaa, 0xaa, 0xaa, 0xaa, 0xaa, 0xaa, 0xaa, 0xaa, 0xaa, 0xaa, 0xaa,
        0xaa, 0xaa, 0xaa, 0xaa, 0xaa, 0xaa, 0xaa, 0xaa, 0xaa, 0xaa, 0xaa, 0xaa,
        0xaa, 0xaa, 0xaa, 0xaa, 0xaa, 0xaa, 0xaa, 0xaa, 0xaa, 0xaa, 0xaa],
    ksize := 131,
    plaintext := [
        0x54, 0x65, 0x73, 0x74, 0x20, 0x55, 0x73, 0x69, 0x6e, 0x67, 0x20, 0x4c,
        0x61, 0x72, 0x67, 0x65, 0x72, 0x20, 0x54, 0x68, 0x61, 0x6e, 0x20, 0x42,
        0x6c, 0x6f, 0x63, 0x6b, 0x2d, 0x53, 0x69, 0x7a, 0x65, 0x20, 0x4b, 0x65,
        0x79, 0x20, 0x2d, 0x20, 0x48, 0x61, 0x73, 0x68, 0x20, 0x4b, 0x65, 0x79,
        0x20, 0x46, 0x69, 0x72, 0x73, 0x74],
    psize := 54,
    digest := [
        0x80, 0xb2, 0x42, 0x63, 0xc7, 0xc1, 0xa3, 0xeb, 0xb7, 0x14, 0x93, 0xc1,
        0xdd, 0x7b, 0xe8, 0xb4, 0x9b, 0x46, 0xd1, 0xf4, 0x1b, 0x4a, 0xee, 0xc1,
        0x12, 0x1b, 0x01, 0x37, 0x83, 0xf8, 0xf3, 0x52, 0x6b, 0x56, 0xd0, 0x37,
        0xe0, 0x5f, 0x25, 0x98, 0xbd, 0x0f, 0xd2, 0x21, 0x5d, 0x6a, 0x1e, 0x52,
        0x95, 0xe6, 0x4f, 0x73, 0xf6, 0x3f, 0x0a, 0xec, 0x8b, 0x91, 0x5a, 0x98,
        0x5d, 0x78, 0x65, 0x98] },
  { key := [
        0xaa, 0xaa, 0xaa, 0xaa, 0xaa, 0xaa, 0xaa, 0xaa, 0xaa, 0xaa, 0xaa, 0xaa,
        0xaa, 0xaa, 0xaa, 0xaa, 0xaa, 0xaa, 0xaa, 0xaa, 0xaa, 0xaa, 0xaa, 0xaa,
        0xaa, 0xaa, 0xaa, 0xaa, 0xaa, 0xaa, 0xaa, 0xaa, 0xaa, 0xaa, 0xaa, 0xaa,
        0xaa, 0xaa, 0xaa, 0xaa, 0xaa, 0xaa, 0xaa, 0xaa, 0xaa, 0xaa, 0xaa, 0xaa,
        0xaa, 0xaa, 0xaa, 0xaa, 0xaa, 0xaa, 0xaa, 0xaa, 0xaa, 0xaa, 0xaa, 0xaa,
        0xaa, 0xaa, 0xaa, 0xaa, 0xaa, 0xaa, 0xaa, 0xaa, 0xaa, 0xaa, 0xaa, 0xaa,
        0xaa, 0xaa, 0xaa, 0xaa, 0xaa, 0xaa, 0xaa, 0xaa, 0xaa, 0xaa, 0xaa, 0xaa,
        0xaa, 0xaa, 0xaa, 0xaa, 0xaa, 0xaa, 0xaa, 0xaa, 0xaa, 0xaa, 0xaa, 0xaa,
        0xaa, 0xaa, 0xaa, 0xaa, 0xaa, 0xaa, 0xaa, 0xaa, 0xaa, 0xaa, 0xaa, 0xaa,
        0xaa, 0xaa, 0xaa, 0xaa, 0xaa, 0xaa, 0xaa, 0xaa, 0xaa, 0xaa, 0xaa, 0xaa,
        0xaa, 0xaa, 0xaa, 0xaa, 0xaa, 0xaa, 0xaa, 0xaa, 0xaa, 0xaa, 0xaa],
    ksize := 131,
    plaintext := [
        0x54, 0x68, 0x69, 0x73, 0x20, 0x69, 0x73, 0x20, 0x61, 0x20, 0x74, 0x65,
        0x73, 0x74, 0x20, 0x75, 0x73, 0x69, 0x6e, 0x67, 0x20, 0x61, 0x20, 0x6c,
        0x61, 0x72, 0x67, 0x65, 0x72, 0x20, 0x74, 0x68, 0x61, 0x6e, 0x20, 0x62,
        0x6c, 0x6f, 0x63, 0x6b, 0x2d, 0x73, 0x69, 0x7a, 0x65, 0x20, 0x6b, 0x65,
        0x79, 0x20, 0x61, 0x6e, 0x64, 0x20, 0x61, 0x20, 0x6c, 0x61, 0x72, 0x67,
        0x65, 0x72, 0x20, 0x74, 0x68, 0x61, 0x6e, 0x20, 0x62, 0x6c, 0x6f, 0x63,
        0x6b, 0x2d, 0x73, 0x69, 0x7a, 0x65, 0x20, 0x64, 0x61, 0x74, 0x61, 0x2e,
        0x20, 0x54, 0x68, 0x65, 0x20, 0x6b, 0x65, 0x79, 0x20, 0x6e, 0x65, 0x65,
        0x64, 0x73, 0x20, 0x74, 0x6f, 0x20, 0x62, 0x65, 0x20, 0x68, 0x61, 0x73,
        0x68, 0x65, 0x64, 0x20, 0x62, 0x65, 0x66, 0x6f, 0x72, 0x65, 0x20, 0x62,
        0x65, 0x69, 0x6e, 0x67, 0x20, 0x75, 0x73, 0x65, 0x64, 0x20, 0x62, 0x79,
        0x20, 0x74, 0x68, 0x65, 0x20, 0x48, 0x4d, 0x41, 0x43, 0x20, 0x61, 0x6c,
        0x67, 0x6f, 0x72, 0x69, 0x74, 0x68, 0x6d, 0x2e],
    psize := 152,
    digest := [
        0xe3, 0x7b, 0x6a, 0x77, 0x5d, 0xc8, 0x7d, 0xba, 0xa4, 0xdf, 0xa9, 0xf9,
        0x6e, 0x5e, 0x3f, 0xfd, 0xde, 0xbd, 0x71, 0xf8, 0x86, 0x72, 0x89, 0x86,
        0x5d, 0xf5, 0xa3, 0x2d, 0x20, 0xcd, 0xc9, 0x44, 0xb6, 0x02, 0x2c, 0xac,
        0x3c, 0x49, 0x82, 0xb1, 0x0d, 0x5e, 0xeb, 0x55, 0xc3, 0xe4, 0xde, 0x15,
        0x13, 0x46, 0x76, 0xfb, 0x6d, 0xe0, 0x44, 0x60, 0x65, 0xc9, 0x74, 0x40,
        0xfa, 0x8c, 0x6a, 0x58] } ]

/-- The table `moto_des3_ede_enc_tv_template` of the source. -/
def moto_des3_ede_enc_tv_template : List moto_cipher_testvec := [
  { key := [
        0x01, 0x23, 0x45, 0x67, 0x89, 0xab, 0xcd, 0xef, 0x55, 0x55, 0x55, 0x55,
        0x55, 0x55, 0x55, 0x55, 0xfe, 0xdc, 0xba, 0x98, 0x76, 0x54, 0x32, 0x10],
    klen := 24,
    input := [0x73, 0x6f, 0x6d, 0x65, 0x64, 0x61, 0x74, 0x61],
    ilen := 8,
    result := [0x18, 0xd7, 0x48, 0xe5, 0x63, 0x62, 0x05, 0x72],
    rlen := 8 },
  { key := [
        0x03, 0x52, 0x02, 0x07, 0x67, 0x20, 0x82, 0x17, 0x86, 0x02, 0x87, 0x66,
        0x59, 0x08, 0x21, 0x98, 0x64, 0x05, 0x6a, 0xbd, 0xfe, 0xa9, 0x34, 0x57],
    klen := 24,
    input := [0x73, 0x71, 0x75, 0x69, 0x67, 0x67, 0x6c, 0x65],
    ilen := 8,
    result := [0xc0, 0x7d, 0x2a, 0x0f, 0xa5, 0x66, 0xfa, 0x30],
    rlen := 8 },
  { key := [
        0x10, 0x46, 0x10, 0x34, 0x89, 0x98, 0x80, 0x20, 0x91, 0x07, 0xd0, 0x15,
        0x89, 0x19, 0x01, 0x01, 0x19, 0x07, 0x92, 0x10, 0x98, 0x1a, 0x01, 0x01],
    klen := 24,
    input := [0x00, 0x00, 0x00, 0x00, 0x00, 0x00, 0x00, 0x00],
    ilen := 8,
    result := [0xe1, 0xef, 0x62, 0xc3, 0x32, 0xfe, 0x82, 0x5b],
    rlen := 8 } ]

/-- The table `moto_des3_ede_dec_tv_template` of the source. -/
def moto_des3_ede_dec_tv_template : List moto_cipher_testvec := [
  { key := [
        0x01, 0x23, 0x45, 0x67, 0x89, 0xab, 0xcd, 0xef, 0x55, 0x55, 0x55, 0x55,
        0x55, 0x55, 0x55, 0x55, 0xfe, 0xdc, 0xba, 0x98, 0x76, 0x54, 0x32, 0x10],
    klen := 24,
    input := [0x18, 0xd7, 0x48, 0xe5, 0x63, 0x62, 0x05, 0x72],
    ilen := 8,
    result := [0x73, 0x6f, 0x6d, 0x65, 0x64, 0x61, 0x74, 0x61],
    rlen := 8 },
  { key := [
        0x03, 0x52, 0x02, 0x07, 0x67, 0x20, 0x82, 0x17, 0x86, 0x02, 0x87, 0x66,
        0x59, 0x08, 0x21, 0x98, 0x64, 0x05, 0x6a, 0xbd, 0xfe, 0xa9, 0x34, 0x57],
    klen := 24,
    input := [0xc0, 0x7d, 0x2a, 0x0f, 0xa5, 0x66, 0xfa, 0x30],
    ilen := 8,
    result := [0x73, 0x71, 0x75, 0x69, 0x67, 0x67, 0x6c, 0x65],
    rlen := 8 },
  { key := [
        0x10, 0x46, 0x10, 0x34, 0x89, 0x98, 0x80, 0x20, 0x91, 0x07, 0xd0, 0x15,
        0x89, 0x19, 0x01, 0x01, 0x19, 0x07, 0x92, 0x10, 0x98, 0x1a, 0x01, 0x01],
    klen := 24,
    input := [0xe1, 0xef, 0x62, 0xc3, 0x32, 0xfe, 0x82, 0x5b],
    ilen := 8,
    result := [0x00, 0x00, 0x00, 0x00, 0x00, 0x00, 0x00, 0x00],
    rlen := 8 } ]

/-- The table `moto_des3_ede_cbc_enc_tv_template` of the source. -/
def moto_des3_ede_cbc_enc_tv_template : List moto_cipher_testvec := [
  { key := [
        0xe9, 0xc0, 0xff, 0x2e, 0x76, 0x0b, 0x64, 0x24, 0x44, 0x4d, 0x99, 0x5a,
        0x12, 0xd6, 0x40, 0xc0, 0xea, 0xc2, 0x84, 0xe8, 0x14, 0x95, 0xdb, 0xe8],
    klen := 24,
    iv := some [0x7d, 0x33, 0x88, 0x93, 0x0f, 0x93, 0xb2, 0x42],
    input := [
        0x6f, 0x54, 0x20, 0x6f, 0x61, 0x4d, 0x79, 0x6e, 0x53, 0x20, 0x63, 0x65,
        0x65, 0x72, 0x73, 0x74, 0x54, 0x20, 0x6f, 0x6f, 0x4d, 0x20, 0x6e, 0x61,
        0x20, 0x79, 0x65, 0x53, 0x72, 0x63, 0x74, 0x65, 0x20, 0x73, 0x6f, 0x54,
        0x20, 0x6f, 0x61, 0x4d, 0x79, 0x6e, 0x53, 0x20, 0x63, 0x65, 0x65, 0x72,
        0x73, 0x74, 0x54, 0x20, 0x6f, 0x6f, 0x4d, 0x20, 0x6e, 0x61, 0x20, 0x79,
        0x65, 0x53, 0x72, 0x63, 0x74, 0x65, 0x20, 0x73, 0x6f, 0x54, 0x20, 0x6f,
        0x61, 0x4d, 0x79, 0x6e, 0x53, 0x20, 0x63, 0x65, 0x65, 0x72, 0x73, 0x74,
        0x54, 0x20, 0x6f, 0x6f, 0x4d, 0x20, 0x6e, 0x61, 0x20, 0x79, 0x65, 0x53,
        0x72, 0x63, 0x74, 0x65, 0x20, 0x73, 0x6f, 0x54, 0x20, 0x6f, 0x61, 0x4d,
        0x79, 0x6e, 0x53, 0x20, 0x63, 0x65, 0x65, 0x72, 0x73, 0x74, 0x54, 0x20,
        0x6f, 0x6f, 0x4d, 0x20, 0x6e, 0x61, 0x0a, 0x79],
    ilen := 128,
    result := [
        0x0e, 0x2d, 0xb6, 0x97, 0x3c, 0x56, 0x33, 0xf4, 0x67, 0x17, 0x21, 0xc7,
        0x6e, 0x8a, 0xd5, 0x49, 0x74, 0xb3, 0x49, 0x05, 0xc5, 0x1c, 0xd0, 0xed,
        0x12, 0x56, 0x5c, 0x53, 0x96, 0xb6, 0x00, 0x7d, 0x90, 0x48, 0xfc, 0xf5,
        0x8d, 0x29, 0x39, 0xcc, 0x8a, 0xd5, 0x35, 0x18, 0x36, 0x23, 0x4e, 0xd7,
        0x76, 0xd1, 0xda, 0x0c, 0x94, 0x67, 0xbb, 0x04, 0x8b, 0xf2, 0x03, 0x6c,
        0xa8, 0xcf, 0xb6, 0xea, 0x22, 0x64, 0x47, 0xaa, 0x8f, 0x75, 0x13, 0xbf,
        0x9f, 0xc2, 0xc3, 0xf0, 0xc9, 0x56, 0xc5, 0x7a, 0x71, 0x63, 0x2e, 0x89,
        0x7b, 0x1e, 0x12, 0xca, 0xe2, 0x5f, 0xaf, 0xd8, 0xa4, 0xf8, 0xc9, 0x7a,
        0xd6, 0xf9, 0x21, 0x31, 0x62, 0x44, 0x45, 0xa6, 0xd6, 0xbc, 0x5a, 0xd3,
        0x2d, 0x54, 0x43, 0xcc, 0x9d, 0xde, 0xa5, 0x70, 0xe9, 0x42, 0x45, 0x8a,
        0x6b, 0xfa, 0xb1, 0x91, 0x13, 0xb0, 0xd9, 0x19],
    rlen := 128 } ]

/-- The table `moto_des3_ede_cbc_dec_tv_template` of the source. -/
def moto_des3_ede_cbc_dec_tv_template : List moto_cipher_testvec := [
  { key := [
        0xe9, 0xc0, 0xff, 0x2e, 0x76, 0x0b, 0x64, 0x24, 0x44, 0x4d, 0x99, 0x5a,
        0x12, 0xd6, 0x40, 0xc0, 0xea, 0xc2, 0x84, 0xe8, 0x14, 0x95, 0xdb, 0xe8],
    klen := 24,
    iv := some [0x7d, 0x33, 0x88, 0x93, 0x0f, 0x93, 0xb2, 0x42],
    input := [
        0x0e, 0x2d, 0xb6, 0x97, 0x3c, 0x56, 0x33, 0xf4, 0x67, 0x17, 0x21, 0xc7,
        0x6e, 0x8a, 0xd5, 0x49, 0x74, 0xb3, 0x49, 0x05, 0xc5, 0x1c, 0xd0, 0xed,
        0x12, 0x56, 0x5c, 0x53, 0x96, 0xb6, 0x00, 0x7d, 0x90, 0x48, 0xfc, 0xf5,
        0x8d, 0x29, 0x39, 0xcc, 0x8a, 0xd5, 0x35, 0x18, 0x36, 0x23, 0x4e, 0xd7,
        0x76, 0xd1, 0xda, 0x0c, 0x94, 0x67, 0xbb, 0x04, 0x8b, 0xf2, 0x03, 0x6c,
        0xa8, 0xcf, 0xb6, 0xea, 0x22, 0x64, 0x47, 0xaa, 0x8f, 0x75, 0x13, 0xbf,
        0x9f, 0xc2, 0xc3, 0xf0, 0xc9, 0x56, 0xc5, 0x7a, 0x71, 0x63, 0x2e, 0x89,
        0x7b, 0x1e, 0x12, 0xca, 0xe2, 0x5f, 0xaf, 0xd8, 0xa4, 0xf8, 0xc9, 0x7a,
        0xd6, 0xf9, 0x21, 0x31, 0x62, 0x44, 0x45, 0xa6, 0xd6, 0xbc, 0x5a, 0xd3,
        0x2d, 0x54, 0x43, 0xcc, 0x9d, 0xde, 0xa5, 0x70, 0xe9, 0x42, 0x45, 0x8a,
        0x6b, 0xfa, 0xb1, 0x91, 0x13, 0xb0, 0xd9, 0x19],
    ilen := 128,
    result := [
        0x6f, 0x54, 0x20, 0x6f, 0x61, 0x4d, 0x79, 0x6e, 0x53, 0x20, 0x63, 0x65,
        0x65, 0x72, 0x73, 0x74, 0x54, 0x20, 0x6f, 0x6f, 0x4d, 0x20, 0x6e, 0x61,
        0x20, 0x79, 0x65, 0x53, 0x72, 0x63, 0x74, 0x65, 0x20, 0x73, 0x6f, 0x54,
        0x20, 0x6f, 0x61, 0x4d, 0x79, 0x6e, 0x53, 0x20, 0x63, 0x65, 0x65, 0x72,
        0x73, 0x74, 0x54, 0x20, 0x6f, 0x6f, 0x4d, 0x20, 0x6e, 0x61, 0x20, 0x79,
        0x65, 0x53, 0x72, 0x63, 0x74, 0x65, 0x20, 0x73, 0x6f, 0x54, 0x20, 0x6f,
        0x61, 0x4d, 0x79, 0x6e, 0x53, 0x20, 0x63, 0x65, 0x65, 0x72, 0x73, 0x74,
        0x54, 0x20, 0x6f, 0x6f, 0x4d, 0x20, 0x6e, 0x61, 0x20, 0x79, 0x65, 0x53,
        0x72, 0x63, 0x74, 0x65, 0x20, 0x73, 0x6f, 0x54, 0x20, 0x6f, 0x61, 0x4d,
        0x79, 0x6e, 0x53, 0x20, 0x63, 0x65, 0x65, 0x72, 0x73, 0x74, 0x54, 0x20,
        0x6f, 0x6f, 0x4d, 0x20, 0x6e, 0x61, 0x0a, 0x79],
    rlen := 128 } ]

/-- The table `moto_aes_enc_tv_template` of the source. -/
def moto_aes_enc_tv_template : List moto_cipher_testvec := [
  { key := [
        0x00, 0x01, 0x02, 0x03, 0x04, 0x05, 0x06, 0x07, 0x08, 0x09, 0x0a, 0x0b,
        0x0c, 0x0d, 0x0e, 0x0f],
    klen := 16,
    input := [
        0x00, 0x11, 0x22, 0x33, 0x44, 0x55, 0x66, 0x77, 0x88, 0x99, 0xaa, 0xbb,
        0xcc, 0xdd, 0xee, 0xff],
    ilen := 16,
    result := [
        0x69, 0xc4, 0xe0, 0xd8, 0x6a, 0x7b, 0x04, 0x30, 0xd8, 0xcd, 0xb7, 0x80,
        0x70, 0xb4, 0xc5, 0x5a],
    rlen := 16 },
  { key := [
        0x00, 0x01, 0x02, 0x03, 0x04, 0x05, 0x06, 0x07, 0x08, 0x09, 0x0a, 0x0b,
        0x0c, 0x0d, 0x0e, 0x0f, 0x10, 0x11, 0x12, 0x13, 0x14, 0x15, 0x16, 0x17],
    klen := 24,
    input := [
        0x00, 0x11, 0x22, 0x33, 0x44, 0x55, 0x66, 0x77, 0x88, 0x99, 0xaa, 0xbb,
        0xcc, 0xdd, 0xee, 0xff],
    ilen := 16,
    result := [
        0xdd, 0xa9, 0x7c, 0xa4, 0x86, 0x4c, 0xdf, 0xe0, 0x6e, 0xaf, 0x70, 0xa0,
        0xec, 0x0d, 0x71, 0x91],
    rlen := 16 },
  { key := [
        0x00, 0x01, 0x02, 0x03, 0x04, 0x05, 0x06, 0x07, 0x08, 0x09, 0x0a, 0x0b,
        0x0c, 0x0d, 0x0e, 0x0f, 0x10, 0x11, 0x12, 0x13, 0x14, 0x15, 0x16, 0x17,
        0x18, 0x19, 0x1a, 0x1b, 0x1c, 0x1d, 0x1e, 0x1f],
    klen := 32,
    input := [
        0x00, 0x11, 0x22, 0x33, 0x44, 0x55, 0x66, 0x77, 0x88, 0x99, 0xaa, 0xbb,
        0xcc, 0xdd, 0xee, 0xff],
    ilen := 16,
    result := [
        0x8e, 0xa2, 0xb7, 0xca, 0x51, 0x67, 0x45, 0xbf, 0xea, 0xfc, 0x49, 0x90,
        0x4b, 0x49, 0x60, 0x89],
    rlen := 16 } ]

/-- The table `moto_aes_dec_tv_template` of the source. -/
def moto_aes_dec_tv_template : List moto_cipher_testvec := [
  { key := [
        0x00, 0x01, 0x02, 0x03, 0x04, 0x05, 0x06, 0x07, 0x08, 0x09, 0x0a, 0x0b,
        0x0c, 0x0d, 0x0e, 0x0f],
    klen := 16,
    input := [
        0x69, 0xc4, 0xe0, 0xd8, 0x6a, 0x7b, 0x04, 0x30, 0xd8, 0xcd, 0xb7, 0x80,
        0x70, 0xb4, 0xc5, 0x5a],
    ilen := 16,
    result := [
        0x00, 0x11, 0x22, 0x33, 0x44, 0x55, 0x66, 0x77, 0x88, 0x99, 0xaa, 0xbb,
        0xcc, 0xdd, 0xee, 0xff],
    rlen := 16 },
  { key := [
        0x00, 0x01, 0x02, 0x03, 0x04, 0x05, 0x06, 0x07, 0x08, 0x09, 0x0a, 0x0b,
        0x0c, 0x0d, 0x0e, 0x0f, 0x10, 0x11, 0x12, 0x13, 0x14, 0x15, 0x16, 0x17],
    klen := 24,
    input := [
        0xdd, 0xa9, 0x7c, 0xa4, 0x86, 0x4c, 0xdf, 0xe0, 0x6e, 0xaf, 0x70, 0xa0,
        0xec, 0x0d, 0x71, 0x91],
    ilen := 16,
    result := [
        0x00, 0x11, 0x22, 0x33, 0x44, 0x55, 0x66, 0x77, 0x88, 0x99, 0xaa, 0xbb,
        0xcc, 0xdd, 0xee, 0xff],
    rlen := 16 },
  { key := [
        0x00, 0x01, 0x02, 0x03, 0x04, 0x05, 0x06, 0x07, 0x08, 0x09, 0x0a, 0x0b,
        0x0c, 0x0d, 0x0e, 0x0f, 0x10, 0x11, 0x12, 0x13, 0x14, 0x15, 0x16, 0x17,
        0x18, 0x19, 0x1a, 0x1b, 0x1c, 0x1d, 0x1e, 0x1f],
    klen := 32,
    input := [
        0x8e, 0xa2, 0xb7, 0xca, 0x51, 0x67, 0x45, 0xbf, 0xea, 0xfc, 0x49, 0x90,
        0x4b, 0x49, 0x60, 0x89],
    ilen := 16,
    result := [
        0x00, 0x11, 0x22, 0x33, 0x44, 0x55, 0x66, 0x77, 0x88, 0x99, 0xaa, 0xbb,
        0xcc, 0xdd, 0xee, 0xff],
    rlen := 16 } ]

/-- The table `moto_aes_cbc_enc_tv_template` of the source. -/
def moto_aes_cbc_enc_tv_template : List moto_cipher_testvec := [
  { key := [
        0x06, 0xa9, 0x21, 0x40, 0x36, 0xb8, 0xa1, 0x5b, 0x51, 0x2e, 0x03, 0xd5,
        0x34, 0x12, 0x00, 0x06],
    klen := 16,
    iv := some ([
        0x3d, 0xaf, 0xba, 0x42, 0x9d, 0x9e, 0xb4, 0x30, 0xb4, 0x22, 0xda, 0x80,
        0x2c, 0x9f, 0xac, 0x41]),
    input := [
        0x53, 0x69, 0x6e, 0x67, 0x6c, 0x65, 0x20, 0x62, 0x6c, 0x6f, 0x63, 0x6b,
        0x20, 0x6d, 0x73, 0x67],
    ilen := 16,
    result := [
        0xe3, 0x53, 0x77, 0x9c, 0x10, 0x79, 0xae, 0xb8, 0x27, 0x08, 0x94, 0x2d,
        0xbe, 0x77, 0x18, 0x1a],
    rlen := 16 },
  { key := [
        0xc2, 0x86, 0x69, 0x6d, 0x88, 0x7c, 0x9a, 0xa0, 0x61, 0x1b, 0xbb, 0x3e,
        0x20, 0x25, 0xa4, 0x5a],
    klen := 16,
    iv := some ([
        0x56, 0x2e, 0x17, 0x99, 0x6d, 0x09, 0x3d, 0x28, 0xdd, 0xb3, 0xba, 0x69,
        0x5a, 0x2e, 0x6f, 0x58]),
    input := [
        0x00, 0x01, 0x02, 0x03, 0x04, 0x05, 0x06, 0x07, 0x08, 0x09, 0x0a, 0x0b,
        0x0c, 0x0d, 0x0e, 0x0f, 0x10, 0x11, 0x12, 0x13, 0x14, 0x15, 0x16, 0x17,
        0x18, 0x19, 0x1a, 0x1b, 0x1c, 0x1d, 0x1e, 0x1f],
    ilen := 32,
    result := [
        0xd2, 0x96, 0xcd, 0x94, 0xc2, 0xcc, 0xcf, 0x8a, 0x3a, 0x86, 0x30, 0x28,
        0xb5, 0xe1, 0xdc, 0x0a, 0x75, 0x86, 0x60, 0x2d, 0x25, 0x3c, 0xff, 0xf9,
        0x1b, 0x82, 0x66, 0xbe, 0xa6, 0xd6, 0x1a, 0xb1],
    rlen := 32 },
  { key := [
        0x8e, 0x73, 0xb0, 0xf7, 0xda, 0x0e, 0x64, 0x52, 0xc8, 0x10, 0xf3, 0x2b,
        0x80, 0x90, 0x79, 0xe5, 0x62, 0xf8, 0xea, 0xd2, 0x52, 0x2c, 0x6b, 0x7b],
    klen := 24,
    iv := some ([
        0x00, 0x01, 0x02, 0x03, 0x04, 0x05, 0x06, 0x07, 0x08, 0x09, 0x0a, 0x0b,
        0x0c, 0x0d, 0x0e, 0x0f]),
    input := [
        0x6b, 0xc1, 0xbe, 0xe2, 0x2e, 0x40, 0x9f, 0x96, 0xe9, 0x3d, 0x7e, 0x11,
        0x73, 0x93, 0x17, 0x2a, 0xae, 0x2d, 0x8a, 0x57, 0x1e, 0x03, 0xac, 0x9c,
        0x9e, 0xb7, 0x6f, 0xac, 0x45, 0xaf, 0x8e, 0x51, 0x30, 0xc8, 0x1c, 0x46,
        0xa3, 0x5c, 0xe4, 0x11, 0xe5, 0xfb, 0xc1, 0x19, 0x1a, 0x0a, 0x52, 0xef,
        0xf6, 0x9f, 0x24, 0x45, 0xdf, 0x4f, 0x9b, 0x17, 0xad, 0x2b, 0x41, 0x7b,
        0xe6, 0x6c, 0x37, 0x10],
    ilen := 64,
    result := [
        0x4f, 0x02, 0x1d, 0xb2, 0x43, 0xbc, 0x63, 0x3d, 0x71, 0x78, 0x18, 0x3a,
        0x9f, 0xa0, 0x71, 0xe8, 0xb4, 0xd9, 0xad, 0xa9, 0xad, 0x7d, 0xed, 0xf4,
        0xe5, 0xe7, 0x38, 0x76, 0x3f, 0x69, 0x14, 0x5a, 0x57, 0x1b, 0x24, 0x20,
        0x12, 0xfb, 0x7a, 0xe0, 0x7f, 0xa9, 0xba, 0xac, 0x3d, 0xf1, 0x02, 0xe0,
        0x08, 0xb0, 0xe2, 0x79, 0x88, 0x59, 0x88, 0x81, 0xd9, 0x20, 0xa9, 0xe6,
        0x4f, 0x56, 0x15, 0xcd],
    rlen := 64 },
  { key := [
        0x60, 0x3d, 0xeb, 0x10, 0x15, 0xca, 0x71, 0xbe, 0x2b, 0x73, 0xae, 0xf0,
        0x85, 0x7d, 0x77, 0x81, 0x1f, 0x35, 0x2c, 0x07, 0x3b, 0x61, 0x08, 0xd7,
        0x2d, 0x98, 0x10, 0xa3, 0x09, 0x14, 0xdf, 0xf4],
    klen := 32,
    iv := some ([
        0x00, 0x01, 0x02, 0x03, 0x04, 0x05, 0x06, 0x07, 0x08, 0x09, 0x0a, 0x0b,
        0x0c, 0x0d, 0x0e, 0x0f]),
    input := [
        0x6b, 0xc1, 0xbe, 0xe2, 0x2e, 0x40, 0x9f, 0x96, 0xe9, 0x3d, 0x7e, 0x11,
        0x73, 0x93, 0x17, 0x2a, 0xae, 0x2d, 0x8a, 0x57, 0x1e, 0x03, 0xac, 0x9c,
        0x9e, 0xb7, 0x6f, 0xac, 0x45, 0xaf, 0x8e, 0x51, 0x30, 0xc8, 0x1c, 0x46,
        0xa3, 0x5c, 0xe4, 0x11, 0xe5, 0xfb, 0xc1, 0x19, 0x1a, 0x0a, 0x52, 0xef,
        0xf6, 0x9f, 0x24, 0x45, 0xdf, 0x4f, 0x9b, 0x17, 0xad, 0x2b, 0x41, 0x7b,
        0xe6, 0x6c, 0x37, 0x10],
    ilen := 64,
    result := [
        0xf5, 0x8c, 0x4c, 0x04, 0xd6, 0xe5, 0xf1, 0xba, 0x77, 0x9e, 0xab, 0xfb,
        0x5f, 0x7b, 0xfb, 0xd6, 0x9c, 0xfc, 0x4e, 0x96, 0x7e, 0xdb, 0x80, 0x8d,
        0x67, 0x9f, 0x77, 0x7b, 0xc6, 0x70, 0x2c, 0x7d, 0x39, 0xf2, 0x33, 0x69,
        0xa9, 0xd9, 0xba, 0xcf, 0xa5, 0x30, 0xe2, 0x63, 0x04, 0x23, 0x14, 0x61,
        0xb2, 0xeb, 0x05, 0xe2, 0xc3, 0x9b, 0xe9, 0xfc, 0xda, 0x6c, 0x19, 0x07,
        0x8c, 0x6a, 0x9d, 0x1b],
    rlen := 64 } ]

/-- The table `moto_aes_cbc_dec_tv_template` of the source. -/
def moto_aes_cbc_dec_tv_template : List moto_cipher_testvec := [
  { key := [
        0x06, 0xa9, 0x21, 0x40, 0x36, 0xb8, 0xa1, 0x5b, 0x51, 0x2e, 0x03, 0xd5,
        0x34, 0x12, 0x00, 0x06],
    klen := 16,
    iv := some ([
        0x3d, 0xaf, 0xba, 0x42, 0x9d, 0x9e, 0xb4, 0x30, 0xb4, 0x22, 0xda, 0x80,
        0x2c, 0x9f, 0xac, 0x41]),
    input := [
        0xe3, 0x53, 0x77, 0x9c, 0x10, 0x79, 0xae, 0xb8, 0x27, 0x08, 0x94, 0x2d,
        0xbe, 0x77, 0x18, 0x1a],
    ilen := 16,
    result := [
        0x53, 0x69, 0x6e, 0x67, 0x6c, 0x65, 0x20, 0x62, 0x6c, 0x6f, 0x63, 0x6b,
        0x20, 0x6d, 0x73, 0x67],
    rlen := 16 },
  { key := [
        0xc2, 0x86, 0x69, 0x6d, 0x88, 0x7c, 0x9a, 0xa0, 0x61, 0x1b, 0xbb, 0x3e,
        0x20, 0x25, 0xa4, 0x5a],
    klen := 16,
    iv := some ([
        0x56, 0x2e, 0x17, 0x99, 0x6d, 0x09, 0x3d, 0x28, 0xdd, 0xb3, 0xba, 0x69,
        0x5a, 0x2e, 0x6f, 0x58]),
    input := [
        0xd2, 0x96, 0xcd, 0x94, 0xc2, 0xcc, 0xcf, 0x8a, 0x3a, 0x86, 0x30, 0x28,
        0xb5, 0xe1, 0xdc, 0x0a, 0x75, 0x86, 0x60, 0x2d, 0x25, 0x3c, 0xff, 0xf9,
        0x1b, 0x82, 0x66, 0xbe, 0xa6, 0xd6, 0x1a, 0xb1],
    ilen := 32,
    result := [
        0x00, 0x01, 0x02, 0x03, 0x04, 0x05, 0x06, 0x07, 0x08, 0x09, 0x0a, 0x0b,
        0x0c, 0x0d, 0x0e, 0x0f, 0x10, 0x11, 0x12, 0x13, 0x14, 0x15, 0x16, 0x17,
        0x18, 0x19, 0x1a, 0x1b, 0x1c, 0x1d, 0x1e, 0x1f],
    rlen := 32 },
  { key := [
        0x8e, 0x73, 0xb0, 0xf7, 0xda, 0x0e, 0x64, 0x52, 0xc8, 0x10, 0xf3, 0x2b,
        0x80, 0x90, 0x79, 0xe5, 0x62, 0xf8, 0xea, 0xd2, 0x52, 0x2c, 0x6b, 0x7b],
    klen := 24,
    iv := some ([
        0x00, 0x01, 0x02, 0x03, 0x04, 0x05, 0x06, 0x07, 0x08, 0x09, 0x0a, 0x0b,
        0x0c, 0x0d, 0x0e, 0x0f]),
    input := [
        0x4f, 0x02, 0x1d, 0xb2, 0x43, 0xbc, 0x63, 0x3d, 0x71, 0x78, 0x18, 0x3a,
        0x9f, 0xa0, 0x71, 0xe8, 0xb4, 0xd9, 0xad, 0xa9, 0xad, 0x7d, 0xed, 0xf4,
        0xe5, 0xe7, 0x38, 0x76, 0x3f, 0x69, 0x14, 0x5a, 0x57, 0x1b, 0x24, 0x20,
        0x12, 0xfb, 0x7a, 0xe0, 0x7f, 0xa9, 0xba, 0xac, 0x3d, 0xf1, 0x02, 0xe0,
        0x08, 0xb0, 0xe2, 0x79, 0x88, 0x59, 0x88, 0x81, 0xd9, 0x20, 0xa9, 0xe6,
        0x4f, 0x56, 0x15, 0xcd],
    ilen := 64,
    result := [
        0x6b, 0xc1, 0xbe, 0xe2, 0x2e, 0x40, 0x9f, 0x96, 0xe9, 0x3d, 0x7e, 0x11,
        0x73, 0x93, 0x17, 0x2a, 0xae, 0x2d, 0x8a, 0x57, 0x1e, 0x03, 0xac, 0x9c,
        0x9e, 0xb7, 0x6f, 0xac, 0x45, 0xaf, 0x8e, 0x51, 0x30, 0xc8, 0x1c, 0x46,
        0xa3, 0x5c, 0xe4, 0x11, 0xe5, 0xfb, 0xc1, 0x19, 0x1a, 0x0a, 0x52, 0xef,
        0xf6, 0x9f, 0x24, 0x45, 0xdf, 0x4f, 0x9b, 0x17, 0xad, 0x2b, 0x41, 0x7b,
        0xe6, 0x6c, 0x37, 0x10],
    rlen := 64 },
  { key := [
        0x60, 0x3d, 0xeb, 0x10, 0x15, 0xca, 0x71, 0xbe, 0x2b, 0x73, 0xae, 0xf0,
        0x85, 0x7d, 0x77, 0x81, 0x1f, 0x35, 0x2c, 0x07, 0x3b, 0x61, 0x08, 0xd7,
        0x2d, 0x98, 0x10, 0xa3, 0x09, 0x14, 0xdf, 0xf4],
    klen := 32,
    iv := some ([
        0x00, 0x01, 0x02, 0x03, 0x04, 0x05, 0x06, 0x07, 0x08, 0x09, 0x0a, 0x0b,
        0x0c, 0x0d, 0x0e, 0x0f]),
    input := [
        0xf5, 0x8c, 0x4c, 0x04, 0xd6, 0xe5, 0xf1, 0xba, 0x77, 0x9e, 0xab, 0xfb,
        0x5f, 0x7b, 0xfb, 0xd6, 0x9c, 0xfc, 0x4e, 0x96, 0x7e, 0xdb, 0x80, 0x8d,
        0x67, 0x9f, 0x77, 0x7b, 0xc6, 0x70, 0x2c, 0x7d, 0x39, 0xf2, 0x33, 0x69,
        0xa9, 0xd9, 0xba, 0xcf, 0xa5, 0x30, 0xe2, 0x63, 0x04, 0x23, 0x14, 0x61,
        0xb2, 0xeb, 0x05, 0xe2, 0xc3, 0x9b, 0xe9, 0xfc, 0xda, 0x6c, 0x19, 0x07,
        0x8c, 0x6a, 0x9d, 0x1b],
    ilen := 64,
    result := [
        0x6b, 0xc1, 0xbe, 0xe2, 0x2e, 0x40, 0x9f, 0x96, 0xe9, 0x3d, 0x7e, 0x11,
        0x73, 0x93, 0x17, 0x2a, 0xae, 0x2d, 0x8a, 0x57, 0x1e, 0x03, 0xac, 0x9c,
        0x9e, 0xb7, 0x6f, 0xac, 0x45, 0xaf, 0x8e, 0x51, 0x30, 0xc8, 0x1c, 0x46,
        0xa3, 0x5c, 0xe4, 0x11, 0xe5, 0xfb, 0xc1, 0x19, 0x1a, 0x0a, 0x52, 0xef,
        0xf6, 0x9f, 0x24, 0x45, 0xdf, 0x4f, 0x9b, 0x17, 0xad, 0x2b, 0x41, 0x7b,
        0xe6, 0x6c, 0x37, 0x10],
    rlen := 64 } ]

/-- The table `moto_aes_ctr_enc_tv_template` of the source. -/
def moto_aes_ctr_enc_tv_template : List moto_cipher_testvec := [
  { key := [
        0x2b, 0x7e, 0x15, 0x16, 0x28, 0xae, 0xd2, 0xa6, 0xab, 0xf7, 0x15, 0x88,
        0x09, 0xcf, 0x4f, 0x3c],
    klen := 16,
    iv := some ([
        0xf0, 0xf1, 0xf2, 0xf3, 0xf4, 0xf5, 0xf6, 0xf7, 0xf8, 0xf9, 0xfa, 0xfb,
        0xfc, 0xfd, 0xfe, 0xff]),
    input := [
        0x6b, 0xc1, 0xbe, 0xe2, 0x2e, 0x40, 0x9f, 0x96, 0xe9, 0x3d, 0x7e, 0x11,
        0x73, 0x93, 0x17, 0x2a, 0xae, 0x2d, 0x8a, 0x57, 0x1e, 0x03, 0xac, 0x9c,
        0x9e, 0xb7, 0x6f, 0xac, 0x45, 0xaf, 0x8e, 0x51, 0x30, 0xc8, 0x1c, 0x46,
        0xa3, 0x5c, 0xe4, 0x11, 0xe5, 0xfb, 0xc1, 0x19, 0x1a, 0x0a, 0x52, 0xef,
        0xf6, 0x9f, 0x24, 0x45, 0xdf, 0x4f, 0x9b, 0x17, 0xad, 0x2b, 0x41, 0x7b,
        0xe6, 0x6c, 0x37, 0x10],
    ilen := 64,
    result := [
        0x87, 0x4d, 0x61, 0x91, 0xb6, 0x20, 0xe3, 0x26, 0x1b, 0xef, 0x68, 0x64,
        0x99, 0x0d, 0xb6, 0xce, 0x98, 0x06, 0xf6, 0x6b, 0x79, 0x70, 0xfd, 0xff,
        0x86, 0x17, 0x18, 0x7b, 0xb9, 0xff, 0xfd, 0xff, 0x5a, 0xe4, 0xdf, 0x3e,
        0xdb, 0xd5, 0xd3, 0x5e, 0x5b, 0x4f, 0x09, 0x02, 0x0d, 0xb0, 0x3e, 0xab,
        0x1e, 0x03, 0x1d, 0xda, 0x2f, 0xbe, 0x03, 0xd1, 0x79, 0x21, 0x70, 0xa0,
        0xf3, 0x00, 0x9c, 0xee],
    rlen := 64 },
  { key := [
        0x8e, 0x73, 0xb0, 0xf7, 0xda, 0x0e, 0x64, 0x52, 0xc8, 0x10, 0xf3, 0x2b,
        0x80, 0x90, 0x79, 0xe5, 0x62, 0xf8, 0xea, 0xd2, 0x52, 0x2c, 0x6b, 0x7b],
    klen := 24,
    iv := some ([
        0xf0, 0xf1, 0xf2, 0xf3, 0xf4, 0xf5, 0xf6, 0xf7, 0xf8, 0xf9, 0xfa, 0xfb,
        0xfc, 0xfd, 0xfe, 0xff]),
    input := [
        0x6b, 0xc1, 0xbe, 0xe2, 0x2e, 0x40, 0x9f, 0x96, 0xe9, 0x3d, 0x7e, 0x11,
        0x73, 0x93, 0x17, 0x2a, 0xae, 0x2d, 0x8a, 0x57, 0x1e, 0x03, 0xac, 0x9c,
        0x9e, 0xb7, 0x6f, 0xac, 0x45, 0xaf, 0x8e, 0x51, 0x30, 0xc8, 0x1c, 0x46,
        0xa3, 0x5c, 0xe4, 0x11, 0xe5, 0xfb, 0xc1, 0x19, 0x1a, 0x0a, 0x52, 0xef,
        0xf6, 0x9f, 0x24, 0x45, 0xdf, 0x4f, 0x9b, 0x17, 0xad, 0x2b, 0x41, 0x7b,
        0xe6, 0x6c, 0x37, 0x10],
    ilen := 64,
    result := [
        0x1a, 0xbc, 0x93, 0x24, 0x17, 0x52, 0x1c, 0xa2, 0x4f, 0x2b, 0x04, 0x59,
        0xfe, 0x7e, 0x6e, 0x0b, 0x09, 0x03, 0x39, 0xec, 0x0a, 0xa6, 0xfa, 0xef,
        0xd5, 0xcc, 0xc2, 0xc6, 0xf4, 0xce, 0x8e, 0x94, 0x1e, 0x36, 0xb2, 0x6b,
        0xd1, 0xeb, 0xc6, 0x70, 0xd1, 0xbd, 0x1d, 0x66, 0x56, 0x20, 0xab, 0xf7,
        0x4f, 0x78, 0xa7, 0xf6, 0xd2, 0x98, 0x09, 0x58, 0x5a, 0x97, 0xda, 0xec,
        0x58, 0xc6, 0xb0, 0x50],
    rlen := 64 },
  { key := [
        0x60, 0x3d, 0xeb, 0x10, 0x15, 0xca, 0x71, 0xbe, 0x2b, 0x73, 0xae, 0xf0,
        0x85, 0x7d, 0x77, 0x81, 0x1f, 0x35, 0x2c, 0x07, 0x3b, 0x61, 0x08, 0xd7,
        0x2d, 0x98, 0x10, 0xa3, 0x09, 0x14, 0xdf, 0xf4],
    klen := 32,
    iv := some ([
        0xf0, 0xf1, 0xf2, 0xf3, 0xf4, 0xf5, 0xf6, 0xf7, 0xf8, 0xf9, 0xfa, 0xfb,
        0xfc, 0xfd, 0xfe, 0xff]),
    input := [
        0x6b, 0xc1, 0xbe, 0xe2, 0x2e, 0x40, 0x9f, 0x96, 0xe9, 0x3d, 0x7e, 0x11,
        0x73, 0x93, 0x17, 0x2a, 0xae, 0x2d, 0x8a, 0x57, 0x1e, 0x03, 0xac, 0x9c,
        0x9e, 0xb7, 0x6f, 0xac, 0x45, 0xaf, 0x8e, 0x51, 0x30, 0xc8, 0x1c, 0x46,
        0xa3, 0x5c, 0xe4, 0x11, 0xe5, 0xfb, 0xc1, 0x19, 0x1a, 0x0a, 0x52, 0xef,
        0xf6, 0x9f, 0x24, 0x45, 0xdf, 0x4f, 0x9b, 0x17, 0xad, 0x2b, 0x41, 0x7b,
        0xe6, 0x6c, 0x37, 0x10],
    ilen := 64,
    result := [
        0x60, 0x1e, 0xc3, 0x13, 0x77, 0x57, 0x89, 0xa5, 0xb7, 0xa7, 0xf5, 0x04,
        0xbb, 0xf3, 0xd2, 0x28, 0xf4, 0x43, 0xe3, 0xca, 0x4d, 0x62, 0xb5, 0x9a,
        0xca, 0x84, 0xe9, 0x90, 0xca, 0xca, 0xf5, 0xc5, 0x2b, 0x09, 0x30, 0xda,
        0xa2, 0x3d, 0xe9, 0x4c, 0xe8, 0x70, 0x17, 0xba, 0x2d, 0x84, 0x98, 0x8d,
        0xdf, 0xc9, 0xc5, 0x8d, 0xb6, 0x7a, 0xad, 0xa6, 0x13, 0xc2, 0xdd, 0x08,
        0x45, 0x79, 0x41, 0xa6],
    rlen := 64 } ]

/-- The table `moto_aes_ctr_dec_tv_template` of the source. -/
def moto_aes_ctr_dec_tv_template : List moto_cipher_testvec := [
  { key := [
        0x2b, 0x7e, 0x15, 0x16, 0x28, 0xae, 0xd2, 0xa6, 0xab, 0xf7, 0x15, 0x88,
        0x09, 0xcf, 0x4f, 0x3c],
    klen := 16,
    iv := some ([
        0xf0, 0xf1, 0xf2, 0xf3, 0xf4, 0xf5, 0xf6, 0xf7, 0xf8, 0xf9, 0xfa, 0xfb,
        0xfc, 0xfd, 0xfe, 0xff]),
    input := [
        0x87, 0x4d, 0x61, 0x91, 0xb6, 0x20, 0xe3, 0x26, 0x1b, 0xef, 0x68, 0x64,
        0x99, 0x0d, 0xb6, 0xce, 0x98, 0x06, 0xf6, 0x6b, 0x79, 0x70, 0xfd, 0xff,
        0x86, 0x17, 0x18, 0x7b, 0xb9, 0xff, 0xfd, 0xff, 0x5a, 0xe4, 0xdf, 0x3e,
        0xdb, 0xd5, 0xd3, 0x5e, 0x5b, 0x4f, 0x09, 0x02, 0x0d, 0xb0, 0x3e, 0xab,
        0x1e, 0x03, 0x1d, 0xda, 0x2f, 0xbe, 0x03, 0xd1, 0x79, 0x21, 0x70, 0xa0,
        0xf3, 0x00, 0x9c, 0xee],
    ilen := 64,
    result := [
        0x6b, 0xc1, 0xbe, 0xe2, 0x2e, 0x40, 0x9f, 0x96, 0xe9, 0x3d, 0x7e, 0x11,
        0x73, 0x93, 0x17, 0x2a, 0xae, 0x2d, 0x8a, 0x57, 0x1e, 0x03, 0xac, 0x9c,
        0x9e, 0xb7, 0x6f, 0xac, 0x45, 0xaf, 0x8e, 0x51, 0x30, 0xc8, 0x1c, 0x46,
        0xa3, 0x5c, 0xe4, 0x11, 0xe5, 0xfb, 0xc1, 0x19, 0x1a, 0x0a, 0x52, 0xef,
        0xf6, 0x9f, 0x24, 0x45, 0xdf, 0x4f, 0x9b, 0x17, 0xad, 0x2b, 0x41, 0x7b,
        0xe6, 0x6c, 0x37, 0x10],
    rlen := 64 },
  { key := [
        0x8e, 0x73, 0xb0, 0xf7, 0xda, 0x0e, 0x64, 0x52, 0xc8, 0x10, 0xf3, 0x2b,
        0x80, 0x90, 0x79, 0xe5, 0x62, 0xf8, 0xea, 0xd2, 0x52, 0x2c, 0x6b, 0x7b],
    klen := 24,
    iv := some ([
        0xf0, 0xf1, 0xf2, 0xf3, 0xf4, 0xf5, 0xf6, 0xf7, 0xf8, 0xf9, 0xfa, 0xfb,
        0xfc, 0xfd, 0xfe, 0xff]),
    input := [
        0x1a, 0xbc, 0x93, 0x24, 0x17, 0x52, 0x1c, 0xa2, 0x4f, 0x2b, 0x04, 0x59,
        0xfe, 0x7e, 0x6e, 0x0b, 0x09, 0x03, 0x39, 0xec, 0x0a, 0xa6, 0xfa, 0xef,
        0xd5, 0xcc, 0xc2, 0xc6, 0xf4, 0xce, 0x8e, 0x94, 0x1e, 0x36, 0xb2, 0x6b,
        0xd1, 0xeb, 0xc6, 0x70, 0xd1, 0xbd, 0x1d, 0x66, 0x56, 0x20, 0xab, 0xf7,
        0x4f, 0x78, 0xa7, 0xf6, 0xd2, 0x98, 0x09, 0x58, 0x5a, 0x97, 0xda, 0xec,
        0x58, 0xc6, 0xb0, 0x50],
    ilen := 64,
    result := [
        0x6b, 0xc1, 0xbe, 0xe2, 0x2e, 0x40, 0x9f, 0x96, 0xe9, 0x3d, 0x7e, 0x11,
        0x73, 0x93, 0x17, 0x2a, 0xae, 0x2d, 0x8a, 0x57, 0x1e, 0x03, 0xac, 0x9c,
        0x9e, 0xb7, 0x6f, 0xac, 0x45, 0xaf, 0x8e, 0x51, 0x30, 0xc8, 0x1c, 0x46,
        0xa3, 0x5c, 0xe4, 0x11, 0xe5, 0xfb, 0xc1, 0x19, 0x1a, 0x0a, 0x52, 0xef,
        0xf6, 0x9f, 0x24, 0x45, 0xdf, 0x4f, 0x9b, 0x17, 0xad, 0x2b, 0x41, 0x7b,
        0xe6, 0x6c, 0x37, 0x10],
    rlen := 64 },
  { key := [
        0x60, 0x3d, 0xeb, 0x10, 0x15, 0xca, 0x71, 0xbe, 0x2b, 0x73, 0xae, 0xf0,
        0x85, 0x7d, 0x77, 0x81, 0x1f, 0x35, 0x2c, 0x07, 0x3b, 0x61, 0x08, 0xd7,
        0x2d, 0x98, 0x10, 0xa3, 0x09, 0x14, 0xdf, 0xf4],
    klen := 32,
    iv := some ([
        0xf0, 0xf1, 0xf2, 0xf3, 0xf4, 0xf5, 0xf6, 0xf7, 0xf8, 0xf9, 0xfa, 0xfb,
        0xfc, 0xfd, 0xfe, 0xff]),
    input := [
        0x60, 0x1e, 0xc3, 0x13, 0x77, 0x57, 0x89, 0xa5, 0xb7, 0xa7, 0xf5, 0x04,
        0xbb, 0xf3, 0xd2, 0x28, 0xf4, 0x43, 0xe3, 0xca, 0x4d, 0x62, 0xb5, 0x9a,
        0xca, 0x84, 0xe9, 0x90, 0xca, 0xca, 0xf5, 0xc5, 0x2b, 0x09, 0x30, 0xda,
        0xa2, 0x3d, 0xe9, 0x4c, 0xe8, 0x70, 0x17, 0xba, 0x2d, 0x84, 0x98, 0x8d,
        0xdf, 0xc9, 0xc5, 0x8d, 0xb6, 0x7a, 0xad, 0xa6, 0x13, 0xc2, 0xdd, 0x08,
        0x45, 0x79, 0x41, 0xa6],
    ilen := 64,
    result := [
        0x6b, 0xc1, 0xbe, 0xe2, 0x2e, 0x40, 0x9f, 0x96, 0xe9, 0x3d, 0x7e, 0x11,
        0x73, 0x93, 0x17, 0x2a, 0xae, 0x2d, 0x8a, 0x57, 0x1e, 0x03, 0xac, 0x9c,
        0x9e, 0xb7, 0x6f, 0xac, 0x45, 0xaf, 0x8e, 0x51, 0x30, 0xc8, 0x1c, 0x46,
        0xa3, 0x5c, 0xe4, 0x11, 0xe5, 0xfb, 0xc1, 0x19, 0x1a, 0x0a, 0x52, 0xef,
        0xf6, 0x9f, 0x24, 0x45, 0xdf, 0x4f, 0x9b, 0x17, 0xad, 0x2b, 0x41, 0x7b,
        0xe6, 0x6c, 0x37, 0x10],
    rlen := 64 } ]

/-- The table `moto_ansi_cprng_aes_tv_template` of the source. -/
def moto_ansi_cprng_aes_tv_template : List moto_cprng_testvec := [
  { key := [
        0xf3, 0xb1, 0x66, 0x6d, 0x13, 0x60, 0x72, 0x42, 0xed, 0x06, 0x1c, 0xab,
        0xb8, 0xd4, 0x62, 0x02],
    klen := 16,
    dt := [
        0xe6, 0xb3, 0xbe, 0x78, 0x2a, 0x23, 0xfa, 0x62, 0xd7, 0x1d, 0x4a, 0xfb,
        0xb0, 0xe9, 0x22, 0xf9],
    dtlen := 16,
    v := [
        0x80, 0x00, 0x00, 0x00, 0x00, 0x00, 0x00, 0x00, 0x00, 0x00, 0x00, 0x00,
        0x00, 0x00, 0x00, 0x00],
    vlen := 16,
    result := [
        0x59, 0x53, 0x1e, 0xd1, 0x3b, 0xb0, 0xc0, 0x55, 0x84, 0x79, 0x66, 0x85,
        0xc1, 0x2f, 0x76, 0x41],
    rlen := 16,
    loops := 1 },
  { key := [
        0xf3, 0xb1, 0x66, 0x6d, 0x13, 0x60, 0x72, 0x42, 0xed, 0x06, 0x1c, 0xab,
        0xb8, 0xd4, 0x62, 0x02],
    klen := 16,
    dt := [
        0xe6, 0xb3, 0xbe, 0x78, 0x2a, 0x23, 0xfa, 0x62, 0xd7, 0x1d, 0x4a, 0xfb,
        0xb0, 0xe9, 0x22, 0xfa],
    dtlen := 16,
    v := [
        0xc0, 0x00, 0x00, 0x00, 0x00, 0x00, 0x00, 0x00, 0x00, 0x00, 0x00, 0x00,
        0x00, 0x00, 0x00, 0x00],
    vlen := 16,
    result := [
        0x7c, 0x22, 0x2c, 0xf4, 0xca, 0x8f, 0xa2, 0x4c, 0x1c, 0x9c, 0xb6, 0x41,
        0xa9, 0xf3, 0x22, 0x0d],
    rlen := 16,
    loops := 1 },
  { key := [
        0xf3, 0xb1, 0x66, 0x6d, 0x13, 0x60, 0x72, 0x42, 0xed, 0x06, 0x1c, 0xab,
        0xb8, 0xd4, 0x62, 0x02],
    klen := 16,
    dt := [
        0xe6, 0xb3, 0xbe, 0x78, 0x2a, 0x23, 0xfa, 0x62, 0xd7, 0x1d, 0x4a, 0xfb,
        0xb0, 0xe9, 0x22, 0xfb],
    dtlen := 16,
    v := [
        0xe0, 0x00, 0x00, 0x00, 0x00, 0x00, 0x00, 0x00, 0x00, 0x00, 0x00, 0x00,
        0x00, 0x00, 0x00, 0x00],
    vlen := 16,
    result := [
        0x8a, 0xaa, 0x00, 0x39, 0x66, 0x67, 0x5b, 0xe5, 0x29, 0x14, 0x28, 0x81,
        0xa9, 0x4d, 0x4e, 0xc7],
    rlen := 16,
    loops := 1 },
  { key := [
        0xf3, 0xb1, 0x66, 0x6d, 0x13, 0x60, 0x72, 0x42, 0xed, 0x06, 0x1c, 0xab,
        0xb8, 0xd4, 0x62, 0x02],
    klen := 16,
    dt := [
        0xe6, 0xb3, 0xbe, 0x78, 0x2a, 0x23, 0xfa, 0x62, 0xd7, 0x1d, 0x4a, 0xfb,
        0xb0, 0xe9, 0x22, 0xfc],
    dtlen := 16,
    v := [
        0xf0, 0x00, 0x00, 0x00, 0x00, 0x00, 0x00, 0x00, 0x00, 0x00, 0x00, 0x00,
        0x00, 0x00, 0x00, 0x00],
    vlen := 16,
    result := [
        0x88, 0xdd, 0xa4, 0x56, 0x30, 0x24, 0x23, 0xe5, 0xf6, 0x9d, 0xa5, 0x7e,
        0x7b, 0x95, 0xc7, 0x3a],
    rlen := 16,
    loops := 1 },
  { key := [
        0xf3, 0xb1, 0x66, 0x6d, 0x13, 0x60, 0x72, 0x42, 0xed, 0x06, 0x1c, 0xab,
        0xb8, 0xd4, 0x62, 0x02],
    klen := 16,
    dt := [
        0xe6, 0xb3, 0xbe, 0x78, 0x2a, 0x23, 0xfa, 0x62, 0xd7, 0x1d, 0x4a, 0xfb,
        0xb0, 0xe9, 0x22, 0xfd],
    dtlen := 16,
    v := [
        0xf8, 0x00, 0x00, 0x00, 0x00, 0x00, 0x00, 0x00, 0x00, 0x00, 0x00, 0x00,
        0x00, 0x00, 0x00, 0x00],
    vlen := 16,
    result := [
        0x05, 0x25, 0x92, 0x46, 0x61, 0x79, 0xd2, 0xcb, 0x78, 0xc4, 0x0b, 0x14,
        0x0a, 0x5a, 0x9a, 0xc8],
    rlen := 16,
    loops := 1 },
  { key := [
        0x9f, 0x5b, 0x51, 0x20, 0x0b, 0xf3, 0x34, 0xb5, 0xd8, 0x2b, 0xe8, 0xc3,
        0x72, 0x55, 0xc8, 0x48],
    klen := 16,
    dt := [
        0x63, 0x76, 0xbb, 0xe5, 0x29, 0x02, 0xba, 0x3b, 0x67, 0xc9, 0x25, 0xfa,
        0x70, 0x1f, 0x11, 0xac],
    dtlen := 16,
    v := [
        0x57, 0x2c, 0x8e, 0x76, 0x87, 0x26, 0x47, 0x97, 0x7e, 0x74, 0xfb, 0xdd,
        0xc4, 0x95, 0x01, 0xd1],
    vlen := 16,
    result := [
        0x48, 0xe9, 0xbd, 0x0d, 0x06, 0xee, 0x18, 0xfb, 0xe4, 0x57, 0x90, 0xd5,
        0xc3, 0xfc, 0x9b, 0x73],
    rlen := 16,
    loops := 10000 } ]
/-! ## The registry -/

/-- The struct `moto_hash_test_suite`. -/
structure moto_hash_test_suite where
  vecs : List moto_hash_testvec
  count : Nat
  deriving DecidableEq, Repr

/-- The struct `moto_cprng_test_suite`. -/
structure moto_cprng_test_suite where
  vecs : List moto_cprng_testvec
  count : Nat
  deriving DecidableEq, Repr

/-- One of the members `enc`, `dec` of `struct moto_cipher_test_suite`; `vecs` is `none`
for a null pointer. -/
structure cipher_vecs where
  vecs : Option (List moto_cipher_testvec)
  count : Nat
  deriving DecidableEq, Repr

/-- The struct `moto_cipher_test_suite`. -/
structure moto_cipher_test_suite where
  enc : cipher_vecs
  dec : cipher_vecs
  deriving DecidableEq, Repr

/-- The union `suite` of `struct moto_alg_test_desc`. -/
inductive test_suite where
  | cipher (s : moto_cipher_test_suite)
  | hash (s : moto_hash_test_suite)
  | cprng (s : moto_cprng_test_suite)
  deriving DecidableEq, Repr

/-- The function a registry entry's `.test` pointer refers to: `moto_alg_test_cprng`,
`moto_alg_test_skcipher` or `moto_alg_test_hash`. -/
inductive test_fn where
  | cprng | skcipher | hash
  deriving DecidableEq, Repr

/-- The struct `moto_alg_test_desc`.  An entry that does not initialise `.alg_id` has
`alg_id = none`, the value zero. -/
structure moto_alg_test_desc where
  alg : List Nat
  test : test_fn
  alg_id : Option MOTO_CRYPTO_ALG := none
  suite : test_suite
  deriving DecidableEq, Repr

/-- Member `suite.cipher` of an entry (an empty suite when the union holds another member). -/
def moto_alg_test_desc.cipher (d : moto_alg_test_desc) : moto_cipher_test_suite :=
  match d.suite with
  | .cipher s => s
  | _ => { enc := { vecs := none, count := 0 }, dec := { vecs := none, count := 0 } }

/-- Member `suite.hash` of an entry (an empty suite when the union holds another member). -/
def moto_alg_test_desc.hash (d : moto_alg_test_desc) : moto_hash_test_suite :=
  match d.suite with
  | .hash s => s
  | _ => { vecs := [], count := 0 }

/-- Member `suite.cprng` of an entry (an empty suite when the union holds another member). -/
def moto_alg_test_desc.cprng (d : moto_alg_test_desc) : moto_cprng_test_suite :=
  match d.suite with
  | .cprng s => s
  | _ => { vecs := [], count := 0 }

/-- The numeric value of an entry's `alg_id`. -/
def alg_id_value (c : Config) : Option MOTO_CRYPTO_ALG → Nat
  | none => 0
  | some a => c.alg_value a

/-- The table `moto_alg_test_descs` ("Please keep this list sorted by algorithm name"). -/
def moto_alg_test_descs : List moto_alg_test_desc := [
  { alg := ascii "ansi_cprng",
    test := .cprng,
    alg_id := some .CPRNG,
    suite := .cprng { vecs := moto_ansi_cprng_aes_tv_template,
                      count := ANSI_CPRNG_AES_TEST_VECTORS } },
  { alg := ascii "cbc(aes)",
    test := .skcipher,
    suite := .cipher {
      enc := { vecs := some moto_aes_cbc_enc_tv_template, count := AES_CBC_ENC_TEST_VECTORS },
      dec := { vecs := some moto_aes_cbc_dec_tv_template, count := AES_CBC_DEC_TEST_VECTORS } } },
  { alg := ascii "cbc(des3_ede)",
    test := .skcipher,
    alg_id := some .TDES_CBC,
    suite := .cipher {
      enc := { vecs := some moto_des3_ede_cbc_enc_tv_template,
               count := DES3_EDE_CBC_ENC_TEST_VECTORS },
      dec := { vecs := some moto_des3_ede_cbc_dec_tv_template,
               count := DES3_EDE_CBC_DEC_TEST_VECTORS } } },
  { alg := ascii "ctr(aes)",
    test := .skcipher,
    suite := .cipher {
      enc := { vecs := some moto_aes_ctr_enc_tv_template, count := AES_CTR_ENC_TEST_VECTORS },
      dec := { vecs := some moto_aes_ctr_dec_tv_template, count := AES_CTR_DEC_TEST_VECTORS } } },
  { alg := ascii "ecb(aes)",
    test := .skcipher,
    suite := .cipher {
      enc := { vecs := some moto_aes_enc_tv_template, count := AES_ENC_TEST_VECTORS },
      dec := { vecs := some moto_aes_dec_tv_template, count := AES_DEC_TEST_VECTORS } } },
  { alg := ascii "ecb(des3_ede)",
    test := .skcipher,
    alg_id := some .TDES_ECB,
    suite := .cipher {
      enc := { vecs := some moto_des3_ede_enc_tv_template, count := DES3_EDE_ENC_TEST_VECTORS },
      dec := { vecs := some moto_des3_ede_dec_tv_template,
               count := DES3_EDE_DEC_TEST_VECTORS } } },
  { alg := ascii "moto_hmac(moto-sha1)",
    test := .hash,
    alg_id := some .HMAC_SHA1,
    suite := .hash { vecs := moto_hmac_sha1_tv_template, count := HMAC_SHA1_TEST_VECTORS } },
  { alg := ascii "moto_hmac(moto-sha224)",
    test := .hash,
    alg_id := some .HMAC_SHA224,
    suite := .hash { vecs := moto_hmac_sha224_tv_template, count := HMAC_SHA224_TEST_VECTORS } },
  { alg := ascii "moto_hmac(moto-sha256)",
    test := .hash,
    alg_id := some .HMAC_SHA256,
    suite := .hash { vecs := moto_hmac_sha256_tv_template, count := HMAC_SHA256_TEST_VECTORS } },
  { alg := ascii "moto_hmac(moto-sha384)",
    test := .hash,
    alg_id := some .HMAC_SHA384,
    suite := .hash { vecs := moto_hmac_sha384_tv_template, count := HMAC_SHA384_TEST_VECTORS } },
  { alg := ascii "moto_hmac(moto-sha512)",
    test := .hash,
    alg_id := some .HMAC_SHA512,
    suite := .hash { vecs := moto_hmac_sha512_tv_template, count := HMAC_SHA512_TEST_VECTORS } },
  { alg := ascii "sha1",
    test := .hash,
    alg_id := some .SHA1,
    suite := .hash { vecs := moto_sha1_tv_template, count := SHA1_TEST_VECTORS } },
  { alg := ascii "sha224",
    test := .hash,
    alg_id := some .SHA224,
    suite := .hash { vecs := moto_sha224_tv_template, count := SHA224_TEST_VECTORS } },
  { alg := ascii "sha256",
    test := .hash,
    alg_id := some .SHA256,
    suite := .hash { vecs := moto_sha256_tv_template, count := SHA256_TEST_VECTORS } },
  { alg := ascii "sha384",
    test := .hash,
    alg_id := some .SHA384,
    suite := .hash { vecs := moto_sha384_tv_template, count := SHA384_TEST_VECTORS } },
  { alg := ascii "sha512",
    test := .hash,
    alg_id := some .SHA512,
    suite := .hash { vecs := moto_sha512_tv_template, count := SHA512_TEST_VECTORS } } ]

/-- The loop of `moto_alg_find_test` over a table `descs`, started with the current
`start` and `end`.  `fuel` bounds the number of iterations; the result is `none` when the
bound is used up or an index falls outside the table. -/
def find_loop (descs : List moto_alg_test_desc) (alg : List Nat) :
    Nat → Nat → Nat → Option Int
  | 0, _, _ => none
  | fuel + 1, start, stop =>
    if start < stop then
      let i := (start + stop) / 2
      match descs[i]? with
      | none => none
      | some d =>
        let diff := strcmp d.alg alg
        if diff > 0 then find_loop descs alg fuel start i
        else if diff < 0 then find_loop descs alg fuel (i + 1) stop
        else some (i : Int)
    else some (-1)

/-- Finds the position in the array of tests description based on the algorithm name
(`moto_alg_find_test`): `start = 0`, `end = ARRAY_SIZE(moto_alg_test_descs)`. -/
def moto_alg_find_test (alg : List Nat) : Option Int :=
  find_loop moto_alg_test_descs alg (moto_alg_test_descs.length + 1) 0
    moto_alg_test_descs.length

/-! ## The kernel services used by the harness -/

/-- The four operations of the asynchronous hash interface. -/
inductive HashOp where
  | digest | init | update | final
  deriving DecidableEq, Repr

/-- The handle of a hash transform; `digestsize` is `crypto_ahash_digestsize(tfm)`. -/
structure crypto_ahash where
  handle : Nat
  digestsize : Nat
  deriving DecidableEq, Repr

/-- The handle of a block cipher transform. -/
structure crypto_ablkcipher where
  handle : Nat
  deriving DecidableEq, Repr

/-- The handle of an RNG transform; `seedsize` is `crypto_rng_seedsize(tfm)`. -/
structure crypto_rng where
  handle : Nat
  seedsize : Nat
  deriving DecidableEq, Repr

/-- The struct `moto_tcrypt_result`: the completion (its `done` counter) and the status
stored by the callback. -/
structure moto_tcrypt_result where
  completion : Nat
  err : Int
  deriving DecidableEq, Repr

/-- The answer of an asynchronous crypto call: `ret` is what the call returns; `cbs` are
the statuses with which the primitive invokes the request's completion callback, in
order, while the caller waits for the completion; `intr`, when non-zero, is the value with
which the wait returns if a signal arrives and no completion was signalled. -/
structure OpResult where
  ret : Int
  cbs : List Int
  intr : Int
  deriving DecidableEq, Repr

/-- The calls the harness makes, as logged in the trace.  The index `i` of a call is the
position in the vector table of the vector being processed; `ret` and `ok` are the
answer. `memcmp i k ret` is the comparison of output and expected result for vector `i`
(chunk `k` in the chunked cipher pass, `0` elsewhere). -/
inductive Event where
  | get_free_page (i : Nat) (ok : Bool)
  | free_page (i : Nat)
  | init_completion
  | INIT_COMPLETION
  | wait (ret : Int)
  | ahash_request_alloc (ok : Bool)
  | ahash_request_free
  | ahash_setkey (i : Nat) (key : List Nat) (ksize : Nat) (ret : Int)
  | ahash_op (i : Nat) (op : HashOp) (sg : List scatterlist) (nbytes : Nat) (ret : Int)
  | ablkcipher_request_alloc (ok : Bool)
  | ablkcipher_request_free
  | clear_flags
  | set_flags_weak_key
  | ablkcipher_setkey (i : Nat) (key : List Nat) (klen : Nat) (ret : Int)
  | ablkcipher_crypt (i : Nat) (enc : Bool) (sg : List scatterlist) (nbytes : Nat)
      (iv : List Nat) (ret : Int)
  | memcmp (i : Nat) (k : Nat) (ret : Int)
  | kmalloc (ok : Bool)
  | kfree
  | rng_reset (i : Nat) (seed : List Nat) (slen : Nat) (ret : Int)
  | rng_get_bytes (i : Nat) (nbytes : Nat) (ret : Int)
  | alloc_tfm (kind : test_fn) (driver : List Nat) (type mask : Nat) (ok : Bool)
  | free_tfm (kind : test_fn)
  | test (idx : Nat) (driver : List Nat) (type mask : Nat)
  | printk_passed
  | printk_not_passed
  | printk_no_test
  deriving DecidableEq, Repr

/-- The kernel services the harness calls, over an environment state `σ`.  Each one takes
the current state and the call's arguments and gives the answer and the next state.

* `get_free_page`: `none` when no page is available, else the page's initial contents.
* `uninit_int`: the value found in an uninitialised `int` on the stack.
* `crypto_ahash_op`: one of digest/init/update/final on a request whose source is the
  scatter list `sg` (over the scratch pages) with `nbytes` bytes and whose result buffer
  currently holds `result`; gives the call's answer and the result buffer afterwards.
* `crypto_ablkcipher_setkey`: `weak` tells whether `CRYPTO_TFM_REQ_WEAK_KEY` is set in the
  transform's flags (all other flags are cleared).
* `crypto_ablkcipher_crypt`: `crypto_ablkcipher_encrypt` when `enc` is true, else
  `crypto_ablkcipher_decrypt`, in place on the scatter list; gives the call's answer and
  the scratch pages afterwards.
* `kmalloc`: `none` on failure, else the initial contents of the block.
* `crypto_rng_get_bytes`: gives the returned count (or error) and the result buffer
  afterwards.
* `crypto_alloc_*`: `Except.error e` for an `ERR_PTR(e)`. -/
structure Env (σ : Type) where
  get_free_page : σ → Option (Nat → Nat) × σ
  uninit_int : σ → Int
  ahash_request_alloc : σ → Bool × σ
  crypto_ahash_setkey : σ → crypto_ahash → List Nat → Nat → Int × σ
  crypto_ahash_op : σ → crypto_ahash → HashOp → List scatterlist → Nat → Mem →
    (Nat → Nat) → OpResult × (Nat → Nat) × σ
  ablkcipher_request_alloc : σ → Bool × σ
  crypto_ablkcipher_setkey : σ → crypto_ablkcipher → Bool → List Nat → Nat → Int × σ
  crypto_ablkcipher_crypt : σ → crypto_ablkcipher → Bool → List scatterlist → Nat →
    List Nat → Mem → OpResult × Mem × σ
  kmalloc : σ → Nat → Option (Nat → Nat) × σ
  crypto_rng_reset : σ → crypto_rng → List Nat → Nat → Int × σ
  crypto_rng_get_bytes : σ → crypto_rng → Nat → (Nat → Nat) → Int × (Nat → Nat) × σ
  crypto_alloc_ahash : σ → List Nat → Nat → Nat → Except Int crypto_ahash × σ
  crypto_alloc_ablkcipher : σ → List Nat → Nat → Nat → Except Int crypto_ablkcipher × σ
  crypto_alloc_rng : σ → List Nat → Nat → Nat → Except Int crypto_rng × σ

/-- The state of a run: the environment's state, the scratch pages, the pending-result
record shared with the completion callback, and the trace of calls made so far. -/
structure State (σ : Type) where
  env : σ
  xbuf : Mem
  tresult : moto_tcrypt_result
  trace : List Event

/-- Appends events to the trace. -/
def State.log {σ : Type} (s : State σ) (es : List Event) : State σ :=
  { s with trace := s.trace ++ es }

/-- How the processing of one vector ends: go on with the next vector, leave through the
label `out` with status `ret`, or never return a status (a wait for a completion that
does not arrive, or a read past the end of the vector table). -/
inductive Flow where
  | next
  | out (ret : Int)
  | stuck
  deriving DecidableEq, Repr

/-! ## Completion handling -/

/-- The callback `moto_tcrypt_complete`: ignores `-EINPROGRESS`; otherwise stores the status
and signals the completion. -/
def moto_tcrypt_complete (res : moto_tcrypt_result) (err : Int) : moto_tcrypt_result :=
  if err = -EINPROGRESS then res
  else { res with err := err, completion := res.completion + 1 }

/-- The kernel's `wait_for_completion_interruptible` on the record `tr`, while the primitive
behaves as `r` says: the callbacks run; if the completion is then signalled the wait
consumes it and returns `0`; else, if a signal arrives, it returns `r.intr`; else it never
returns (`none`). -/
def wait_for_completion_interruptible (tr : moto_tcrypt_result) (r : OpResult) :
    Option (Int × moto_tcrypt_result) :=
  let tr1 := r.cbs.foldl moto_tcrypt_complete tr
  if tr1.completion ≠ 0 then some (0, { tr1 with completion := tr1.completion - 1 })
  else if r.intr ≠ 0 then some (r.intr, tr1)
  else none

/-- The helper `moto_do_one_async_hash_op(req, tr, ret)`, where `r.ret` is `ret`. -/
def moto_do_one_async_hash_op {σ : Type} (s : State σ) (r : OpResult) :
    Option Int × State σ :=
  if r.ret = -EINPROGRESS ∨ r.ret = -EBUSY then
    match wait_for_completion_interruptible s.tresult r with
    | none => (none, s)
    | some (w, tr) =>
      let ret := if w = 0 then tr.err else w
      (some ret, { s with tresult := { tr with completion := 0 },
                          trace := s.trace ++ [.wait w, .INIT_COMPLETION] })
  else (some r.ret, s)

/-- The `switch (ret)` that follows the crypto call in the chunked hash pass and in both
cipher passes: the status with which execution goes on (`0`: `break`, the operation
succeeded; non-zero: `goto out` with that status). -/
def inline_completion {σ : Type} (s : State σ) (r : OpResult) : Option Int × State σ :=
  if r.ret = 0 then (some 0, s)
  else if r.ret = -EINPROGRESS ∨ r.ret = -EBUSY then
    match wait_for_completion_interruptible s.tresult r with
    | none => (none, s)
    | some (w, tr) =>
      if w = 0 then
        if tr.err = 0 then
          (some 0, { s with tresult := { tr with completion := 0 },
                            trace := s.trace ++ [.wait w, .INIT_COMPLETION] })
        else (some tr.err, { s with tresult := tr, trace := s.trace ++ [.wait w] })
      else (some w, { s with tresult := tr, trace := s.trace ++ [.wait w] })
  else (some r.ret, s)

/-! ## Scratch buffer pool -/

/-- The allocation loop of `moto_testmgr_alloc_buf`: `n` pages still to get, the next
one being `buf[i]`.  Gives the index whose allocation failed, if any. -/
def alloc_pages {σ : Type} (E : Env σ) : Nat → Nat → State σ → Option Nat × State σ
  | 0, _, s => (none, s)
  | n + 1, i, s =>
    match E.get_free_page s.env with
    | (none, e) => (some i, { s with env := e, trace := s.trace ++ [.get_free_page i false] })
    | (some pg, e) =>
      alloc_pages E n (i + 1)
        { s with env := e,
                 xbuf := fun b o => if b = i then pg o else s.xbuf b o,
                 trace := s.trace ++ [.get_free_page i true] }

/-- The loop `while (i-- > 0) free_page(buf[i])`. -/
def free_pages_below {σ : Type} : Nat → State σ → State σ
  | 0, s => s
  | i + 1, s => free_pages_below i (s.log [.free_page i])

/-- The function `moto_testmgr_alloc_buf`. -/
def moto_testmgr_alloc_buf {σ : Type} (E : Env σ) (s : State σ) : Int × State σ :=
  match alloc_pages E XBUFSIZE 0 s with
  | (none, s1) => (0, s1)
  | (some i, s1) => (-ENOMEM, free_pages_below i s1)

/-- The function `moto_testmgr_buf`: frees `buf[0]`, ..., `buf[XBUFSIZE - 1]`. -/
def moto_testmgr_buf {σ : Type} (s : State σ) : State σ :=
  s.log ((List.range XBUFSIZE).map Event.free_page)

/-! ## Scatter layout -/

/-- A pointer into the scratch pages: buffer number and offset from the page start. -/
structure Ptr where
  buf : Nat
  off : Nat
  deriving DecidableEq, Repr

/-- The pointer `xbuf[MOTO_IDX[k] >> PAGE_SHIFT] + offset_in_page(MOTO_IDX[k])`. -/
def chunk_ptr (c : Config) (k : Nat) : Ptr :=
  { buf := MOTO_IDX.getD k 0 >>> c.PAGE_SHIFT,
    off := offset_in_page c (MOTO_IDX.getD k 0) }

/-- The variables of a layout loop: the running source offset `temp`, the scratch pages
and the scatter list `sg`. -/
structure Layout where
  temp : Nat
  xbuf : Mem
  sg : List scatterlist

/-- The body of the layout loop of the chunked pass of `moto_test_hash` for chunk `k`;
`none` when the `WARN_ON` page-fit check fires (`goto out`). -/
def hash_layout_step (c : Config) (t : moto_hash_testvec) (k : Nat) (l : Layout) :
    Option Layout :=
  if offset_in_page c (MOTO_IDX.getD k 0) + t.tap.getD k 0 > PAGE_SIZE c then none
  else
    let q := chunk_ptr c k
    some { temp := l.temp + t.tap.getD k 0,
           xbuf := l.xbuf.memcpy q.buf q.off (fun j => byteAt t.plaintext (l.temp + j))
                     (t.tap.getD k 0),
           sg := l.sg.set k ⟨q.buf, q.off, t.tap.getD k 0⟩ }

/-- The layout loop of the chunked pass of `moto_test_hash` after its first `n`
iterations (`k = 0, ..., n - 1`), started with `temp = 0` and `sg_init_table(sg, np)`;
`none` once a chunk has failed the page-fit check. -/
def hash_layout (c : Config) (t : moto_hash_testvec) (xbuf : Mem) : Nat → Option Layout
  | 0 => some { temp := 0, xbuf := xbuf, sg := List.replicate t.np ⟨0, 0, 0⟩ }
  | n + 1 => (hash_layout c t xbuf n).bind (hash_layout_step c t n)

/-- The body of the layout loop of the chunked pass of `moto_test_skcipher` for chunk `k`;
`none` when the `WARN_ON` page-fit check fires (`goto out`). -/
def skcipher_layout_step (c : Config) (t : moto_cipher_testvec) (k : Nat) (l : Layout) :
    Option Layout :=
  if offset_in_page c (MOTO_IDX.getD k 0) + t.tap.getD k 0 > PAGE_SIZE c then none
  else
    let q := chunk_ptr c k
    let m1 := l.xbuf.memcpy q.buf q.off (fun j => byteAt t.input (l.temp + j))
                (t.tap.getD k 0)
    let m2 := if offset_in_page c q.off + t.tap.getD k 0 < PAGE_SIZE c
              then m1.store q.buf (q.off + t.tap.getD k 0) 0 else m1
    some { temp := l.temp + t.tap.getD k 0,
           xbuf := m2,
           sg := l.sg.set k ⟨q.buf, q.off, t.tap.getD k 0⟩ }

/-- The layout loop of the chunked pass of `moto_test_skcipher` after its first `n`
iterations, started with `temp = 0` and `sg_init_table(sg, np)`; `none` once a chunk has
failed the page-fit check. -/
def skcipher_layout (c : Config) (t : moto_cipher_testvec) (xbuf : Mem) :
    Nat → Option Layout
  | 0 => some { temp := 0, xbuf := xbuf, sg := List.replicate t.np ⟨0, 0, 0⟩ }
  | n + 1 => (skcipher_layout c t xbuf n).bind (skcipher_layout_step c t n)

/-! ## Hash test runner -/

/-- The call `crypto_ahash_clear_flags(tfm, ~0)` followed by `crypto_ahash_setkey`, made
when `ksize` is non-zero; without a key the status is `0`. -/
def hash_setkey {σ : Type} (E : Env σ) (tfm : crypto_ahash) (i : Nat)
    (t : moto_hash_testvec) (s : State σ) : Int × State σ :=
  if t.ksize ≠ 0 then
    match E.crypto_ahash_setkey s.env tfm t.key t.ksize with
    | (ret, e) =>
      (ret, { s with env := e,
                     trace := s.trace ++ [.clear_flags, .ahash_setkey i t.key t.ksize ret] })
  else (0, s)

/-- One call of `crypto_ahash_digest`, `_init`, `_update` or `_final` on the request. -/
def ahash_call {σ : Type} (E : Env σ) (tfm : crypto_ahash) (op : HashOp) (i : Nat)
    (sg : List scatterlist) (nbytes : Nat) (result : Nat → Nat) (s : State σ) :
    OpResult × (Nat → Nat) × State σ :=
  match E.crypto_ahash_op s.env tfm op sg nbytes s.xbuf result with
  | (r, result1, e) =>
    (r, result1, { s with env := e, trace := s.trace ++ [.ahash_op i op sg nbytes r.ret] })

/-- One hash operation passed through `moto_do_one_async_hash_op`. -/
def hash_op_sync {σ : Type} (E : Env σ) (tfm : crypto_ahash) (op : HashOp) (i : Nat)
    (sg : List scatterlist) (nbytes : Nat) (result : Nat → Nat) (s : State σ) :
    Option Int × (Nat → Nat) × State σ :=
  match ahash_call E tfm op i sg nbytes result s with
  | (r, result1, s1) =>
    match moto_do_one_async_hash_op s1 r with
    | (ret, s2) => (ret, result1, s2)

/-- The digest computation of the unchunked pass: one-shot digest when `use_digest`, else
init, update, final, each step only if the one before returned `0`. -/
def hash_compute {σ : Type} (E : Env σ) (tfm : crypto_ahash) (use_digest : Bool) (i : Nat)
    (sg : List scatterlist) (nbytes : Nat) (result : Nat → Nat) (s : State σ) :
    Option Int × (Nat → Nat) × State σ :=
  if use_digest then hash_op_sync E tfm .digest i sg nbytes result s
  else
    match hash_op_sync E tfm .init i sg nbytes result s with
    | (some 0, result1, s1) =>
      match hash_op_sync E tfm .update i sg nbytes result1 s1 with
      | (some 0, result2, s2) => hash_op_sync E tfm .final i sg nbytes result2 s2
      | r => r
    | r => r

/-- The statement `result[0] ^= 0xff`. -/
def flip_first (result : Nat → Nat) : Nat → Nat :=
  fun j => if j = 0 then result 0 ^^^ 0xff else result j

/-- The body of the first loop of `moto_test_hash` for a vector `t = template[i]` without
chunk list. -/
def hash_unchunked_vec {σ : Type} (E : Env σ) (c : Config) (tfm : crypto_ahash)
    (use_digest : Bool) (inject_fault : Int) (i : Nat) (t : moto_hash_testvec)
    (s : State σ) : Flow × State σ :=
  let s1 := { s with xbuf := s.xbuf.memcpy 0 0 (byteAt t.plaintext) t.psize }
  let sg : List scatterlist := [⟨0, 0, t.psize⟩]
  match hash_setkey E tfm i t s1 with
  | (kret, s2) =>
    if kret ≠ 0 then (.out kret, s2)
    else
      match hash_compute E tfm use_digest i sg t.psize (fun _ => 0) s2 with
      | (none, _, s3) => (.stuck, s3)
      | (some ret, result, s3) =>
        if ret ≠ 0 then (.out ret, s3)
        else
          let result1 := if c.FAULT_INJECTION ∧ inject_fault ≠ 0 then flip_first result
                         else result
          let cmp := memcmp result1 (byteAt t.digest) tfm.digestsize
          if cmp ≠ 0 then (.out (-EINVAL), s3.log [.memcmp i 0 cmp])
          else (.next, s3.log [.memcmp i 0 cmp])

/-- The body of the second loop of `moto_test_hash` for a vector `t = template[i]` with a
chunk list.  When the page-fit check fires the pages are released right after, so the
bytes already copied are not kept in the state. -/
def hash_chunked_vec {σ : Type} (E : Env σ) (c : Config) (tfm : crypto_ahash)
    (i : Nat) (t : moto_hash_testvec) (s : State σ) : Flow × State σ :=
  match hash_layout c t s.xbuf t.np with
  | none => (.out (-EINVAL), s)
  | some l =>
    match hash_setkey E tfm i t { s with xbuf := l.xbuf } with
    | (kret, s2) =>
      if kret ≠ 0 then (.out kret, s2)
      else
        match ahash_call E tfm .digest i l.sg t.psize (fun _ => 0) s2 with
        | (r, result, s3) =>
          match inline_completion s3 r with
          | (none, s4) => (.stuck, s4)
          | (some ret, s4) =>
            if ret ≠ 0 then (.out ret, s4)
            else
              let cmp := memcmp result (byteAt t.digest) tfm.digestsize
              if cmp ≠ 0 then (.out (-EINVAL), s4.log [.memcmp i 0 cmp])
              else (.next, s4.log [.memcmp i 0 cmp])

/-- The first loop of `moto_test_hash` (`for (i = 0; i < tcount; i++)`, vectors with
`np == 0`), with `n` iterations left and the next index `i`. -/
def hash_pass1 {σ : Type} (E : Env σ) (c : Config) (tfm : crypto_ahash)
    (template : List moto_hash_testvec) (use_digest : Bool) (inject_fault : Int) :
    Nat → Nat → State σ → Flow × State σ
  | 0, _, s => (.next, s)
  | n + 1, i, s =>
    match template[i]? with
    | none => (.stuck, s)
    | some t =>
      if t.np ≠ 0 then hash_pass1 E c tfm template use_digest inject_fault n (i + 1) s
      else
        match hash_unchunked_vec E c tfm use_digest inject_fault i t s with
        | (.next, s1) => hash_pass1 E c tfm template use_digest inject_fault n (i + 1) s1
        | r => r

/-- The second loop of `moto_test_hash` (vectors with `np != 0`), with `n` iterations
left and the next index `i`. -/
def hash_pass2 {σ : Type} (E : Env σ) (c : Config) (tfm : crypto_ahash)
    (template : List moto_hash_testvec) : Nat → Nat → State σ → Flow × State σ
  | 0, _, s => (.next, s)
  | n + 1, i, s =>
    match template[i]? with
    | none => (.stuck, s)
    | some t =>
      if t.np ≠ 0 then
        match hash_chunked_vec E c tfm i t s with
        | (.next, s1) => hash_pass2 E c tfm template n (i + 1) s1
        | r => r
      else hash_pass2 E c tfm template n (i + 1) s

/-- The code of `moto_test_hash` from the label `out`: free the request and the scratch
pages. -/
def hash_out {σ : Type} (s : State σ) : State σ :=
  moto_testmgr_buf (s.log [.ahash_request_free])

/-- The function `moto_test_hash(tfm, template, tcount, use_digest, inject_fault)`. -/
def moto_test_hash {σ : Type} (E : Env σ) (c : Config) (tfm : crypto_ahash)
    (template : List moto_hash_testvec) (tcount : Nat) (use_digest : Bool)
    (inject_fault : Int) (s : State σ) : Option Int × State σ :=
  match moto_testmgr_alloc_buf E s with
  | (aret, s1) =>
    if aret ≠ 0 then (some (-ENOMEM), s1)
    else
      let tr : moto_tcrypt_result := { completion := 0, err := E.uninit_int s1.env }
      let s2 : State σ := { s1 with tresult := tr, trace := s1.trace ++ [.init_completion] }
      match E.ahash_request_alloc s2.env with
      | (false, e) =>
        (some (-ENOMEM),
          moto_testmgr_buf { s2 with env := e,
                                     trace := s2.trace ++ [.ahash_request_alloc false] })
      | (true, e) =>
        let s3 : State σ :=
          { s2 with env := e, trace := s2.trace ++ [.ahash_request_alloc true] }
        match hash_pass1 E c tfm template use_digest inject_fault tcount 0 s3 with
        | (.stuck, s4) => (none, s4)
        | (.out ret, s4) => (some ret, hash_out s4)
        | (.next, s4) =>
          match hash_pass2 E c tfm template tcount 0 s4 with
          | (.stuck, s5) => (none, s5)
          | (.out ret, s5) => (some ret, hash_out s5)
          | (.next, s5) => (some 0, hash_out s5)

/-! ## Cipher test runner -/

/-- The buffer `iv` at the head of each loop iteration: `memcpy(iv, template[i].iv,
MAX_IVLEN)` when the vector has an IV, else `memset(iv, 0, MAX_IVLEN)`.  The copy takes
`MAX_IVLEN` bytes from the address of the literal: the literal's bytes, its terminating
NUL, and past it whatever the image holds there (`after_literal`). -/
def vec_iv (c : Config) (t : moto_cipher_testvec) : List Nat :=
  match t.iv with
  | some iv =>
    (List.range c.MAX_IVLEN).map (fun j =>
      if j ≤ iv.length then byteAt iv j else c.after_literal iv (j - iv.length - 1))
  | none => List.replicate c.MAX_IVLEN 0

/-- The calls `crypto_ablkcipher_clear_flags(tfm, ~0)`, `crypto_ablkcipher_set_flags(tfm,
CRYPTO_TFM_REQ_WEAK_KEY)` when the vector's `wk` is set, and `crypto_ablkcipher_setkey`. -/
def skcipher_setkey {σ : Type} (E : Env σ) (tfm : crypto_ablkcipher) (i : Nat)
    (t : moto_cipher_testvec) (s : State σ) : Int × State σ :=
  match E.crypto_ablkcipher_setkey s.env tfm (decide (t.wk ≠ 0)) t.key t.klen with
  | (ret, e) =>
    (ret, { s with env := e,
                   trace := s.trace ++ [.clear_flags] ++
                     (if t.wk ≠ 0 then [.set_flags_weak_key] else []) ++
                     [.ablkcipher_setkey i t.key t.klen ret] })

/-- The call `enc ? crypto_ablkcipher_encrypt(req) : crypto_ablkcipher_decrypt(req)` on the
request set up with source and destination `sg`, `nbytes` bytes and `iv`. -/
def skcipher_call {σ : Type} (E : Env σ) (tfm : crypto_ablkcipher) (enc : Int) (i : Nat)
    (sg : List scatterlist) (nbytes : Nat) (iv : List Nat) (s : State σ) :
    OpResult × State σ :=
  match E.crypto_ablkcipher_crypt s.env tfm (decide (enc ≠ 0)) sg nbytes iv s.xbuf with
  | (r, m, e) =>
    (r, { s with env := e, xbuf := m,
                 trace := s.trace ++
                   [.ablkcipher_crypt i (decide (enc ≠ 0)) sg nbytes iv r.ret] })

/-- The body of the first loop of `moto_test_skcipher` for a vector `t = template[i]` with
`np == 0`. -/
def skcipher_unchunked_vec {σ : Type} (E : Env σ) (c : Config) (tfm : crypto_ablkcipher)
    (enc : Int) (inject_fault : Int) (i : Nat) (t : moto_cipher_testvec) (s : State σ) :
    Flow × State σ :=
  if t.ilen > PAGE_SIZE c then (.out (-EINVAL), s)
  else
    let s1 : State σ := { s with xbuf := s.xbuf.memcpy 0 0 (byteAt t.input) t.ilen }
    match skcipher_setkey E tfm i t s1 with
    | (ret, s2) =>
      if (if ret = 0 then 1 else 0) = t.fail then (.out ret, s2)
      else if ret ≠ 0 then (.next, s2)
      else
        match skcipher_call E tfm enc i [⟨0, 0, t.ilen⟩] t.ilen (vec_iv c t) s2 with
        | (r, s3) =>
          match inline_completion s3 r with
          | (none, s4) => (.stuck, s4)
          | (some ret1, s4) =>
            if ret1 ≠ 0 then (.out ret1, s4)
            else
              let m := if c.FAULT_INJECTION ∧
                          (inject_fault = INJECT_FAULT_ALL_KEY_LENGHTS ∨
                            inject_fault = (t.klen : Int) * 8)
                       then s4.xbuf.store 0 0 (s4.xbuf 0 0 ^^^ 0xff) else s4.xbuf
              let cmp := memcmp (m 0) (byteAt t.result) t.rlen
              let s5 : State σ := { s4 with xbuf := m, trace := s4.trace ++ [.memcmp i 0 cmp] }
              if cmp ≠ 0 then (.out (-EINVAL), s5) else (.next, s5)

/-- The scan `for (n = 0; offset_in_page(q + n) && q[n]; n++) ;` from the pointer `q`,
with the current `n`; `fuel` bounds the number of further iterations. -/
def overrun_scan (c : Config) (m : Mem) (q : Ptr) : Nat → Nat → Nat
  | 0, n => n
  | fuel + 1, n =>
    if offset_in_page c (q.off + n) ≠ 0 ∧ m q.buf (q.off + n) ≠ 0
    then overrun_scan c m q fuel (n + 1) else n

/-- The comparison loop of the chunked pass of `moto_test_skcipher` with `n` chunks left,
the next one being `k`, and the running offset `temp` into the expected result: the
events of the comparisons made, and whether the loop left through `goto out`. -/
def skcipher_check_chunks (c : Config) (t : moto_cipher_testvec) (i : Nat) (m : Mem) :
    Nat → Nat → Nat → List Event × Bool
  | 0, _, _ => ([], false)
  | n + 1, k, temp =>
    let q := chunk_ptr c k
    let cmp := memcmp (fun j => m q.buf (q.off + j)) (fun j => byteAt t.result (temp + j))
                 (t.tap.getD k 0)
    if cmp ≠ 0 then ([.memcmp i k cmp], true)
    else if overrun_scan c m ⟨q.buf, q.off + t.tap.getD k 0⟩ (PAGE_SIZE c) 0 ≠ 0
    then ([.memcmp i k cmp], true)
    else
      match skcipher_check_chunks c t i m n (k + 1) (temp + t.tap.getD k 0) with
      | (es, b) => (.memcmp i k cmp :: es, b)

/-- The body of the second loop of `moto_test_skcipher` for a vector `t = template[i]`
with a chunk list.  When the page-fit check fires the pages are released right after, so
the bytes already copied are not kept in the state. -/
def skcipher_chunked_vec {σ : Type} (E : Env σ) (c : Config) (tfm : crypto_ablkcipher)
    (enc : Int) (i : Nat) (t : moto_cipher_testvec) (s : State σ) : Flow × State σ :=
  match skcipher_setkey E tfm i t s with
  | (ret, s2) =>
    if (if ret = 0 then 1 else 0) = t.fail then (.out ret, s2)
    else if ret ≠ 0 then (.next, s2)
    else
      match skcipher_layout c t s2.xbuf t.np with
      | none => (.out (-EINVAL), s2)
      | some l =>
        match skcipher_call E tfm enc i l.sg t.ilen (vec_iv c t) { s2 with xbuf := l.xbuf } with
        | (r, s3) =>
          match inline_completion s3 r with
          | (none, s4) => (.stuck, s4)
          | (some ret1, s4) =>
            if ret1 ≠ 0 then (.out ret1, s4)
            else
              match skcipher_check_chunks c t i s4.xbuf t.np 0 0 with
              | (es, true) => (.out (-EINVAL), s4.log es)
              | (es, false) => (.next, s4.log es)

/-- The first loop of `moto_test_skcipher`, with `n` iterations left and the next index
`i`. -/
def skcipher_pass1 {σ : Type} (E : Env σ) (c : Config) (tfm : crypto_ablkcipher)
    (enc : Int) (template : List moto_cipher_testvec) (inject_fault : Int) :
    Nat → Nat → State σ → Flow × State σ
  | 0, _, s => (.next, s)
  | n + 1, i, s =>
    match template[i]? with
    | none => (.stuck, s)
    | some t =>
      if t.np = 0 then
        match skcipher_unchunked_vec E c tfm enc inject_fault i t s with
        | (.next, s1) => skcipher_pass1 E c tfm enc template inject_fault n (i + 1) s1
        | r => r
      else skcipher_pass1 E c tfm enc template inject_fault n (i + 1) s

/-- The second loop of `moto_test_skcipher`, with `n` iterations left and the next index
`i`. -/
def skcipher_pass2 {σ : Type} (E : Env σ) (c : Config) (tfm : crypto_ablkcipher)
    (enc : Int) (template : List moto_cipher_testvec) :
    Nat → Nat → State σ → Flow × State σ
  | 0, _, s => (.next, s)
  | n + 1, i, s =>
    match template[i]? with
    | none => (.stuck, s)
    | some t =>
      if t.np ≠ 0 then
        match skcipher_chunked_vec E c tfm enc i t s with
        | (.next, s1) => skcipher_pass2 E c tfm enc template n (i + 1) s1
        | r => r
      else skcipher_pass2 E c tfm enc template n (i + 1) s

/-- The code of `moto_test_skcipher` from the label `out`: free the request and the
scratch pages. -/
def skcipher_out {σ : Type} (s : State σ) : State σ :=
  moto_testmgr_buf (s.log [.ablkcipher_request_free])

/-- The function `moto_test_skcipher(tfm, enc, template, tcount, inject_fault)`. -/
def moto_test_skcipher {σ : Type} (E : Env σ) (c : Config) (tfm : crypto_ablkcipher)
    (enc : Int) (template : List moto_cipher_testvec) (tcount : Nat) (inject_fault : Int)
    (s : State σ) : Option Int × State σ :=
  match moto_testmgr_alloc_buf E s with
  | (aret, s1) =>
    if aret ≠ 0 then (some (-ENOMEM), s1)
    else
      let tr : moto_tcrypt_result := { completion := 0, err := E.uninit_int s1.env }
      let s2 : State σ := { s1 with tresult := tr, trace := s1.trace ++ [.init_completion] }
      match E.ablkcipher_request_alloc s2.env with
      | (false, e) =>
        (some (-ENOMEM),
          skcipher_out { s2 with env := e,
                                 trace := s2.trace ++ [.ablkcipher_request_alloc false] })
      | (true, e) =>
        let s3 : State σ :=
          { s2 with env := e, trace := s2.trace ++ [.ablkcipher_request_alloc true] }
        match skcipher_pass1 E c tfm enc template inject_fault tcount 0 s3 with
        | (.stuck, s4) => (none, s4)
        | (.out ret, s4) => (some ret, skcipher_out s4)
        | (.next, s4) =>
          match skcipher_pass2 E c tfm enc template tcount 0 s4 with
          | (.stuck, s5) => (none, s5)
          | (.out ret, s5) => (some ret, skcipher_out s5)
          | (.next, s5) => (some 0, skcipher_out s5)

/-! ## RNG test runner -/

/-- The loop `for (j = 0; j < template[i].loops; j++)` of `moto_test_cprng` with `n`
iterations left: `none` when every call returned `rlen` bytes, else the returned value
`err` with which the runner leaves through `out`. -/
def cprng_get_loop {σ : Type} (E : Env σ) (tfm : crypto_rng) (i : Nat) (rlen : Nat) :
    Nat → (Nat → Nat) → State σ → Option Int × (Nat → Nat) × State σ
  | 0, result, s => (none, result, s)
  | n + 1, result, s =>
    match E.crypto_rng_get_bytes s.env tfm rlen result with
    | (err, result1, e) =>
      let s1 : State σ := { s with env := e, trace := s.trace ++ [.rng_get_bytes i rlen err] }
      if err ≠ (rlen : Int) then (some err, result1, s1)
      else cprng_get_loop E tfm i rlen n result1 s1

/-- The body of the loop of `moto_test_cprng` for the vector `t = template[i]`, on the
seed buffer `seed`: the buffer afterwards, and `none` to go on with the next vector or the
status `err` with which the runner leaves through `out`. -/
def cprng_vec {σ : Type} (E : Env σ) (c : Config) (tfm : crypto_rng) (inject_fault : Int)
    (i : Nat) (t : moto_cprng_testvec) (seed : Nat → Nat) (s : State σ) :
    Option Int × (Nat → Nat) × State σ :=
  let seed1 : Nat → Nat := fun j => if j < t.vlen then byteAt t.v j else seed j
  let seed2 : Nat → Nat :=
    fun j => if t.vlen ≤ j ∧ j < t.vlen + t.klen then byteAt t.key (j - t.vlen) else seed1 j
  let seed3 : Nat → Nat :=
    fun j => if t.vlen + t.klen ≤ j ∧ j < t.vlen + t.klen + t.dtlen
             then byteAt t.dt (j - (t.vlen + t.klen)) else seed2 j
  match E.crypto_rng_reset s.env tfm ((List.range tfm.seedsize).map seed3) tfm.seedsize with
  | (err, e) =>
    let s1 : State σ :=
      { s with env := e,
               trace := s.trace ++
                 [.rng_reset i ((List.range tfm.seedsize).map seed3) tfm.seedsize err] }
    if err ≠ 0 then (some err, seed3, s1)
    else
      match cprng_get_loop E tfm i t.rlen t.loops (fun _ => 0) s1 with
      | (some err1, _, s2) => (some err1, seed3, s2)
      | (none, result, s2) =>
        let result1 := if c.FAULT_INJECTION ∧ inject_fault ≠ 0 then flip_first result
                       else result
        let cmp := memcmp result1 (byteAt t.result) t.rlen
        if cmp ≠ 0 then (some (-EINVAL), seed3, s2.log [.memcmp i 0 cmp])
        else (none, seed3, s2.log [.memcmp i 0 cmp])

/-- The loop of `moto_test_cprng` with `n` iterations left and the next index `i`; `err`
is the variable's current value.  `none`: a read past the end of the table. -/
def cprng_loop {σ : Type} (E : Env σ) (c : Config) (tfm : crypto_rng)
    (template : List moto_cprng_testvec) (inject_fault : Int) :
    Nat → Nat → Int → (Nat → Nat) → State σ → Option Int × State σ
  | 0, _, err, _, s => (some err, s)
  | n + 1, i, _, seed, s =>
    match template[i]? with
    | none => (none, s)
    | some t =>
      match cprng_vec E c tfm inject_fault i t seed s with
      | (some err, _, s1) => (some err, s1)
      | (none, seed1, s1) => cprng_loop E c tfm template inject_fault n (i + 1) 0 seed1 s1

/-- The function `moto_test_cprng(tfm, template, tcount, inject_fault)`. -/
def moto_test_cprng {σ : Type} (E : Env σ) (c : Config) (tfm : crypto_rng)
    (template : List moto_cprng_testvec) (tcount : Nat) (inject_fault : Int)
    (s : State σ) : Option Int × State σ :=
  match E.kmalloc s.env tfm.seedsize with
  | (none, e) => (some (-ENOMEM), { s with env := e, trace := s.trace ++ [.kmalloc false] })
  | (some seed, e) =>
    match cprng_loop E c tfm template inject_fault tcount 0 0 seed
        { s with env := e, trace := s.trace ++ [.kmalloc true] } with
    | (none, s1) => (none, s1)
    | (some err, s1) => (some err, s1.log [.kfree])

/-! ## Entry points -/

/-- Whether `fault_injection_mask & x` is non-zero for the macro `a`. -/
def mask_has (c : Config) (a : MOTO_CRYPTO_ALG) : Bool :=
  decide (c.fault_injection_mask &&& c.alg_value a ≠ 0)

/-- The three `if`s on the 128-, 192- and 256-bit masks of one AES mode, in source order. -/
def aes_fault_select (c : Config) (a128 a192 a256 : MOTO_CRYPTO_ALG) (inject_fault : Int) :
    Int :=
  let f1 := if mask_has c a128 then 128 else inject_fault
  let f2 := if mask_has c a192 then 192 else f1
  if mask_has c a256 then 256 else f2

/-- The value of `inject_fault` that `moto_alg_test_skcipher` computes. -/
def skcipher_inject_fault (c : Config) (desc : moto_alg_test_desc) (driver : List Nat) :
    Int :=
  if c.FAULT_INJECTION then
    let f0 : Int := if c.fault_injection_mask &&& alg_id_value c desc.alg_id ≠ 0
                    then INJECT_FAULT_ALL_KEY_LENGHTS else 0
    let f1 := if strcmp driver (ascii "moto-aes-ecb") = 0
              then aes_fault_select c .AES_ECB_128 .AES_ECB_192 .AES_ECB_256 f0 else f0
    let f2 := if strcmp driver (ascii "moto-aes-cbc") = 0
              then aes_fault_select c .AES_CBC_128 .AES_CBC_192 .AES_CBC_256 f1 else f1
    if strcmp driver (ascii "moto-aes-ctr") = 0
    then aes_fault_select c .AES_CTR_128 .AES_CTR_192 .AES_CTR_256 f2 else f2
  else 0

/-- The value of `inject_fault` that `moto_alg_test_hash` and `moto_alg_test_cprng`
compute. -/
def simple_inject_fault (c : Config) (desc : moto_alg_test_desc) : Int :=
  if c.FAULT_INJECTION ∧ c.fault_injection_mask &&& alg_id_value c desc.alg_id ≠ 0 then 1
  else 0

/-- Tests for symmetric key ciphers: the function `moto_alg_test_skcipher`. -/
def moto_alg_test_skcipher {σ : Type} (E : Env σ) (c : Config) (desc : moto_alg_test_desc)
    (driver : List Nat) (type mask : Nat) (s : State σ) : Option Int × State σ :=
  match E.crypto_alloc_ablkcipher s.env driver type mask with
  | (.error e, env1) =>
    (some e, { s with env := env1,
                      trace := s.trace ++ [.alloc_tfm .skcipher driver type mask false] })
  | (.ok tfm, env1) =>
    let s1 : State σ :=
      { s with env := env1, trace := s.trace ++ [.alloc_tfm .skcipher driver type mask true] }
    let inject_fault := skcipher_inject_fault c desc driver
    let enc_run : Option Int × State σ :=
      match desc.cipher.enc.vecs with
      | some vecs => moto_test_skcipher E c tfm ENCRYPT vecs desc.cipher.enc.count
                       inject_fault s1
      | none => (some 0, s1)
    match enc_run with
    | (none, s2) => (none, s2)
    | (some err, s2) =>
      if err ≠ 0 then (some err, s2.log [.free_tfm .skcipher])
      else
        match desc.cipher.dec.vecs with
        | some vecs =>
          match moto_test_skcipher E c tfm DECRYPT vecs desc.cipher.dec.count
              inject_fault s2 with
          | (none, s3) => (none, s3)
          | (some err1, s3) => (some err1, s3.log [.free_tfm .skcipher])
        | none => (some err, s2.log [.free_tfm .skcipher])

/-- Test for hash functions: the function `moto_alg_test_hash`. -/
def moto_alg_test_hash {σ : Type} (E : Env σ) (c : Config) (desc : moto_alg_test_desc)
    (driver : List Nat) (type mask : Nat) (s : State σ) : Option Int × State σ :=
  match E.crypto_alloc_ahash s.env driver type mask with
  | (.error e, env1) =>
    (some e, { s with env := env1,
                      trace := s.trace ++ [.alloc_tfm .hash driver type mask false] })
  | (.ok tfm, env1) =>
    let s1 : State σ :=
      { s with env := env1, trace := s.trace ++ [.alloc_tfm .hash driver type mask true] }
    let inject_fault := simple_inject_fault c desc
    match moto_test_hash E c tfm desc.hash.vecs desc.hash.count true inject_fault s1 with
    | (none, s2) => (none, s2)
    | (some err, s2) =>
      if err = 0 then
        match moto_test_hash E c tfm desc.hash.vecs desc.hash.count false inject_fault s2 with
        | (none, s3) => (none, s3)
        | (some err1, s3) => (some err1, s3.log [.free_tfm .hash])
      else (some err, s2.log [.free_tfm .hash])

/-- Test for RNG: the function `moto_alg_test_cprng`. -/
def moto_alg_test_cprng {σ : Type} (E : Env σ) (c : Config) (desc : moto_alg_test_desc)
    (driver : List Nat) (type mask : Nat) (s : State σ) : Option Int × State σ :=
  match E.crypto_alloc_rng s.env driver type mask with
  | (.error e, env1) =>
    (some e, { s with env := env1,
                      trace := s.trace ++ [.alloc_tfm .cprng driver type mask false] })
  | (.ok rng, env1) =>
    let s1 : State σ :=
      { s with env := env1, trace := s.trace ++ [.alloc_tfm .cprng driver type mask true] }
    match moto_test_cprng E c rng desc.cprng.vecs desc.cprng.count
        (simple_inject_fault c desc) s1 with
    | (none, s2) => (none, s2)
    | (some err, s2) => (some err, s2.log [.free_tfm .cprng])

/-- The call `moto_alg_test_descs[i].test(moto_alg_test_descs + i, driver, type, mask)`
through the entry's function pointer. -/
def run_entry {σ : Type} (E : Env σ) (c : Config) (i : Nat) (driver : List Nat)
    (type mask : Nat) (s : State σ) : Option Int × State σ :=
  match moto_alg_test_descs[i]? with
  | none => (none, s)
  | some desc =>
    match desc.test with
    | .cprng => moto_alg_test_cprng E c desc driver type mask (s.log [.test i driver type mask])
    | .skcipher =>
      moto_alg_test_skcipher E c desc driver type mask (s.log [.test i driver type mask])
    | .hash => moto_alg_test_hash E c desc driver type mask (s.log [.test i driver type mask])

/-- Entry point for algorithm tests: the function `moto_alg_test(driver, alg, type, mask)`. -/
def moto_alg_test {σ : Type} (E : Env σ) (c : Config) (driver alg : List Nat)
    (type mask : Nat) (s : State σ) : Option Int × State σ :=
  match moto_alg_find_test alg, moto_alg_find_test driver with
  | some i, some j =>
    if i < 0 ∧ j < 0 then (some 0, s.log [.printk_no_test])
    else
      let first : Option Int × State σ :=
        if i ≥ 0 then
          match run_entry E c i.toNat driver type mask s with
          | (some r, s1) => (some (int_or 0 r), s1)
          | (none, s1) => (none, s1)
        else (some 0, s)
      match first with
      | (none, s1) => (none, s1)
      | (some rc1, s1) =>
        let second : Option Int × State σ :=
          if j ≥ 0 then
            match run_entry E c j.toNat driver type mask s1 with
            | (some r, s2) => (some (int_or rc1 r), s2)
            | (none, s2) => (none, s2)
          else (some rc1, s1)
        match second with
        | (none, s2) => (none, s2)
        | (some rc, s2) =>
          if rc = 0 then (some rc, s2.log [.printk_passed])
          else (some rc, s2.log [.printk_not_passed])
  | _, _ => (none, s)

/-! ## Sample environments and vectors -/

/-- A sample configuration: 4096-byte pages, 16-byte IV buffer, no fault injection. -/
def sample_config : Config :=
  { PAGE_SHIFT := 12, MAX_IVLEN := 16, FAULT_INJECTION := false, fault_injection_mask := 0,
    alg_value := fun _ => 0 }

/-- A sample environment without state: every allocation of pages, requests and seed
memory succeeds (with zeroed memory); every set-key call returns `key_ret`; every hash and
cipher operation completes at once with status `0` and leaves the buffers as they are; the
RNG returns the requested count; a transform allocation fails with `e` when `alloc_err`
is `some e`. -/
def sample_env (key_ret : Int) (alloc_err : Option Int) : Env Unit :=
  { get_free_page := fun e => (some (fun _ => 0), e),
    uninit_int := fun _ => 0,
    ahash_request_alloc := fun e => (true, e),
    crypto_ahash_setkey := fun e _ _ _ => (key_ret, e),
    crypto_ahash_op := fun e _ _ _ _ _ result => (⟨0, [], 0⟩, result, e),
    ablkcipher_request_alloc := fun e => (true, e),
    crypto_ablkcipher_setkey := fun e _ _ _ _ => (key_ret, e),
    crypto_ablkcipher_crypt := fun e _ _ _ _ _ m => (⟨0, [], 0⟩, m, e),
    kmalloc := fun e _ => (some (fun _ => 0), e),
    crypto_rng_reset := fun e _ _ _ => (0, e),
    crypto_rng_get_bytes := fun e _ n result => ((n : Int), result, e),
    crypto_alloc_ahash := fun e _ _ _ =>
      match alloc_err with
      | some err => (.error err, e)
      | none => (.ok ⟨0, 20⟩, e),
    crypto_alloc_ablkcipher := fun e _ _ _ =>
      match alloc_err with
      | some err => (.error err, e)
      | none => (.ok ⟨0⟩, e),
    crypto_alloc_rng := fun e _ _ _ =>
      match alloc_err with
      | some err => (.error err, e)
      | none => (.ok ⟨0, 48⟩, e) }

/-- The state in which the sample runs start: empty trace, zeroed memory. -/
def sample_state : State Unit :=
  { env := (), xbuf := fun _ _ => 0, tresult := ⟨0, 0⟩, trace := [] }

/-- A sample cipher vector whose key is declared to be rejected. -/
def sample_fail_vec : moto_cipher_testvec :=
  { key := [1, 2, 3], klen := 3, input := [0x61, 0x62], ilen := 2, result := [0x61, 0x62],
    rlen := 2, fail := 1 }

/-- A sample hash vector of three chunks `{1, 1, 32}`: each chunk fits its page, and the
third one (buffer 0, offsets 1..32) covers the first one's byte (buffer 0, offset 32). -/
def overlap_hash_vec : moto_hash_testvec :=
  { plaintext := List.range' 1 34, psize := 34, np := 3, tap := [1, 1, 32] }

/-- A sample cipher vector of three chunks `{1, 1, 31}`: the third chunk (buffer 0,
offsets 1..31) ends right before the first one's byte (buffer 0, offset 32), which the
zero byte stored after the third chunk overwrites. -/
def overlap_cipher_vec : moto_cipher_testvec :=
  { key := [1], klen := 1, input := List.range' 1 33, ilen := 33,
    result := List.range' 1 33, rlen := 33, np := 3, tap := [1, 1, 31] }

/-- A sample chunked cipher vector whose single chunk of 5000 bytes does not fit a
4096-byte page, declared with a key that must be rejected. -/
def bad_chunk_fail_vec : moto_cipher_testvec :=
  { key := [1], klen := 1, input := [1, 2], ilen := 5000, result := [1, 2], rlen := 5000,
    np := 1, tap := [5000], fail := 1 }

/-- A sample chunked cipher vector whose single chunk of 5000 bytes does not fit a
4096-byte page. -/
def bad_chunk_vec : moto_cipher_testvec :=
  { key := [1], klen := 1, input := [1, 2], ilen := 5000, result := [1, 2], rlen := 5000,
    np := 1, tap := [5000] }

/-- A sample chunked hash vector whose single chunk of 5000 bytes does not fit a 4096-byte
page. -/
def bad_chunk_hash_vec : moto_hash_testvec :=
  { plaintext := [1, 2], psize := 5000, digest := [0], np := 1, tap := [5000] }

/-- A sample chunked cipher vector (one chunk of two bytes) whose key is declared to be
rejected. -/
def sample_fail_chunked_vec : moto_cipher_testvec :=
  { key := [1, 2, 3], klen := 3, input := [0x61, 0x62], ilen := 2, result := [0x61, 0x62],
    rlen := 2, np := 1, tap := [2], fail := 1 }

/-- A sample cipher vector with a three-byte key expected to be accepted, whose expected
result equals its input. -/
def sample_ok_vec : moto_cipher_testvec :=
  { key := [1, 2, 3], klen := 3, input := [0x61, 0x62], ilen := 2, result := [0x61, 0x62],
    rlen := 2 }

/-! ## Notions used to state the layout properties -/

/-- The source offset of chunk `k`: `tap[0] + ... + tap[k-1]`. -/
def chunk_start (tap : List Nat) : Nat → Nat
  | 0 => 0
  | k + 1 => chunk_start tap k + tap.getD k 0

/-- The page-fit check passes for chunk `k`:
`offset_in_page(MOTO_IDX[k]) + tap[k] <= PAGE_SIZE`. -/
def chunk_fits (c : Config) (tap : List Nat) (k : Nat) : Prop :=
  offset_in_page c (MOTO_IDX.getD k 0) + tap.getD k 0 ≤ PAGE_SIZE c

instance (c : Config) (tap : List Nat) (k : Nat) : Decidable (chunk_fits c tap k) := by
  unfold chunk_fits
  infer_instance

/-- The number of bytes the layout loop writes for chunk `k` from the chunk's start on:
the `tap[k]` copied bytes and, when `sentinel` is set (the cipher runner) and the chunk
ends before the page end, the zero byte stored after it. -/
def written_len (c : Config) (tap : List Nat) (sentinel : Bool) (k : Nat) : Nat :=
  tap.getD k 0 +
    (if sentinel = true ∧ (chunk_ptr c k).off + tap.getD k 0 < PAGE_SIZE c then 1 else 0)

/-- No chunk's region is overwritten by what the loop writes for a later chunk: for
`k < k2 < np`, the bytes written for chunk `k2` and the region of chunk `k` lie in different
buffers or do not overlap. -/
def regions_kept (c : Config) (tap : List Nat) (np : Nat) (sentinel : Bool) : Prop :=
  ∀ k2 < np, ∀ k < k2,
    (chunk_ptr c k).buf ≠ (chunk_ptr c k2).buf ∨
    (chunk_ptr c k).off + tap.getD k 0 ≤ (chunk_ptr c k2).off ∨
    (chunk_ptr c k2).off + written_len c tap sentinel k2 ≤ (chunk_ptr c k).off

instance (c : Config) (tap : List Nat) (np : Nat) (sentinel : Bool) :
    Decidable (regions_kept c tap np sentinel) := by
  unfold regions_kept
  infer_instance

/-- The scatter-list entry of chunk `k`. -/
def chunk_sg (c : Config) (tap : List Nat) (k : Nat) : scatterlist :=
  ⟨(chunk_ptr c k).buf, (chunk_ptr c k).off, tap.getD k 0⟩

/-- The common form of the bodies of the two layout loops: source bytes `src`, chunk
sizes `tap`, and `sentinel` telling whether the zero byte after the chunk is stored. -/
def gen_layout_step (c : Config) (src : Nat → Nat) (tap : List Nat) (sentinel : Bool)
    (k : Nat) (l : Layout) : Option Layout :=
  if offset_in_page c (MOTO_IDX.getD k 0) + tap.getD k 0 > PAGE_SIZE c then none
  else
    let q := chunk_ptr c k
    let m1 := l.xbuf.memcpy q.buf q.off (fun j => src (l.temp + j)) (tap.getD k 0)
    let m2 := if sentinel = true ∧ offset_in_page c q.off + tap.getD k 0 < PAGE_SIZE c
              then m1.store q.buf (q.off + tap.getD k 0) 0 else m1
    some { temp := l.temp + tap.getD k 0, xbuf := m2,
           sg := l.sg.set k ⟨q.buf, q.off, tap.getD k 0⟩ }

/-- The common form of the two layout loops after `n` iterations. -/
def gen_layout (c : Config) (src : Nat → Nat) (tap : List Nat) (np : Nat) (sentinel : Bool)
    (xbuf : Mem) : Nat → Option Layout
  | 0 => some { temp := 0, xbuf := xbuf, sg := List.replicate np ⟨0, 0, 0⟩ }
  | n + 1 => (gen_layout c src tap np sentinel xbuf n).bind (gen_layout_step c src tap sentinel n)

/-! ## Notions used to state trace properties -/

/-- The events a run adds to the trace: those of the final state `s1` after the ones
already present in the start state `s0`. -/
def new_events {σ : Type} (s0 s1 : State σ) : List Event :=
  s1.trace.drop s0.trace.length

/-- The vector index an event carries, if any. -/
def Event.idx : Event → Option Nat
  | .ahash_setkey i _ _ _ => some i
  | .ahash_op i _ _ _ _ => some i
  | .ablkcipher_setkey i _ _ _ => some i
  | .ablkcipher_crypt i _ _ _ _ _ => some i
  | .memcmp i _ _ => some i
  | .rng_reset i _ _ _ => some i
  | .rng_get_bytes i _ _ => some i
  | _ => none

/-- The event is an encrypt or decrypt call. -/
def Event.isCrypt : Event → Bool
  | .ablkcipher_crypt _ _ _ _ _ _ => true
  | _ => false

/-- The event is a comparison of output and expected result. -/
def Event.isMemcmp : Event → Bool
  | .memcmp _ _ _ => true
  | _ => false

/-- The event is a cipher set-key call. -/
def Event.isCipherSetkey : Event → Bool
  | .ablkcipher_setkey _ _ _ _ => true
  | _ => false

/-- The events of the flag calls before a cipher set-key call for the vector `t`. -/
def flag_events (t : moto_cipher_testvec) : List Event :=
  [.clear_flags] ++ (if t.wk ≠ 0 then [.set_flags_weak_key] else [])

/-- The events with which both cipher runner exits through `out` end: the request is
freed, then the eight scratch pages. -/
def skcipher_cleanup : List Event :=
  .ablkcipher_request_free :: (List.range XBUFSIZE).map Event.free_page

/-- The shape of the events added, and of the exit taken, by the processing of one cipher
vector `t = template[i]`: either nothing is called and the vector is refused with
`-EINVAL`, or the flag calls and one set-key call with status `ret` are made, followed by
events `rest`, none of them a set-key call, each carrying index `i` or none; if `ret`
contradicts the expect-rejection flag (`!ret == fail`) nothing follows and the exit is
`out` with `ret`; else if `ret` is non-zero nothing follows and the exit is `next`. -/
def VecShape (i : Nat) (t : moto_cipher_testvec) (flow : Flow) (new : List Event) : Prop :=
  (new = [] ∧ flow = .out (-EINVAL)) ∨
  (∃ (ret : Int) (rest : List Event),
    new = flag_events t ++ [.ablkcipher_setkey i t.key t.klen ret] ++ rest ∧
    (∀ e ∈ rest, e.isCipherSetkey = false ∧ (e.idx = none ∨ e.idx = some i)) ∧
    ((if ret = 0 then 1 else 0) = t.fail → rest = [] ∧ flow = .out ret) ∧
    ((if ret = 0 then 1 else 0) ≠ t.fail → ret ≠ 0 → rest = [] ∧ flow = .next))

/-- The common form of the two loops of `moto_test_skcipher`: the vectors selected by
`sel` are processed by `vec`, the others skipped. -/
def gen_pass {σ : Type} (vec : Nat → moto_cipher_testvec → State σ → Flow × State σ)
    (sel : moto_cipher_testvec → Bool) (template : List moto_cipher_testvec) :
    Nat → Nat → State σ → Flow × State σ
  | 0, _, s => (.next, s)
  | n + 1, i, s =>
    match template[i]? with
    | none => (.stuck, s)
    | some t =>
      if sel t = true then
        match vec i t s with
        | (.next, s1) => gen_pass vec sel template n (i + 1) s1
        | r => r
      else gen_pass vec sel template n (i + 1) s

/-- The trace of `s1` extends that of `s` by events that all satisfy `Q`. -/
def Ext {σ : Type} (Q : Event → Prop) (s s1 : State σ) : Prop :=
  ∃ new, s1.trace = s.trace ++ new ∧ ∀ e ∈ new, Q e

/-- What holds of the exit `flow` and the added events `new` of a loop of
`moto_test_skcipher` over the `n` vectors from index `i0` on, of which those selected by
`sel` are processed:
* every indexed event belongs to a processed vector of the range;
* a set-key call rejected with `r` for a vector with the expect-rejection flag clear is the
  last event, and the exit is `out` with `r`;
* when the exit is not `next`, some vector of the range is missing from the table or is a
  processed vector without a rejected set-key call under expect-rejection flag `1`;
* a vector with flag `1` whose set-key call was rejected has no encrypt, decrypt or
  comparison event. -/
def PassInv (template : List moto_cipher_testvec) (sel : moto_cipher_testvec → Bool)
    (i0 n : Nat) (flow : Flow) (new : List Event) : Prop :=
  (∀ e ∈ new, ∀ j, e.idx = some j →
    i0 ≤ j ∧ j < i0 + n ∧ ∃ t, template[j]? = some t ∧ sel t = true) ∧
  (∀ pre post j key klen r t, new = pre ++ Event.ablkcipher_setkey j key klen r :: post →
    template[j]? = some t → t.fail = 0 → r ≠ 0 → flow = .out r ∧ post = []) ∧
  (flow ≠ .next → ∃ j, i0 ≤ j ∧ j < i0 + n ∧
    (template[j]? = none ∨ ∃ t, template[j]? = some t ∧ sel t = true ∧
      ¬ (t.fail = 1 ∧ ∃ key klen r, r ≠ 0 ∧ Event.ablkcipher_setkey j key klen r ∈ new))) ∧
  (∀ j key klen r t, Event.ablkcipher_setkey j key klen r ∈ new → template[j]? = some t →
    t.fail = 1 → r ≠ 0 → ∀ e ∈ new, e.idx = some j → e.isCrypt = false ∧ e.isMemcmp = false)

/-- Events after the set-key call of vector `i`: not a set-key call, index `i` or none. -/
def TailEv (i : Nat) (e : Event) : Prop :=
  e.isCipherSetkey = false ∧ (e.idx = none ∨ e.idx = some i)

/-- The status of `moto_test_skcipher` given the exits of its two loops. -/
def run_status : Flow → Flow → Option Int
  | .stuck, _ => none
  | .out r, _ => some r
  | .next, .stuck => none
  | .next, .out r => some r
  | .next, .next => some 0

/-- Index form of sortedness of a table: an entry at a smaller index compares below
every entry at a larger index. -/
def SortedDescs (descs : List moto_alg_test_desc) : Prop :=
  ∀ (i j : Nat) (d e : moto_alg_test_desc), i < j → descs[i]? = some d →
    descs[j]? = some e → strcmp d.alg e.alg < 0


/-! ## Notions used to state the properties of completion handling and comparison -/

/-- The reference behaviour of `moto_do_one_async_hash_op` in the words of the
specification: a status `ret` that is neither `-EINPROGRESS` nor `-EBUSY` is returned
unchanged, without waiting; otherwise the outcome of the wait decides: no status while the
wait does not return (`none`), the callback-reported status `tr->err` when the wait
returned `0`, and the wait's own non-zero result when it was interrupted. -/
def async_op_reference (ret : Int) (wait : Option (Int × moto_tcrypt_result)) : Option Int :=
  if ret ≠ -EINPROGRESS ∧ ret ≠ -EBUSY then some ret
  else
    match wait with
    | none => none
    | some (w, tr) => if w = 0 then some tr.err else some w

/-- The buffers `a` and `b` differ in one of their first `n` bytes. -/
def differ (a b : Nat → Nat) (n : Nat) : Prop :=
  ∃ j < n, a j ≠ b j

/-- The configuration `c` built without `CONFIG_CRYPTO_MOTOROLA_FAULT_INJECTION`. -/
def no_fault (c : Config) : Config :=
  { c with FAULT_INJECTION := false }

/-- The state in which the first loop of `moto_test_hash` starts, after the scratch pages
were obtained in state `s1` and the request was allocated, leaving the environment in
`e`. -/
def hash_loop_start {σ : Type} (E : Env σ) (s1 : State σ) (e : σ) : State σ :=
  { env := e, xbuf := s1.xbuf, tresult := ⟨0, E.uninit_int s1.env⟩,
    trace := s1.trace ++ [.init_completion] ++ [.ahash_request_alloc true] }

/-- The state in which the first loop of `moto_test_skcipher` starts, after the scratch
pages were obtained in state `s1` and the request was allocated, leaving the environment
in `e`. -/
def skcipher_loop_start {σ : Type} (E : Env σ) (s1 : State σ) (e : σ) : State σ :=
  { env := e, xbuf := s1.xbuf, tresult := ⟨0, E.uninit_int s1.env⟩,
    trace := s1.trace ++ [.init_completion] ++ [.ablkcipher_request_alloc true] }

/-- The call of `moto_test_hash` on state `s` arrives, in its first loop, at index `i`
with state `si`: pages and request were allocated, and the iterations before `i` all went
on to the next vector. -/
def HashReach1 {σ : Type} (E : Env σ) (c : Config) (tfm : crypto_ahash)
    (template : List moto_hash_testvec) (tcount : Nat) (use_digest : Bool)
    (inject_fault : Int) (s : State σ) (i : Nat) (si : State σ) : Prop :=
  i < tcount ∧ ∃ (s1 : State σ) (e : σ),
    moto_testmgr_alloc_buf E s = (0, s1) ∧
    E.ahash_request_alloc s1.env = (true, e) ∧
    hash_pass1 E c tfm template use_digest inject_fault i 0 (hash_loop_start E s1 e)
      = (.next, si)

/-- The call of `moto_test_hash` on state `s` arrives, in its second loop, at index `i`
with state `si`: the first loop ran through, and the iterations of the second loop
before `i` all went on to the next vector. -/
def HashReach2 {σ : Type} (E : Env σ) (c : Config) (tfm : crypto_ahash)
    (template : List moto_hash_testvec) (tcount : Nat) (use_digest : Bool)
    (inject_fault : Int) (s : State σ) (i : Nat) (si : State σ) : Prop :=
  i < tcount ∧ ∃ (s1 : State σ) (e : σ) (s4 : State σ),
    moto_testmgr_alloc_buf E s = (0, s1) ∧
    E.ahash_request_alloc s1.env = (true, e) ∧
    hash_pass1 E c tfm template use_digest inject_fault tcount 0 (hash_loop_start E s1 e)
      = (.next, s4) ∧
    hash_pass2 E c tfm template i 0 s4 = (.next, si)

/-- The call of `moto_test_skcipher` on state `s` arrives, in its first loop, at index `i`
with state `si`. -/
def SkReach1 {σ : Type} (E : Env σ) (c : Config) (tfm : crypto_ablkcipher) (enc : Int)
    (template : List moto_cipher_testvec) (tcount : Nat) (inject_fault : Int)
    (s : State σ) (i : Nat) (si : State σ) : Prop :=
  i < tcount ∧ ∃ (s1 : State σ) (e : σ),
    moto_testmgr_alloc_buf E s = (0, s1) ∧
    E.ablkcipher_request_alloc s1.env = (true, e) ∧
    skcipher_pass1 E c tfm enc template inject_fault i 0 (skcipher_loop_start E s1 e)
      = (.next, si)

/-- The call of `moto_test_skcipher` on state `s` arrives, in its second loop, at index
`i` with state `si`. -/
def SkReach2 {σ : Type} (E : Env σ) (c : Config) (tfm : crypto_ablkcipher) (enc : Int)
    (template : List moto_cipher_testvec) (tcount : Nat) (inject_fault : Int)
    (s : State σ) (i : Nat) (si : State σ) : Prop :=
  i < tcount ∧ ∃ (s1 : State σ) (e : σ) (s4 : State σ),
    moto_testmgr_alloc_buf E s = (0, s1) ∧
    E.ablkcipher_request_alloc s1.env = (true, e) ∧
    skcipher_pass1 E c tfm enc template inject_fault tcount 0 (skcipher_loop_start E s1 e)
      = (.next, s4) ∧
    skcipher_pass2 E c tfm enc template i 0 s4 = (.next, si)

/-- The seed buffer of `moto_test_cprng` after the three copies made for the vector `t`:
`v`, then `key`, then `dt`, over the previous contents `seed`. -/
def cprng_seed (t : moto_cprng_testvec) (seed : Nat → Nat) : Nat → Nat :=
  fun j =>
    if t.vlen + t.klen ≤ j ∧ j < t.vlen + t.klen + t.dtlen
    then byteAt t.dt (j - (t.vlen + t.klen))
    else if t.vlen ≤ j ∧ j < t.vlen + t.klen then byteAt t.key (j - t.vlen)
    else if j < t.vlen then byteAt t.v j else seed j

/-- The first `n` iterations of the loop of `moto_test_cprng` from index `i` on, when each
of them went on to the next vector: the seed buffer and the state before the iteration
that follows; `none` when one of them left through `out` or read past the table. -/
def cprng_iters {σ : Type} (E : Env σ) (c : Config) (tfm : crypto_rng)
    (template : List moto_cprng_testvec) (inject_fault : Int) :
    Nat → Nat → (Nat → Nat) → State σ → Option ((Nat → Nat) × State σ)
  | 0, _, seed, s => some (seed, s)
  | n + 1, i, seed, s =>
    match template[i]? with
    | none => none
    | some t =>
      match cprng_vec E c tfm inject_fault i t seed s with
      | (some _, _, _) => none
      | (none, seed1, s1) => cprng_iters E c tfm template inject_fault n (i + 1) seed1 s1

/-- The call of `moto_test_cprng` on state `s` arrives at index `i` with seed buffer
`seed` and state `si`: the seed memory was allocated and the iterations before `i` all
went on to the next vector. -/
def CprngReach {σ : Type} (E : Env σ) (c : Config) (tfm : crypto_rng)
    (template : List moto_cprng_testvec) (tcount : Nat) (inject_fault : Int)
    (s : State σ) (i : Nat) (seed : Nat → Nat) (si : State σ) : Prop :=
  i < tcount ∧ ∃ (seed0 : Nat → Nat) (e : σ),
    E.kmalloc s.env tfm.seedsize = (some seed0, e) ∧
    cprng_iters E c tfm template inject_fault i 0 seed0
      { s with env := e, trace := s.trace ++ [.kmalloc true] } = some (seed, si)

/-- The status of the comparison of chunk `k` of the vector `t` in the chunked pass of
`moto_test_skcipher`: `memcmp(q, template[i].result + temp, template[i].tap[k])` with `q`
the start of the chunk's region and `temp = tap[0] + ... + tap[k-1]`. -/
def chunk_cmp (c : Config) (t : moto_cipher_testvec) (m : Mem) (k : Nat) : Int :=
  memcmp (fun j => m (chunk_ptr c k).buf ((chunk_ptr c k).off + j))
    (fun j => byteAt t.result (chunk_start t.tap k + j)) (t.tap.getD k 0)

/-- The `tap[k]` output bytes read at chunk `k`'s scratch region differ from
`result[off_k .. off_k + tap[k])`, where `off_k = tap[0] + ... + tap[k-1]`. -/
def chunk_differs (c : Config) (t : moto_cipher_testvec) (m : Mem) (k : Nat) : Prop :=
  differ (fun j => m (chunk_ptr c k).buf ((chunk_ptr c k).off + j))
    (fun j => byteAt t.result (chunk_start t.tap k + j)) (t.tap.getD k 0)

/-- The count `n` that the scan for stray bytes after chunk `k` ends with. -/
def chunk_overrun (c : Config) (t : moto_cipher_testvec) (m : Mem) (k : Nat) : Nat :=
  overrun_scan c m ⟨(chunk_ptr c k).buf, (chunk_ptr c k).off + t.tap.getD k 0⟩ (PAGE_SIZE c) 0

/-- The events of `n` comparisons that found no difference, for the chunks from `k` on. -/
def equal_cmp_events (i : Nat) : Nat → Nat → List Event
  | 0, _ => []
  | n + 1, k => .memcmp i k 0 :: equal_cmp_events i n (k + 1)

/-! ## More sample environments and vectors -/

/-- The sample configuration built with `CONFIG_CRYPTO_MOTOROLA_FAULT_INJECTION`, fault
mask `0`. -/
def fault_config : Config :=
  { sample_config with FAULT_INJECTION := true }

/-- A sample chunked hash vector (one chunk of two bytes) whose expected digest is all
zero. -/
def zero_digest_chunk_vec : moto_hash_testvec :=
  { plaintext := [1, 2], psize := 2, digest := [], np := 1, tap := [2] }

/-- A sample unchunked hash vector whose expected digest is all zero. -/
def zero_digest_vec : moto_hash_testvec :=
  { plaintext := [1, 2], psize := 2, digest := [] }

/-- A sample chunked cipher vector of one chunk of two bytes whose expected result equals
its input. -/
def sample_chunk_vec : moto_cipher_testvec :=
  { key := [1, 2, 3], klen := 3, input := [0x61, 0x62], ilen := 2, result := [0x61, 0x62],
    rlen := 2, np := 1, tap := [2] }

/-- A sample chunked cipher vector of one chunk of two bytes whose expected result differs
from its input in the second byte. -/
def sample_chunk_bad_vec : moto_cipher_testvec :=
  { key := [1, 2, 3], klen := 3, input := [0x61, 0x62], ilen := 2, result := [0x61, 0x63],
    rlen := 2, np := 1, tap := [2] }

/-- A sample cipher vector without key, whose expected result equals its input. -/
def sample_nokey_vec : moto_cipher_testvec :=
  { input := [0x61, 0x62], ilen := 2, result := [0x61, 0x62], rlen := 2 }

/-- A sample RNG vector asking once for 16 bytes, all expected to be zero. -/
def sample_rng_vec : moto_cprng_testvec :=
  { key := [1], klen := 1, dt := [2], dtlen := 1, v := [3], vlen := 1, result := [],
    rlen := 16, loops := 1 }

/-- The sample environment, except that the cipher operation stores the byte `b` at
offset `off` of scratch page `0`. -/
def stray_env (off b : Nat) : Env Unit :=
  { sample_env 0 none with
    crypto_ablkcipher_crypt := fun e _ _ _ _ _ m => (⟨0, [], 0⟩, m.store 0 off b, e) }

/-- The sample environment, except that `crypto_rng_get_bytes` returns `count` and leaves
the result buffer as it is. -/
def short_read_env (count : Int) : Env Unit :=
  { sample_env 0 none with
    crypto_rng_get_bytes := fun e _ _ result => (count, result, e) }

/-- The sample environment, except that every hash and cipher operation is deferred
(`-EINPROGRESS`) and completes through one callback with status `status`. -/
def deferred_env (status : Int) : Env Unit :=
  { sample_env 0 none with
    crypto_ahash_op := fun e _ _ _ _ _ result => (⟨-EINPROGRESS, [status], 0⟩, result, e),
    crypto_ablkcipher_crypt := fun e _ _ _ _ _ m => (⟨-EINPROGRESS, [status], 0⟩, m, e) }

/-! ## Notions used to state the trace properties of both two-loop runners -/

/-- The common form of the loops of the runners over a vector table of any kind: the
vectors selected by `sel` are processed by `vec`, the others skipped. -/
def loop_pass {σ τ : Type} (vec : Nat → τ → State σ → Flow × State σ) (sel : τ → Bool)
    (template : List τ) : Nat → Nat → State σ → Flow × State σ
  | 0, _, s => (.next, s)
  | n + 1, i, s =>
    match template[i]? with
    | none => (.stuck, s)
    | some t =>
      if sel t = true then
        match vec i t s with
        | (.next, s1) => loop_pass vec sel template n (i + 1) s1
        | r => r
      else loop_pass vec sel template n (i + 1) s

/-- The events `new` and the exit `f` of a loop over the `n` vectors from index `i` on,
as a sequence of segments, one per processed vector, each described by `V`: the loop ends
after the last index, at a read past the table, or at the first vector whose processing
does not go on to the next one. -/
inductive PassTrace {τ : Type} (V : Nat → τ → Flow → List Event → Prop) (sel : τ → Bool)
    (template : List τ) : Nat → Nat → Flow → List Event → Prop
  | done (i : Nat) : PassTrace V sel template i 0 .next []
  | missing (i n : Nat) (h : template[i]? = none) :
      PassTrace V sel template i (n + 1) .stuck []
  | skip (i n : Nat) (t : τ) (f : Flow) (new : List Event) (h : template[i]? = some t)
      (hs : sel t = false) (rest : PassTrace V sel template (i + 1) n f new) :
      PassTrace V sel template i (n + 1) f new
  | step (i n : Nat) (t : τ) (seg : List Event) (f : Flow) (new : List Event)
      (h : template[i]? = some t) (hs : sel t = true) (hv : V i t .next seg)
      (rest : PassTrace V sel template (i + 1) n f new) :
      PassTrace V sel template i (n + 1) f (seg ++ new)
  | stop (i n : Nat) (t : τ) (seg : List Event) (f : Flow) (h : template[i]? = some t)
      (hs : sel t = true) (hv : V i t f seg) (hf : f ≠ .next) :
      PassTrace V sel template i (n + 1) f seg

/-- The event is a call of `crypto_ahash_setkey`. -/
def Event.isHashSetkey : Event → Bool
  | .ahash_setkey _ _ _ _ => true
  | _ => false

/-- The event is a digest, init, update or final call. -/
def Event.isHashOp : Event → Bool
  | .ahash_op _ _ _ _ _ => true
  | _ => false

/-- The event is one of those made before the first and after the second loop: page and
request allocation and release, and `init_completion`. -/
def Event.isSetup : Event → Bool
  | .get_free_page _ _ => true
  | .free_page _ => true
  | .init_completion => true
  | .ahash_request_alloc _ => true
  | .ahash_request_free => true
  | .ablkcipher_request_alloc _ => true
  | .ablkcipher_request_free => true
  | _ => false

/-- Every wait of the list that returned `0` is directly followed, in the list, by
`INIT_COMPLETION`. -/
def WaitClosed (l : List Event) : Prop :=
  ∀ pre post, l = pre ++ Event.wait 0 :: post → ∃ p, post = Event.INIT_COMPLETION :: p

/-- Every wait among the events `l` of a vector that returned `0` is directly followed by
`INIT_COMPLETION`, or it is the vector's last event and the exit `f` is `out`. -/
def WaitDisc (f : Flow) (l : List Event) : Prop :=
  ∀ pre post, l = pre ++ Event.wait 0 :: post →
    (∃ p, post = Event.INIT_COMPLETION :: p) ∨ (post = [] ∧ ∃ r, f = Flow.out r)

/-- The trace of `s1` extends that of `s` by events that all satisfy `Q` and among which
every wait that returned `0` is directly followed by `INIT_COMPLETION`. -/
def ExtC {σ : Type} (Q : Event → Prop) (s s1 : State σ) : Prop :=
  ∃ new, s1.trace = s.trace ++ new ∧ (∀ e ∈ new, Q e) ∧ WaitClosed new

/-- The trace of `s1` extends that of `s` by events that all satisfy `Q` and whose waits
obey `WaitDisc` for the exit `f`. -/
def ExtW {σ : Type} (Q : Event → Prop) (f : Flow) (s s1 : State σ) : Prop :=
  ∃ new, s1.trace = s.trace ++ new ∧ (∀ e ∈ new, Q e) ∧ WaitDisc f new

/-- The events with which `moto_test_hash` ends after the label `out`: the request is
freed, then the eight scratch pages. -/
def hash_cleanup : List Event :=
  .ahash_request_free :: (List.range XBUFSIZE).map Event.free_page

/-- Events of a hash vector after its key step: not a set-key call, index `i` or none. -/
def HashTailEv (i : Nat) (e : Event) : Prop :=
  e.isHashSetkey = false ∧ e ≠ Event.clear_flags ∧ (e.idx = none ∨ e.idx = some i)

/-- The shape of the events added, and of the exit taken, by the processing of one hash
vector `t = template[i]`: either nothing is called and the vector is refused with
`-EINVAL` (a chunked vector with a chunk that fails the page-fit check), or the key step
comes first (nothing without key; else `crypto_ahash_clear_flags` and one set-key call
with status `kret`), followed by events `rest`, none of them a set-key call, each carrying
index `i` or none, whose waits obey `WaitDisc`; if `kret` is non-zero nothing follows and
the exit is `out` with `kret`.  `fits` tells whether the page-fit check passed. -/
def HashShape (fits : moto_hash_testvec → Prop) (i : Nat) (t : moto_hash_testvec)
    (f : Flow) (seg : List Event) : Prop :=
  (¬ fits t ∧ seg = [] ∧ f = .out (-EINVAL)) ∨
  (fits t ∧ ∃ (kev rest : List Event), seg = kev ++ rest ∧
    ((t.ksize = 0 ∧ kev = []) ∨
      (t.ksize ≠ 0 ∧ ∃ kret : Int,
        kev = [.clear_flags, .ahash_setkey i t.key t.ksize kret] ∧
        (kret ≠ 0 → rest = [] ∧ f = .out kret))) ∧
    (∀ e ∈ rest, HashTailEv i e) ∧ WaitDisc f rest)

/-- The description of a cipher vector's events: `VecShape`, and the waits obey
`WaitDisc`. -/
def CipherSeg (i : Nat) (t : moto_cipher_testvec) (f : Flow) (seg : List Event) : Prop :=
  VecShape i t f seg ∧ WaitDisc f seg

/-- The shape of the events `new` a two-loop runner adds and of its status: set-up events
`H`, the events `n1` of the first loop (vectors selected by `sel1`, described by `V1`) with
exit `f1`, the events `n2` of the second loop (run only when the first went through), and
the events `T` of the clean-up, which are missing only when the runner does not return. -/
def RunShape {τ : Type} (V1 V2 : Nat → τ → Flow → List Event → Prop) (sel1 sel2 : τ → Bool)
    (template : List τ) (tcount : Nat) (cleanup : List Event) (status : Option Int)
    (new : List Event) : Prop :=
  ∃ (H n1 n2 T : List Event) (f1 f2 : Flow),
    new = H ++ (n1 ++ (n2 ++ T)) ∧
    (∀ e ∈ H, e.isSetup = true) ∧
    PassTrace V1 sel1 template 0 tcount f1 n1 ∧
    (f1 = .next → PassTrace V2 sel2 template 0 tcount f2 n2) ∧
    (f1 ≠ .next → n2 = [] ∧ f2 = .next) ∧
    status = run_status f1 f2 ∧
    (T = cleanup ∨ (T = [] ∧ status = none))

/-- A sample chunked hash vector with a one-byte key whose single chunk of 5000 bytes does
not fit a 4096-byte page. -/
def bad_chunk_keyed_vec : moto_hash_testvec :=
  { key := [1], ksize := 1, plaintext := [1, 2], psize := 5000, digest := [0], np := 1,
    tap := [5000] }

/-- A sample unchunked hash vector with a one-byte key whose expected digest is all
zero. -/
def keyed_vec : moto_hash_testvec :=
  { key := [1], ksize := 1, plaintext := [1, 2], psize := 2, digest := [] }

/-! ## Notions used to state the properties of the registered tables -/

/-- The decrypt vector `d` mirrors the encrypt vector `t`: same key, key length and IV,
input and result swapped together with their lengths, and input as long as the result. -/
def mirrors (t d : moto_cipher_testvec) : Prop :=
  d.key = t.key ∧ d.klen = t.klen ∧ d.iv = t.iv ∧ d.input = t.result ∧ d.result = t.input ∧
    d.ilen = t.rlen ∧ d.rlen = t.ilen ∧ t.ilen = t.rlen

instance (t d : moto_cipher_testvec) : Decidable (mirrors t d) := by
  unfold mirrors
  infer_instance

/-- The key bytes the cipher runner hands to `crypto_ablkcipher_setkey` for the vector
`t`: the first `klen` bytes at `key`. -/
def vec_key (t : moto_cipher_testvec) : List Nat :=
  (List.range t.klen).map (byteAt t.key)

/-- The input bytes the cipher runner copies to the scratch page for the vector `t`: the
first `ilen` bytes at `input`. -/
def vec_input (t : moto_cipher_testvec) : List Nat :=
  (List.range t.ilen).map (byteAt t.input)

/-- The bytes the cipher runner compares the output with for the vector `t`: the first
`rlen` bytes at `result`. -/
def vec_result (t : moto_cipher_testvec) : List Nat :=
  (List.range t.rlen).map (byteAt t.result)

/-- One direction of a provider, taken as a function of key, IV and input, gives for
every vector of the table the output the runner expects. -/
def passes_table (c : Config) (f : List Nat → List Nat → List Nat → List Nat)
    (table : List moto_cipher_testvec) : Prop :=
  ∀ t ∈ table, f (vec_key t) (vec_iv c t) (vec_input t) = vec_result t

/-- The hexadecimal digit (lower case) of a value below 16. -/
def hex_digit (n : Nat) : Char :=
  if n < 10 then Char.ofNat (48 + n) else Char.ofNat (87 + n)

/-- The bytes written in hexadecimal, two digits per byte. -/
def to_hex (bytes : List Nat) : String :=
  String.mk (bytes.flatMap (fun b => [hex_digit (b / 16), hex_digit (b % 16)]))

/-! ## Notions used to state the properties of the RNG runner -/

/-- The answers of the provider to `n` successive calls
`crypto_rng_get_bytes(tfm, result, rlen)`, the first one in the environment state `e` on
the buffer `result`, each further one in the state and on the buffer the call before
left: for each call the returned value and the buffer after it. -/
def rng_reads {σ : Type} (E : Env σ) (tfm : crypto_rng) (rlen : Nat) :
    Nat → (Nat → Nat) → σ → List (Int × (Nat → Nat))
  | 0, _, _ => []
  | n + 1, result, e =>
    match E.crypto_rng_get_bytes e tfm rlen result with
    | (err, result1, e1) => (err, result1) :: rng_reads E tfm rlen n result1 e1

/-- The status with which the processing of the RNG vector `t` ends when the buffer
compared is `out`: `none` to go on (the first `rlen` bytes are the expected ones, after
the fault injection if enabled), else `-EINVAL`. -/
def rng_verdict (c : Config) (inject_fault : Int) (t : moto_cprng_testvec)
    (out : Nat → Nat) : Option Int :=
  if memcmp (if c.FAULT_INJECTION ∧ inject_fault ≠ 0 then flip_first out else out)
      (byteAt t.result) t.rlen ≠ 0
  then some (-EINVAL) else none

/-! ## Notions used to state the release of the scratch pages -/

/-- The event is a call of the page allocator or of `free_page`. -/
def Event.isPage : Event → Bool
  | .get_free_page _ _ => true
  | .free_page _ => true
  | _ => false

/-- The test function that reads the member of the union `suite` an entry initialises. -/
def test_suite.kind : test_suite → test_fn
  | .cipher _ => .skcipher
  | .hash _ => .hash
  | .cprng _ => .cprng

/-! ## Sample environments with a state -/

/-- A sample environment whose state counts the calls of `__get_free_page` and of
`crypto_rng_get_bytes`: the page allocator succeeds (with zeroed pages) for the first
`pages` calls and fails from then on; the `k`-th call of `crypto_rng_get_bytes` (counted
from one) returns the requested count and fills the result buffer with the bytes `out k`;
everything else is as in `sample_env 0 none`. -/
def counting_env (pages : Nat) (out : Nat → List Nat) : Env (Nat × Nat) :=
  { get_free_page := fun e =>
      if e.1 < pages then (some (fun _ => 0), (e.1 + 1, e.2)) else (none, (e.1 + 1, e.2)),
    uninit_int := fun _ => 0,
    ahash_request_alloc := fun e => (true, e),
    crypto_ahash_setkey := fun e _ _ _ => (0, e),
    crypto_ahash_op := fun e _ _ _ _ _ result => (⟨0, [], 0⟩, result, e),
    ablkcipher_request_alloc := fun e => (true, e),
    crypto_ablkcipher_setkey := fun e _ _ _ _ => (0, e),
    crypto_ablkcipher_crypt := fun e _ _ _ _ _ m => (⟨0, [], 0⟩, m, e),
    kmalloc := fun e _ => (some (fun _ => 0), e),
    crypto_rng_reset := fun e _ _ _ => (0, e),
    crypto_rng_get_bytes := fun e _ n _ => ((n : Int), byteAt (out (e.2 + 1)), (e.1, e.2 + 1)),
    crypto_alloc_ahash := fun e _ _ _ => (.ok ⟨0, 20⟩, e),
    crypto_alloc_ablkcipher := fun e _ _ _ => (.ok ⟨0⟩, e),
    crypto_alloc_rng := fun e _ _ _ => (.ok ⟨0, 48⟩, e) }

/-- The state in which the runs in `counting_env` start: no call made, empty trace, zeroed
memory. -/
def counting_state : State (Nat × Nat) :=
  { env := (0, 0), xbuf := fun _ _ => 0, tresult := ⟨0, 0⟩, trace := [] }

/-- A sample registry entry for a hash whose table is declared with count zero. -/
def empty_hash_desc : moto_alg_test_desc :=
  { alg := ascii "empty", test := .hash, suite := .hash { vecs := [], count := 0 } }

/-- A sample environment whose cipher answers the inputs of the tables `encT` (encrypt)
and `decT` (decrypt): when the bytes found at the scatter list are the input of a vector
of the direction's table, that vector's result is stored at the first scatter entry;
else the memory is left as it is.  Everything else is as in `sample_env 0 none`. -/
def table_cipher_env (encT decT : List moto_cipher_testvec) : Env Unit :=
  { sample_env 0 none with
    crypto_ablkcipher_crypt := fun e _ enc sg _ _ m =>
      match (if enc then encT else decT).find? (fun t => decide (gather m sg = vec_input t)),
            sg.head? with
      | some t, some g => (⟨0, [], 0⟩, m.memcpy g.buf g.offset (byteAt t.result) t.rlen, e)
      | _, _ => (⟨0, [], 0⟩, m, e) }

/-- The sample environment, except that `crypto_rng_reset` returns `r`. -/
def reset_env (r : Int) : Env Unit :=
  { sample_env 0 none with crypto_rng_reset := fun e _ _ _ => (r, e) }

/-- The Monte Carlo vector of the registered RNG table (its last one). -/
def monte_carlo_vec : moto_cprng_testvec :=
  moto_ansi_cprng_aes_tv_template.getD 5 {}

/-- Outputs of an RNG of which only the `n`-th is `good`: every other one is the single
byte `ff` followed by zeros. -/
def late_output (n : Nat) (good : List Nat) : Nat → List Nat :=
  fun k => if k = n then good else [0xff]

/-- A sample unchunked hash vector whose expected digest starts with the byte `01`. -/
def mismatch_vec : moto_hash_testvec :=
  { plaintext := [1, 2], psize := 2, digest := [1] }
/-! ## The cipher fault selector in the words of the specification -/

/-- The largest of the key lengths 256, 192, 128 whose mask bit (`a256`, `a192`, `a128`)
is set in `fault_injection_mask`; `otherwise` when none is. -/
def largest_key_length (c : Config) (a128 a192 a256 : MOTO_CRYPTO_ALG) (otherwise : Int) :
    Int :=
  if mask_has c a256 then 256
  else if mask_has c a192 then 192
  else if mask_has c a128 then 128
  else otherwise

/-- The cipher fault selector as the specification describes it: for the drivers
`moto-aes-ecb`, `moto-aes-cbc`, `moto-aes-ctr` the largest key length whose bit of that
mode is set; otherwise, and when no such bit is set, `-1` (all key lengths) when
`fault_injection_mask & alg_id` is non-zero, else `0`. -/
def selector_reference (c : Config) (desc : moto_alg_test_desc) (driver : List Nat) : Int :=
  let general : Int :=
    if c.fault_injection_mask &&& alg_id_value c desc.alg_id ≠ 0 then -1 else 0
  if cstr driver = ascii "moto-aes-ecb" then
    largest_key_length c .AES_ECB_128 .AES_ECB_192 .AES_ECB_256 general
  else if cstr driver = ascii "moto-aes-cbc" then
    largest_key_length c .AES_CBC_128 .AES_CBC_192 .AES_CBC_256 general
  else if cstr driver = ascii "moto-aes-ctr" then
    largest_key_length c .AES_CTR_128 .AES_CTR_192 .AES_CTR_256 general
  else general

/-- A sample build with fault injection in which the bits of AES ECB with 128-bit and
with 192-bit keys are set in the fault mask. -/
def aes_fault_config : Config :=
  { PAGE_SHIFT := 12, MAX_IVLEN := 16, FAULT_INJECTION := true, fault_injection_mask := 3,
    alg_value := fun a =>
      match a with
      | .AES_ECB_128 => 1
      | .AES_ECB_192 => 2
      | .AES_ECB_256 => 4
      | .TDES_ECB => 8
      | _ => 0 }

/-! ## Disjoint scratch regions -/

/-- The scratch region of chunk `k`: buffer, first offset, and the offset after the last
byte (`[off, off + tap[k])` within buffer `buf`). -/
def chunk_region (c : Config) (tap : List Nat) (k : Nat) : Nat × Nat × Nat :=
  ((chunk_ptr c k).buf, (chunk_ptr c k).off, (chunk_ptr c k).off + tap.getD k 0)

/-- The scratch regions of the first `np` chunks are pairwise disjoint: two different
chunks lie in different buffers or their byte ranges do not overlap. -/
def regions_disjoint (c : Config) (tap : List Nat) (np : Nat) : Prop :=
  ∀ k < np, ∀ k2 < np, k ≠ k2 →
    (chunk_region c tap k).1 ≠ (chunk_region c tap k2).1 ∨
    (chunk_region c tap k).2.2 ≤ (chunk_region c tap k2).2.1 ∨
    (chunk_region c tap k2).2.2 ≤ (chunk_region c tap k).2.1

instance (c : Config) (tap : List Nat) (np : Nat) : Decidable (regions_disjoint c tap np) := by
  unfold regions_disjoint
  infer_instance

/-! ## Classes of events used to state what the runners call -/

/-- The event is the call of an entry's test function through its function pointer or
the loading of a transform by name. -/
def Event.isInvoke : Event → Bool
  | .test _ _ _ _ => true
  | .alloc_tfm _ _ _ _ _ => true
  | _ => false

/-- The event is the call of an entry's test function through its function pointer. -/
def Event.isTest : Event → Bool
  | .test _ _ _ _ => true
  | _ => false

/-! ## The two passes in the words of the specification -/

/-- The entries of a table with their positions `i`, `i + 1`, ... -/
def index_from {τ : Type} : Nat → List τ → List (Nat × τ)
  | _, [] => []
  | i, t :: ts => (i, t) :: index_from (i + 1) ts

/-- The first `tcount` vectors of a table with their positions in the table. -/
def indexed {τ : Type} (template : List τ) (tcount : Nat) : List (Nat × τ) :=
  index_from 0 (template.take tcount)

/-- The vectors of the first `tcount` that a pass selects, with their positions, in table
order. -/
def selected {τ : Type} (sel : τ → Bool) (template : List τ) (tcount : Nat) :
    List (Nat × τ) :=
  (indexed template tcount).filter (fun p => sel p.2)

/-- Processing the listed vectors one after the other with `vec`, stopping at the first
one that does not go on to the next. -/
def process_list {σ τ : Type} (vec : Nat → τ → State σ → Flow × State σ) :
    List (Nat × τ) → State σ → Flow × State σ
  | [], s => (.next, s)
  | (i, t) :: rest, s =>
    match vec i t s with
    | (.next, s1) => process_list vec rest s1
    | r => r

/-- Two passes one after the other: the second starts, in the state the first left, only
when the first went through all its vectors. -/
def two_passes {σ : Type} (pass1 pass2 : State σ → Flow × State σ) (s : State σ) :
    Flow × State σ :=
  match pass1 s with
  | (.next, s1) => pass2 s1
  | r => r

/-! ## The hash operations called for one vector -/

/-- The hash operations (digest, init, update, final) called for vector `i` among the
events `l`, in order. -/
def ops_of (i : Nat) (l : List Event) : List HashOp :=
  l.filterMap (fun e =>
    match e with
    | .ahash_op j op _ _ _ => if j = i then some op else none
    | _ => none)

/-- The trace of `s1` extends that of `s` by events that carry index `i` or none and among
which the hash operations for vector `i` are `ops`. -/
def SegOps {σ : Type} (i : Nat) (ops : List HashOp) (s s1 : State σ) : Prop :=
  ∃ seg, s1.trace = s.trace ++ seg ∧ ops_of i seg = ops ∧
    ∀ e ∈ seg, e.idx = none ∨ e.idx = some i

/-- The hash operations the code path selected by `use_digest` consists of. -/
def path_ops (use_digest : Bool) : List HashOp :=
  if use_digest then [.digest] else [.init, .update, .final]

/-- What holds of the events `seg` of an unchunked hash vector `i`: they carry index `i` or
none, and when the processing goes on to the next vector, the hash operations called are
those of the path selected by `use_digest` and the comparison was made and found the
digests equal; the processing never leaves through `out` with status `0`. -/
def UnchunkedOps (use_digest : Bool) (i : Nat) (_t : moto_hash_testvec) (f : Flow)
    (seg : List Event) : Prop :=
  (∀ e ∈ seg, e.idx = none ∨ e.idx = some i) ∧
  (f = .next → ops_of i seg = path_ops use_digest ∧ Event.memcmp i 0 0 ∈ seg) ∧
  (∀ r, f = .out r → r ≠ 0)

/-- The events `seg` of vector `i` carry index `i` or none. -/
def IdxOnly {τ : Type} (i : Nat) (_t : τ) (_f : Flow) (seg : List Event) : Prop :=
  ∀ e ∈ seg, e.idx = none ∨ e.idx = some i

/-- A sample registry entry for a hash whose table holds one unchunked vector with an
all-zero expected digest. -/
def zero_hash_desc : moto_alg_test_desc :=
  { alg := ascii "zero", test := .hash, suite := .hash { vecs := [zero_digest_vec], count := 1 } }

/-! ## The registry lookup -/

theorem strcmp_eq_zero_iff (a b : List Nat) : strcmp a b = 0 ↔ cstr a = cstr b := by
  induction a generalizing b with
  | nil =>
    cases b with
    | nil => simp [strcmp, cstr]
    | cons c ct => by_cases h : c = 0 <;> simp [strcmp, cstr, h]
  | cons c1 cs ih =>
    cases b with
    | nil => by_cases h : c1 = 0 <;> simp [strcmp, cstr, h]
    | cons c2 ct =>
      by_cases h1 : c1 = c2
      · subst h1
        by_cases h : c1 = 0
        · simp [strcmp, cstr, h]
        · simp [strcmp, cstr, h, ih]
      · by_cases h : c1 < c2
        · by_cases h0 : c1 = 0 <;> by_cases h2 : c2 = 0 <;> (simp [strcmp, cstr, h1, h, h0, h2]; try omega)
        · by_cases h0 : c1 = 0 <;> by_cases h2 : c2 = 0 <;> (simp [strcmp, cstr, h1, h, h0, h2]; try omega)

theorem cstr_eq_self (a : List Nat) (h : ∀ x ∈ a, x ≠ 0) : cstr a = a := by
  induction a with
  | nil => rfl
  | cons x xs ih =>
    have hx : x ≠ 0 := h x (List.mem_cons_self _ _)
    simp only [cstr, hx, if_false]
    rw [ih (fun y hy => h y (List.mem_cons_of_mem _ hy))]

theorem strcmp_pos_iff (a b : List Nat) : 0 < strcmp a b ↔ strcmp b a < 0 := by
  induction a generalizing b with
  | nil =>
    cases b with
    | nil => simp [strcmp]
    | cons c ct => by_cases h : c = 0 <;> simp [strcmp, h]
  | cons c1 cs ih =>
    cases b with
    | nil => by_cases h : c1 = 0 <;> simp [strcmp, h]
    | cons c2 ct =>
      by_cases h1 : c1 = c2
      · subst h1
        by_cases h : c1 = 0
        · simp [strcmp, h]
        · simp [strcmp, h, ih]
      · have h1' : ¬ c2 = c1 := fun h => h1 h.symm
        by_cases h : c1 < c2
        · have : ¬ c2 < c1 := by omega
          simp [strcmp, h1, h1', h, this]
        · have : c2 < c1 := by omega
          simp [strcmp, h1, h1', h, this]

theorem strcmp_neg_trans (a b c : List Nat) (h1 : strcmp a b < 0) (h2 : strcmp b c < 0) :
    strcmp a c < 0 := by
  induction a generalizing b c with
  | nil =>
    cases c with
    | nil =>
      cases b with
      | nil => simp [strcmp] at h1
      | cons y ys =>
        by_cases hy : y = 0 <;> simp [strcmp, hy] at h1 h2
    | cons z zs =>
      cases b with
      | nil => simpa [strcmp] using h2
      | cons y ys =>
        by_cases hy : y = 0
        · simp [strcmp, hy] at h1
        · by_cases hz : z = 0
          · subst hz
            by_cases hyz : y = 0
            · exact absurd hyz hy
            · simp [strcmp, hyz] at h2
          · simp [strcmp, hz]
  | cons x xs ih =>
    cases b with
    | nil =>
      by_cases hx : x = 0 <;> simp [strcmp, hx] at h1
    | cons y ys =>
      cases c with
      | nil =>
        by_cases hy : y = 0 <;> simp [strcmp, hy] at h2
      | cons z zs =>
        simp only [strcmp] at h1 h2 ⊢
        by_cases hxy : x = y
        · subst hxy
          by_cases hx : x = 0
          · simp [hx] at h1
          · by_cases hxz : x = z
            · subst hxz
              simp [hx] at h1 h2 ⊢
              exact ih _ _ h1 h2
            · simpa [hxz, hx] using h2
        · by_cases hlt : x < y
          · by_cases hyz : y = z
            · subst hyz
              simp [hxy, hlt]
            · by_cases hlt2 : y < z
              · have : x ≠ z := by omega
                have : x < z := by omega
                simp [*]
              · simp [hyz, hlt2] at h2
          · simp [hxy, hlt] at h1

theorem nat_lor_eq_zero (m n : Nat) : m ||| n = 0 ↔ m = 0 ∧ n = 0 := by
  constructor
  · intro h
    have key : ∀ i, (m.testBit i || n.testBit i) = false := by
      intro i
      rw [← Nat.testBit_or, h, Nat.zero_testBit]
    constructor
    · apply Nat.eq_of_testBit_eq
      intro i
      have := key i
      simp only [Bool.or_eq_false_iff] at this
      simp [this.1]
    · apply Nat.eq_of_testBit_eq
      intro i
      have := key i
      simp only [Bool.or_eq_false_iff] at this
      simp [this.2]
  · rintro ⟨rfl, rfl⟩; rfl

theorem int_or_eq_zero (a b : Int) : int_or a b = 0 ↔ a = 0 ∧ b = 0 := by
  cases a <;> cases b <;> simp [int_or, nat_lor_eq_zero]

theorem find_loop_spec (descs : List moto_alg_test_desc) (alg : List Nat)
    (hs : SortedDescs descs) :
    ∀ (fuel start stop : Nat), stop ≤ descs.length → stop - start < fuel →
      (∀ (k : Nat) (d : moto_alg_test_desc), k < start → descs[k]? = some d →
          strcmp d.alg alg < 0) →
      (∀ (k : Nat) (d : moto_alg_test_desc), stop ≤ k → descs[k]? = some d →
          0 < strcmp d.alg alg) →
      (find_loop descs alg fuel start stop = some (-1) ∧
          ∀ (k : Nat) (d : moto_alg_test_desc), descs[k]? = some d → strcmp d.alg alg ≠ 0) ∨
      (∃ (k : Nat) (d : moto_alg_test_desc), find_loop descs alg fuel start stop = some (k : Int) ∧
          descs[k]? = some d ∧ strcmp d.alg alg = 0) := by
  intro fuel
  induction fuel with
  | zero => intro start stop _ h; omega
  | succ fuel ih =>
    intro start stop hlen hfuel hlo hhi
    unfold find_loop
    by_cases hlt : start < stop
    · simp only [hlt, if_true]
      have hi1 : start ≤ (start + stop) / 2 := by omega
      have hi2 : (start + stop) / 2 < stop := by omega
      have hi3 : (start + stop) / 2 < descs.length := by omega
      have hget : descs[(start + stop) / 2]? = some (descs[(start + stop) / 2]) :=
        List.getElem?_eq_getElem hi3
      rw [hget]
      simp only
      by_cases hpos : strcmp (descs[(start + stop) / 2]).alg alg > 0
      · simp only [hpos, if_true]
        apply ih start ((start + stop) / 2) (by omega) (by omega) hlo
        intro k d hk hd
        by_cases hk' : k = (start + stop) / 2
        · subst hk'
          rw [hget] at hd
          cases hd
          exact hpos
        · have hlt' : (start + stop) / 2 < k := by omega
          have h1 := hs _ _ _ _ hlt' hget hd
          have hpos' : strcmp alg (descs[(start + stop) / 2]).alg < 0 :=
            (strcmp_pos_iff _ _).1 hpos
          exact (strcmp_pos_iff _ _).2 (strcmp_neg_trans _ _ _ hpos' h1)
      · simp only [hpos, if_false]
        by_cases hneg : strcmp (descs[(start + stop) / 2]).alg alg < 0
        · simp only [hneg, if_true]
          apply ih ((start + stop) / 2 + 1) stop hlen (by omega) _ hhi
          intro k d hk hd
          by_cases hk' : k = (start + stop) / 2
          · subst hk'
            rw [hget] at hd
            cases hd
            exact hneg
          · have hlt' : k < (start + stop) / 2 := by omega
            have h1 := hs _ _ _ _ hlt' hd hget
            exact strcmp_neg_trans _ _ _ h1 hneg
        · simp only [hneg, if_false]
          right
          refine ⟨(start + stop) / 2, descs[(start + stop) / 2], ?_, hget, by omega⟩
          simp
    · rw [if_neg hlt]
      left
      refine ⟨rfl, ?_⟩
      intro k d hd
      by_cases hk : k < start
      · have := hlo k d hk hd
        omega
      · have := hhi k d (by omega) hd
        omega

theorem registry_pairwise :
    List.Pairwise (fun d e => strcmp d.alg e.alg < 0) moto_alg_test_descs := by
  decide

theorem registry_cstr : ∀ d ∈ moto_alg_test_descs, cstr d.alg = d.alg := by
  decide

theorem registry_sorted_idx : SortedDescs moto_alg_test_descs := by
  intro i j d e hij hd he
  have hi : i < moto_alg_test_descs.length := by
    rcases List.getElem?_eq_some_iff.1 hd with ⟨h, _⟩
    exact h
  have hj : j < moto_alg_test_descs.length := by
    rcases List.getElem?_eq_some_iff.1 he with ⟨h, _⟩
    exact h
  have hd' : moto_alg_test_descs[i] = d := (List.getElem?_eq_some_iff.1 hd).2
  have he' : moto_alg_test_descs[j] = e := (List.getElem?_eq_some_iff.1 he).2
  rw [← hd', ← he']
  exact List.pairwise_iff_getElem.1 registry_pairwise i j hi hj hij

theorem find_test_cases (s : List Nat) :
    (moto_alg_find_test s = some (-1) ∧
        ∀ (k : Nat) (d : moto_alg_test_desc), moto_alg_test_descs[k]? = some d →
          strcmp d.alg s ≠ 0) ∨
    (∃ (k : Nat) (d : moto_alg_test_desc), moto_alg_find_test s = some (k : Int) ∧
        moto_alg_test_descs[k]? = some d ∧ strcmp d.alg s = 0) := by
  unfold moto_alg_find_test
  apply find_loop_spec _ _ registry_sorted_idx
  · exact Nat.le_refl _
  · omega
  · intro k d hk; omega
  · intro k d hk hd
    have := (List.getElem?_eq_some_iff.1 hd).1
    omega

/-- C1. `moto_alg_find_test` returns a result for every name `s`; a result `i >= 0` is the
index of an entry whose `.alg` is the string `s`; the result is `-1` exactly when no entry of
the 16-entry table is named `s`; and each registered name is found at its own index. -/
theorem find_test_correct (s : List Nat) :
    (∃ r : Int, moto_alg_find_test s = some r ∧ (r = -1 ∨ (0 ≤ r ∧ r < 16))) ∧
    (∀ i : Nat, moto_alg_find_test s = some (i : Int) →
        ∃ d, moto_alg_test_descs[i]? = some d ∧ d.alg = cstr s) ∧
    (moto_alg_find_test s = some (-1) ↔ ∀ d ∈ moto_alg_test_descs, d.alg ≠ cstr s) ∧
    (moto_alg_test_descs.length = 16 ∧
      ∀ (i : Nat) (d : moto_alg_test_desc), moto_alg_test_descs[i]? = some d →
        moto_alg_find_test d.alg = some (i : Int)) := by
  have hname : ∀ (k : Nat) (d : moto_alg_test_desc), moto_alg_test_descs[k]? = some d →
      ∀ t, (strcmp d.alg t = 0 ↔ d.alg = cstr t) := by
    intro k d hd t
    have hmem : d ∈ moto_alg_test_descs := List.getElem?_mem hd
    rw [strcmp_eq_zero_iff, registry_cstr d hmem]
  refine ⟨?_, ?_, ?_, rfl, ?_⟩
  · rcases find_test_cases s with ⟨h, _⟩ | ⟨k, d, h, hd, _⟩
    · exact ⟨-1, h, Or.inl rfl⟩
    · refine ⟨k, h, Or.inr ⟨by omega, ?_⟩⟩
      have := (List.getElem?_eq_some_iff.1 hd).1
      have hl : moto_alg_test_descs.length = 16 := rfl
      omega
  · intro i hi
    rcases find_test_cases s with ⟨h, _⟩ | ⟨k, d, h, hd, h0⟩
    · rw [h] at hi
      simp at hi
    · rw [h] at hi
      simp at hi
      subst hi
      exact ⟨d, hd, (hname k d hd s).1 h0⟩
  · constructor
    · intro hm d hd
      rcases find_test_cases s with ⟨_, hno⟩ | ⟨k, d', h, _, _⟩
      · rcases List.getElem?_of_mem hd with ⟨k, hk⟩
        intro heq
        exact hno k d hk ((hname k d hk s).2 heq)
      · rw [h] at hm
        simp at hm
    · intro hno
      rcases find_test_cases s with ⟨h, _⟩ | ⟨k, d, _, hd, h0⟩
      · exact h
      · exact absurd ((hname k d hd s).1 h0) (hno d (List.getElem?_mem hd))
  · intro i d hd
    rcases find_test_cases d.alg with ⟨_, hno⟩ | ⟨k, d', h, hd', h0⟩
    · exfalso
      apply hno i d hd
      rw [strcmp_eq_zero_iff]
    · rw [h]
      by_cases hki : k = i
      · rw [hki]
      · exfalso
        rcases Nat.lt_or_gt_of_ne hki with hlt | hgt
        · have := registry_sorted_idx k i d' d hlt hd' hd
          omega
        · have := registry_sorted_idx i k d d' hgt hd hd'
          have h2 := (strcmp_pos_iff d.alg d'.alg).2
          have h3 : strcmp d.alg d'.alg = 0 := by
            rw [strcmp_eq_zero_iff]
            exact ((strcmp_eq_zero_iff _ _).1 h0).symm
          omega

/-- C2. The registry `moto_alg_test_descs` has 16 entries, from "ansi_cprng" to "sha512",
and their `.alg` names are strictly increasing under `strcmp`: an entry at a smaller index
compares below every entry at a larger index, so the table is sorted and has no duplicate
name. -/
theorem registry_strictly_sorted :
    moto_alg_test_descs.length = 16 ∧
    (moto_alg_test_descs.head?.map (fun d => d.alg) = some (ascii "ansi_cprng")) ∧
    (moto_alg_test_descs.getLast?.map (fun d => d.alg) = some (ascii "sha512")) ∧
    List.Pairwise (fun d e => strcmp d.alg e.alg < 0) moto_alg_test_descs ∧
    (∀ (i j : Nat) (d e : moto_alg_test_desc), i < j → moto_alg_test_descs[i]? = some d →
      moto_alg_test_descs[j]? = some e → strcmp d.alg e.alg < 0) ∧
    (moto_alg_test_descs.map (fun d => d.alg)).Nodup := by
  refine ⟨rfl, rfl, rfl, registry_pairwise, registry_sorted_idx, ?_⟩
  decide
/-! ## Scatter layout: proofs -/

theorem hash_layout_step_eq_gen (c : Config) (t : moto_hash_testvec) (k : Nat) (l : Layout) :
    hash_layout_step c t k l = gen_layout_step c (byteAt t.plaintext) t.tap false k l := by
  simp [hash_layout_step, gen_layout_step]

theorem hash_layout_eq_gen (c : Config) (t : moto_hash_testvec) (xbuf : Mem) (n : Nat) :
    hash_layout c t xbuf n = gen_layout c (byteAt t.plaintext) t.tap t.np false xbuf n := by
  induction n with
  | zero => rfl
  | succ n ih =>
    rw [hash_layout, gen_layout, ih]
    exact congrArg _ (funext (hash_layout_step_eq_gen c t n))

theorem skcipher_layout_step_eq_gen (c : Config) (t : moto_cipher_testvec) (k : Nat)
    (l : Layout) :
    skcipher_layout_step c t k l = gen_layout_step c (byteAt t.input) t.tap true k l := by
  simp [skcipher_layout_step, gen_layout_step]

theorem skcipher_layout_eq_gen (c : Config) (t : moto_cipher_testvec) (xbuf : Mem) (n : Nat) :
    skcipher_layout c t xbuf n = gen_layout c (byteAt t.input) t.tap t.np true xbuf n := by
  induction n with
  | zero => rfl
  | succ n ih =>
    rw [skcipher_layout, gen_layout, ih]
    exact congrArg _ (funext (skcipher_layout_step_eq_gen c t n))

theorem offset_in_page_idem (c : Config) (p : Nat) :
    offset_in_page c (offset_in_page c p) = offset_in_page c p := by
  unfold offset_in_page
  rw [Nat.and_assoc, Nat.and_self]

theorem offset_in_page_lt (c : Config) (p : Nat) : offset_in_page c p < PAGE_SIZE c := by
  unfold offset_in_page PAGE_SIZE
  have h : 0 < 2 ^ c.PAGE_SHIFT := Nat.two_pow_pos _
  have := @Nat.and_le_right p (2 ^ c.PAGE_SHIFT - 1)
  omega

theorem gen_layout_step_isSome (c : Config) (src : Nat → Nat) (tap : List Nat)
    (sentinel : Bool) (k : Nat) (l : Layout) :
    (gen_layout_step c src tap sentinel k l).isSome ↔ chunk_fits c tap k := by
  unfold gen_layout_step chunk_fits
  by_cases h : offset_in_page c (MOTO_IDX.getD k 0) + tap.getD k 0 > PAGE_SIZE c
  · simp [h]
  · simp [h]

theorem gen_layout_isSome (c : Config) (src : Nat → Nat) (tap : List Nat) (np : Nat)
    (sentinel : Bool) (xbuf : Mem) (n : Nat) :
    (gen_layout c src tap np sentinel xbuf n).isSome ↔ ∀ k < n, chunk_fits c tap k := by
  induction n with
  | zero => simp [gen_layout]
  | succ n ih =>
    simp only [gen_layout]
    constructor
    · intro h k hk
      cases hl : gen_layout c src tap np sentinel xbuf n with
      | none =>
        rw [hl] at h
        simp at h
      | some l =>
        rw [hl] at h ih
        simp only [Option.some_bind] at h
        by_cases hkn : k = n
        · subst hkn
          exact (gen_layout_step_isSome c src tap sentinel k l).1 h
        · exact ih.1 rfl k (by omega)
    · intro h
      have h1 := ih.2 (fun k hk => h k (by omega))
      cases hl : gen_layout c src tap np sentinel xbuf n with
      | none =>
        rw [hl] at h1
        simp at h1
      | some l =>
        simp only [Option.some_bind]
        exact (gen_layout_step_isSome c src tap sentinel n l).2 (h n (by omega))

theorem gen_layout_temp (c : Config) (src : Nat → Nat) (tap : List Nat) (np : Nat)
    (sentinel : Bool) (xbuf : Mem) (n : Nat) (l : Layout)
    (h : gen_layout c src tap np sentinel xbuf n = some l) :
    l.temp = chunk_start tap n ∧ l.sg.length = np := by
  induction n generalizing l with
  | zero =>
    simp only [gen_layout, Option.some.injEq] at h
    subst h
    simp [chunk_start]
  | succ n ih =>
    simp only [gen_layout] at h
    cases hl : gen_layout c src tap np sentinel xbuf n with
    | none =>
      rw [hl] at h
      simp at h
    | some l0 =>
      rw [hl] at h
      simp only [Option.some_bind, gen_layout_step] at h
      split at h
      · simp at h
      · simp only [Option.some.injEq] at h
        subst h
        have := ih l0 hl
        simp [chunk_start, this.1, this.2]
theorem chunk_ptr_off_idem (c : Config) (k : Nat) :
    offset_in_page c (chunk_ptr c k).off = (chunk_ptr c k).off := by
  unfold chunk_ptr
  exact offset_in_page_idem c _

theorem gen_layout_step_spec (c : Config) (src : Nat → Nat) (tap : List Nat)
    (sentinel : Bool) (k : Nat) (l l1 : Layout)
    (h : gen_layout_step c src tap sentinel k l = some l1) :
    (∀ j < tap.getD k 0, l1.xbuf (chunk_ptr c k).buf ((chunk_ptr c k).off + j) = src (l.temp + j)) ∧
    (∀ b o, ¬ (b = (chunk_ptr c k).buf ∧ (chunk_ptr c k).off ≤ o ∧
        o < (chunk_ptr c k).off + written_len c tap sentinel k) → l1.xbuf b o = l.xbuf b o) ∧
    l1.sg = l.sg.set k (chunk_sg c tap k) ∧
    l1.temp = l.temp + tap.getD k 0 := by
  unfold gen_layout_step at h
  split at h
  · simp at h
  · simp only [Option.some.injEq] at h
    subst h
    simp only [chunk_ptr_off_idem]
    refine ⟨?_, ?_, rfl, trivial⟩
    · intro j hj
      generalize tap.getD k 0 = T at *
      generalize (chunk_ptr c k).buf = B at *
      generalize (chunk_ptr c k).off = O at *
      by_cases hs : sentinel = true ∧ O + T < PAGE_SIZE c
      · rw [if_pos hs]
        simp only [Mem.store, Mem.memcpy, eq_self_iff_true, true_and]
        rw [if_neg (by omega), if_pos (by omega)]
        congr 2
        omega
      · rw [if_neg hs]
        simp only [Mem.memcpy, eq_self_iff_true, true_and]
        rw [if_pos (by omega)]
        congr 2
        omega
    · intro b o hno
      unfold written_len at hno
      generalize tap.getD k 0 = T at *
      generalize (chunk_ptr c k).buf = B at *
      generalize (chunk_ptr c k).off = O at *
      by_cases hs : sentinel = true ∧ O + T < PAGE_SIZE c
      · rw [if_pos hs] at hno
        rw [if_pos hs]
        simp only [Mem.store, Mem.memcpy]
        rw [if_neg, if_neg]
        · intro hh; apply hno; exact ⟨hh.1, hh.2.1, by omega⟩
        · intro hh; apply hno; exact ⟨hh.1, by omega, by omega⟩
      · rw [if_neg hs] at hno
        rw [if_neg hs]
        simp only [Mem.memcpy]
        rw [if_neg]
        intro hh; apply hno; exact ⟨hh.1, hh.2.1, by omega⟩

theorem gen_layout_regions (c : Config) (src : Nat → Nat) (tap : List Nat) (np : Nat)
    (sentinel : Bool) (xbuf : Mem) (hkeep : regions_kept c tap np sentinel) :
    ∀ (n : Nat) (l : Layout), n ≤ np → gen_layout c src tap np sentinel xbuf n = some l →
      ∀ k < n, ∀ j < tap.getD k 0,
        l.xbuf (chunk_ptr c k).buf ((chunk_ptr c k).off + j) = src (chunk_start tap k + j) := by
  intro n
  induction n with
  | zero => intro l _ _ k hk; omega
  | succ n ih =>
    intro l hn h k hk j hj
    simp only [gen_layout] at h
    cases hl : gen_layout c src tap np sentinel xbuf n with
    | none =>
      rw [hl] at h
      simp at h
    | some l0 =>
      rw [hl] at h
      simp only [Option.some_bind] at h
      have hspec := gen_layout_step_spec c src tap sentinel n l0 l h
      have htemp := (gen_layout_temp c src tap np sentinel xbuf n l0 hl).1
      by_cases hkn : k = n
      · subst hkn
        rw [hspec.1 j hj, htemp]
      · have hk' : k < n := by omega
        rw [hspec.2.1]
        · exact ih l0 (by omega) hl k hk' j hj
        · rintro ⟨hb, h1, h2⟩
          rcases hkeep n (by omega) k hk' with hne | hle | hle
          · exact hne hb
          · omega
          · omega

theorem gen_layout_sg (c : Config) (src : Nat → Nat) (tap : List Nat) (np : Nat)
    (sentinel : Bool) (xbuf : Mem) :
    ∀ (n : Nat) (l : Layout), n ≤ np → gen_layout c src tap np sentinel xbuf n = some l →
      ∀ k < n, l.sg[k]? = some (chunk_sg c tap k) := by
  intro n
  induction n with
  | zero => intro l _ _ k hk; omega
  | succ n ih =>
    intro l hn h k hk
    simp only [gen_layout] at h
    cases hl : gen_layout c src tap np sentinel xbuf n with
    | none =>
      rw [hl] at h
      simp at h
    | some l0 =>
      rw [hl] at h
      simp only [Option.some_bind] at h
      have hspec := gen_layout_step_spec c src tap sentinel n l0 l h
      have hlen := (gen_layout_temp c src tap np sentinel xbuf n l0 hl).2
      rw [hspec.2.2.1]
      by_cases hkn : k = n
      · subst hkn
        rw [List.getElem?_set_self]
        simp [hlen]
        omega
      · rw [List.getElem?_set_ne (by omega)]
        exact ih l0 (by omega) hl k (by omega)

theorem gen_layout_sg_full (c : Config) (src : Nat → Nat) (tap : List Nat) (np : Nat)
    (sentinel : Bool) (xbuf : Mem) (l : Layout)
    (h : gen_layout c src tap np sentinel xbuf np = some l) :
    l.sg = (List.range np).map (chunk_sg c tap) := by
  apply List.ext_getElem?
  intro k
  have hlen := (gen_layout_temp c src tap np sentinel xbuf np l h).2
  by_cases hk : k < np
  · rw [gen_layout_sg c src tap np sentinel xbuf np l (Nat.le_refl _) h k hk]
    simp [hk]
  · rw [List.getElem?_eq_none (by omega), List.getElem?_eq_none (by simp; omega)]

theorem gather_append (m : Mem) (xs ys : List scatterlist) :
    gather m (xs ++ ys) = gather m xs ++ gather m ys := by
  induction xs with
  | nil => rfl
  | cons x xs ih => simp [gather, ih]

theorem gather_chunks (c : Config) (src : Nat → Nat) (tap : List Nat) (m : Mem) (n : Nat)
    (h : ∀ k < n, ∀ j < tap.getD k 0,
      m (chunk_ptr c k).buf ((chunk_ptr c k).off + j) = src (chunk_start tap k + j)) :
    gather m ((List.range n).map (chunk_sg c tap)) = (List.range (chunk_start tap n)).map src := by
  induction n with
  | zero => rfl
  | succ n ih =>
    rw [List.range_succ, List.map_append, gather_append, ih (fun k hk => h k (by omega))]
    simp only [List.map_cons, List.map_nil, gather, List.append_nil, chunk_start, chunk_sg]
    rw [List.range_add, List.map_append, List.map_map]
    congr 1
    apply List.map_congr_left
    intro j hj
    simp only [List.mem_range] at hj
    simp only [Function.comp]
    exact h n (by omega) j hj
theorem hash_layout_none_of_bad (c : Config) (t : moto_hash_testvec) (xbuf : Mem)
    (hbad : ∃ k < t.np, ¬ chunk_fits c t.tap k) : hash_layout c t xbuf t.np = none := by
  cases h : hash_layout c t xbuf t.np with
  | none => rfl
  | some l =>
    exfalso
    rcases hbad with ⟨k, hk, hnot⟩
    have h1 : (gen_layout c (byteAt t.plaintext) t.tap t.np false xbuf t.np).isSome := by
      rw [← hash_layout_eq_gen, h]; rfl
    exact hnot ((gen_layout_isSome _ _ _ _ _ _ _).1 h1 k hk)

theorem skcipher_layout_none_of_bad (c : Config) (t : moto_cipher_testvec) (xbuf : Mem)
    (hbad : ∃ k < t.np, ¬ chunk_fits c t.tap k) : skcipher_layout c t xbuf t.np = none := by
  cases h : skcipher_layout c t xbuf t.np with
  | none => rfl
  | some l =>
    exfalso
    rcases hbad with ⟨k, hk, hnot⟩
    have h1 : (gen_layout c (byteAt t.input) t.tap t.np true xbuf t.np).isSome := by
      rw [← skcipher_layout_eq_gen, h]; rfl
    exact hnot ((gen_layout_isSome _ _ _ _ _ _ _).1 h1 k hk)

theorem hash_chunked_vec_bad {σ : Type} (E : Env σ) (c : Config) (tfm : crypto_ahash)
    (i : Nat) (t : moto_hash_testvec) (s : State σ)
    (hbad : ∃ k < t.np, ¬ chunk_fits c t.tap k) :
    hash_chunked_vec E c tfm i t s = (.out (-EINVAL), s) := by
  unfold hash_chunked_vec
  rw [hash_layout_none_of_bad c t s.xbuf hbad]

theorem skcipher_chunked_vec_bad {σ : Type} (E : Env σ) (c : Config)
    (tfm : crypto_ablkcipher) (enc : Int) (i : Nat) (t : moto_cipher_testvec) (s : State σ)
    (hbad : ∃ k < t.np, ¬ chunk_fits c t.tap k)
    (hkey : (skcipher_setkey E tfm i t s).1 = 0) (hfail : t.fail ≠ 1) :
    skcipher_chunked_vec E c tfm enc i t s = (.out (-EINVAL), (skcipher_setkey E tfm i t s).2) := by
  unfold skcipher_chunked_vec
  cases hk : skcipher_setkey E tfm i t s with
  | mk ret s2 =>
    rw [hk] at hkey
    simp only at hkey
    subst hkey
    simp only [if_true]
    rw [if_neg (fun h => hfail h.symm)]
    simp only [ne_eq, not_true_eq_false, if_false]
    rw [skcipher_layout_none_of_bad c t s2.xbuf hbad]

theorem hash_pass2_split {σ : Type} (E : Env σ) (c : Config) (tfm : crypto_ahash)
    (template : List moto_hash_testvec) (m n : Nat) :
    ∀ (i : Nat) (s : State σ),
      hash_pass2 E c tfm template (m + n) i s =
        match hash_pass2 E c tfm template m i s with
        | (.next, s1) => hash_pass2 E c tfm template n (i + m) s1
        | r => r := by
  induction m with
  | zero => intro i s; simp [hash_pass2]
  | succ m ih =>
    intro i s
    have e : m + 1 + n = (m + n) + 1 := by omega
    rw [e]
    simp only [hash_pass2]
    cases ht : template[i]? with
    | none => rfl
    | some t =>
      try simp only
      by_cases hnp : t.np ≠ 0
      · rw [if_pos hnp, if_pos hnp]
        cases hv : hash_chunked_vec E c tfm i t s with
        | mk f s1 =>
          cases f with
          | next =>
            try simp only
            rw [ih (i + 1) s1]
            have e2 : i + 1 + m = i + (m + 1) := by omega
            rw [e2]
          | out r => rfl
          | stuck => rfl
      · rw [if_neg hnp, if_neg hnp]
        rw [ih (i + 1) s]
        have e2 : i + 1 + m = i + (m + 1) := by omega
        rw [e2]

theorem skcipher_pass2_split {σ : Type} (E : Env σ) (c : Config) (tfm : crypto_ablkcipher)
    (enc : Int) (template : List moto_cipher_testvec) (m n : Nat) :
    ∀ (i : Nat) (s : State σ),
      skcipher_pass2 E c tfm enc template (m + n) i s =
        match skcipher_pass2 E c tfm enc template m i s with
        | (.next, s1) => skcipher_pass2 E c tfm enc template n (i + m) s1
        | r => r := by
  induction m with
  | zero => intro i s; simp [skcipher_pass2]
  | succ m ih =>
    intro i s
    have e : m + 1 + n = (m + n) + 1 := by omega
    rw [e]
    simp only [skcipher_pass2]
    cases ht : template[i]? with
    | none => rfl
    | some t =>
      try simp only
      by_cases hnp : t.np ≠ 0
      · rw [if_pos hnp, if_pos hnp]
        cases hv : skcipher_chunked_vec E c tfm enc i t s with
        | mk f s1 =>
          cases f with
          | next =>
            try simp only
            rw [ih (i + 1) s1]
            have e2 : i + 1 + m = i + (m + 1) := by omega
            rw [e2]
          | out r => rfl
          | stuck => rfl
      · rw [if_neg hnp, if_neg hnp]
        rw [ih (i + 1) s]
        have e2 : i + 1 + m = i + (m + 1) := by omega
        rw [e2]
/-- C9. In the layout loops of `moto_test_hash` and `moto_test_skcipher`, iteration `k < np`
(reached when the chunks before it passed the page-fit check, and passing it itself) starts
with the source offset `tap[0] + ... + tap[k-1]`, copies exactly `tap[k]` input bytes from
that offset to buffer `MOTO_IDX[k] >> PAGE_SHIFT` at position
`MOTO_IDX[k] & (PAGE_SIZE - 1)`, leaves every other byte as it was (the cipher loop stores
in addition the zero byte right after a chunk that ends before the page end), and sets
scatter-list entry `k` to that region with length `tap[k]`. -/
theorem layout_copy_chunk (c : Config) (xbuf : Mem) (k : Nat) :
    (∀ (t : moto_hash_testvec) (l : Layout), k < t.np → t.np ≤ 8 →
      hash_layout c t xbuf k = some l → chunk_fits c t.tap k →
      ∃ l1, hash_layout_step c t k l = some l1 ∧ hash_layout c t xbuf (k + 1) = some l1 ∧
        l.temp = chunk_start t.tap k ∧
        (∀ j < t.tap.getD k 0,
          l1.xbuf (MOTO_IDX.getD k 0 >>> c.PAGE_SHIFT)
              ((MOTO_IDX.getD k 0 &&& (PAGE_SIZE c - 1)) + j)
            = byteAt t.plaintext (chunk_start t.tap k + j)) ∧
        (∀ b o, ¬ (b = MOTO_IDX.getD k 0 >>> c.PAGE_SHIFT ∧
            (MOTO_IDX.getD k 0 &&& (PAGE_SIZE c - 1)) ≤ o ∧
            o < (MOTO_IDX.getD k 0 &&& (PAGE_SIZE c - 1)) + t.tap.getD k 0) →
          l1.xbuf b o = l.xbuf b o) ∧
        l1.sg[k]? = some ⟨MOTO_IDX.getD k 0 >>> c.PAGE_SHIFT,
          MOTO_IDX.getD k 0 &&& (PAGE_SIZE c - 1), t.tap.getD k 0⟩) ∧
    (∀ (t : moto_cipher_testvec) (l : Layout), k < t.np → t.np ≤ 8 →
      skcipher_layout c t xbuf k = some l → chunk_fits c t.tap k →
      ∃ l1, skcipher_layout_step c t k l = some l1 ∧
        skcipher_layout c t xbuf (k + 1) = some l1 ∧
        l.temp = chunk_start t.tap k ∧
        (∀ j < t.tap.getD k 0,
          l1.xbuf (MOTO_IDX.getD k 0 >>> c.PAGE_SHIFT)
              ((MOTO_IDX.getD k 0 &&& (PAGE_SIZE c - 1)) + j)
            = byteAt t.input (chunk_start t.tap k + j)) ∧
        (∀ b o, ¬ (b = MOTO_IDX.getD k 0 >>> c.PAGE_SHIFT ∧
            (MOTO_IDX.getD k 0 &&& (PAGE_SIZE c - 1)) ≤ o ∧
            o < (MOTO_IDX.getD k 0 &&& (PAGE_SIZE c - 1)) + t.tap.getD k 0) →
          ¬ (b = MOTO_IDX.getD k 0 >>> c.PAGE_SHIFT ∧
            o = (MOTO_IDX.getD k 0 &&& (PAGE_SIZE c - 1)) + t.tap.getD k 0 ∧
            o < PAGE_SIZE c) →
          l1.xbuf b o = l.xbuf b o) ∧
        l1.sg[k]? = some ⟨MOTO_IDX.getD k 0 >>> c.PAGE_SHIFT,
          MOTO_IDX.getD k 0 &&& (PAGE_SIZE c - 1), t.tap.getD k 0⟩) := by
  constructor
  · intro t l hk _ hl hfit
    rw [hash_layout_eq_gen] at hl
    have hsome := (gen_layout_step_isSome c (byteAt t.plaintext) t.tap false k l).2 hfit
    cases hs : gen_layout_step c (byteAt t.plaintext) t.tap false k l with
    | none => rw [hs] at hsome; simp at hsome
    | some l1 =>
      have hspec := gen_layout_step_spec c _ _ _ k l l1 hs
      have htl := gen_layout_temp c _ _ _ _ _ k l hl
      refine ⟨l1, ?_, ?_, htl.1, ?_, ?_, ?_⟩
      · rw [hash_layout_step_eq_gen, hs]
      · rw [hash_layout_eq_gen, gen_layout, hl, Option.some_bind, hs]
      · intro j hj
        have := hspec.1 j hj
        rw [htl.1] at this
        exact this
      · intro b o hno
        apply hspec.2.1
        intro hh
        apply hno
        have hw : written_len c t.tap false k = t.tap.getD k 0 := by simp [written_len]
        rw [hw] at hh
        exact hh
      · rw [hspec.2.2.1, List.getElem?_set_self (by omega)]
        rfl
  · intro t l hk _ hl hfit
    rw [skcipher_layout_eq_gen] at hl
    have hsome := (gen_layout_step_isSome c (byteAt t.input) t.tap true k l).2 hfit
    cases hs : gen_layout_step c (byteAt t.input) t.tap true k l with
    | none => rw [hs] at hsome; simp at hsome
    | some l1 =>
      have hspec := gen_layout_step_spec c _ _ _ k l l1 hs
      have htl := gen_layout_temp c _ _ _ _ _ k l hl
      refine ⟨l1, ?_, ?_, htl.1, ?_, ?_, ?_⟩
      · rw [skcipher_layout_step_eq_gen, hs]
      · rw [skcipher_layout_eq_gen, gen_layout, hl, Option.some_bind, hs]
      · intro j hj
        have := hspec.1 j hj
        rw [htl.1] at this
        exact this
      · intro b o hno hns
        apply hspec.2.1
        intro hh
        have hoff : (chunk_ptr c k).off = MOTO_IDX.getD k 0 &&& (PAGE_SIZE c - 1) := rfl
        have hbuf : (chunk_ptr c k).buf = MOTO_IDX.getD k 0 >>> c.PAGE_SHIFT := rfl
        rw [hoff, hbuf] at hh
        unfold written_len at hh
        rw [hoff] at hh
        by_cases hsent : (MOTO_IDX.getD k 0 &&& (PAGE_SIZE c - 1)) + t.tap.getD k 0 < PAGE_SIZE c
        · simp only [hsent, and_self, if_true] at hh
          by_cases ho : o < (MOTO_IDX.getD k 0 &&& (PAGE_SIZE c - 1)) + t.tap.getD k 0
          · exact hno ⟨hh.1, hh.2.1, ho⟩
          · exact hns ⟨hh.1, by omega, by omega⟩
        · simp only [hsent, and_false, if_false, Nat.add_zero] at hh
          exact hno hh
      · rw [hspec.2.2.1, List.getElem?_set_self (by omega)]
        rfl

/-- Witness for C9: the first chunk (28 bytes) of the second registered SHA-1 vector. -/
theorem layout_copy_chunk_witness :
    ∃ l1, hash_layout_step sample_config (moto_sha1_tv_template.getD 1 {}) 0
        ⟨0, fun _ _ => 0, List.replicate 2 ⟨0, 0, 0⟩⟩ = some l1 ∧
      l1.xbuf 0 32 = 0x61 ∧ l1.xbuf 0 59 = 0x6a ∧ l1.sg[0]? = some ⟨0, 32, 28⟩ := by
  obtain ⟨l1, h1, _, _, h4, _, h6⟩ :=
    (layout_copy_chunk sample_config (fun _ _ => 0) 0).1 (moto_sha1_tv_template.getD 1 {})
      ⟨0, fun _ _ => 0, List.replicate 2 ⟨0, 0, 0⟩⟩ (by decide) (by decide) rfl (by decide)
  refine ⟨l1, h1, ?_, ?_, h6⟩
  · exact h4 0 (by decide)
  · exact h4 27 (by decide)
/-- C8, counterexample.  With 4096-byte pages every chunk of the hash chunk list
`{1, 1, 32}` and of the cipher chunk list `{1, 1, 31}` passes the page-fit check, yet after
the layout loop the region of chunk 0 (buffer 0, offset 32) does not hold the first input
byte (value 1): the third chunk's copy (hash) has put input byte 34 there, resp. the zero
byte stored after the third chunk (cipher) has overwritten it. -/
theorem layout_overlap_counterexample :
    (overlap_hash_vec.np ≤ 8 ∧
      (∀ k < overlap_hash_vec.np, chunk_fits sample_config overlap_hash_vec.tap k) ∧
      ∃ l, hash_layout sample_config overlap_hash_vec (fun _ _ => 0) overlap_hash_vec.np
          = some l ∧
        l.xbuf (MOTO_IDX.getD 0 0 >>> sample_config.PAGE_SHIFT)
            ((MOTO_IDX.getD 0 0 &&& (PAGE_SIZE sample_config - 1)) + 0) = 34 ∧
        byteAt overlap_hash_vec.plaintext (chunk_start overlap_hash_vec.tap 0 + 0) = 1 ∧
        l.xbuf (MOTO_IDX.getD 0 0 >>> sample_config.PAGE_SHIFT)
            ((MOTO_IDX.getD 0 0 &&& (PAGE_SIZE sample_config - 1)) + 0)
          ≠ byteAt overlap_hash_vec.plaintext (chunk_start overlap_hash_vec.tap 0 + 0)) ∧
    (overlap_cipher_vec.np ≤ 8 ∧
      (∀ k < overlap_cipher_vec.np, chunk_fits sample_config overlap_cipher_vec.tap k) ∧
      ∃ l, skcipher_layout sample_config overlap_cipher_vec (fun _ _ => 0)
          overlap_cipher_vec.np = some l ∧
        l.xbuf (MOTO_IDX.getD 0 0 >>> sample_config.PAGE_SHIFT)
            ((MOTO_IDX.getD 0 0 &&& (PAGE_SIZE sample_config - 1)) + 0) = 0 ∧
        byteAt overlap_cipher_vec.input (chunk_start overlap_cipher_vec.tap 0 + 0) = 1 ∧
        l.xbuf (MOTO_IDX.getD 0 0 >>> sample_config.PAGE_SHIFT)
            ((MOTO_IDX.getD 0 0 &&& (PAGE_SIZE sample_config - 1)) + 0)
          ≠ byteAt overlap_cipher_vec.input (chunk_start overlap_cipher_vec.tap 0 + 0)) := by
  refine ⟨⟨by decide, by decide, ?_⟩, ⟨by decide, by decide, ?_⟩⟩
  · have hv : (hash_layout sample_config overlap_hash_vec (fun _ _ => 0)
        overlap_hash_vec.np).map
        (fun l => l.xbuf (MOTO_IDX.getD 0 0 >>> sample_config.PAGE_SHIFT)
          ((MOTO_IDX.getD 0 0 &&& (PAGE_SIZE sample_config - 1)) + 0)) = some 34 := by
      decide
    cases hl : hash_layout sample_config overlap_hash_vec (fun _ _ => 0)
        overlap_hash_vec.np with
    | none => rw [hl] at hv; cases hv
    | some l =>
      rw [hl] at hv
      simp only [Option.map_some', Option.some.injEq] at hv
      refine ⟨l, rfl, hv, by decide, ?_⟩
      rw [hv]
      decide
  · have hv : (skcipher_layout sample_config overlap_cipher_vec (fun _ _ => 0)
        overlap_cipher_vec.np).map
        (fun l => l.xbuf (MOTO_IDX.getD 0 0 >>> sample_config.PAGE_SHIFT)
          ((MOTO_IDX.getD 0 0 &&& (PAGE_SIZE sample_config - 1)) + 0)) = some 0 := by
      decide
    cases hl : skcipher_layout sample_config overlap_cipher_vec (fun _ _ => 0)
        overlap_cipher_vec.np with
    | none => rw [hl] at hv; cases hv
    | some l =>
      rw [hl] at hv
      simp only [Option.map_some', Option.some.injEq] at hv
      refine ⟨l, rfl, hv, by decide, ?_⟩
      rw [hv]
      decide

/-- C8, amended.  For every chunk list of at most 8 chunks in which every chunk passes
the page-fit check and no chunk's region is overwritten by what the loop writes for a later
chunk (`regions_kept`), the layout loop of the hash runner and of the cipher runner
finishes, and then chunk `k`'s region holds exactly the `k`-th slice of the vector's input,
for every `k`; reading the scatter list back in order gives the input's first
`tap[0] + ... + tap[np-1]` bytes. -/
theorem layout_regions_hold (c : Config) (xbuf : Mem) :
    (∀ t : moto_hash_testvec, t.np ≤ 8 → (∀ k < t.np, chunk_fits c t.tap k) →
      regions_kept c t.tap t.np false →
      ∃ l, hash_layout c t xbuf t.np = some l ∧
        (∀ k < t.np, ∀ j < t.tap.getD k 0,
          l.xbuf (MOTO_IDX.getD k 0 >>> c.PAGE_SHIFT)
              ((MOTO_IDX.getD k 0 &&& (PAGE_SIZE c - 1)) + j)
            = byteAt t.plaintext (chunk_start t.tap k + j)) ∧
        (∀ k < t.np, l.sg[k]? = some ⟨MOTO_IDX.getD k 0 >>> c.PAGE_SHIFT,
          MOTO_IDX.getD k 0 &&& (PAGE_SIZE c - 1), t.tap.getD k 0⟩) ∧
        gather l.xbuf l.sg = (List.range (chunk_start t.tap t.np)).map (byteAt t.plaintext)) ∧
    (∀ t : moto_cipher_testvec, t.np ≤ 8 → (∀ k < t.np, chunk_fits c t.tap k) →
      regions_kept c t.tap t.np true →
      ∃ l, skcipher_layout c t xbuf t.np = some l ∧
        (∀ k < t.np, ∀ j < t.tap.getD k 0,
          l.xbuf (MOTO_IDX.getD k 0 >>> c.PAGE_SHIFT)
              ((MOTO_IDX.getD k 0 &&& (PAGE_SIZE c - 1)) + j)
            = byteAt t.input (chunk_start t.tap k + j)) ∧
        (∀ k < t.np, l.sg[k]? = some ⟨MOTO_IDX.getD k 0 >>> c.PAGE_SHIFT,
          MOTO_IDX.getD k 0 &&& (PAGE_SIZE c - 1), t.tap.getD k 0⟩) ∧
        gather l.xbuf l.sg = (List.range (chunk_start t.tap t.np)).map (byteAt t.input)) := by
  constructor
  · intro t _ hfit hkeep
    have hsome := (gen_layout_isSome c (byteAt t.plaintext) t.tap t.np false xbuf t.np).2 hfit
    cases hl : gen_layout c (byteAt t.plaintext) t.tap t.np false xbuf t.np with
    | none => rw [hl] at hsome; simp at hsome
    | some l =>
      have hreg := gen_layout_regions c _ _ _ _ xbuf hkeep t.np l (Nat.le_refl _) hl
      refine ⟨l, ?_, hreg, ?_, ?_⟩
      · rw [hash_layout_eq_gen, hl]
      · exact gen_layout_sg c _ _ _ _ xbuf t.np l (Nat.le_refl _) hl
      · rw [gen_layout_sg_full c _ _ _ _ xbuf l hl]
        exact gather_chunks c _ _ _ _ hreg
  · intro t _ hfit hkeep
    have hsome := (gen_layout_isSome c (byteAt t.input) t.tap t.np true xbuf t.np).2 hfit
    cases hl : gen_layout c (byteAt t.input) t.tap t.np true xbuf t.np with
    | none => rw [hl] at hsome; simp at hsome
    | some l =>
      have hreg := gen_layout_regions c _ _ _ _ xbuf hkeep t.np l (Nat.le_refl _) hl
      refine ⟨l, ?_, hreg, ?_, ?_⟩
      · rw [skcipher_layout_eq_gen, hl]
      · exact gen_layout_sg c _ _ _ _ xbuf t.np l (Nat.le_refl _) hl
      · rw [gen_layout_sg_full c _ _ _ _ xbuf l hl]
        exact gather_chunks c _ _ _ _ hreg

set_option maxRecDepth 100000 in
/-- Witness for C8 (amended): the registered SHA-1 vector with chunks `{63, 64, 31, 5}`,
whose third chunk ends right before the first one starts. -/
theorem layout_regions_hold_witness :
    ∃ l, hash_layout sample_config (moto_sha1_tv_template.getD 2 {}) (fun _ _ => 0) 4 = some l ∧
      gather l.xbuf l.sg = (moto_sha1_tv_template.getD 2 {}).plaintext := by
  obtain ⟨l, h1, _, _, h4⟩ :=
    (layout_regions_hold sample_config (fun _ _ => 0)).1 (moto_sha1_tv_template.getD 2 {})
      (by decide) (by decide) (by decide)
  refine ⟨l, h1, ?_⟩
  rw [h4]
  decide
/-- C10, counterexample.  A chunked cipher vector whose only chunk (5000 bytes) exceeds the
4096-byte page: with the expect-rejection flag set and a provider that rejects the key,
`moto_test_skcipher` skips the vector and returns `0`; with the flag clear and the key
rejected with code `-1` it returns `-1`.  In neither case is the status `-EINVAL`. -/
theorem bad_chunk_counterexample :
    (∃ k < bad_chunk_fail_vec.np,
      offset_in_page sample_config (MOTO_IDX.getD k 0) + bad_chunk_fail_vec.tap.getD k 0
        > PAGE_SIZE sample_config) ∧
    (moto_test_skcipher (sample_env (-1) none) sample_config ⟨0⟩ ENCRYPT
      [bad_chunk_fail_vec] 1 0 sample_state).1 = some 0 ∧
    (moto_test_skcipher (sample_env (-1) none) sample_config ⟨0⟩ ENCRYPT
      [bad_chunk_fail_vec] 1 0 sample_state).1 ≠ some (-EINVAL) ∧
    (∃ k < bad_chunk_vec.np,
      offset_in_page sample_config (MOTO_IDX.getD k 0) + bad_chunk_vec.tap.getD k 0
        > PAGE_SIZE sample_config) ∧
    (moto_test_skcipher (sample_env (-1) none) sample_config ⟨0⟩ ENCRYPT
      [bad_chunk_vec] 1 0 sample_state).1 = some (-1) ∧
    (moto_test_skcipher (sample_env (-1) none) sample_config ⟨0⟩ ENCRYPT
      [bad_chunk_vec] 1 0 sample_state).1 ≠ some (-EINVAL) := by
  decide

theorem not_fits_of_gt (c : Config) (tap : List Nat) (np : Nat)
    (h : ∃ k < np, offset_in_page c (MOTO_IDX.getD k 0) + tap.getD k 0 > PAGE_SIZE c) :
    ∃ k < np, ¬ chunk_fits c tap k := by
  rcases h with ⟨k, hk, hgt⟩
  exact ⟨k, hk, by unfold chunk_fits; omega⟩

/-- C10, amended.  A chunked hash vector reached by the second loop of `moto_test_hash`,
and a chunked cipher vector reached by the second loop of `moto_test_skcipher` whose key
set-up returned `0` with the expect-rejection flag not `1`, that has some chunk `k` with
`(MOTO_IDX[k] & (PAGE_SIZE-1)) + tap[k] > PAGE_SIZE`, makes the runner leave with status
`-EINVAL` without any digest, encrypt or decrypt call for that vector (for the hash
runner also without a set-key call).  The layout loop accepts a chunk list exactly when
every chunk has `(MOTO_IDX[k] & (PAGE_SIZE-1)) + tap[k] <= PAGE_SIZE`, so a chunk ending
exactly at the page end is accepted. -/
theorem bad_chunk_aborts {σ : Type} (E : Env σ) (c : Config) :
    (∀ (tfm : crypto_ahash) (i : Nat) (t : moto_hash_testvec) (s : State σ),
      (∃ k < t.np, offset_in_page c (MOTO_IDX.getD k 0) + t.tap.getD k 0 > PAGE_SIZE c) →
      hash_chunked_vec E c tfm i t s = (.out (-EINVAL), s)) ∧
    (∀ (tfm : crypto_ahash) (template : List moto_hash_testvec) (tcount : Nat)
      (use_digest : Bool) (inject_fault : Int) (s s1 s4 s5 : State σ) (e : σ) (i : Nat)
      (t : moto_hash_testvec),
      moto_testmgr_alloc_buf E s = (0, s1) →
      E.ahash_request_alloc s1.env = (true, e) →
      hash_pass1 E c tfm template use_digest inject_fault tcount 0
        { env := e, xbuf := s1.xbuf, tresult := ⟨0, E.uninit_int s1.env⟩,
          trace := s1.trace ++ [.init_completion] ++ [.ahash_request_alloc true] }
        = (.next, s4) →
      hash_pass2 E c tfm template i 0 s4 = (.next, s5) →
      i < tcount → template[i]? = some t → t.np ≠ 0 →
      (∃ k < t.np, offset_in_page c (MOTO_IDX.getD k 0) + t.tap.getD k 0 > PAGE_SIZE c) →
      moto_test_hash E c tfm template tcount use_digest inject_fault s
        = (some (-EINVAL), hash_out s5)) ∧
    (∀ (tfm : crypto_ablkcipher) (enc : Int) (i : Nat) (t : moto_cipher_testvec)
      (s : State σ),
      (∃ k < t.np, offset_in_page c (MOTO_IDX.getD k 0) + t.tap.getD k 0 > PAGE_SIZE c) →
      (skcipher_setkey E tfm i t s).1 = 0 → t.fail ≠ 1 →
      skcipher_chunked_vec E c tfm enc i t s
        = (.out (-EINVAL), (skcipher_setkey E tfm i t s).2)) ∧
    (∀ (tfm : crypto_ablkcipher) (enc : Int) (template : List moto_cipher_testvec)
      (tcount : Nat) (inject_fault : Int) (s s1 s4 s5 : State σ) (e : σ) (i : Nat)
      (t : moto_cipher_testvec),
      moto_testmgr_alloc_buf E s = (0, s1) →
      E.ablkcipher_request_alloc s1.env = (true, e) →
      skcipher_pass1 E c tfm enc template inject_fault tcount 0
        { env := e, xbuf := s1.xbuf, tresult := ⟨0, E.uninit_int s1.env⟩,
          trace := s1.trace ++ [.init_completion] ++ [.ablkcipher_request_alloc true] }
        = (.next, s4) →
      skcipher_pass2 E c tfm enc template i 0 s4 = (.next, s5) →
      i < tcount → template[i]? = some t → t.np ≠ 0 →
      (∃ k < t.np, offset_in_page c (MOTO_IDX.getD k 0) + t.tap.getD k 0 > PAGE_SIZE c) →
      (skcipher_setkey E tfm i t s5).1 = 0 → t.fail ≠ 1 →
      moto_test_skcipher E c tfm enc template tcount inject_fault s
        = (some (-EINVAL), skcipher_out (skcipher_setkey E tfm i t s5).2)) ∧
    (∀ (t : moto_hash_testvec) (xbuf : Mem),
      (hash_layout c t xbuf t.np).isSome ↔
        ∀ k < t.np, offset_in_page c (MOTO_IDX.getD k 0) + t.tap.getD k 0 ≤ PAGE_SIZE c) ∧
    (∀ (t : moto_cipher_testvec) (xbuf : Mem),
      (skcipher_layout c t xbuf t.np).isSome ↔
        ∀ k < t.np, offset_in_page c (MOTO_IDX.getD k 0) + t.tap.getD k 0 ≤ PAGE_SIZE c) := by
  refine ⟨?_, ?_, ?_, ?_, ?_, ?_⟩
  · intro tfm i t s hbad
    exact hash_chunked_vec_bad E c tfm i t s (not_fits_of_gt c _ _ hbad)
  · intro tfm template tcount use_digest inject_fault s s1 s4 s5 e i t ha hr hp1 hp2 hi ht hnp hbad
    have hsplit := hash_pass2_split E c tfm template i (tcount - i) 0 s4
    have e1 : i + (tcount - i) = tcount := by omega
    rw [e1, hp2] at hsplit
    simp only [Nat.zero_add] at hsplit
    obtain ⟨m, hm⟩ : ∃ m, tcount - i = m + 1 := ⟨tcount - i - 1, by omega⟩
    rw [hm] at hsplit
    simp only [hash_pass2, ht] at hsplit
    rw [if_pos hnp, hash_chunked_vec_bad E c tfm i t s5 (not_fits_of_gt c _ _ hbad)] at hsplit
    unfold moto_test_hash
    rw [ha]
    simp only [ne_eq, not_true_eq_false, if_false, hr, List.append_assoc, List.singleton_append]
    simp only [List.append_assoc, List.singleton_append] at hp1
    rw [hp1]
    simp only
    rw [hsplit]
  · intro tfm enc i t s hbad hkey hfail
    exact skcipher_chunked_vec_bad E c tfm enc i t s (not_fits_of_gt c _ _ hbad) hkey hfail
  · intro tfm enc template tcount inject_fault s s1 s4 s5 e i t ha hr hp1 hp2 hi ht hnp hbad
      hkey hfail
    have hsplit := skcipher_pass2_split E c tfm enc template i (tcount - i) 0 s4
    have e1 : i + (tcount - i) = tcount := by omega
    rw [e1, hp2] at hsplit
    simp only [Nat.zero_add] at hsplit
    obtain ⟨m, hm⟩ : ∃ m, tcount - i = m + 1 := ⟨tcount - i - 1, by omega⟩
    rw [hm] at hsplit
    simp only [skcipher_pass2, ht] at hsplit
    rw [if_pos hnp,
      skcipher_chunked_vec_bad E c tfm enc i t s5 (not_fits_of_gt c _ _ hbad) hkey hfail]
      at hsplit
    unfold moto_test_skcipher
    rw [ha]
    simp only [ne_eq, not_true_eq_false, if_false, hr, List.append_assoc, List.singleton_append]
    simp only [List.append_assoc, List.singleton_append] at hp1
    rw [hp1]
    simp only
    rw [hsplit]
  · intro t xbuf
    rw [hash_layout_eq_gen, gen_layout_isSome]
    rfl
  · intro t xbuf
    rw [skcipher_layout_eq_gen, gen_layout_isSome]
    rfl

/-- Witness for C10 (amended): a table holding one chunked hash vector whose chunk of
5000 bytes does not fit a 4096-byte page. -/
theorem bad_chunk_aborts_witness :
    (moto_test_hash (sample_env 0 none) sample_config ⟨0, 20⟩ [bad_chunk_hash_vec] 1 true 0
      sample_state).1 = some (-EINVAL) ∧
    (moto_test_skcipher (sample_env 0 none) sample_config ⟨0⟩ ENCRYPT [bad_chunk_vec] 1 0
      sample_state).1 = some (-EINVAL) := by
  have h := (bad_chunk_aborts (sample_env 0 none) sample_config).2.1 ⟨0, 20⟩
    [bad_chunk_hash_vec] 1 true 0 sample_state _ _ _ () 0 bad_chunk_hash_vec rfl rfl rfl rfl
    (by decide) rfl (by decide) (by decide)
  have h2 := (bad_chunk_aborts (sample_env 0 none) sample_config).2.2.2.1 ⟨0⟩ ENCRYPT
    [bad_chunk_vec] 1 0 sample_state _ _ _ () 0 bad_chunk_vec rfl rfl rfl rfl
    (by decide) rfl (by decide) (by decide) (by decide) (by decide)
  rw [h, h2]
  exact ⟨rfl, rfl⟩
theorem find_test_absent (s : List Nat)
    (h : ∀ d ∈ moto_alg_test_descs, d.alg ≠ cstr s) : moto_alg_find_test s = some (-1) := by
  rcases find_test_cases s with ⟨h1, _⟩ | ⟨k, d, _, hd, h0⟩
  · exact h1
  · exfalso
    have hmem : d ∈ moto_alg_test_descs := List.getElem?_mem hd
    apply h d hmem
    have := (strcmp_eq_zero_iff d.alg s).1 h0
    rw [registry_cstr d hmem] at this
    exact this

theorem int_or_zero_left (a : Int) : int_or 0 a = a := by
  cases a with
  | ofNat n =>
    show Int.ofNat (0 ||| n) = Int.ofNat n
    rw [Nat.zero_or]
  | negSucc n =>
    show Int.negSucc (n ^^^ (n &&& 0)) = Int.negSucc n
    rw [Nat.and_zero, Nat.xor_zero]

/-- C7. When neither the driver name nor the algorithm name is a registry entry,
`moto_alg_test` calls no entry's test function (the only event it adds is the "No test"
line) and returns `0`. -/
theorem alg_test_no_test {σ : Type} (E : Env σ) (c : Config) (driver alg : List Nat)
    (type mask : Nat) (s : State σ)
    (hdriver : ∀ d ∈ moto_alg_test_descs, d.alg ≠ cstr driver)
    (halg : ∀ d ∈ moto_alg_test_descs, d.alg ≠ cstr alg) :
    moto_alg_test E c driver alg type mask s = (some 0, s.log [.printk_no_test]) := by
  unfold moto_alg_test
  rw [find_test_absent alg halg, find_test_absent driver hdriver]
  simp

/-- Witness for C7: the names "md5" and "moto-md5" are not registered. -/
theorem alg_test_no_test_witness :
    moto_alg_test (sample_env 0 none) sample_config (ascii "moto-md5") (ascii "md5") 0 0
      sample_state = (some 0, sample_state.log [.printk_no_test]) :=
  alg_test_no_test (sample_env 0 none) sample_config (ascii "moto-md5") (ascii "md5") 0 0
    sample_state (by decide) (by decide)

/-- C6. When at least one of the two names resolves, `moto_alg_test` runs the test function
of the algorithm-name entry (if resolved) and then, whatever status that returned, the test
function of the driver-name entry (if resolved), in the state the first one left; its
status is the bitwise OR of the statuses, which is `0` if and only if every test function
that ran returned `0`. -/
theorem alg_test_or {σ : Type} (E : Env σ) (c : Config) (driver alg : List Nat)
    (type mask : Nat) (s : State σ) (i j : Int)
    (hi : moto_alg_find_test alg = some i) (hj : moto_alg_find_test driver = some j) :
    (0 ≤ i → 0 ≤ j → ∀ (a b : Int) (s1 s2 : State σ),
      run_entry E c i.toNat driver type mask s = (some a, s1) →
      run_entry E c j.toNat driver type mask s1 = (some b, s2) →
      (moto_alg_test E c driver alg type mask s).1 = some (int_or a b) ∧
      ((moto_alg_test E c driver alg type mask s).1 = some 0 ↔ a = 0 ∧ b = 0) ∧
      (moto_alg_test E c driver alg type mask s).2 =
        s2.log [if a = 0 ∧ b = 0 then .printk_passed else .printk_not_passed]) ∧
    (0 ≤ i → j < 0 → ∀ (a : Int) (s1 : State σ),
      run_entry E c i.toNat driver type mask s = (some a, s1) →
      (moto_alg_test E c driver alg type mask s).1 = some a ∧
      (moto_alg_test E c driver alg type mask s).2 =
        s1.log [if a = 0 then .printk_passed else .printk_not_passed]) ∧
    (i < 0 → 0 ≤ j → ∀ (b : Int) (s2 : State σ),
      run_entry E c j.toNat driver type mask s = (some b, s2) →
      (moto_alg_test E c driver alg type mask s).1 = some b ∧
      (moto_alg_test E c driver alg type mask s).2 =
        s2.log [if b = 0 then .printk_passed else .printk_not_passed]) := by
  refine ⟨?_, ?_, ?_⟩
  · intro hi0 hj0 a b s1 s2 h1 h2
    have hno : ¬ (i < 0 ∧ j < 0) := by omega
    unfold moto_alg_test
    rw [hi, hj]
    simp only [hno, if_false, ge_iff_le, hi0, hj0, if_true, h1, h2, int_or_zero_left]
    by_cases hz : int_or a b = 0
    · have hab := (int_or_eq_zero a b).1 hz
      rw [if_pos hz, if_pos hab, hz]
      exact ⟨rfl, ⟨fun _ => hab, fun _ => rfl⟩, rfl⟩
    · have hab : ¬ (a = 0 ∧ b = 0) := fun h => hz ((int_or_eq_zero a b).2 h)
      rw [if_neg hz, if_neg hab]
      refine ⟨rfl, ⟨fun h => ?_, fun h => absurd h hab⟩, rfl⟩
      simp only [Option.some.injEq] at h
      exact absurd h hz
  · intro hi0 hj0 a s1 h1
    have hno : ¬ (i < 0 ∧ j < 0) := by omega
    have hj1 : ¬ (0 ≤ j) := by omega
    unfold moto_alg_test
    rw [hi, hj]
    simp only [hno, if_false, ge_iff_le, hi0, hj1, if_true, h1, int_or_zero_left]
    by_cases hz : a = 0
    · simp [hz]
    · simp [hz]
  · intro hi0 hj0 b s2 h2
    have hno : ¬ (i < 0 ∧ j < 0) := by omega
    have hi1 : ¬ (0 ≤ i) := by omega
    unfold moto_alg_test
    rw [hi, hj]
    simp only [hno, if_false, ge_iff_le, hi1, hj0, if_true, h2, int_or_zero_left]
    by_cases hz : b = 0
    · simp [hz]
    · simp [hz]

/-- Witness for C6: algorithm "sha1" (entry 11) with the unregistered driver name
"moto-sha1", in an environment where loading the transform fails with `-2`. -/
theorem alg_test_or_witness :
    (moto_alg_test (sample_env 0 (some (-2))) sample_config (ascii "moto-sha1") (ascii "sha1")
      0 0 sample_state).1 = some (-2) :=
  ((alg_test_or (sample_env 0 (some (-2))) sample_config (ascii "moto-sha1") (ascii "sha1")
    0 0 sample_state 11 (-1) (by decide) (by decide)).2.1 (by decide) (by decide)
    (-2) _ rfl).1
/-! ## Traces of the cipher runner: proofs -/

theorem append_eq_split {α : Type} (A B pre post : List α) (x : α)
    (h : A ++ B = pre ++ x :: post) :
    (∃ post1, A = pre ++ x :: post1 ∧ post = post1 ++ B) ∨
    (∃ pre2, pre = A ++ pre2 ∧ B = pre2 ++ x :: post) := by
  induction A generalizing pre with
  | nil =>
    right
    exact ⟨pre, rfl, h⟩
  | cons a A ih =>
    cases pre with
    | nil =>
      left
      simp only [List.cons_append, List.nil_append, List.cons.injEq] at h
      refine ⟨A, ?_, h.2.symm⟩
      rw [h.1]; rfl
    | cons p pre =>
      simp only [List.cons_append, List.cons.injEq] at h
      rcases ih pre h.2 with ⟨post1, h1, h2⟩ | ⟨pre2, h1, h2⟩
      · left
        exact ⟨post1, by rw [h.1, h1]; rfl, h2⟩
      · right
        exact ⟨pre2, by rw [h.1, h1]; rfl, h2⟩

theorem unique_split {α : Type} (p : α → Bool) (A B pre post : List α) (x y : α)
    (hA : ∀ e ∈ A, p e = false) (hB : ∀ e ∈ B, p e = false) (hy : p y = true)
    (h : A ++ [x] ++ B = pre ++ y :: post) : pre = A ∧ y = x ∧ post = B := by
  induction A generalizing pre with
  | nil =>
    cases pre with
    | nil =>
      simp only [List.nil_append, List.singleton_append, List.cons.injEq] at h
      exact ⟨rfl, h.1.symm, h.2.symm⟩
    | cons q pre =>
      exfalso
      simp only [List.nil_append, List.singleton_append, List.cons_append,
        List.cons.injEq] at h
      have hmem : y ∈ B := by rw [h.2]; simp
      rw [hB y hmem] at hy
      cases hy
  | cons a A ih =>
    cases pre with
    | nil =>
      exfalso
      simp only [List.cons_append, List.nil_append, List.cons.injEq] at h
      have := hA a (List.mem_cons_self _ _)
      rw [h.1, hy] at this
      cases this
    | cons q pre =>
      simp only [List.cons_append, List.cons.injEq] at h
      have := ih pre (fun e he => hA e (List.mem_cons_of_mem _ he)) (by simpa using h.2)
      exact ⟨by rw [h.1, this.1], this.2⟩

theorem Ext.refl {σ : Type} (Q : Event → Prop) (s : State σ) : Ext Q s s :=
  ⟨[], by simp, by simp⟩

theorem Ext.trans {σ : Type} {Q : Event → Prop} {s s1 s2 : State σ}
    (h1 : Ext Q s s1) (h2 : Ext Q s1 s2) : Ext Q s s2 := by
  rcases h1 with ⟨n1, e1, q1⟩
  rcases h2 with ⟨n2, e2, q2⟩
  refine ⟨n1 ++ n2, by rw [e2, e1, List.append_assoc], ?_⟩
  intro e he
  rcases List.mem_append.1 he with h | h
  · exact q1 e h
  · exact q2 e h

theorem Ext.log {σ : Type} {Q : Event → Prop} (s : State σ) (es : List Event)
    (h : ∀ e ∈ es, Q e) : Ext Q s (s.log es) :=
  ⟨es, rfl, h⟩

theorem new_events_append {σ : Type} (s s1 : State σ) (new : List Event)
    (h : s1.trace = s.trace ++ new) : new_events s s1 = new := by
  unfold new_events
  rw [h, List.drop_left]

theorem inline_completion_ext {σ : Type} (i : Nat) (s : State σ) (r : OpResult) :
    Ext (TailEv i) s (inline_completion s r).2 := by
  unfold inline_completion
  split
  · exact Ext.refl _ _
  · split
    · split
      · exact Ext.refl _ _
      · split
        · split
          · exact ⟨[.wait _, .INIT_COMPLETION], rfl, by
              intro e he; simp at he; rcases he with rfl | rfl <;> exact ⟨rfl, Or.inl rfl⟩⟩
          · exact ⟨[.wait _], rfl, by
              intro e he; simp at he; subst he; exact ⟨rfl, Or.inl rfl⟩⟩
        · exact ⟨[.wait _], rfl, by
            intro e he; simp at he; subst he; exact ⟨rfl, Or.inl rfl⟩⟩
    · exact Ext.refl _ _

theorem skcipher_call_ext {σ : Type} (E : Env σ) (tfm : crypto_ablkcipher) (enc : Int)
    (i : Nat) (sg : List scatterlist) (nbytes : Nat) (iv : List Nat) (s : State σ) :
    Ext (TailEv i) s (skcipher_call E tfm enc i sg nbytes iv s).2 := by
  unfold skcipher_call
  exact ⟨[.ablkcipher_crypt i _ sg nbytes iv _], rfl, by
    intro e he; simp at he; subst he; exact ⟨rfl, Or.inr rfl⟩⟩

theorem skcipher_setkey_trace {σ : Type} (E : Env σ) (tfm : crypto_ablkcipher) (i : Nat)
    (t : moto_cipher_testvec) (s : State σ) :
    (skcipher_setkey E tfm i t s).2.trace =
      s.trace ++ (flag_events t ++
        [.ablkcipher_setkey i t.key t.klen (skcipher_setkey E tfm i t s).1]) := by
  unfold skcipher_setkey flag_events
  simp [List.append_assoc]

theorem check_chunks_events (c : Config) (t : moto_cipher_testvec) (i : Nat) (m : Mem) :
    ∀ (n k temp : Nat), ∀ e ∈ (skcipher_check_chunks c t i m n k temp).1, TailEv i e := by
  intro n
  induction n with
  | zero => intro k temp e he; simp [skcipher_check_chunks] at he
  | succ n ih =>
    intro k temp e he
    simp only [skcipher_check_chunks] at he
    split at he
    · simp at he; subst he; exact ⟨rfl, Or.inr rfl⟩
    · split at he
      · simp at he; subst he; exact ⟨rfl, Or.inr rfl⟩
      · simp only [List.mem_cons] at he
        rcases he with rfl | he
        · exact ⟨rfl, Or.inr rfl⟩
        · exact ih _ _ e he
theorem shape_of_tail {σ : Type} (i : Nat) (t : moto_cipher_testvec) (flow : Flow)
    (s s2 s5 : State σ) (ret : Int)
    (h2 : s2.trace = s.trace ++ (flag_events t ++ [.ablkcipher_setkey i t.key t.klen ret]))
    (hext : Ext (TailEv i) s2 s5)
    (h1 : (if ret = 0 then 1 else 0) = t.fail → s5 = s2 ∧ flow = .out ret)
    (h3 : (if ret = 0 then 1 else 0) ≠ t.fail → ret ≠ 0 → s5 = s2 ∧ flow = .next) :
    ∃ new, s5.trace = s.trace ++ new ∧ VecShape i t flow new := by
  rcases hext with ⟨rest, hr, hq⟩
  refine ⟨flag_events t ++ [.ablkcipher_setkey i t.key t.klen ret] ++ rest, ?_, ?_⟩
  · rw [hr, h2]
    simp [List.append_assoc]
  · right
    refine ⟨ret, rest, rfl, hq, ?_, ?_⟩
    · intro hc
      have := h1 hc
      refine ⟨?_, this.2⟩
      have ht : s5.trace = s2.trace := by rw [this.1]
      rw [hr] at ht
      exact List.append_right_eq_self.1 ht
    · intro hc hne
      have := h3 hc hne
      refine ⟨?_, this.2⟩
      have ht : s5.trace = s2.trace := by rw [this.1]
      rw [hr] at ht
      exact List.append_right_eq_self.1 ht

theorem unchunked_shape {σ : Type} (E : Env σ) (c : Config) (tfm : crypto_ablkcipher)
    (enc : Int) (inject_fault : Int) (i : Nat) (t : moto_cipher_testvec) (s : State σ) :
    ∃ new, (skcipher_unchunked_vec E c tfm enc inject_fault i t s).2.trace = s.trace ++ new ∧
      VecShape i t (skcipher_unchunked_vec E c tfm enc inject_fault i t s).1 new := by
  unfold skcipher_unchunked_vec
  by_cases hg : t.ilen > PAGE_SIZE c
  · rw [if_pos hg]
    exact ⟨[], by simp, Or.inl ⟨rfl, rfl⟩⟩
  · rw [if_neg hg]
    simp only
    have htr := skcipher_setkey_trace E tfm i t
      { s with xbuf := s.xbuf.memcpy 0 0 (byteAt t.input) t.ilen }
    generalize skcipher_setkey E tfm i t
      { s with xbuf := s.xbuf.memcpy 0 0 (byteAt t.input) t.ilen } = K at htr ⊢
    obtain ⟨ret, s2⟩ := K
    simp only at htr ⊢
    by_cases h1 : (if ret = 0 then 1 else 0) = t.fail
    · rw [if_pos h1]
      exact shape_of_tail i t _ s s2 s2 ret htr (Ext.refl _ _) (fun _ => ⟨rfl, rfl⟩)
        (fun h => absurd h1 h)
    · rw [if_neg h1]
      by_cases h2 : ret ≠ 0
      · rw [if_pos h2]
        exact shape_of_tail i t _ s s2 s2 ret htr (Ext.refl _ _) (fun h => absurd h h1)
          (fun _ _ => ⟨rfl, rfl⟩)
      · rw [if_neg h2]
        have e1 := skcipher_call_ext E tfm enc i [⟨0, 0, t.ilen⟩] t.ilen (vec_iv c t) s2
        generalize skcipher_call E tfm enc i [⟨0, 0, t.ilen⟩] t.ilen (vec_iv c t) s2 = C
          at e1 ⊢
        obtain ⟨r, s3⟩ := C
        have e2 := inline_completion_ext i s3 r
        generalize inline_completion s3 r = W at e2 ⊢
        obtain ⟨w, s4⟩ := W
        simp only at e1 e2 ⊢
        have e12 := Ext.trans e1 e2
        cases w with
        | none =>
          exact shape_of_tail i t _ s s2 s4 ret htr e12 (fun h => absurd h h1)
            (fun _ h => absurd h h2)
        | some ret1 =>
          simp only
          by_cases h3 : ret1 ≠ 0
          · rw [if_pos h3]
            exact shape_of_tail i t _ s s2 s4 ret htr e12 (fun h => absurd h h1)
              (fun _ h => absurd h h2)
          · rw [if_neg h3]
            have e3 : ∀ (m : Mem) (cmp : Int), Ext (TailEv i) s4
                { s4 with xbuf := m, trace := s4.trace ++ [.memcmp i 0 cmp] } := by
              intro m cmp
              exact ⟨[.memcmp i 0 cmp], rfl, by
                intro e he; simp at he; subst he; exact ⟨rfl, Or.inr rfl⟩⟩
            split <;> split <;>
              exact shape_of_tail i t _ s s2 _ ret htr (Ext.trans e12 (e3 _ _))
                (fun h => absurd h h1) (fun _ h => absurd h h2)

theorem chunked_shape {σ : Type} (E : Env σ) (c : Config) (tfm : crypto_ablkcipher)
    (enc : Int) (i : Nat) (t : moto_cipher_testvec) (s : State σ) :
    ∃ new, (skcipher_chunked_vec E c tfm enc i t s).2.trace = s.trace ++ new ∧
      VecShape i t (skcipher_chunked_vec E c tfm enc i t s).1 new := by
  unfold skcipher_chunked_vec
  have htr := skcipher_setkey_trace E tfm i t s
  generalize skcipher_setkey E tfm i t s = K at htr ⊢
  obtain ⟨ret, s2⟩ := K
  simp only at htr ⊢
  by_cases h1 : (if ret = 0 then 1 else 0) = t.fail
  · rw [if_pos h1]
    exact shape_of_tail i t _ s s2 s2 ret htr (Ext.refl _ _) (fun _ => ⟨rfl, rfl⟩)
      (fun h => absurd h1 h)
  · rw [if_neg h1]
    by_cases h2 : ret ≠ 0
    · rw [if_pos h2]
      exact shape_of_tail i t _ s s2 s2 ret htr (Ext.refl _ _) (fun h => absurd h h1)
        (fun _ _ => ⟨rfl, rfl⟩)
    · rw [if_neg h2]
      cases hl : skcipher_layout c t s2.xbuf t.np with
      | none =>
        exact shape_of_tail i t _ s s2 s2 ret htr (Ext.refl _ _) (fun h => absurd h h1)
          (fun _ h => absurd h h2)
      | some l =>
        simp only
        have e0 : Ext (TailEv i) s2 { s2 with xbuf := l.xbuf } := ⟨[], by simp, by simp⟩
        have e1 := skcipher_call_ext E tfm enc i l.sg t.ilen (vec_iv c t)
          { s2 with xbuf := l.xbuf }
        generalize skcipher_call E tfm enc i l.sg t.ilen (vec_iv c t)
          { s2 with xbuf := l.xbuf } = C at e1 ⊢
        obtain ⟨r, s3⟩ := C
        have e2 := inline_completion_ext i s3 r
        generalize inline_completion s3 r = W at e2 ⊢
        obtain ⟨w, s4⟩ := W
        simp only at e1 e2 ⊢
        have e12 := Ext.trans (Ext.trans e0 e1) e2
        cases w with
        | none =>
          exact shape_of_tail i t _ s s2 s4 ret htr e12 (fun h => absurd h h1)
            (fun _ h => absurd h h2)
        | some ret1 =>
          simp only
          by_cases h3 : ret1 ≠ 0
          · rw [if_pos h3]
            exact shape_of_tail i t _ s s2 s4 ret htr e12 (fun h => absurd h h1)
              (fun _ h => absurd h h2)
          · rw [if_neg h3]
            have hev := check_chunks_events c t i s4.xbuf t.np 0 0
            generalize skcipher_check_chunks c t i s4.xbuf t.np 0 0 = R at hev ⊢
            obtain ⟨es, b⟩ := R
            simp only at hev
            cases b with
            | true =>
              exact shape_of_tail i t _ s s2 _ ret htr (Ext.trans e12 (Ext.log s4 es hev))
                (fun h => absurd h h1) (fun _ h => absurd h h2)
            | false =>
              exact shape_of_tail i t _ s s2 _ ret htr (Ext.trans e12 (Ext.log s4 es hev))
                (fun h => absurd h h1) (fun _ h => absurd h h2)
theorem flag_events_plain (t : moto_cipher_testvec) :
    ∀ e ∈ flag_events t, e.isCipherSetkey = false ∧ e.idx = none ∧ e.isCrypt = false ∧
      e.isMemcmp = false := by
  intro e he
  unfold flag_events at he
  split at he
  · simp at he
    rcases he with rfl | rfl <;> exact ⟨rfl, rfl, rfl, rfl⟩
  · simp at he
    subst he
    exact ⟨rfl, rfl, rfl, rfl⟩

theorem shape_idx (i : Nat) (t : moto_cipher_testvec) (flow : Flow) (new : List Event)
    (h : VecShape i t flow new) : ∀ e ∈ new, e.idx = none ∨ e.idx = some i := by
  intro e he
  rcases h with ⟨h1, _⟩ | ⟨ret, rest, hnew, hrest, _, _⟩
  · rw [h1] at he; simp at he
  · rw [hnew] at he
    simp only [List.mem_append, List.mem_singleton] at he
    rcases he with (he | he) | he
    · exact Or.inl (flag_events_plain t e he).2.1
    · subst he; exact Or.inr rfl
    · exact (hrest e he).2

theorem shape_split (i : Nat) (t : moto_cipher_testvec) (flow : Flow) (new : List Event)
    (h : VecShape i t flow new) (pre post : List Event) (j : Nat) (key : List Nat)
    (klen : Nat) (r : Int)
    (hs : new = pre ++ Event.ablkcipher_setkey j key klen r :: post) :
    j = i ∧
    ((if r = 0 then 1 else 0) = t.fail → flow = .out r ∧ post = []) ∧
    ((if r = 0 then 1 else 0) ≠ t.fail → r ≠ 0 →
      flow = .next ∧ post = [] ∧ pre = flag_events t) := by
  rcases h with ⟨h1, _⟩ | ⟨ret, rest, hnew, hrest, hA, hB⟩
  · rw [h1] at hs
    cases pre <;> simp at hs
  · rw [hnew] at hs
    have hu := unique_split Event.isCipherSetkey (flag_events t) rest pre post
      (.ablkcipher_setkey i t.key t.klen ret) (.ablkcipher_setkey j key klen r)
      (fun e he => (flag_events_plain t e he).1) (fun e he => (hrest e he).1) rfl hs
    obtain ⟨hpre, heq, hpost⟩ := hu
    simp only [Event.ablkcipher_setkey.injEq] at heq
    obtain ⟨hj, _, _, hr⟩ := heq
    subst hr
    refine ⟨hj, ?_, ?_⟩
    · intro hc
      have := hA hc
      rw [hpost, this.1]
      exact ⟨this.2, rfl⟩
    · intro hc hne
      have := hB hc hne
      rw [hpost, this.1]
      exact ⟨this.2, rfl, hpre⟩

theorem shape_mem (i : Nat) (t : moto_cipher_testvec) (flow : Flow) (new : List Event)
    (h : VecShape i t flow new) (j : Nat) (key : List Nat) (klen : Nat) (r : Int)
    (hm : Event.ablkcipher_setkey j key klen r ∈ new) :
    j = i ∧
    ((if r = 0 then 1 else 0) = t.fail → flow = .out r) ∧
    ((if r = 0 then 1 else 0) ≠ t.fail → r ≠ 0 →
      flow = .next ∧ new = flag_events t ++ [Event.ablkcipher_setkey j key klen r]) := by
  obtain ⟨pre, post, hs⟩ := List.append_of_mem hm
  have := shape_split i t flow new h pre post j key klen r hs
  refine ⟨this.1, fun hc => (this.2.1 hc).1, ?_⟩
  intro hc hne
  obtain ⟨h1, h2, h3⟩ := this.2.2 hc hne
  refine ⟨h1, ?_⟩
  rw [hs, h2, h3]

theorem skcipher_pass1_eq_gen {σ : Type} (E : Env σ) (c : Config) (tfm : crypto_ablkcipher)
    (enc : Int) (template : List moto_cipher_testvec) (inject_fault : Int) :
    ∀ (n i : Nat) (s : State σ),
      skcipher_pass1 E c tfm enc template inject_fault n i s =
        gen_pass (skcipher_unchunked_vec E c tfm enc inject_fault)
          (fun t => decide (t.np = 0)) template n i s := by
  intro n
  induction n with
  | zero => intro i s; rfl
  | succ n ih =>
    intro i s
    simp only [skcipher_pass1, gen_pass]
    cases template[i]? with
    | none => rfl
    | some t =>
      simp only [decide_eq_true_eq]
      by_cases h : t.np = 0
      · rw [if_pos h, if_pos h]
        cases hv : skcipher_unchunked_vec E c tfm enc inject_fault i t s with
        | mk f s1 =>
          cases f with
          | next => simp only; exact ih _ _
          | out r => rfl
          | stuck => rfl
      · rw [if_neg h, if_neg h]
        exact ih _ _

theorem skcipher_pass2_eq_gen {σ : Type} (E : Env σ) (c : Config) (tfm : crypto_ablkcipher)
    (enc : Int) (template : List moto_cipher_testvec) :
    ∀ (n i : Nat) (s : State σ),
      skcipher_pass2 E c tfm enc template n i s =
        gen_pass (skcipher_chunked_vec E c tfm enc)
          (fun t => decide (t.np ≠ 0)) template n i s := by
  intro n
  induction n with
  | zero => intro i s; rfl
  | succ n ih =>
    intro i s
    simp only [skcipher_pass2, gen_pass]
    cases template[i]? with
    | none => rfl
    | some t =>
      simp only [decide_eq_true_eq]
      by_cases h : t.np ≠ 0
      · rw [if_pos h, if_pos h]
        cases hv : skcipher_chunked_vec E c tfm enc i t s with
        | mk f s1 =>
          cases f with
          | next => simp only; exact ih _ _
          | out r => rfl
          | stuck => rfl
      · rw [if_neg h, if_neg h]
        exact ih _ _
theorem ite_fail_ne (r : Int) (hr : r ≠ 0) (f : Nat) (hf : f = 1) :
    (if r = 0 then 1 else 0) ≠ f := by
  rw [if_neg hr, hf]
  decide

theorem ite_fail_eq (r : Int) (hr : r ≠ 0) (f : Nat) (hf : f = 0) :
    (if r = 0 then 1 else 0) = f := by
  rw [if_neg hr, hf]

theorem shape_no_crypt (i : Nat) (t : moto_cipher_testvec) (flow : Flow) (new : List Event)
    (h : VecShape i t flow new) (j : Nat) (key : List Nat) (klen : Nat) (r : Int)
    (hm : Event.ablkcipher_setkey j key klen r ∈ new) (hf : t.fail = 1) (hr : r ≠ 0) :
    flow = .next ∧ ∀ e ∈ new, e.isCrypt = false ∧ e.isMemcmp = false := by
  obtain ⟨_, _, h3⟩ := shape_mem i t flow new h j key klen r hm
  obtain ⟨hflow, hnew⟩ := h3 (ite_fail_ne r hr _ hf) hr
  refine ⟨hflow, ?_⟩
  intro e he
  rw [hnew] at he
  simp only [List.mem_append, List.mem_singleton] at he
  rcases he with he | he
  · exact ⟨(flag_events_plain t e he).2.2.1, (flag_events_plain t e he).2.2.2⟩
  · subst he; exact ⟨rfl, rfl⟩

theorem gen_pass_inv {σ : Type}
    (vec : Nat → moto_cipher_testvec → State σ → Flow × State σ)
    (sel : moto_cipher_testvec → Bool) (template : List moto_cipher_testvec)
    (hvec : ∀ i t s, ∃ new, (vec i t s).2.trace = s.trace ++ new ∧
      VecShape i t (vec i t s).1 new) :
    ∀ (n i0 : Nat) (s : State σ),
      ∃ new, (gen_pass vec sel template n i0 s).2.trace = s.trace ++ new ∧
        PassInv template sel i0 n (gen_pass vec sel template n i0 s).1 new := by
  intro n
  induction n with
  | zero =>
    intro i0 s
    refine ⟨[], by simp [gen_pass], ?_, ?_, ?_, ?_⟩
    · intro e he; simp at he
    · intro pre post j key klen r t h; cases pre <;> simp at h
    · intro h; exact absurd rfl h
    · intro j key klen r t h; simp at h
  | succ n ih =>
    intro i0 s
    simp only [gen_pass]
    cases ht : template[i0]? with
    | none =>
      refine ⟨[], by simp, ?_, ?_, ?_, ?_⟩
      · intro e he; simp at he
      · intro pre post j key klen r t h; cases pre <;> simp at h
      · intro _; exact ⟨i0, Nat.le_refl _, by omega, Or.inl ht⟩
      · intro j key klen r t h; simp at h
    | some t =>
      simp only
      by_cases hsel : sel t = true
      · rw [if_pos hsel]
        obtain ⟨nv, hnv, hshape⟩ := hvec i0 t s
        generalize vec i0 t s = V at hnv hshape ⊢
        obtain ⟨fv, s1⟩ := V
        simp only at hnv hshape
        have hvP1 : ∀ e ∈ nv, ∀ j, e.idx = some j →
            i0 ≤ j ∧ j < i0 + (n + 1) ∧ ∃ t, template[j]? = some t ∧ sel t = true := by
          intro e he j hj
          rcases shape_idx i0 t fv nv hshape e he with h | h
          · rw [h] at hj; cases hj
          · rw [h] at hj
            cases hj
            exact ⟨Nat.le_refl _, by omega, t, ht, hsel⟩
        have hvP2 : ∀ pre post j key klen r t1,
            nv = pre ++ Event.ablkcipher_setkey j key klen r :: post →
            template[j]? = some t1 → t1.fail = 0 → r ≠ 0 → fv = .out r ∧ post = [] := by
          intro pre post j key klen r t1 hs ht1 hf hr
          obtain ⟨hj, hA, _⟩ := shape_split i0 t fv nv hshape pre post j key klen r hs
          subst hj
          rw [ht] at ht1
          cases ht1
          exact hA (ite_fail_eq r hr _ hf)
        have hvP3 : fv ≠ .next →
            ¬ (t.fail = 1 ∧ ∃ key klen r, r ≠ 0 ∧
              Event.ablkcipher_setkey i0 key klen r ∈ nv) := by
          intro hfv ⟨hf, key, klen, r, hr, hm⟩
          exact hfv (shape_no_crypt i0 t fv nv hshape i0 key klen r hm hf hr).1
        have hvP4 : ∀ j key klen r t1, Event.ablkcipher_setkey j key klen r ∈ nv →
            template[j]? = some t1 → t1.fail = 1 → r ≠ 0 →
            ∀ e ∈ nv, e.isCrypt = false ∧ e.isMemcmp = false := by
          intro j key klen r t1 hm ht1 hf hr
          have hj := (shape_mem i0 t fv nv hshape j key klen r hm).1
          subst hj
          rw [ht] at ht1
          cases ht1
          exact (shape_no_crypt j t fv nv hshape j key klen r hm hf hr).2
        cases fv with
        | next =>
          simp only
          obtain ⟨nr, hnr, hP1, hP2, hP3, hP4⟩ := ih (i0 + 1) s1
          refine ⟨nv ++ nr, by rw [hnr, hnv, List.append_assoc], ?_, ?_, ?_, ?_⟩
          · intro e he j hj
            rcases List.mem_append.1 he with h | h
            · exact hvP1 e h j hj
            · obtain ⟨h1, h2, h3⟩ := hP1 e h j hj
              exact ⟨by omega, by omega, h3⟩
          · intro pre post j key klen r t1 hs ht1 hf hr
            rcases append_eq_split nv nr pre post _ hs with ⟨post1, h1, _⟩ | ⟨pre2, _, h2⟩
            · have := (hvP2 pre post1 j key klen r t1 h1 ht1 hf hr).1
              cases this
            · exact hP2 pre2 post j key klen r t1 h2 ht1 hf hr
          · intro hflow
            obtain ⟨j, h1, h2, h3⟩ := hP3 hflow
            refine ⟨j, by omega, by omega, ?_⟩
            rcases h3 with h3 | ⟨t1, ht1, hs1, hno⟩
            · exact Or.inl h3
            · refine Or.inr ⟨t1, ht1, hs1, ?_⟩
              rintro ⟨hf, key, klen, r, hr, hm⟩
              rcases List.mem_append.1 hm with h | h
              · have := (shape_mem i0 t .next nv hshape j key klen r h).1
                omega
              · exact hno ⟨hf, key, klen, r, hr, h⟩
          · intro j key klen r t1 hm ht1 hf hr e he hidx
            rcases List.mem_append.1 hm with hm1 | hm1
            · have hj := (shape_mem i0 t .next nv hshape j key klen r hm1).1
              rcases List.mem_append.1 he with h | h
              · exact hvP4 j key klen r t1 hm1 ht1 hf hr e h
              · have := (hP1 e h j hidx).1
                omega
            · have hj := (hP1 _ hm1 j rfl).1
              rcases List.mem_append.1 he with h | h
              · rcases shape_idx i0 t .next nv hshape e h with h0 | h0
                · rw [h0] at hidx; cases hidx
                · rw [h0] at hidx
                  cases hidx
                  omega
              · exact hP4 j key klen r t1 hm1 ht1 hf hr e h hidx
        | out ret =>
          refine ⟨nv, hnv, hvP1, hvP2, ?_, ?_⟩
          · intro hflow
            exact ⟨i0, Nat.le_refl _, by omega, Or.inr ⟨t, ht, hsel, hvP3 hflow⟩⟩
          · intro j key klen r t1 hm ht1 hf hr e he _
            exact hvP4 j key klen r t1 hm ht1 hf hr e he
        | stuck =>
          refine ⟨nv, hnv, hvP1, hvP2, ?_, ?_⟩
          · intro hflow
            exact ⟨i0, Nat.le_refl _, by omega, Or.inr ⟨t, ht, hsel, hvP3 hflow⟩⟩
          · intro j key klen r t1 hm ht1 hf hr e he _
            exact hvP4 j key klen r t1 hm ht1 hf hr e he
      · rw [if_neg hsel]
        obtain ⟨nr, hnr, hP1, hP2, hP3, hP4⟩ := ih (i0 + 1) s
        refine ⟨nr, hnr, ?_, hP2, ?_, hP4⟩
        · intro e he j hj
          obtain ⟨h1, h2, h3⟩ := hP1 e he j hj
          exact ⟨by omega, by omega, h3⟩
        · intro hflow
          obtain ⟨j, h1, h2, h3⟩ := hP3 hflow
          exact ⟨j, by omega, by omega, h3⟩
theorem alloc_pages_ext {σ : Type} (E : Env σ) :
    ∀ (n i : Nat) (s : State σ), Ext (fun e => e.idx = none) s (alloc_pages E n i s).2 := by
  intro n
  induction n with
  | zero => intro i s; exact Ext.refl _ _
  | succ n ih =>
    intro i s
    simp only [alloc_pages]
    cases hg : E.get_free_page s.env with
    | mk pg e =>
      cases pg with
      | none => exact ⟨[.get_free_page i false], rfl, by intro e he; simp at he; subst he; rfl⟩
      | some pg =>
        simp only
        refine Ext.trans ?_ (ih _ _)
        exact ⟨[.get_free_page i true], rfl, by intro e he; simp at he; subst he; rfl⟩

theorem free_pages_below_ext {σ : Type} :
    ∀ (i : Nat) (s : State σ), Ext (fun e => e.idx = none) s (free_pages_below i s) := by
  intro i
  induction i with
  | zero => intro s; exact Ext.refl _ _
  | succ i ih =>
    intro s
    simp only [free_pages_below]
    refine Ext.trans ?_ (ih _)
    exact Ext.log s _ (by intro e he; simp at he; subst he; rfl)

theorem alloc_buf_ext {σ : Type} (E : Env σ) (s : State σ) :
    Ext (fun e => e.idx = none) s (moto_testmgr_alloc_buf E s).2 := by
  unfold moto_testmgr_alloc_buf
  have h := alloc_pages_ext E XBUFSIZE 0 s
  generalize alloc_pages E XBUFSIZE 0 s = A at h ⊢
  obtain ⟨o, s1⟩ := A
  cases o with
  | none => exact h
  | some i => exact Ext.trans h (free_pages_below_ext i s1)

theorem cleanup_plain : ∀ e ∈ skcipher_cleanup, e.idx = none := by
  decide

theorem skcipher_out_trace {σ : Type} (s : State σ) :
    (skcipher_out s).trace = s.trace ++ skcipher_cleanup := by
  simp [skcipher_out, moto_testmgr_buf, State.log, skcipher_cleanup, List.append_assoc]

theorem passinv_nil (template : List moto_cipher_testvec) (sel : moto_cipher_testvec → Bool)
    (i0 n : Nat) : PassInv template sel i0 n .next [] := by
  refine ⟨?_, ?_, ?_, ?_⟩
  · intro e he; simp at he
  · intro pre post j key klen r t h; cases pre <;> simp at h
  · intro h; exact absurd rfl h
  · intro j key klen r t h; simp at h

theorem skcipher_run_summary {σ : Type} (E : Env σ) (c : Config) (tfm : crypto_ablkcipher)
    (enc : Int) (template : List moto_cipher_testvec) (tcount : Nat) (inject_fault : Int)
    (s : State σ) :
    ((moto_test_skcipher E c tfm enc template tcount inject_fault s).1 = some (-ENOMEM) ∧
      ∀ e ∈ new_events s (moto_test_skcipher E c tfm enc template tcount inject_fault s).2,
        e.idx = none) ∨
    (∃ (H n1 n2 T : List Event) (f1 f2 : Flow),
      new_events s (moto_test_skcipher E c tfm enc template tcount inject_fault s).2
        = H ++ (n1 ++ (n2 ++ T)) ∧
      (∀ e ∈ H, e.idx = none) ∧
      PassInv template (fun t => decide (t.np = 0)) 0 tcount f1 n1 ∧
      PassInv template (fun t => decide (t.np ≠ 0)) 0 tcount f2 n2 ∧
      (f1 ≠ .next → n2 = [] ∧ f2 = .next) ∧
      (moto_test_skcipher E c tfm enc template tcount inject_fault s).1 = run_status f1 f2 ∧
      (T = skcipher_cleanup ∨
        (T = [] ∧ (moto_test_skcipher E c tfm enc template tcount inject_fault s).1 = none))) := by
  unfold moto_test_skcipher
  have ha := alloc_buf_ext E s
  generalize moto_testmgr_alloc_buf E s = A at ha ⊢
  obtain ⟨aret, s1⟩ := A
  simp only at ha ⊢
  obtain ⟨na, hna, hqa⟩ := ha
  by_cases h0 : aret ≠ 0
  · left
    rw [if_pos h0]
    refine ⟨rfl, ?_⟩
    rw [new_events_append s s1 na hna]
    exact hqa
  · rw [if_neg h0]
    cases hr : E.ablkcipher_request_alloc s1.env with
    | mk ok e =>
      cases ok with
      | false =>
        left
        refine ⟨rfl, ?_⟩
        rw [new_events_append s _ (na ++ [.init_completion, .ablkcipher_request_alloc false]
          ++ skcipher_cleanup) (by rw [skcipher_out_trace]; simp [hna, List.append_assoc])]
        intro ev hev
        simp only [List.mem_append, List.mem_cons, List.mem_singleton] at hev
        rcases hev with (h | h | h | h) | h
        · exact hqa ev h
        · subst h; rfl
        · subst h; rfl
        · simp at h
        · exact cleanup_plain ev h
      | true =>
        right
        simp only
        rw [skcipher_pass1_eq_gen]
        obtain ⟨n1, hn1, hP1⟩ := gen_pass_inv (skcipher_unchunked_vec E c tfm enc inject_fault)
          (fun t => decide (t.np = 0)) template (unchunked_shape E c tfm enc inject_fault)
          tcount 0
          { env := e, xbuf := s1.xbuf, tresult := ⟨0, E.uninit_int s1.env⟩,
            trace := s1.trace ++ [.init_completion] ++ [.ablkcipher_request_alloc true] }
        generalize gen_pass (skcipher_unchunked_vec E c tfm enc inject_fault)
          (fun t => decide (t.np = 0)) template tcount 0
          { env := e, xbuf := s1.xbuf, tresult := ⟨0, E.uninit_int s1.env⟩,
            trace := s1.trace ++ [.init_completion] ++ [.ablkcipher_request_alloc true] } = P1
          at hn1 hP1 ⊢
        obtain ⟨f1, s4⟩ := P1
        simp only at hn1 hP1 ⊢
        have hH : ∀ ev ∈ na ++ [Event.init_completion, Event.ablkcipher_request_alloc true],
            ev.idx = none := by
          intro ev hev
          simp only [List.mem_append, List.mem_cons, List.mem_singleton] at hev
          rcases hev with h | h | h | h
          · exact hqa ev h
          · subst h; rfl
          · subst h; rfl
          · simp at h
        have ht4 : s4.trace = s.trace ++
            ((na ++ [Event.init_completion, Event.ablkcipher_request_alloc true]) ++ n1) := by
          rw [hn1, hna]; simp [List.append_assoc]
        cases f1 with
        | stuck =>
          refine ⟨(na ++ [Event.init_completion, Event.ablkcipher_request_alloc true]), n1, [], [], .stuck, .next, ?_, hH, hP1,
            passinv_nil _ _ _ _, fun _ => ⟨rfl, rfl⟩, rfl, Or.inr ⟨rfl, rfl⟩⟩
          rw [new_events_append s s4 _ ht4]
          simp
        | out r =>
          refine ⟨(na ++ [Event.init_completion, Event.ablkcipher_request_alloc true]), n1, [], skcipher_cleanup, .out r, .next, ?_, hH, hP1,
            passinv_nil _ _ _ _, fun _ => ⟨rfl, rfl⟩, rfl, Or.inl rfl⟩
          rw [new_events_append s _ ((na ++ [Event.init_completion, Event.ablkcipher_request_alloc true]) ++ n1 ++ skcipher_cleanup)
            (by rw [skcipher_out_trace, ht4, List.append_assoc])]
          simp [List.append_assoc]
        | next =>
          simp only
          rw [skcipher_pass2_eq_gen]
          obtain ⟨n2, hn2, hP2⟩ := gen_pass_inv (skcipher_chunked_vec E c tfm enc)
            (fun t => decide (t.np ≠ 0)) template (chunked_shape E c tfm enc) tcount 0 s4
          generalize gen_pass (skcipher_chunked_vec E c tfm enc)
            (fun t => decide (t.np ≠ 0)) template tcount 0 s4 = P2 at hn2 hP2 ⊢
          obtain ⟨f2, s5⟩ := P2
          simp only at hn2 hP2 ⊢
          have ht5 : s5.trace = s.trace ++
              ((na ++ [Event.init_completion, Event.ablkcipher_request_alloc true]) ++ n1
                ++ n2) := by
            rw [hn2, ht4]; simp [List.append_assoc]
          cases f2 with
          | stuck =>
            refine ⟨(na ++ [Event.init_completion, Event.ablkcipher_request_alloc true]), n1, n2, [], .next, .stuck, ?_, hH, hP1, hP2,
              fun h => absurd rfl h, rfl, Or.inr ⟨rfl, rfl⟩⟩
            rw [new_events_append s s5 _ ht5]
            simp [List.append_assoc]
          | out r =>
            refine ⟨(na ++ [Event.init_completion, Event.ablkcipher_request_alloc true]), n1, n2, skcipher_cleanup, .next, .out r, ?_, hH, hP1,
              hP2, fun h => absurd rfl h, rfl, Or.inl rfl⟩
            rw [new_events_append s _ ((na ++ [Event.init_completion, Event.ablkcipher_request_alloc true]) ++ n1 ++ n2 ++ skcipher_cleanup)
              (by rw [skcipher_out_trace, ht5, List.append_assoc])]
            simp [List.append_assoc]
          | next =>
            refine ⟨(na ++ [Event.init_completion, Event.ablkcipher_request_alloc true]), n1, n2, skcipher_cleanup, .next, .next, ?_, hH, hP1,
              hP2, fun h => absurd rfl h, rfl, Or.inl rfl⟩
            rw [new_events_append s _ ((na ++ [Event.init_completion, Event.ablkcipher_request_alloc true]) ++ n1 ++ n2 ++ skcipher_cleanup)
              (by rw [skcipher_out_trace, ht5, List.append_assoc])]
            simp [List.append_assoc]
theorem idx_none_plain (e : Event) (h : e.idx = none) :
    e.isCrypt = false ∧ e.isMemcmp = false ∧ e.isCipherSetkey = false := by
  cases e <;> simp [Event.idx] at h <;> exact ⟨rfl, rfl, rfl⟩

theorem skcipher_setkey_place {σ : Type} (E : Env σ) (c : Config) (tfm : crypto_ablkcipher)
    (enc : Int) (template : List moto_cipher_testvec) (tcount : Nat) (inject_fault : Int)
    (s : State σ) (i : Nat) (key : List Nat) (klen : Nat) (r : Int)
    (hm : Event.ablkcipher_setkey i key klen r ∈
      new_events s (moto_test_skcipher E c tfm enc template tcount inject_fault s).2) :
    ∃ (H n1 n2 T : List Event) (f1 f2 : Flow),
      new_events s (moto_test_skcipher E c tfm enc template tcount inject_fault s).2
        = H ++ (n1 ++ (n2 ++ T)) ∧
      (∀ e ∈ H, e.idx = none) ∧ (∀ e ∈ T, e.idx = none) ∧
      PassInv template (fun t => decide (t.np = 0)) 0 tcount f1 n1 ∧
      PassInv template (fun t => decide (t.np ≠ 0)) 0 tcount f2 n2 ∧
      (f1 ≠ .next → n2 = [] ∧ f2 = .next) ∧
      (moto_test_skcipher E c tfm enc template tcount inject_fault s).1 = run_status f1 f2 ∧
      (T = skcipher_cleanup ∨
        (T = [] ∧ (moto_test_skcipher E c tfm enc template tcount inject_fault s).1 = none)) := by
  rcases skcipher_run_summary E c tfm enc template tcount inject_fault s with
    ⟨_, hall⟩ | ⟨H, n1, n2, T, f1, f2, hnew, hH, hP1, hP2, hf, hst, hT⟩
  · have := hall _ hm
    simp [Event.idx] at this
  · refine ⟨H, n1, n2, T, f1, f2, hnew, hH, ?_, hP1, hP2, hf, hst, hT⟩
    rcases hT with h | ⟨h, _⟩
    · rw [h]; exact cleanup_plain
    · rw [h]; intro e he; simp at he

/-- C4. In a run of `moto_test_skcipher`, a set-key call for a vector whose
expect-rejection flag is clear that the provider rejects with a non-zero code `r` is
followed by nothing but the release of the request and of the scratch pages (so by no
encrypt or decrypt call for that vector or a later one), and the runner returns `r`. -/
theorem rejected_key_aborts {σ : Type} (E : Env σ) (c : Config) (tfm : crypto_ablkcipher)
    (enc : Int) (template : List moto_cipher_testvec) (tcount : Nat) (inject_fault : Int)
    (s : State σ) (pre post : List Event) (i : Nat) (key : List Nat) (klen : Nat) (r : Int)
    (t : moto_cipher_testvec)
    (hs : new_events s (moto_test_skcipher E c tfm enc template tcount inject_fault s).2
      = pre ++ Event.ablkcipher_setkey i key klen r :: post)
    (ht : template[i]? = some t) (hf : t.fail = 0) (hr : r ≠ 0) :
    (moto_test_skcipher E c tfm enc template tcount inject_fault s).1 = some r ∧
    post = skcipher_cleanup ∧
    ∀ e ∈ post, e.isCrypt = false := by
  have hm : Event.ablkcipher_setkey i key klen r ∈
      new_events s (moto_test_skcipher E c tfm enc template tcount inject_fault s).2 := by
    rw [hs]; simp
  obtain ⟨H, n1, n2, T, f1, f2, hnew, hH, hTp, hP1, hP2, hfl, hst, hT⟩ :=
    skcipher_setkey_place E c tfm enc template tcount inject_fault s i key klen r hm
  have key_fact : (moto_test_skcipher E c tfm enc template tcount inject_fault s).1 = some r ∧
      post = skcipher_cleanup := by
    rw [hs] at hnew
    rcases append_eq_split H _ pre post _ hnew.symm with ⟨p1, h1, _⟩ | ⟨pre2, _, h2⟩
    · exfalso
      have := hH (Event.ablkcipher_setkey i key klen r) (by rw [h1]; simp)
      simp [Event.idx] at this
    · rcases append_eq_split n1 _ pre2 post _ h2 with ⟨p1, h1, hpost⟩ | ⟨pre3, _, h3⟩
      · obtain ⟨hf1, hp1⟩ := hP1.2.1 pre2 p1 i key klen r t h1 ht hf hr
        subst hf1
        obtain ⟨hn2, hf2⟩ := hfl (by simp)
        subst hf2
        have hres : (moto_test_skcipher E c tfm enc template tcount inject_fault s).1
            = some r := hst
        refine ⟨hres, ?_⟩
        rcases hT with h | ⟨_, h⟩
        · rw [hpost, hp1, hn2, h]; rfl
        · rw [hres] at h; cases h
      · rcases append_eq_split n2 _ pre3 post _ h3 with ⟨p2, h1, hpost⟩ | ⟨pre4, _, h4⟩
        · obtain ⟨hf2, hp2⟩ := hP2.2.1 pre3 p2 i key klen r t h1 ht hf hr
          subst hf2
          have hf1 : f1 = .next := by
            by_contra hne
            have := (hfl hne).1
            rw [this] at h1
            cases pre3 <;> simp at h1
          subst hf1
          have hres : (moto_test_skcipher E c tfm enc template tcount inject_fault s).1
              = some r := hst
          refine ⟨hres, ?_⟩
          rcases hT with h | ⟨_, h⟩
          · rw [hpost, hp2, h]; rfl
          · rw [hres] at h; cases h
        · exfalso
          have := hTp (Event.ablkcipher_setkey i key klen r) (by rw [h4]; simp)
          simp [Event.idx] at this
  refine ⟨key_fact.1, key_fact.2, ?_⟩
  rw [key_fact.2]
  decide

/-- Witness for C4: a table of one vector expected to be accepted, with a provider that
rejects every key with `-22`. -/
theorem rejected_key_aborts_witness :
    (moto_test_skcipher (sample_env (-22) none) sample_config ⟨0⟩ ENCRYPT [sample_ok_vec] 1 0
      sample_state).1 = some (-22) :=
  (rejected_key_aborts (sample_env (-22) none) sample_config ⟨0⟩ ENCRYPT [sample_ok_vec] 1 0
    sample_state
    ((List.range 8).map (fun i => Event.get_free_page i true) ++
      [.init_completion, .ablkcipher_request_alloc true, .clear_flags])
    skcipher_cleanup 0 [1, 2, 3] 3 (-22) sample_ok_vec (by decide) (by decide) (by decide)
    (by decide)).1
theorem rejected_no_crypt {σ : Type} (E : Env σ) (c : Config) (tfm : crypto_ablkcipher)
    (enc : Int) (template : List moto_cipher_testvec) (tcount : Nat) (inject_fault : Int)
    (s : State σ) (i : Nat) (key : List Nat) (klen : Nat) (r : Int)
    (t : moto_cipher_testvec)
    (hm : Event.ablkcipher_setkey i key klen r ∈
      new_events s (moto_test_skcipher E c tfm enc template tcount inject_fault s).2)
    (ht : template[i]? = some t) (hf : t.fail = 1) (hr : r ≠ 0) :
    ∀ e ∈ new_events s (moto_test_skcipher E c tfm enc template tcount inject_fault s).2,
      e.idx = some i → e.isCrypt = false ∧ e.isMemcmp = false := by
  obtain ⟨H, n1, n2, T, f1, f2, hnew, hH, hTp, hP1, hP2, _, _, _⟩ :=
    skcipher_setkey_place E c tfm enc template tcount inject_fault s i key klen r hm
  rw [hnew] at hm ⊢
  intro e he hidx
  have hplace : ∀ ev : Event, ev.idx = some i → ev ∈ H ++ (n1 ++ (n2 ++ T)) →
      ev ∈ n1 ∨ ev ∈ n2 := by
    intro ev hev hin
    simp only [List.mem_append] at hin
    rcases hin with h | h | h | h
    · have := hH ev h; rw [this] at hev; cases hev
    · exact Or.inl h
    · exact Or.inr h
    · have := hTp ev h; rw [this] at hev; cases hev
  have hcls1 : ∀ ev ∈ n1, ev.idx = some i → t.np = 0 := by
    intro ev hev hi
    obtain ⟨_, _, t1, ht1, hs1⟩ := hP1.1 ev hev i hi
    rw [ht] at ht1
    cases ht1
    simpa using hs1
  have hcls2 : ∀ ev ∈ n2, ev.idx = some i → t.np ≠ 0 := by
    intro ev hev hi
    obtain ⟨_, _, t1, ht1, hs1⟩ := hP2.1 ev hev i hi
    rw [ht] at ht1
    cases ht1
    simpa using hs1
  rcases hplace (Event.ablkcipher_setkey i key klen r) rfl hm with hm1 | hm2
  · rcases hplace e hidx he with he1 | he2
    · exact hP1.2.2.2 i key klen r t hm1 ht hf hr e he1 hidx
    · exact absurd (hcls1 _ hm1 rfl) (hcls2 e he2 hidx)
  · rcases hplace e hidx he with he1 | he2
    · exact absurd (hcls1 e he1 hidx) (hcls2 _ hm2 rfl)
    · exact hP2.2.2.2 i key klen r t hm2 ht hf hr e he2 hidx

theorem vec_rejected_next (i : Nat) (t : moto_cipher_testvec) {σ : Type} (s0 : State σ)
    (V : Flow × State σ)
    (hshape : ∃ new, V.2.trace = s0.trace ++ new ∧ VecShape i t V.1 new)
    (key : List Nat) (klen : Nat) (r : Int) (hf : t.fail = 1) (hr : r ≠ 0)
    (hm : Event.ablkcipher_setkey i key klen r ∈ new_events s0 V.2) :
    V.1 = .next ∧ new_events s0 V.2 = flag_events t ++ [Event.ablkcipher_setkey i key klen r] := by
  obtain ⟨new, hnew, hsh⟩ := hshape
  rw [new_events_append s0 V.2 new hnew] at hm ⊢
  obtain ⟨_, _, h3⟩ := shape_mem i t V.1 new hsh i key klen r hm
  exact h3 (ite_fail_ne r hr _ hf) hr

/-- C5. For a cipher vector whose expect-rejection flag is `1` and whose key the provider
rejects (the set-key call returns a non-zero code), `moto_test_skcipher` makes no further
call for that vector and goes on with the next vector (in either loop); no encrypt, decrypt
or comparison event of the run carries that vector's index; and when every vector of a
non-empty table is such a vector, the runner returns `0` without any encrypt, decrypt or
comparison. -/
theorem expected_rejection_skips {σ : Type} (E : Env σ) (c : Config)
    (tfm : crypto_ablkcipher) (enc : Int) (template : List moto_cipher_testvec)
    (tcount : Nat) (inject_fault : Int) (s : State σ) :
    (∀ (i : Nat) (t : moto_cipher_testvec) (s0 : State σ) (key : List Nat) (klen : Nat)
      (r : Int), t.fail = 1 → r ≠ 0 →
      Event.ablkcipher_setkey i key klen r ∈
        new_events s0 (skcipher_unchunked_vec E c tfm enc inject_fault i t s0).2 →
      (skcipher_unchunked_vec E c tfm enc inject_fault i t s0).1 = .next ∧
      new_events s0 (skcipher_unchunked_vec E c tfm enc inject_fault i t s0).2
        = flag_events t ++ [Event.ablkcipher_setkey i key klen r]) ∧
    (∀ (i : Nat) (t : moto_cipher_testvec) (s0 : State σ) (key : List Nat) (klen : Nat)
      (r : Int), t.fail = 1 → r ≠ 0 →
      Event.ablkcipher_setkey i key klen r ∈
        new_events s0 (skcipher_chunked_vec E c tfm enc i t s0).2 →
      (skcipher_chunked_vec E c tfm enc i t s0).1 = .next ∧
      new_events s0 (skcipher_chunked_vec E c tfm enc i t s0).2
        = flag_events t ++ [Event.ablkcipher_setkey i key klen r]) ∧
    (∀ (i : Nat) (key : List Nat) (klen : Nat) (r : Int) (t : moto_cipher_testvec),
      Event.ablkcipher_setkey i key klen r ∈
        new_events s (moto_test_skcipher E c tfm enc template tcount inject_fault s).2 →
      template[i]? = some t → t.fail = 1 → r ≠ 0 →
      ∀ e ∈ new_events s (moto_test_skcipher E c tfm enc template tcount inject_fault s).2,
        e.idx = some i → e.isCrypt = false ∧ e.isMemcmp = false) ∧
    (0 < tcount →
      (∀ i < tcount, ∃ (t : moto_cipher_testvec) (key : List Nat) (klen : Nat) (r : Int),
        template[i]? = some t ∧ t.fail = 1 ∧ r ≠ 0 ∧
        Event.ablkcipher_setkey i key klen r ∈
          new_events s (moto_test_skcipher E c tfm enc template tcount inject_fault s).2) →
      (moto_test_skcipher E c tfm enc template tcount inject_fault s).1 = some 0 ∧
      ∀ e ∈ new_events s (moto_test_skcipher E c tfm enc template tcount inject_fault s).2,
        e.isCrypt = false ∧ e.isMemcmp = false) := by
  refine ⟨?_, ?_, ?_, ?_⟩
  · intro i t s0 key klen r hf hr hm
    exact vec_rejected_next i t s0 _ (unchunked_shape E c tfm enc inject_fault i t s0)
      key klen r hf hr hm
  · intro i t s0 key klen r hf hr hm
    exact vec_rejected_next i t s0 _ (chunked_shape E c tfm enc i t s0) key klen r hf hr hm
  · intro i key klen r t hm ht hf hr
    exact rejected_no_crypt E c tfm enc template tcount inject_fault s i key klen r t hm ht
      hf hr
  · intro hpos hall
    obtain ⟨t0, key0, klen0, r0, ht0, hf0, hr0, hm0⟩ := hall 0 hpos
    obtain ⟨H, n1, n2, T, f1, f2, hnew, hH, hTp, hP1, hP2, hfl, hst, _⟩ :=
      skcipher_setkey_place E c tfm enc template tcount inject_fault s 0 key0 klen0 r0 hm0
    have hplace : ∀ ev : Event, ev.idx ≠ none → ev ∈ H ++ (n1 ++ (n2 ++ T)) →
        ev ∈ n1 ∨ ev ∈ n2 := by
      intro ev hev hin
      simp only [List.mem_append] at hin
      rcases hin with h | h | h | h
      · exact absurd (hH ev h) hev
      · exact Or.inl h
      · exact Or.inr h
      · exact absurd (hTp ev h) hev
    have hf1 : f1 = .next := by
      by_contra hne
      obtain ⟨j, _, hj, hcase⟩ := hP1.2.2.1 hne
      obtain ⟨t, key, klen, r, ht, hf, hr, hm⟩ := hall j (by omega)
      rcases hcase with h | ⟨t1, ht1, _, hno⟩
      · rw [ht] at h; cases h
      · rw [ht] at ht1
        cases ht1
        apply hno
        refine ⟨hf, key, klen, r, hr, ?_⟩
        rw [hnew] at hm
        rcases hplace _ (by simp [Event.idx]) hm with h | h
        · exact h
        · rw [(hfl hne).1] at h; simp at h
    have hf2 : f2 = .next := by
      by_contra hne
      obtain ⟨j, _, hj, hcase⟩ := hP2.2.2.1 hne
      obtain ⟨t, key, klen, r, ht, hf, hr, hm⟩ := hall j (by omega)
      rcases hcase with h | ⟨t1, ht1, hsel, hno⟩
      · rw [ht] at h; cases h
      · rw [ht] at ht1
        cases ht1
        apply hno
        refine ⟨hf, key, klen, r, hr, ?_⟩
        rw [hnew] at hm
        rcases hplace _ (by simp [Event.idx]) hm with h | h
        · exfalso
          obtain ⟨_, _, t2, ht2, hs2⟩ := hP1.1 _ h j rfl
          rw [ht] at ht2
          cases ht2
          simp only [decide_eq_true_eq] at hs2 hsel
          exact hsel hs2
        · exact h
    subst hf1
    subst hf2
    refine ⟨hst, ?_⟩
    intro e he
    cases hidx : e.idx with
    | none => exact ⟨(idx_none_plain e hidx).1, (idx_none_plain e hidx).2.1⟩
    | some j =>
      have hin : e ∈ n1 ∨ e ∈ n2 := by
        rw [hnew] at he
        exact hplace e (by rw [hidx]; simp) he
      have hj : j < tcount := by
        rcases hin with h | h
        · have := (hP1.1 e h j hidx).2.1; omega
        · have := (hP2.1 e h j hidx).2.1; omega
      obtain ⟨t, key, klen, r, ht, hf, hr, hm⟩ := hall j hj
      exact rejected_no_crypt E c tfm enc template tcount inject_fault s j key klen r t hm ht
        hf hr e he hidx

/-- Witness for C5: a table of an unchunked and a chunked vector, both declared to be
rejected, with a provider that rejects every key with `-22`. -/
theorem expected_rejection_skips_witness :
    (moto_test_skcipher (sample_env (-22) none) sample_config ⟨0⟩ ENCRYPT
      [sample_fail_vec, sample_fail_chunked_vec] 2 0 sample_state).1 = some 0 :=
  ((expected_rejection_skips (sample_env (-22) none) sample_config ⟨0⟩ ENCRYPT
    [sample_fail_vec, sample_fail_chunked_vec] 2 0 sample_state).2.2.2 (by decide)
    (by
      intro i hi
      have h : i = 0 ∨ i = 1 := by omega
      rcases h with rfl | rfl
      · exact ⟨sample_fail_vec, [1, 2, 3], 3, -22, rfl, rfl, by decide, by decide⟩
      · exact ⟨sample_fail_chunked_vec, [1, 2, 3], 3, -22, rfl, rfl, by decide, by decide⟩)).1
/-- C3 (the code departs from the claim).  A vector with the expect-rejection flag set, run
against a provider whose set-key call accepts every key (returns `0`): both in the
unchunked loop (table of that vector and a second one) and in the chunked loop (table of
one chunked vector) `moto_test_skcipher` leaves through `out` right after the set-key call,
with no encrypt call and no comparison, and returns the status `0`. -/
theorem accepted_key_reported_as_pass :
    sample_fail_vec.fail = 1 ∧ sample_fail_chunked_vec.fail = 1 ∧
    (moto_test_skcipher (sample_env 0 none) sample_config ⟨0⟩ ENCRYPT
      [sample_fail_vec, sample_ok_vec] 2 0 sample_state).1 = some 0 ∧
    new_events sample_state (moto_test_skcipher (sample_env 0 none) sample_config ⟨0⟩ ENCRYPT
      [sample_fail_vec, sample_ok_vec] 2 0 sample_state).2
      = (List.range 8).map (fun i => Event.get_free_page i true) ++
        [.init_completion, .ablkcipher_request_alloc true, .clear_flags,
          .ablkcipher_setkey 0 [1, 2, 3] 3 0] ++ skcipher_cleanup ∧
    (moto_test_skcipher (sample_env 0 none) sample_config ⟨0⟩ ENCRYPT
      [sample_fail_chunked_vec] 1 0 sample_state).1 = some 0 ∧
    new_events sample_state (moto_test_skcipher (sample_env 0 none) sample_config ⟨0⟩ ENCRYPT
      [sample_fail_chunked_vec] 1 0 sample_state).2
      = (List.range 8).map (fun i => Event.get_free_page i true) ++
        [.init_completion, .ablkcipher_request_alloc true, .clear_flags,
          .ablkcipher_setkey 0 [1, 2, 3] 3 0] ++ skcipher_cleanup := by
  decide

/-! ## Completion handling (C11) -/

theorem foldl_complete {cbs : List Int} :
    ∀ (tr : moto_tcrypt_result),
      tr.completion ≤ (cbs.foldl moto_tcrypt_complete tr).completion ∧
      ((cbs.foldl moto_tcrypt_complete tr).completion = tr.completion →
        (cbs.foldl moto_tcrypt_complete tr).err = tr.err) ∧
      ((cbs.foldl moto_tcrypt_complete tr).completion ≠ tr.completion →
        (cbs.foldl moto_tcrypt_complete tr).err ∈ cbs ∧
        (cbs.foldl moto_tcrypt_complete tr).err ≠ -EINPROGRESS) := by
  induction cbs with
  | nil => intro tr; simp
  | cons a l ih =>
    intro tr
    simp only [List.foldl_cons]
    by_cases ha : a = -EINPROGRESS
    · have e : moto_tcrypt_complete tr a = tr := by
        unfold moto_tcrypt_complete; rw [if_pos ha]
      rw [e]
      obtain ⟨h1, h2, h3⟩ := ih tr
      refine ⟨h1, h2, ?_⟩
      intro hne
      exact ⟨List.mem_cons_of_mem _ (h3 hne).1, (h3 hne).2⟩
    · have e : moto_tcrypt_complete tr a =
          { tr with err := a, completion := tr.completion + 1 } := by
        unfold moto_tcrypt_complete; rw [if_neg ha]
      rw [e]
      obtain ⟨h1, h2, h3⟩ := ih { tr with err := a, completion := tr.completion + 1 }
      simp only at h1 h2 h3
      refine ⟨by omega, fun h => by omega, ?_⟩
      intro _
      by_cases hc : (List.foldl moto_tcrypt_complete
          { tr with err := a, completion := tr.completion + 1 } l).completion
            = tr.completion + 1
      · rw [h2 hc]
        exact ⟨List.mem_cons_self _ _, ha⟩
      · exact ⟨List.mem_cons_of_mem _ (h3 hc).1, (h3 hc).2⟩

/-- C11.  `moto_do_one_async_hash_op` agrees with the reference: a status other than
`-EINPROGRESS` and `-EBUSY` is returned unchanged and nothing is waited for (state and
trace stay as they are); otherwise the helper waits, and returns `tr->err` when the wait
returned `0`, the wait's own result when it was interrupted, and nothing while the wait
does not return.  When the completion was unsignalled before the call, the status
returned after a wait that gave `0` is one that a callback reported. -/
theorem async_hash_op_reference {σ : Type} (s : State σ) (r : OpResult) :
    (moto_do_one_async_hash_op s r).1
      = async_op_reference r.ret (wait_for_completion_interruptible s.tresult r) ∧
    (r.ret ≠ -EINPROGRESS ∧ r.ret ≠ -EBUSY →
      moto_do_one_async_hash_op s r = (some r.ret, s)) ∧
    (r.ret = -EINPROGRESS ∨ r.ret = -EBUSY →
      ∀ (w : Int) (tr : moto_tcrypt_result),
        wait_for_completion_interruptible s.tresult r = some (w, tr) →
        (moto_do_one_async_hash_op s r).1 = some (if w = 0 then tr.err else w) ∧
        (moto_do_one_async_hash_op s r).2.trace = s.trace ++ [.wait w, .INIT_COMPLETION] ∧
        (w ≠ 0 → w = r.intr) ∧
        (w = 0 → s.tresult.completion = 0 → tr.err ∈ r.cbs ∧ tr.err ≠ -EINPROGRESS)) ∧
    (r.ret = -EINPROGRESS ∨ r.ret = -EBUSY →
      wait_for_completion_interruptible s.tresult r = none →
      (moto_do_one_async_hash_op s r).1 = none) := by
  refine ⟨?_, ?_, ?_, ?_⟩
  · unfold moto_do_one_async_hash_op async_op_reference
    by_cases h : r.ret = -EINPROGRESS ∨ r.ret = -EBUSY
    · rw [if_pos h, if_neg (by
        intro hc; rcases h with h | h
        · exact hc.1 h
        · exact hc.2 h)]
      cases wait_for_completion_interruptible s.tresult r with
      | none => rfl
      | some p =>
        obtain ⟨w, tr⟩ := p
        simp only
        split <;> rfl
    · rw [if_neg h, if_pos (by
        constructor
        · intro hc; exact h (Or.inl hc)
        · intro hc; exact h (Or.inr hc))]
  · intro h
    unfold moto_do_one_async_hash_op
    rw [if_neg (by
      intro hc; rcases hc with hc | hc
      · exact h.1 hc
      · exact h.2 hc)]
  · intro h w tr hw
    unfold moto_do_one_async_hash_op
    rw [if_pos h, hw]
    refine ⟨rfl, rfl, ?_, ?_⟩
    · intro hw0
      unfold wait_for_completion_interruptible at hw
      simp only at hw
      split at hw
      · simp only [Option.some.injEq, Prod.mk.injEq] at hw
        exact absurd hw.1.symm hw0
      · split at hw
        · simp only [Option.some.injEq, Prod.mk.injEq] at hw
          exact hw.1.symm
        · simp at hw
    · intro hw0 hc
      unfold wait_for_completion_interruptible at hw
      simp only at hw
      have hf := @foldl_complete r.cbs s.tresult
      split at hw
      · rename_i hne
        simp only [Option.some.injEq, Prod.mk.injEq] at hw
        rw [← hw.2]
        simp only
        exact hf.2.2 (by rw [hc]; exact hne)
      · split at hw
        · rename_i hi
          simp only [Option.some.injEq, Prod.mk.injEq] at hw
          exact absurd (hw.1.trans hw0) hi
        · simp at hw
  · intro h hw
    unfold moto_do_one_async_hash_op
    rw [if_pos h, hw]

/-- Witness for C11: a deferred operation whose callback reports `-5`, and one whose wait
is interrupted with `-512`. -/
theorem async_hash_op_reference_witness :
    (moto_do_one_async_hash_op sample_state ⟨-EINPROGRESS, [-5], 0⟩).1 = some (-5) ∧
    (moto_do_one_async_hash_op sample_state ⟨-EBUSY, [], -512⟩).1 = some (-512) ∧
    moto_do_one_async_hash_op sample_state ⟨-22, [], 0⟩ = (some (-22), sample_state) :=
  ⟨((async_hash_op_reference sample_state ⟨-EINPROGRESS, [-5], 0⟩).2.2.1 (Or.inl rfl) 0
      ⟨0, -5⟩ rfl).1,
    ((async_hash_op_reference sample_state ⟨-EBUSY, [], -512⟩).2.2.1 (Or.inr rfl) (-512)
      ⟨0, 0⟩ rfl).1,
    (async_hash_op_reference sample_state ⟨-22, [], 0⟩).2.1 ⟨by decide, by decide⟩⟩

/-! ## Short reads of the RNG (C20) -/

theorem cons_split {α : Type} (a x : α) (l pre post : List α)
    (h : a :: l = pre ++ x :: post) :
    (pre = [] ∧ a = x ∧ l = post) ∨ (∃ pre1, pre = a :: pre1 ∧ l = pre1 ++ x :: post) := by
  cases pre with
  | nil =>
    simp only [List.nil_append, List.cons.injEq] at h
    exact Or.inl ⟨rfl, h.1, h.2⟩
  | cons b pre1 =>
    simp only [List.cons_append, List.cons.injEq] at h
    exact Or.inr ⟨pre1, by rw [h.1], h.2⟩

theorem get_loop_short {σ : Type} (E : Env σ) (tfm : crypto_rng) (i rlen : Nat) :
    ∀ (n : Nat) (result : Nat → Nat) (s : State σ),
      ∃ new, (cprng_get_loop E tfm i rlen n result s).2.2.trace = s.trace ++ new ∧
        ∀ pre j m err post, new = pre ++ Event.rng_get_bytes j m err :: post →
          err ≠ (m : Int) →
          post = [] ∧ (cprng_get_loop E tfm i rlen n result s).1 = some err := by
  intro n
  induction n with
  | zero =>
    intro result s
    refine ⟨[], by simp [cprng_get_loop], ?_⟩
    intro pre j m err post h
    simp at h
  | succ n ih =>
    intro result s
    rw [cprng_get_loop]
    cases hg : E.crypto_rng_get_bytes s.env tfm rlen result with
    | mk err0 p =>
      obtain ⟨result1, e⟩ := p
      try simp only
      by_cases hne : err0 ≠ (rlen : Int)
      · rw [if_pos hne]
        refine ⟨[.rng_get_bytes i rlen err0], rfl, ?_⟩
        intro pre j m err post h _
        rcases cons_split _ _ _ _ _ h with ⟨_, h2, h3⟩ | ⟨pre1, _, h3⟩
        · simp only [Event.rng_get_bytes.injEq] at h2
          exact ⟨h3.symm, by rw [h2.2.2]⟩
        · simp at h3
      · rw [if_neg hne]
        obtain ⟨new, hn, hq⟩ := ih result1
          { s with env := e, trace := s.trace ++ [.rng_get_bytes i rlen err0] }
        refine ⟨.rng_get_bytes i rlen err0 :: new, by rw [hn]; simp, ?_⟩
        intro pre j m err post h hs
        rcases cons_split _ _ _ _ _ h with ⟨_, h2, _⟩ | ⟨pre1, _, h3⟩
        · simp only [Event.rng_get_bytes.injEq] at h2
          exfalso
          apply hs
          rw [← h2.2.2, ← h2.2.1]
          exact not_not.1 hne
        · exact hq pre1 j m err post h3 hs

theorem cprng_vec_unfold {σ : Type} (E : Env σ) (c : Config) (tfm : crypto_rng)
    (inject_fault : Int) (i : Nat) (t : moto_cprng_testvec) (seed : Nat → Nat)
    (s : State σ) :
    cprng_vec E c tfm inject_fault i t seed s =
      match E.crypto_rng_reset s.env tfm ((List.range tfm.seedsize).map (cprng_seed t seed))
          tfm.seedsize with
      | (err, e) =>
        if err ≠ 0 then
          (some err, cprng_seed t seed,
            { s with env := e,
                     trace := s.trace ++ [.rng_reset i
                       ((List.range tfm.seedsize).map (cprng_seed t seed)) tfm.seedsize err] })
        else
          match cprng_get_loop E tfm i t.rlen t.loops (fun _ => 0)
              { s with env := e,
                       trace := s.trace ++ [.rng_reset i
                         ((List.range tfm.seedsize).map (cprng_seed t seed))
                         tfm.seedsize err] } with
          | (some err1, _, s2) => (some err1, cprng_seed t seed, s2)
          | (none, result, s2) =>
            if memcmp (if c.FAULT_INJECTION ∧ inject_fault ≠ 0 then flip_first result
                else result) (byteAt t.result) t.rlen ≠ 0
            then (some (-EINVAL), cprng_seed t seed,
              s2.log [.memcmp i 0 (memcmp (if c.FAULT_INJECTION ∧ inject_fault ≠ 0
                then flip_first result else result) (byteAt t.result) t.rlen)])
            else (none, cprng_seed t seed,
              s2.log [.memcmp i 0 (memcmp (if c.FAULT_INJECTION ∧ inject_fault ≠ 0
                then flip_first result else result) (byteAt t.result) t.rlen)]) := by
  rfl

theorem cprng_vec_short {σ : Type} (E : Env σ) (c : Config) (tfm : crypto_rng)
    (inject_fault : Int) (i : Nat) (t : moto_cprng_testvec) (seed : Nat → Nat)
    (s : State σ) :
    ∃ new, (cprng_vec E c tfm inject_fault i t seed s).2.2.trace = s.trace ++ new ∧
      ∀ pre j m err post, new = pre ++ Event.rng_get_bytes j m err :: post →
        err ≠ (m : Int) →
        post = [] ∧ (cprng_vec E c tfm inject_fault i t seed s).1 = some err := by
  rw [cprng_vec_unfold]
  generalize cprng_seed t seed = seed3
  cases hr : E.crypto_rng_reset s.env tfm (List.map seed3 (List.range tfm.seedsize))
      tfm.seedsize with
  | mk err0 e =>
    try simp only
    by_cases h0 : err0 ≠ 0
    · rw [if_pos h0]
      refine ⟨[.rng_reset i _ tfm.seedsize err0], rfl, ?_⟩
      intro pre j m err post h _
      rcases cons_split _ _ _ _ _ h with ⟨_, h2, _⟩ | ⟨pre1, _, h3⟩
      · simp at h2
      · simp at h3
    · rw [if_neg h0]
      obtain ⟨new, hn, hq⟩ := get_loop_short E tfm i t.rlen t.loops (fun _ => 0)
        { s with env := e,
                 trace := s.trace ++ [.rng_reset i (List.map seed3 (List.range tfm.seedsize))
                   tfm.seedsize err0] }
      generalize cprng_get_loop E tfm i t.rlen t.loops (fun _ => 0)
        { s with env := e,
                 trace := s.trace ++ [.rng_reset i (List.map seed3 (List.range tfm.seedsize))
                   tfm.seedsize err0] } = G at hn hq ⊢
      obtain ⟨g, result, s2⟩ := G
      simp only at hn hq ⊢
      cases g with
      | some err1 =>
        simp only
        refine ⟨.rng_reset i (List.map seed3 (List.range tfm.seedsize)) tfm.seedsize err0
          :: new, by rw [hn]; simp, ?_⟩
        intro pre j m err post h hs
        rcases cons_split _ _ _ _ _ h with ⟨_, h2, _⟩ | ⟨pre1, _, h3⟩
        · simp at h2
        · exact hq pre1 j m err post h3 hs
      | none =>
        simp only
        have key : ∀ cmp : Int, ∀ pre j m err post,
            Event.rng_reset i (List.map seed3 (List.range tfm.seedsize)) tfm.seedsize err0
              :: (new ++ [Event.memcmp i 0 cmp]) = pre ++ Event.rng_get_bytes j m err :: post →
            err ≠ (m : Int) → False := by
          intro cmp pre j m err post h hs
          rcases cons_split _ _ _ _ _ h with ⟨_, h2, _⟩ | ⟨pre1, _, h3⟩
          · simp at h2
          · rcases append_eq_split _ _ _ _ _ h3 with ⟨post1, h4, _⟩ | ⟨pre2, _, h5⟩
            · have := (hq pre1 j m err post1 h4 hs).2
              simp at this
            · rcases cons_split _ _ _ _ _ h5 with ⟨_, h6, _⟩ | ⟨pre3, _, h7⟩
              · simp at h6
              · simp at h7
        generalize memcmp (if c.FAULT_INJECTION = true ∧ inject_fault ≠ 0 then flip_first result
          else result) (byteAt t.result) t.rlen = cmp
        by_cases hc : cmp ≠ 0
        · rw [if_pos hc]
          refine ⟨.rng_reset i (List.map seed3 (List.range tfm.seedsize)) tfm.seedsize err0
            :: (new ++ [.memcmp i 0 cmp]), by simp [State.log, hn], ?_⟩
          intro pre j m err post h hs
          exact (key _ pre j m err post h hs).elim
        · rw [if_neg hc]
          refine ⟨.rng_reset i (List.map seed3 (List.range tfm.seedsize)) tfm.seedsize err0
            :: (new ++ [.memcmp i 0 cmp]), by simp [State.log, hn], ?_⟩
          intro pre j m err post h hs
          exact (key _ pre j m err post h hs).elim

theorem cprng_loop_short {σ : Type} (E : Env σ) (c : Config) (tfm : crypto_rng)
    (template : List moto_cprng_testvec) (inject_fault : Int) :
    ∀ (n i : Nat) (err0 : Int) (seed : Nat → Nat) (s : State σ),
      ∃ new, (cprng_loop E c tfm template inject_fault n i err0 seed s).2.trace
          = s.trace ++ new ∧
        ∀ pre j m err post, new = pre ++ Event.rng_get_bytes j m err :: post →
          err ≠ (m : Int) →
          post = [] ∧ (cprng_loop E c tfm template inject_fault n i err0 seed s).1
            = some err := by
  intro n
  induction n with
  | zero =>
    intro i err0 seed s
    refine ⟨[], by simp [cprng_loop], ?_⟩
    intro pre j m err post h
    simp at h
  | succ n ih =>
    intro i err0 seed s
    simp only [cprng_loop]
    cases ht : template[i]? with
    | none =>
      refine ⟨[], by simp, ?_⟩
      intro pre j m err post h
      simp at h
    | some t =>
      simp only
      obtain ⟨new, hn, hq⟩ := cprng_vec_short E c tfm inject_fault i t seed s
      generalize cprng_vec E c tfm inject_fault i t seed s = V at hn hq ⊢
      obtain ⟨v, seed1, s1⟩ := V
      simp only at hn hq ⊢
      cases v with
      | some err1 =>
        simp only
        exact ⟨new, hn, hq⟩
      | none =>
        simp only
        obtain ⟨new2, hn2, hq2⟩ := ih (i + 1) 0 seed1 s1
        refine ⟨new ++ new2, by rw [hn2, hn, List.append_assoc], ?_⟩
        intro pre j m err post h hs
        rcases append_eq_split _ _ _ _ _ h with ⟨post1, h4, _⟩ | ⟨pre2, _, h5⟩
        · have := (hq pre j m err post1 h4 hs).2
          simp at this
        · exact hq2 pre2 j m err post h5 hs

theorem cprng_run_short {σ : Type} (E : Env σ) (c : Config) (tfm : crypto_rng)
    (template : List moto_cprng_testvec) (tcount : Nat) (inject_fault : Int) (s : State σ)
    (pre post : List Event) (j m : Nat) (err : Int)
    (h : new_events s (moto_test_cprng E c tfm template tcount inject_fault s).2
      = pre ++ Event.rng_get_bytes j m err :: post)
    (hs : err ≠ (m : Int)) :
    (moto_test_cprng E c tfm template tcount inject_fault s).1 = some err ∧
      post = [.kfree] := by
  unfold moto_test_cprng at h ⊢
  cases hk : E.kmalloc s.env tfm.seedsize with
  | mk o e =>
    rw [hk] at h
    cases o with
    | none =>
      simp only at h
      rw [new_events_append s _ [.kmalloc false] rfl] at h
      rcases cons_split _ _ _ _ _ h with ⟨_, h2, _⟩ | ⟨pre1, _, h3⟩
      · simp at h2
      · simp at h3
    | some seed =>
      simp only at h ⊢
      obtain ⟨new, hn, hq⟩ := cprng_loop_short E c tfm template inject_fault tcount 0 0 seed
        { s with env := e, trace := s.trace ++ [.kmalloc true] }
      generalize cprng_loop E c tfm template inject_fault tcount 0 0 seed
        { s with env := e, trace := s.trace ++ [.kmalloc true] } = L at hn hq h ⊢
      obtain ⟨l, s1⟩ := L
      simp only at hn hq
      cases l with
      | none =>
        simp only at h
        rw [new_events_append s s1 (.kmalloc true :: new) (by rw [hn]; simp)] at h
        rcases cons_split _ _ _ _ _ h with ⟨_, h2, _⟩ | ⟨pre1, _, h3⟩
        · simp at h2
        · have := (hq pre1 j m err post h3 hs).2
          simp at this
      | some err1 =>
        simp only at h ⊢
        rw [new_events_append s _ (.kmalloc true :: (new ++ [.kfree]))
          (by simp [State.log, hn])] at h
        rcases cons_split _ _ _ _ _ h with ⟨_, h2, _⟩ | ⟨pre1, _, h3⟩
        · simp at h2
        · rcases append_eq_split _ _ _ _ _ h3 with ⟨post1, h4, h5⟩ | ⟨pre2, _, h5⟩
          · have := hq pre1 j m err post1 h4 hs
            refine ⟨this.2, ?_⟩
            rw [h5, this.1]
            rfl
          · rcases cons_split _ _ _ _ _ h5 with ⟨_, h6, _⟩ | ⟨pre3, _, h7⟩
            · simp at h6
            · simp at h7

/-- C20, what the code does.  In every run of `moto_test_cprng`, a `crypto_rng_get_bytes`
call that returns a value `err` different from the requested count is the last call before
`kfree`, and the runner returns `err` itself.  So a provider that returns `0` bytes for a
vector asking for 16 makes the runner return `0`, the status of a passed run; a provider
that returns 8 of 16 bytes makes it return `8`. -/
theorem short_read_returns_count :
    (∀ {σ : Type} (E : Env σ) (c : Config) (tfm : crypto_rng)
      (template : List moto_cprng_testvec) (tcount : Nat) (inject_fault : Int) (s : State σ)
      (pre post : List Event) (j m : Nat) (err : Int),
      new_events s (moto_test_cprng E c tfm template tcount inject_fault s).2
        = pre ++ Event.rng_get_bytes j m err :: post →
      err ≠ (m : Int) →
      (moto_test_cprng E c tfm template tcount inject_fault s).1 = some err ∧
        post = [.kfree]) ∧
    (moto_test_cprng (short_read_env 0) sample_config ⟨0, 48⟩ [sample_rng_vec] 1 0
      sample_state).1 = some 0 ∧
    (∃ seed, (moto_test_cprng (short_read_env 0) sample_config ⟨0, 48⟩ [sample_rng_vec] 1 0
      sample_state).2.trace
        = [.kmalloc true, .rng_reset 0 seed 48 0, .rng_get_bytes 0 16 0, .kfree]) ∧
    (moto_test_cprng (short_read_env 8) sample_config ⟨0, 48⟩ [sample_rng_vec] 1 0
      sample_state).1 = some 8 := by
  refine ⟨?_, by decide, ⟨_, rfl⟩, by decide⟩
  intro σ E c tfm template tcount inject_fault s pre post j m err h hs
  exact cprng_run_short E c tfm template tcount inject_fault s pre post j m err h hs

/-! ## Comparison and propagation lemmas -/

theorem memcmp_eq_zero_iff : ∀ (n : Nat) (a b : Nat → Nat),
    memcmp a b n = 0 ↔ ∀ j < n, a j = b j := by
  intro n
  induction n with
  | zero => intro a b; simp [memcmp]
  | succ n ih =>
    intro a b
    simp only [memcmp]
    by_cases h0 : a 0 ≠ b 0
    · rw [if_pos h0]
      constructor
      · intro h
        exfalso
        apply h0
        have : (a 0 : Int) = (b 0 : Int) := by omega
        exact_mod_cast this
      · intro h
        exact absurd (h 0 (Nat.succ_pos n)) h0
    · rw [if_neg h0, ih]
      have h0 : a 0 = b 0 := not_not.1 h0
      constructor
      · intro h j hj
        cases j with
        | zero => exact h0
        | succ j => exact h j (by omega)
      · intro h j hj
        exact h (j + 1) (by omega)

theorem memcmp_ne_zero_iff (n : Nat) (a b : Nat → Nat) :
    memcmp a b n ≠ 0 ↔ differ a b n := by
  rw [ne_eq, memcmp_eq_zero_iff]
  unfold differ
  constructor
  · intro h
    by_contra hc
    apply h
    intro j hj
    by_contra hne
    exact hc ⟨j, hj, hne⟩
  · rintro ⟨j, hj, hne⟩ h
    exact hne (h j hj)

theorem memcmp_congr (n : Nat) (a a1 b b1 : Nat → Nat)
    (ha : ∀ j < n, a j = a1 j) (hb : ∀ j < n, b j = b1 j) :
    memcmp a b n = memcmp a1 b1 n := by
  induction n generalizing a a1 b b1 with
  | zero => rfl
  | succ n ih =>
    simp only [memcmp]
    rw [ha 0 (Nat.succ_pos n), hb 0 (Nat.succ_pos n)]
    rw [ih (fun i => a (i + 1)) (fun i => a1 (i + 1)) (fun i => b (i + 1))
      (fun i => b1 (i + 1)) (fun j hj => ha (j + 1) (by omega))
      (fun j hj => hb (j + 1) (by omega))]

theorem xor_ff_ne (x : Nat) : x ^^^ 0xff ≠ x := by
  intro h
  have h2 : (x ^^^ 0xff) ^^^ x = 0 := by rw [h, Nat.xor_self]
  rw [Nat.xor_comm x, Nat.xor_assoc, Nat.xor_self, Nat.xor_zero] at h2
  exact absurd h2 (by decide)

theorem flip_first_differ (result expected : Nat → Nat) (n : Nat) (hn : 1 ≤ n)
    (h : ∀ j < n, result j = expected j) : differ (flip_first result) expected n := by
  refine ⟨0, by omega, ?_⟩
  unfold flip_first
  rw [if_pos rfl, ← h 0 (by omega)]
  exact xor_ff_ne _

theorem hash_pass1_split {σ : Type} (E : Env σ) (c : Config) (tfm : crypto_ahash)
    (template : List moto_hash_testvec) (use_digest : Bool) (inject_fault : Int)
    (m n : Nat) :
    ∀ (i : Nat) (s : State σ),
      hash_pass1 E c tfm template use_digest inject_fault (m + n) i s =
        match hash_pass1 E c tfm template use_digest inject_fault m i s with
        | (.next, s1) => hash_pass1 E c tfm template use_digest inject_fault n (i + m) s1
        | r => r := by
  induction m with
  | zero => intro i s; simp [hash_pass1]
  | succ m ih =>
    intro i s
    have e : m + 1 + n = (m + n) + 1 := by omega
    rw [e]
    simp only [hash_pass1]
    cases ht : template[i]? with
    | none => rfl
    | some t =>
      try simp only
      by_cases hnp : t.np ≠ 0
      · rw [if_pos hnp, if_pos hnp]
        rw [ih (i + 1) s]
        have e2 : i + 1 + m = i + (m + 1) := by omega
        rw [e2]
      · rw [if_neg hnp, if_neg hnp]
        cases hv : hash_unchunked_vec E c tfm use_digest inject_fault i t s with
        | mk f s1 =>
          cases f with
          | next =>
            try simp only
            rw [ih (i + 1) s1]
            have e2 : i + 1 + m = i + (m + 1) := by omega
            rw [e2]
          | out r => rfl
          | stuck => rfl

theorem skcipher_pass1_split {σ : Type} (E : Env σ) (c : Config) (tfm : crypto_ablkcipher)
    (enc : Int) (template : List moto_cipher_testvec) (inject_fault : Int) (m n : Nat) :
    ∀ (i : Nat) (s : State σ),
      skcipher_pass1 E c tfm enc template inject_fault (m + n) i s =
        match skcipher_pass1 E c tfm enc template inject_fault m i s with
        | (.next, s1) => skcipher_pass1 E c tfm enc template inject_fault n (i + m) s1
        | r => r := by
  induction m with
  | zero => intro i s; simp [skcipher_pass1]
  | succ m ih =>
    intro i s
    have e : m + 1 + n = (m + n) + 1 := by omega
    rw [e]
    simp only [skcipher_pass1]
    cases ht : template[i]? with
    | none => rfl
    | some t =>
      try simp only
      by_cases hnp : t.np = 0
      · rw [if_pos hnp, if_pos hnp]
        cases hv : skcipher_unchunked_vec E c tfm enc inject_fault i t s with
        | mk f s1 =>
          cases f with
          | next =>
            try simp only
            rw [ih (i + 1) s1]
            have e2 : i + 1 + m = i + (m + 1) := by omega
            rw [e2]
          | out r => rfl
          | stuck => rfl
      · rw [if_neg hnp, if_neg hnp]
        rw [ih (i + 1) s]
        have e2 : i + 1 + m = i + (m + 1) := by omega
        rw [e2]

theorem hash_reach1_exit {σ : Type} (E : Env σ) (c : Config) (tfm : crypto_ahash)
    (template : List moto_hash_testvec) (tcount : Nat) (use_digest : Bool)
    (inject_fault : Int) (s si s1 : State σ) (i : Nat) (t : moto_hash_testvec) (r : Int)
    (h : HashReach1 E c tfm template tcount use_digest inject_fault s i si)
    (ht : template[i]? = some t) (hnp : t.np = 0)
    (hv : hash_unchunked_vec E c tfm use_digest inject_fault i t si = (.out r, s1)) :
    moto_test_hash E c tfm template tcount use_digest inject_fault s
      = (some r, hash_out s1) := by
  obtain ⟨hi, s0, e, ha, hr, hp⟩ := h
  have hsplit := hash_pass1_split E c tfm template use_digest inject_fault i (tcount - i) 0
    (hash_loop_start E s0 e)
  have e1 : i + (tcount - i) = tcount := by omega
  rw [e1, hp] at hsplit
  simp only [Nat.zero_add] at hsplit
  obtain ⟨m, hm⟩ : ∃ m, tcount - i = m + 1 := ⟨tcount - i - 1, by omega⟩
  rw [hm] at hsplit
  simp only [hash_pass1, ht] at hsplit
  rw [if_neg (by rw [hnp]; simp), hv] at hsplit
  unfold moto_test_hash
  rw [ha]
  simp only [ne_eq, not_true_eq_false, if_false, hr]
  unfold hash_loop_start at hsplit
  rw [hsplit]

theorem hash_reach2_exit {σ : Type} (E : Env σ) (c : Config) (tfm : crypto_ahash)
    (template : List moto_hash_testvec) (tcount : Nat) (use_digest : Bool)
    (inject_fault : Int) (s si s1 : State σ) (i : Nat) (t : moto_hash_testvec) (r : Int)
    (h : HashReach2 E c tfm template tcount use_digest inject_fault s i si)
    (ht : template[i]? = some t) (hnp : t.np ≠ 0)
    (hv : hash_chunked_vec E c tfm i t si = (.out r, s1)) :
    moto_test_hash E c tfm template tcount use_digest inject_fault s
      = (some r, hash_out s1) := by
  obtain ⟨hi, s0, e, s4, ha, hr, hp1, hp⟩ := h
  have hsplit := hash_pass2_split E c tfm template i (tcount - i) 0 s4
  have e1 : i + (tcount - i) = tcount := by omega
  rw [e1, hp] at hsplit
  simp only [Nat.zero_add] at hsplit
  obtain ⟨m, hm⟩ : ∃ m, tcount - i = m + 1 := ⟨tcount - i - 1, by omega⟩
  rw [hm] at hsplit
  simp only [hash_pass2, ht] at hsplit
  rw [if_pos hnp, hv] at hsplit
  unfold moto_test_hash
  rw [ha]
  simp only [ne_eq, not_true_eq_false, if_false, hr]
  unfold hash_loop_start at hp1
  rw [hp1]
  simp only
  rw [hsplit]

theorem sk_reach1_exit {σ : Type} (E : Env σ) (c : Config) (tfm : crypto_ablkcipher)
    (enc : Int) (template : List moto_cipher_testvec) (tcount : Nat) (inject_fault : Int)
    (s si s1 : State σ) (i : Nat) (t : moto_cipher_testvec) (r : Int)
    (h : SkReach1 E c tfm enc template tcount inject_fault s i si)
    (ht : template[i]? = some t) (hnp : t.np = 0)
    (hv : skcipher_unchunked_vec E c tfm enc inject_fault i t si = (.out r, s1)) :
    moto_test_skcipher E c tfm enc template tcount inject_fault s
      = (some r, skcipher_out s1) := by
  obtain ⟨hi, s0, e, ha, hr, hp⟩ := h
  have hsplit := skcipher_pass1_split E c tfm enc template inject_fault i (tcount - i) 0
    (skcipher_loop_start E s0 e)
  have e1 : i + (tcount - i) = tcount := by omega
  rw [e1, hp] at hsplit
  simp only [Nat.zero_add] at hsplit
  obtain ⟨m, hm⟩ : ∃ m, tcount - i = m + 1 := ⟨tcount - i - 1, by omega⟩
  rw [hm] at hsplit
  simp only [skcipher_pass1, ht] at hsplit
  rw [if_pos hnp, hv] at hsplit
  unfold moto_test_skcipher
  rw [ha]
  simp only [ne_eq, not_true_eq_false, if_false, hr]
  unfold skcipher_loop_start at hsplit
  rw [hsplit]

theorem sk_reach2_exit {σ : Type} (E : Env σ) (c : Config) (tfm : crypto_ablkcipher)
    (enc : Int) (template : List moto_cipher_testvec) (tcount : Nat) (inject_fault : Int)
    (s si s1 : State σ) (i : Nat) (t : moto_cipher_testvec) (r : Int)
    (h : SkReach2 E c tfm enc template tcount inject_fault s i si)
    (ht : template[i]? = some t) (hnp : t.np ≠ 0)
    (hv : skcipher_chunked_vec E c tfm enc i t si = (.out r, s1)) :
    moto_test_skcipher E c tfm enc template tcount inject_fault s
      = (some r, skcipher_out s1) := by
  obtain ⟨hi, s0, e, s4, ha, hr, hp1, hp⟩ := h
  have hsplit := skcipher_pass2_split E c tfm enc template i (tcount - i) 0 s4
  have e1 : i + (tcount - i) = tcount := by omega
  rw [e1, hp] at hsplit
  simp only [Nat.zero_add] at hsplit
  obtain ⟨m, hm⟩ : ∃ m, tcount - i = m + 1 := ⟨tcount - i - 1, by omega⟩
  rw [hm] at hsplit
  simp only [skcipher_pass2, ht] at hsplit
  rw [if_pos hnp, hv] at hsplit
  unfold moto_test_skcipher
  rw [ha]
  simp only [ne_eq, not_true_eq_false, if_false, hr]
  unfold skcipher_loop_start at hp1
  rw [hp1]
  simp only
  rw [hsplit]

theorem cprng_loop_split {σ : Type} (E : Env σ) (c : Config) (tfm : crypto_rng)
    (template : List moto_cprng_testvec) (inject_fault : Int) (n : Nat) :
    ∀ (m i : Nat) (err : Int) (seed seed1 : Nat → Nat) (s s1 : State σ),
      cprng_iters E c tfm template inject_fault m i seed s = some (seed1, s1) →
      ∀ (t : moto_cprng_testvec), template[i + m]? = some t →
      cprng_loop E c tfm template inject_fault (m + (n + 1)) i err seed s =
        match cprng_vec E c tfm inject_fault (i + m) t seed1 s1 with
        | (some err1, _, s2) => (some err1, s2)
        | (none, seed2, s2) =>
          cprng_loop E c tfm template inject_fault n (i + m + 1) 0 seed2 s2 := by
  intro m
  induction m with
  | zero =>
    intro i err seed seed1 s s1 hp t ht
    simp only [cprng_iters, Option.some.injEq, Prod.mk.injEq] at hp
    obtain ⟨rfl, rfl⟩ := hp
    simp only [Nat.zero_add, Nat.add_zero] at ht ⊢
    rw [cprng_loop, ht]
  | succ m ih =>
    intro i err seed seed1 s s1 hp t ht
    have e : m + 1 + (n + 1) = (m + (n + 1)) + 1 := by omega
    rw [e]
    simp only [cprng_iters] at hp
    simp only [cprng_loop]
    cases hti : template[i]? with
    | none => rw [hti] at hp; simp at hp
    | some t0 =>
      rw [hti] at hp
      simp only at hp ⊢
      cases hv : cprng_vec E c tfm inject_fault i t0 seed s with
      | mk v p =>
        obtain ⟨seed2, s2⟩ := p
        rw [hv] at hp
        cases v with
        | some err1 => simp at hp
        | none =>
          simp only at hp ⊢
          have e2 : i + (m + 1) = i + 1 + m := by omega
          rw [e2] at ht ⊢
          exact ih (i + 1) 0 seed2 seed1 s2 s1 hp t ht

theorem cprng_reach_exit {σ : Type} (E : Env σ) (c : Config) (tfm : crypto_rng)
    (template : List moto_cprng_testvec) (tcount : Nat) (inject_fault : Int)
    (s si s1 : State σ) (i : Nat) (seed seed1 : Nat → Nat) (t : moto_cprng_testvec)
    (r : Int)
    (h : CprngReach E c tfm template tcount inject_fault s i seed si)
    (ht : template[i]? = some t)
    (hv : cprng_vec E c tfm inject_fault i t seed si = (some r, seed1, s1)) :
    moto_test_cprng E c tfm template tcount inject_fault s = (some r, s1.log [.kfree]) := by
  obtain ⟨hi, seed0, e, hk, hp⟩ := h
  obtain ⟨n, hn⟩ : ∃ n, tcount = i + (n + 1) := ⟨tcount - i - 1, by omega⟩
  have hsplit := cprng_loop_split E c tfm template inject_fault n i 0 0 seed0 seed
    { s with env := e, trace := s.trace ++ [.kmalloc true] } si hp t
    (by rw [Nat.zero_add]; exact ht)
  rw [Nat.zero_add] at hsplit
  rw [hv] at hsplit
  unfold moto_test_cprng
  rw [hk, hn]
  simp only
  rw [hsplit]

/-! ## The verdict of the hash comparison (C13) -/

theorem hash_unchunked_vec_ok {σ : Type} (E : Env σ) (c : Config) (tfm : crypto_ahash)
    (use_digest : Bool) (inject_fault : Int) (i : Nat) (t : moto_hash_testvec)
    (s s2 s3 : State σ) (result : Nat → Nat)
    (hk : hash_setkey E tfm i t
      { s with xbuf := s.xbuf.memcpy 0 0 (byteAt t.plaintext) t.psize } = (0, s2))
    (hc : hash_compute E tfm use_digest i [⟨0, 0, t.psize⟩] t.psize (fun _ => 0) s2
      = (some 0, result, s3)) :
    hash_unchunked_vec E c tfm use_digest inject_fault i t s =
      if memcmp (if c.FAULT_INJECTION ∧ inject_fault ≠ 0 then flip_first result else result)
          (byteAt t.digest) tfm.digestsize ≠ 0
      then (.out (-EINVAL),
        s3.log [.memcmp i 0 (memcmp (if c.FAULT_INJECTION ∧ inject_fault ≠ 0
          then flip_first result else result) (byteAt t.digest) tfm.digestsize)])
      else (.next,
        s3.log [.memcmp i 0 (memcmp (if c.FAULT_INJECTION ∧ inject_fault ≠ 0
          then flip_first result else result) (byteAt t.digest) tfm.digestsize)]) := by
  unfold hash_unchunked_vec
  simp only [hk, hc, ne_eq, not_true_eq_false, if_false]

theorem hash_chunked_vec_ok {σ : Type} (E : Env σ) (c : Config) (tfm : crypto_ahash)
    (i : Nat) (t : moto_hash_testvec) (s s2 s3 s4 : State σ) (l : Layout) (r : OpResult)
    (result : Nat → Nat)
    (hl : hash_layout c t s.xbuf t.np = some l)
    (hk : hash_setkey E tfm i t { s with xbuf := l.xbuf } = (0, s2))
    (hc : ahash_call E tfm .digest i l.sg t.psize (fun _ => 0) s2 = (r, result, s3))
    (hw : inline_completion s3 r = (some 0, s4)) :
    hash_chunked_vec E c tfm i t s =
      if memcmp result (byteAt t.digest) tfm.digestsize ≠ 0
      then (.out (-EINVAL),
        s4.log [.memcmp i 0 (memcmp result (byteAt t.digest) tfm.digestsize)])
      else (.next, s4.log [.memcmp i 0 (memcmp result (byteAt t.digest) tfm.digestsize)]) := by
  unfold hash_chunked_vec
  simp only [hl, hk, hc, hw, ne_eq, not_true_eq_false, if_false]

theorem ite_flow_fst {σ : Type} (p : Prop) [Decidable p] (r : Int) (a b : State σ) :
    ((if p then ((Flow.out r, a) : Flow × State σ) else (Flow.next, b)).1 = Flow.out r ↔ p) ∧
    (¬ p → (if p then ((Flow.out r, a) : Flow × State σ) else (Flow.next, b)).1
      = Flow.next) := by
  by_cases h : p
  · rw [if_pos h]
    exact ⟨⟨fun _ => h, fun _ => rfl⟩, fun hn => absurd h hn⟩
  · rw [if_neg h]
    exact ⟨⟨fun hc => by simp at hc, fun hp => absurd hp h⟩, fun _ => rfl⟩

/-- C13.  For a hash vector whose key set-up returned `0` (or that has no key) and whose
digest operations returned `0`, leaving `result` in the result buffer: the vector's
processing leaves through `out` with `-EINVAL` exactly when the result buffer (after the
fault injection, if applied) differs from the expected digest in one of the first
`digestsize` bytes, and goes on to the next vector otherwise; this holds in the first loop
and in the chunked loop.  When the vector is reached by a run and the buffers differ,
`moto_test_hash` returns `-EINVAL`.  The comparison depends only on the first
`digestsize` bytes of both buffers. -/
theorem hash_verdict {σ : Type} (E : Env σ) (c : Config) (tfm : crypto_ahash)
    (use_digest : Bool) (inject_fault : Int) (i : Nat) (t : moto_hash_testvec) :
    (∀ (s s2 s3 : State σ) (result : Nat → Nat),
      hash_setkey E tfm i t
        { s with xbuf := s.xbuf.memcpy 0 0 (byteAt t.plaintext) t.psize } = (0, s2) →
      hash_compute E tfm use_digest i [⟨0, 0, t.psize⟩] t.psize (fun _ => 0) s2
        = (some 0, result, s3) →
      ((hash_unchunked_vec E c tfm use_digest inject_fault i t s).1 = .out (-EINVAL) ↔
        differ (if c.FAULT_INJECTION ∧ inject_fault ≠ 0 then flip_first result else result)
          (byteAt t.digest) tfm.digestsize) ∧
      (¬ differ (if c.FAULT_INJECTION ∧ inject_fault ≠ 0 then flip_first result else result)
          (byteAt t.digest) tfm.digestsize →
        (hash_unchunked_vec E c tfm use_digest inject_fault i t s).1 = .next) ∧
      (∀ (template : List moto_hash_testvec) (tcount : Nat) (s0 : State σ),
        HashReach1 E c tfm template tcount use_digest inject_fault s0 i s →
        template[i]? = some t → t.np = 0 →
        differ (if c.FAULT_INJECTION ∧ inject_fault ≠ 0 then flip_first result else result)
          (byteAt t.digest) tfm.digestsize →
        (moto_test_hash E c tfm template tcount use_digest inject_fault s0).1
          = some (-EINVAL))) ∧
    (∀ (s s2 s3 s4 : State σ) (l : Layout) (r : OpResult) (result : Nat → Nat),
      hash_layout c t s.xbuf t.np = some l →
      hash_setkey E tfm i t { s with xbuf := l.xbuf } = (0, s2) →
      ahash_call E tfm .digest i l.sg t.psize (fun _ => 0) s2 = (r, result, s3) →
      inline_completion s3 r = (some 0, s4) →
      ((hash_chunked_vec E c tfm i t s).1 = .out (-EINVAL) ↔
        differ result (byteAt t.digest) tfm.digestsize) ∧
      (¬ differ result (byteAt t.digest) tfm.digestsize →
        (hash_chunked_vec E c tfm i t s).1 = .next) ∧
      (∀ (template : List moto_hash_testvec) (tcount : Nat) (s0 : State σ),
        HashReach2 E c tfm template tcount use_digest inject_fault s0 i s →
        template[i]? = some t → t.np ≠ 0 →
        differ result (byteAt t.digest) tfm.digestsize →
        (moto_test_hash E c tfm template tcount use_digest inject_fault s0).1
          = some (-EINVAL))) ∧
    (∀ (a a1 b b1 : Nat → Nat),
      (∀ j < tfm.digestsize, a j = a1 j) → (∀ j < tfm.digestsize, b j = b1 j) →
      memcmp a b tfm.digestsize = memcmp a1 b1 tfm.digestsize ∧
      (differ a b tfm.digestsize ↔ differ a1 b1 tfm.digestsize)) := by
  refine ⟨?_, ?_, ?_⟩
  · intro s s2 s3 result hk hc
    have hv := hash_unchunked_vec_ok E c tfm use_digest inject_fault i t s s2 s3 result hk hc
    refine ⟨?_, ?_, ?_⟩
    · rw [hv, ← memcmp_ne_zero_iff]
      exact (ite_flow_fst _ _ _ _).1
    · rw [hv, ← memcmp_ne_zero_iff]
      exact (ite_flow_fst _ _ _ _).2
    · intro template tcount s0 hreach ht hnp hd
      rw [← memcmp_ne_zero_iff] at hd
      rw [if_pos hd] at hv
      rw [hash_reach1_exit E c tfm template tcount use_digest inject_fault s0 s _ i t _
        hreach ht hnp hv]
  · intro s s2 s3 s4 l r result hl hk hc hw
    have hv := hash_chunked_vec_ok E c tfm i t s s2 s3 s4 l r result hl hk hc hw
    refine ⟨?_, ?_, ?_⟩
    · rw [hv, ← memcmp_ne_zero_iff]
      exact (ite_flow_fst _ _ _ _).1
    · rw [hv, ← memcmp_ne_zero_iff]
      exact (ite_flow_fst _ _ _ _).2
    · intro template tcount s0 hreach ht hnp hd
      rw [← memcmp_ne_zero_iff] at hd
      rw [if_pos hd] at hv
      rw [hash_reach2_exit E c tfm template tcount use_digest inject_fault s0 s _ i t _
        hreach ht hnp hv]
  · intro a a1 b b1 ha hb
    have hm := memcmp_congr tfm.digestsize a a1 b b1 ha hb
    refine ⟨hm, ?_⟩
    rw [← memcmp_ne_zero_iff, ← memcmp_ne_zero_iff, hm]

/-- Witness for C13: a table of one unchunked hash vector whose expected digest starts with
the byte `1`, with a provider that leaves the zeroed result buffer as it is. -/
theorem hash_verdict_witness :
    differ (fun _ => 0) (byteAt [1]) 20 ∧
    (moto_test_hash (sample_env 0 none) sample_config ⟨0, 20⟩
      [{ plaintext := [1, 2], psize := 2, digest := [1] }] 1 true 0 sample_state).1
        = some (-EINVAL) := by
  have hd : differ (if sample_config.FAULT_INJECTION ∧ (0 : Int) ≠ 0
      then flip_first (fun _ => 0) else (fun _ => 0)) (byteAt [1]) 20 :=
    ⟨0, by decide, by decide⟩
  exact ⟨⟨0, by decide, by decide⟩,
    ((hash_verdict (sample_env 0 none) sample_config ⟨0, 20⟩ true 0 0
      { plaintext := [1, 2], psize := 2, digest := [1] }).1 _ _ _ (fun _ => 0) rfl rfl).2.2
      [{ plaintext := [1, 2], psize := 2, digest := [1] }] 1 sample_state
      ⟨by decide, _, (), rfl, rfl, rfl⟩ rfl rfl hd⟩

/-! ## Fault injection: where it applies and what it does -/

theorem page_size_no_fault (c : Config) : PAGE_SIZE (no_fault c) = PAGE_SIZE c := rfl

theorem vec_iv_no_fault (c : Config) (t : moto_cipher_testvec) :
    vec_iv (no_fault c) t = vec_iv c t := rfl

theorem chunk_ptr_no_fault (c : Config) (k : Nat) : chunk_ptr (no_fault c) k = chunk_ptr c k :=
  rfl

theorem hash_layout_no_fault (c : Config) (t : moto_hash_testvec) (xbuf : Mem) :
    ∀ n, hash_layout (no_fault c) t xbuf n = hash_layout c t xbuf n := by
  intro n
  induction n with
  | zero => rfl
  | succ n ih =>
    simp only [hash_layout]
    rw [ih]
    rfl

theorem skcipher_layout_no_fault (c : Config) (t : moto_cipher_testvec) (xbuf : Mem) :
    ∀ n, skcipher_layout (no_fault c) t xbuf n = skcipher_layout c t xbuf n := by
  intro n
  induction n with
  | zero => rfl
  | succ n ih =>
    simp only [skcipher_layout]
    rw [ih]
    rfl

theorem overrun_scan_no_fault (c : Config) (m : Mem) (q : Ptr) :
    ∀ fuel n, overrun_scan (no_fault c) m q fuel n = overrun_scan c m q fuel n := by
  intro fuel
  induction fuel with
  | zero => intro n; rfl
  | succ fuel ih =>
    intro n
    simp only [overrun_scan]
    rw [ih]
    rfl

theorem check_chunks_no_fault (c : Config) (t : moto_cipher_testvec) (i : Nat) (m : Mem) :
    ∀ n k temp, skcipher_check_chunks (no_fault c) t i m n k temp
      = skcipher_check_chunks c t i m n k temp := by
  intro n
  induction n with
  | zero => intro k temp; rfl
  | succ n ih =>
    intro k temp
    simp only [skcipher_check_chunks]
    rw [ih, overrun_scan_no_fault, page_size_no_fault, chunk_ptr_no_fault]

/-- The chunked loop of `moto_test_hash` has no fault injection. -/
theorem hash_chunked_no_fault {σ : Type} (E : Env σ) (c : Config) (tfm : crypto_ahash)
    (i : Nat) (t : moto_hash_testvec) (s : State σ) :
    hash_chunked_vec E (no_fault c) tfm i t s = hash_chunked_vec E c tfm i t s := by
  unfold hash_chunked_vec
  rw [hash_layout_no_fault]

/-- The chunked loop of `moto_test_skcipher` has no fault injection. -/
theorem skcipher_chunked_no_fault {σ : Type} (E : Env σ) (c : Config)
    (tfm : crypto_ablkcipher) (enc : Int) (i : Nat) (t : moto_cipher_testvec)
    (s : State σ) :
    skcipher_chunked_vec E (no_fault c) tfm enc i t s
      = skcipher_chunked_vec E c tfm enc i t s := by
  unfold skcipher_chunked_vec
  simp only [skcipher_layout_no_fault, check_chunks_no_fault, vec_iv_no_fault]

theorem hash_unchunked_no_fault {σ : Type} (E : Env σ) (c : Config) (tfm : crypto_ahash)
    (use_digest : Bool) (inject_fault : Int) (i : Nat) (t : moto_hash_testvec)
    (s : State σ) (h : ¬ (c.FAULT_INJECTION = true ∧ inject_fault ≠ 0)) :
    hash_unchunked_vec E (no_fault c) tfm use_digest inject_fault i t s
      = hash_unchunked_vec E c tfm use_digest inject_fault i t s := by
  unfold hash_unchunked_vec
  have h1 : ¬ ((no_fault c).FAULT_INJECTION = true ∧ inject_fault ≠ 0) := by
    intro hc
    exact absurd hc.1 (by simp [no_fault])
  simp only [if_neg h, if_neg h1]

theorem skcipher_unchunked_no_fault {σ : Type} (E : Env σ) (c : Config)
    (tfm : crypto_ablkcipher) (enc : Int) (inject_fault : Int) (i : Nat)
    (t : moto_cipher_testvec) (s : State σ)
    (h : ¬ (c.FAULT_INJECTION = true ∧
      (inject_fault = INJECT_FAULT_ALL_KEY_LENGHTS ∨ inject_fault = (t.klen : Int) * 8))) :
    skcipher_unchunked_vec E (no_fault c) tfm enc inject_fault i t s
      = skcipher_unchunked_vec E c tfm enc inject_fault i t s := by
  unfold skcipher_unchunked_vec
  have h1 : ¬ ((no_fault c).FAULT_INJECTION = true ∧
      (inject_fault = INJECT_FAULT_ALL_KEY_LENGHTS ∨ inject_fault = (t.klen : Int) * 8)) := by
    intro hc
    exact absurd hc.1 (by simp [no_fault])
  simp only [if_neg h, if_neg h1, page_size_no_fault, vec_iv_no_fault]

theorem cprng_vec_no_fault {σ : Type} (E : Env σ) (c : Config) (tfm : crypto_rng)
    (inject_fault : Int) (i : Nat) (t : moto_cprng_testvec) (seed : Nat → Nat)
    (s : State σ) (h : ¬ (c.FAULT_INJECTION = true ∧ inject_fault ≠ 0)) :
    cprng_vec E (no_fault c) tfm inject_fault i t seed s
      = cprng_vec E c tfm inject_fault i t seed s := by
  rw [cprng_vec_unfold, cprng_vec_unfold]
  have h1 : ¬ ((no_fault c).FAULT_INJECTION = true ∧ inject_fault ≠ 0) := by
    intro hc
    exact absurd hc.1 (by simp [no_fault])
  simp only [if_neg h, if_neg h1]

theorem skcipher_unchunked_vec_ok {σ : Type} (E : Env σ) (c : Config)
    (tfm : crypto_ablkcipher) (enc : Int) (inject_fault : Int) (i : Nat)
    (t : moto_cipher_testvec) (s s2 s3 s4 : State σ) (r : OpResult)
    (hg : ¬ t.ilen > PAGE_SIZE c)
    (hk : skcipher_setkey E tfm i t
      { s with xbuf := s.xbuf.memcpy 0 0 (byteAt t.input) t.ilen } = (0, s2))
    (hf : t.fail ≠ 1)
    (hc : skcipher_call E tfm enc i [⟨0, 0, t.ilen⟩] t.ilen (vec_iv c t) s2 = (r, s3))
    (hw : inline_completion s3 r = (some 0, s4)) :
    skcipher_unchunked_vec E c tfm enc inject_fault i t s =
      if memcmp ((if c.FAULT_INJECTION ∧ (inject_fault = INJECT_FAULT_ALL_KEY_LENGHTS ∨
            inject_fault = (t.klen : Int) * 8)
          then s4.xbuf.store 0 0 (s4.xbuf 0 0 ^^^ 0xff) else s4.xbuf) 0)
          (byteAt t.result) t.rlen ≠ 0
      then (.out (-EINVAL),
        { s4 with
          xbuf := if c.FAULT_INJECTION ∧ (inject_fault = INJECT_FAULT_ALL_KEY_LENGHTS ∨
              inject_fault = (t.klen : Int) * 8)
            then s4.xbuf.store 0 0 (s4.xbuf 0 0 ^^^ 0xff) else s4.xbuf,
          trace := s4.trace ++ [.memcmp i 0
            (memcmp ((if c.FAULT_INJECTION ∧ (inject_fault = INJECT_FAULT_ALL_KEY_LENGHTS ∨
                inject_fault = (t.klen : Int) * 8)
              then s4.xbuf.store 0 0 (s4.xbuf 0 0 ^^^ 0xff) else s4.xbuf) 0)
              (byteAt t.result) t.rlen)] })
      else (.next,
        { s4 with
          xbuf := if c.FAULT_INJECTION ∧ (inject_fault = INJECT_FAULT_ALL_KEY_LENGHTS ∨
              inject_fault = (t.klen : Int) * 8)
            then s4.xbuf.store 0 0 (s4.xbuf 0 0 ^^^ 0xff) else s4.xbuf,
          trace := s4.trace ++ [.memcmp i 0
            (memcmp ((if c.FAULT_INJECTION ∧ (inject_fault = INJECT_FAULT_ALL_KEY_LENGHTS ∨
                inject_fault = (t.klen : Int) * 8)
              then s4.xbuf.store 0 0 (s4.xbuf 0 0 ^^^ 0xff) else s4.xbuf) 0)
              (byteAt t.result) t.rlen)] }) := by
  unfold skcipher_unchunked_vec
  have hf1 : ¬ (1 = t.fail) := fun h => hf h.symm
  rw [if_neg hg]
  simp only [hk, hc, hw, ne_eq, not_true_eq_false, if_false, if_true]
  rw [if_neg hf1]

theorem cprng_vec_ok {σ : Type} (E : Env σ) (c : Config) (tfm : crypto_rng)
    (inject_fault : Int) (i : Nat) (t : moto_cprng_testvec) (seed : Nat → Nat)
    (s s2 : State σ) (e : σ) (result : Nat → Nat)
    (hr : E.crypto_rng_reset s.env tfm ((List.range tfm.seedsize).map (cprng_seed t seed))
      tfm.seedsize = (0, e))
    (hg : cprng_get_loop E tfm i t.rlen t.loops (fun _ => 0)
      { s with env := e,
               trace := s.trace ++ [.rng_reset i
                 ((List.range tfm.seedsize).map (cprng_seed t seed)) tfm.seedsize 0] }
      = (none, result, s2)) :
    cprng_vec E c tfm inject_fault i t seed s =
      if memcmp (if c.FAULT_INJECTION ∧ inject_fault ≠ 0 then flip_first result
          else result) (byteAt t.result) t.rlen ≠ 0
      then (some (-EINVAL), cprng_seed t seed,
        s2.log [.memcmp i 0 (memcmp (if c.FAULT_INJECTION ∧ inject_fault ≠ 0
          then flip_first result else result) (byteAt t.result) t.rlen)])
      else (none, cprng_seed t seed,
        s2.log [.memcmp i 0 (memcmp (if c.FAULT_INJECTION ∧ inject_fault ≠ 0
          then flip_first result else result) (byteAt t.result) t.rlen)]) := by
  rw [cprng_vec_unfold, hr]
  simp only [ne_eq, not_true_eq_false, if_false, hg]

theorem store_flip_differ (m : Mem) (expected : Nat → Nat) (n : Nat) (hn : 1 ≤ n)
    (h : ∀ j < n, m 0 j = expected j) :
    differ ((m.store 0 0 (m 0 0 ^^^ 0xff)) 0) expected n := by
  refine ⟨0, by omega, ?_⟩
  unfold Mem.store
  rw [if_pos ⟨rfl, rfl⟩, ← h 0 (by omega)]
  exact xor_ff_ne _

theorem hash_unchunked_fault {σ : Type} (E : Env σ) (c : Config) (tfm : crypto_ahash)
    (use_digest : Bool) (inject_fault : Int) (i : Nat) (t : moto_hash_testvec)
    (s s1 : State σ) (hF : c.FAULT_INJECTION = true) (hi : inject_fault ≠ 0)
    (hn : 1 ≤ tfm.digestsize)
    (h : hash_unchunked_vec E (no_fault c) tfm use_digest inject_fault i t s = (.next, s1)) :
    ∃ s2, hash_unchunked_vec E c tfm use_digest inject_fault i t s
      = (.out (-EINVAL), s2) := by
  unfold hash_unchunked_vec at h ⊢
  simp only at h ⊢
  generalize hash_setkey E tfm i t
    { s with xbuf := s.xbuf.memcpy 0 0 (byteAt t.plaintext) t.psize } = K at h ⊢
  obtain ⟨kret, s2⟩ := K
  simp only at h ⊢
  by_cases hk : kret ≠ 0
  · rw [if_pos hk] at h
    simp at h
  · rw [if_neg hk] at h ⊢
    generalize hash_compute E tfm use_digest i [⟨0, 0, t.psize⟩] t.psize (fun _ => 0) s2 = C
      at h ⊢
    obtain ⟨o, result, s3⟩ := C
    cases o with
    | none => simp at h
    | some ret =>
      simp only at h ⊢
      by_cases hr : ret ≠ 0
      · rw [if_pos hr] at h
        simp at h
      · rw [if_neg hr] at h ⊢
        have hnf : ¬ ((no_fault c).FAULT_INJECTION = true ∧ inject_fault ≠ 0) := by
          intro hc
          exact absurd hc.1 (by simp [no_fault])
        have hpf : c.FAULT_INJECTION = true ∧ inject_fault ≠ 0 := ⟨hF, hi⟩
        rw [if_neg hnf] at h
        simp only [if_pos hpf]
        by_cases hc : memcmp result (byteAt t.digest) tfm.digestsize ≠ 0
        · rw [if_pos hc] at h
          simp at h
        · have heq := (memcmp_eq_zero_iff _ _ _).1 (not_not.1 hc)
          have hd := flip_first_differ result (byteAt t.digest) tfm.digestsize hn heq
          rw [← memcmp_ne_zero_iff] at hd
          rw [if_pos hd]
          exact ⟨_, rfl⟩

theorem skcipher_unchunked_fault {σ : Type} (E : Env σ) (c : Config)
    (tfm : crypto_ablkcipher) (enc : Int) (inject_fault : Int) (i : Nat)
    (t : moto_cipher_testvec) (s s1 : State σ) (hF : c.FAULT_INJECTION = true)
    (hi : inject_fault = INJECT_FAULT_ALL_KEY_LENGHTS ∨ inject_fault = (t.klen : Int) * 8)
    (hn : 1 ≤ t.rlen) (hfail : t.fail = 0)
    (h : skcipher_unchunked_vec E (no_fault c) tfm enc inject_fault i t s = (.next, s1)) :
    ∃ s2, skcipher_unchunked_vec E c tfm enc inject_fault i t s
      = (.out (-EINVAL), s2) := by
  unfold skcipher_unchunked_vec at h ⊢
  rw [page_size_no_fault, vec_iv_no_fault] at h
  by_cases hg : t.ilen > PAGE_SIZE c
  · rw [if_pos hg] at h
    simp at h
  · rw [if_neg hg] at h ⊢
    simp only at h ⊢
    generalize skcipher_setkey E tfm i t
      { s with xbuf := s.xbuf.memcpy 0 0 (byteAt t.input) t.ilen } = K at h ⊢
    obtain ⟨ret, s2⟩ := K
    simp only at h ⊢
    by_cases h1 : (if ret = 0 then 1 else 0) = t.fail
    · rw [if_pos h1] at h
      simp at h
    · rw [if_neg h1] at h ⊢
      have hret : ret = 0 := by
        by_contra hne
        apply h1
        rw [if_neg hne, hfail]
      have hnn : ¬ ret ≠ 0 := not_not.2 hret
      rw [if_neg hnn] at h ⊢
      generalize skcipher_call E tfm enc i [⟨0, 0, t.ilen⟩] t.ilen (vec_iv c t) s2 = C at h ⊢
      obtain ⟨r, s3⟩ := C
      simp only at h ⊢
      generalize inline_completion s3 r = W at h ⊢
      obtain ⟨w, s4⟩ := W
      cases w with
      | none => simp at h
      | some ret1 =>
        simp only at h ⊢
        by_cases hr : ret1 ≠ 0
        · rw [if_pos hr] at h
          simp at h
        · rw [if_neg hr] at h ⊢
          have hnf : ¬ ((no_fault c).FAULT_INJECTION = true ∧
              (inject_fault = INJECT_FAULT_ALL_KEY_LENGHTS ∨
                inject_fault = (t.klen : Int) * 8)) := by
            intro hc
            exact absurd hc.1 (by simp [no_fault])
          have hpf : c.FAULT_INJECTION = true ∧
              (inject_fault = INJECT_FAULT_ALL_KEY_LENGHTS ∨
                inject_fault = (t.klen : Int) * 8) := ⟨hF, hi⟩
          rw [if_neg hnf] at h
          simp only [if_pos hpf]
          by_cases hc : memcmp (s4.xbuf 0) (byteAt t.result) t.rlen ≠ 0
          · rw [if_pos hc] at h
            simp at h
          · have heq := (memcmp_eq_zero_iff _ _ _).1 (not_not.1 hc)
            have hd := store_flip_differ s4.xbuf (byteAt t.result) t.rlen hn heq
            rw [← memcmp_ne_zero_iff] at hd
            rw [if_pos hd]
            exact ⟨_, rfl⟩

theorem cprng_vec_fault {σ : Type} (E : Env σ) (c : Config) (tfm : crypto_rng)
    (inject_fault : Int) (i : Nat) (t : moto_cprng_testvec) (seed seed1 : Nat → Nat)
    (s s1 : State σ) (hF : c.FAULT_INJECTION = true) (hi : inject_fault ≠ 0)
    (hn : 1 ≤ t.rlen)
    (h : cprng_vec E (no_fault c) tfm inject_fault i t seed s = (none, seed1, s1)) :
    ∃ seed2 s2, cprng_vec E c tfm inject_fault i t seed s
      = (some (-EINVAL), seed2, s2) := by
  rw [cprng_vec_unfold] at h ⊢
  generalize E.crypto_rng_reset s.env tfm ((List.range tfm.seedsize).map (cprng_seed t seed))
    tfm.seedsize = R at h ⊢
  obtain ⟨err, e⟩ := R
  simp only at h ⊢
  by_cases h0 : err ≠ 0
  · rw [if_pos h0] at h
    simp at h
  · rw [if_neg h0] at h ⊢
    generalize cprng_get_loop E tfm i t.rlen t.loops (fun _ => 0)
      { s with env := e,
               trace := s.trace ++ [.rng_reset i
                 ((List.range tfm.seedsize).map (cprng_seed t seed)) tfm.seedsize err] } = G
      at h ⊢
    obtain ⟨g, result, s2⟩ := G
    cases g with
    | some err1 => simp at h
    | none =>
      simp only at h ⊢
      have hnf : ¬ ((no_fault c).FAULT_INJECTION = true ∧ inject_fault ≠ 0) := by
        intro hc
        exact absurd hc.1 (by simp [no_fault])
      have hpf : c.FAULT_INJECTION = true ∧ inject_fault ≠ 0 := ⟨hF, hi⟩
      rw [if_neg hnf] at h
      simp only [if_pos hpf]
      by_cases hc : memcmp result (byteAt t.result) t.rlen ≠ 0
      · rw [if_pos hc] at h
        simp at h
      · have heq := (memcmp_eq_zero_iff _ _ _).1 (not_not.1 hc)
        have hd := flip_first_differ result (byteAt t.result) t.rlen hn heq
        rw [← memcmp_ne_zero_iff] at hd
        rw [if_pos hd]
        exact ⟨_, _, rfl⟩

/-! ## The comparison detects the injected fault (C15) -/

/-- C15.  In a build with fault injection, for a vector whose operations succeeded with an
output equal to the expected output over the compared length `n ≥ 1`, the statement
`result[0] ^= 0xff` (hash with `inject_fault` non-zero, RNG with `inject_fault`
non-zero) or `q[0] ^= 0xff` (cipher with selector `-1` or `8 * klen`) makes the
comparison give a non-zero value: the vector's processing leaves through `out` with
`-EINVAL`, and a run that has reached the vector returns `-EINVAL`. -/
theorem fault_injection_detected {σ : Type} (E : Env σ) (c : Config)
    (hF : c.FAULT_INJECTION = true) :
    (∀ (tfm : crypto_ahash) (use_digest : Bool) (inject_fault : Int) (i : Nat)
      (t : moto_hash_testvec) (s s2 s3 : State σ) (result : Nat → Nat),
      inject_fault ≠ 0 → 1 ≤ tfm.digestsize →
      hash_setkey E tfm i t
        { s with xbuf := s.xbuf.memcpy 0 0 (byteAt t.plaintext) t.psize } = (0, s2) →
      hash_compute E tfm use_digest i [⟨0, 0, t.psize⟩] t.psize (fun _ => 0) s2
        = (some 0, result, s3) →
      (∀ j < tfm.digestsize, result j = byteAt t.digest j) →
      memcmp (flip_first result) (byteAt t.digest) tfm.digestsize ≠ 0 ∧
      hash_unchunked_vec E c tfm use_digest inject_fault i t s
        = (.out (-EINVAL),
            s3.log [.memcmp i 0 (memcmp (flip_first result) (byteAt t.digest)
              tfm.digestsize)]) ∧
      (∀ (template : List moto_hash_testvec) (tcount : Nat) (s0 : State σ),
        HashReach1 E c tfm template tcount use_digest inject_fault s0 i s →
        template[i]? = some t → t.np = 0 →
        (moto_test_hash E c tfm template tcount use_digest inject_fault s0).1
          = some (-EINVAL))) ∧
    (∀ (tfm : crypto_ablkcipher) (enc : Int) (inject_fault : Int) (i : Nat)
      (t : moto_cipher_testvec) (s s2 s3 s4 : State σ) (r : OpResult),
      (inject_fault = INJECT_FAULT_ALL_KEY_LENGHTS ∨ inject_fault = (t.klen : Int) * 8) →
      1 ≤ t.rlen → ¬ t.ilen > PAGE_SIZE c →
      skcipher_setkey E tfm i t
        { s with xbuf := s.xbuf.memcpy 0 0 (byteAt t.input) t.ilen } = (0, s2) →
      t.fail ≠ 1 →
      skcipher_call E tfm enc i [⟨0, 0, t.ilen⟩] t.ilen (vec_iv c t) s2 = (r, s3) →
      inline_completion s3 r = (some 0, s4) →
      (∀ j < t.rlen, s4.xbuf 0 j = byteAt t.result j) →
      memcmp ((s4.xbuf.store 0 0 (s4.xbuf 0 0 ^^^ 0xff)) 0) (byteAt t.result) t.rlen ≠ 0 ∧
      (skcipher_unchunked_vec E c tfm enc inject_fault i t s).1 = .out (-EINVAL) ∧
      (∀ (template : List moto_cipher_testvec) (tcount : Nat) (s0 : State σ),
        SkReach1 E c tfm enc template tcount inject_fault s0 i s →
        template[i]? = some t → t.np = 0 →
        (moto_test_skcipher E c tfm enc template tcount inject_fault s0).1
          = some (-EINVAL))) ∧
    (∀ (tfm : crypto_rng) (inject_fault : Int) (i : Nat) (t : moto_cprng_testvec)
      (seed : Nat → Nat) (s s2 : State σ) (e : σ) (result : Nat → Nat),
      inject_fault ≠ 0 → 1 ≤ t.rlen →
      E.crypto_rng_reset s.env tfm ((List.range tfm.seedsize).map (cprng_seed t seed))
        tfm.seedsize = (0, e) →
      cprng_get_loop E tfm i t.rlen t.loops (fun _ => 0)
        { s with env := e,
                 trace := s.trace ++ [.rng_reset i
                   ((List.range tfm.seedsize).map (cprng_seed t seed)) tfm.seedsize 0] }
        = (none, result, s2) →
      (∀ j < t.rlen, result j = byteAt t.result j) →
      memcmp (flip_first result) (byteAt t.result) t.rlen ≠ 0 ∧
      (cprng_vec E c tfm inject_fault i t seed s).1 = some (-EINVAL) ∧
      (∀ (template : List moto_cprng_testvec) (tcount : Nat) (s0 : State σ),
        CprngReach E c tfm template tcount inject_fault s0 i seed s →
        template[i]? = some t →
        (moto_test_cprng E c tfm template tcount inject_fault s0).1 = some (-EINVAL))) := by
  refine ⟨?_, ?_, ?_⟩
  · intro tfm use_digest inject_fault i t s s2 s3 result hi hn hk hc heq
    have hd := flip_first_differ result (byteAt t.digest) tfm.digestsize hn heq
    rw [← memcmp_ne_zero_iff] at hd
    have hv := hash_unchunked_vec_ok E c tfm use_digest inject_fault i t s s2 s3 result hk hc
    have hpf : c.FAULT_INJECTION = true ∧ inject_fault ≠ 0 := ⟨hF, hi⟩
    simp only [if_pos hpf] at hv
    rw [if_pos hd] at hv
    refine ⟨hd, hv, ?_⟩
    intro template tcount s0 hreach ht hnp
    rw [hash_reach1_exit E c tfm template tcount use_digest inject_fault s0 s _ i t _
      hreach ht hnp hv]
  · intro tfm enc inject_fault i t s s2 s3 s4 r hi hn hg hk hf hc hw heq
    have hd := store_flip_differ s4.xbuf (byteAt t.result) t.rlen hn heq
    rw [← memcmp_ne_zero_iff] at hd
    have hv := skcipher_unchunked_vec_ok E c tfm enc inject_fault i t s s2 s3 s4 r hg hk hf
      hc hw
    have hpf : c.FAULT_INJECTION = true ∧
        (inject_fault = INJECT_FAULT_ALL_KEY_LENGHTS ∨
          inject_fault = (t.klen : Int) * 8) := ⟨hF, hi⟩
    simp only [if_pos hpf] at hv
    rw [if_pos hd] at hv
    refine ⟨hd, by rw [hv], ?_⟩
    intro template tcount s0 hreach ht hnp
    rw [sk_reach1_exit E c tfm enc template tcount inject_fault s0 s _ i t _
      hreach ht hnp hv]
  · intro tfm inject_fault i t seed s s2 e result hi hn hr hg heq
    have hd := flip_first_differ result (byteAt t.result) t.rlen hn heq
    rw [← memcmp_ne_zero_iff] at hd
    have hv := cprng_vec_ok E c tfm inject_fault i t seed s s2 e result hr hg
    have hpf : c.FAULT_INJECTION = true ∧ inject_fault ≠ 0 := ⟨hF, hi⟩
    simp only [if_pos hpf] at hv
    rw [if_pos hd] at hv
    refine ⟨hd, by rw [hv], ?_⟩
    intro template tcount s0 hreach ht
    rw [cprng_reach_exit E c tfm template tcount inject_fault s0 s _ i seed _ t _
      hreach ht hv]

/-- Witness for C15: in the sample build with fault injection, tables of one vector whose
expected output is what the sample provider produces: each runner returns `-EINVAL`. -/
theorem fault_injection_detected_witness :
    fault_config.FAULT_INJECTION = true ∧
    (moto_test_hash (sample_env 0 none) fault_config ⟨0, 20⟩ [zero_digest_vec] 1 true 1
      sample_state).1 = some (-EINVAL) ∧
    (moto_test_skcipher (sample_env 0 none) fault_config ⟨0⟩ ENCRYPT [sample_ok_vec] 1 24
      sample_state).1 = some (-EINVAL) ∧
    (moto_test_cprng (sample_env 0 none) fault_config ⟨0, 48⟩ [sample_rng_vec] 1 1
      sample_state).1 = some (-EINVAL) := by
  have h := fault_injection_detected (sample_env 0 none) fault_config rfl
  refine ⟨rfl, ?_, ?_, ?_⟩
  · exact (h.1 ⟨0, 20⟩ true 1 0 zero_digest_vec _ _ _ (fun _ => 0) (by decide) (by decide)
      rfl rfl (by intro j _; simp [zero_digest_vec, byteAt])).2.2 [zero_digest_vec] 1
      sample_state ⟨by decide, _, (), rfl, rfl, rfl⟩ rfl rfl
  · exact (h.2.1 ⟨0⟩ ENCRYPT 24 0 sample_ok_vec _ _ _ _ ⟨0, [], 0⟩ (by decide) (by decide)
      (by decide) rfl (by decide) rfl rfl (by decide)).2.2 [sample_ok_vec] 1
      sample_state ⟨by decide, _, (), rfl, rfl, rfl⟩ rfl rfl
  · exact (h.2.2 ⟨0, 48⟩ 1 0 sample_rng_vec (fun _ => 0) _ _ () (fun _ => 0) (by decide)
      (by decide) rfl rfl (by intro j _; simp [sample_rng_vec, byteAt])).2.2
      [sample_rng_vec] 1 sample_state ⟨by decide, _, (), rfl, rfl⟩ rfl

/-! ## Enabled fault injection and the status of a run (C16) -/

/-- C16, counterexample.  In the sample build with fault injection, with fault injection
enabled for the run, each of these runs returns `0`: `moto_test_hash` on an empty table;
`moto_test_hash` on a table of one chunked vector whose digest the provider produces
(the chunked loop injects no fault); `moto_test_skcipher` with the selector `128` on a
table of one vector with a 3-byte key (`8 * klen` is 24) whose result the provider
produces; `moto_test_cprng` on an empty table. -/
theorem fault_injection_counterexample :
    fault_config.FAULT_INJECTION = true ∧
    (moto_test_hash (sample_env 0 none) fault_config ⟨0, 20⟩ [] 0 true 1
      sample_state).1 = some 0 ∧
    (moto_test_hash (sample_env 0 none) fault_config ⟨0, 20⟩ [zero_digest_chunk_vec] 1 true 1
      sample_state).1 = some 0 ∧
    (moto_test_skcipher (sample_env 0 none) fault_config ⟨0⟩ ENCRYPT [sample_ok_vec] 1 128
      sample_state).1 = some 0 ∧
    (moto_test_cprng (sample_env 0 none) fault_config ⟨0, 48⟩ [] 0 1
      sample_state).1 = some 0 := by
  decide

/-- C16, amended.  In a build with fault injection, when fault injection is enabled for a
run and the run reaches a vector to which the injection applies (an unchunked hash vector
with `inject_fault` non-zero; an unchunked cipher vector without expect-rejection flag
whose key length the selector matches, or any with selector `-1`; an RNG vector with
`inject_fault` non-zero), with a compared length of at least one byte, and the
processing of that vector without fault injection passes (goes on to the next vector),
then the runner returns `-EINVAL`, a non-zero status.  The vectors of the chunked loops,
and the unchunked cipher vectors whose key length the selector does not match, are
processed exactly as in a build without fault injection. -/
theorem fault_injection_fails_run {σ : Type} (E : Env σ) (c : Config)
    (hF : c.FAULT_INJECTION = true) :
    (∀ (tfm : crypto_ahash) (use_digest : Bool) (inject_fault : Int)
      (template : List moto_hash_testvec) (tcount : Nat) (s0 si s1 : State σ) (i : Nat)
      (t : moto_hash_testvec),
      inject_fault ≠ 0 → 1 ≤ tfm.digestsize →
      HashReach1 E c tfm template tcount use_digest inject_fault s0 i si →
      template[i]? = some t → t.np = 0 →
      hash_unchunked_vec E (no_fault c) tfm use_digest inject_fault i t si = (.next, s1) →
      (moto_test_hash E c tfm template tcount use_digest inject_fault s0).1
          = some (-EINVAL) ∧
        (moto_test_hash E c tfm template tcount use_digest inject_fault s0).1 ≠ some 0) ∧
    (∀ (tfm : crypto_ablkcipher) (enc : Int) (inject_fault : Int)
      (template : List moto_cipher_testvec) (tcount : Nat) (s0 si s1 : State σ) (i : Nat)
      (t : moto_cipher_testvec),
      (inject_fault = INJECT_FAULT_ALL_KEY_LENGHTS ∨ inject_fault = (t.klen : Int) * 8) →
      1 ≤ t.rlen → t.fail = 0 →
      SkReach1 E c tfm enc template tcount inject_fault s0 i si →
      template[i]? = some t → t.np = 0 →
      skcipher_unchunked_vec E (no_fault c) tfm enc inject_fault i t si = (.next, s1) →
      (moto_test_skcipher E c tfm enc template tcount inject_fault s0).1
          = some (-EINVAL) ∧
        (moto_test_skcipher E c tfm enc template tcount inject_fault s0).1 ≠ some 0) ∧
    (∀ (tfm : crypto_rng) (inject_fault : Int) (template : List moto_cprng_testvec)
      (tcount : Nat) (s0 si s1 : State σ) (i : Nat) (seed seed1 : Nat → Nat)
      (t : moto_cprng_testvec),
      inject_fault ≠ 0 → 1 ≤ t.rlen →
      CprngReach E c tfm template tcount inject_fault s0 i seed si →
      template[i]? = some t →
      cprng_vec E (no_fault c) tfm inject_fault i t seed si = (none, seed1, s1) →
      (moto_test_cprng E c tfm template tcount inject_fault s0).1 = some (-EINVAL) ∧
        (moto_test_cprng E c tfm template tcount inject_fault s0).1 ≠ some 0) ∧
    (∀ (tfm : crypto_ahash) (i : Nat) (t : moto_hash_testvec) (s : State σ),
      hash_chunked_vec E c tfm i t s = hash_chunked_vec E (no_fault c) tfm i t s) ∧
    (∀ (tfm : crypto_ablkcipher) (enc : Int) (i : Nat) (t : moto_cipher_testvec)
      (s : State σ),
      skcipher_chunked_vec E c tfm enc i t s
        = skcipher_chunked_vec E (no_fault c) tfm enc i t s) ∧
    (∀ (tfm : crypto_ablkcipher) (enc : Int) (inject_fault : Int) (i : Nat)
      (t : moto_cipher_testvec) (s : State σ),
      inject_fault ≠ INJECT_FAULT_ALL_KEY_LENGHTS → inject_fault ≠ (t.klen : Int) * 8 →
      skcipher_unchunked_vec E c tfm enc inject_fault i t s
        = skcipher_unchunked_vec E (no_fault c) tfm enc inject_fault i t s) := by
  have hne : some (-EINVAL) ≠ (some 0 : Option Int) := by decide
  refine ⟨?_, ?_, ?_, ?_, ?_, ?_⟩
  · intro tfm use_digest inject_fault template tcount s0 si s1 i t hi hn hreach ht hnp hv
    obtain ⟨s2, hv2⟩ := hash_unchunked_fault E c tfm use_digest inject_fault i t si s1 hF hi
      hn hv
    have hrun := hash_reach1_exit E c tfm template tcount use_digest inject_fault s0 si s2 i
      t _ hreach ht hnp hv2
    rw [hrun]
    exact ⟨rfl, hne⟩
  · intro tfm enc inject_fault template tcount s0 si s1 i t hi hn hfail hreach ht hnp hv
    obtain ⟨s2, hv2⟩ := skcipher_unchunked_fault E c tfm enc inject_fault i t si s1 hF hi
      hn hfail hv
    have hrun := sk_reach1_exit E c tfm enc template tcount inject_fault s0 si s2 i
      t _ hreach ht hnp hv2
    rw [hrun]
    exact ⟨rfl, hne⟩
  · intro tfm inject_fault template tcount s0 si s1 i seed seed1 t hi hn hreach ht hv
    obtain ⟨seed2, s2, hv2⟩ := cprng_vec_fault E c tfm inject_fault i t seed seed1 si s1 hF
      hi hn hv
    have hrun := cprng_reach_exit E c tfm template tcount inject_fault s0 si s2 i seed seed2
      t _ hreach ht hv2
    rw [hrun]
    exact ⟨rfl, hne⟩
  · intro tfm i t s
    exact (hash_chunked_no_fault E c tfm i t s).symm
  · intro tfm enc i t s
    exact (skcipher_chunked_no_fault E c tfm enc i t s).symm
  · intro tfm enc inject_fault i t s h1 h2
    refine (skcipher_unchunked_no_fault E c tfm enc inject_fault i t s ?_).symm
    rintro ⟨_, h | h⟩
    · exact h1 h
    · exact h2 h

/-- Witness for C16 (amended): in the sample build with fault injection, a table of one
unchunked hash vector that passes without fault injection fails with `-EINVAL` when
`inject_fault` is `1`. -/
theorem fault_injection_fails_run_witness :
    fault_config.FAULT_INJECTION = true ∧
    (moto_test_hash (sample_env 0 none) (no_fault fault_config) ⟨0, 20⟩ [zero_digest_vec] 1
      true 1 sample_state).1 = some 0 ∧
    (moto_test_hash (sample_env 0 none) fault_config ⟨0, 20⟩ [zero_digest_vec] 1 true 1
      sample_state).1 = some (-EINVAL) :=
  ⟨rfl, by decide,
    ((fault_injection_fails_run (sample_env 0 none) fault_config rfl).1 ⟨0, 20⟩ true 1
      [zero_digest_vec] 1 sample_state _ _ 0 zero_digest_vec (by decide) (by decide)
      ⟨by decide, _, (), rfl, rfl, rfl⟩ rfl rfl rfl).1⟩

/-! ## No fault injection configured (C17) -/

theorem hash_pass1_no_fault {σ : Type} (E : Env σ) (c : Config) (tfm : crypto_ahash)
    (template : List moto_hash_testvec) (use_digest : Bool) (inject_fault : Int)
    (h : ¬ (c.FAULT_INJECTION = true ∧ inject_fault ≠ 0)) :
    ∀ (n i : Nat) (s : State σ),
      hash_pass1 E (no_fault c) tfm template use_digest inject_fault n i s
        = hash_pass1 E c tfm template use_digest inject_fault n i s := by
  intro n
  induction n with
  | zero => intro i s; rfl
  | succ n ih =>
    intro i s
    simp only [hash_pass1]
    cases template[i]? with
    | none => rfl
    | some t =>
      simp only [hash_unchunked_no_fault E c tfm use_digest inject_fault i t s h, ih]

theorem hash_pass2_no_fault {σ : Type} (E : Env σ) (c : Config) (tfm : crypto_ahash)
    (template : List moto_hash_testvec) :
    ∀ (n i : Nat) (s : State σ),
      hash_pass2 E (no_fault c) tfm template n i s = hash_pass2 E c tfm template n i s := by
  intro n
  induction n with
  | zero => intro i s; rfl
  | succ n ih =>
    intro i s
    simp only [hash_pass2]
    cases template[i]? with
    | none => rfl
    | some t =>
      simp only [hash_chunked_no_fault E c tfm i t s, ih]

theorem moto_test_hash_no_fault {σ : Type} (E : Env σ) (c : Config) (tfm : crypto_ahash)
    (template : List moto_hash_testvec) (tcount : Nat) (use_digest : Bool)
    (inject_fault : Int) (s : State σ)
    (h : ¬ (c.FAULT_INJECTION = true ∧ inject_fault ≠ 0)) :
    moto_test_hash E (no_fault c) tfm template tcount use_digest inject_fault s
      = moto_test_hash E c tfm template tcount use_digest inject_fault s := by
  unfold moto_test_hash
  simp only [hash_pass1_no_fault E c tfm template use_digest inject_fault h,
    hash_pass2_no_fault]

theorem skcipher_pass1_no_fault {σ : Type} (E : Env σ) (c : Config)
    (tfm : crypto_ablkcipher) (enc : Int) (template : List moto_cipher_testvec)
    (inject_fault : Int)
    (h : ∀ t ∈ template, t.np = 0 → ¬ (c.FAULT_INJECTION = true ∧
      (inject_fault = INJECT_FAULT_ALL_KEY_LENGHTS ∨ inject_fault = (t.klen : Int) * 8))) :
    ∀ (n i : Nat) (s : State σ),
      skcipher_pass1 E (no_fault c) tfm enc template inject_fault n i s
        = skcipher_pass1 E c tfm enc template inject_fault n i s := by
  intro n
  induction n with
  | zero => intro i s; rfl
  | succ n ih =>
    intro i s
    simp only [skcipher_pass1]
    cases ht : template[i]? with
    | none => rfl
    | some t =>
      simp only
      by_cases hnp : t.np = 0
      · rw [if_pos hnp, if_pos hnp,
          skcipher_unchunked_no_fault E c tfm enc inject_fault i t s
            (h t (List.getElem?_mem ht) hnp)]
        simp only [ih]
      · rw [if_neg hnp, if_neg hnp, ih]

theorem skcipher_pass2_no_fault {σ : Type} (E : Env σ) (c : Config)
    (tfm : crypto_ablkcipher) (enc : Int) (template : List moto_cipher_testvec) :
    ∀ (n i : Nat) (s : State σ),
      skcipher_pass2 E (no_fault c) tfm enc template n i s
        = skcipher_pass2 E c tfm enc template n i s := by
  intro n
  induction n with
  | zero => intro i s; rfl
  | succ n ih =>
    intro i s
    simp only [skcipher_pass2]
    cases template[i]? with
    | none => rfl
    | some t =>
      simp only [skcipher_chunked_no_fault E c tfm enc i t s, ih]

theorem moto_test_skcipher_no_fault {σ : Type} (E : Env σ) (c : Config)
    (tfm : crypto_ablkcipher) (enc : Int) (template : List moto_cipher_testvec)
    (tcount : Nat) (inject_fault : Int) (s : State σ)
    (h : ∀ t ∈ template, t.np = 0 → ¬ (c.FAULT_INJECTION = true ∧
      (inject_fault = INJECT_FAULT_ALL_KEY_LENGHTS ∨ inject_fault = (t.klen : Int) * 8))) :
    moto_test_skcipher E (no_fault c) tfm enc template tcount inject_fault s
      = moto_test_skcipher E c tfm enc template tcount inject_fault s := by
  unfold moto_test_skcipher
  simp only [skcipher_pass1_no_fault E c tfm enc template inject_fault h,
    skcipher_pass2_no_fault]

theorem cprng_loop_no_fault {σ : Type} (E : Env σ) (c : Config) (tfm : crypto_rng)
    (template : List moto_cprng_testvec) (inject_fault : Int)
    (h : ¬ (c.FAULT_INJECTION = true ∧ inject_fault ≠ 0)) :
    ∀ (n i : Nat) (err : Int) (seed : Nat → Nat) (s : State σ),
      cprng_loop E (no_fault c) tfm template inject_fault n i err seed s
        = cprng_loop E c tfm template inject_fault n i err seed s := by
  intro n
  induction n with
  | zero => intro i err seed s; rfl
  | succ n ih =>
    intro i err seed s
    simp only [cprng_loop]
    cases template[i]? with
    | none => rfl
    | some t =>
      simp only [cprng_vec_no_fault E c tfm inject_fault i t seed s h, ih]

theorem moto_test_cprng_no_fault {σ : Type} (E : Env σ) (c : Config) (tfm : crypto_rng)
    (template : List moto_cprng_testvec) (tcount : Nat) (inject_fault : Int) (s : State σ)
    (h : ¬ (c.FAULT_INJECTION = true ∧ inject_fault ≠ 0)) :
    moto_test_cprng E (no_fault c) tfm template tcount inject_fault s
      = moto_test_cprng E c tfm template tcount inject_fault s := by
  unfold moto_test_cprng
  simp only [cprng_loop_no_fault E c tfm template inject_fault h]

theorem simple_inject_fault_zero (c : Config) (desc : moto_alg_test_desc)
    (h : c.fault_injection_mask = 0 ∨ c.FAULT_INJECTION = false) :
    simple_inject_fault c desc = 0 := by
  unfold simple_inject_fault
  rw [if_neg]
  rintro ⟨hF, hm⟩
  rcases h with h | h
  · rw [h, Nat.zero_and] at hm
    exact hm rfl
  · rw [h] at hF
    exact absurd hF (by decide)

theorem mask_has_zero (c : Config) (a : MOTO_CRYPTO_ALG) (h : c.fault_injection_mask = 0) :
    mask_has c a = false := by
  unfold mask_has
  rw [h, Nat.zero_and]
  decide

theorem skcipher_inject_fault_zero (c : Config) (desc : moto_alg_test_desc)
    (driver : List Nat) (h : c.fault_injection_mask = 0 ∨ c.FAULT_INJECTION = false) :
    skcipher_inject_fault c desc driver = 0 := by
  unfold skcipher_inject_fault
  rcases h with h | h
  · have h0 : ¬ (c.fault_injection_mask &&& alg_id_value c desc.alg_id ≠ 0) := by
      rw [h, Nat.zero_and]
      exact fun hc => hc rfl
    simp only [aes_fault_select, mask_has_zero c _ h, if_neg h0, Bool.false_eq_true, if_false,
      ite_self]
  · rw [h]
    rfl

theorem registry_klen :
    ∀ d ∈ moto_alg_test_descs,
      (∀ vecs, d.cipher.enc.vecs = some vecs → ∀ t ∈ vecs, t.klen ≠ 0) ∧
      (∀ vecs, d.cipher.dec.vecs = some vecs → ∀ t ∈ vecs, t.klen ≠ 0) := by
  decide

theorem klen_no_fault (c : Config) (vecs : List moto_cipher_testvec)
    (h : ∀ t ∈ vecs, t.klen ≠ 0) :
    ∀ t ∈ vecs, t.np = 0 → ¬ (c.FAULT_INJECTION = true ∧
      ((0 : Int) = INJECT_FAULT_ALL_KEY_LENGHTS ∨ (0 : Int) = (t.klen : Int) * 8)) := by
  intro t ht _ hc
  rcases hc.2 with h1 | h1
  · exact absurd h1 (by decide)
  · have := h t ht
    omega

theorem alg_test_hash_no_fault {σ : Type} (E : Env σ) (c : Config)
    (desc : moto_alg_test_desc) (driver : List Nat) (type mask : Nat) (s : State σ)
    (h : c.fault_injection_mask = 0) :
    moto_alg_test_hash E (no_fault c) desc driver type mask s
      = moto_alg_test_hash E c desc driver type mask s := by
  unfold moto_alg_test_hash
  rw [simple_inject_fault_zero c desc (Or.inl h),
    simple_inject_fault_zero (no_fault c) desc (Or.inr rfl)]
  have h0 : ¬ (c.FAULT_INJECTION = true ∧ (0 : Int) ≠ 0) := fun hc => hc.2 rfl
  simp only [moto_test_hash_no_fault E c _ _ _ _ 0 _ h0]

theorem alg_test_cprng_no_fault {σ : Type} (E : Env σ) (c : Config)
    (desc : moto_alg_test_desc) (driver : List Nat) (type mask : Nat) (s : State σ)
    (h : c.fault_injection_mask = 0) :
    moto_alg_test_cprng E (no_fault c) desc driver type mask s
      = moto_alg_test_cprng E c desc driver type mask s := by
  unfold moto_alg_test_cprng
  rw [simple_inject_fault_zero c desc (Or.inl h),
    simple_inject_fault_zero (no_fault c) desc (Or.inr rfl)]
  have h0 : ¬ (c.FAULT_INJECTION = true ∧ (0 : Int) ≠ 0) := fun hc => hc.2 rfl
  simp only [moto_test_cprng_no_fault E c _ _ _ 0 _ h0]

theorem alg_test_skcipher_no_fault {σ : Type} (E : Env σ) (c : Config)
    (desc : moto_alg_test_desc) (driver : List Nat) (type mask : Nat) (s : State σ)
    (h : c.fault_injection_mask = 0)
    (he : ∀ vecs, desc.cipher.enc.vecs = some vecs → ∀ t ∈ vecs, t.klen ≠ 0)
    (hd : ∀ vecs, desc.cipher.dec.vecs = some vecs → ∀ t ∈ vecs, t.klen ≠ 0) :
    moto_alg_test_skcipher E (no_fault c) desc driver type mask s
      = moto_alg_test_skcipher E c desc driver type mask s := by
  unfold moto_alg_test_skcipher
  rw [skcipher_inject_fault_zero c desc driver (Or.inl h),
    skcipher_inject_fault_zero (no_fault c) desc driver (Or.inr rfl)]
  cases hev : desc.cipher.enc.vecs with
  | none =>
    cases hdv : desc.cipher.dec.vecs with
    | none => rfl
    | some dv =>
      simp only [moto_test_skcipher_no_fault E c _ _ dv _ 0 _ (klen_no_fault c dv (hd dv hdv))]
  | some ev =>
    cases hdv : desc.cipher.dec.vecs with
    | none =>
      simp only [moto_test_skcipher_no_fault E c _ _ ev _ 0 _ (klen_no_fault c ev (he ev hev))]
    | some dv =>
      simp only [moto_test_skcipher_no_fault E c _ _ ev _ 0 _ (klen_no_fault c ev (he ev hev)),
        moto_test_skcipher_no_fault E c _ _ dv _ 0 _ (klen_no_fault c dv (hd dv hdv))]

theorem run_entry_no_fault {σ : Type} (E : Env σ) (c : Config) (i : Nat)
    (driver : List Nat) (type mask : Nat) (s : State σ) (h : c.fault_injection_mask = 0) :
    run_entry E (no_fault c) i driver type mask s = run_entry E c i driver type mask s := by
  unfold run_entry
  cases hd : moto_alg_test_descs[i]? with
  | none => rfl
  | some desc =>
    have hk := registry_klen desc (List.getElem?_mem hd)
    simp only [alg_test_hash_no_fault E c desc driver type mask _ h,
      alg_test_cprng_no_fault E c desc driver type mask _ h,
      alg_test_skcipher_no_fault E c desc driver type mask _ h hk.1 hk.2]

theorem alg_test_no_fault {σ : Type} (E : Env σ) (c : Config) (driver alg : List Nat)
    (type mask : Nat) (s : State σ) (h : c.fault_injection_mask = 0) :
    moto_alg_test E (no_fault c) driver alg type mask s
      = moto_alg_test E c driver alg type mask s := by
  unfold moto_alg_test
  simp only [run_entry_no_fault E c _ driver type mask _ h]

/-- C17: with fault mask `0` the entry runners compute `inject_fault = 0`, and no runner
alters the provider's output before the comparison.  With `inject_fault = 0` the value
compared for a hash vector is the result buffer the digest operations left, for a cipher
vector with non-zero `klen` the scratch page the cipher operation left, for an RNG vector
the result buffer the last `crypto_rng_get_bytes` call left.  Every vector of every
cipher table of the registry has a non-zero `klen`, and the registry tables are the only
ones the entry runners hand to `moto_test_skcipher`.  The hash and RNG runners, the
cipher runner on a table of vectors with non-zero `klen`, and `moto_alg_test` (which runs
registry tables only) behave exactly as in a build without fault injection. -/
theorem no_fault_configured {σ : Type} (E : Env σ) (c : Config)
    (hmask : c.fault_injection_mask = 0) :
    (∀ (desc : moto_alg_test_desc) (driver : List Nat),
      simple_inject_fault c desc = 0 ∧ skcipher_inject_fault c desc driver = 0) ∧
    (∀ (tfm : crypto_ahash) (use_digest : Bool) (i : Nat) (t : moto_hash_testvec)
      (s s2 s3 : State σ) (result : Nat → Nat),
      hash_setkey E tfm i t
        { s with xbuf := s.xbuf.memcpy 0 0 (byteAt t.plaintext) t.psize } = (0, s2) →
      hash_compute E tfm use_digest i [⟨0, 0, t.psize⟩] t.psize (fun _ => 0) s2
        = (some 0, result, s3) →
      hash_unchunked_vec E c tfm use_digest 0 i t s =
        if memcmp result (byteAt t.digest) tfm.digestsize ≠ 0
        then (.out (-EINVAL),
          s3.log [.memcmp i 0 (memcmp result (byteAt t.digest) tfm.digestsize)])
        else (.next,
          s3.log [.memcmp i 0 (memcmp result (byteAt t.digest) tfm.digestsize)])) ∧
    (∀ (tfm : crypto_ablkcipher) (enc : Int) (i : Nat) (t : moto_cipher_testvec)
      (s s2 s3 s4 : State σ) (r : OpResult),
      t.klen ≠ 0 → ¬ t.ilen > PAGE_SIZE c →
      skcipher_setkey E tfm i t
        { s with xbuf := s.xbuf.memcpy 0 0 (byteAt t.input) t.ilen } = (0, s2) →
      t.fail ≠ 1 →
      skcipher_call E tfm enc i [⟨0, 0, t.ilen⟩] t.ilen (vec_iv c t) s2 = (r, s3) →
      inline_completion s3 r = (some 0, s4) →
      skcipher_unchunked_vec E c tfm enc 0 i t s =
        if memcmp (s4.xbuf 0) (byteAt t.result) t.rlen ≠ 0
        then (.out (-EINVAL),
          s4.log [.memcmp i 0 (memcmp (s4.xbuf 0) (byteAt t.result) t.rlen)])
        else (.next,
          s4.log [.memcmp i 0 (memcmp (s4.xbuf 0) (byteAt t.result) t.rlen)])) ∧
    (∀ (tfm : crypto_rng) (i : Nat) (t : moto_cprng_testvec) (seed : Nat → Nat)
      (s s2 : State σ) (e : σ) (result : Nat → Nat),
      E.crypto_rng_reset s.env tfm ((List.range tfm.seedsize).map (cprng_seed t seed))
        tfm.seedsize = (0, e) →
      cprng_get_loop E tfm i t.rlen t.loops (fun _ => 0)
        { s with env := e,
                 trace := s.trace ++ [.rng_reset i
                   ((List.range tfm.seedsize).map (cprng_seed t seed)) tfm.seedsize 0] }
        = (none, result, s2) →
      cprng_vec E c tfm 0 i t seed s =
        if memcmp result (byteAt t.result) t.rlen ≠ 0
        then (some (-EINVAL), cprng_seed t seed,
          s2.log [.memcmp i 0 (memcmp result (byteAt t.result) t.rlen)])
        else (none, cprng_seed t seed,
          s2.log [.memcmp i 0 (memcmp result (byteAt t.result) t.rlen)])) ∧
    (∀ (tfm : crypto_ahash) (template : List moto_hash_testvec) (tcount : Nat)
      (use_digest : Bool) (s : State σ),
      moto_test_hash E c tfm template tcount use_digest 0 s
        = moto_test_hash E (no_fault c) tfm template tcount use_digest 0 s) ∧
    (∀ (tfm : crypto_ablkcipher) (enc : Int) (template : List moto_cipher_testvec)
      (tcount : Nat) (s : State σ),
      (∀ t ∈ template, t.klen ≠ 0) →
      moto_test_skcipher E c tfm enc template tcount 0 s
        = moto_test_skcipher E (no_fault c) tfm enc template tcount 0 s) ∧
    (∀ (tfm : crypto_rng) (template : List moto_cprng_testvec) (tcount : Nat)
      (s : State σ),
      moto_test_cprng E c tfm template tcount 0 s
        = moto_test_cprng E (no_fault c) tfm template tcount 0 s) ∧
    (∀ d ∈ moto_alg_test_descs,
      (∀ vecs, d.cipher.enc.vecs = some vecs → ∀ t ∈ vecs, t.klen ≠ 0) ∧
      (∀ vecs, d.cipher.dec.vecs = some vecs → ∀ t ∈ vecs, t.klen ≠ 0)) ∧
    (∀ (driver alg : List Nat) (type mask : Nat) (s : State σ),
      moto_alg_test E c driver alg type mask s
        = moto_alg_test E (no_fault c) driver alg type mask s) := by
  have h0 : ¬ (c.FAULT_INJECTION = true ∧ (0 : Int) ≠ 0) := fun hc => hc.2 rfl
  refine ⟨?_, ?_, ?_, ?_, ?_, ?_, ?_, registry_klen, ?_⟩
  · intro desc driver
    exact ⟨simple_inject_fault_zero c desc (Or.inl hmask),
      skcipher_inject_fault_zero c desc driver (Or.inl hmask)⟩
  · intro tfm use_digest i t s s2 s3 result hk hc
    rw [hash_unchunked_vec_ok E c tfm use_digest 0 i t s s2 s3 result hk hc]
    simp only [if_neg h0]
  · intro tfm enc i t s s2 s3 s4 r hklen hg hk hf hc hw
    rw [skcipher_unchunked_vec_ok E c tfm enc 0 i t s s2 s3 s4 r hg hk hf hc hw]
    have h1 : ¬ (c.FAULT_INJECTION = true ∧
        ((0 : Int) = INJECT_FAULT_ALL_KEY_LENGHTS ∨ (0 : Int) = (t.klen : Int) * 8)) := by
      intro hc
      rcases hc.2 with h1 | h1
      · exact absurd h1 (by decide)
      · omega
    simp only [if_neg h1]
    rfl
  · intro tfm i t seed s s2 e result hr hg
    rw [cprng_vec_ok E c tfm 0 i t seed s s2 e result hr hg]
    simp only [if_neg h0]
  · intro tfm template tcount use_digest s
    exact (moto_test_hash_no_fault E c tfm template tcount use_digest 0 s h0).symm
  · intro tfm enc template tcount s hk
    exact (moto_test_skcipher_no_fault E c tfm enc template tcount 0 s
      (klen_no_fault c template hk)).symm
  · intro tfm template tcount s
    exact (moto_test_cprng_no_fault E c tfm template tcount 0 s h0).symm
  · intro driver alg type mask s
    exact (alg_test_no_fault E c driver alg type mask s hmask).symm

/-- Witness for C17: the sample build with fault injection compiled in and fault mask
`0`, testing `sha1` with the sample provider, behaves as the build without fault
injection. -/
theorem no_fault_configured_witness :
    fault_config.FAULT_INJECTION = true ∧ fault_config.fault_injection_mask = 0 ∧
    moto_alg_test (sample_env 0 none) fault_config (ascii "sha1") (ascii "sha1") 0 0
        sample_state
      = moto_alg_test (sample_env 0 none) (no_fault fault_config) (ascii "sha1")
        (ascii "sha1") 0 0 sample_state :=
  ⟨rfl, rfl,
    (no_fault_configured (sample_env 0 none) fault_config rfl).2.2.2.2.2.2.2.2
      (ascii "sha1") (ascii "sha1") 0 0 sample_state⟩

/-- A table outside the registry.  In the sample build with fault injection compiled in
and fault mask `0`, `moto_alg_test_skcipher` computes the selector `0` for every entry and
driver.  With that selector, `moto_test_skcipher` on a table of one unchunked vector with
`klen = 0`, whose expected result the provider produces, takes the branch
`inject_fault == template[i].klen * 8` (`0 == 0`): it flips the first output byte (`0x61`
becomes `0x9e`) and returns `-EINVAL`, where the build without fault injection
returns `0`.  No vector of the registry has `klen = 0`, and `moto_test_skcipher` is static
and called by `moto_alg_test_skcipher` only, so no run of the program reaches this
case. -/
theorem zero_selector_matches_zero_klen :
    fault_config.FAULT_INJECTION = true ∧ fault_config.fault_injection_mask = 0 ∧
    (∀ (desc : moto_alg_test_desc) (driver : List Nat),
      skcipher_inject_fault fault_config desc driver = 0) ∧
    sample_nokey_vec.klen = 0 ∧
    (moto_test_skcipher (sample_env 0 none) fault_config ⟨0⟩ ENCRYPT [sample_nokey_vec] 1 0
      sample_state).1 = some (-EINVAL) ∧
    (moto_test_skcipher (sample_env 0 none) fault_config ⟨0⟩ ENCRYPT [sample_nokey_vec] 1 0
      sample_state).2.xbuf 0 0 = 0x9e ∧
    (moto_test_skcipher (sample_env 0 none) (no_fault fault_config) ⟨0⟩ ENCRYPT
      [sample_nokey_vec] 1 0 sample_state).2.xbuf 0 0 = 0x61 ∧
    (moto_test_skcipher (sample_env 0 none) (no_fault fault_config) ⟨0⟩ ENCRYPT
      [sample_nokey_vec] 1 0 sample_state).1 = some 0 :=
  ⟨rfl, rfl, fun desc driver => skcipher_inject_fault_zero _ desc driver (Or.inl rfl), rfl,
    by decide, by decide, by decide, by decide⟩

/-! ## The comparison loop of the chunked cipher pass (C18, C19) -/

theorem overrun_scan_ge (c : Config) (m : Mem) (q : Ptr) :
    ∀ fuel n, n ≤ overrun_scan c m q fuel n := by
  intro fuel
  induction fuel with
  | zero => intro n; simp [overrun_scan]
  | succ fuel ih =>
    intro n
    simp only [overrun_scan]
    split
    · exact Nat.le_trans (Nat.le_succ n) (ih (n + 1))
    · exact Nat.le_refl n

theorem page_size_pos (c : Config) : 0 < PAGE_SIZE c := by
  unfold PAGE_SIZE
  exact Nat.two_pow_pos _

/-- The scan ends with a non-zero count exactly when the byte right after the chunk lies
in the page (not at a page start) and is non-zero. -/
theorem chunk_overrun_ne_zero (c : Config) (t : moto_cipher_testvec) (m : Mem) (k : Nat) :
    chunk_overrun c t m k ≠ 0 ↔
      (offset_in_page c ((chunk_ptr c k).off + t.tap.getD k 0) ≠ 0 ∧
        m (chunk_ptr c k).buf ((chunk_ptr c k).off + t.tap.getD k 0) ≠ 0) := by
  unfold chunk_overrun
  obtain ⟨f, hf⟩ : ∃ f, PAGE_SIZE c = f + 1 := ⟨PAGE_SIZE c - 1, by
    have := page_size_pos c; omega⟩
  rw [hf]
  simp only [overrun_scan, Nat.add_zero]
  split
  · rename_i h
    constructor
    · intro _; exact h
    · intro _
      have := overrun_scan_ge c m ⟨(chunk_ptr c k).buf, (chunk_ptr c k).off + t.tap.getD k 0⟩
        f (0 + 1)
      omega
  · rename_i h
    constructor
    · intro hc; exact absurd rfl hc
    · intro hc; exact absurd hc h

theorem check_chunks_step (c : Config) (t : moto_cipher_testvec) (i : Nat) (m : Mem)
    (n k : Nat) :
    skcipher_check_chunks c t i m (n + 1) k (chunk_start t.tap k) =
      if chunk_cmp c t m k ≠ 0 then ([.memcmp i k (chunk_cmp c t m k)], true)
      else if chunk_overrun c t m k ≠ 0 then ([.memcmp i k (chunk_cmp c t m k)], true)
      else
        (.memcmp i k (chunk_cmp c t m k) ::
            (skcipher_check_chunks c t i m n (k + 1) (chunk_start t.tap (k + 1))).1,
          (skcipher_check_chunks c t i m n (k + 1) (chunk_start t.tap (k + 1))).2) := by
  rfl

theorem check_chunks_pass (c : Config) (t : moto_cipher_testvec) (i : Nat) (m : Mem) :
    ∀ (n k : Nat),
      (∀ j, k ≤ j → j < k + n → chunk_cmp c t m j = 0 ∧ chunk_overrun c t m j = 0) →
      skcipher_check_chunks c t i m n k (chunk_start t.tap k)
        = (equal_cmp_events i n k, false) := by
  intro n
  induction n with
  | zero => intro k _; rfl
  | succ n ih =>
    intro k h
    rw [check_chunks_step]
    have hk := h k (Nat.le_refl k) (by omega)
    rw [if_neg (not_not.2 hk.1), if_neg (not_not.2 hk.2), hk.1,
      ih (k + 1) (fun j h1 h2 => h j (by omega) (by omega))]
    rfl

theorem equal_cmp_events_succ (i : Nat) : ∀ (n k : Nat),
    equal_cmp_events i (n + 1) k = .memcmp i k 0 :: equal_cmp_events i n (k + 1) := by
  intro n k
  rfl

theorem check_chunks_first (c : Config) (t : moto_cipher_testvec) (i : Nat) (m : Mem) :
    ∀ (d n k : Nat), d < n →
      (∀ j, k ≤ j → j < k + d → chunk_cmp c t m j = 0 ∧ chunk_overrun c t m j = 0) →
      (chunk_cmp c t m (k + d) ≠ 0 ∨ chunk_overrun c t m (k + d) ≠ 0) →
      skcipher_check_chunks c t i m n k (chunk_start t.tap k)
        = (equal_cmp_events i d k ++ [.memcmp i (k + d) (chunk_cmp c t m (k + d))],
            true) := by
  intro d
  induction d with
  | zero =>
    intro n k hd _ hbad
    obtain ⟨n1, rfl⟩ : ∃ n1, n = n1 + 1 := ⟨n - 1, by omega⟩
    rw [check_chunks_step]
    simp only [Nat.add_zero] at hbad ⊢
    by_cases h1 : chunk_cmp c t m k ≠ 0
    · rw [if_pos h1]
      rfl
    · rw [if_neg h1]
      rcases hbad with h | h
      · exact absurd h h1
      · rw [if_pos h]
        rfl
  | succ d ih =>
    intro n k hd h hbad
    obtain ⟨n1, rfl⟩ : ∃ n1, n = n1 + 1 := ⟨n - 1, by omega⟩
    rw [check_chunks_step]
    have hk := h k (Nat.le_refl k) (by omega)
    have e : k + (d + 1) = k + 1 + d := by omega
    rw [e] at hbad ⊢
    rw [if_neg (not_not.2 hk.1), if_neg (not_not.2 hk.2), hk.1,
      ih n1 (k + 1) (by omega) (fun j h1 h2 => h j (by omega) (by omega)) hbad]
    rfl

theorem check_chunks_fails (c : Config) (t : moto_cipher_testvec) (i : Nat) (m : Mem) :
    ∀ (n k : Nat),
      (∃ j, k ≤ j ∧ j < k + n ∧ (chunk_cmp c t m j ≠ 0 ∨ chunk_overrun c t m j ≠ 0)) →
      (skcipher_check_chunks c t i m n k (chunk_start t.tap k)).2 = true := by
  intro n
  induction n with
  | zero =>
    rintro k ⟨j, h1, h2, _⟩
    omega
  | succ n ih =>
    rintro k ⟨j, h1, h2, hbad⟩
    rw [check_chunks_step]
    by_cases hc : chunk_cmp c t m k ≠ 0
    · rw [if_pos hc]
    · rw [if_neg hc]
      by_cases ho : chunk_overrun c t m k ≠ 0
      · rw [if_pos ho]
      · rw [if_neg ho]
        simp only
        apply ih (k + 1)
        refine ⟨j, ?_, by omega, hbad⟩
        by_contra hlt
        have : j = k := by omega
        subst this
        rcases hbad with h | h
        · exact hc h
        · exact ho h

theorem check_chunks_bound (c : Config) (t : moto_cipher_testvec) (i : Nat) (m : Mem) :
    ∀ (n k0 k : Nat), k0 ≤ k → k < k0 + n → chunk_cmp c t m k ≠ 0 →
      ∀ e ∈ (skcipher_check_chunks c t i m n k0 (chunk_start t.tap k0)).1,
        ∃ j cmp, e = Event.memcmp i j cmp ∧ j ≤ k := by
  intro n
  induction n with
  | zero => intro k0 k h1 h2; omega
  | succ n ih =>
    intro k0 k h1 h2 hne e he
    rw [check_chunks_step] at he
    by_cases hc : chunk_cmp c t m k0 ≠ 0
    · rw [if_pos hc] at he
      simp only [List.mem_singleton] at he
      exact ⟨k0, _, he, h1⟩
    · rw [if_neg hc] at he
      by_cases ho : chunk_overrun c t m k0 ≠ 0
      · rw [if_pos ho] at he
        simp only [List.mem_singleton] at he
        exact ⟨k0, _, he, h1⟩
      · rw [if_neg ho] at he
        simp only [List.mem_cons] at he
        rcases he with he | he
        · exact ⟨k0, _, he, h1⟩
        · have hk : k0 + 1 ≤ k := by
            by_contra hlt
            have : k = k0 := by omega
            subst this
            exact hc hne
          exact ih (k0 + 1) k hk (by omega) hne e he

theorem skcipher_chunked_vec_ok {σ : Type} (E : Env σ) (c : Config)
    (tfm : crypto_ablkcipher) (enc : Int) (i : Nat) (t : moto_cipher_testvec)
    (s s2 s3 s4 : State σ) (l : Layout) (r : OpResult)
    (hk : skcipher_setkey E tfm i t s = (0, s2)) (hf : t.fail ≠ 1)
    (hl : skcipher_layout c t s2.xbuf t.np = some l)
    (hc : skcipher_call E tfm enc i l.sg t.ilen (vec_iv c t) { s2 with xbuf := l.xbuf }
      = (r, s3))
    (hw : inline_completion s3 r = (some 0, s4)) :
    skcipher_chunked_vec E c tfm enc i t s =
      if (skcipher_check_chunks c t i s4.xbuf t.np 0 0).2 = true
      then (.out (-EINVAL), s4.log (skcipher_check_chunks c t i s4.xbuf t.np 0 0).1)
      else (.next, s4.log (skcipher_check_chunks c t i s4.xbuf t.np 0 0).1) := by
  unfold skcipher_chunked_vec
  have hf1 : ¬ (1 = t.fail) := fun h => hf h.symm
  simp only [hk, hl, hc, hw, ne_eq, not_true_eq_false, if_false, if_true]
  rw [if_neg hf1]
  rcases skcipher_check_chunks c t i s4.xbuf t.np 0 0 with ⟨es, _ | _⟩
  · simp
  · simp

theorem chunk_cmp_ne_zero_iff (c : Config) (t : moto_cipher_testvec) (m : Mem) (k : Nat) :
    chunk_cmp c t m k ≠ 0 ↔ chunk_differs c t m k := by
  unfold chunk_cmp chunk_differs
  exact memcmp_ne_zero_iff _ _ _

/-- C19.  In the chunked cipher pass, after the key was accepted, the chunks were laid out
and the operation succeeded, leaving the scratch pages `s4.xbuf`: the comparison loop
walks the chunks in order; at the first index `k` whose `tap[k]` output bytes differ from
`result[off_k .. off_k + tap[k])` (no earlier chunk having stray bytes after it) it
leaves through `out` with `-EINVAL`, the comparisons before `k` having found no
difference; whenever some chunk `k` differs the vector fails with `-EINVAL` without any
comparison of a chunk after `k`, and a run that has reached the vector returns `-EINVAL`;
when every chunk equals its slice and every overrun scan
ends with count `0`, the vector passes. -/
theorem chunk_compare_verdict {σ : Type} (E : Env σ) (c : Config)
    (tfm : crypto_ablkcipher) (enc : Int) (i : Nat) (t : moto_cipher_testvec)
    (s s2 s3 s4 : State σ) (l : Layout) (r : OpResult)
    (hk : skcipher_setkey E tfm i t s = (0, s2)) (hf : t.fail ≠ 1)
    (hl : skcipher_layout c t s2.xbuf t.np = some l)
    (hc : skcipher_call E tfm enc i l.sg t.ilen (vec_iv c t) { s2 with xbuf := l.xbuf }
      = (r, s3))
    (hw : inline_completion s3 r = (some 0, s4)) :
    (∀ k < t.np, chunk_differs c t s4.xbuf k →
      (∀ j < k, ¬ chunk_differs c t s4.xbuf j ∧ chunk_overrun c t s4.xbuf j = 0) →
      chunk_cmp c t s4.xbuf k ≠ 0 ∧
      skcipher_chunked_vec E c tfm enc i t s
        = (.out (-EINVAL),
            s4.log (equal_cmp_events i k 0 ++ [.memcmp i k (chunk_cmp c t s4.xbuf k)]))) ∧
    (∀ k < t.np, chunk_differs c t s4.xbuf k →
      ∃ es, skcipher_chunked_vec E c tfm enc i t s = (.out (-EINVAL), s4.log es) ∧
        ∀ e ∈ es, ∃ j cmp, e = Event.memcmp i j cmp ∧ j ≤ k) ∧
    ((∀ k < t.np, ¬ chunk_differs c t s4.xbuf k ∧ chunk_overrun c t s4.xbuf k = 0) →
      skcipher_chunked_vec E c tfm enc i t s
        = (.next, s4.log (equal_cmp_events i t.np 0))) ∧
    (∀ (template : List moto_cipher_testvec) (tcount : Nat) (inject_fault : Int)
      (s0 : State σ),
      SkReach2 E c tfm enc template tcount inject_fault s0 i s →
      template[i]? = some t → t.np ≠ 0 →
      (∃ k < t.np, chunk_differs c t s4.xbuf k) →
      (moto_test_skcipher E c tfm enc template tcount inject_fault s0).1
        = some (-EINVAL)) := by
  have hv := skcipher_chunked_vec_ok E c tfm enc i t s s2 s3 s4 l r hk hf hl hc hw
  have h0 : chunk_start t.tap 0 = 0 := rfl
  have hfail : (∃ k < t.np, chunk_differs c t s4.xbuf k) →
      skcipher_chunked_vec E c tfm enc i t s
        = (.out (-EINVAL), s4.log (skcipher_check_chunks c t i s4.xbuf t.np 0 0).1) := by
    rintro ⟨k, hk1, hd⟩
    have := check_chunks_fails c t i s4.xbuf t.np 0
      ⟨k, Nat.zero_le k, by omega, Or.inl ((chunk_cmp_ne_zero_iff c t s4.xbuf k).2 hd)⟩
    rw [h0] at this
    rw [hv, if_pos this]
  refine ⟨?_, ?_, ?_, ?_⟩
  · intro k hk1 hd hbefore
    have hne := (chunk_cmp_ne_zero_iff c t s4.xbuf k).2 hd
    refine ⟨hne, ?_⟩
    have := check_chunks_first c t i s4.xbuf k t.np 0 hk1
      (fun j _ h2 => by
        have hj := hbefore j (by omega)
        refine ⟨?_, hj.2⟩
        by_contra hc0
        exact hj.1 ((chunk_cmp_ne_zero_iff c t s4.xbuf j).1 hc0))
      (Or.inl (by rw [Nat.zero_add]; exact hne))
    rw [h0, Nat.zero_add] at this
    rw [hv, this]
    rfl
  · intro k hk1 hd
    refine ⟨_, hfail ⟨k, hk1, hd⟩, ?_⟩
    have := check_chunks_bound c t i s4.xbuf t.np 0 k (Nat.zero_le k) (by omega)
      ((chunk_cmp_ne_zero_iff c t s4.xbuf k).2 hd)
    rw [h0] at this
    exact this
  · intro h
    have := check_chunks_pass c t i s4.xbuf t.np 0
      (fun j _ h2 => by
        have hj := h j (by omega)
        refine ⟨?_, hj.2⟩
        by_contra hc0
        exact hj.1 ((chunk_cmp_ne_zero_iff c t s4.xbuf j).1 hc0))
    rw [h0] at this
    rw [hv, this]
    rfl
  · intro template tcount inject_fault s0 hreach ht hnp h
    rw [sk_reach2_exit E c tfm enc template tcount inject_fault s0 s _ i t _ hreach ht hnp
      (hfail h)]

/-- Witness for C19: a table of one chunked vector (one chunk of two bytes) whose expected
result differs from what the sample provider leaves in the second byte. -/
theorem chunk_compare_verdict_witness :
    (moto_test_skcipher (sample_env 0 none) sample_config ⟨0⟩ ENCRYPT
      [sample_chunk_bad_vec] 1 0 sample_state).1 = some (-EINVAL) :=
  (chunk_compare_verdict (sample_env 0 none) sample_config ⟨0⟩ ENCRYPT 0
    sample_chunk_bad_vec _ _ _ _ _ ⟨0, [], 0⟩ rfl (by decide) rfl rfl rfl).2.2.2
    [sample_chunk_bad_vec] 1 0 sample_state ⟨by decide, _, (), _, rfl, rfl, rfl, rfl⟩ rfl
    (by decide) ⟨0, by decide, 1, by decide, by decide⟩

/-! ## The scan for stray bytes after a chunk (C18) -/

set_option maxRecDepth 100000 in
/-- C18, counterexample.  A chunked vector of one chunk of two bytes (scratch page `0`,
offsets 32 and 33; zero byte stored at offset 34) with a provider that computes the
expected result and also stores the byte `7` at offset 35 of page `0`: after the
operation that byte lies after the end of the chunk's region and before the page end and
is non-zero, and `moto_test_skcipher` returns `0`. -/
theorem stray_byte_counterexample :
    chunk_ptr sample_config 0 = ⟨0, 32⟩ ∧ sample_chunk_vec.tap.getD 0 0 = 2 ∧
    PAGE_SIZE sample_config = 4096 ∧
    (moto_test_skcipher (stray_env 35 7) sample_config ⟨0⟩ ENCRYPT [sample_chunk_vec] 1 0
      sample_state).2.xbuf 0 35 = 7 ∧
    (moto_test_skcipher (stray_env 35 7) sample_config ⟨0⟩ ENCRYPT [sample_chunk_vec] 1 0
      sample_state).1 = some 0 := by
  decide

/-- C18, amended.  In the chunked cipher pass, after the key was accepted, the chunks were
laid out and the operation succeeded, leaving the scratch pages `s4.xbuf`: if for some
chunk `k` the byte right after the end of the chunk's region lies in the page (not at a
page start) and is non-zero, the vector's processing leaves through `out` with `-EINVAL`,
and a run that has reached the vector returns `-EINVAL`.  The scan after a chunk ends with
a non-zero count exactly in that case, and the vector passes exactly when every chunk
equals its slice of the expected result and no scan ends with a non-zero count: bytes
further on that follow a zero byte are not examined. -/
theorem adjacent_overrun_fails {σ : Type} (E : Env σ) (c : Config)
    (tfm : crypto_ablkcipher) (enc : Int) (i : Nat) (t : moto_cipher_testvec)
    (s s2 s3 s4 : State σ) (l : Layout) (r : OpResult)
    (hk : skcipher_setkey E tfm i t s = (0, s2)) (hf : t.fail ≠ 1)
    (hl : skcipher_layout c t s2.xbuf t.np = some l)
    (hc : skcipher_call E tfm enc i l.sg t.ilen (vec_iv c t) { s2 with xbuf := l.xbuf }
      = (r, s3))
    (hw : inline_completion s3 r = (some 0, s4)) :
    ((∃ k < t.np, offset_in_page c ((chunk_ptr c k).off + t.tap.getD k 0) ≠ 0 ∧
        s4.xbuf (chunk_ptr c k).buf ((chunk_ptr c k).off + t.tap.getD k 0) ≠ 0) →
      (skcipher_chunked_vec E c tfm enc i t s).1 = .out (-EINVAL) ∧
      ∀ (template : List moto_cipher_testvec) (tcount : Nat) (inject_fault : Int)
        (s0 : State σ),
        SkReach2 E c tfm enc template tcount inject_fault s0 i s →
        template[i]? = some t → t.np ≠ 0 →
        (moto_test_skcipher E c tfm enc template tcount inject_fault s0).1
          = some (-EINVAL)) ∧
    (∀ k, chunk_overrun c t s4.xbuf k ≠ 0 ↔
      (offset_in_page c ((chunk_ptr c k).off + t.tap.getD k 0) ≠ 0 ∧
        s4.xbuf (chunk_ptr c k).buf ((chunk_ptr c k).off + t.tap.getD k 0) ≠ 0)) ∧
    ((skcipher_chunked_vec E c tfm enc i t s).1 = .next ↔
      ∀ k < t.np, ¬ chunk_differs c t s4.xbuf k ∧
        (offset_in_page c ((chunk_ptr c k).off + t.tap.getD k 0) = 0 ∨
          s4.xbuf (chunk_ptr c k).buf ((chunk_ptr c k).off + t.tap.getD k 0) = 0)) := by
  have hv := skcipher_chunked_vec_ok E c tfm enc i t s s2 s3 s4 l r hk hf hl hc hw
  have h0 : chunk_start t.tap 0 = 0 := rfl
  refine ⟨?_, fun k => chunk_overrun_ne_zero c t s4.xbuf k, ?_⟩
  · rintro ⟨k, hk1, hoff, hbyte⟩
    have := check_chunks_fails c t i s4.xbuf t.np 0
      ⟨k, Nat.zero_le k, by omega,
        Or.inr ((chunk_overrun_ne_zero c t s4.xbuf k).2 ⟨hoff, hbyte⟩)⟩
    rw [h0] at this
    rw [if_pos this] at hv
    refine ⟨by rw [hv], ?_⟩
    intro template tcount inject_fault s0 hreach ht hnp
    rw [sk_reach2_exit E c tfm enc template tcount inject_fault s0 s _ i t _ hreach ht hnp hv]
  · constructor
    · intro hnext k hk1
      by_contra hbad
      have hfail : chunk_cmp c t s4.xbuf k ≠ 0 ∨ chunk_overrun c t s4.xbuf k ≠ 0 := by
        by_contra hno
        apply hbad
        refine ⟨fun hd => hno (Or.inl ((chunk_cmp_ne_zero_iff c t s4.xbuf k).2 hd)), ?_⟩
        by_contra hno2
        apply hno
        right
        rw [chunk_overrun_ne_zero]
        constructor
        · exact fun h => hno2 (Or.inl h)
        · exact fun h => hno2 (Or.inr h)
      have := check_chunks_fails c t i s4.xbuf t.np 0 ⟨k, Nat.zero_le k, by omega, hfail⟩
      rw [h0] at this
      rw [hv, if_pos this] at hnext
      simp at hnext
    · intro h
      have := check_chunks_pass c t i s4.xbuf t.np 0
        (fun j _ h2 => by
          have hj := h j (by omega)
          constructor
          · by_contra hc0
            exact hj.1 ((chunk_cmp_ne_zero_iff c t s4.xbuf j).1 hc0)
          · by_contra hc0
            have := (chunk_overrun_ne_zero c t s4.xbuf j).1 hc0
            rcases hj.2 with h3 | h3
            · exact this.1 h3
            · exact this.2 h3)
      rw [h0] at this
      rw [hv, this]
      rfl

set_option maxRecDepth 100000 in
/-- Witness for C18 (amended): the same vector with a provider that stores the byte `7`
right after the chunk, at offset 34 of page `0`. -/
theorem adjacent_overrun_fails_witness :
    (moto_test_skcipher (stray_env 34 7) sample_config ⟨0⟩ ENCRYPT [sample_chunk_vec] 1 0
      sample_state).1 = some (-EINVAL) :=
  ((adjacent_overrun_fails (stray_env 34 7) sample_config ⟨0⟩ ENCRYPT 0
    sample_chunk_vec _ _ _ _ _ ⟨0, [], 0⟩ rfl (by decide) rfl rfl rfl).1
    ⟨0, by decide, by decide, by decide⟩).2
    [sample_chunk_vec] 1 0 sample_state ⟨by decide, _, (), _, rfl, rfl, rfl, rfl⟩ rfl
    (by decide)

/-! ## Trace structure of the two-loop runners -/

theorem waitclosed_nil : WaitClosed [] := by
  intro pre post h
  simp at h

theorem waitclosed_of_nowait (l : List Event) (h : ∀ e ∈ l, e ≠ Event.wait 0) :
    WaitClosed l := by
  intro pre post hl
  exact absurd rfl (h (Event.wait 0) (by rw [hl]; simp))

theorem waitclosed_append (A B : List Event) (hA : WaitClosed A) (hB : WaitClosed B) :
    WaitClosed (A ++ B) := by
  intro pre post h
  rcases append_eq_split _ _ _ _ _ h with ⟨post1, h1, h2⟩ | ⟨pre2, _, h2⟩
  · obtain ⟨p, hp⟩ := hA pre post1 h1
    exact ⟨p ++ B, by rw [h2, hp]; rfl⟩
  · exact hB pre2 post h2

theorem waitclosed_pair (w : Int) : WaitClosed [.wait w, .INIT_COMPLETION] := by
  intro pre post h
  rcases cons_split _ _ _ _ _ h with ⟨_, _, h3⟩ | ⟨pre1, _, h3⟩
  · exact ⟨[], h3.symm⟩
  · rcases cons_split _ _ _ _ _ h3 with ⟨_, h4, _⟩ | ⟨pre2, _, h5⟩
    · simp at h4
    · simp at h5

theorem waitdisc_of_closed (f : Flow) (l : List Event) (h : WaitClosed l) : WaitDisc f l :=
  fun pre post hl => Or.inl (h pre post hl)

theorem waitdisc_open (r : Int) (l : List Event) (w : Int) (h : WaitClosed l) :
    WaitDisc (.out r) (l ++ [.wait w]) := by
  intro pre post hl
  rcases append_eq_split _ _ _ _ _ hl with ⟨post1, h1, h2⟩ | ⟨pre2, _, h2⟩
  · obtain ⟨p, hp⟩ := h pre post1 h1
    exact Or.inl ⟨p ++ [.wait w], by rw [h2, hp]; rfl⟩
  · rcases cons_split _ _ _ _ _ h2 with ⟨_, _, h4⟩ | ⟨pre3, _, h5⟩
    · exact Or.inr ⟨h4.symm, r, rfl⟩
    · simp at h5

theorem waitdisc_prepend (f : Flow) (A l : List Event) (hA : ∀ e ∈ A, e ≠ Event.wait 0)
    (h : WaitDisc f l) : WaitDisc f (A ++ l) := by
  intro pre post hl
  rcases append_eq_split _ _ _ _ _ hl with ⟨post1, h1, _⟩ | ⟨pre2, _, h2⟩
  · exact absurd rfl (hA (Event.wait 0) (by rw [h1]; simp))
  · exact h pre2 post h2

theorem loop_pass_trace {σ τ : Type} (vec : Nat → τ → State σ → Flow × State σ)
    (sel : τ → Bool) (template : List τ) (V : Nat → τ → Flow → List Event → Prop)
    (hvec : ∀ i t s, ∃ seg, (vec i t s).2.trace = s.trace ++ seg ∧ V i t (vec i t s).1 seg) :
    ∀ (n i : Nat) (s : State σ),
      ∃ new, (loop_pass vec sel template n i s).2.trace = s.trace ++ new ∧
        PassTrace V sel template i n (loop_pass vec sel template n i s).1 new := by
  intro n
  induction n with
  | zero =>
    intro i s
    exact ⟨[], by simp [loop_pass], PassTrace.done i⟩
  | succ n ih =>
    intro i s
    simp only [loop_pass]
    cases ht : template[i]? with
    | none => exact ⟨[], by simp, PassTrace.missing i n ht⟩
    | some t =>
      simp only
      by_cases hs : sel t = true
      · rw [if_pos hs]
        obtain ⟨seg, hseg, hV⟩ := hvec i t s
        generalize vec i t s = R at hseg hV ⊢
        obtain ⟨f, s1⟩ := R
        simp only at hseg hV
        cases f with
        | next =>
          simp only
          obtain ⟨new, hnew, hP⟩ := ih (i + 1) s1
          exact ⟨seg ++ new, by rw [hnew, hseg, List.append_assoc],
            PassTrace.step i n t seg _ new ht hs hV hP⟩
        | out r =>
          exact ⟨seg, hseg, PassTrace.stop i n t seg _ ht hs hV (by simp)⟩
        | stuck =>
          exact ⟨seg, hseg, PassTrace.stop i n t seg _ ht hs hV (by simp)⟩
      · rw [if_neg hs]
        obtain ⟨new, hnew, hP⟩ := ih (i + 1) s
        exact ⟨new, hnew, PassTrace.skip i n t _ new ht (by simpa using hs) hP⟩

theorem pass_waitdisc {τ : Type} (V : Nat → τ → Flow → List Event → Prop) (sel : τ → Bool)
    (template : List τ) (hV : ∀ i t f seg, V i t f seg → WaitDisc f seg)
    (i n : Nat) (f : Flow) (new : List Event) (h : PassTrace V sel template i n f new) :
    WaitDisc f new := by
  induction h with
  | done i => intro pre post h; simp at h
  | missing i n h => intro pre post h; simp at h
  | skip i n t f new h hs rest ih => exact ih
  | step i n t seg f new h hs hv rest ih =>
    intro pre post hl
    rcases append_eq_split _ _ _ _ _ hl with ⟨post1, h1, h2⟩ | ⟨pre2, _, h2⟩
    · rcases hV i t .next seg hv pre post1 h1 with ⟨p, hp⟩ | ⟨_, r, hr⟩
      · exact Or.inl ⟨p ++ new, by rw [h2, hp]; rfl⟩
      · simp at hr
    · exact ih pre2 post h2
  | stop i n t seg f h hs hv hf => exact hV i t f seg hv

theorem pass_idx_bounds {τ : Type} (V : Nat → τ → Flow → List Event → Prop) (sel : τ → Bool)
    (template : List τ)
    (hidx : ∀ i t f seg, V i t f seg → ∀ e ∈ seg, e.idx = none ∨ e.idx = some i)
    (i n : Nat) (f : Flow) (new : List Event) (h : PassTrace V sel template i n f new) :
    ∀ e ∈ new, ∀ j, e.idx = some j → i ≤ j ∧ j < i + n := by
  induction h with
  | done i => intro e he; simp at he
  | missing i n h => intro e he; simp at he
  | skip i n t f new h hs rest ih =>
    intro e he j hj
    have := ih e he j hj
    omega
  | step i n t seg f new h hs hv rest ih =>
    intro e he j hj
    rcases List.mem_append.1 he with h1 | h1
    · rcases hidx i t .next seg hv e h1 with h2 | h2
      · rw [h2] at hj; simp at hj
      · rw [h2] at hj
        simp only [Option.some.injEq] at hj
        omega
    · have := ih e h1 j hj
      omega
  | stop i n t seg f h hs hv hf =>
    intro e he j hj
    rcases hidx i t f seg hv e he with h2 | h2
    · rw [h2] at hj; simp at hj
    · rw [h2] at hj
      simp only [Option.some.injEq] at hj
      omega

theorem pass_segment {τ : Type} (V : Nat → τ → Flow → List Event → Prop) (sel : τ → Bool)
    (template : List τ)
    (hidx : ∀ i t f seg, V i t f seg → ∀ e ∈ seg, e.idx = none ∨ e.idx = some i)
    (i n : Nat) (f : Flow) (new : List Event) (h : PassTrace V sel template i n f new) :
    ∀ e ∈ new, ∀ j, e.idx = some j →
      ∃ (t : τ) (seg : List Event) (f1 : Flow) (pre post : List Event),
        template[j]? = some t ∧ sel t = true ∧ V j t f1 seg ∧ e ∈ seg ∧
        new = pre ++ (seg ++ post) ∧
        (∀ e1 ∈ pre, e1.idx ≠ some j) ∧ (∀ e1 ∈ post, e1.idx ≠ some j) ∧
        (f1 ≠ .next → post = [] ∧ f = f1) := by
  induction h with
  | done i => intro e he; simp at he
  | missing i n h => intro e he; simp at he
  | skip i n t f new h hs rest ih => exact ih
  | step i n t seg f new h hs hv rest ih =>
    intro e he j hj
    rcases List.mem_append.1 he with h1 | h1
    · have hji : j = i := by
        rcases hidx i t .next seg hv e h1 with h2 | h2
        · rw [h2] at hj; simp at hj
        · rw [h2] at hj
          simp only [Option.some.injEq] at hj
          exact hj.symm
      subst hji
      refine ⟨t, seg, .next, [], new, h, hs, hv, h1, rfl, by simp, ?_, by simp⟩
      intro e1 he1 hc
      have := pass_idx_bounds V sel template hidx _ _ _ _ rest e1 he1 j hc
      omega
    · obtain ⟨t1, seg1, f1, pre, post, ht1, hs1, hv1, hmem, hnew, hpre, hpost, hlast⟩ :=
        ih e h1 j hj
      refine ⟨t1, seg1, f1, seg ++ pre, post, ht1, hs1, hv1, hmem,
        by rw [hnew, List.append_assoc], ?_, hpost, hlast⟩
      intro e1 he1 hc
      rcases List.mem_append.1 he1 with h2 | h2
      · have hb := pass_idx_bounds V sel template hidx _ _ _ _ rest e h1 j hj
        rcases hidx i t .next seg hv e1 h2 with h3 | h3
        · rw [h3] at hc; simp at hc
        · rw [h3] at hc
          simp only [Option.some.injEq] at hc
          omega
      · exact hpre e1 h2 hc
  | stop i n t seg f h hs hv hf =>
    intro e he j hj
    have hji : j = i := by
      rcases hidx i t f seg hv e he with h2 | h2
      · rw [h2] at hj; simp at hj
      · rw [h2] at hj
        simp only [Option.some.injEq] at hj
        exact hj.symm
    subst hji
    exact ⟨t, seg, f, [], [], h, hs, hv, he, by simp, by simp, by simp,
      fun _ => ⟨rfl, rfl⟩⟩

theorem pass_sel {τ : Type} (V : Nat → τ → Flow → List Event → Prop) (sel : τ → Bool)
    (template : List τ)
    (hidx : ∀ i t f seg, V i t f seg → ∀ e ∈ seg, e.idx = none ∨ e.idx = some i)
    (i n : Nat) (f : Flow) (new : List Event) (h : PassTrace V sel template i n f new)
    (e : Event) (he : e ∈ new) (j : Nat) (hj : e.idx = some j) :
    ∃ t, template[j]? = some t ∧ sel t = true := by
  obtain ⟨t, _, _, _, _, ht, hs, _⟩ := pass_segment V sel template hidx i n f new h e he j hj
  exact ⟨t, ht, hs⟩

/-! ## The events of one hash vector and of one cipher vector -/

theorem extc_refl {σ : Type} (Q : Event → Prop) (s : State σ) : ExtC Q s s :=
  ⟨[], by simp, by simp, waitclosed_nil⟩

theorem extc_trans {σ : Type} {Q : Event → Prop} {s s1 s2 : State σ}
    (h1 : ExtC Q s s1) (h2 : ExtC Q s1 s2) : ExtC Q s s2 := by
  rcases h1 with ⟨n1, e1, q1, c1⟩
  rcases h2 with ⟨n2, e2, q2, c2⟩
  refine ⟨n1 ++ n2, by rw [e2, e1, List.append_assoc], ?_, waitclosed_append _ _ c1 c2⟩
  intro e he
  rcases List.mem_append.1 he with h | h
  · exact q1 e h
  · exact q2 e h

theorem extc_single {σ : Type} {Q : Event → Prop} (s s1 : State σ) (e : Event)
    (h : s1.trace = s.trace ++ [e]) (hq : Q e) (hw : e ≠ Event.wait 0) : ExtC Q s s1 :=
  ⟨[e], h, by intro x hx; simp at hx; subst hx; exact hq,
    waitclosed_of_nowait _ (by intro x hx; simp at hx; subst hx; exact hw)⟩

theorem extc_toW {σ : Type} {Q : Event → Prop} {s s1 : State σ} (f : Flow)
    (h : ExtC Q s s1) : ExtW Q f s s1 := by
  rcases h with ⟨n, e, q, c⟩
  exact ⟨n, e, q, waitdisc_of_closed f n c⟩

theorem extc_open_wait {σ : Type} {Q : Event → Prop} {s s1 s2 : State σ} (r w : Int)
    (h : ExtC Q s s1) (h2 : s2.trace = s1.trace ++ [.wait w]) (hq : Q (.wait w)) :
    ExtW Q (.out r) s s2 := by
  rcases h with ⟨n, e, q, c⟩
  refine ⟨n ++ [.wait w], by rw [h2, e, List.append_assoc], ?_, waitdisc_open r n w c⟩
  intro x hx
  rcases List.mem_append.1 hx with h | h
  · exact q x h
  · simp at h; subst h; exact hq

theorem async_op_extc {σ : Type} (Q : Event → Prop) (hw : ∀ w, Q (.wait w))
    (hi : Q .INIT_COMPLETION) (s : State σ) (r : OpResult) :
    ExtC Q s (moto_do_one_async_hash_op s r).2 := by
  unfold moto_do_one_async_hash_op
  split
  · split
    · exact extc_refl _ _
    · rename_i w tr _
      exact ⟨[.wait w, .INIT_COMPLETION], rfl, by
        intro e he; simp at he; rcases he with rfl | rfl
        · exact hw _
        · exact hi, waitclosed_pair w⟩
  · exact extc_refl _ _

/-- What the inline `switch` adds to the trace: events among which every wait that
returned `0` is followed by `INIT_COMPLETION`, or the single event of a wait that returned
`0` with a non-zero callback status, which is then the status of the `switch`. -/
theorem inline_completion_waits {σ : Type} (Q : Event → Prop) (hw : ∀ w, Q (.wait w))
    (hi : Q .INIT_COMPLETION) (s : State σ) (r : OpResult) :
    ExtC Q s (inline_completion s r).2 ∨
    (∃ r1 : Int, r1 ≠ 0 ∧ (inline_completion s r).1 = some r1 ∧
      (inline_completion s r).2.trace = s.trace ++ [.wait 0]) := by
  unfold inline_completion
  split
  · exact Or.inl (extc_refl _ _)
  · split
    · split
      · exact Or.inl (extc_refl _ _)
      · rename_i w tr _
        split
        · rename_i hw0
          split
          · left
            exact ⟨[.wait w, .INIT_COMPLETION], rfl, by
              intro e he; simp at he; rcases he with rfl | rfl
              · exact hw _
              · exact hi, waitclosed_pair w⟩
          · rename_i herr
            right
            refine ⟨tr.err, herr, rfl, ?_⟩
            simp only [hw0]
        · rename_i hw0
          left
          exact extc_single _ _ (.wait w) rfl (hw w) (by
            intro hc
            simp only [Event.wait.injEq] at hc
            exact hw0 hc)
    · exact Or.inl (extc_refl _ _)

theorem tail_wait (i : Nat) (w : Int) : HashTailEv i (.wait w) :=
  ⟨rfl, by simp, Or.inl rfl⟩

theorem tail_init (i : Nat) : HashTailEv i .INIT_COMPLETION :=
  ⟨rfl, by simp, Or.inl rfl⟩

theorem ahash_call_extc {σ : Type} (E : Env σ) (tfm : crypto_ahash) (op : HashOp) (i : Nat)
    (sg : List scatterlist) (nbytes : Nat) (result : Nat → Nat) (s : State σ) :
    ExtC (HashTailEv i) s (ahash_call E tfm op i sg nbytes result s).2.2 := by
  unfold ahash_call
  exact extc_single _ _ (.ahash_op i op sg nbytes _) rfl ⟨rfl, by simp, Or.inr rfl⟩ (by simp)

theorem hash_op_sync_extc {σ : Type} (E : Env σ) (tfm : crypto_ahash) (op : HashOp)
    (i : Nat) (sg : List scatterlist) (nbytes : Nat) (result : Nat → Nat) (s : State σ) :
    ExtC (HashTailEv i) s (hash_op_sync E tfm op i sg nbytes result s).2.2 := by
  unfold hash_op_sync
  have e1 := ahash_call_extc E tfm op i sg nbytes result s
  generalize ahash_call E tfm op i sg nbytes result s = C at e1 ⊢
  obtain ⟨r, result1, s1⟩ := C
  exact extc_trans e1 (async_op_extc _ (tail_wait i) (tail_init i) s1 r)

theorem hash_compute_extc {σ : Type} (E : Env σ) (tfm : crypto_ahash) (use_digest : Bool)
    (i : Nat) (sg : List scatterlist) (nbytes : Nat) (result : Nat → Nat) (s : State σ) :
    ExtC (HashTailEv i) s (hash_compute E tfm use_digest i sg nbytes result s).2.2 := by
  unfold hash_compute
  split
  · exact hash_op_sync_extc E tfm .digest i sg nbytes result s
  · have e1 := hash_op_sync_extc E tfm .init i sg nbytes result s
    generalize hash_op_sync E tfm .init i sg nbytes result s = A at e1 ⊢
    obtain ⟨o1, result1, s1⟩ := A
    split
    · rename_i result1' s1' heq
      simp only [Prod.mk.injEq] at heq
      obtain ⟨_, rfl, rfl⟩ := heq
      have e2 := hash_op_sync_extc E tfm .update i sg nbytes result1 s1
      generalize hash_op_sync E tfm .update i sg nbytes result1 s1 = B at e2 ⊢
      obtain ⟨o2, result2, s2⟩ := B
      split
      · rename_i result2' s2' heq2
        simp only [Prod.mk.injEq] at heq2
        obtain ⟨_, rfl, rfl⟩ := heq2
        exact extc_trans e1 (extc_trans e2
          (hash_op_sync_extc E tfm .final i sg nbytes result2 s2))
      · exact extc_trans e1 e2
    · exact e1

theorem hash_setkey_trace {σ : Type} (E : Env σ) (tfm : crypto_ahash) (i : Nat)
    (t : moto_hash_testvec) (s : State σ) :
    (t.ksize = 0 ∧ hash_setkey E tfm i t s = (0, s)) ∨
    (t.ksize ≠ 0 ∧ (hash_setkey E tfm i t s).2.trace =
      s.trace ++ [.clear_flags, .ahash_setkey i t.key t.ksize (hash_setkey E tfm i t s).1]) := by
  unfold hash_setkey
  by_cases h : t.ksize ≠ 0
  · right
    rw [if_pos h]
    exact ⟨h, rfl⟩
  · left
    rw [if_neg h]
    exact ⟨not_not.1 h, rfl⟩

theorem hash_shape_of_tail {σ : Type} (fits : moto_hash_testvec → Prop) (i : Nat)
    (t : moto_hash_testvec) (f : Flow) (s s2 s5 : State σ) (kret : Int) (hfit : fits t)
    (hk : (t.ksize = 0 ∧ s2.trace = s.trace ∧ kret = 0) ∨
      (t.ksize ≠ 0 ∧ s2.trace = s.trace ++ [.clear_flags, .ahash_setkey i t.key t.ksize kret]))
    (hext : ExtW (HashTailEv i) f s2 s5)
    (h1 : kret ≠ 0 → s5 = s2 ∧ f = .out kret) :
    ∃ seg, s5.trace = s.trace ++ seg ∧ HashShape fits i t f seg := by
  rcases hext with ⟨rest, hr, hq, hw⟩
  rcases hk with ⟨hk0, htr, hkr⟩ | ⟨hk0, htr⟩
  · refine ⟨rest, by rw [hr, htr], Or.inr ⟨hfit, [], rest, rfl, Or.inl ⟨hk0, rfl⟩, hq, hw⟩⟩
  · refine ⟨[.clear_flags, .ahash_setkey i t.key t.ksize kret] ++ rest,
      by rw [hr, htr, List.append_assoc],
      Or.inr ⟨hfit, _, rest, rfl, Or.inr ⟨hk0, kret, rfl, ?_⟩, hq, hw⟩⟩
    intro hne
    have := h1 hne
    refine ⟨?_, this.2⟩
    have ht : s5.trace = s2.trace := by rw [this.1]
    rw [hr] at ht
    exact List.append_right_eq_self.1 ht

theorem memcmp_log_extc {σ : Type} (i : Nat) (s : State σ) (cmp : Int) :
    ExtC (HashTailEv i) s (s.log [.memcmp i 0 cmp]) :=
  extc_single _ _ (.memcmp i 0 cmp) rfl ⟨rfl, by simp, Or.inr rfl⟩ (by simp)

theorem hash_unchunked_shape {σ : Type} (E : Env σ) (c : Config) (tfm : crypto_ahash)
    (use_digest : Bool) (inject_fault : Int) (i : Nat) (t : moto_hash_testvec)
    (s : State σ) :
    ∃ seg, (hash_unchunked_vec E c tfm use_digest inject_fault i t s).2.trace
        = s.trace ++ seg ∧
      HashShape (fun _ => True) i t
        (hash_unchunked_vec E c tfm use_digest inject_fault i t s).1 seg := by
  unfold hash_unchunked_vec
  simp only
  have hkt := hash_setkey_trace E tfm i t
    { s with xbuf := s.xbuf.memcpy 0 0 (byteAt t.plaintext) t.psize }
  generalize hash_setkey E tfm i t
    { s with xbuf := s.xbuf.memcpy 0 0 (byteAt t.plaintext) t.psize } = K at hkt ⊢
  obtain ⟨kret, s2⟩ := K
  simp only at hkt ⊢
  have hk : (t.ksize = 0 ∧ s2.trace = s.trace ∧ kret = 0) ∨
      (t.ksize ≠ 0 ∧
        s2.trace = s.trace ++ [.clear_flags, .ahash_setkey i t.key t.ksize kret]) := by
    rcases hkt with ⟨h0, heq⟩ | ⟨h0, htr⟩
    · simp only [Prod.mk.injEq] at heq
      left
      exact ⟨h0, by rw [heq.2], heq.1⟩
    · exact Or.inr ⟨h0, htr⟩
  by_cases hne : kret ≠ 0
  · rw [if_pos hne]
    exact hash_shape_of_tail _ i t _ s s2 s2 kret trivial hk (extc_toW _ (extc_refl _ _))
      (fun _ => ⟨rfl, rfl⟩)
  · rw [if_neg hne]
    have e1 := hash_compute_extc E tfm use_digest i [⟨0, 0, t.psize⟩] t.psize (fun _ => 0) s2
    generalize hash_compute E tfm use_digest i [⟨0, 0, t.psize⟩] t.psize (fun _ => 0) s2 = C
      at e1 ⊢
    obtain ⟨o, result, s3⟩ := C
    simp only at e1
    cases o with
    | none =>
      exact hash_shape_of_tail _ i t _ s s2 s3 kret trivial hk (extc_toW _ e1)
        (fun h => absurd h hne)
    | some ret =>
      simp only
      by_cases hr : ret ≠ 0
      · rw [if_pos hr]
        exact hash_shape_of_tail _ i t _ s s2 s3 kret trivial hk (extc_toW _ e1)
          (fun h => absurd h hne)
      · rw [if_neg hr]
        generalize memcmp (if c.FAULT_INJECTION = true ∧ inject_fault ≠ 0 then flip_first result
          else result) (byteAt t.digest) tfm.digestsize = cmp
        by_cases hc : cmp ≠ 0
        · rw [if_pos hc]
          exact hash_shape_of_tail _ i t _ s s2 _ kret trivial hk
            (extc_toW _ (extc_trans e1 (memcmp_log_extc i s3 cmp))) (fun h => absurd h hne)
        · rw [if_neg hc]
          exact hash_shape_of_tail _ i t _ s s2 _ kret trivial hk
            (extc_toW _ (extc_trans e1 (memcmp_log_extc i s3 cmp))) (fun h => absurd h hne)

theorem hash_layout_fits (c : Config) (t : moto_hash_testvec) (xbuf : Mem) :
    (hash_layout c t xbuf t.np).isSome ↔ ∀ k < t.np, chunk_fits c t.tap k := by
  rw [hash_layout_eq_gen, gen_layout_isSome]

theorem hash_chunked_shape {σ : Type} (E : Env σ) (c : Config) (tfm : crypto_ahash)
    (i : Nat) (t : moto_hash_testvec) (s : State σ) :
    ∃ seg, (hash_chunked_vec E c tfm i t s).2.trace = s.trace ++ seg ∧
      HashShape (fun t => ∀ k < t.np, chunk_fits c t.tap k) i t
        (hash_chunked_vec E c tfm i t s).1 seg := by
  unfold hash_chunked_vec
  have hfits := hash_layout_fits c t s.xbuf
  cases hl : hash_layout c t s.xbuf t.np with
  | none =>
    rw [hl] at hfits
    refine ⟨[], by simp, Or.inl ⟨?_, rfl, rfl⟩⟩
    intro hc
    have := hfits.2 hc
    simp at this
  | some l =>
    rw [hl] at hfits
    have hfit : ∀ k < t.np, chunk_fits c t.tap k := hfits.1 rfl
    simp only
    have hkt := hash_setkey_trace E tfm i t { s with xbuf := l.xbuf }
    generalize hash_setkey E tfm i t { s with xbuf := l.xbuf } = K at hkt ⊢
    obtain ⟨kret, s2⟩ := K
    simp only at hkt ⊢
    have hk : (t.ksize = 0 ∧ s2.trace = s.trace ∧ kret = 0) ∨
        (t.ksize ≠ 0 ∧
          s2.trace = s.trace ++ [.clear_flags, .ahash_setkey i t.key t.ksize kret]) := by
      rcases hkt with ⟨h0, heq⟩ | ⟨h0, htr⟩
      · simp only [Prod.mk.injEq] at heq
        left
        exact ⟨h0, by rw [heq.2], heq.1⟩
      · exact Or.inr ⟨h0, htr⟩
    by_cases hne : kret ≠ 0
    · rw [if_pos hne]
      exact hash_shape_of_tail _ i t _ s s2 s2 kret hfit hk (extc_toW _ (extc_refl _ _))
        (fun _ => ⟨rfl, rfl⟩)
    · rw [if_neg hne]
      have e1 := ahash_call_extc E tfm .digest i l.sg t.psize (fun _ => 0) s2
      generalize ahash_call E tfm .digest i l.sg t.psize (fun _ => 0) s2 = C at e1 ⊢
      obtain ⟨r, result, s3⟩ := C
      simp only at e1 ⊢
      have e2 := inline_completion_waits (HashTailEv i) (tail_wait i) (tail_init i) s3 r
      generalize inline_completion s3 r = W at e2 ⊢
      obtain ⟨w, s4⟩ := W
      simp only at e2 ⊢
      cases w with
      | none =>
        rcases e2 with e2 | ⟨r1, _, h2, _⟩
        · exact hash_shape_of_tail _ i t _ s s2 s4 kret hfit hk (extc_toW _ (extc_trans e1 e2))
            (fun h => absurd h hne)
        · simp at h2
      | some ret =>
        simp only
        by_cases hr : ret ≠ 0
        · rw [if_pos hr]
          rcases e2 with e2 | ⟨r1, _, _, h3⟩
          · exact hash_shape_of_tail _ i t _ s s2 s4 kret hfit hk (extc_toW _ (extc_trans e1 e2))
              (fun h => absurd h hne)
          · exact hash_shape_of_tail _ i t _ s s2 s4 kret hfit hk
              (extc_open_wait ret 0 e1 h3 (tail_wait i 0)) (fun h => absurd h hne)
        · rw [if_neg hr]
          have e2c : ExtC (HashTailEv i) s3 s4 := by
            rcases e2 with e2 | ⟨r1, h1, h2, _⟩
            · exact e2
            · simp only [Option.some.injEq] at h2
              have h0 : r1 = 0 := by rw [← h2]; exact not_not.1 hr
              exact absurd h0 h1
          generalize memcmp result (byteAt t.digest) tfm.digestsize = cmp
          by_cases hc : cmp ≠ 0
          · rw [if_pos hc]
            exact hash_shape_of_tail _ i t _ s s2 _ kret hfit hk
              (extc_toW _ (extc_trans (extc_trans e1 e2c) (memcmp_log_extc i s4 cmp)))
              (fun h => absurd h hne)
          · rw [if_neg hc]
            exact hash_shape_of_tail _ i t _ s s2 _ kret hfit hk
              (extc_toW _ (extc_trans (extc_trans e1 e2c) (memcmp_log_extc i s4 cmp)))
              (fun h => absurd h hne)

theorem extc_of_nowait {σ : Type} (s s1 : State σ) (new : List Event)
    (h : s1.trace = s.trace ++ new) (hw : ∀ e ∈ new, e ≠ Event.wait 0) :
    ExtC (fun _ => True) s s1 :=
  ⟨new, h, fun _ _ => trivial, waitclosed_of_nowait new hw⟩

theorem skcipher_setkey_extc {σ : Type} (E : Env σ) (tfm : crypto_ablkcipher) (i : Nat)
    (t : moto_cipher_testvec) (s : State σ) :
    ExtC (fun _ => True) s (skcipher_setkey E tfm i t s).2 := by
  refine extc_of_nowait _ _ _ (skcipher_setkey_trace E tfm i t s) ?_
  intro e he
  unfold flag_events at he
  simp only [List.mem_append, List.mem_singleton] at he
  rcases he with (h | h) | h
  · subst h; simp
  · split at h
    · simp at h; subst h; simp
    · simp at h
  · subst h; simp

theorem skcipher_call_extc {σ : Type} (E : Env σ) (tfm : crypto_ablkcipher) (enc : Int)
    (i : Nat) (sg : List scatterlist) (nbytes : Nat) (iv : List Nat) (s : State σ) :
    ExtC (fun _ => True) s (skcipher_call E tfm enc i sg nbytes iv s).2 := by
  unfold skcipher_call
  exact extc_single _ _ (.ablkcipher_crypt i _ sg nbytes iv _) rfl trivial (by simp)

theorem check_chunks_nowait (c : Config) (t : moto_cipher_testvec) (i : Nat) (m : Mem) :
    ∀ (n k temp : Nat), ∀ e ∈ (skcipher_check_chunks c t i m n k temp).1,
      e ≠ Event.wait 0 := by
  intro n
  induction n with
  | zero => intro k temp e he; simp [skcipher_check_chunks] at he
  | succ n ih =>
    intro k temp e he
    simp only [skcipher_check_chunks] at he
    split at he
    · simp at he; subst he; simp
    · split at he
      · simp at he; subst he; simp
      · simp only [List.mem_cons] at he
        rcases he with rfl | he
        · simp
        · exact ih _ _ e he

theorem unchunked_waits {σ : Type} (E : Env σ) (c : Config) (tfm : crypto_ablkcipher)
    (enc : Int) (inject_fault : Int) (i : Nat) (t : moto_cipher_testvec) (s : State σ) :
    ExtW (fun _ => True) (skcipher_unchunked_vec E c tfm enc inject_fault i t s).1 s
      (skcipher_unchunked_vec E c tfm enc inject_fault i t s).2 := by
  unfold skcipher_unchunked_vec
  by_cases hg : t.ilen > PAGE_SIZE c
  · rw [if_pos hg]
    exact (extc_toW _ (extc_refl _ _))
  · rw [if_neg hg]
    simp only
    have e0 := skcipher_setkey_extc E tfm i t
      { s with xbuf := s.xbuf.memcpy 0 0 (byteAt t.input) t.ilen }
    generalize skcipher_setkey E tfm i t
      { s with xbuf := s.xbuf.memcpy 0 0 (byteAt t.input) t.ilen } = K at e0 ⊢
    obtain ⟨ret, s2⟩ := K
    simp only at e0 ⊢
    have e0 : ExtC (fun _ => True) s s2 := e0
    by_cases h1 : (if ret = 0 then 1 else 0) = t.fail
    · rw [if_pos h1]
      exact (extc_toW _ e0)
    · rw [if_neg h1]
      by_cases h2 : ret ≠ 0
      · rw [if_pos h2]
        exact (extc_toW _ e0)
      · rw [if_neg h2]
        have e1 := skcipher_call_extc E tfm enc i [⟨0, 0, t.ilen⟩] t.ilen (vec_iv c t) s2
        generalize skcipher_call E tfm enc i [⟨0, 0, t.ilen⟩] t.ilen (vec_iv c t) s2 = C
          at e1 ⊢
        obtain ⟨r, s3⟩ := C
        have e2 := inline_completion_waits (fun _ => True) (fun _ => trivial) trivial s3 r
        generalize inline_completion s3 r = W at e2 ⊢
        obtain ⟨w, s4⟩ := W
        simp only at e1 e2 ⊢
        cases w with
        | none =>
          rcases e2 with e2 | ⟨r1, _, h2, _⟩
          · exact (extc_toW _ (extc_trans (extc_trans e0 e1) e2))
          · simp at h2
        | some ret1 =>
          simp only
          by_cases h3 : ret1 ≠ 0
          · rw [if_pos h3]
            rcases e2 with e2 | ⟨r1, _, _, h4⟩
            · exact (extc_toW _ (extc_trans (extc_trans e0 e1) e2))
            · exact extc_open_wait ret1 0 (extc_trans e0 e1) h4 trivial
          · rw [if_neg h3]
            have e2c : ExtC (fun _ => True) s3 s4 := by
              rcases e2 with e2 | ⟨r1, h1, h2, _⟩
              · exact e2
              · simp only [Option.some.injEq] at h2
                have h0 : r1 = 0 := by rw [← h2]; exact not_not.1 h3
                exact absurd h0 h1
            have e3 : ∀ (m : Mem) (cmp : Int), ExtC (fun _ => True) s4
                { s4 with xbuf := m, trace := s4.trace ++ [.memcmp i 0 cmp] } := by
              intro m cmp
              exact extc_single _ _ (.memcmp i 0 cmp) rfl trivial (by simp)
            split <;> split <;>
              exact (extc_toW _ (extc_trans (extc_trans (extc_trans e0 e1) e2c) (e3 _ _)))

theorem chunked_waits {σ : Type} (E : Env σ) (c : Config) (tfm : crypto_ablkcipher)
    (enc : Int) (i : Nat) (t : moto_cipher_testvec) (s : State σ) :
    ExtW (fun _ => True) (skcipher_chunked_vec E c tfm enc i t s).1 s
      (skcipher_chunked_vec E c tfm enc i t s).2 := by
  unfold skcipher_chunked_vec
  have e0 := skcipher_setkey_extc E tfm i t s
  generalize skcipher_setkey E tfm i t s = K at e0 ⊢
  obtain ⟨ret, s2⟩ := K
  simp only at e0 ⊢
  by_cases h1 : (if ret = 0 then 1 else 0) = t.fail
  · rw [if_pos h1]
    exact (extc_toW _ e0)
  · rw [if_neg h1]
    by_cases h2 : ret ≠ 0
    · rw [if_pos h2]
      exact (extc_toW _ e0)
    · rw [if_neg h2]
      cases hl : skcipher_layout c t s2.xbuf t.np with
      | none => exact (extc_toW _ e0)
      | some l =>
        simp only
        have e1 := skcipher_call_extc E tfm enc i l.sg t.ilen (vec_iv c t)
          { s2 with xbuf := l.xbuf }
        generalize skcipher_call E tfm enc i l.sg t.ilen (vec_iv c t)
          { s2 with xbuf := l.xbuf } = C at e1 ⊢
        obtain ⟨r, s3⟩ := C
        have e1 : ExtC (fun _ => True) s2 s3 := e1
        have e2 := inline_completion_waits (fun _ => True) (fun _ => trivial) trivial s3 r
        generalize inline_completion s3 r = W at e2 ⊢
        obtain ⟨w, s4⟩ := W
        simp only at e2 ⊢
        cases w with
        | none =>
          rcases e2 with e2 | ⟨r1, _, h2, _⟩
          · exact (extc_toW _ (extc_trans (extc_trans e0 e1) e2))
          · simp at h2
        | some ret1 =>
          simp only
          by_cases h3 : ret1 ≠ 0
          · rw [if_pos h3]
            rcases e2 with e2 | ⟨r1, _, _, h4⟩
            · exact (extc_toW _ (extc_trans (extc_trans e0 e1) e2))
            · exact extc_open_wait ret1 0 (extc_trans e0 e1) h4 trivial
          · rw [if_neg h3]
            have e2c : ExtC (fun _ => True) s3 s4 := by
              rcases e2 with e2 | ⟨r1, h1, h2, _⟩
              · exact e2
              · simp only [Option.some.injEq] at h2
                have h0 : r1 = 0 := by rw [← h2]; exact not_not.1 h3
                exact absurd h0 h1
            have hnw := check_chunks_nowait c t i s4.xbuf t.np 0 0
            generalize skcipher_check_chunks c t i s4.xbuf t.np 0 0 = R at hnw ⊢
            obtain ⟨es, b⟩ := R
            simp only at hnw
            have e3 : ExtC (fun _ => True) s4 (s4.log es) := extc_of_nowait _ _ es rfl hnw
            cases b with
            | true => exact (extc_toW _ (extc_trans (extc_trans (extc_trans e0 e1) e2c) e3))
            | false => exact (extc_toW _ (extc_trans (extc_trans (extc_trans e0 e1) e2c) e3))

theorem cipher_seg_of {σ : Type} (i : Nat) (t : moto_cipher_testvec) (f : Flow)
    (s s1 : State σ) (h1 : ∃ new, s1.trace = s.trace ++ new ∧ VecShape i t f new)
    (h2 : ExtW (fun _ => True) f s s1) :
    ∃ seg, s1.trace = s.trace ++ seg ∧ CipherSeg i t f seg := by
  obtain ⟨new, hn, hv⟩ := h1
  obtain ⟨new2, hn2, _, hw⟩ := h2
  have : new = new2 := by
    rw [hn] at hn2
    exact List.append_cancel_left hn2
  subst this
  exact ⟨new, hn, hv, hw⟩

theorem unchunked_seg {σ : Type} (E : Env σ) (c : Config) (tfm : crypto_ablkcipher)
    (enc : Int) (inject_fault : Int) (i : Nat) (t : moto_cipher_testvec) (s : State σ) :
    ∃ seg, (skcipher_unchunked_vec E c tfm enc inject_fault i t s).2.trace = s.trace ++ seg ∧
      CipherSeg i t (skcipher_unchunked_vec E c tfm enc inject_fault i t s).1 seg :=
  cipher_seg_of i t _ s _ (unchunked_shape E c tfm enc inject_fault i t s)
    (unchunked_waits E c tfm enc inject_fault i t s)

theorem chunked_seg {σ : Type} (E : Env σ) (c : Config) (tfm : crypto_ablkcipher)
    (enc : Int) (i : Nat) (t : moto_cipher_testvec) (s : State σ) :
    ∃ seg, (skcipher_chunked_vec E c tfm enc i t s).2.trace = s.trace ++ seg ∧
      CipherSeg i t (skcipher_chunked_vec E c tfm enc i t s).1 seg :=
  cipher_seg_of i t _ s _ (chunked_shape E c tfm enc i t s) (chunked_waits E c tfm enc i t s)

/-! ## The events of a whole run -/

theorem setup_idx (e : Event) (h : e.isSetup = true) : e.idx = none := by
  cases e <;> simp [Event.isSetup] at h <;> rfl

theorem setup_nowait (e : Event) (h : e.isSetup = true) : e ≠ Event.wait 0 := by
  intro hc
  rw [hc] at h
  simp [Event.isSetup] at h

theorem hash_cleanup_setup : ∀ e ∈ hash_cleanup, e.isSetup = true := by
  decide

theorem skcipher_cleanup_setup : ∀ e ∈ skcipher_cleanup, e.isSetup = true := by
  decide

theorem hash_out_trace {σ : Type} (s : State σ) :
    (hash_out s).trace = s.trace ++ hash_cleanup := by
  simp [hash_out, moto_testmgr_buf, State.log, hash_cleanup, List.append_assoc]

theorem testmgr_buf_trace {σ : Type} (s : State σ) :
    (moto_testmgr_buf s).trace = s.trace ++ (List.range XBUFSIZE).map Event.free_page := by
  simp [moto_testmgr_buf, State.log]

theorem alloc_pages_setup {σ : Type} (E : Env σ) :
    ∀ (n i : Nat) (s : State σ),
      Ext (fun e => e.isSetup = true) s (alloc_pages E n i s).2 := by
  intro n
  induction n with
  | zero => intro i s; exact Ext.refl _ _
  | succ n ih =>
    intro i s
    simp only [alloc_pages]
    cases hg : E.get_free_page s.env with
    | mk pg e =>
      cases pg with
      | none => exact ⟨[.get_free_page i false], rfl, by intro e he; simp at he; subst he; rfl⟩
      | some pg =>
        simp only
        refine Ext.trans ?_ (ih _ _)
        exact ⟨[.get_free_page i true], rfl, by intro e he; simp at he; subst he; rfl⟩

theorem free_pages_below_setup {σ : Type} :
    ∀ (i : Nat) (s : State σ), Ext (fun e => e.isSetup = true) s (free_pages_below i s) := by
  intro i
  induction i with
  | zero => intro s; exact Ext.refl _ _
  | succ i ih =>
    intro s
    simp only [free_pages_below]
    refine Ext.trans ?_ (ih _)
    exact Ext.log s _ (by intro e he; simp at he; subst he; rfl)

theorem alloc_buf_setup {σ : Type} (E : Env σ) (s : State σ) :
    Ext (fun e => e.isSetup = true) s (moto_testmgr_alloc_buf E s).2 := by
  unfold moto_testmgr_alloc_buf
  have h := alloc_pages_setup E XBUFSIZE 0 s
  generalize alloc_pages E XBUFSIZE 0 s = A at h ⊢
  obtain ⟨o, s1⟩ := A
  cases o with
  | none => exact h
  | some i => exact Ext.trans h (free_pages_below_setup i s1)

theorem hash_pass1_eq_loop {σ : Type} (E : Env σ) (c : Config) (tfm : crypto_ahash)
    (template : List moto_hash_testvec) (use_digest : Bool) (inject_fault : Int) :
    ∀ (n i : Nat) (s : State σ),
      hash_pass1 E c tfm template use_digest inject_fault n i s =
        loop_pass (hash_unchunked_vec E c tfm use_digest inject_fault)
          (fun t => decide (t.np = 0)) template n i s := by
  intro n
  induction n with
  | zero => intro i s; rfl
  | succ n ih =>
    intro i s
    simp only [hash_pass1, loop_pass]
    cases template[i]? with
    | none => rfl
    | some t =>
      simp only [decide_eq_true_eq]
      by_cases h : t.np = 0
      · rw [if_neg (not_not.2 h), if_pos h]
        cases hv : hash_unchunked_vec E c tfm use_digest inject_fault i t s with
        | mk f s1 =>
          cases f with
          | next => simp only; exact ih _ _
          | out r => rfl
          | stuck => rfl
      · rw [if_pos h, if_neg h]
        exact ih _ _

theorem hash_pass2_eq_loop {σ : Type} (E : Env σ) (c : Config) (tfm : crypto_ahash)
    (template : List moto_hash_testvec) :
    ∀ (n i : Nat) (s : State σ),
      hash_pass2 E c tfm template n i s =
        loop_pass (hash_chunked_vec E c tfm) (fun t => decide (t.np ≠ 0)) template n i s := by
  intro n
  induction n with
  | zero => intro i s; rfl
  | succ n ih =>
    intro i s
    simp only [hash_pass2, loop_pass]
    cases template[i]? with
    | none => rfl
    | some t =>
      simp only [decide_eq_true_eq]
      by_cases h : t.np ≠ 0
      · rw [if_pos h, if_pos h]
        cases hv : hash_chunked_vec E c tfm i t s with
        | mk f s1 =>
          cases f with
          | next => simp only; exact ih _ _
          | out r => rfl
          | stuck => rfl
      · rw [if_neg h, if_neg h]
        exact ih _ _

theorem gen_pass_eq_loop {σ : Type}
    (vec : Nat → moto_cipher_testvec → State σ → Flow × State σ)
    (sel : moto_cipher_testvec → Bool) (template : List moto_cipher_testvec) :
    ∀ (n i : Nat) (s : State σ),
      gen_pass vec sel template n i s = loop_pass vec sel template n i s := by
  intro n
  induction n with
  | zero => intro i s; rfl
  | succ n ih =>
    intro i s
    simp only [gen_pass, loop_pass]
    cases template[i]? with
    | none => rfl
    | some t =>
      simp only
      by_cases h : sel t = true
      · rw [if_pos h, if_pos h]
        cases hv : vec i t s with
        | mk f s1 =>
          cases f with
          | next => simp only; exact ih _ _
          | out r => rfl
          | stuck => rfl
      · rw [if_neg h, if_neg h]
        exact ih _ _

/-- In a run of a two-loop runner, a wait that returned `0` is directly followed by
`INIT_COMPLETION`, or by the clean-up and nothing else. -/
theorem run_waitdisc {τ : Type} (V1 V2 : Nat → τ → Flow → List Event → Prop)
    (sel1 sel2 : τ → Bool) (template : List τ) (tcount : Nat) (cleanup : List Event)
    (status : Option Int) (new : List Event)
    (hV1 : ∀ i t f seg, V1 i t f seg → WaitDisc f seg)
    (hV2 : ∀ i t f seg, V2 i t f seg → WaitDisc f seg)
    (hcl : ∀ e ∈ cleanup, e.isSetup = true)
    (h : RunShape V1 V2 sel1 sel2 template tcount cleanup status new) :
    ∀ pre post, new = pre ++ Event.wait 0 :: post →
      (∃ p, post = Event.INIT_COMPLETION :: p) ∨ post = cleanup := by
  obtain ⟨H, n1, n2, T, f1, f2, hnew, hH, hP1, hP2, hskip, hst, hT⟩ := h
  intro pre post hsplit
  rw [hnew] at hsplit
  have hTn : ∀ e ∈ T, e ≠ Event.wait 0 := by
    intro e he
    rcases hT with hT | ⟨hT, _⟩
    · rw [hT] at he
      exact setup_nowait e (hcl e he)
    · rw [hT] at he
      simp at he
  have hTc : ∀ r, status = some r → T = cleanup := by
    intro r hr
    rcases hT with hT | ⟨_, hT⟩
    · exact hT
    · rw [hT] at hr
      simp at hr
  rcases append_eq_split _ _ _ _ _ hsplit with ⟨post1, h1, _⟩ | ⟨pre2, _, h2⟩
  · exact absurd rfl (setup_nowait _ (hH _ (by rw [h1]; simp)))
  · rcases append_eq_split _ _ _ _ _ h2 with ⟨post1, h3, h4⟩ | ⟨pre3, _, h5⟩
    · rcases pass_waitdisc V1 sel1 template hV1 _ _ _ _ hP1 pre2 post1 h3 with
        ⟨p, hp⟩ | ⟨hp, r, hr⟩
      · exact Or.inl ⟨p ++ (n2 ++ T), by rw [h4, hp]; rfl⟩
      · right
        have hne : f1 ≠ .next := by rw [hr]; simp
        have hn2 := (hskip hne).1
        have hs : status = some r := by rw [hst, hr]; rfl
        rw [h4, hp, hn2, hTc r hs]
        rfl
    · rcases append_eq_split _ _ _ _ _ h5 with ⟨post1, h6, h7⟩ | ⟨pre4, _, h8⟩
      · have hf1 : f1 = .next := by
          by_contra hne
          have := (hskip hne).1
          rw [this] at h6
          simp at h6
        rcases pass_waitdisc V2 sel2 template hV2 _ _ _ _ (hP2 hf1) pre3 post1 h6 with
          ⟨p, hp⟩ | ⟨hp, r, hr⟩
        · exact Or.inl ⟨p ++ T, by rw [h7, hp]; rfl⟩
        · right
          have hs : status = some r := by rw [hst, hf1, hr]; rfl
          rw [h7, hp, hTc r hs]
          rfl
      · exact absurd rfl (hTn _ (by rw [h8]; simp))

/-- In a run of a two-loop runner, an event that carries the index `j` belongs to the
segment of the vector `template[j]`, processed by the one loop that selects it; no event
outside the segment carries that index; and when the vector's processing left through
`out` with `r`, only the clean-up follows and the run returns `r`. -/
theorem run_segment {τ : Type} (V1 V2 : Nat → τ → Flow → List Event → Prop)
    (sel1 sel2 : τ → Bool) (template : List τ) (tcount : Nat) (cleanup : List Event)
    (status : Option Int) (new : List Event)
    (hidx1 : ∀ i t f seg, V1 i t f seg → ∀ e ∈ seg, e.idx = none ∨ e.idx = some i)
    (hidx2 : ∀ i t f seg, V2 i t f seg → ∀ e ∈ seg, e.idx = none ∨ e.idx = some i)
    (hsel : ∀ t, sel1 t = true → sel2 t = true → False)
    (hcl : ∀ e ∈ cleanup, e.isSetup = true)
    (h : RunShape V1 V2 sel1 sel2 template tcount cleanup status new) :
    ∀ e ∈ new, ∀ j, e.idx = some j →
      ∃ (t : τ) (seg : List Event) (f : Flow) (pre post : List Event),
        j < tcount ∧ template[j]? = some t ∧
        ((sel1 t = true ∧ V1 j t f seg) ∨ (sel2 t = true ∧ V2 j t f seg)) ∧
        e ∈ seg ∧ new = pre ++ (seg ++ post) ∧
        (∀ e1 ∈ pre, e1.idx ≠ some j) ∧ (∀ e1 ∈ post, e1.idx ≠ some j) ∧
        (∀ r, f = .out r → post = cleanup ∧ status = some r) ∧
        (f = .stuck → status = none) := by
  obtain ⟨H, n1, n2, T, f1, f2, hnew, hH, hP1, hP2, hskip, hst, hT⟩ := h
  have hHi : ∀ e ∈ H, ∀ j, e.idx ≠ some j := by
    intro e he j hc
    rw [setup_idx e (hH e he)] at hc
    simp at hc
  have hTi : ∀ e ∈ T, ∀ j, e.idx ≠ some j := by
    intro e he j hc
    rcases hT with hT | ⟨hT, _⟩
    · rw [hT] at he
      rw [setup_idx e (hcl e he)] at hc
      simp at hc
    · rw [hT] at he
      simp at he
  have hTc : ∀ r, status = some r → T = cleanup := by
    intro r hr
    rcases hT with hT | ⟨_, hT⟩
    · exact hT
    · rw [hT] at hr
      simp at hr
  intro e he j hj
  rw [hnew] at he
  simp only [List.mem_append] at he
  rcases he with he | he | he | he
  · exact absurd hj (hHi e he j)
  · obtain ⟨t, seg, f, pre, post, ht, hs, hv, hmem, hn1, hpre, hpost, hlast⟩ :=
      pass_segment V1 sel1 template hidx1 _ _ _ _ hP1 e he j hj
    have hb := pass_idx_bounds V1 sel1 template hidx1 _ _ _ _ hP1 e he j hj
    have hn2i : ∀ e1 ∈ n2, e1.idx ≠ some j := by
      intro e1 he1 hc
      have hf1 : f1 = .next := by
        by_contra hne
        have := (hskip hne).1
        rw [this] at he1
        simp at he1
      obtain ⟨t2, ht2, hs2⟩ := pass_sel V2 sel2 template hidx2 _ _ _ _ (hP2 hf1) e1 he1 j hc
      rw [ht] at ht2
      simp only [Option.some.injEq] at ht2
      subst ht2
      exact hsel t hs hs2
    refine ⟨t, seg, f, H ++ pre, post ++ (n2 ++ T), by omega, ht, Or.inl ⟨hs, hv⟩, hmem,
      by rw [hnew, hn1]; simp [List.append_assoc], ?_, ?_, ?_, ?_⟩
    · intro e1 he1
      rcases List.mem_append.1 he1 with h1 | h1
      · exact hHi e1 h1 j
      · exact hpre e1 h1
    · intro e1 he1
      simp only [List.mem_append] at he1
      rcases he1 with h1 | h1 | h1
      · exact hpost e1 h1
      · exact hn2i e1 h1
      · exact hTi e1 h1 j
    · intro r hr
      have hne : f ≠ .next := by rw [hr]; simp
      have hl := hlast hne
      have hne1 : f1 ≠ .next := by rw [hl.2]; exact hne
      have hs1 : status = some r := by rw [hst, hl.2, hr]; rfl
      rw [hl.1, (hskip hne1).1, hTc r hs1]
      exact ⟨rfl, hs1⟩
    · intro hr
      have hne : f ≠ .next := by rw [hr]; simp
      have hl := hlast hne
      rw [hst, hl.2, hr]
      rfl
  · have hf1 : f1 = .next := by
      by_contra hne
      have := (hskip hne).1
      rw [this] at he
      simp at he
    obtain ⟨t, seg, f, pre, post, ht, hs, hv, hmem, hn2, hpre, hpost, hlast⟩ :=
      pass_segment V2 sel2 template hidx2 _ _ _ _ (hP2 hf1) e he j hj
    have hb := pass_idx_bounds V2 sel2 template hidx2 _ _ _ _ (hP2 hf1) e he j hj
    have hn1i : ∀ e1 ∈ n1, e1.idx ≠ some j := by
      intro e1 he1 hc
      obtain ⟨t1, ht1, hs1⟩ := pass_sel V1 sel1 template hidx1 _ _ _ _ hP1 e1 he1 j hc
      rw [ht] at ht1
      simp only [Option.some.injEq] at ht1
      subst ht1
      exact hsel t hs1 hs
    refine ⟨t, seg, f, H ++ (n1 ++ pre), post ++ T, by omega, ht, Or.inr ⟨hs, hv⟩, hmem,
      by rw [hnew, hn2]; simp [List.append_assoc], ?_, ?_, ?_, ?_⟩
    · intro e1 he1
      simp only [List.mem_append] at he1
      rcases he1 with h1 | h1 | h1
      · exact hHi e1 h1 j
      · exact hn1i e1 h1
      · exact hpre e1 h1
    · intro e1 he1
      rcases List.mem_append.1 he1 with h1 | h1
      · exact hpost e1 h1
      · exact hTi e1 h1 j
    · intro r hr
      have hne : f ≠ .next := by rw [hr]; simp
      have hl := hlast hne
      have hs1 : status = some r := by rw [hst, hf1, hl.2, hr]; rfl
      rw [hl.1, hTc r hs1]
      exact ⟨rfl, hs1⟩
    · intro hr
      have hne : f ≠ .next := by rw [hr]; simp
      have hl := hlast hne
      rw [hst, hf1, hl.2, hr]
      rfl
  · exact absurd hj (hTi e he j)

theorem hash_run_shape {σ : Type} (E : Env σ) (c : Config) (tfm : crypto_ahash)
    (template : List moto_hash_testvec) (tcount : Nat) (use_digest : Bool)
    (inject_fault : Int) (s : State σ) :
    ((moto_test_hash E c tfm template tcount use_digest inject_fault s).1 = some (-ENOMEM) ∧
      ∀ e ∈ new_events s (moto_test_hash E c tfm template tcount use_digest inject_fault s).2,
        e.isSetup = true) ∨
    RunShape (HashShape (fun _ => True))
      (HashShape (fun t => ∀ k < t.np, chunk_fits c t.tap k))
      (fun t => decide (t.np = 0)) (fun t => decide (t.np ≠ 0)) template tcount hash_cleanup
      (moto_test_hash E c tfm template tcount use_digest inject_fault s).1
      (new_events s (moto_test_hash E c tfm template tcount use_digest inject_fault s).2) := by
  unfold moto_test_hash
  have ha := alloc_buf_setup E s
  generalize moto_testmgr_alloc_buf E s = A at ha ⊢
  obtain ⟨aret, s1⟩ := A
  simp only at ha ⊢
  obtain ⟨na, hna, hqa⟩ := ha
  by_cases h0 : aret ≠ 0
  · left
    rw [if_pos h0]
    refine ⟨rfl, ?_⟩
    rw [new_events_append s s1 na hna]
    exact hqa
  · rw [if_neg h0]
    cases hr : E.ahash_request_alloc s1.env with
    | mk ok e =>
      cases ok with
      | false =>
        left
        refine ⟨rfl, ?_⟩
        rw [new_events_append s _ (na ++ [.init_completion, .ahash_request_alloc false]
          ++ (List.range XBUFSIZE).map Event.free_page)
          (by rw [testmgr_buf_trace]; simp [hna, List.append_assoc])]
        intro ev hev
        simp only [List.mem_append, List.mem_cons, List.mem_singleton] at hev
        rcases hev with (h | h | h | h) | h
        · exact hqa ev h
        · subst h; rfl
        · subst h; rfl
        · simp at h
        · revert ev
          decide
      | true =>
        right
        simp only
        rw [hash_pass1_eq_loop]
        obtain ⟨n1, hn1, hP1⟩ := loop_pass_trace
          (hash_unchunked_vec E c tfm use_digest inject_fault)
          (fun t => decide (t.np = 0)) template (HashShape (fun _ => True))
          (hash_unchunked_shape E c tfm use_digest inject_fault) tcount 0
          { env := e, xbuf := s1.xbuf, tresult := ⟨0, E.uninit_int s1.env⟩,
            trace := s1.trace ++ [.init_completion] ++ [.ahash_request_alloc true] }
        generalize loop_pass (hash_unchunked_vec E c tfm use_digest inject_fault)
          (fun t => decide (t.np = 0)) template tcount 0
          { env := e, xbuf := s1.xbuf, tresult := ⟨0, E.uninit_int s1.env⟩,
            trace := s1.trace ++ [.init_completion] ++ [.ahash_request_alloc true] } = P1
          at hn1 hP1 ⊢
        obtain ⟨f1, s4⟩ := P1
        simp only at hn1 hP1 ⊢
        have hH : ∀ ev ∈ na ++ [Event.init_completion, Event.ahash_request_alloc true],
            ev.isSetup = true := by
          intro ev hev
          simp only [List.mem_append, List.mem_cons, List.mem_singleton] at hev
          rcases hev with h | h | h | h
          · exact hqa ev h
          · subst h; rfl
          · subst h; rfl
          · simp at h
        have ht4 : s4.trace = s.trace ++
            ((na ++ [Event.init_completion, Event.ahash_request_alloc true]) ++ n1) := by
          rw [hn1, hna]; simp [List.append_assoc]
        cases f1 with
        | stuck =>
          refine ⟨(na ++ [Event.init_completion, Event.ahash_request_alloc true]), n1, [],
            [], .stuck, .next, ?_, hH, hP1, fun h => by simp at h, fun _ => ⟨rfl, rfl⟩, rfl,
            Or.inr ⟨rfl, rfl⟩⟩
          rw [new_events_append s s4 _ ht4]
          simp
        | out r =>
          refine ⟨(na ++ [Event.init_completion, Event.ahash_request_alloc true]), n1, [],
            hash_cleanup, .out r, .next, ?_, hH, hP1, fun h => by simp at h,
            fun _ => ⟨rfl, rfl⟩, rfl, Or.inl rfl⟩
          rw [new_events_append s _
            ((na ++ [Event.init_completion, Event.ahash_request_alloc true]) ++ n1
              ++ hash_cleanup)
            (by rw [hash_out_trace, ht4, List.append_assoc])]
          simp [List.append_assoc]
        | next =>
          simp only
          rw [hash_pass2_eq_loop]
          obtain ⟨n2, hn2, hP2⟩ := loop_pass_trace (hash_chunked_vec E c tfm)
            (fun t => decide (t.np ≠ 0)) template
            (HashShape (fun t => ∀ k < t.np, chunk_fits c t.tap k))
            (hash_chunked_shape E c tfm) tcount 0 s4
          generalize loop_pass (hash_chunked_vec E c tfm)
            (fun t => decide (t.np ≠ 0)) template tcount 0 s4 = P2 at hn2 hP2 ⊢
          obtain ⟨f2, s5⟩ := P2
          simp only at hn2 hP2 ⊢
          have ht5 : s5.trace = s.trace ++
              ((na ++ [Event.init_completion, Event.ahash_request_alloc true]) ++ n1
                ++ n2) := by
            rw [hn2, ht4]; simp [List.append_assoc]
          cases f2 with
          | stuck =>
            refine ⟨(na ++ [Event.init_completion, Event.ahash_request_alloc true]), n1, n2,
              [], .next, .stuck, ?_, hH, hP1, fun _ => hP2, fun h => absurd rfl h, rfl,
              Or.inr ⟨rfl, rfl⟩⟩
            rw [new_events_append s s5 _ ht5]
            simp [List.append_assoc]
          | out r =>
            refine ⟨(na ++ [Event.init_completion, Event.ahash_request_alloc true]), n1, n2,
              hash_cleanup, .next, .out r, ?_, hH, hP1, fun _ => hP2, fun h => absurd rfl h,
              rfl, Or.inl rfl⟩
            rw [new_events_append s _
              ((na ++ [Event.init_completion, Event.ahash_request_alloc true]) ++ n1 ++ n2
                ++ hash_cleanup)
              (by rw [hash_out_trace, ht5, List.append_assoc])]
            simp [List.append_assoc]
          | next =>
            refine ⟨(na ++ [Event.init_completion, Event.ahash_request_alloc true]), n1, n2,
              hash_cleanup, .next, .next, ?_, hH, hP1, fun _ => hP2, fun h => absurd rfl h,
              rfl, Or.inl rfl⟩
            rw [new_events_append s _
              ((na ++ [Event.init_completion, Event.ahash_request_alloc true]) ++ n1 ++ n2
                ++ hash_cleanup)
              (by rw [hash_out_trace, ht5, List.append_assoc])]
            simp [List.append_assoc]

theorem skcipher_run_shape {σ : Type} (E : Env σ) (c : Config) (tfm : crypto_ablkcipher)
    (enc : Int) (template : List moto_cipher_testvec) (tcount : Nat) (inject_fault : Int)
    (s : State σ) :
    ((moto_test_skcipher E c tfm enc template tcount inject_fault s).1 = some (-ENOMEM) ∧
      ∀ e ∈ new_events s (moto_test_skcipher E c tfm enc template tcount inject_fault s).2,
        e.isSetup = true) ∨
    RunShape CipherSeg CipherSeg (fun t => decide (t.np = 0)) (fun t => decide (t.np ≠ 0))
      template tcount skcipher_cleanup
      (moto_test_skcipher E c tfm enc template tcount inject_fault s).1
      (new_events s (moto_test_skcipher E c tfm enc template tcount inject_fault s).2) := by
  unfold moto_test_skcipher
  have ha := alloc_buf_setup E s
  generalize moto_testmgr_alloc_buf E s = A at ha ⊢
  obtain ⟨aret, s1⟩ := A
  simp only at ha ⊢
  obtain ⟨na, hna, hqa⟩ := ha
  by_cases h0 : aret ≠ 0
  · left
    rw [if_pos h0]
    refine ⟨rfl, ?_⟩
    rw [new_events_append s s1 na hna]
    exact hqa
  · rw [if_neg h0]
    cases hr : E.ablkcipher_request_alloc s1.env with
    | mk ok e =>
      cases ok with
      | false =>
        left
        refine ⟨rfl, ?_⟩
        rw [new_events_append s _ (na ++ [.init_completion, .ablkcipher_request_alloc false]
          ++ skcipher_cleanup) (by rw [skcipher_out_trace]; simp [hna, List.append_assoc])]
        intro ev hev
        simp only [List.mem_append, List.mem_cons, List.mem_singleton] at hev
        rcases hev with (h | h | h | h) | h
        · exact hqa ev h
        · subst h; rfl
        · subst h; rfl
        · simp at h
        · exact skcipher_cleanup_setup ev h
      | true =>
        right
        simp only
        rw [skcipher_pass1_eq_gen, gen_pass_eq_loop]
        obtain ⟨n1, hn1, hP1⟩ := loop_pass_trace
          (skcipher_unchunked_vec E c tfm enc inject_fault)
          (fun t => decide (t.np = 0)) template CipherSeg
          (unchunked_seg E c tfm enc inject_fault) tcount 0
          { env := e, xbuf := s1.xbuf, tresult := ⟨0, E.uninit_int s1.env⟩,
            trace := s1.trace ++ [.init_completion] ++ [.ablkcipher_request_alloc true] }
        generalize loop_pass (skcipher_unchunked_vec E c tfm enc inject_fault)
          (fun t => decide (t.np = 0)) template tcount 0
          { env := e, xbuf := s1.xbuf, tresult := ⟨0, E.uninit_int s1.env⟩,
            trace := s1.trace ++ [.init_completion] ++ [.ablkcipher_request_alloc true] } = P1
          at hn1 hP1 ⊢
        obtain ⟨f1, s4⟩ := P1
        simp only at hn1 hP1 ⊢
        have hH : ∀ ev ∈ na ++ [Event.init_completion, Event.ablkcipher_request_alloc true],
            ev.isSetup = true := by
          intro ev hev
          simp only [List.mem_append, List.mem_cons, List.mem_singleton] at hev
          rcases hev with h | h | h | h
          · exact hqa ev h
          · subst h; rfl
          · subst h; rfl
          · simp at h
        have ht4 : s4.trace = s.trace ++
            ((na ++ [Event.init_completion, Event.ablkcipher_request_alloc true]) ++ n1) := by
          rw [hn1, hna]; simp [List.append_assoc]
        cases f1 with
        | stuck =>
          refine ⟨(na ++ [Event.init_completion, Event.ablkcipher_request_alloc true]), n1,
            [], [], .stuck, .next, ?_, hH, hP1, fun h => by simp at h, fun _ => ⟨rfl, rfl⟩,
            rfl, Or.inr ⟨rfl, rfl⟩⟩
          rw [new_events_append s s4 _ ht4]
          simp
        | out r =>
          refine ⟨(na ++ [Event.init_completion, Event.ablkcipher_request_alloc true]), n1,
            [], skcipher_cleanup, .out r, .next, ?_, hH, hP1, fun h => by simp at h,
            fun _ => ⟨rfl, rfl⟩, rfl, Or.inl rfl⟩
          rw [new_events_append s _
            ((na ++ [Event.init_completion, Event.ablkcipher_request_alloc true]) ++ n1
              ++ skcipher_cleanup)
            (by rw [skcipher_out_trace, ht4, List.append_assoc])]
          simp [List.append_assoc]
        | next =>
          simp only
          rw [skcipher_pass2_eq_gen, gen_pass_eq_loop]
          obtain ⟨n2, hn2, hP2⟩ := loop_pass_trace (skcipher_chunked_vec E c tfm enc)
            (fun t => decide (t.np ≠ 0)) template CipherSeg
            (chunked_seg E c tfm enc) tcount 0 s4
          generalize loop_pass (skcipher_chunked_vec E c tfm enc)
            (fun t => decide (t.np ≠ 0)) template tcount 0 s4 = P2 at hn2 hP2 ⊢
          obtain ⟨f2, s5⟩ := P2
          simp only at hn2 hP2 ⊢
          have ht5 : s5.trace = s.trace ++
              ((na ++ [Event.init_completion, Event.ablkcipher_request_alloc true]) ++ n1
                ++ n2) := by
            rw [hn2, ht4]; simp [List.append_assoc]
          cases f2 with
          | stuck =>
            refine ⟨(na ++ [Event.init_completion, Event.ablkcipher_request_alloc true]), n1,
              n2, [], .next, .stuck, ?_, hH, hP1, fun _ => hP2, fun h => absurd rfl h, rfl,
              Or.inr ⟨rfl, rfl⟩⟩
            rw [new_events_append s s5 _ ht5]
            simp [List.append_assoc]
          | out r =>
            refine ⟨(na ++ [Event.init_completion, Event.ablkcipher_request_alloc true]), n1,
              n2, skcipher_cleanup, .next, .out r, ?_, hH, hP1, fun _ => hP2,
              fun h => absurd rfl h, rfl, Or.inl rfl⟩
            rw [new_events_append s _
              ((na ++ [Event.init_completion, Event.ablkcipher_request_alloc true]) ++ n1
                ++ n2 ++ skcipher_cleanup)
              (by rw [skcipher_out_trace, ht5, List.append_assoc])]
            simp [List.append_assoc]
          | next =>
            refine ⟨(na ++ [Event.init_completion, Event.ablkcipher_request_alloc true]), n1,
              n2, skcipher_cleanup, .next, .next, ?_, hH, hP1, fun _ => hP2,
              fun h => absurd rfl h, rfl, Or.inl rfl⟩
            rw [new_events_append s _
              ((na ++ [Event.init_completion, Event.ablkcipher_request_alloc true]) ++ n1
                ++ n2 ++ skcipher_cleanup)
              (by rw [skcipher_out_trace, ht5, List.append_assoc])]
            simp [List.append_assoc]

/-! ## Re-initialisation of the completion (C12) and the hash key step (C14) -/

theorem hash_shape_idx (fits : moto_hash_testvec → Prop) (i : Nat) (t : moto_hash_testvec)
    (f : Flow) (seg : List Event) (h : HashShape fits i t f seg) :
    ∀ e ∈ seg, e.idx = none ∨ e.idx = some i := by
  intro e he
  rcases h with ⟨_, h1, _⟩ | ⟨_, kev, rest, hseg, hk, hq, _⟩
  · rw [h1] at he; simp at he
  · rw [hseg] at he
    rcases List.mem_append.1 he with h1 | h1
    · rcases hk with ⟨_, hk⟩ | ⟨_, kret, hk, _⟩
      · rw [hk] at h1; simp at h1
      · rw [hk] at h1
        simp only [List.mem_cons, List.mem_singleton] at h1
        rcases h1 with rfl | rfl | h1
        · exact Or.inl rfl
        · exact Or.inr rfl
        · simp at h1
    · exact (hq e h1).2.2

theorem hash_shape_waitdisc (fits : moto_hash_testvec → Prop) (i : Nat)
    (t : moto_hash_testvec) (f : Flow) (seg : List Event) (h : HashShape fits i t f seg) :
    WaitDisc f seg := by
  rcases h with ⟨_, h1, _⟩ | ⟨_, kev, rest, hseg, hk, _, hw⟩
  · rw [h1]
    intro pre post hp
    simp at hp
  · rw [hseg]
    apply waitdisc_prepend f kev rest _ hw
    intro e he
    rcases hk with ⟨_, hk⟩ | ⟨_, kret, hk, _⟩
    · rw [hk] at he; simp at he
    · rw [hk] at he
      simp only [List.mem_cons, List.mem_singleton] at he
      rcases he with rfl | rfl | he
      · simp
      · simp
      · simp at he

/-- C12.  The helper `moto_do_one_async_hash_op` re-initialises the completion after every
wait, interrupted or not, and leaves it unsignalled.  The inline `switch` after a wait
that returned `0` re-initialises the completion when the callback reported `0`, and
otherwise leaves with the non-zero callback status (`goto out`).  In every run of
`moto_test_hash` and of `moto_test_skcipher`, a wait that returned `0` is directly
followed by `INIT_COMPLETION`, or else only by the release of the request and of the
scratch pages: no operation is issued on the request in between. -/
theorem completion_reinitialised :
    (∀ {σ : Type} (s : State σ) (r : OpResult) (w : Int) (tr : moto_tcrypt_result),
      (r.ret = -EINPROGRESS ∨ r.ret = -EBUSY) →
      wait_for_completion_interruptible s.tresult r = some (w, tr) →
      (moto_do_one_async_hash_op s r).2.trace = s.trace ++ [.wait w, .INIT_COMPLETION] ∧
      (moto_do_one_async_hash_op s r).2.tresult.completion = 0) ∧
    (∀ {σ : Type} (s : State σ) (r : OpResult) (tr : moto_tcrypt_result),
      (r.ret = -EINPROGRESS ∨ r.ret = -EBUSY) →
      wait_for_completion_interruptible s.tresult r = some (0, tr) →
      (tr.err = 0 →
        (inline_completion s r).1 = some 0 ∧
        (inline_completion s r).2.trace = s.trace ++ [.wait 0, .INIT_COMPLETION] ∧
        (inline_completion s r).2.tresult.completion = 0) ∧
      (tr.err ≠ 0 →
        (inline_completion s r).1 = some tr.err ∧
        (inline_completion s r).2.trace = s.trace ++ [.wait 0])) ∧
    (∀ {σ : Type} (E : Env σ) (c : Config) (tfm : crypto_ahash)
      (template : List moto_hash_testvec) (tcount : Nat) (use_digest : Bool)
      (inject_fault : Int) (s : State σ) (pre post : List Event),
      new_events s (moto_test_hash E c tfm template tcount use_digest inject_fault s).2
        = pre ++ Event.wait 0 :: post →
      (∃ p, post = Event.INIT_COMPLETION :: p) ∨ post = hash_cleanup) ∧
    (∀ {σ : Type} (E : Env σ) (c : Config) (tfm : crypto_ablkcipher) (enc : Int)
      (template : List moto_cipher_testvec) (tcount : Nat) (inject_fault : Int)
      (s : State σ) (pre post : List Event),
      new_events s (moto_test_skcipher E c tfm enc template tcount inject_fault s).2
        = pre ++ Event.wait 0 :: post →
      (∃ p, post = Event.INIT_COMPLETION :: p) ∨ post = skcipher_cleanup) ∧
    (∀ e ∈ hash_cleanup, e.isHashOp = false) ∧
    (∀ e ∈ skcipher_cleanup, e.isCrypt = false) := by
  refine ⟨?_, ?_, ?_, ?_, by decide, by decide⟩
  · intro σ s r w tr hret hw
    unfold moto_do_one_async_hash_op
    rw [if_pos hret, hw]
    exact ⟨rfl, rfl⟩
  · intro σ s r tr hret hw
    have hne : ¬ r.ret = 0 := by
      intro h0
      rw [h0] at hret
      rcases hret with h | h
      · exact absurd h (by decide)
      · exact absurd h (by decide)
    constructor
    · intro herr
      unfold inline_completion
      rw [if_neg hne, if_pos hret, hw]
      simp only
      rw [if_pos trivial, if_pos herr]
      exact ⟨rfl, rfl, rfl⟩
    · intro herr
      unfold inline_completion
      rw [if_neg hne, if_pos hret, hw]
      simp only
      rw [if_pos trivial, if_neg herr]
      exact ⟨rfl, rfl⟩
  · intro σ E c tfm template tcount use_digest inject_fault s pre post hsplit
    rcases hash_run_shape E c tfm template tcount use_digest inject_fault s with
      ⟨_, hsetup⟩ | hshape
    · exact absurd rfl (setup_nowait _ (hsetup _ (by rw [hsplit]; simp)))
    · exact run_waitdisc _ _ _ _ _ _ _ _ _ (hash_shape_waitdisc _) (hash_shape_waitdisc _)
        hash_cleanup_setup hshape pre post hsplit
  · intro σ E c tfm enc template tcount inject_fault s pre post hsplit
    rcases skcipher_run_shape E c tfm enc template tcount inject_fault s with
      ⟨_, hsetup⟩ | hshape
    · exact absurd rfl (setup_nowait _ (hsetup _ (by rw [hsplit]; simp)))
    · exact run_waitdisc _ _ _ _ _ _ _ _ _ (fun _ _ _ _ h => h.2) (fun _ _ _ _ h => h.2)
        skcipher_cleanup_setup hshape pre post hsplit

/-- Witness for C12: with a provider that defers every operation, a run of
`moto_test_hash` over one unchunked vector whose callback reports `0` (the wait is
followed by `INIT_COMPLETION`), and a run of `moto_test_skcipher` over one chunked vector
whose callback reports `-5` (the wait is followed by the clean-up only). -/
theorem completion_reinitialised_witness :
    (∃ pre post,
      new_events sample_state (moto_test_hash (deferred_env 0) sample_config ⟨0, 20⟩
        [zero_digest_vec] 1 true 0 sample_state).2 = pre ++ Event.wait 0 :: post ∧
      ((∃ p, post = Event.INIT_COMPLETION :: p) ∨ post = hash_cleanup)) ∧
    (∃ pre post,
      new_events sample_state (moto_test_skcipher (deferred_env (-5)) sample_config ⟨0⟩
        ENCRYPT [sample_chunk_vec] 1 0 sample_state).2 = pre ++ Event.wait 0 :: post ∧
      post = skcipher_cleanup ∧
      ((∃ p, post = Event.INIT_COMPLETION :: p) ∨ post = skcipher_cleanup)) := by
  refine ⟨⟨(List.range 8).map (fun i => Event.get_free_page i true) ++
      [.init_completion, .ahash_request_alloc true,
        .ahash_op 0 .digest [⟨0, 0, 2⟩] 2 (-EINPROGRESS)],
    [.INIT_COMPLETION, .memcmp 0 0 0] ++ hash_cleanup, rfl, ?_⟩,
   ⟨(List.range 8).map (fun i => Event.get_free_page i true) ++
      [.init_completion, .ablkcipher_request_alloc true, .clear_flags,
        .ablkcipher_setkey 0 [1, 2, 3] 3 0,
        .ablkcipher_crypt 0 true [⟨0, 32, 2⟩] 2 (List.replicate 16 0) (-EINPROGRESS)],
    skcipher_cleanup, rfl, rfl, ?_⟩⟩
  · exact completion_reinitialised.2.2.1 (deferred_env 0) sample_config ⟨0, 20⟩
      [zero_digest_vec] 1 true 0 sample_state
      ((List.range 8).map (fun i => Event.get_free_page i true) ++
        [.init_completion, .ahash_request_alloc true,
          .ahash_op 0 .digest [⟨0, 0, 2⟩] 2 (-EINPROGRESS)])
      ([.INIT_COMPLETION, .memcmp 0 0 0] ++ hash_cleanup) rfl
  · exact completion_reinitialised.2.2.2.1 (deferred_env (-5)) sample_config ⟨0⟩ ENCRYPT
      [sample_chunk_vec] 1 0 sample_state
      ((List.range 8).map (fun i => Event.get_free_page i true) ++
        [.init_completion, .ablkcipher_request_alloc true, .clear_flags,
          .ablkcipher_setkey 0 [1, 2, 3] 3 0,
          .ablkcipher_crypt 0 true [⟨0, 32, 2⟩] 2 (List.replicate 16 0) (-EINPROGRESS)])
      skcipher_cleanup rfl

theorem hash_shape_setkey_mem (fits : moto_hash_testvec → Prop) (i : Nat)
    (t : moto_hash_testvec) (f : Flow) (seg : List Event) (h : HashShape fits i t f seg)
    (j : Nat) (key : List Nat) (ksize : Nat) (r : Int)
    (he : Event.ahash_setkey j key ksize r ∈ seg) :
    j = i ∧ key = t.key ∧ ksize = t.ksize ∧ t.ksize ≠ 0 ∧ fits t ∧
      (r ≠ 0 → seg = [.clear_flags, .ahash_setkey j key ksize r] ∧ f = .out r) := by
  rcases h with ⟨_, h1, _⟩ | ⟨hfit, kev, rest, hseg, hk, hq, _⟩
  · rw [h1] at he; simp at he
  · rw [hseg] at he
    rcases List.mem_append.1 he with h1 | h1
    · rcases hk with ⟨_, hk⟩ | ⟨hk0, kret, hk, hlast⟩
      · rw [hk] at h1; simp at h1
      · rw [hk] at h1
        simp only [List.mem_cons, List.mem_singleton] at h1
        rcases h1 with h1 | h1 | h1
        · simp at h1
        · simp only [Event.ahash_setkey.injEq] at h1
          obtain ⟨rfl, rfl, rfl, rfl⟩ := h1
          refine ⟨rfl, rfl, rfl, hk0, hfit, ?_⟩
          intro hr
          have := hlast hr
          rw [hseg, hk, this.1]
          exact ⟨rfl, this.2⟩
        · simp at h1
    · have := (hq _ h1).1
      simp [Event.isHashSetkey] at this

theorem hash_shape_setkey_iff (fits : moto_hash_testvec → Prop) (i : Nat)
    (t : moto_hash_testvec) (f : Flow) (seg : List Event) (h : HashShape fits i t f seg) :
    (∃ e ∈ seg, e.isHashSetkey = true) ↔ (t.ksize ≠ 0 ∧ fits t) := by
  constructor
  · rintro ⟨e, he, hs⟩
    cases e <;> simp [Event.isHashSetkey] at hs
    rename_i j key ksize r
    have := hash_shape_setkey_mem fits i t f seg h j key ksize r he
    exact ⟨this.2.2.2.1, this.2.2.2.2.1⟩
  · rintro ⟨hk0, hfit⟩
    rcases h with ⟨hnf, _⟩ | ⟨_, kev, rest, hseg, hk, _, _⟩
    · exact absurd hfit hnf
    · rcases hk with ⟨hk, _⟩ | ⟨_, kret, hk, _⟩
      · exact absurd hk hk0
      · exact ⟨.ahash_setkey i t.key t.ksize kret, by rw [hseg, hk]; simp, rfl⟩

/-- C14, counterexample.  A table of one chunked hash vector with a one-byte key
(`ksize = 1`) whose chunk of 5000 bytes fails the page-fit check: `moto_test_hash` leaves
with `-EINVAL` before the key step, so set-key is not called although `ksize` is
non-zero. -/
theorem hash_setkey_counterexample :
    bad_chunk_keyed_vec.ksize ≠ 0 ∧
    (∀ e ∈ (moto_test_hash (sample_env 0 none) sample_config ⟨0, 20⟩ [bad_chunk_keyed_vec] 1
      true 0 sample_state).2.trace, e.isHashSetkey = false) ∧
    (moto_test_hash (sample_env 0 none) sample_config ⟨0, 20⟩ [bad_chunk_keyed_vec] 1
      true 0 sample_state).1 = some (-EINVAL) := by
  decide

/-- C14, amended.  The processing of an unchunked hash vector calls set-key exactly when
`ksize` is non-zero; the processing of a chunked hash vector calls it exactly when `ksize`
is non-zero and every chunk passes the page-fit check.  In every run of `moto_test_hash`,
a set-key call is made for a vector of the table with non-zero `ksize`, with that
vector's key and `ksize`; if it returns a non-zero code `r`, the call is directly
followed by the release of the request and of the pages, the runner returns `r`, and no
digest, init, update or final call of the run carries the vector's index. -/
theorem hash_setkey_discipline {σ : Type} (E : Env σ) (c : Config) (tfm : crypto_ahash) :
    (∀ (use_digest : Bool) (inject_fault : Int) (i : Nat) (t : moto_hash_testvec)
      (s : State σ),
      (∃ e ∈ new_events s (hash_unchunked_vec E c tfm use_digest inject_fault i t s).2,
        e.isHashSetkey = true) ↔ t.ksize ≠ 0) ∧
    (∀ (i : Nat) (t : moto_hash_testvec) (s : State σ),
      (∃ e ∈ new_events s (hash_chunked_vec E c tfm i t s).2, e.isHashSetkey = true) ↔
        (t.ksize ≠ 0 ∧ ∀ k < t.np, chunk_fits c t.tap k)) ∧
    (∀ (template : List moto_hash_testvec) (tcount : Nat) (use_digest : Bool)
      (inject_fault : Int) (s : State σ) (j : Nat) (key : List Nat) (ksize : Nat) (r : Int),
      Event.ahash_setkey j key ksize r ∈
        new_events s (moto_test_hash E c tfm template tcount use_digest inject_fault s).2 →
      ∃ t, j < tcount ∧ template[j]? = some t ∧ key = t.key ∧ ksize = t.ksize ∧
        t.ksize ≠ 0 ∧
        (r ≠ 0 →
          (moto_test_hash E c tfm template tcount use_digest inject_fault s).1 = some r ∧
          (∃ pre,
            new_events s (moto_test_hash E c tfm template tcount use_digest inject_fault s).2
              = pre ++ Event.ahash_setkey j key ksize r :: hash_cleanup) ∧
          ∀ e ∈ new_events s
              (moto_test_hash E c tfm template tcount use_digest inject_fault s).2,
            e.isHashOp = true → e.idx ≠ some j)) := by
  refine ⟨?_, ?_, ?_⟩
  · intro use_digest inject_fault i t s
    obtain ⟨seg, hseg, hshape⟩ := hash_unchunked_shape E c tfm use_digest inject_fault i t s
    rw [new_events_append s _ seg hseg, hash_shape_setkey_iff _ i t _ seg hshape]
    simp
  · intro i t s
    obtain ⟨seg, hseg, hshape⟩ := hash_chunked_shape E c tfm i t s
    rw [new_events_append s _ seg hseg, hash_shape_setkey_iff _ i t _ seg hshape]
  · intro template tcount use_digest inject_fault s j key ksize r hmem
    rcases hash_run_shape E c tfm template tcount use_digest inject_fault s with
      ⟨_, hsetup⟩ | hshape
    · have := hsetup _ hmem
      simp [Event.isSetup] at this
    · obtain ⟨t, seg, f, pre, post, hj, ht, hV, hes, hnew, hpre, hpost, hout, _⟩ :=
        run_segment _ _ _ _ _ _ _ _ _ (hash_shape_idx _) (hash_shape_idx _)
          (by
            intro t h1 h2
            simp only [decide_eq_true_eq] at h1 h2
            exact h2 h1)
          hash_cleanup_setup hshape _ hmem j rfl
      have hfacts : key = t.key ∧ ksize = t.ksize ∧ t.ksize ≠ 0 ∧
          (r ≠ 0 → seg = [.clear_flags, .ahash_setkey j key ksize r] ∧ f = .out r) := by
        rcases hV with ⟨_, hV⟩ | ⟨_, hV⟩
        · have := hash_shape_setkey_mem _ j t f seg hV j key ksize r hes
          exact ⟨this.2.1, this.2.2.1, this.2.2.2.1, this.2.2.2.2.2⟩
        · have := hash_shape_setkey_mem _ j t f seg hV j key ksize r hes
          exact ⟨this.2.1, this.2.2.1, this.2.2.2.1, this.2.2.2.2.2⟩
      refine ⟨t, hj, ht, hfacts.1, hfacts.2.1, hfacts.2.2.1, ?_⟩
      intro hr
      obtain ⟨hseg, hf⟩ := hfacts.2.2.2 hr
      obtain ⟨hpost2, hstatus⟩ := hout r hf
      refine ⟨hstatus, ⟨pre ++ [.clear_flags], ?_⟩, ?_⟩
      · rw [hnew, hseg, hpost2]
        simp [List.append_assoc]
      · intro e he hop hc
        rw [hnew] at he
        simp only [List.mem_append] at he
        rcases he with he | he | he
        · exact hpre e he hc
        · rw [hseg] at he
          simp only [List.mem_cons, List.mem_singleton] at he
          rcases he with rfl | rfl | he
          · simp [Event.isHashOp] at hop
          · simp [Event.isHashOp] at hop
          · simp at he
        · exact hpost e he hc

/-- Witness for C14 (amended): a table of one keyed unchunked hash vector, with a provider
whose set-key call returns `-7`. -/
theorem hash_setkey_discipline_witness :
    (moto_test_hash (sample_env (-7) none) sample_config ⟨0, 20⟩ [keyed_vec] 1 true 0
      sample_state).1 = some (-7) := by
  obtain ⟨t, _, _, _, _, _, h⟩ := (hash_setkey_discipline (sample_env (-7) none)
    sample_config ⟨0, 20⟩).2.2 [keyed_vec] 1 true 0 sample_state 0 [1] 1 (-7) (by decide)
  exact (h (by decide)).1

/-! ## The chunk lists of the registered hash tables -/

theorem page_fit_4096 (c : Config) (hc : c.PAGE_SHIFT = 12) (tap : List Nat) (k : Nat) :
    chunk_fits c tap k ↔ (MOTO_IDX.getD k 0 &&& 4095) + tap.getD k 0 ≤ 4096 := by
  unfold chunk_fits offset_in_page PAGE_SIZE
  rw [hc]
  exact Iff.rfl

theorem registered_tap_facts :
    ∀ desc ∈ moto_alg_test_descs, desc.test = .hash →
      desc.hash.vecs.length = desc.hash.count ∧
      ∀ t ∈ desc.hash.vecs, t.np ≠ 0 →
        t.np ≤ XBUFSIZE ∧ t.tap.length = t.np ∧ (t.tap.take t.np).sum = t.psize ∧
        chunk_start t.tap t.np = t.psize ∧
        ∀ k < t.np, (MOTO_IDX.getD k 0 &&& 4095) + t.tap.getD k 0 ≤ 4096 := by
  decide

/-- C26: with 4096-byte pages (`PAGE_SHIFT = 12`), in every hash table of the registry
(whose declared count is the table's length) every vector with a chunk list (`np != 0`)
has `np <= 8` chunk sizes whose sum is the declared plaintext length `psize` (which is
also the running offset the layout loop ends with), and every chunk passes the page-fit
check, so that the layout loop of `moto_test_hash` runs through; in the SHA-1 table the
56-byte vector is split `{28, 28}` and the 163-byte vector `{63, 64, 31, 5}`. -/
theorem registered_chunk_lists (c : Config) (hc : c.PAGE_SHIFT = 12) :
    (∀ desc ∈ moto_alg_test_descs, desc.test = .hash →
      desc.hash.vecs.length = desc.hash.count ∧
      ∀ t ∈ desc.hash.vecs, t.np ≠ 0 →
        t.np ≤ XBUFSIZE ∧ t.np ≤ 8 ∧ t.tap.length = t.np ∧
        (t.tap.take t.np).sum = t.psize ∧
        chunk_start t.tap t.np = t.psize ∧
        (∀ k < t.np, chunk_fits c t.tap k) ∧
        ∀ xbuf : Mem, (hash_layout c t xbuf t.np).isSome = true) ∧
    (∃ d, moto_alg_test_descs[11]? = some d ∧ d.alg = ascii "sha1" ∧ d.test = .hash ∧
      d.hash.vecs = moto_sha1_tv_template) ∧
    (∃ t1 t2 : moto_hash_testvec,
      moto_sha1_tv_template[1]? = some t1 ∧ t1.psize = 56 ∧ t1.np = 2 ∧ t1.tap = [28, 28] ∧
      moto_sha1_tv_template[2]? = some t2 ∧ t2.psize = 163 ∧ t2.np = 4 ∧
      t2.tap = [63, 64, 31, 5]) := by
  refine ⟨?_, ⟨_, rfl, by decide, rfl, rfl⟩, ⟨_, _, rfl, rfl, rfl, rfl, rfl, rfl, rfl, rfl⟩⟩
  intro desc hd ht
  obtain ⟨hlen, hv⟩ := registered_tap_facts desc hd ht
  refine ⟨hlen, ?_⟩
  intro t htm hnp
  obtain ⟨h1, h2, h3, h4, h5⟩ := hv t htm hnp
  have hfit : ∀ k < t.np, chunk_fits c t.tap k :=
    fun k hk => (page_fit_4096 c hc t.tap k).2 (h5 k hk)
  exact ⟨h1, h1, h2, h3, h4, hfit, fun xbuf => (hash_layout_fits c t xbuf).2 hfit⟩

/-- Witness for C26: the sample configuration has 4096-byte pages; the layout loop runs
through for the 163-byte vector of the SHA-1 table. -/
theorem registered_chunk_lists_witness :
    sample_config.PAGE_SHIFT = 12 ∧
    ∀ desc ∈ moto_alg_test_descs, desc.test = .hash →
      ∀ t ∈ desc.hash.vecs, t.np ≠ 0 →
        (t.tap.take t.np).sum = t.psize ∧
        ∀ xbuf : Mem, (hash_layout sample_config t xbuf t.np).isSome = true :=
  ⟨rfl, fun desc hd ht t htm hnp =>
    ⟨(((registered_chunk_lists sample_config rfl).1 desc hd ht).2 t htm hnp).2.2.2.1,
     (((registered_chunk_lists sample_config rfl).1 desc hd ht).2 t htm hnp).2.2.2.2.2.2⟩⟩

/-! ## The decrypt tables mirror the encrypt tables -/

theorem registered_cipher_facts :
    ∀ desc ∈ moto_alg_test_descs, desc.test = .skcipher →
      desc.cipher.enc.vecs.isSome = true ∧ desc.cipher.dec.vecs.isSome = true ∧
      desc.cipher.enc.count = (desc.cipher.enc.vecs.getD []).length ∧
      desc.cipher.dec.count = (desc.cipher.dec.vecs.getD []).length ∧
      desc.cipher.enc.count = desc.cipher.dec.count ∧
      ∀ p ∈ (desc.cipher.enc.vecs.getD []).zip (desc.cipher.dec.vecs.getD []),
        mirrors p.1 p.2 := by
  decide

theorem mirrors_io (c : Config) (t d : moto_cipher_testvec) (h : mirrors t d) :
    vec_key d = vec_key t ∧ vec_iv c d = vec_iv c t ∧ vec_input d = vec_result t ∧
    vec_result d = vec_input t := by
  obtain ⟨h1, h2, h3, h4, h5, h6, h7, _⟩ := h
  unfold vec_key vec_iv vec_input vec_result
  rw [h1, h2, h3, h4, h5, h6, h7]
  exact ⟨rfl, rfl, rfl, rfl⟩

theorem zip_of_getElem? {α β : Type} : ∀ (l1 : List α) (l2 : List β) (i : Nat) (a : α) (b : β),
    l1[i]? = some a → l2[i]? = some b → (a, b) ∈ l1.zip l2
  | [], _, _, _, _, h, _ => by simp at h
  | _ :: _, [], _, _, _, _, h => by simp at h
  | x :: l1, y :: l2, 0, a, b, h1, h2 => by
    simp only [List.getElem?_cons_zero, Option.some.injEq] at h1 h2
    subst h1 h2
    simp
  | x :: l1, y :: l2, i + 1, a, b, h1, h2 => by
    simp only [List.getElem?_cons_succ] at h1 h2
    simp only [List.zip_cons_cons, List.mem_cons]
    exact Or.inr (zip_of_getElem? l1 l2 i a b h1 h2)

/-- C27: every cipher entry of the registry (`cbc(aes)`, `cbc(des3_ede)`, `ctr(aes)`,
`ecb(aes)`, `ecb(des3_ede)`) has an encrypt and a decrypt table of the same declared
count, which is the length of both tables, and for every index `i` the decrypt vector `i`
has the key, key length and IV of the encrypt vector `i`, with input and result (and
their lengths, which are equal) swapped.  Hence two functions of key, IV and input of
which the first gives the expected output for every vector of the encrypt table and the
second for every vector of the decrypt table satisfy `dec(enc(x)) = x` on every input of
the encrypt table.  The first AES ECB vector encrypts `00112233445566778899aabbccddeeff`
under the key `000102030405060708090a0b0c0d0e0f` to `69c4e0d86a7b0430d8cdb78070b4c55a`,
and the first decrypt vector is its reverse. -/
theorem decrypt_mirrors_encrypt :
    ((moto_alg_test_descs.filter (fun d => decide (d.test = .skcipher))).map
        (fun d => d.alg) =
      [ascii "cbc(aes)", ascii "cbc(des3_ede)", ascii "ctr(aes)", ascii "ecb(aes)",
       ascii "ecb(des3_ede)"]) ∧
    (∀ desc ∈ moto_alg_test_descs, desc.test = .skcipher →
      ∃ enc dec : List moto_cipher_testvec,
        desc.cipher.enc.vecs = some enc ∧ desc.cipher.dec.vecs = some dec ∧
        desc.cipher.enc.count = enc.length ∧ desc.cipher.dec.count = dec.length ∧
        dec.length = enc.length ∧
        (∀ (i : Nat) (t d : moto_cipher_testvec), enc[i]? = some t → dec[i]? = some d →
          mirrors t d) ∧
        (∀ (c : Config) (encF decF : List Nat → List Nat → List Nat → List Nat),
          passes_table c encF enc → passes_table c decF dec →
          ∀ t ∈ enc,
            decF (vec_key t) (vec_iv c t) (encF (vec_key t) (vec_iv c t) (vec_input t))
              = vec_input t)) ∧
    (∃ t d : moto_cipher_testvec,
      moto_aes_enc_tv_template[0]? = some t ∧ moto_aes_dec_tv_template[0]? = some d ∧
      t.klen = 16 ∧ t.ilen = 16 ∧ t.rlen = 16 ∧
      to_hex t.key = "000102030405060708090a0b0c0d0e0f" ∧
      to_hex t.input = "00112233445566778899aabbccddeeff" ∧
      to_hex t.result = "69c4e0d86a7b0430d8cdb78070b4c55a" ∧
      to_hex d.key = "000102030405060708090a0b0c0d0e0f" ∧
      to_hex d.input = "69c4e0d86a7b0430d8cdb78070b4c55a" ∧
      to_hex d.result = "00112233445566778899aabbccddeeff") := by
  refine ⟨by decide, ?_, ⟨_, _, rfl, rfl, rfl, rfl, rfl, by decide, by decide, by decide,
    by decide, by decide, by decide⟩⟩
  intro desc hd ht
  obtain ⟨h1, h2, h3, h4, h5, h6⟩ := registered_cipher_facts desc hd ht
  cases he : desc.cipher.enc.vecs with
  | none => rw [he] at h1; simp at h1
  | some enc =>
    cases hdv : desc.cipher.dec.vecs with
    | none => rw [hdv] at h2; simp at h2
    | some dec =>
      rw [he, hdv] at h6
      rw [he] at h3
      rw [hdv] at h4
      simp only [Option.getD_some] at h3 h4 h6
      have hm : ∀ (i : Nat) (t d : moto_cipher_testvec), enc[i]? = some t →
          dec[i]? = some d → mirrors t d :=
        fun i t d hit hid => h6 (t, d) (zip_of_getElem? enc dec i t d hit hid)
      refine ⟨enc, dec, rfl, rfl, h3, h4, by omega, hm, ?_⟩
      intro c encF decF hpe hpd t hmem
      obtain ⟨i, hi, hget⟩ := List.getElem_of_mem hmem
      have hit : enc[i]? = some t := by rw [List.getElem?_eq_getElem hi, hget]
      have hi2 : i < dec.length := by omega
      have hid : dec[i]? = some dec[i] := List.getElem?_eq_getElem hi2
      obtain ⟨k1, k2, k3, k4⟩ := mirrors_io c t dec[i] (hm i t dec[i] hit hid)
      have e1 := hpe t hmem
      have e2 := hpd dec[i] (List.getElem_mem hi2)
      rw [k1, k2, k3, k4] at e2
      rw [e1, e2]

/-! ## The SHA-1 vector for "abc" -/

/-- C28, counterexample.  The first vector of the registered SHA-1 table is the one for the
3-byte input "abc"; its expected digest has the 20 bytes of a SHA-1 digest, so written in
hex it has 40 digits and is not the 39-digit string
`a9993e364706816aba3e25717850c26c9cd0d89`: the digest's last byte is `9d`. -/
theorem sha1_abc_counterexample :
    ∃ t : moto_hash_testvec,
      moto_sha1_tv_template[0]? = some t ∧ t.plaintext = ascii "abc" ∧ t.psize = 3 ∧
      t.np = 0 ∧ t.digest.length = 20 ∧ (to_hex t.digest).length = 40 ∧
      "a9993e364706816aba3e25717850c26c9cd0d89".length = 39 ∧
      to_hex t.digest ≠ "a9993e364706816aba3e25717850c26c9cd0d89" ∧
      t.digest.getLast? = some 0x9d :=
  ⟨_, rfl, by decide, rfl, rfl, rfl, by decide, by decide, by decide, rfl⟩

/-- C28, amended.  The SHA-1 entry of the registry uses the table `moto_sha1_tv_template`;
the table's only vector for the 3-byte input "abc" is its first one; it is unchunked
(`np = 0`) and without key, and its expected digest, written in hex, equals
`a9993e364706816aba3e25717850c26c9cd0d89d`. -/
theorem sha1_abc_digest :
    (∃ d : moto_alg_test_desc, moto_alg_test_descs[11]? = some d ∧ d.alg = ascii "sha1" ∧
      d.hash.vecs = moto_sha1_tv_template ∧ d.hash.count = 3) ∧
    (moto_sha1_tv_template.filter (fun t => decide (t.plaintext = ascii "abc"))).length = 1 ∧
    ∃ t : moto_hash_testvec,
      moto_sha1_tv_template[0]? = some t ∧ t.plaintext = ascii "abc" ∧ t.psize = 3 ∧
      t.np = 0 ∧ t.ksize = 0 ∧
      to_hex t.digest = "a9993e364706816aba3e25717850c26c9cd0d89d" :=
  ⟨⟨_, rfl, by decide, rfl, rfl⟩, by decide, ⟨_, rfl, by decide, rfl, rfl, rfl, by decide⟩⟩

/-! ## The scratch page pool -/

theorem alloc_pages_trace {σ : Type} (E : Env σ) :
    ∀ (n i : Nat) (s : State σ),
      ((alloc_pages E n i s).1 = none ∧
        (alloc_pages E n i s).2.trace
          = s.trace ++ (List.range' i n).map (fun k => Event.get_free_page k true)) ∨
      (∃ j, (alloc_pages E n i s).1 = some j ∧ i ≤ j ∧ j < i + n ∧
        (alloc_pages E n i s).2.trace
          = s.trace ++ (List.range' i (j - i)).map (fun k => Event.get_free_page k true)
              ++ [.get_free_page j false]) := by
  intro n
  induction n with
  | zero => intro i s; left; simp [alloc_pages]
  | succ n ih =>
    intro i s
    rw [alloc_pages]
    cases hg : E.get_free_page s.env with
    | mk o e =>
      cases o with
      | none =>
        right
        exact ⟨i, rfl, le_refl _, by omega, by simp⟩
      | some pg =>
        simp only
        rcases ih (i + 1) _ with ⟨h1, h2⟩ | ⟨j, h1, h2, h3, h4⟩
        · left
          refine ⟨h1, ?_⟩
          rw [h2]
          simp [List.range'_succ]
        · right
          refine ⟨j, h1, by omega, by omega, ?_⟩
          rw [h4]
          obtain ⟨m, hm⟩ : ∃ m, j - i = m + 1 := ⟨j - i - 1, by omega⟩
          have hm2 : j - (i + 1) = m := by omega
          rw [hm, hm2]
          simp [List.range'_succ]

theorem free_pages_below_trace {σ : Type} :
    ∀ (i : Nat) (s : State σ),
      (free_pages_below i s).trace = s.trace ++ (List.range i).reverse.map Event.free_page := by
  intro i
  induction i with
  | zero => intro s; simp [free_pages_below]
  | succ i ih =>
    intro s
    rw [free_pages_below, ih]
    simp [State.log, List.range_succ]

theorem count_free_pages (i k : Nat) (A : List Event)
    (hA : ∀ e ∈ A, ∀ j, e ≠ Event.free_page j) :
    (A ++ (List.range i).reverse.map Event.free_page).count (Event.free_page k)
      = if k < i then 1 else 0 := by
  rw [List.count_append, List.count_eq_zero_of_not_mem (fun h => hA _ h k rfl), Nat.zero_add]
  have hnd : ((List.range i).reverse.map Event.free_page).Nodup :=
    List.Nodup.map (fun a b h => by injection h) (List.nodup_reverse.2 (List.nodup_range i))
  rw [List.count_eq_of_nodup hnd]
  simp

/-- C23: `moto_testmgr_alloc_buf` asks for the pages `buf[0]`, `buf[1]`, ... in turn.  If
all `XBUFSIZE = 8` allocations succeed it returns `0` and frees nothing.  If the
allocation for index `i < 8` is the first to fail, it returns `-ENOMEM` after freeing the
pages `i-1`, ..., `0` acquired in this call and nothing else: `free_page(buf[k])` is called
exactly once for every `k < i` and never for `k >= i`, and no allocation is attempted after
the failed one.  With an allocator that serves three pages, the fourth call fails and
the pages 2, 1, 0 are freed. -/
theorem alloc_buf_no_leak :
    (∀ (σ : Type) (E : Env σ) (s : State σ),
      ((moto_testmgr_alloc_buf E s).1 = 0 ∧
        new_events s (moto_testmgr_alloc_buf E s).2
          = (List.range XBUFSIZE).map (fun k => Event.get_free_page k true)) ∨
      (∃ i < XBUFSIZE, (moto_testmgr_alloc_buf E s).1 = -ENOMEM ∧
        new_events s (moto_testmgr_alloc_buf E s).2
          = (List.range i).map (fun k => Event.get_free_page k true)
              ++ [.get_free_page i false] ++ (List.range i).reverse.map Event.free_page ∧
        ∀ k, (new_events s (moto_testmgr_alloc_buf E s).2).count (Event.free_page k)
          = if k < i then 1 else 0)) ∧
    ((moto_testmgr_alloc_buf (counting_env 3 (fun _ => [])) counting_state).1 = -ENOMEM ∧
      (moto_testmgr_alloc_buf (counting_env 3 (fun _ => [])) counting_state).2.trace
        = [.get_free_page 0 true, .get_free_page 1 true, .get_free_page 2 true,
           .get_free_page 3 false, .free_page 2, .free_page 1, .free_page 0]) ∧
    ((moto_testmgr_alloc_buf (sample_env 0 none) sample_state).1 = 0 ∧
      (moto_testmgr_alloc_buf (sample_env 0 none) sample_state).2.trace
        = (List.range 8).map (fun k => Event.get_free_page k true)) := by
  refine ⟨?_, by decide, by decide⟩
  intro σ E s
  unfold moto_testmgr_alloc_buf
  rcases alloc_pages_trace E XBUFSIZE 0 s with ⟨h1, h2⟩ | ⟨j, h1, _, h3, h4⟩
  · left
    generalize alloc_pages E XBUFSIZE 0 s = A at h1 h2 ⊢
    obtain ⟨o, s1⟩ := A
    simp only at h1 h2
    subst h1
    simp only
    refine ⟨trivial, ?_⟩
    rw [new_events_append s s1 _ h2, List.range_eq_range']
  · right
    generalize alloc_pages E XBUFSIZE 0 s = A at h1 h4 ⊢
    obtain ⟨o, s1⟩ := A
    simp only at h1 h4
    subst h1
    simp only [Nat.sub_zero] at h4 ⊢
    have htr : (free_pages_below j s1).trace
        = s.trace ++ ((List.range j).map (fun k => Event.get_free_page k true)
            ++ [.get_free_page j false] ++ (List.range j).reverse.map Event.free_page) := by
      rw [free_pages_below_trace, h4, List.range_eq_range']
      simp only [List.append_assoc]
    refine ⟨j, by omega, trivial, new_events_append s _ _ htr, ?_⟩
    rw [new_events_append s _ _ htr]
    intro k0
    apply count_free_pages
    intro e he k
    simp only [List.mem_append, List.mem_map, List.mem_range, List.mem_singleton] at he
    rcases he with ⟨a, _, rfl⟩ | rfl <;> simp

/-! ## Empty vector tables -/

theorem alloc_buf_ok_trace {σ : Type} (E : Env σ) (s s1 : State σ)
    (h : moto_testmgr_alloc_buf E s = (0, s1)) :
    s1.trace = s.trace ++ (List.range XBUFSIZE).map (fun k => Event.get_free_page k true) := by
  unfold moto_testmgr_alloc_buf at h
  rcases alloc_pages_trace E XBUFSIZE 0 s with ⟨h1, h2⟩ | ⟨j, h1, _, _, _⟩
  · generalize alloc_pages E XBUFSIZE 0 s = A at h h1 h2
    obtain ⟨o, s2⟩ := A
    simp only at h1 h2
    subst h1
    simp only [Prod.mk.injEq, true_and] at h
    subst h
    rw [h2, List.range_eq_range']
  · generalize alloc_pages E XBUFSIZE 0 s = A at h h1
    obtain ⟨o, s2⟩ := A
    simp only at h1
    subst h1
    simp only [Prod.mk.injEq] at h
    exact absurd h.1 (by decide)

theorem alloc_pages_ok {σ : Type} (E : Env σ)
    (hp : ∀ e, (E.get_free_page e).1.isSome = true) :
    ∀ (n i : Nat) (s : State σ), (alloc_pages E n i s).1 = none := by
  intro n
  induction n with
  | zero => intro i s; rfl
  | succ n ih =>
    intro i s
    rw [alloc_pages]
    have := hp s.env
    cases hg : E.get_free_page s.env with
    | mk o e =>
      rw [hg] at this
      cases o with
      | none => simp at this
      | some pg => exact ih _ _

theorem alloc_buf_ok {σ : Type} (E : Env σ)
    (hp : ∀ e, (E.get_free_page e).1.isSome = true) (s : State σ) :
    ∃ s1, moto_testmgr_alloc_buf E s = (0, s1) := by
  unfold moto_testmgr_alloc_buf
  have := alloc_pages_ok E hp XBUFSIZE 0 s
  generalize alloc_pages E XBUFSIZE 0 s = A at this ⊢
  obtain ⟨o, s2⟩ := A
  simp only at this
  subst this
  exact ⟨s2, rfl⟩

theorem hash_empty_run {σ : Type} (E : Env σ) (c : Config) (tfm : crypto_ahash)
    (template : List moto_hash_testvec) (use_digest : Bool) (inject_fault : Int)
    (s s1 : State σ) (e : σ)
    (ha : moto_testmgr_alloc_buf E s = (0, s1))
    (hr : E.ahash_request_alloc s1.env = (true, e)) :
    moto_test_hash E c tfm template 0 use_digest inject_fault s
      = (some 0, hash_out (hash_loop_start E s1 e)) := by
  unfold moto_test_hash
  rw [ha]
  simp only [ne_eq, not_true_eq_false, if_false, hr, hash_pass1, hash_pass2]
  rfl

theorem skcipher_empty_run {σ : Type} (E : Env σ) (c : Config) (tfm : crypto_ablkcipher)
    (enc : Int) (template : List moto_cipher_testvec) (inject_fault : Int)
    (s s1 : State σ) (e : σ)
    (ha : moto_testmgr_alloc_buf E s = (0, s1))
    (hr : E.ablkcipher_request_alloc s1.env = (true, e)) :
    moto_test_skcipher E c tfm enc template 0 inject_fault s
      = (some 0, skcipher_out (skcipher_loop_start E s1 e)) := by
  unfold moto_test_skcipher
  rw [ha]
  simp only [ne_eq, not_true_eq_false, if_false, hr, skcipher_pass1, skcipher_pass2]
  rfl

theorem hash_empty_ok {σ : Type} (E : Env σ) (c : Config)
    (hp : ∀ e, (E.get_free_page e).1.isSome = true)
    (hq : ∀ e, (E.ahash_request_alloc e).1 = true) (tfm : crypto_ahash)
    (template : List moto_hash_testvec) (use_digest : Bool) (inject_fault : Int)
    (s : State σ) :
    ∃ s2, moto_test_hash E c tfm template 0 use_digest inject_fault s = (some 0, s2) := by
  obtain ⟨s1, ha⟩ := alloc_buf_ok E hp s
  have := hq s1.env
  cases hr : E.ahash_request_alloc s1.env with
  | mk b e =>
    rw [hr] at this
    simp only at this
    subst this
    exact ⟨_, hash_empty_run E c tfm template use_digest inject_fault s s1 e ha hr⟩

theorem skcipher_empty_ok {σ : Type} (E : Env σ) (c : Config)
    (hp : ∀ e, (E.get_free_page e).1.isSome = true)
    (hq : ∀ e, (E.ablkcipher_request_alloc e).1 = true) (tfm : crypto_ablkcipher)
    (enc : Int) (template : List moto_cipher_testvec) (inject_fault : Int) (s : State σ) :
    ∃ s2, moto_test_skcipher E c tfm enc template 0 inject_fault s = (some 0, s2) := by
  obtain ⟨s1, ha⟩ := alloc_buf_ok E hp s
  have := hq s1.env
  cases hr : E.ablkcipher_request_alloc s1.env with
  | mk b e =>
    rw [hr] at this
    simp only at this
    subst this
    exact ⟨_, skcipher_empty_run E c tfm enc template inject_fault s s1 e ha hr⟩

theorem cprng_empty_run {σ : Type} (E : Env σ) (c : Config) (tfm : crypto_rng)
    (template : List moto_cprng_testvec) (inject_fault : Int) (s : State σ)
    (seed : Nat → Nat) (e : σ) (hk : E.kmalloc s.env tfm.seedsize = (some seed, e)) :
    moto_test_cprng E c tfm template 0 inject_fault s
      = (some 0, { s with env := e, trace := s.trace ++ [.kmalloc true] ++ [.kfree] }) := by
  unfold moto_test_cprng
  rw [hk]
  rfl

/-- C29: for a table with zero vectors (`tcount = 0`), when the scratch pages and the
request are obtained, `moto_test_hash` and `moto_test_skcipher` return `0` and call
nothing but the page allocator, `init_completion`, the request allocation and the
release of request and pages; when the seed memory is obtained, `moto_test_cprng` returns
`0` and calls nothing but `kmalloc` and `kfree`.  So with allocations that succeed, the
test function of an entry whose tables are declared with count zero returns `0`, the
status of a passed entry. -/
theorem empty_table_reports_success {σ : Type} (E : Env σ) (c : Config) :
    (∀ (tfm : crypto_ahash) (template : List moto_hash_testvec) (use_digest : Bool)
      (inject_fault : Int) (s s1 : State σ) (e : σ),
      moto_testmgr_alloc_buf E s = (0, s1) → E.ahash_request_alloc s1.env = (true, e) →
      (moto_test_hash E c tfm template 0 use_digest inject_fault s).1 = some 0 ∧
      new_events s (moto_test_hash E c tfm template 0 use_digest inject_fault s).2
        = (List.range XBUFSIZE).map (fun k => Event.get_free_page k true)
            ++ [.init_completion, .ahash_request_alloc true] ++ hash_cleanup) ∧
    (∀ (tfm : crypto_ablkcipher) (enc : Int) (template : List moto_cipher_testvec)
      (inject_fault : Int) (s s1 : State σ) (e : σ),
      moto_testmgr_alloc_buf E s = (0, s1) → E.ablkcipher_request_alloc s1.env = (true, e) →
      (moto_test_skcipher E c tfm enc template 0 inject_fault s).1 = some 0 ∧
      new_events s (moto_test_skcipher E c tfm enc template 0 inject_fault s).2
        = (List.range XBUFSIZE).map (fun k => Event.get_free_page k true)
            ++ [.init_completion, .ablkcipher_request_alloc true] ++ skcipher_cleanup) ∧
    (∀ (tfm : crypto_rng) (template : List moto_cprng_testvec) (inject_fault : Int)
      (s : State σ) (seed : Nat → Nat) (e : σ),
      E.kmalloc s.env tfm.seedsize = (some seed, e) →
      (moto_test_cprng E c tfm template 0 inject_fault s).1 = some 0 ∧
      new_events s (moto_test_cprng E c tfm template 0 inject_fault s).2
        = [.kmalloc true, .kfree]) ∧
    ((∀ e, (E.get_free_page e).1.isSome = true) →
      (∀ (desc : moto_alg_test_desc) (driver : List Nat) (type mask : Nat) (s : State σ)
        (tfm : crypto_ahash) (e : σ),
        (∀ e, (E.ahash_request_alloc e).1 = true) →
        E.crypto_alloc_ahash s.env driver type mask = (.ok tfm, e) →
        desc.hash.count = 0 →
        (moto_alg_test_hash E c desc driver type mask s).1 = some 0) ∧
      (∀ (desc : moto_alg_test_desc) (driver : List Nat) (type mask : Nat) (s : State σ)
        (tfm : crypto_ablkcipher) (e : σ),
        (∀ e, (E.ablkcipher_request_alloc e).1 = true) →
        E.crypto_alloc_ablkcipher s.env driver type mask = (.ok tfm, e) →
        desc.cipher.enc.count = 0 → desc.cipher.dec.count = 0 →
        (moto_alg_test_skcipher E c desc driver type mask s).1 = some 0)) ∧
    (∀ (desc : moto_alg_test_desc) (driver : List Nat) (type mask : Nat) (s : State σ)
      (tfm : crypto_rng) (e : σ),
      (∀ e n, (E.kmalloc e n).1.isSome = true) →
      E.crypto_alloc_rng s.env driver type mask = (.ok tfm, e) →
      desc.cprng.count = 0 →
      (moto_alg_test_cprng E c desc driver type mask s).1 = some 0) := by
  refine ⟨?_, ?_, ?_, ?_, ?_⟩
  · intro tfm template use_digest inject_fault s s1 e ha hr
    rw [hash_empty_run E c tfm template use_digest inject_fault s s1 e ha hr]
    refine ⟨rfl, new_events_append s _ _ ?_⟩
    simp only [hash_out, moto_testmgr_buf, State.log, hash_loop_start, hash_cleanup,
      alloc_buf_ok_trace E s s1 ha]
    simp
  · intro tfm enc template inject_fault s s1 e ha hr
    rw [skcipher_empty_run E c tfm enc template inject_fault s s1 e ha hr]
    refine ⟨rfl, new_events_append s _ _ ?_⟩
    simp only [skcipher_out, moto_testmgr_buf, State.log, skcipher_loop_start,
      skcipher_cleanup, alloc_buf_ok_trace E s s1 ha]
    simp
  · intro tfm template inject_fault s seed e hk
    rw [cprng_empty_run E c tfm template inject_fault s seed e hk]
    exact ⟨rfl, new_events_append s _ _ (by simp)⟩
  · intro hp
    refine ⟨?_, ?_⟩
    · intro desc driver type mask s tfm e hq hal h0
      unfold moto_alg_test_hash
      rw [hal, h0]
      simp only
      obtain ⟨s2, h1⟩ := hash_empty_ok E c hp hq tfm desc.hash.vecs true
        (simple_inject_fault c desc)
        { s with env := e, trace := s.trace ++ [.alloc_tfm .hash driver type mask true] }
      rw [h1]
      simp only [if_true]
      obtain ⟨s3, h2⟩ := hash_empty_ok E c hp hq tfm desc.hash.vecs false
        (simple_inject_fault c desc) s2
      rw [h2]
    · intro desc driver type mask s tfm e hq hal h0 h1
      unfold moto_alg_test_skcipher
      rw [hal, h0, h1]
      simp only
      cases he : desc.cipher.enc.vecs with
      | none =>
        simp only [ne_eq, not_true_eq_false, if_false]
        cases hd : desc.cipher.dec.vecs with
        | none => rfl
        | some dec =>
          simp only
          obtain ⟨s3, h3⟩ := skcipher_empty_ok E c hp hq tfm DECRYPT dec
            (skcipher_inject_fault c desc driver)
            { s with env := e,
                     trace := s.trace ++ [.alloc_tfm .skcipher driver type mask true] }
          rw [h3]
      | some enc =>
        simp only
        obtain ⟨s2, h2⟩ := skcipher_empty_ok E c hp hq tfm ENCRYPT enc
          (skcipher_inject_fault c desc driver)
          { s with env := e,
                   trace := s.trace ++ [.alloc_tfm .skcipher driver type mask true] }
        rw [h2]
        simp only [ne_eq, not_true_eq_false, if_false]
        cases hd : desc.cipher.dec.vecs with
        | none => rfl
        | some dec =>
          simp only
          obtain ⟨s3, h3⟩ := skcipher_empty_ok E c hp hq tfm DECRYPT dec
            (skcipher_inject_fault c desc driver) s2
          rw [h3]
  · intro desc driver type mask s tfm e hk hal h0
    unfold moto_alg_test_cprng
    rw [hal, h0]
    simp only
    have := hk e tfm.seedsize
    cases hkm : E.kmalloc e tfm.seedsize with
    | mk o e1 =>
      rw [hkm] at this
      cases o with
      | none => simp at this
      | some seed =>
        rw [cprng_empty_run E c tfm desc.cprng.vecs (simple_inject_fault c desc) _ seed e1
          (by simpa using hkm)]

/-- Witness for C29: the three runners on an empty table, and the hash test function on an
entry declared with count zero, in the sample environment. -/
theorem empty_table_reports_success_witness :
    (moto_test_hash (sample_env 0 none) sample_config ⟨0, 20⟩ [] 0 true 0
      sample_state).1 = some 0 ∧
    (moto_test_skcipher (sample_env 0 none) sample_config ⟨0⟩ ENCRYPT [] 0 0
      sample_state).1 = some 0 ∧
    (moto_test_cprng (sample_env 0 none) sample_config ⟨0, 48⟩ [] 0 0
      sample_state).1 = some 0 ∧
    (moto_alg_test_hash (sample_env 0 none) sample_config empty_hash_desc (ascii "empty")
      0 0 sample_state).1 = some 0 :=
  ⟨((empty_table_reports_success (sample_env 0 none) sample_config).1 ⟨0, 20⟩ [] true 0
      sample_state _ () rfl rfl).1,
   ((empty_table_reports_success (sample_env 0 none) sample_config).2.1 ⟨0⟩ ENCRYPT [] 0
      sample_state _ () rfl rfl).1,
   ((empty_table_reports_success (sample_env 0 none) sample_config).2.2.1 ⟨0, 48⟩ [] 0
      sample_state _ () rfl).1,
   ((empty_table_reports_success (sample_env 0 none) sample_config).2.2.2.1
      (fun _ => rfl)).1 empty_hash_desc (ascii "empty") 0 0 sample_state ⟨0, 20⟩ ()
      (fun _ => rfl) rfl rfl⟩

/-! ## The status of "no test" and of a passed test -/

set_option maxRecDepth 100000 in
/-- C30, counterexample.  The name `cbc(des3_ede)` resolves (entry 2) and `moto-des3-cbc`
does not; with a provider that gives the registered triple-DES CBC answers, both tables
of the entry pass (two comparisons, both equal) and `moto_alg_test` logs "passed" and
returns `0`.  Neither `md5` nor `moto-md5` resolves; `moto_alg_test` logs "No test" and
returns `0` as well: the two cases return the same status value. -/
theorem no_test_status_counterexample :
    moto_alg_find_test (ascii "cbc(des3_ede)") = some 2 ∧
    moto_alg_find_test (ascii "moto-des3-cbc") = some (-1) ∧
    moto_alg_find_test (ascii "md5") = some (-1) ∧
    moto_alg_find_test (ascii "moto-md5") = some (-1) ∧
    (moto_alg_test (table_cipher_env moto_des3_ede_cbc_enc_tv_template
        moto_des3_ede_cbc_dec_tv_template) sample_config (ascii "moto-des3-cbc")
      (ascii "cbc(des3_ede)") 0 0 sample_state).1 = some 0 ∧
    (moto_alg_test (table_cipher_env moto_des3_ede_cbc_enc_tv_template
        moto_des3_ede_cbc_dec_tv_template) sample_config (ascii "moto-des3-cbc")
      (ascii "cbc(des3_ede)") 0 0 sample_state).2.trace.getLast? = some .printk_passed ∧
    (moto_alg_test (table_cipher_env moto_des3_ede_cbc_enc_tv_template
        moto_des3_ede_cbc_dec_tv_template) sample_config (ascii "moto-des3-cbc")
      (ascii "cbc(des3_ede)") 0 0 sample_state).2.trace.filter Event.isMemcmp
        = [.memcmp 0 0 0, .memcmp 0 0 0] ∧
    (moto_alg_test (table_cipher_env moto_des3_ede_cbc_enc_tv_template
        moto_des3_ede_cbc_dec_tv_template) sample_config (ascii "moto-md5")
      (ascii "md5") 0 0 sample_state).1 = some 0 ∧
    (moto_alg_test (table_cipher_env moto_des3_ede_cbc_enc_tv_template
        moto_des3_ede_cbc_dec_tv_template) sample_config (ascii "moto-md5")
      (ascii "md5") 0 0 sample_state).2.trace = [.printk_no_test] := by
  decide

theorem int_or_zero_zero : int_or 0 0 = 0 := by decide

/-- C30, amended.  When neither name resolves, `moto_alg_test` logs "No test" and returns
`0`.  When a name resolves and the tests of every resolved entry return `0`, it logs
"passed" and returns `0`.  So the two outcomes are distinct in the message logged and
equal in the status value; a run with a resolved name logs "passed" when it returns `0`
and "NOT passed" when it returns another value, and never "No test". -/
theorem no_test_same_status {σ : Type} (E : Env σ) (c : Config) (driver alg : List Nat)
    (type mask : Nat) (s : State σ) (i j : Int)
    (hi : moto_alg_find_test alg = some i) (hj : moto_alg_find_test driver = some j) :
    (i < 0 → j < 0 →
      moto_alg_test E c driver alg type mask s = (some 0, s.log [.printk_no_test])) ∧
    (0 ≤ i → j < 0 → ∀ s1, run_entry E c i.toNat driver type mask s = (some 0, s1) →
      moto_alg_test E c driver alg type mask s = (some 0, s1.log [.printk_passed])) ∧
    (i < 0 → 0 ≤ j → ∀ s1, run_entry E c j.toNat driver type mask s = (some 0, s1) →
      moto_alg_test E c driver alg type mask s = (some 0, s1.log [.printk_passed])) ∧
    (0 ≤ i → 0 ≤ j → ∀ s1 s2, run_entry E c i.toNat driver type mask s = (some 0, s1) →
      run_entry E c j.toNat driver type mask s1 = (some 0, s2) →
      moto_alg_test E c driver alg type mask s = (some 0, s2.log [.printk_passed])) ∧
    (¬ (i < 0 ∧ j < 0) → ∀ rc s1,
      moto_alg_test E c driver alg type mask s = (some rc, s1) →
      (rc = 0 → s1.trace.getLast? = some .printk_passed) ∧
      (rc ≠ 0 → s1.trace.getLast? = some .printk_not_passed)) := by
  refine ⟨?_, ?_, ?_, ?_, ?_⟩
  · intro h1 h2
    unfold moto_alg_test
    rw [hi, hj]
    simp only [if_pos (And.intro h1 h2)]
  · intro h1 h2 s1 hr
    unfold moto_alg_test
    rw [hi, hj]
    simp only
    rw [if_neg (by omega), if_pos (by omega : i ≥ 0), hr]
    simp only [int_or_zero_zero]
    rw [if_neg (by omega : ¬ j ≥ 0)]
    simp
  · intro h1 h2 s1 hr
    unfold moto_alg_test
    rw [hi, hj]
    simp only
    rw [if_neg (by omega), if_neg (by omega : ¬ i ≥ 0)]
    simp only
    rw [if_pos (by omega : j ≥ 0), hr]
    simp [int_or_zero_zero]
  · intro h1 h2 s1 s2 hr1 hr2
    unfold moto_alg_test
    rw [hi, hj]
    simp only
    rw [if_neg (by omega), if_pos (by omega : i ≥ 0), hr1]
    simp only [int_or_zero_zero]
    rw [if_pos (by omega : j ≥ 0), hr2]
    simp [int_or_zero_zero]
  · intro hn rc s1
    unfold moto_alg_test
    rw [hi, hj]
    simp only
    rw [if_neg hn]
    intro h
    split at h
    · simp at h
    · split at h
      · simp at h
      · rename_i rc2 sb _
        by_cases h0 : rc2 = 0
        · rw [if_pos h0] at h
          simp only [Prod.mk.injEq, Option.some.injEq] at h
          obtain ⟨rfl, rfl⟩ := h
          exact ⟨fun _ => by simp [State.log], fun h => absurd h0 h⟩
        · rw [if_neg h0] at h
          simp only [Prod.mk.injEq, Option.some.injEq] at h
          obtain ⟨rfl, rfl⟩ := h
          exact ⟨fun h => absurd h h0, fun _ => by simp [State.log]⟩

set_option maxRecDepth 100000 in
/-- Witness for C30 (amended): `md5` and `moto-md5` do not resolve; `cbc(des3_ede)`
resolves and passes with the provider that gives the registered answers. -/
theorem no_test_same_status_witness :
    moto_alg_test (sample_env 0 none) sample_config (ascii "moto-md5") (ascii "md5") 0 0
        sample_state = (some 0, sample_state.log [.printk_no_test]) ∧
    moto_alg_test (table_cipher_env moto_des3_ede_cbc_enc_tv_template
        moto_des3_ede_cbc_dec_tv_template) sample_config (ascii "moto-des3-cbc")
      (ascii "cbc(des3_ede)") 0 0 sample_state =
      (some 0, (run_entry (table_cipher_env moto_des3_ede_cbc_enc_tv_template
        moto_des3_ede_cbc_dec_tv_template) sample_config 2 (ascii "moto-des3-cbc") 0 0
        sample_state).2.log [.printk_passed]) :=
  ⟨(no_test_same_status (sample_env 0 none) sample_config (ascii "moto-md5") (ascii "md5")
      0 0 sample_state (-1) (-1) (by decide) (by decide)).1 (by decide) (by decide),
   (no_test_same_status (table_cipher_env moto_des3_ede_cbc_enc_tv_template
        moto_des3_ede_cbc_dec_tv_template) sample_config (ascii "moto-des3-cbc")
      (ascii "cbc(des3_ede)") 0 0 sample_state 2 (-1) (by decide) (by decide)).2.1
      (by decide) (by decide) _ (Prod.ext (by decide) rfl)⟩

/-! ## The seed handed to the RNG -/

theorem cprng_seed_v (t : moto_cprng_testvec) (seed : Nat → Nat) (j : Nat) (h : j < t.vlen) :
    cprng_seed t seed j = byteAt t.v j := by
  unfold cprng_seed
  rw [if_neg (by omega), if_neg (by omega), if_pos h]

theorem cprng_seed_key (t : moto_cprng_testvec) (seed : Nat → Nat) (j : Nat)
    (h1 : t.vlen ≤ j) (h2 : j < t.vlen + t.klen) :
    cprng_seed t seed j = byteAt t.key (j - t.vlen) := by
  unfold cprng_seed
  rw [if_neg (by omega), if_pos ⟨h1, h2⟩]

theorem cprng_seed_dt (t : moto_cprng_testvec) (seed : Nat → Nat) (j : Nat)
    (h1 : t.vlen + t.klen ≤ j) (h2 : j < t.vlen + t.klen + t.dtlen) :
    cprng_seed t seed j = byteAt t.dt (j - (t.vlen + t.klen)) := by
  unfold cprng_seed
  rw [if_pos ⟨h1, h2⟩]

theorem cprng_seed_rest (t : moto_cprng_testvec) (seed : Nat → Nat) (j : Nat)
    (h : t.vlen + t.klen + t.dtlen ≤ j) :
    cprng_seed t seed j = seed j := by
  unfold cprng_seed
  rw [if_neg (by omega), if_neg (by omega), if_neg (by omega)]

theorem cprng_seed_concat (t : moto_cprng_testvec) (seed : Nat → Nat) :
    (List.range (t.vlen + t.klen + t.dtlen)).map (cprng_seed t seed)
      = (List.range t.vlen).map (byteAt t.v) ++ (List.range t.klen).map (byteAt t.key)
          ++ (List.range t.dtlen).map (byteAt t.dt) := by
  apply List.ext_getElem?
  intro j
  by_cases h1 : j < t.vlen
  · rw [List.append_assoc, List.getElem?_append_left (by simpa using h1)]
    simp only [List.getElem?_map]
    rw [List.getElem?_range (by omega), List.getElem?_range h1]
    simp only [Option.map_some']
    rw [cprng_seed_v t seed j h1]
  · by_cases h2 : j < t.vlen + t.klen
    · rw [List.getElem?_append_left (by simp; omega),
        List.getElem?_append_right (by simp; omega)]
      simp only [List.getElem?_map, List.length_map, List.length_range]
      rw [List.getElem?_range (by omega), List.getElem?_range (by omega)]
      simp only [Option.map_some']
      rw [cprng_seed_key t seed j (by omega) h2]
    · by_cases h3 : j < t.vlen + t.klen + t.dtlen
      · rw [List.getElem?_append_right (by simp; omega)]
        simp only [List.getElem?_map, List.length_map, List.length_range, List.length_append]
        rw [List.getElem?_range h3, List.getElem?_range (by omega)]
        simp only [Option.map_some']
        rw [cprng_seed_dt t seed j (by omega) h3]
      · rw [List.getElem?_eq_none (by simp; omega), List.getElem?_eq_none (by simp; omega)]

theorem get_loop_events {σ : Type} (E : Env σ) (tfm : crypto_rng) (i rlen : Nat) :
    ∀ (n : Nat) (result : Nat → Nat) (s : State σ),
      ∃ rets : List Int, rets.length ≤ n ∧
        (cprng_get_loop E tfm i rlen n result s).2.2.trace
          = s.trace ++ rets.map (fun r => Event.rng_get_bytes i rlen r) := by
  intro n
  induction n with
  | zero => intro result s; exact ⟨[], by simp, by simp [cprng_get_loop]⟩
  | succ n ih =>
    intro result s
    rw [cprng_get_loop]
    cases hg : E.crypto_rng_get_bytes s.env tfm rlen result with
    | mk err0 p =>
      obtain ⟨result1, e⟩ := p
      try simp only
      by_cases hne : err0 ≠ (rlen : Int)
      · rw [if_pos hne]
        exact ⟨[err0], by simp, rfl⟩
      · rw [if_neg hne]
        obtain ⟨rets, hl, ht⟩ := ih result1
          { s with env := e, trace := s.trace ++ [.rng_get_bytes i rlen err0] }
        exact ⟨err0 :: rets, by simp; omega, by rw [ht]; simp⟩

/-- C22: for every RNG vector, `moto_test_cprng` calls `crypto_rng_reset` first, once,
with the length `crypto_rng_seedsize(tfm)` and a seed buffer in which the bytes
`[0, vlen)` are `v`, the bytes `[vlen, vlen + klen)` are `key` and the bytes
`[vlen + klen, vlen + klen + dtlen)` are `dt` (bytes beyond are what the buffer held
before); when the three lengths add up to the seed size the buffer is the concatenation
`v || key || dt`, as for all registered vectors with a 48-byte seed.  If the call
returns a non-zero code `r`, nothing else is called for the vector, and the runner frees
the seed memory and returns `r`, without any call of `crypto_rng_get_bytes`. -/
theorem seed_is_v_key_dt {σ : Type} (E : Env σ) (c : Config) (tfm : crypto_rng)
    (inject_fault : Int) (i : Nat) (t : moto_cprng_testvec) (seed : Nat → Nat)
    (s : State σ) :
    (∃ (buf : List Nat) (r : Int) (e : σ) (rest : List Event),
      E.crypto_rng_reset s.env tfm buf tfm.seedsize = (r, e) ∧
      new_events s (cprng_vec E c tfm inject_fault i t seed s).2.2
        = .rng_reset i buf tfm.seedsize r :: rest ∧
      (∀ ev ∈ rest, ∀ j b l x, ev ≠ Event.rng_reset j b l x) ∧
      buf.length = tfm.seedsize ∧
      (∀ j < tfm.seedsize, j < t.vlen → buf[j]? = some (byteAt t.v j)) ∧
      (∀ j < tfm.seedsize, t.vlen ≤ j → j < t.vlen + t.klen →
        buf[j]? = some (byteAt t.key (j - t.vlen))) ∧
      (∀ j < tfm.seedsize, t.vlen + t.klen ≤ j → j < t.vlen + t.klen + t.dtlen →
        buf[j]? = some (byteAt t.dt (j - (t.vlen + t.klen)))) ∧
      (∀ j < tfm.seedsize, t.vlen + t.klen + t.dtlen ≤ j → buf[j]? = some (seed j)) ∧
      (t.vlen + t.klen + t.dtlen = tfm.seedsize →
        buf = (List.range t.vlen).map (byteAt t.v) ++ (List.range t.klen).map (byteAt t.key)
                ++ (List.range t.dtlen).map (byteAt t.dt)) ∧
      (r ≠ 0 → rest = [] ∧ (cprng_vec E c tfm inject_fault i t seed s).1 = some r ∧
        ∀ (template : List moto_cprng_testvec) (tcount : Nat) (s0 : State σ),
          CprngReach E c tfm template tcount inject_fault s0 i seed s →
          template[i]? = some t →
          (moto_test_cprng E c tfm template tcount inject_fault s0).1 = some r ∧
          (moto_test_cprng E c tfm template tcount inject_fault s0).2.trace
            = s.trace ++ [.rng_reset i buf tfm.seedsize r, .kfree])) ∧
    (∀ t0 ∈ moto_ansi_cprng_aes_tv_template,
      t0.vlen = 16 ∧ t0.klen = 16 ∧ t0.dtlen = 16 ∧ t0.v.length = 16 ∧ t0.key.length = 16 ∧
      t0.dt.length = 16 ∧ t0.vlen + t0.klen + t0.dtlen = 48) := by
  refine ⟨?_, by decide⟩
  have hget : ∀ j < tfm.seedsize,
      ((List.range tfm.seedsize).map (cprng_seed t seed))[j]? = some (cprng_seed t seed j) := by
    intro j hj
    rw [List.getElem?_map, List.getElem?_range hj]
    rfl
  cases hr : E.crypto_rng_reset s.env tfm ((List.range tfm.seedsize).map (cprng_seed t seed))
      tfm.seedsize with
  | mk r e =>
    have hv := cprng_vec_unfold E c tfm inject_fault i t seed s
    rw [hr] at hv
    simp only at hv
    have hfacts : ((List.range tfm.seedsize).map (cprng_seed t seed)).length = tfm.seedsize ∧
        (∀ j < tfm.seedsize, j < t.vlen →
          ((List.range tfm.seedsize).map (cprng_seed t seed))[j]? = some (byteAt t.v j)) ∧
        (∀ j < tfm.seedsize, t.vlen ≤ j → j < t.vlen + t.klen →
          ((List.range tfm.seedsize).map (cprng_seed t seed))[j]?
            = some (byteAt t.key (j - t.vlen))) ∧
        (∀ j < tfm.seedsize, t.vlen + t.klen ≤ j → j < t.vlen + t.klen + t.dtlen →
          ((List.range tfm.seedsize).map (cprng_seed t seed))[j]?
            = some (byteAt t.dt (j - (t.vlen + t.klen)))) ∧
        (∀ j < tfm.seedsize, t.vlen + t.klen + t.dtlen ≤ j →
          ((List.range tfm.seedsize).map (cprng_seed t seed))[j]? = some (seed j)) ∧
        (t.vlen + t.klen + t.dtlen = tfm.seedsize →
          (List.range tfm.seedsize).map (cprng_seed t seed)
            = (List.range t.vlen).map (byteAt t.v) ++ (List.range t.klen).map (byteAt t.key)
                ++ (List.range t.dtlen).map (byteAt t.dt)) := by
      refine ⟨by simp, ?_, ?_, ?_, ?_, ?_⟩
      · intro j hj h1
        rw [hget j hj, cprng_seed_v t seed j h1]
      · intro j hj h1 h2
        rw [hget j hj, cprng_seed_key t seed j h1 h2]
      · intro j hj h1 h2
        rw [hget j hj, cprng_seed_dt t seed j h1 h2]
      · intro j hj h1
        rw [hget j hj, cprng_seed_rest t seed j h1]
      · intro h
        rw [← h]
        exact cprng_seed_concat t seed
    obtain ⟨f1, f2, f3, f4, f5, f6⟩ := hfacts
    by_cases h0 : r ≠ 0
    · rw [if_pos h0] at hv
      refine ⟨_, r, e, [], hr, ?_, by simp, f1, f2, f3, f4, f5, f6, ?_⟩
      · rw [hv]
        exact new_events_append s _ _ rfl
      · intro _
        refine ⟨rfl, by rw [hv], ?_⟩
        intro template tcount s0 hreach ht
        rw [cprng_reach_exit E c tfm template tcount inject_fault s0 s _ i seed _ t r
          hreach ht hv]
        exact ⟨rfl, by simp [State.log]⟩
    · rw [if_neg h0] at hv
      obtain ⟨rets, _, hrets⟩ := get_loop_events E tfm i t.rlen t.loops (fun _ => 0)
        { s with env := e,
                 trace := s.trace ++ [.rng_reset i
                   ((List.range tfm.seedsize).map (cprng_seed t seed)) tfm.seedsize r] }
      generalize cprng_get_loop E tfm i t.rlen t.loops (fun _ => 0)
        { s with env := e,
                 trace := s.trace ++ [.rng_reset i
                   ((List.range tfm.seedsize).map (cprng_seed t seed)) tfm.seedsize r] }
        = G at hv hrets
      obtain ⟨o, result, s2⟩ := G
      simp only at hrets
      have hnr : ∀ ev ∈ rets.map (fun r => Event.rng_get_bytes i t.rlen r),
          ∀ j b l x, ev ≠ Event.rng_reset j b l x := by
        intro ev hev j b l x
        simp only [List.mem_map] at hev
        obtain ⟨a, _, rfl⟩ := hev
        simp
      cases o with
      | some err1 =>
        simp only at hv
        refine ⟨_, r, e, rets.map (fun r => Event.rng_get_bytes i t.rlen r), hr, ?_, hnr,
          f1, f2, f3, f4, f5, f6, fun h => absurd h h0⟩
        rw [hv]
        exact new_events_append s _ _ (by rw [hrets]; simp)
      | none =>
        simp only at hv
        refine ⟨_, r, e, rets.map (fun r => Event.rng_get_bytes i t.rlen r) ++
          [.memcmp i 0 (memcmp (if c.FAULT_INJECTION ∧ inject_fault ≠ 0
            then flip_first result else result) (byteAt t.result) t.rlen)], hr, ?_, ?_,
          f1, f2, f3, f4, f5, f6, fun h => absurd h h0⟩
        · rw [hv]
          by_cases hc : memcmp (if c.FAULT_INJECTION ∧ inject_fault ≠ 0
              then flip_first result else result) (byteAt t.result) t.rlen ≠ 0
          · rw [if_pos hc]
            exact new_events_append s _ _ (by simp [State.log, hrets])
          · rw [if_neg hc]
            exact new_events_append s _ _ (by simp [State.log, hrets])
        · intro ev hev
          rcases List.mem_append.1 hev with h | h
          · exact hnr ev h
          · simp only [List.mem_singleton] at h
            subst h
            intro j b l x
            simp

/-- Witness for C22: a table of one RNG vector with `v = 03`, `key = 01`, `dt = 02`, with a
provider whose reset returns `-5`. -/
theorem seed_is_v_key_dt_witness :
    (moto_test_cprng (reset_env (-5)) sample_config ⟨0, 48⟩ [sample_rng_vec] 1 0
      sample_state).1 = some (-5) ∧
    (moto_test_cprng (reset_env (-5)) sample_config ⟨0, 48⟩ [sample_rng_vec] 1 0
      sample_state).2.trace
      = [.kmalloc true, .rng_reset 0 ([3, 1, 2] ++ List.replicate 45 0) 48 (-5), .kfree] := by
  obtain ⟨⟨buf, r, e, rest, hcall, _, _, _, _, _, _, _, _, hfail⟩, _⟩ :=
    seed_is_v_key_dt (reset_env (-5)) sample_config ⟨0, 48⟩ 0 0 sample_rng_vec (fun _ => 0)
      { sample_state with trace := [.kmalloc true] }
  have hr : r = -5 := (Prod.mk.inj hcall).1.symm
  subst hr
  exact ⟨((hfail (by decide)).2.2 [sample_rng_vec] 1 sample_state
    ⟨by decide, fun _ => 0, (), rfl, rfl⟩ rfl).1, by decide⟩

/-! ## The RNG runner compares the last output only -/

theorem getLast_snd_cons (a : Int × (Nat → Nat)) (l : List (Int × (Nat → Nat)))
    (result : Nat → Nat) :
    (((a :: l).getLast?).map Prod.snd).getD result = ((l.getLast?).map Prod.snd).getD a.2 := by
  cases l with
  | nil => simp
  | cons b l => rw [List.getLast?_cons_cons]; simp [List.getLast?_cons]

theorem rng_reads_length {σ : Type} (E : Env σ) (tfm : crypto_rng) (rlen : Nat) :
    ∀ (n : Nat) (result : Nat → Nat) (e : σ), (rng_reads E tfm rlen n result e).length = n := by
  intro n
  induction n with
  | zero => intro result e; rfl
  | succ n ih =>
    intro result e
    rw [rng_reads]
    simp [ih]

theorem get_loop_full {σ : Type} (E : Env σ) (tfm : crypto_rng) (i rlen : Nat) :
    ∀ (n : Nat) (result : Nat → Nat) (s : State σ),
      (∀ p ∈ rng_reads E tfm rlen n result s.env, p.1 = (rlen : Int)) →
      (cprng_get_loop E tfm i rlen n result s).1 = none ∧
      (cprng_get_loop E tfm i rlen n result s).2.1
        = (((rng_reads E tfm rlen n result s.env).getLast?).map Prod.snd).getD result ∧
      (cprng_get_loop E tfm i rlen n result s).2.2.trace
        = s.trace ++ List.replicate n (Event.rng_get_bytes i rlen rlen) := by
  intro n
  induction n with
  | zero => intro result s _; simp [cprng_get_loop, rng_reads]
  | succ n ih =>
    intro result s hfull
    rw [cprng_get_loop]
    rw [rng_reads] at hfull ⊢
    cases hg : E.crypto_rng_get_bytes s.env tfm rlen result with
    | mk err0 p =>
      obtain ⟨result1, e⟩ := p
      rw [hg] at hfull
      simp only at hfull ⊢
      have h0 : err0 = (rlen : Int) := hfull (err0, result1) (List.mem_cons_self _ _)
      rw [if_neg (by rw [h0]; simp)]
      obtain ⟨h1, h2, h3⟩ := ih result1
        { s with env := e, trace := s.trace ++ [.rng_get_bytes i rlen err0] }
        (fun p hp => hfull p (List.mem_cons_of_mem _ hp))
      refine ⟨h1, ?_, ?_⟩
      · rw [h2, getLast_snd_cons]
      · rw [h3, h0]
        simp [List.replicate_succ]

theorem cprng_vec_full {σ : Type} (E : Env σ) (c : Config) (tfm : crypto_rng)
    (inject_fault : Int) (i : Nat) (t : moto_cprng_testvec) (seed : Nat → Nat)
    (s : State σ) (e : σ)
    (hr : E.crypto_rng_reset s.env tfm ((List.range tfm.seedsize).map (cprng_seed t seed))
      tfm.seedsize = (0, e))
    (hfull : ∀ p ∈ rng_reads E tfm t.rlen t.loops (fun _ => 0) e, p.1 = (t.rlen : Int))
    (last : Nat → Nat)
    (hlast : last = (((rng_reads E tfm t.rlen t.loops (fun _ => 0) e).getLast?).map
      Prod.snd).getD (fun _ => 0)) :
    (cprng_vec E c tfm inject_fault i t seed s).1 = rng_verdict c inject_fault t last ∧
    (cprng_vec E c tfm inject_fault i t seed s).2.2.trace
      = s.trace ++ ([.rng_reset i ((List.range tfm.seedsize).map (cprng_seed t seed))
            tfm.seedsize 0]
          ++ List.replicate t.loops (Event.rng_get_bytes i t.rlen t.rlen)
          ++ [.memcmp i 0 (memcmp (if c.FAULT_INJECTION ∧ inject_fault ≠ 0
                then flip_first last else last) (byteAt t.result) t.rlen)]) := by
  obtain ⟨h1, h2, h3⟩ := get_loop_full E tfm i t.rlen t.loops (fun _ => 0)
    { s with env := e,
             trace := s.trace ++ [.rng_reset i
               ((List.range tfm.seedsize).map (cprng_seed t seed)) tfm.seedsize 0] } hfull
  generalize hG : cprng_get_loop E tfm i t.rlen t.loops (fun _ => 0)
    { s with env := e,
             trace := s.trace ++ [.rng_reset i
               ((List.range tfm.seedsize).map (cprng_seed t seed)) tfm.seedsize 0] }
    = G at h1 h2 h3
  obtain ⟨o, result, s2⟩ := G
  simp only at h1 h2 h3
  subst h1
  rw [← hlast] at h2
  subst h2
  rw [cprng_vec_ok E c tfm inject_fault i t seed s s2 e result hr hG]
  unfold rng_verdict
  by_cases hc : memcmp (if c.FAULT_INJECTION ∧ inject_fault ≠ 0
      then flip_first result else result) (byteAt t.result) t.rlen ≠ 0
  · rw [if_pos hc, if_pos hc]
    exact ⟨rfl, by simp [State.log, h3]⟩
  · rw [if_neg hc, if_neg hc]
    exact ⟨rfl, by simp [State.log, h3]⟩

theorem rng_verdict_congr (c : Config) (inject_fault : Int) (t : moto_cprng_testvec)
    (a b : Nat → Nat) (h : ∀ j < t.rlen, a j = b j) :
    rng_verdict c inject_fault t a = rng_verdict c inject_fault t b := by
  unfold rng_verdict
  have : memcmp (if c.FAULT_INJECTION ∧ inject_fault ≠ 0 then flip_first a else a)
        (byteAt t.result) t.rlen
      = memcmp (if c.FAULT_INJECTION ∧ inject_fault ≠ 0 then flip_first b else b)
        (byteAt t.result) t.rlen := by
    apply memcmp_congr
    · intro j hj
      by_cases hf : c.FAULT_INJECTION ∧ inject_fault ≠ 0
      · rw [if_pos hf, if_pos hf]
        unfold flip_first
        by_cases h0 : j = 0
        · rw [if_pos h0, if_pos h0, h 0 (by omega)]
        · rw [if_neg h0, if_neg h0, h j hj]
      · rw [if_neg hf, if_neg hf, h j hj]
    · intro j _; rfl
  rw [this]

theorem cprng_vec_idx {σ : Type} (E : Env σ) (c : Config) (tfm : crypto_rng)
    (inject_fault : Int) (i : Nat) (t : moto_cprng_testvec) (seed : Nat → Nat)
    (s : State σ) :
    ∃ new, (cprng_vec E c tfm inject_fault i t seed s).2.2.trace = s.trace ++ new ∧
      ∀ ev ∈ new, ev.idx = some i := by
  rw [cprng_vec_unfold]
  generalize cprng_seed t seed = seed3
  cases hr : E.crypto_rng_reset s.env tfm (List.map seed3 (List.range tfm.seedsize))
      tfm.seedsize with
  | mk r e =>
    simp only
    by_cases h0 : r ≠ 0
    · rw [if_pos h0]
      exact ⟨[_], rfl, by simp [Event.idx]⟩
    · rw [if_neg h0]
      obtain ⟨rets, _, hrets⟩ := get_loop_events E tfm i t.rlen t.loops (fun _ => 0)
        { s with env := e,
                 trace := s.trace ++ [.rng_reset i (List.map seed3 (List.range tfm.seedsize))
                   tfm.seedsize r] }
      generalize cprng_get_loop E tfm i t.rlen t.loops (fun _ => 0)
        { s with env := e,
                 trace := s.trace ++ [.rng_reset i (List.map seed3 (List.range tfm.seedsize))
                   tfm.seedsize r] } = G at hrets ⊢
      obtain ⟨o, result, s2⟩ := G
      simp only at hrets
      have hidx : ∀ ev ∈ Event.rng_reset i (List.map seed3 (List.range tfm.seedsize))
          tfm.seedsize r :: rets.map (fun r => Event.rng_get_bytes i t.rlen r),
          ev.idx = some i := by
        intro ev hev
        simp only [List.mem_cons, List.mem_map] at hev
        rcases hev with rfl | ⟨a, _, rfl⟩ <;> rfl
      cases o with
      | some err1 =>
        exact ⟨_, by simp [hrets], hidx⟩
      | none =>
        simp only
        generalize memcmp (if c.FAULT_INJECTION ∧ inject_fault ≠ 0
            then flip_first result else result) (byteAt t.result) t.rlen = cmp
        have hidx2 : ∀ ev ∈ (Event.rng_reset i (List.map seed3 (List.range tfm.seedsize))
            tfm.seedsize r :: rets.map (fun r => Event.rng_get_bytes i t.rlen r))
            ++ [Event.memcmp i 0 cmp], ev.idx = some i := by
          intro ev hev
          rcases List.mem_append.1 hev with h | h
          · exact hidx ev h
          · simp only [List.mem_singleton] at h; subst h; rfl
        by_cases hc : cmp ≠ 0
        · rw [if_pos hc]
          exact ⟨_, by simp [State.log, hrets], hidx2⟩
        · rw [if_neg hc]
          exact ⟨_, by simp [State.log, hrets], hidx2⟩

theorem cprng_iters_idx {σ : Type} (E : Env σ) (c : Config) (tfm : crypto_rng)
    (template : List moto_cprng_testvec) (inject_fault : Int) :
    ∀ (m i0 : Nat) (seed seed1 : Nat → Nat) (s s1 : State σ),
      cprng_iters E c tfm template inject_fault m i0 seed s = some (seed1, s1) →
      ∃ new, s1.trace = s.trace ++ new ∧
        ∀ ev ∈ new, ∃ j, ev.idx = some j ∧ j < i0 + m := by
  intro m
  induction m with
  | zero =>
    intro i0 seed seed1 s s1 h
    simp only [cprng_iters, Option.some.injEq, Prod.mk.injEq] at h
    obtain ⟨_, rfl⟩ := h
    exact ⟨[], by simp, by simp⟩
  | succ m ih =>
    intro i0 seed seed1 s s1 h
    simp only [cprng_iters] at h
    cases hti : template[i0]? with
    | none => rw [hti] at h; simp at h
    | some t0 =>
      rw [hti] at h
      simp only at h
      obtain ⟨n1, hn1, hq1⟩ := cprng_vec_idx E c tfm inject_fault i0 t0 seed s
      cases hv : cprng_vec E c tfm inject_fault i0 t0 seed s with
      | mk v p =>
        obtain ⟨seed2, s2⟩ := p
        rw [hv] at h hn1
        cases v with
        | some err1 => simp at h
        | none =>
          simp only at h hn1
          obtain ⟨n2, hn2, hq2⟩ := ih (i0 + 1) seed2 seed1 s2 s1 h
          refine ⟨n1 ++ n2, by rw [hn2, hn1, List.append_assoc], ?_⟩
          intro ev hev
          rcases List.mem_append.1 hev with h1 | h1
          · exact ⟨i0, hq1 ev h1, by omega⟩
          · obtain ⟨j, hj, hlt⟩ := hq2 ev h1
            exact ⟨j, hj, by omega⟩

theorem cprng_loop_idx {σ : Type} (E : Env σ) (c : Config) (tfm : crypto_rng)
    (template : List moto_cprng_testvec) (inject_fault : Int) :
    ∀ (n i0 : Nat) (err : Int) (seed : Nat → Nat) (s : State σ),
      ∃ new, (cprng_loop E c tfm template inject_fault n i0 err seed s).2.trace
          = s.trace ++ new ∧
        ∀ ev ∈ new, ∃ j, ev.idx = some j ∧ i0 ≤ j := by
  intro n
  induction n with
  | zero => intro i0 err seed s; exact ⟨[], by simp [cprng_loop], by simp⟩
  | succ n ih =>
    intro i0 err seed s
    rw [cprng_loop]
    cases hti : template[i0]? with
    | none => exact ⟨[], by simp, by simp⟩
    | some t0 =>
      simp only
      obtain ⟨n1, hn1, hq1⟩ := cprng_vec_idx E c tfm inject_fault i0 t0 seed s
      generalize cprng_vec E c tfm inject_fault i0 t0 seed s = V at hn1 ⊢
      obtain ⟨v, seed2, s2⟩ := V
      simp only at hn1
      cases v with
      | some err1 => exact ⟨n1, hn1, fun ev hev => ⟨i0, hq1 ev hev, le_refl _⟩⟩
      | none =>
        simp only
        obtain ⟨n2, hn2, hq2⟩ := ih (i0 + 1) 0 seed2 s2
        refine ⟨n1 ++ n2, by rw [hn2, hn1, List.append_assoc], ?_⟩
        intro ev hev
        rcases List.mem_append.1 hev with h1 | h1
        · exact ⟨i0, hq1 ev h1, le_refl _⟩
        · obtain ⟨j, hj, hle⟩ := hq2 ev h1
          exact ⟨j, hj, by omega⟩

theorem filter_segment (i : Nat) (A seg B : List Event)
    (hA : ∀ ev ∈ A, ev.idx ≠ some i) (hs : ∀ ev ∈ seg, ev.idx = some i)
    (hB : ∀ ev ∈ B, ev.idx ≠ some i) :
    (A ++ (seg ++ B)).filter (fun ev => decide (ev.idx = some i)) = seg := by
  rw [List.filter_append, List.filter_append]
  have h1 : A.filter (fun ev => decide (ev.idx = some i)) = [] := by
    rw [List.filter_eq_nil_iff]
    intro ev hev
    simpa using hA ev hev
  have h2 : B.filter (fun ev => decide (ev.idx = some i)) = [] := by
    rw [List.filter_eq_nil_iff]
    intro ev hev
    simpa using hB ev hev
  have h3 : seg.filter (fun ev => decide (ev.idx = some i)) = seg := by
    rw [List.filter_eq_self]
    intro ev hev
    simpa using hs ev hev
  rw [h1, h2, h3]
  simp

theorem cprng_run_segment {σ : Type} (E : Env σ) (c : Config) (tfm : crypto_rng)
    (template : List moto_cprng_testvec) (tcount : Nat) (inject_fault : Int)
    (s0 s : State σ) (i : Nat) (seed : Nat → Nat) (t : moto_cprng_testvec)
    (seg : List Event)
    (h : CprngReach E c tfm template tcount inject_fault s0 i seed s)
    (ht : template[i]? = some t)
    (hseg : (cprng_vec E c tfm inject_fault i t seed s).2.2.trace = s.trace ++ seg)
    (hidx : ∀ ev ∈ seg, ev.idx = some i) :
    (new_events s0 (moto_test_cprng E c tfm template tcount inject_fault s0).2).filter
      (fun ev => decide (ev.idx = some i)) = seg := by
  obtain ⟨hi, seed0, e, hk, hp⟩ := h
  obtain ⟨n, hn⟩ : ∃ n, tcount = i + (n + 1) := ⟨tcount - i - 1, by omega⟩
  have hsplit := cprng_loop_split E c tfm template inject_fault n i 0 0 seed0 seed
    { s0 with env := e, trace := s0.trace ++ [.kmalloc true] } s hp t
    (by rw [Nat.zero_add]; exact ht)
  rw [Nat.zero_add] at hsplit
  obtain ⟨pre, hpre, hqpre⟩ := cprng_iters_idx E c tfm template inject_fault i 0 seed0 seed
    { s0 with env := e, trace := s0.trace ++ [.kmalloc true] } s hp
  simp only [Nat.zero_add] at hqpre hpre
  have hA : ∀ ev ∈ Event.kmalloc true :: pre, ev.idx ≠ some i := by
    intro ev hev
    rcases List.mem_cons.1 hev with rfl | h1
    · simp [Event.idx]
    · obtain ⟨j, hj, hlt⟩ := hqpre ev h1
      rw [hj]
      simp only [ne_eq, Option.some.injEq]
      omega
  unfold moto_test_cprng
  rw [hk, hn]
  simp only
  rw [hsplit]
  generalize cprng_vec E c tfm inject_fault i t seed s = V at hseg ⊢
  obtain ⟨v, seed2, s2⟩ := V
  simp only at hseg
  cases v with
  | some err1 =>
    simp only
    have htr : (s2.log [.kfree]).trace
        = s0.trace ++ ((Event.kmalloc true :: pre) ++ (seg ++ [.kfree])) := by
      simp [State.log, hseg, hpre]
    rw [new_events_append s0 _ _ htr]
    exact filter_segment i _ seg _ hA hidx (by simp [Event.idx])
  | none =>
    simp only
    obtain ⟨post, hpost, hqpost⟩ := cprng_loop_idx E c tfm template inject_fault n (i + 1) 0
      seed2 s2
    generalize cprng_loop E c tfm template inject_fault n (i + 1) 0 seed2 s2 = L at hpost ⊢
    obtain ⟨o, s3⟩ := L
    simp only at hpost
    have hB : ∀ ev ∈ post, ev.idx ≠ some i := by
      intro ev hev
      obtain ⟨j, hj, hle⟩ := hqpost ev hev
      rw [hj]
      simp only [ne_eq, Option.some.injEq]
      omega
    cases o with
    | none =>
      simp only
      have htr : s3.trace = s0.trace ++ ((Event.kmalloc true :: pre) ++ (seg ++ post)) := by
        simp [hpost, hseg, hpre]
      rw [new_events_append s0 _ _ htr]
      exact filter_segment i _ seg _ hA hidx hB
    | some err =>
      simp only
      have htr : (s3.log [.kfree]).trace
          = s0.trace ++ ((Event.kmalloc true :: pre) ++ (seg ++ (post ++ [.kfree]))) := by
        simp [State.log, hpost, hseg, hpre]
      rw [new_events_append s0 _ _ htr]
      refine filter_segment i _ seg _ hA hidx ?_
      intro ev hev
      rcases List.mem_append.1 hev with h1 | h1
      · exact hB ev h1
      · simp only [List.mem_singleton] at h1
        subst h1
        simp [Event.idx]

theorem cprng_last_vector_passes {σ : Type} (E : Env σ) (c : Config) (tfm : crypto_rng)
    (template : List moto_cprng_testvec) (tcount : Nat) (inject_fault : Int)
    (s0 s : State σ) (i : Nat) (seed : Nat → Nat) (t : moto_cprng_testvec)
    (h : CprngReach E c tfm template tcount inject_fault s0 i seed s)
    (ht : template[i]? = some t) (hlast : i + 1 = tcount)
    (hv : (cprng_vec E c tfm inject_fault i t seed s).1 = none) :
    (moto_test_cprng E c tfm template tcount inject_fault s0).1 = some 0 := by
  obtain ⟨hi, seed0, e, hk, hp⟩ := h
  have hsplit := cprng_loop_split E c tfm template inject_fault 0 i 0 0 seed0 seed
    { s0 with env := e, trace := s0.trace ++ [.kmalloc true] } s hp t
    (by rw [Nat.zero_add]; exact ht)
  simp only [Nat.zero_add] at hsplit
  unfold moto_test_cprng
  rw [hk, ← hlast]
  simp only
  rw [hsplit]
  generalize cprng_vec E c tfm inject_fault i t seed s = V at hv ⊢
  obtain ⟨v, seed2, s2⟩ := V
  simp only at hv
  subst hv
  simp [cprng_loop]

/-- C21: for an RNG vector with `loops = n >= 1`, when the reset succeeds and each of the
`n` calls of `crypto_rng_get_bytes` returns `rlen` (a full read), the processing of the
vector makes exactly one reset call, then exactly `n` get-bytes calls for `rlen` bytes,
then one comparison; the verdict (go on, or `-EINVAL`) is a function of the buffer left
by the `n`-th call alone, and of its first `rlen` bytes only: whatever the earlier calls
returned is overwritten and never compared, so two providers whose `n`-th outputs agree
get the same verdict.  In a run of `moto_test_cprng` these are all the calls made for the
vector; a mismatch makes the run return `-EINVAL`, and a match on the last vector of
the table makes it return `0`.  The registered Monte Carlo vector has `loops = 10000` and
`rlen = 16`; the other registered vectors have `loops = 1`. -/
theorem last_output_decides {σ : Type} (E : Env σ) (c : Config) (tfm : crypto_rng)
    (inject_fault : Int) (i : Nat) (t : moto_cprng_testvec) (seed : Nat → Nat)
    (s : State σ) (e : σ) (hn : 1 ≤ t.loops)
    (hr : E.crypto_rng_reset s.env tfm ((List.range tfm.seedsize).map (cprng_seed t seed))
      tfm.seedsize = (0, e))
    (hfull : ∀ p ∈ rng_reads E tfm t.rlen t.loops (fun _ => 0) e, p.1 = (t.rlen : Int)) :
    (∃ last : Nat → Nat,
      (rng_reads E tfm t.rlen t.loops (fun _ => 0) e).length = t.loops ∧
      (rng_reads E tfm t.rlen t.loops (fun _ => 0) e).getLast? = some ((t.rlen : Int), last) ∧
      new_events s (cprng_vec E c tfm inject_fault i t seed s).2.2
        = [.rng_reset i ((List.range tfm.seedsize).map (cprng_seed t seed)) tfm.seedsize 0]
          ++ List.replicate t.loops (Event.rng_get_bytes i t.rlen t.rlen)
          ++ [.memcmp i 0 (memcmp (if c.FAULT_INJECTION ∧ inject_fault ≠ 0
                then flip_first last else last) (byteAt t.result) t.rlen)] ∧
      (cprng_vec E c tfm inject_fault i t seed s).1 = rng_verdict c inject_fault t last ∧
      (∀ out : Nat → Nat, (∀ j < t.rlen, out j = last j) →
        rng_verdict c inject_fault t out = rng_verdict c inject_fault t last) ∧
      (∀ (τ : Type) (E2 : Env τ) (tfm2 : crypto_rng) (i2 : Nat) (seed2 : Nat → Nat)
        (s2 : State τ) (e2 : τ) (last2 : Nat → Nat),
        E2.crypto_rng_reset s2.env tfm2
          ((List.range tfm2.seedsize).map (cprng_seed t seed2)) tfm2.seedsize = (0, e2) →
        (∀ p ∈ rng_reads E2 tfm2 t.rlen t.loops (fun _ => 0) e2, p.1 = (t.rlen : Int)) →
        (rng_reads E2 tfm2 t.rlen t.loops (fun _ => 0) e2).getLast?
          = some ((t.rlen : Int), last2) →
        (∀ j < t.rlen, last2 j = last j) →
        (cprng_vec E2 c tfm2 inject_fault i2 t seed2 s2).1
          = (cprng_vec E c tfm inject_fault i t seed s).1) ∧
      (∀ (template : List moto_cprng_testvec) (tcount : Nat) (s0 : State σ),
        CprngReach E c tfm template tcount inject_fault s0 i seed s →
        template[i]? = some t →
        (new_events s0 (moto_test_cprng E c tfm template tcount inject_fault s0).2).filter
            (fun ev => decide (ev.idx = some i))
          = [.rng_reset i ((List.range tfm.seedsize).map (cprng_seed t seed)) tfm.seedsize 0]
            ++ List.replicate t.loops (Event.rng_get_bytes i t.rlen t.rlen)
            ++ [.memcmp i 0 (memcmp (if c.FAULT_INJECTION ∧ inject_fault ≠ 0
                  then flip_first last else last) (byteAt t.result) t.rlen)] ∧
        (rng_verdict c inject_fault t last = some (-EINVAL) →
          (moto_test_cprng E c tfm template tcount inject_fault s0).1 = some (-EINVAL)) ∧
        (rng_verdict c inject_fault t last = none → i + 1 = tcount →
          (moto_test_cprng E c tfm template tcount inject_fault s0).1 = some 0))) ∧
    (moto_ansi_cprng_aes_tv_template.map (fun t0 => (t0.loops, t0.rlen))
      = [(1, 16), (1, 16), (1, 16), (1, 16), (1, 16), (10000, 16)]) := by
  refine ⟨?_, by decide⟩
  have hlen := rng_reads_length E tfm t.rlen t.loops (fun _ => 0) e
  obtain ⟨p, hp⟩ : ∃ p, (rng_reads E tfm t.rlen t.loops (fun _ => 0) e).getLast? = some p := by
    cases hl : (rng_reads E tfm t.rlen t.loops (fun _ => 0) e).getLast? with
    | some p => exact ⟨p, rfl⟩
    | none =>
      rw [List.getLast?_eq_none_iff] at hl
      rw [hl] at hlen
      simp at hlen
      omega
  have hp1 : p.1 = (t.rlen : Int) := hfull p (List.mem_of_getLast?_eq_some hp)
  obtain ⟨r0, last⟩ := p
  simp only at hp1
  subst hp1
  have hl : last = (((rng_reads E tfm t.rlen t.loops (fun _ => 0) e).getLast?).map
      Prod.snd).getD (fun _ => 0) := by rw [hp]; rfl
  obtain ⟨hv1, hv2⟩ := cprng_vec_full E c tfm inject_fault i t seed s e hr hfull last hl
  refine ⟨last, hlen, hp, new_events_append s _ _ hv2, hv1,
    fun out h => rng_verdict_congr c inject_fault t out last h, ?_, ?_⟩
  · intro τ E2 tfm2 i2 seed2 s2 e2 last2 hr2 hfull2 hp2 hagree
    have hl2 : last2 = (((rng_reads E2 tfm2 t.rlen t.loops (fun _ => 0) e2).getLast?).map
        Prod.snd).getD (fun _ => 0) := by rw [hp2]; rfl
    rw [(cprng_vec_full E2 c tfm2 inject_fault i2 t seed2 s2 e2 hr2 hfull2 last2 hl2).1, hv1]
    exact rng_verdict_congr c inject_fault t last2 last hagree
  · intro template tcount s0 hreach ht
    refine ⟨?_, ?_, ?_⟩
    · apply cprng_run_segment E c tfm template tcount inject_fault s0 s i seed t _ hreach ht hv2
      intro ev hev
      simp only [List.mem_append, List.mem_singleton, List.mem_replicate] at hev
      rcases hev with (rfl | ⟨_, rfl⟩) | rfl <;> rfl
    · intro hbad
      rw [hbad] at hv1
      generalize hV : cprng_vec E c tfm inject_fault i t seed s = V at hv1
      obtain ⟨v, seed2, s2⟩ := V
      simp only at hv1
      subst hv1
      rw [cprng_reach_exit E c tfm template tcount inject_fault s0 s s2 i seed seed2 t
        (-EINVAL) hreach ht hV]
    · intro hgood hlast
      rw [hgood] at hv1
      exact cprng_last_vector_passes E c tfm template tcount inject_fault s0 s i seed t
        hreach ht hlast hv1

theorem counting_reads (pages : Nat) (out : Nat → List Nat) (tfm : crypto_rng) (rlen : Nat) :
    ∀ (n : Nat) (result : Nat → Nat) (a b : Nat),
      rng_reads (counting_env pages out) tfm rlen n result (a, b)
        = (List.range n).map (fun k => ((rlen : Int), byteAt (out (b + k + 1)))) := by
  intro n
  induction n with
  | zero => intro result a b; rfl
  | succ n ih =>
    intro result a b
    have h1 : rng_reads (counting_env pages out) tfm rlen (n + 1) result (a, b)
        = ((rlen : Int), byteAt (out (b + 1)))
            :: rng_reads (counting_env pages out) tfm rlen n (byteAt (out (b + 1)))
                (a, b + 1) := rfl
    rw [h1, ih, List.range_succ_eq_map]
    simp only [List.map_cons, List.map_map, Nat.add_zero]
    congr 1
    apply List.map_congr_left
    intro k _
    simp only [Function.comp_apply]
    rw [show b + 1 + k + 1 = b + (k + 1) + 1 by omega]

/-- Witness for C21: the registered Monte Carlo vector (10000 iterations) with a provider
whose first 9999 outputs are wrong and whose 10000th output is the expected one: the
vector passes, and a run over a table of this vector alone returns `0`. -/
theorem last_output_decides_witness :
    monte_carlo_vec.loops = 10000 ∧
    (cprng_vec (counting_env 8 (late_output 10000 monte_carlo_vec.result)) sample_config
      ⟨0, 48⟩ 0 0 monte_carlo_vec (fun _ => 0)
      { counting_state with trace := [.kmalloc true] }).1 = none ∧
    (moto_test_cprng (counting_env 8 (late_output 10000 monte_carlo_vec.result))
      sample_config ⟨0, 48⟩ [monte_carlo_vec] 1 0 counting_state).1 = some 0 := by
  have hreads := counting_reads 8 (late_output 10000 monte_carlo_vec.result) ⟨0, 48⟩
    monte_carlo_vec.rlen monte_carlo_vec.loops (fun _ => 0) 0 0
  obtain ⟨⟨last, _, hq, _, hverdict, _, _, hrun⟩, _⟩ :=
    last_output_decides (counting_env 8 (late_output 10000 monte_carlo_vec.result))
      sample_config ⟨0, 48⟩ 0 0 monte_carlo_vec (fun _ => 0)
      { counting_state with trace := [.kmalloc true] } (0, 0) (by decide) rfl
      (by
        intro p hp
        rw [hreads] at hp
        simp only [List.mem_map] at hp
        obtain ⟨k, _, rfl⟩ := hp
        rfl)
  have hlast : last = byteAt monte_carlo_vec.result := by
    rw [hreads, List.getLast?_map, List.getLast?_range] at hq
    have h10 : monte_carlo_vec.loops = 10000 := by decide
    rw [h10] at hq
    simp only [Nat.reduceEqDiff, if_false, Option.map_some', Option.some.injEq,
      Prod.mk.injEq, true_and] at hq
    rw [← hq]
    simp [late_output]
  subst hlast
  have hnone : rng_verdict sample_config 0 monte_carlo_vec (byteAt monte_carlo_vec.result)
      = none := by
    unfold rng_verdict
    rw [if_neg]
    rw [not_not, memcmp_eq_zero_iff]
    intro j _
    rw [if_neg (by decide)]
  refine ⟨by decide, by rw [hverdict, hnone], ?_⟩
  exact (hrun [monte_carlo_vec] 1 counting_state
    ⟨by decide, fun _ => 0, (0, 0), rfl, rfl⟩ rfl).2.2 hnone rfl

/-! ## The scratch pages are released once on every return path -/

theorem ext_same {σ : Type} (Q : Event → Prop) (s s1 : State σ) (h : s1.trace = s.trace) :
    Ext Q s s1 :=
  ⟨[], by simp [h], by simp⟩

theorem ext_from {σ : Type} {Q : Event → Prop} (s0 s s1 : State σ) (h : s.trace = s0.trace)
    (h1 : Ext Q s s1) : Ext Q s0 s1 := by
  obtain ⟨new, hn, hq⟩ := h1
  exact ⟨new, by rw [hn, h], hq⟩

theorem loop_pass_ext {σ τ : Type} (Q : Event → Prop)
    (vec : Nat → τ → State σ → Flow × State σ) (sel : τ → Bool) (template : List τ)
    (hvec : ∀ i t s, Ext Q s (vec i t s).2) :
    ∀ (n i : Nat) (s : State σ), Ext Q s (loop_pass vec sel template n i s).2 := by
  intro n
  induction n with
  | zero => intro i s; exact Ext.refl _ _
  | succ n ih =>
    intro i s
    rw [loop_pass]
    cases template[i]? with
    | none => exact Ext.refl _ _
    | some t =>
      simp only
      by_cases hs : sel t = true
      · rw [if_pos hs]
        have h1 := hvec i t s
        generalize vec i t s = V at h1 ⊢
        obtain ⟨f, s1⟩ := V
        cases f with
        | next => exact Ext.trans h1 (ih _ _)
        | out r => exact h1
        | stuck => exact h1
      · rw [if_neg hs]
        exact ih _ _

theorem async_op_ns {σ : Type} (s : State σ) (r : OpResult) :
    Ext (fun e => e.isSetup = false) s (moto_do_one_async_hash_op s r).2 := by
  unfold moto_do_one_async_hash_op
  split
  · split
    · exact Ext.refl _ _
    · exact ⟨[.wait _, .INIT_COMPLETION], rfl, by
        intro e he; simp at he; rcases he with rfl | rfl <;> rfl⟩
  · exact Ext.refl _ _

theorem inline_completion_ns {σ : Type} (s : State σ) (r : OpResult) :
    Ext (fun e => e.isSetup = false) s (inline_completion s r).2 := by
  unfold inline_completion
  split
  · exact Ext.refl _ _
  · split
    · split
      · exact Ext.refl _ _
      · split
        · split
          · exact ⟨[.wait _, .INIT_COMPLETION], rfl, by
              intro e he; simp at he; rcases he with rfl | rfl <;> rfl⟩
          · exact ⟨[.wait _], rfl, by intro e he; simp at he; subst he; rfl⟩
        · exact ⟨[.wait _], rfl, by intro e he; simp at he; subst he; rfl⟩
    · exact Ext.refl _ _

theorem hash_setkey_ns {σ : Type} (E : Env σ) (tfm : crypto_ahash) (i : Nat)
    (t : moto_hash_testvec) (s : State σ) :
    Ext (fun e => e.isSetup = false) s (hash_setkey E tfm i t s).2 := by
  unfold hash_setkey
  split
  · exact ⟨[.clear_flags, .ahash_setkey i t.key t.ksize _], rfl, by
      intro e he; simp at he; rcases he with rfl | rfl <;> rfl⟩
  · exact Ext.refl _ _

theorem ahash_call_ns {σ : Type} (E : Env σ) (tfm : crypto_ahash) (op : HashOp) (i : Nat)
    (sg : List scatterlist) (nbytes : Nat) (result : Nat → Nat) (s : State σ) :
    Ext (fun e => e.isSetup = false) s (ahash_call E tfm op i sg nbytes result s).2.2 := by
  unfold ahash_call
  exact ⟨[.ahash_op i op sg nbytes _], rfl, by intro e he; simp at he; subst he; rfl⟩

theorem hash_op_sync_ns {σ : Type} (E : Env σ) (tfm : crypto_ahash) (op : HashOp)
    (i : Nat) (sg : List scatterlist) (nbytes : Nat) (result : Nat → Nat) (s : State σ) :
    Ext (fun e => e.isSetup = false) s (hash_op_sync E tfm op i sg nbytes result s).2.2 := by
  unfold hash_op_sync
  have e1 := ahash_call_ns E tfm op i sg nbytes result s
  generalize ahash_call E tfm op i sg nbytes result s = C at e1 ⊢
  obtain ⟨r, result1, s1⟩ := C
  exact Ext.trans e1 (async_op_ns s1 r)

theorem hash_compute_ns {σ : Type} (E : Env σ) (tfm : crypto_ahash) (use_digest : Bool)
    (i : Nat) (sg : List scatterlist) (nbytes : Nat) (result : Nat → Nat) (s : State σ) :
    Ext (fun e => e.isSetup = false) s
      (hash_compute E tfm use_digest i sg nbytes result s).2.2 := by
  unfold hash_compute
  split
  · exact hash_op_sync_ns E tfm .digest i sg nbytes result s
  · have e1 := hash_op_sync_ns E tfm .init i sg nbytes result s
    generalize hash_op_sync E tfm .init i sg nbytes result s = A at e1 ⊢
    obtain ⟨o1, result1, s1⟩ := A
    split
    · rename_i result1' s1' heq
      simp only [Prod.mk.injEq] at heq
      obtain ⟨_, rfl, rfl⟩ := heq
      have e2 := hash_op_sync_ns E tfm .update i sg nbytes result1 s1
      generalize hash_op_sync E tfm .update i sg nbytes result1 s1 = B at e2 ⊢
      obtain ⟨o2, result2, s2⟩ := B
      split
      · rename_i result2' s2' heq2
        simp only [Prod.mk.injEq] at heq2
        obtain ⟨_, rfl, rfl⟩ := heq2
        exact Ext.trans e1 (Ext.trans e2
          (hash_op_sync_ns E tfm .final i sg nbytes result2 s2))
      · exact Ext.trans e1 e2
    · exact e1

theorem memcmp_log_ns {σ : Type} (s : State σ) (i k : Nat) (cmp : Int) :
    Ext (fun e => e.isSetup = false) s (s.log [.memcmp i k cmp]) :=
  Ext.log s _ (by intro e he; simp at he; subst he; rfl)

theorem hash_unchunked_ns {σ : Type} (E : Env σ) (c : Config) (tfm : crypto_ahash)
    (use_digest : Bool) (inject_fault : Int) (i : Nat) (t : moto_hash_testvec)
    (s : State σ) :
    Ext (fun e => e.isSetup = false) s
      (hash_unchunked_vec E c tfm use_digest inject_fault i t s).2 := by
  unfold hash_unchunked_vec
  simp only
  have hk := ext_from s _ _ rfl (hash_setkey_ns E tfm i t
    { s with xbuf := s.xbuf.memcpy 0 0 (byteAt t.plaintext) t.psize })
  generalize hash_setkey E tfm i t
    { s with xbuf := s.xbuf.memcpy 0 0 (byteAt t.plaintext) t.psize } = K at hk ⊢
  obtain ⟨kret, s2⟩ := K
  simp only at hk ⊢
  by_cases hne : kret ≠ 0
  · rw [if_pos hne]
    exact hk
  · rw [if_neg hne]
    have e1 := hash_compute_ns E tfm use_digest i [⟨0, 0, t.psize⟩] t.psize (fun _ => 0) s2
    generalize hash_compute E tfm use_digest i [⟨0, 0, t.psize⟩] t.psize (fun _ => 0) s2 = C
      at e1 ⊢
    obtain ⟨o, result, s3⟩ := C
    simp only at e1
    cases o with
    | none => exact Ext.trans hk e1
    | some ret =>
      simp only
      by_cases hr : ret ≠ 0
      · rw [if_pos hr]
        exact Ext.trans hk e1
      · rw [if_neg hr]
        generalize memcmp (if c.FAULT_INJECTION = true ∧ inject_fault ≠ 0 then flip_first result
          else result) (byteAt t.digest) tfm.digestsize = cmp
        by_cases hc : cmp ≠ 0
        · rw [if_pos hc]
          exact Ext.trans hk (Ext.trans e1 (memcmp_log_ns s3 i 0 cmp))
        · rw [if_neg hc]
          exact Ext.trans hk (Ext.trans e1 (memcmp_log_ns s3 i 0 cmp))

theorem hash_chunked_ns {σ : Type} (E : Env σ) (c : Config) (tfm : crypto_ahash)
    (i : Nat) (t : moto_hash_testvec) (s : State σ) :
    Ext (fun e => e.isSetup = false) s (hash_chunked_vec E c tfm i t s).2 := by
  unfold hash_chunked_vec
  cases hl : hash_layout c t s.xbuf t.np with
  | none => exact Ext.refl _ _
  | some l =>
    simp only
    have hk := ext_from s _ _ rfl (hash_setkey_ns E tfm i t { s with xbuf := l.xbuf })
    generalize hash_setkey E tfm i t { s with xbuf := l.xbuf } = K at hk ⊢
    obtain ⟨kret, s2⟩ := K
    simp only at hk ⊢
    by_cases hne : kret ≠ 0
    · rw [if_pos hne]
      exact hk
    · rw [if_neg hne]
      have e1 := ahash_call_ns E tfm .digest i l.sg t.psize (fun _ => 0) s2
      generalize ahash_call E tfm .digest i l.sg t.psize (fun _ => 0) s2 = C at e1 ⊢
      obtain ⟨r, result, s3⟩ := C
      simp only at e1 ⊢
      have e2 := inline_completion_ns s3 r
      generalize inline_completion s3 r = W at e2 ⊢
      obtain ⟨w, s4⟩ := W
      simp only at e2 ⊢
      cases w with
      | none => exact Ext.trans hk (Ext.trans e1 e2)
      | some ret =>
        simp only
        by_cases hr : ret ≠ 0
        · rw [if_pos hr]
          exact Ext.trans hk (Ext.trans e1 e2)
        · rw [if_neg hr]
          generalize memcmp result (byteAt t.digest) tfm.digestsize = cmp
          by_cases hc : cmp ≠ 0
          · rw [if_pos hc]
            exact Ext.trans hk (Ext.trans e1 (Ext.trans e2 (memcmp_log_ns s4 i 0 cmp)))
          · rw [if_neg hc]
            exact Ext.trans hk (Ext.trans e1 (Ext.trans e2 (memcmp_log_ns s4 i 0 cmp)))

theorem skcipher_setkey_ns {σ : Type} (E : Env σ) (tfm : crypto_ablkcipher) (i : Nat)
    (t : moto_cipher_testvec) (s : State σ) :
    Ext (fun e => e.isSetup = false) s (skcipher_setkey E tfm i t s).2 := by
  refine ⟨_, skcipher_setkey_trace E tfm i t s, ?_⟩
  intro e he
  unfold flag_events at he
  simp only [List.mem_append, List.mem_singleton] at he
  rcases he with (rfl | he) | rfl
  · rfl
  · split at he
    · simp only [List.mem_singleton] at he; subst he; rfl
    · simp at he
  · rfl

theorem skcipher_call_ns {σ : Type} (E : Env σ) (tfm : crypto_ablkcipher) (enc : Int)
    (i : Nat) (sg : List scatterlist) (nbytes : Nat) (iv : List Nat) (s : State σ) :
    Ext (fun e => e.isSetup = false) s (skcipher_call E tfm enc i sg nbytes iv s).2 := by
  unfold skcipher_call
  exact ⟨[.ablkcipher_crypt i _ sg nbytes iv _], rfl, by
    intro e he; simp at he; subst he; rfl⟩

theorem check_chunks_ns (c : Config) (t : moto_cipher_testvec) (i : Nat) (m : Mem) :
    ∀ (n k temp : Nat), ∀ e ∈ (skcipher_check_chunks c t i m n k temp).1,
      e.isSetup = false := by
  intro n
  induction n with
  | zero => intro k temp e he; simp [skcipher_check_chunks] at he
  | succ n ih =>
    intro k temp e he
    simp only [skcipher_check_chunks] at he
    split at he
    · simp at he; subst he; rfl
    · split at he
      · simp at he; subst he; rfl
      · simp only [List.mem_cons] at he
        rcases he with rfl | he
        · rfl
        · exact ih _ _ e he

theorem skcipher_unchunked_ns {σ : Type} (E : Env σ) (c : Config) (tfm : crypto_ablkcipher)
    (enc : Int) (inject_fault : Int) (i : Nat) (t : moto_cipher_testvec) (s : State σ) :
    Ext (fun e => e.isSetup = false) s
      (skcipher_unchunked_vec E c tfm enc inject_fault i t s).2 := by
  unfold skcipher_unchunked_vec
  by_cases hi : t.ilen > PAGE_SIZE c
  · rw [if_pos hi]
    exact Ext.refl _ _
  · rw [if_neg hi]
    simp only
    have hk := ext_from s _ _ rfl (skcipher_setkey_ns E tfm i t
      { s with xbuf := s.xbuf.memcpy 0 0 (byteAt t.input) t.ilen })
    generalize skcipher_setkey E tfm i t
      { s with xbuf := s.xbuf.memcpy 0 0 (byteAt t.input) t.ilen } = K at hk ⊢
    obtain ⟨ret, s2⟩ := K
    simp only at hk ⊢
    by_cases hf : (if ret = 0 then 1 else 0) = t.fail
    · rw [if_pos hf]
      exact hk
    · rw [if_neg hf]
      by_cases hne : ret ≠ 0
      · rw [if_pos hne]
        exact hk
      · rw [if_neg hne]
        have e1 := skcipher_call_ns E tfm enc i [⟨0, 0, t.ilen⟩] t.ilen (vec_iv c t) s2
        generalize skcipher_call E tfm enc i [⟨0, 0, t.ilen⟩] t.ilen (vec_iv c t) s2 = C
          at e1 ⊢
        obtain ⟨r, s3⟩ := C
        simp only at e1 ⊢
        have e2 := inline_completion_ns s3 r
        generalize inline_completion s3 r = W at e2 ⊢
        obtain ⟨w, s4⟩ := W
        simp only at e2 ⊢
        cases w with
        | none => exact Ext.trans hk (Ext.trans e1 e2)
        | some ret1 =>
          simp only
          by_cases hr : ret1 ≠ 0
          · rw [if_pos hr]
            exact Ext.trans hk (Ext.trans e1 e2)
          · rw [if_neg hr]
            have e3 : ∀ (m : Mem) (cmp : Int), Ext (fun e => e.isSetup = false) s
                { s4 with xbuf := m, trace := s4.trace ++ [.memcmp i 0 cmp] } :=
              fun m cmp => Ext.trans hk (Ext.trans e1 (Ext.trans e2
                ⟨[.memcmp i 0 cmp], rfl, by intro e he; simp at he; subst he; rfl⟩))
            split <;> split <;> exact e3 _ _

theorem skcipher_chunked_ns {σ : Type} (E : Env σ) (c : Config) (tfm : crypto_ablkcipher)
    (enc : Int) (i : Nat) (t : moto_cipher_testvec) (s : State σ) :
    Ext (fun e => e.isSetup = false) s (skcipher_chunked_vec E c tfm enc i t s).2 := by
  unfold skcipher_chunked_vec
  have hk := skcipher_setkey_ns E tfm i t s
  generalize skcipher_setkey E tfm i t s = K at hk ⊢
  obtain ⟨ret, s2⟩ := K
  simp only at hk ⊢
  by_cases hf : (if ret = 0 then 1 else 0) = t.fail
  · rw [if_pos hf]
    exact hk
  · rw [if_neg hf]
    by_cases hne : ret ≠ 0
    · rw [if_pos hne]
      exact hk
    · rw [if_neg hne]
      cases hl : skcipher_layout c t s2.xbuf t.np with
      | none => exact hk
      | some l =>
        simp only
        have e1 := ext_from s2 _ _ rfl (skcipher_call_ns E tfm enc i l.sg t.ilen (vec_iv c t)
          { s2 with xbuf := l.xbuf })
        generalize skcipher_call E tfm enc i l.sg t.ilen (vec_iv c t)
          { s2 with xbuf := l.xbuf } = C at e1 ⊢
        obtain ⟨r, s3⟩ := C
        simp only at e1 ⊢
        have e2 := inline_completion_ns s3 r
        generalize inline_completion s3 r = W at e2 ⊢
        obtain ⟨w, s4⟩ := W
        simp only at e2 ⊢
        cases w with
        | none => exact Ext.trans hk (Ext.trans e1 e2)
        | some ret1 =>
          simp only
          by_cases hr : ret1 ≠ 0
          · rw [if_pos hr]
            exact Ext.trans hk (Ext.trans e1 e2)
          · rw [if_neg hr]
            have e3 := check_chunks_ns c t i s4.xbuf t.np 0 0
            generalize skcipher_check_chunks c t i s4.xbuf t.np 0 0 = K2 at e3 ⊢
            obtain ⟨es, b⟩ := K2
            simp only at e3
            cases b with
            | true => exact Ext.trans hk (Ext.trans e1 (Ext.trans e2 (Ext.log s4 es e3)))
            | false => exact Ext.trans hk (Ext.trans e1 (Ext.trans e2 (Ext.log s4 es e3)))

theorem page_of_setup (e : Event) (h : e.isSetup = false) : e.isPage = false := by
  cases e <;> simp_all [Event.isSetup, Event.isPage]

theorem ext_nopage {σ : Type} {s s1 : State σ} (h : Ext (fun e => e.isSetup = false) s s1) :
    Ext (fun e => e.isPage = false) s s1 := by
  obtain ⟨new, hn, hq⟩ := h
  exact ⟨new, hn, fun e he => page_of_setup e (hq e he)⟩

theorem count_free_range (k : Nat) (A : List Event)
    (hA : ∀ e ∈ A, ∀ j, e ≠ Event.free_page j) :
    (A ++ (List.range XBUFSIZE).map Event.free_page).count (Event.free_page k)
      = if k < XBUFSIZE then 1 else 0 := by
  rw [List.count_append, List.count_eq_zero_of_not_mem (fun h => hA _ h k rfl), Nat.zero_add]
  have hnd : ((List.range XBUFSIZE).map Event.free_page).Nodup :=
    List.Nodup.map (fun a b h => by injection h) (List.nodup_range XBUFSIZE)
  rw [List.count_eq_of_nodup hnd]
  simp

theorem hash_run_release {σ : Type} (E : Env σ) (c : Config) (tfm : crypto_ahash)
    (template : List moto_hash_testvec) (tcount : Nat) (use_digest : Bool)
    (inject_fault : Int) (s s1 : State σ) (ha : moto_testmgr_alloc_buf E s = (0, s1)) :
    (moto_test_hash E c tfm template tcount use_digest inject_fault s).1 = none ∨
    ∃ mid, (moto_test_hash E c tfm template tcount use_digest inject_fault s).2.trace
        = s1.trace ++ (mid ++ (List.range XBUFSIZE).map Event.free_page) ∧
      ∀ e ∈ mid, e.isPage = false := by
  unfold moto_test_hash
  rw [ha]
  simp only [ne_eq, not_true_eq_false, if_false]
  cases hr : E.ahash_request_alloc s1.env with
  | mk b e =>
    cases b with
    | false =>
      right
      exact ⟨[.init_completion, .ahash_request_alloc false],
        by simp [moto_testmgr_buf, State.log],
        by intro ev hev; simp at hev; rcases hev with rfl | rfl <;> rfl⟩
    | true =>
      simp only
      have h1 := ext_nopage (loop_pass_ext (fun e => e.isSetup = false)
        (hash_unchunked_vec E c tfm use_digest inject_fault) (fun t => decide (t.np = 0))
        template (hash_unchunked_ns E c tfm use_digest inject_fault) tcount 0
        { env := e, xbuf := s1.xbuf, tresult := ⟨0, E.uninit_int s1.env⟩,
          trace := s1.trace ++ [.init_completion] ++ [.ahash_request_alloc true] })
      rw [← hash_pass1_eq_loop] at h1
      generalize hash_pass1 E c tfm template use_digest inject_fault tcount 0
        { env := e, xbuf := s1.xbuf, tresult := ⟨0, E.uninit_int s1.env⟩,
          trace := s1.trace ++ [.init_completion] ++ [.ahash_request_alloc true] } = P1
        at h1 ⊢
      obtain ⟨f1, s4⟩ := P1
      obtain ⟨n1, hn1, hq1⟩ := h1
      simp only at hn1
      have hout : ∀ (s5 : State σ) (n2 : List Event), s5.trace = s4.trace ++ n2 →
          (∀ ev ∈ n2, ev.isPage = false) →
          ∃ mid, (hash_out s5).trace
              = s1.trace ++ (mid ++ (List.range XBUFSIZE).map Event.free_page) ∧
            ∀ ev ∈ mid, ev.isPage = false := by
        intro s5 n2 hn2 hq2
        refine ⟨[.init_completion, .ahash_request_alloc true] ++ n1 ++ n2
          ++ [.ahash_request_free], by
            simp [hash_out, moto_testmgr_buf, State.log, hn2, hn1], ?_⟩
        intro ev hev
        simp only [List.mem_append, List.mem_cons, List.mem_singleton, List.not_mem_nil,
          or_false] at hev
        rcases hev with (((rfl | rfl) | h) | h) | rfl
        · rfl
        · rfl
        · exact hq1 ev h
        · exact hq2 ev h
        · rfl
      cases f1 with
      | stuck => exact Or.inl rfl
      | out ret => exact Or.inr (hout s4 [] (by simp) (by simp))
      | next =>
        simp only
        have h2 := ext_nopage (loop_pass_ext (fun e => e.isSetup = false)
          (hash_chunked_vec E c tfm) (fun t => decide (t.np ≠ 0))
          template (hash_chunked_ns E c tfm) tcount 0 s4)
        rw [← hash_pass2_eq_loop] at h2
        generalize hash_pass2 E c tfm template tcount 0 s4 = P2 at h2 ⊢
        obtain ⟨f2, s5⟩ := P2
        obtain ⟨n2, hn2, hq2⟩ := h2
        simp only at hn2
        cases f2 with
        | stuck => exact Or.inl rfl
        | out ret => exact Or.inr (hout s5 n2 hn2 hq2)
        | next => exact Or.inr (hout s5 n2 hn2 hq2)

theorem skcipher_run_release {σ : Type} (E : Env σ) (c : Config) (tfm : crypto_ablkcipher)
    (enc : Int) (template : List moto_cipher_testvec) (tcount : Nat) (inject_fault : Int)
    (s s1 : State σ) (ha : moto_testmgr_alloc_buf E s = (0, s1)) :
    (moto_test_skcipher E c tfm enc template tcount inject_fault s).1 = none ∨
    ∃ mid, (moto_test_skcipher E c tfm enc template tcount inject_fault s).2.trace
        = s1.trace ++ (mid ++ (List.range XBUFSIZE).map Event.free_page) ∧
      ∀ e ∈ mid, e.isPage = false := by
  unfold moto_test_skcipher
  rw [ha]
  simp only [ne_eq, not_true_eq_false, if_false]
  cases hr : E.ablkcipher_request_alloc s1.env with
  | mk b e =>
    cases b with
    | false =>
      right
      exact ⟨[.init_completion, .ablkcipher_request_alloc false, .ablkcipher_request_free],
        by simp [skcipher_out, moto_testmgr_buf, State.log],
        by intro ev hev; simp at hev; rcases hev with rfl | rfl | rfl <;> rfl⟩
    | true =>
      simp only
      have h1 := ext_nopage (loop_pass_ext (fun e => e.isSetup = false)
        (skcipher_unchunked_vec E c tfm enc inject_fault) (fun t => decide (t.np = 0))
        template (skcipher_unchunked_ns E c tfm enc inject_fault) tcount 0
        { env := e, xbuf := s1.xbuf, tresult := ⟨0, E.uninit_int s1.env⟩,
          trace := s1.trace ++ [.init_completion] ++ [.ablkcipher_request_alloc true] })
      rw [← gen_pass_eq_loop, ← skcipher_pass1_eq_gen] at h1
      generalize skcipher_pass1 E c tfm enc template inject_fault tcount 0
        { env := e, xbuf := s1.xbuf, tresult := ⟨0, E.uninit_int s1.env⟩,
          trace := s1.trace ++ [.init_completion] ++ [.ablkcipher_request_alloc true] } = P1
        at h1 ⊢
      obtain ⟨f1, s4⟩ := P1
      obtain ⟨n1, hn1, hq1⟩ := h1
      simp only at hn1
      have hout : ∀ (s5 : State σ) (n2 : List Event), s5.trace = s4.trace ++ n2 →
          (∀ ev ∈ n2, ev.isPage = false) →
          ∃ mid, (skcipher_out s5).trace
              = s1.trace ++ (mid ++ (List.range XBUFSIZE).map Event.free_page) ∧
            ∀ ev ∈ mid, ev.isPage = false := by
        intro s5 n2 hn2 hq2
        refine ⟨[.init_completion, .ablkcipher_request_alloc true] ++ n1 ++ n2
          ++ [.ablkcipher_request_free], by
            simp [skcipher_out, moto_testmgr_buf, State.log, hn2, hn1], ?_⟩
        intro ev hev
        simp only [List.mem_append, List.mem_cons, List.mem_singleton, List.not_mem_nil,
          or_false] at hev
        rcases hev with (((rfl | rfl) | h) | h) | rfl
        · rfl
        · rfl
        · exact hq1 ev h
        · exact hq2 ev h
        · rfl
      cases f1 with
      | stuck => exact Or.inl rfl
      | out ret => exact Or.inr (hout s4 [] (by simp) (by simp))
      | next =>
        simp only
        have h2 := ext_nopage (loop_pass_ext (fun e => e.isSetup = false)
          (skcipher_chunked_vec E c tfm enc) (fun t => decide (t.np ≠ 0))
          template (skcipher_chunked_ns E c tfm enc) tcount 0 s4)
        rw [← gen_pass_eq_loop, ← skcipher_pass2_eq_gen] at h2
        generalize skcipher_pass2 E c tfm enc template tcount 0 s4 = P2 at h2 ⊢
        obtain ⟨f2, s5⟩ := P2
        obtain ⟨n2, hn2, hq2⟩ := h2
        simp only at hn2
        cases f2 with
        | stuck => exact Or.inl rfl
        | out ret => exact Or.inr (hout s5 n2 hn2 hq2)
        | next => exact Or.inr (hout s5 n2 hn2 hq2)

theorem release_summary {σ : Type} (s s1 s2 : State σ) (mid : List Event)
    (h1 : s1.trace = s.trace ++ (List.range XBUFSIZE).map (fun k => Event.get_free_page k true))
    (h2 : s2.trace = s1.trace ++ (mid ++ (List.range XBUFSIZE).map Event.free_page))
    (hmid : ∀ e ∈ mid, e.isPage = false) :
    new_events s s2 = (List.range XBUFSIZE).map (fun k => Event.get_free_page k true)
        ++ mid ++ (List.range XBUFSIZE).map Event.free_page ∧
    ∀ k < XBUFSIZE, (new_events s s2).count (Event.free_page k) = 1 := by
  have htr : s2.trace = s.trace ++ (((List.range XBUFSIZE).map
      (fun k => Event.get_free_page k true) ++ mid)
      ++ (List.range XBUFSIZE).map Event.free_page) := by
    rw [h2, h1]
    simp only [List.append_assoc]
  rw [new_events_append s s2 _ htr]
  refine ⟨rfl, ?_⟩
  intro k hk
  rw [count_free_range k _ ?_, if_pos hk]
  intro e he j
  rcases List.mem_append.1 he with h | h
  · simp only [List.mem_map, List.mem_range] at h
    obtain ⟨a, _, rfl⟩ := h
    simp
  · intro hc
    subst hc
    have := hmid _ h
    simp [Event.isPage] at this

/-- C24: in `moto_test_hash` and in `moto_test_skcipher`, when the acquisition of the
scratch pages fails, the runner returns `-ENOMEM` and calls nothing after
`moto_testmgr_alloc_buf` (which has itself released what it had obtained); when it
succeeds and the runner returns, on whatever path (request allocation failure, key
failure, invalid vector, operation failure, mismatch, success), the calls of the run are
the eight page allocations, then calls none of which allocates or frees a page, then
`free_page` for the pages 0 to 7: each of the eight pages is freed exactly once. -/
theorem scratch_released_once {σ : Type} (E : Env σ) (c : Config) :
    (∀ (tfm : crypto_ahash) (template : List moto_hash_testvec) (tcount : Nat)
      (use_digest : Bool) (inject_fault : Int) (s : State σ),
      ((moto_testmgr_alloc_buf E s).1 ≠ 0 →
        moto_test_hash E c tfm template tcount use_digest inject_fault s
          = (some (-ENOMEM), (moto_testmgr_alloc_buf E s).2)) ∧
      (∀ (s1 : State σ) (r : Int), moto_testmgr_alloc_buf E s = (0, s1) →
        (moto_test_hash E c tfm template tcount use_digest inject_fault s).1 = some r →
        ∃ mid,
          new_events s (moto_test_hash E c tfm template tcount use_digest inject_fault s).2
            = (List.range XBUFSIZE).map (fun k => Event.get_free_page k true)
                ++ mid ++ (List.range XBUFSIZE).map Event.free_page ∧
          (∀ e ∈ mid, e.isPage = false) ∧
          ∀ k < XBUFSIZE,
            (new_events s
              (moto_test_hash E c tfm template tcount use_digest inject_fault s).2).count
              (Event.free_page k) = 1)) ∧
    (∀ (tfm : crypto_ablkcipher) (enc : Int) (template : List moto_cipher_testvec)
      (tcount : Nat) (inject_fault : Int) (s : State σ),
      ((moto_testmgr_alloc_buf E s).1 ≠ 0 →
        moto_test_skcipher E c tfm enc template tcount inject_fault s
          = (some (-ENOMEM), (moto_testmgr_alloc_buf E s).2)) ∧
      (∀ (s1 : State σ) (r : Int), moto_testmgr_alloc_buf E s = (0, s1) →
        (moto_test_skcipher E c tfm enc template tcount inject_fault s).1 = some r →
        ∃ mid,
          new_events s (moto_test_skcipher E c tfm enc template tcount inject_fault s).2
            = (List.range XBUFSIZE).map (fun k => Event.get_free_page k true)
                ++ mid ++ (List.range XBUFSIZE).map Event.free_page ∧
          (∀ e ∈ mid, e.isPage = false) ∧
          ∀ k < XBUFSIZE,
            (new_events s
              (moto_test_skcipher E c tfm enc template tcount inject_fault s).2).count
              (Event.free_page k) = 1)) := by
  refine ⟨?_, ?_⟩
  · intro tfm template tcount use_digest inject_fault s
    refine ⟨?_, ?_⟩
    · intro hne
      unfold moto_test_hash
      generalize moto_testmgr_alloc_buf E s = A at hne ⊢
      obtain ⟨aret, s1⟩ := A
      simp only at hne ⊢
      rw [if_pos hne]
    · intro s1 r ha hret
      rcases hash_run_release E c tfm template tcount use_digest inject_fault s s1 ha with
        h | ⟨mid, h1, h2⟩
      · rw [h] at hret
        simp at hret
      · obtain ⟨k1, k2⟩ := release_summary s s1 _ mid (alloc_buf_ok_trace E s s1 ha) h1 h2
        exact ⟨mid, k1, h2, k2⟩
  · intro tfm enc template tcount inject_fault s
    refine ⟨?_, ?_⟩
    · intro hne
      unfold moto_test_skcipher
      generalize moto_testmgr_alloc_buf E s = A at hne ⊢
      obtain ⟨aret, s1⟩ := A
      simp only at hne ⊢
      rw [if_pos hne]
    · intro s1 r ha hret
      rcases skcipher_run_release E c tfm enc template tcount inject_fault s s1 ha with
        h | ⟨mid, h1, h2⟩
      · rw [h] at hret
        simp at hret
      · obtain ⟨k1, k2⟩ := release_summary s s1 _ mid (alloc_buf_ok_trace E s s1 ha) h1 h2
        exact ⟨mid, k1, h2, k2⟩

/-- Witness for C24: a hash run that ends with a mismatch frees page 5 exactly once; a
cipher run whose page allocator serves three pages only returns `-ENOMEM` and frees
nothing beyond the three pages the allocation released itself. -/
theorem scratch_released_once_witness :
    (new_events sample_state (moto_test_hash (sample_env 0 none) sample_config ⟨0, 20⟩
      [{ plaintext := [1, 2], psize := 2, digest := [1] }] 1 true 0 sample_state).2).count
      (Event.free_page 5) = 1 ∧
    moto_test_skcipher (counting_env 3 (fun _ => [])) sample_config ⟨0⟩ ENCRYPT
        [sample_ok_vec] 1 0 counting_state
      = (some (-ENOMEM),
          (moto_testmgr_alloc_buf (counting_env 3 (fun _ => [])) counting_state).2) := by
  refine ⟨?_, ?_⟩
  · obtain ⟨mid, _, _, h⟩ := ((scratch_released_once (sample_env 0 none) sample_config).1
      ⟨0, 20⟩ [{ plaintext := [1, 2], psize := 2, digest := [1] }] 1 true 0 sample_state).2
      _ (-EINVAL) rfl (by decide)
    exact h 5 (by decide)
  · exact ((scratch_released_once (counting_env 3 (fun _ => [])) sample_config).2
      ⟨0⟩ ENCRYPT [sample_ok_vec] 1 0 counting_state).1 (by decide)

/-! ## The first failure ends the run -/

/-- C25: in each runner, once the processing of a vector leaves through `out` with a
status `r` (key set-up, operation error, invalid layout or output mismatch), the runner
calls nothing more but its clean-up (request and pages freed, resp. the seed memory
freed) and returns `r`: no call is made for a later vector of the same loop, and the
second loop is not entered after a failure in the first.  In `moto_alg_test_skcipher`, a
non-zero status of the encrypt table is returned right after the transform is freed,
without a run over the decrypt table. -/
theorem first_failure_ends_run {σ : Type} (E : Env σ) (c : Config) :
    (∀ (tfm : crypto_ahash) (template : List moto_hash_testvec) (tcount : Nat)
      (use_digest : Bool) (inject_fault : Int) (s0 si s1 : State σ) (i : Nat)
      (t : moto_hash_testvec) (r : Int),
      HashReach1 E c tfm template tcount use_digest inject_fault s0 i si →
      template[i]? = some t → t.np = 0 →
      hash_unchunked_vec E c tfm use_digest inject_fault i t si = (.out r, s1) →
      (moto_test_hash E c tfm template tcount use_digest inject_fault s0).1 = some r ∧
      (moto_test_hash E c tfm template tcount use_digest inject_fault s0).2.trace
        = s1.trace ++ hash_cleanup) ∧
    (∀ (tfm : crypto_ahash) (template : List moto_hash_testvec) (tcount : Nat)
      (use_digest : Bool) (inject_fault : Int) (s0 si s1 : State σ) (i : Nat)
      (t : moto_hash_testvec) (r : Int),
      HashReach2 E c tfm template tcount use_digest inject_fault s0 i si →
      template[i]? = some t → t.np ≠ 0 →
      hash_chunked_vec E c tfm i t si = (.out r, s1) →
      (moto_test_hash E c tfm template tcount use_digest inject_fault s0).1 = some r ∧
      (moto_test_hash E c tfm template tcount use_digest inject_fault s0).2.trace
        = s1.trace ++ hash_cleanup) ∧
    (∀ (tfm : crypto_ablkcipher) (enc : Int) (template : List moto_cipher_testvec)
      (tcount : Nat) (inject_fault : Int) (s0 si s1 : State σ) (i : Nat)
      (t : moto_cipher_testvec) (r : Int),
      SkReach1 E c tfm enc template tcount inject_fault s0 i si →
      template[i]? = some t → t.np = 0 →
      skcipher_unchunked_vec E c tfm enc inject_fault i t si = (.out r, s1) →
      (moto_test_skcipher E c tfm enc template tcount inject_fault s0).1 = some r ∧
      (moto_test_skcipher E c tfm enc template tcount inject_fault s0).2.trace
        = s1.trace ++ skcipher_cleanup) ∧
    (∀ (tfm : crypto_ablkcipher) (enc : Int) (template : List moto_cipher_testvec)
      (tcount : Nat) (inject_fault : Int) (s0 si s1 : State σ) (i : Nat)
      (t : moto_cipher_testvec) (r : Int),
      SkReach2 E c tfm enc template tcount inject_fault s0 i si →
      template[i]? = some t → t.np ≠ 0 →
      skcipher_chunked_vec E c tfm enc i t si = (.out r, s1) →
      (moto_test_skcipher E c tfm enc template tcount inject_fault s0).1 = some r ∧
      (moto_test_skcipher E c tfm enc template tcount inject_fault s0).2.trace
        = s1.trace ++ skcipher_cleanup) ∧
    (∀ (tfm : crypto_rng) (template : List moto_cprng_testvec) (tcount : Nat)
      (inject_fault : Int) (s0 si s1 : State σ) (i : Nat) (seed seed1 : Nat → Nat)
      (t : moto_cprng_testvec) (r : Int),
      CprngReach E c tfm template tcount inject_fault s0 i seed si →
      template[i]? = some t →
      cprng_vec E c tfm inject_fault i t seed si = (some r, seed1, s1) →
      (moto_test_cprng E c tfm template tcount inject_fault s0).1 = some r ∧
      (moto_test_cprng E c tfm template tcount inject_fault s0).2.trace
        = s1.trace ++ [.kfree]) ∧
    (∀ (desc : moto_alg_test_desc) (driver : List Nat) (type mask : Nat) (s s2 : State σ)
      (tfm : crypto_ablkcipher) (e : σ) (vecs : List moto_cipher_testvec) (err : Int),
      E.crypto_alloc_ablkcipher s.env driver type mask = (.ok tfm, e) →
      desc.cipher.enc.vecs = some vecs →
      moto_test_skcipher E c tfm ENCRYPT vecs desc.cipher.enc.count
        (skcipher_inject_fault c desc driver)
        { s with env := e,
                 trace := s.trace ++ [.alloc_tfm .skcipher driver type mask true] }
        = (some err, s2) →
      err ≠ 0 →
      moto_alg_test_skcipher E c desc driver type mask s
        = (some err, s2.log [.free_tfm .skcipher])) := by
  refine ⟨?_, ?_, ?_, ?_, ?_, ?_⟩
  · intro tfm template tcount use_digest inject_fault s0 si s1 i t r hreach ht hnp hv
    rw [hash_reach1_exit E c tfm template tcount use_digest inject_fault s0 si s1 i t r
      hreach ht hnp hv]
    exact ⟨rfl, hash_out_trace s1⟩
  · intro tfm template tcount use_digest inject_fault s0 si s1 i t r hreach ht hnp hv
    rw [hash_reach2_exit E c tfm template tcount use_digest inject_fault s0 si s1 i t r
      hreach ht hnp hv]
    exact ⟨rfl, hash_out_trace s1⟩
  · intro tfm enc template tcount inject_fault s0 si s1 i t r hreach ht hnp hv
    rw [sk_reach1_exit E c tfm enc template tcount inject_fault s0 si s1 i t r
      hreach ht hnp hv]
    exact ⟨rfl, skcipher_out_trace s1⟩
  · intro tfm enc template tcount inject_fault s0 si s1 i t r hreach ht hnp hv
    rw [sk_reach2_exit E c tfm enc template tcount inject_fault s0 si s1 i t r
      hreach ht hnp hv]
    exact ⟨rfl, skcipher_out_trace s1⟩
  · intro tfm template tcount inject_fault s0 si s1 i seed seed1 t r hreach ht hv
    rw [cprng_reach_exit E c tfm template tcount inject_fault s0 si s1 i seed seed1 t r
      hreach ht hv]
    exact ⟨rfl, rfl⟩
  · intro desc driver type mask s s2 tfm e vecs err hal hvecs hrun herr
    unfold moto_alg_test_skcipher
    rw [hal]
    simp only
    rw [hvecs]
    simp only
    rw [hrun]
    simp only
    rw [if_pos herr]

set_option maxRecDepth 100000 in
/-- Witness for C25: a hash table of a vector whose digest the provider does not produce,
followed by a keyed vector: the run returns `-EINVAL` and no call is made for the second
vector. -/
theorem first_failure_ends_run_witness :
    (moto_test_hash (sample_env 0 none) sample_config ⟨0, 20⟩ [mismatch_vec, keyed_vec] 2
      true 0 sample_state).1 = some (-EINVAL) ∧
    (∀ e ∈ (moto_test_hash (sample_env 0 none) sample_config ⟨0, 20⟩
        [mismatch_vec, keyed_vec] 2 true 0 sample_state).2.trace, e.idx ≠ some 1) :=
  ⟨((first_failure_ends_run (sample_env 0 none) sample_config).1 ⟨0, 20⟩
      [mismatch_vec, keyed_vec] 2 true 0 sample_state _ _ 0 mismatch_vec (-EINVAL)
      ⟨by decide, _, (), rfl, rfl, rfl⟩ rfl rfl (Prod.ext (by decide) rfl)).1,
   by decide⟩

/-! ## The completion callback -/

/-- C36: the callback `moto_tcrypt_complete` called with status `-EINPROGRESS` leaves the
pending-result record as it is, without signalling the completion; called with any other
status `e` it stores `e` as the recorded status and signals the completion once (the
completion's counter goes up by one), changing nothing else.  Hence a wait on a record
without pending signal returns `0` with recorded status `e` after one such callback, and
does not return `0` after callbacks with `-EINPROGRESS` only. -/
theorem tcrypt_complete_frame (res : moto_tcrypt_result) (err : Int) :
    (err = -EINPROGRESS → moto_tcrypt_complete res err = res) ∧
    (err ≠ -EINPROGRESS →
      (moto_tcrypt_complete res err).err = err ∧
      (moto_tcrypt_complete res err).completion = res.completion + 1 ∧
      moto_tcrypt_complete res err = { completion := res.completion + 1, err := err }) ∧
    (err ≠ -EINPROGRESS → res.completion = 0 → ∀ (ret intr : Int),
      wait_for_completion_interruptible res ⟨ret, [err], intr⟩
        = some (0, { completion := 0, err := err })) ∧
    (res.completion = 0 → ∀ (ret intr : Int) (n : Nat),
      wait_for_completion_interruptible res ⟨ret, List.replicate n (-EINPROGRESS), intr⟩
        = if intr ≠ 0 then some (intr, res) else none) := by
  refine ⟨?_, ?_, ?_, ?_⟩
  · intro h
    unfold moto_tcrypt_complete
    rw [if_pos h]
  · intro h
    unfold moto_tcrypt_complete
    rw [if_neg h]
    exact ⟨rfl, rfl, rfl⟩
  · intro h h0 ret intr
    unfold wait_for_completion_interruptible moto_tcrypt_complete
    simp only [List.foldl_cons, List.foldl_nil]
    rw [if_neg h]
    simp [h0]
  · intro h0 ret intr n
    have hfold : ∀ n : Nat, (List.replicate n (-EINPROGRESS)).foldl moto_tcrypt_complete res
        = res := by
      intro n
      induction n with
      | zero => rfl
      | succ n ih =>
        rw [List.replicate_succ, List.foldl_cons]
        have : moto_tcrypt_complete res (-EINPROGRESS) = res := by
          unfold moto_tcrypt_complete
          rw [if_pos rfl]
        rw [this, ih]
    unfold wait_for_completion_interruptible
    simp only [hfold n]
    rw [if_neg (by rw [h0]; simp)]

/-! ## The offsets of `MOTO_IDX` stay within the scratch buffers -/

theorem idx_le_max : ∀ k, MOTO_IDX.getD k 0 ≤ 32400 := by
  intro k
  by_cases hk : k < 8
  · interval_cases k <;> decide
  · have : MOTO_IDX.getD k 0 = 0 := by
      rw [List.getD_eq_getElem?_getD, List.getElem?_eq_none (by simp [MOTO_IDX]; omega)]
      rfl
    omega

theorem chunk_buf_lt (c : Config) (h : 12 ≤ c.PAGE_SHIFT) (k : Nat) :
    (chunk_ptr c k).buf < XBUFSIZE := by
  unfold chunk_ptr
  simp only [Nat.shiftRight_eq_div_pow]
  have h1 : (2 : Nat) ^ 12 ≤ 2 ^ c.PAGE_SHIFT := Nat.pow_le_pow_right (by decide) h
  have h2 : MOTO_IDX.getD k 0 / 2 ^ c.PAGE_SHIFT ≤ MOTO_IDX.getD k 0 / 2 ^ 12 :=
    Nat.div_le_div_left h1 (by decide)
  have h3 : MOTO_IDX.getD k 0 / 2 ^ 12 ≤ 32400 / 2 ^ 12 :=
    Nat.div_le_div_right (idx_le_max k)
  have h4 : 32400 / 2 ^ 12 = 7 := by decide
  have h5 : XBUFSIZE = 8 := rfl
  omega

/-- C37: the offset table is `MOTO_IDX = {32, 32400, 1, 8193, 22222, 17101, 27333, 3000}`;
for every page shift of at least 12, the buffer index `MOTO_IDX[k] >> PAGE_SHIFT` is below
`XBUFSIZE = 8` for every `k`, so every entry of the scatter list that the layout loops of
`moto_test_hash` and `moto_test_skcipher` build lies in one of the 8 scratch buffers; with
`PAGE_SHIFT = 12` the pairs of buffer and offset in the page are (0,32), (7,3728), (0,1),
(2,1), (5,1742), (4,717), (6,2757), (0,3000). -/
theorem idx_within_buffers (c : Config) (h : 12 ≤ c.PAGE_SHIFT) :
    MOTO_IDX = [32, 32400, 1, 8193, 22222, 17101, 27333, 3000] ∧ XBUFSIZE = 8 ∧
    (∀ k < 8, MOTO_IDX.getD k 0 >>> c.PAGE_SHIFT < XBUFSIZE) ∧
    (∀ k, (chunk_ptr c k).buf < XBUFSIZE) ∧
    (∀ (t : moto_hash_testvec) (xbuf : Mem) (l : Layout),
      hash_layout c t xbuf t.np = some l → ∀ g ∈ l.sg, g.buf < XBUFSIZE) ∧
    (∀ (t : moto_cipher_testvec) (xbuf : Mem) (l : Layout),
      skcipher_layout c t xbuf t.np = some l → ∀ g ∈ l.sg, g.buf < XBUFSIZE) ∧
    (c.PAGE_SHIFT = 12 →
      (List.range 8).map (fun k => ((chunk_ptr c k).buf, (chunk_ptr c k).off))
        = [(0, 32), (7, 3728), (0, 1), (2, 1), (5, 1742), (4, 717), (6, 2757), (0, 3000)]) := by
  refine ⟨rfl, rfl, fun k _ => chunk_buf_lt c h k, chunk_buf_lt c h, ?_, ?_, ?_⟩
  · intro t xbuf l hl g hg
    rw [hash_layout_eq_gen] at hl
    rw [gen_layout_sg_full c _ _ _ _ xbuf l hl] at hg
    simp only [List.mem_map, List.mem_range] at hg
    obtain ⟨k, _, rfl⟩ := hg
    exact chunk_buf_lt c h k
  · intro t xbuf l hl g hg
    rw [skcipher_layout_eq_gen] at hl
    rw [gen_layout_sg_full c _ _ _ _ xbuf l hl] at hg
    simp only [List.mem_map, List.mem_range] at hg
    obtain ⟨k, _, rfl⟩ := hg
    exact chunk_buf_lt c h k
  · intro h12
    unfold chunk_ptr offset_in_page PAGE_SIZE
    rw [h12]
    decide

/-- Witness for C37: the sample configuration has `PAGE_SHIFT = 12`. -/
theorem idx_within_buffers_witness :
    12 ≤ sample_config.PAGE_SHIFT ∧
    (List.range 8).map (fun k => ((chunk_ptr sample_config k).buf,
        (chunk_ptr sample_config k).off))
      = [(0, 32), (7, 3728), (0, 1), (2, 1), (5, 1742), (4, 717), (6, 2757), (0, 3000)] ∧
    ∀ k, (chunk_ptr sample_config k).buf < XBUFSIZE :=
  ⟨by decide, (idx_within_buffers sample_config (by decide)).2.2.2.2.2.2 rfl,
    (idx_within_buffers sample_config (by decide)).2.2.2.1⟩

/-! ## Declared counts and table lengths -/

/-- C39: for every registry entry, each declared count equals the length of the table it
refers to (both tables of a cipher entry, neither of them a null pointer; the entry
initialises the member of `suite` that its test function reads), so every index
below the count reads an element of the table; the sha1 entry declares 3, the
hmac-sha256 entry 10, the cbc(aes) entry 4 and 4, and the ansi_cprng entry 6. -/
theorem counts_match_tables :
    (∀ desc ∈ moto_alg_test_descs,
      (desc.test = .hash →
        desc.suite.kind = .hash ∧ desc.hash.count = desc.hash.vecs.length ∧
        ∀ i < desc.hash.count, desc.hash.vecs[i]?.isSome = true) ∧
      (desc.test = .cprng →
        desc.suite.kind = .cprng ∧ desc.cprng.count = desc.cprng.vecs.length ∧
        ∀ i < desc.cprng.count, desc.cprng.vecs[i]?.isSome = true) ∧
      (desc.test = .skcipher →
        desc.suite.kind = .skcipher ∧
        ∃ enc dec : List moto_cipher_testvec,
          desc.cipher.enc.vecs = some enc ∧ desc.cipher.dec.vecs = some dec ∧
          desc.cipher.enc.count = enc.length ∧ desc.cipher.dec.count = dec.length ∧
          (∀ i < desc.cipher.enc.count, enc[i]?.isSome = true) ∧
          (∀ i < desc.cipher.dec.count, dec[i]?.isSome = true))) ∧
    (moto_alg_test_descs.map (fun d => (d.hash.count, d.hash.vecs.length))
      = [(0, 0), (0, 0), (0, 0), (0, 0), (0, 0), (0, 0), (7, 7), (4, 4), (10, 10), (4, 4),
         (4, 4), (3, 3), (2, 2), (2, 2), (4, 4), (4, 4)]) ∧
    (moto_alg_test_descs.map (fun d => (d.cipher.enc.count, d.cipher.dec.count))
      = [(0, 0), (4, 4), (1, 1), (3, 3), (3, 3), (3, 3), (0, 0), (0, 0), (0, 0), (0, 0),
         (0, 0), (0, 0), (0, 0), (0, 0), (0, 0), (0, 0)]) ∧
    (moto_alg_test_descs.map (fun d => (d.cprng.count, d.cprng.vecs.length))
      = [(6, 6), (0, 0), (0, 0), (0, 0), (0, 0), (0, 0), (0, 0), (0, 0), (0, 0), (0, 0),
         (0, 0), (0, 0), (0, 0), (0, 0), (0, 0), (0, 0)]) ∧
    (moto_alg_test_descs.map (fun d => d.alg)
      = [ascii "ansi_cprng", ascii "cbc(aes)", ascii "cbc(des3_ede)", ascii "ctr(aes)",
         ascii "ecb(aes)", ascii "ecb(des3_ede)", ascii "moto_hmac(moto-sha1)",
         ascii "moto_hmac(moto-sha224)", ascii "moto_hmac(moto-sha256)",
         ascii "moto_hmac(moto-sha384)", ascii "moto_hmac(moto-sha512)", ascii "sha1",
         ascii "sha224", ascii "sha256", ascii "sha384", ascii "sha512"]) := by
  have hidx : ∀ {α : Type} (l : List α) (n : Nat), n = l.length →
      ∀ i < n, l[i]?.isSome = true := by
    intro α l n hn i hi
    rw [List.getElem?_eq_getElem (by omega)]
    rfl
  have hfacts : ∀ desc ∈ moto_alg_test_descs,
      (desc.test = .hash →
        desc.suite.kind = .hash ∧ desc.hash.count = desc.hash.vecs.length) ∧
      (desc.test = .cprng →
        desc.suite.kind = .cprng ∧ desc.cprng.count = desc.cprng.vecs.length) ∧
      (desc.test = .skcipher →
        desc.suite.kind = .skcipher ∧
        desc.cipher.enc.vecs.isSome = true ∧ desc.cipher.dec.vecs.isSome = true ∧
        desc.cipher.enc.count = (desc.cipher.enc.vecs.getD []).length ∧
        desc.cipher.dec.count = (desc.cipher.dec.vecs.getD []).length) := by
    decide
  refine ⟨?_, by decide, by decide, by decide, by decide⟩
  intro desc hd
  obtain ⟨h1, h2, h3⟩ := hfacts desc hd
  refine ⟨?_, ?_, ?_⟩
  · intro ht
    exact ⟨(h1 ht).1, (h1 ht).2, hidx _ _ (h1 ht).2⟩
  · intro ht
    exact ⟨(h2 ht).1, (h2 ht).2, hidx _ _ (h2 ht).2⟩
  · intro ht
    obtain ⟨k0, k1, k2, k3, k4⟩ := h3 ht
    cases he : desc.cipher.enc.vecs with
    | none => rw [he] at k1; simp at k1
    | some enc =>
      cases hdv : desc.cipher.dec.vecs with
      | none => rw [hdv] at k2; simp at k2
      | some dec =>
        rw [he] at k3
        rw [hdv] at k4
        simp only [Option.getD_some] at k3 k4
        exact ⟨k0, enc, dec, rfl, rfl, k3, k4, hidx _ _ k3, hidx _ _ k4⟩

/-! ## The inline completion handling agrees with the helper -/

theorem inline_status_eq {σ : Type} (s : State σ) (r : OpResult) :
    (inline_completion s r).1 = (moto_do_one_async_hash_op s r).1 := by
  unfold inline_completion moto_do_one_async_hash_op
  by_cases h0 : r.ret = 0
  · rw [if_pos h0, if_neg (by rw [h0]; decide)]
    simp only [h0]
  · rw [if_neg h0]
    by_cases hp : r.ret = -EINPROGRESS ∨ r.ret = -EBUSY
    · rw [if_pos hp, if_pos hp]
      cases hw : wait_for_completion_interruptible s.tresult r with
      | none => rfl
      | some p =>
        obtain ⟨w, tr⟩ := p
        simp only
        by_cases hw0 : w = 0
        · rw [if_pos hw0, if_pos hw0]
          by_cases he : tr.err = 0
          · rw [if_pos he]
            simp only [he]
          · rw [if_neg he]
        · rw [if_neg hw0, if_neg hw0]
    · rw [if_neg hp, if_neg hp]

theorem hash_chunked_after_op {σ : Type} (E : Env σ) (c : Config) (tfm : crypto_ahash)
    (i : Nat) (t : moto_hash_testvec) (s s2 s3 s4 : State σ) (l : Layout) (r : OpResult)
    (result : Nat → Nat) (w : Option Int)
    (hl : hash_layout c t s.xbuf t.np = some l)
    (hk : hash_setkey E tfm i t { s with xbuf := l.xbuf } = (0, s2))
    (hc : ahash_call E tfm .digest i l.sg t.psize (fun _ => 0) s2 = (r, result, s3))
    (hw : inline_completion s3 r = (w, s4)) :
    (w = none → hash_chunked_vec E c tfm i t s = (.stuck, s4)) ∧
    (∀ code, w = some code → code ≠ 0 → hash_chunked_vec E c tfm i t s = (.out code, s4)) ∧
    (w = some 0 → ∃ cmp, (hash_chunked_vec E c tfm i t s).2 = s4.log [.memcmp i 0 cmp]) := by
  refine ⟨?_, ?_, ?_⟩
  · intro h
    subst h
    unfold hash_chunked_vec
    simp only [hl, hk, hc, hw, ne_eq, not_true_eq_false, if_false]
  · intro code h hne
    subst h
    unfold hash_chunked_vec
    simp only [hl, hk, hc, hw, ne_eq, not_true_eq_false, if_false]
    rw [if_pos hne]
  · intro h
    subst h
    rw [hash_chunked_vec_ok E c tfm i t s s2 s3 s4 l r result hl hk hc hw]
    refine ⟨memcmp result (byteAt t.digest) tfm.digestsize, ?_⟩
    split <;> rfl

theorem unchunked_after_op {σ : Type} (E : Env σ) (c : Config)
    (tfm : crypto_ablkcipher) (enc : Int) (inject_fault : Int) (i : Nat)
    (t : moto_cipher_testvec) (s s2 s3 s4 : State σ) (r : OpResult) (w : Option Int)
    (hg : ¬ t.ilen > PAGE_SIZE c)
    (hk : skcipher_setkey E tfm i t
      { s with xbuf := s.xbuf.memcpy 0 0 (byteAt t.input) t.ilen } = (0, s2))
    (hf : t.fail ≠ 1)
    (hc : skcipher_call E tfm enc i [⟨0, 0, t.ilen⟩] t.ilen (vec_iv c t) s2 = (r, s3))
    (hw : inline_completion s3 r = (w, s4)) :
    (w = none → skcipher_unchunked_vec E c tfm enc inject_fault i t s = (.stuck, s4)) ∧
    (∀ code, w = some code → code ≠ 0 →
      skcipher_unchunked_vec E c tfm enc inject_fault i t s = (.out code, s4)) ∧
    (w = some 0 → ∃ cmp,
      (skcipher_unchunked_vec E c tfm enc inject_fault i t s).2.trace
        = s4.trace ++ [.memcmp i 0 cmp]) := by
  have hf1 : ¬ (1 = t.fail) := fun h => hf h.symm
  refine ⟨?_, ?_, ?_⟩
  · intro h
    subst h
    unfold skcipher_unchunked_vec
    rw [if_neg hg]
    simp only [hk, hc, hw, ne_eq, not_true_eq_false, if_false, if_true]
    rw [if_neg hf1]
  · intro code h hne
    subst h
    unfold skcipher_unchunked_vec
    rw [if_neg hg]
    simp only [hk, hc, hw, ne_eq, not_true_eq_false, if_false, if_true]
    rw [if_neg hf1, if_pos hne]
  · intro h
    subst h
    rw [skcipher_unchunked_vec_ok E c tfm enc inject_fault i t s s2 s3 s4 r hg hk hf hc hw]
    split <;> split <;> exact ⟨_, rfl⟩

theorem chunked_after_op {σ : Type} (E : Env σ) (c : Config)
    (tfm : crypto_ablkcipher) (enc : Int) (i : Nat) (t : moto_cipher_testvec)
    (s s2 s3 s4 : State σ) (l : Layout) (r : OpResult) (w : Option Int)
    (hk : skcipher_setkey E tfm i t s = (0, s2)) (hf : t.fail ≠ 1)
    (hl : skcipher_layout c t s2.xbuf t.np = some l)
    (hc : skcipher_call E tfm enc i l.sg t.ilen (vec_iv c t) { s2 with xbuf := l.xbuf }
      = (r, s3))
    (hw : inline_completion s3 r = (w, s4)) :
    (w = none → skcipher_chunked_vec E c tfm enc i t s = (.stuck, s4)) ∧
    (∀ code, w = some code → code ≠ 0 →
      skcipher_chunked_vec E c tfm enc i t s = (.out code, s4)) ∧
    (w = some 0 →
      (skcipher_chunked_vec E c tfm enc i t s).2
        = s4.log (skcipher_check_chunks c t i s4.xbuf t.np 0 0).1) := by
  have hf1 : ¬ (1 = t.fail) := fun h => hf h.symm
  refine ⟨?_, ?_, ?_⟩
  · intro h
    subst h
    unfold skcipher_chunked_vec
    simp only [hk, hl, hc, hw, ne_eq, not_true_eq_false, if_false, if_true]
    rw [if_neg hf1]
  · intro code h hne
    subst h
    unfold skcipher_chunked_vec
    simp only [hk, hl, hc, hw, ne_eq, not_true_eq_false, if_false, if_true]
    rw [if_neg hf1, if_pos hne]
  · intro h
    subst h
    rw [skcipher_chunked_vec_ok E c tfm enc i t s s2 s3 s4 l r hk hf hl hc hw]
    split <;> rfl

/-- C35: for every state of the pending-result record and every answer of the provider
(return code, callbacks, outcome of the wait), the `switch` that handles the completion
in the chunked hash pass and in both cipher passes ends with the status that
`moto_do_one_async_hash_op` returns on the same inputs (and like it never ends when the
wait does not return).  The vector's processing goes on to the comparison exactly when
this status is `0`; for any other status `code` it leaves through `out` with `code`,
which is then the status of the run. -/
theorem inline_matches_helper {σ : Type} (E : Env σ) (c : Config) :
    (∀ (s : State σ) (r : OpResult),
      (inline_completion s r).1 = (moto_do_one_async_hash_op s r).1) ∧
    (∀ (tfm : crypto_ahash) (i : Nat) (t : moto_hash_testvec) (s s2 s3 : State σ)
      (l : Layout) (r : OpResult) (result : Nat → Nat),
      hash_layout c t s.xbuf t.np = some l →
      hash_setkey E tfm i t { s with xbuf := l.xbuf } = (0, s2) →
      ahash_call E tfm .digest i l.sg t.psize (fun _ => 0) s2 = (r, result, s3) →
      ((moto_do_one_async_hash_op s3 r).1 = none →
        (hash_chunked_vec E c tfm i t s).1 = .stuck) ∧
      ((moto_do_one_async_hash_op s3 r).1 = some 0 →
        ∃ cmp, (hash_chunked_vec E c tfm i t s).2
          = (inline_completion s3 r).2.log [.memcmp i 0 cmp]) ∧
      (∀ code, (moto_do_one_async_hash_op s3 r).1 = some code → code ≠ 0 →
        hash_chunked_vec E c tfm i t s = (.out code, (inline_completion s3 r).2) ∧
        ∀ (template : List moto_hash_testvec) (tcount : Nat) (use_digest : Bool)
          (inject_fault : Int) (s0 : State σ),
          HashReach2 E c tfm template tcount use_digest inject_fault s0 i s →
          template[i]? = some t → t.np ≠ 0 →
          (moto_test_hash E c tfm template tcount use_digest inject_fault s0).1
            = some code)) ∧
    (∀ (tfm : crypto_ablkcipher) (enc : Int) (inject_fault : Int) (i : Nat)
      (t : moto_cipher_testvec) (s s2 s3 : State σ) (r : OpResult),
      ¬ t.ilen > PAGE_SIZE c →
      skcipher_setkey E tfm i t
        { s with xbuf := s.xbuf.memcpy 0 0 (byteAt t.input) t.ilen } = (0, s2) →
      t.fail ≠ 1 →
      skcipher_call E tfm enc i [⟨0, 0, t.ilen⟩] t.ilen (vec_iv c t) s2 = (r, s3) →
      ((moto_do_one_async_hash_op s3 r).1 = none →
        (skcipher_unchunked_vec E c tfm enc inject_fault i t s).1 = .stuck) ∧
      ((moto_do_one_async_hash_op s3 r).1 = some 0 →
        ∃ cmp, (skcipher_unchunked_vec E c tfm enc inject_fault i t s).2.trace
          = (inline_completion s3 r).2.trace ++ [.memcmp i 0 cmp]) ∧
      (∀ code, (moto_do_one_async_hash_op s3 r).1 = some code → code ≠ 0 →
        skcipher_unchunked_vec E c tfm enc inject_fault i t s
          = (.out code, (inline_completion s3 r).2) ∧
        ∀ (template : List moto_cipher_testvec) (tcount : Nat) (s0 : State σ),
          SkReach1 E c tfm enc template tcount inject_fault s0 i s →
          template[i]? = some t → t.np = 0 →
          (moto_test_skcipher E c tfm enc template tcount inject_fault s0).1
            = some code)) ∧
    (∀ (tfm : crypto_ablkcipher) (enc : Int) (i : Nat) (t : moto_cipher_testvec)
      (s s2 s3 : State σ) (l : Layout) (r : OpResult),
      skcipher_setkey E tfm i t s = (0, s2) → t.fail ≠ 1 →
      skcipher_layout c t s2.xbuf t.np = some l →
      skcipher_call E tfm enc i l.sg t.ilen (vec_iv c t) { s2 with xbuf := l.xbuf }
        = (r, s3) →
      ((moto_do_one_async_hash_op s3 r).1 = none →
        (skcipher_chunked_vec E c tfm enc i t s).1 = .stuck) ∧
      ((moto_do_one_async_hash_op s3 r).1 = some 0 →
        (skcipher_chunked_vec E c tfm enc i t s).2
          = (inline_completion s3 r).2.log
              (skcipher_check_chunks c t i (inline_completion s3 r).2.xbuf t.np 0 0).1) ∧
      (∀ code, (moto_do_one_async_hash_op s3 r).1 = some code → code ≠ 0 →
        skcipher_chunked_vec E c tfm enc i t s = (.out code, (inline_completion s3 r).2) ∧
        ∀ (template : List moto_cipher_testvec) (tcount : Nat) (inject_fault : Int)
          (s0 : State σ),
          SkReach2 E c tfm enc template tcount inject_fault s0 i s →
          template[i]? = some t → t.np ≠ 0 →
          (moto_test_skcipher E c tfm enc template tcount inject_fault s0).1
            = some code)) := by
  refine ⟨inline_status_eq, ?_, ?_, ?_⟩
  · intro tfm i t s s2 s3 l r result hl hk hc
    obtain ⟨h1, h2, h3⟩ := hash_chunked_after_op E c tfm i t s s2 s3
      (inline_completion s3 r).2 l r result (inline_completion s3 r).1 hl hk hc rfl
    rw [← inline_status_eq]
    refine ⟨fun h => by rw [h1 h], h3, ?_⟩
    intro code hcode hne
    have hv := h2 code hcode hne
    refine ⟨hv, ?_⟩
    intro template tcount use_digest inject_fault s0 hreach ht hnp
    rw [hash_reach2_exit E c tfm template tcount use_digest inject_fault s0 s _ i t code
      hreach ht hnp hv]
  · intro tfm enc inject_fault i t s s2 s3 r hg hk hf hc
    obtain ⟨h1, h2, h3⟩ := unchunked_after_op E c tfm enc inject_fault i t s s2 s3
      (inline_completion s3 r).2 r (inline_completion s3 r).1 hg hk hf hc rfl
    rw [← inline_status_eq]
    refine ⟨fun h => by rw [h1 h], h3, ?_⟩
    intro code hcode hne
    have hv := h2 code hcode hne
    refine ⟨hv, ?_⟩
    intro template tcount s0 hreach ht hnp
    rw [sk_reach1_exit E c tfm enc template tcount inject_fault s0 s _ i t code
      hreach ht hnp hv]
  · intro tfm enc i t s s2 s3 l r hk hf hl hc
    obtain ⟨h1, h2, h3⟩ := chunked_after_op E c tfm enc i t s s2 s3
      (inline_completion s3 r).2 l r (inline_completion s3 r).1 hk hf hl hc rfl
    rw [← inline_status_eq]
    refine ⟨fun h => by rw [h1 h], h3, ?_⟩
    intro code hcode hne
    have hv := h2 code hcode hne
    refine ⟨hv, ?_⟩
    intro template tcount inject_fault s0 hreach ht hnp
    rw [sk_reach2_exit E c tfm enc template tcount inject_fault s0 s _ i t code
      hreach ht hnp hv]

set_option maxRecDepth 100000 in
/-- Witness for C35: with a provider that defers every cipher operation and completes it
with status `-5`, the helper returns `-5` on the operation's answer, and a run over one
chunked cipher vector returns `-5`. -/
theorem inline_matches_helper_witness :
    (moto_do_one_async_hash_op sample_state ⟨-EINPROGRESS, [-5], 0⟩).1 = some (-5) ∧
    (inline_completion sample_state ⟨-EINPROGRESS, [-5], 0⟩).1 = some (-5) ∧
    (moto_test_skcipher (deferred_env (-5)) sample_config ⟨0⟩ ENCRYPT [sample_chunk_vec] 1 0
      sample_state).1 = some (-5) := by
  refine ⟨by decide, ?_, ?_⟩
  · rw [(inline_matches_helper (deferred_env (-5)) sample_config).1]
    decide
  · exact (((inline_matches_helper (deferred_env (-5)) sample_config).2.2.2 ⟨0⟩ ENCRYPT 0
      sample_chunk_vec _ _ _ _ ⟨-EINPROGRESS, [-5], 0⟩ rfl (by decide) rfl rfl).2.2 (-5)
      (by decide) (by decide)).2 [sample_chunk_vec] 1 0 sample_state
      ⟨by decide, _, (), _, rfl, rfl, rfl, rfl⟩ rfl (by decide)

/-! ## The cipher fault selector -/

theorem aes_select_eq (c : Config) (a128 a192 a256 : MOTO_CRYPTO_ALG) (f : Int) :
    aes_fault_select c a128 a192 a256 f = largest_key_length c a128 a192 a256 f := by
  unfold aes_fault_select largest_key_length
  cases mask_has c a128 <;> cases mask_has c a192 <;> cases mask_has c a256 <;> rfl

theorem selector_eq_reference (c : Config) (hF : c.FAULT_INJECTION = true)
    (desc : moto_alg_test_desc) (driver : List Nat) :
    skcipher_inject_fault c desc driver = selector_reference c desc driver := by
  unfold skcipher_inject_fault selector_reference
  rw [if_pos hF]
  simp only [aes_select_eq]
  have hecb : cstr (ascii "moto-aes-ecb") = ascii "moto-aes-ecb" := by decide
  have hcbc : cstr (ascii "moto-aes-cbc") = ascii "moto-aes-cbc" := by decide
  have hctr : cstr (ascii "moto-aes-ctr") = ascii "moto-aes-ctr" := by decide
  simp only [strcmp_eq_zero_iff, hecb, hcbc, hctr]
  by_cases h1 : cstr driver = ascii "moto-aes-ecb"
  · have h2 : ¬ cstr driver = ascii "moto-aes-cbc" := by rw [h1]; decide
    have h3 : ¬ cstr driver = ascii "moto-aes-ctr" := by rw [h1]; decide
    rw [if_pos h1, if_neg h2, if_neg h3, if_pos h1]
    rfl
  · rw [if_neg h1, if_neg h1]
    by_cases h2 : cstr driver = ascii "moto-aes-cbc"
    · have h3 : ¬ cstr driver = ascii "moto-aes-ctr" := by rw [h2]; decide
      rw [if_pos h2, if_neg h3, if_pos h2]
      rfl
    · rw [if_neg h2, if_neg h2]
      rfl

/-- C34: in a build with fault injection, the selector that `moto_alg_test_skcipher`
computes and hands to both runs of `moto_test_skcipher` is the one the specification
describes: for the driver `moto-aes-ecb`, `moto-aes-cbc` or `moto-aes-ctr`, 256, 192 or
128, the largest key length whose bit of that mode is set in the fault mask, whatever
`mask & alg_id` is; when no such bit is set or the driver is another one, `-1` when
`mask & alg_id` is non-zero and `0` otherwise.  For an unchunked vector whose cipher
operation succeeded, `moto_test_skcipher` replaces byte 0 of the output by its
complement (`^= 0xff`, which changes it) exactly when the selector is `-1` or equals
`8 * klen`, leaves every other byte as it is, and compares the result; the processing of a
chunked vector does not depend on the selector. -/
theorem cipher_fault_selector {σ : Type} (E : Env σ) (c : Config)
    (hF : c.FAULT_INJECTION = true) :
    (∀ (desc : moto_alg_test_desc) (driver : List Nat),
      skcipher_inject_fault c desc driver = selector_reference c desc driver ∧
      (skcipher_inject_fault c desc driver = 256 ∨ skcipher_inject_fault c desc driver = 192 ∨
        skcipher_inject_fault c desc driver = 128 ∨ skcipher_inject_fault c desc driver = -1 ∨
        skcipher_inject_fault c desc driver = 0)) ∧
    (∀ (desc : moto_alg_test_desc) (driver : List Nat) (type mask : Nat) (s s2 s3 : State σ)
      (tfm : crypto_ablkcipher) (e : σ) (ev dv : List moto_cipher_testvec) (err : Int),
      E.crypto_alloc_ablkcipher s.env driver type mask = (.ok tfm, e) →
      desc.cipher.enc.vecs = some ev → desc.cipher.dec.vecs = some dv →
      moto_test_skcipher E c tfm ENCRYPT ev desc.cipher.enc.count
        (selector_reference c desc driver)
        { s with env := e,
                 trace := s.trace ++ [.alloc_tfm .skcipher driver type mask true] }
        = (some 0, s2) →
      moto_test_skcipher E c tfm DECRYPT dv desc.cipher.dec.count
        (selector_reference c desc driver) s2 = (some err, s3) →
      moto_alg_test_skcipher E c desc driver type mask s
        = (some err, s3.log [.free_tfm .skcipher])) ∧
    (∀ (tfm : crypto_ablkcipher) (enc : Int) (inject_fault : Int) (i : Nat)
      (t : moto_cipher_testvec) (s s2 s3 s4 : State σ) (r : OpResult),
      ¬ t.ilen > PAGE_SIZE c →
      skcipher_setkey E tfm i t
        { s with xbuf := s.xbuf.memcpy 0 0 (byteAt t.input) t.ilen } = (0, s2) →
      t.fail ≠ 1 →
      skcipher_call E tfm enc i [⟨0, 0, t.ilen⟩] t.ilen (vec_iv c t) s2 = (r, s3) →
      inline_completion s3 r = (some 0, s4) →
      ((inject_fault = -1 ∨ inject_fault = (t.klen : Int) * 8) →
        (skcipher_unchunked_vec E c tfm enc inject_fault i t s).2.xbuf
          = s4.xbuf.store 0 0 (s4.xbuf 0 0 ^^^ 0xff)) ∧
      (¬ (inject_fault = -1 ∨ inject_fault = (t.klen : Int) * 8) →
        (skcipher_unchunked_vec E c tfm enc inject_fault i t s).2.xbuf = s4.xbuf) ∧
      ((skcipher_unchunked_vec E c tfm enc inject_fault i t s).2.xbuf 0 0 ≠ s4.xbuf 0 0 ↔
        (inject_fault = -1 ∨ inject_fault = (t.klen : Int) * 8)) ∧
      (∀ b o, ¬ (b = 0 ∧ o = 0) →
        (skcipher_unchunked_vec E c tfm enc inject_fault i t s).2.xbuf b o = s4.xbuf b o) ∧
      (skcipher_unchunked_vec E c tfm enc inject_fault i t s).2.trace
        = s4.trace ++ [.memcmp i 0
            (memcmp ((skcipher_unchunked_vec E c tfm enc inject_fault i t s).2.xbuf 0)
              (byteAt t.result) t.rlen)]) ∧
    (∀ (tfm : crypto_ablkcipher) (enc : Int) (i : Nat) (t : moto_cipher_testvec)
      (s : State σ),
      skcipher_chunked_vec E c tfm enc i t s
        = skcipher_chunked_vec E (no_fault c) tfm enc i t s) := by
  refine ⟨?_, ?_, ?_, ?_⟩
  · intro desc driver
    have h := selector_eq_reference c hF desc driver
    refine ⟨h, ?_⟩
    rw [h]
    unfold selector_reference largest_key_length
    simp only
    split_ifs <;> simp
  · intro desc driver type mask s s2 s3 tfm e ev dv err hal hev hdv h1 h2
    unfold moto_alg_test_skcipher
    rw [hal]
    simp only
    rw [hev, hdv, selector_eq_reference c hF desc driver]
    simp only
    rw [h1]
    simp only [ne_eq, not_true_eq_false, if_false]
    rw [h2]
  · intro tfm enc inject_fault i t s s2 s3 s4 r hg hk hf hc hw
    have hv := skcipher_unchunked_vec_ok E c tfm enc inject_fault i t s s2 s3 s4 r
      hg hk hf hc hw
    have hcond : (c.FAULT_INJECTION = true ∧ (inject_fault = INJECT_FAULT_ALL_KEY_LENGHTS ∨
        inject_fault = (t.klen : Int) * 8)) ↔
        (inject_fault = -1 ∨ inject_fault = (t.klen : Int) * 8) :=
      ⟨fun h => h.2, fun h => ⟨hF, h⟩⟩
    by_cases hsel : inject_fault = -1 ∨ inject_fault = (t.klen : Int) * 8
    · have hp := hcond.2 hsel
      simp only [if_pos hp] at hv
      have hx : (skcipher_unchunked_vec E c tfm enc inject_fault i t s).2.xbuf
          = s4.xbuf.store 0 0 (s4.xbuf 0 0 ^^^ 0xff) := by
        rw [hv]; split <;> rfl
      have ht : (skcipher_unchunked_vec E c tfm enc inject_fault i t s).2.trace
          = s4.trace ++ [.memcmp i 0
              (memcmp ((s4.xbuf.store 0 0 (s4.xbuf 0 0 ^^^ 0xff)) 0)
                (byteAt t.result) t.rlen)] := by
        rw [hv]; split <;> rfl
      refine ⟨fun _ => hx, fun h => absurd hsel h, ?_, ?_, ?_⟩
      · rw [hx]
        refine ⟨fun _ => hsel, fun _ => ?_⟩
        unfold Mem.store
        rw [if_pos ⟨rfl, rfl⟩]
        exact xor_ff_ne _
      · intro b o hbo
        rw [hx]
        unfold Mem.store
        rw [if_neg hbo]
      · rw [ht, hx]
    · have hp : ¬ (c.FAULT_INJECTION = true ∧
          (inject_fault = INJECT_FAULT_ALL_KEY_LENGHTS ∨ inject_fault = (t.klen : Int) * 8)) :=
        fun h => hsel (hcond.1 h)
      simp only [if_neg hp] at hv
      have hx : (skcipher_unchunked_vec E c tfm enc inject_fault i t s).2.xbuf = s4.xbuf := by
        rw [hv]; split <;> rfl
      have ht : (skcipher_unchunked_vec E c tfm enc inject_fault i t s).2.trace
          = s4.trace ++ [.memcmp i 0 (memcmp (s4.xbuf 0) (byteAt t.result) t.rlen)] := by
        rw [hv]; split <;> rfl
      refine ⟨fun h => absurd h hsel, fun _ => hx, ?_, ?_, ?_⟩
      · rw [hx]
        exact ⟨fun h => absurd rfl h, fun h => absurd h hsel⟩
      · intro b o _
        rw [hx]
      · rw [ht, hx]
  · intro tfm enc i t s
    exact (skcipher_chunked_no_fault E c tfm enc i t s).symm

set_option maxRecDepth 100000 in
/-- Witness for C34: in a fault-injection build whose mask holds the bits of AES-ECB-128
and AES-ECB-192, the selector for the driver `moto-aes-ecb` is 192 for every registry
entry; with the sample provider, a vector with a 3-byte key has byte 0 of its output
complemented under selector 24 and under selector `-1`, and kept under selector 192. -/
theorem cipher_fault_selector_witness :
    aes_fault_config.FAULT_INJECTION = true ∧
    (∀ desc : moto_alg_test_desc,
      skcipher_inject_fault aes_fault_config desc (ascii "moto-aes-ecb") = 192) ∧
    (skcipher_unchunked_vec (sample_env 0 none) aes_fault_config ⟨0⟩ ENCRYPT 24 0
      sample_ok_vec sample_state).2.xbuf 0 0 = 0x61 ^^^ 0xff ∧
    (skcipher_unchunked_vec (sample_env 0 none) aes_fault_config ⟨0⟩ ENCRYPT (-1) 0
      sample_ok_vec sample_state).2.xbuf 0 0 = 0x61 ^^^ 0xff ∧
    (skcipher_unchunked_vec (sample_env 0 none) aes_fault_config ⟨0⟩ ENCRYPT 192 0
      sample_ok_vec sample_state).2.xbuf 0 0 = 0x61 := by
  have h := cipher_fault_selector (sample_env 0 none) aes_fault_config rfl
  refine ⟨rfl, ?_, ?_, ?_, ?_⟩
  · intro desc
    rw [(h.1 desc _).1]
    rfl
  · rw [(h.2.2.1 ⟨0⟩ ENCRYPT 24 0 sample_ok_vec sample_state _ _ _ _ (by decide) rfl
      (by decide) rfl rfl).1 (Or.inr (by decide))]
    decide
  · rw [(h.2.2.1 ⟨0⟩ ENCRYPT (-1) 0 sample_ok_vec sample_state _ _ _ _ (by decide) rfl
      (by decide) rfl rfl).1 (Or.inl rfl)]
    decide
  · rw [(h.2.2.1 ⟨0⟩ ENCRYPT 192 0 sample_ok_vec sample_state _ _ _ _ (by decide) rfl
      (by decide) rfl rfl).2.1 (by decide)]
    decide
/-! ## C38: the regions of the registered chunk lists are disjoint -/

theorem chunk_ptr_4096 (c : Config) (hc : c.PAGE_SHIFT = 12) (k : Nat) :
    chunk_ptr c k = chunk_ptr sample_config k := by
  unfold chunk_ptr offset_in_page PAGE_SIZE
  rw [hc]
  rfl

theorem regions_disjoint_4096 (c : Config) (hc : c.PAGE_SHIFT = 12) (tap : List Nat)
    (np : Nat) : regions_disjoint c tap np ↔ regions_disjoint sample_config tap np := by
  unfold regions_disjoint chunk_region
  simp only [chunk_ptr_4096 c hc]

theorem kept_of_disjoint (c : Config) (tap : List Nat) (np : Nat)
    (h : regions_disjoint c tap np) : regions_kept c tap np false := by
  intro k2 hk2 k hk
  have h1 := h k (by omega) k2 hk2 (by omega)
  simp only [chunk_region] at h1
  have hw : written_len c tap false k2 = tap.getD k2 0 := by
    unfold written_len
    simp
  rw [hw]
  exact h1

set_option maxRecDepth 100000 in
theorem registered_disjoint_facts :
    ∀ desc ∈ moto_alg_test_descs, desc.test = .hash →
      ∀ t ∈ desc.hash.vecs, t.np ≠ 0 →
        regions_disjoint sample_config t.tap t.np ∧ t.plaintext.length = t.psize := by
  decide

theorem range_map_byteAt (l : List Nat) : (List.range l.length).map (byteAt l) = l := by
  apply List.ext_getElem?
  intro k
  by_cases hk : k < l.length
  · simp [hk, byteAt, List.getD_eq_getElem?_getD, List.getElem?_eq_getElem hk]
  · rw [List.getElem?_eq_none (by simp; omega), List.getElem?_eq_none (by omega)]

/-- C38: with 4096-byte pages (`PAGE_SHIFT = 12`), for every chunked vector (`np != 0`) of
every hash table of the registry the scratch regions of its chunks are pairwise disjoint,
so the layout loop of `moto_test_hash` runs through and reading the scatter list back
gives the vector's plaintext.  Chunks 0, 2 and 7 lie in buffer 0 at offsets 32, 1 and
3000; for the SHA-1 vector with chunks `{63, 64, 31, 5}` chunk 2 occupies `[1, 32)` and
chunk 0 occupies `[32, 95)` of buffer 0. -/
theorem registered_regions_disjoint (c : Config) (hc : c.PAGE_SHIFT = 12) :
    (∀ desc ∈ moto_alg_test_descs, desc.test = .hash →
      ∀ t ∈ desc.hash.vecs, t.np ≠ 0 →
        regions_disjoint c t.tap t.np ∧
        ∀ xbuf : Mem, ∃ l, hash_layout c t xbuf t.np = some l ∧
          gather l.xbuf l.sg = t.plaintext) ∧
    (chunk_ptr c 0 = ⟨0, 32⟩ ∧ chunk_ptr c 2 = ⟨0, 1⟩ ∧ chunk_ptr c 7 = ⟨0, 3000⟩) ∧
    (∃ d t, moto_alg_test_descs[11]? = some d ∧ d.alg = ascii "sha1" ∧
      d.hash.vecs[2]? = some t ∧ t.np = 4 ∧ t.tap = [63, 64, 31, 5] ∧
      chunk_region c t.tap 2 = (0, 1, 32) ∧ chunk_region c t.tap 0 = (0, 32, 95)) := by
  refine ⟨?_, ?_, ?_⟩
  · intro desc hd ht t htm hnp
    obtain ⟨hdis0, hlen⟩ := registered_disjoint_facts desc hd ht t htm hnp
    have hdis := (regions_disjoint_4096 c hc t.tap t.np).2 hdis0
    refine ⟨hdis, ?_⟩
    intro xbuf
    obtain ⟨_, hv⟩ := registered_tap_facts desc hd ht
    obtain ⟨_, _, _, hstart, hfit0⟩ := hv t htm hnp
    have hfit : ∀ k < t.np, chunk_fits c t.tap k :=
      fun k hk => (page_fit_4096 c hc t.tap k).2 (hfit0 k hk)
    have hsome := (gen_layout_isSome c (byteAt t.plaintext) t.tap t.np false xbuf t.np).2 hfit
    cases hl : gen_layout c (byteAt t.plaintext) t.tap t.np false xbuf t.np with
    | none => rw [hl] at hsome; simp at hsome
    | some l =>
      have hreg := gen_layout_regions c _ _ _ _ xbuf (kept_of_disjoint c _ _ hdis) t.np l
        (Nat.le_refl _) hl
      refine ⟨l, ?_, ?_⟩
      · rw [hash_layout_eq_gen, hl]
      · rw [gen_layout_sg_full c _ _ _ _ xbuf l hl, gather_chunks c _ _ _ _ hreg, hstart,
          ← hlen]
        exact range_map_byteAt _
  · simp only [chunk_ptr_4096 c hc]
    decide
  · refine ⟨_, _, rfl, by decide, rfl, rfl, rfl, ?_, ?_⟩
    · simp only [chunk_region, chunk_ptr_4096 c hc]
      decide
    · simp only [chunk_region, chunk_ptr_4096 c hc]
      decide

set_option maxRecDepth 100000 in
/-- Witness for C38: the sample configuration has 4096-byte pages; for the registered
SHA-1 vector with chunks `{63, 64, 31, 5}` the layout loop runs through and the gathered
scatter list is the plaintext. -/
theorem registered_regions_disjoint_witness :
    sample_config.PAGE_SHIFT = 12 ∧
    regions_disjoint sample_config [63, 64, 31, 5] 4 ∧
    ∃ l, hash_layout sample_config (moto_sha1_tv_template.getD 2 {}) (fun _ _ => 0) 4 = some l ∧
      gather l.xbuf l.sg = (moto_sha1_tv_template.getD 2 {}).plaintext := by
  have h := ((registered_regions_disjoint sample_config rfl).1
    (moto_alg_test_descs.getD 11 (moto_alg_test_descs.getD 0 ⟨[], .hash, none, .hash ⟨[], 0⟩⟩))
    (by decide) (by decide) (moto_sha1_tv_template.getD 2 {}) (by decide) (by decide))
  exact ⟨rfl, h.1, h.2 _⟩
/-! ## Events of whole runs -/

theorem ext_mono {σ : Type} {Q R : Event → Prop} {s s1 : State σ} (h : Ext Q s s1)
    (hQR : ∀ e, Q e → R e) : Ext R s s1 := by
  obtain ⟨new, hn, hq⟩ := h
  exact ⟨new, hn, fun e he => hQR e (hq e he)⟩

theorem loop_pass_ext_sel {σ τ : Type} (Q : Event → Prop)
    (vec : Nat → τ → State σ → Flow × State σ) (sel : τ → Bool) (template : List τ)
    (hvec : ∀ i t s, template[i]? = some t → sel t = true → Ext Q s (vec i t s).2) :
    ∀ (n i : Nat) (s : State σ), Ext Q s (loop_pass vec sel template n i s).2 := by
  intro n
  induction n with
  | zero => intro i s; exact Ext.refl _ _
  | succ n ih =>
    intro i s
    rw [loop_pass]
    cases ht : template[i]? with
    | none => exact Ext.refl _ _
    | some t =>
      simp only
      by_cases hs : sel t = true
      · rw [if_pos hs]
        have h1 := hvec i t s ht hs
        generalize vec i t s = V at h1 ⊢
        obtain ⟨f, s1⟩ := V
        cases f with
        | next => exact Ext.trans h1 (ih _ _)
        | out r => exact h1
        | stuck => exact h1
      · rw [if_neg hs]
        exact ih _ _

theorem testmgr_buf_ext {σ : Type} (Q : Event → Prop) (hsetup : ∀ e, e.isSetup = true → Q e)
    (s : State σ) : Ext Q s (moto_testmgr_buf s) := by
  unfold moto_testmgr_buf
  apply Ext.log
  intro e he
  apply hsetup
  simp only [List.mem_map, List.mem_range] at he
  obtain ⟨a, _, rfl⟩ := he
  rfl

theorem hash_run_ext {σ : Type} (Q : Event → Prop) (hsetup : ∀ e, e.isSetup = true → Q e)
    (E : Env σ) (c : Config) (tfm : crypto_ahash)
    (template : List moto_hash_testvec) (tcount : Nat) (use_digest : Bool)
    (inject_fault : Int)
    (h1 : ∀ i t s, template[i]? = some t → t.np = 0 →
      Ext Q s (hash_unchunked_vec E c tfm use_digest inject_fault i t s).2)
    (h2 : ∀ i t s, template[i]? = some t → t.np ≠ 0 →
      Ext Q s (hash_chunked_vec E c tfm i t s).2)
    (s : State σ) :
    Ext Q s (moto_test_hash E c tfm template tcount use_digest inject_fault s).2 := by
  unfold moto_test_hash
  have ha := ext_mono (alloc_buf_setup E s) hsetup
  generalize moto_testmgr_alloc_buf E s = A at ha ⊢
  obtain ⟨aret, s1⟩ := A
  simp only at ha ⊢
  by_cases h0 : aret ≠ 0
  · rw [if_pos h0]
    exact ha
  · rw [if_neg h0]
    cases hr : E.ahash_request_alloc s1.env with
    | mk ok e =>
      cases ok with
      | false =>
        simp only
        refine Ext.trans ha (Ext.trans ?_ (testmgr_buf_ext Q hsetup _))
        exact ⟨[.init_completion, .ahash_request_alloc false], by simp, by
          intro ev hev; simp at hev; rcases hev with rfl | rfl <;> exact hsetup _ rfl⟩
      | true =>
        simp only
        have h3 : Ext Q s1 (⟨e, s1.xbuf, ⟨0, E.uninit_int s1.env⟩,
            s1.trace ++ [.init_completion] ++ [.ahash_request_alloc true]⟩ : State σ) :=
          ⟨[.init_completion, .ahash_request_alloc true], by simp, by
            intro ev hev; simp at hev; rcases hev with rfl | rfl <;> exact hsetup _ rfl⟩
        have hout : ∀ s5 : State σ, Ext Q s5 (hash_out s5) := by
          intro s5
          unfold hash_out
          exact Ext.trans (Ext.log s5 _ (by
            intro ev hev; simp at hev; subst hev; exact hsetup _ rfl))
            (testmgr_buf_ext Q hsetup _)
        have hp1 := loop_pass_ext_sel Q
          (hash_unchunked_vec E c tfm use_digest inject_fault) (fun t => decide (t.np = 0))
          template (fun i t s ht hs => h1 i t s ht (by simpa using hs)) tcount 0
          { env := e, xbuf := s1.xbuf, tresult := ⟨0, E.uninit_int s1.env⟩,
            trace := s1.trace ++ [.init_completion] ++ [.ahash_request_alloc true] }
        rw [← hash_pass1_eq_loop] at hp1
        generalize hash_pass1 E c tfm template use_digest inject_fault tcount 0
          { env := e, xbuf := s1.xbuf, tresult := ⟨0, E.uninit_int s1.env⟩,
            trace := s1.trace ++ [.init_completion] ++ [.ahash_request_alloc true] } = P1
          at hp1 ⊢
        obtain ⟨f1, s4⟩ := P1
        simp only at hp1
        have h4 := Ext.trans ha (Ext.trans h3 hp1)
        cases f1 with
        | stuck => exact h4
        | out ret => exact Ext.trans h4 (hout s4)
        | next =>
          simp only
          have hp2 := loop_pass_ext_sel Q (hash_chunked_vec E c tfm)
            (fun t => decide (t.np ≠ 0)) template
            (fun i t s ht hs => h2 i t s ht (by simpa using hs)) tcount 0 s4
          rw [← hash_pass2_eq_loop] at hp2
          generalize hash_pass2 E c tfm template tcount 0 s4 = P2 at hp2 ⊢
          obtain ⟨f2, s5⟩ := P2
          simp only at hp2
          have h5 := Ext.trans h4 hp2
          cases f2 with
          | stuck => exact h5
          | out ret => exact Ext.trans h5 (hout s5)
          | next => exact Ext.trans h5 (hout s5)

theorem skcipher_run_ext {σ : Type} (Q : Event → Prop)
    (hsetup : ∀ e, e.isSetup = true → Q e)
    (E : Env σ) (c : Config) (tfm : crypto_ablkcipher) (enc : Int)
    (template : List moto_cipher_testvec) (tcount : Nat) (inject_fault : Int)
    (h1 : ∀ i t s, template[i]? = some t → t.np = 0 →
      Ext Q s (skcipher_unchunked_vec E c tfm enc inject_fault i t s).2)
    (h2 : ∀ i t s, template[i]? = some t → t.np ≠ 0 →
      Ext Q s (skcipher_chunked_vec E c tfm enc i t s).2)
    (s : State σ) :
    Ext Q s (moto_test_skcipher E c tfm enc template tcount inject_fault s).2 := by
  unfold moto_test_skcipher
  have ha := ext_mono (alloc_buf_setup E s) hsetup
  generalize moto_testmgr_alloc_buf E s = A at ha ⊢
  obtain ⟨aret, s1⟩ := A
  simp only at ha ⊢
  have hout : ∀ s5 : State σ, Ext Q s5 (skcipher_out s5) := by
    intro s5
    unfold skcipher_out
    exact Ext.trans (Ext.log s5 _ (by
      intro ev hev; simp at hev; subst hev; exact hsetup _ rfl))
      (testmgr_buf_ext Q hsetup _)
  by_cases h0 : aret ≠ 0
  · rw [if_pos h0]
    exact ha
  · rw [if_neg h0]
    cases hr : E.ablkcipher_request_alloc s1.env with
    | mk ok e =>
      cases ok with
      | false =>
        simp only
        refine Ext.trans ha (Ext.trans ?_ (hout _))
        exact ⟨[.init_completion, .ablkcipher_request_alloc false], by simp, by
          intro ev hev; simp at hev; rcases hev with rfl | rfl <;> exact hsetup _ rfl⟩
      | true =>
        simp only
        have h3 : Ext Q s1 (⟨e, s1.xbuf, ⟨0, E.uninit_int s1.env⟩,
            s1.trace ++ [.init_completion] ++ [.ablkcipher_request_alloc true]⟩ : State σ) :=
          ⟨[.init_completion, .ablkcipher_request_alloc true], by simp, by
            intro ev hev; simp at hev; rcases hev with rfl | rfl <;> exact hsetup _ rfl⟩
        have hp1 := loop_pass_ext_sel Q
          (skcipher_unchunked_vec E c tfm enc inject_fault) (fun t => decide (t.np = 0))
          template (fun i t s ht hs => h1 i t s ht (by simpa using hs)) tcount 0
          { env := e, xbuf := s1.xbuf, tresult := ⟨0, E.uninit_int s1.env⟩,
            trace := s1.trace ++ [.init_completion] ++ [.ablkcipher_request_alloc true] }
        rw [← gen_pass_eq_loop, ← skcipher_pass1_eq_gen] at hp1
        generalize skcipher_pass1 E c tfm enc template inject_fault tcount 0
          { env := e, xbuf := s1.xbuf, tresult := ⟨0, E.uninit_int s1.env⟩,
            trace := s1.trace ++ [.init_completion] ++ [.ablkcipher_request_alloc true] } = P1
          at hp1 ⊢
        obtain ⟨f1, s4⟩ := P1
        simp only at hp1
        have h4 := Ext.trans ha (Ext.trans h3 hp1)
        cases f1 with
        | stuck => exact h4
        | out ret => exact Ext.trans h4 (hout s4)
        | next =>
          simp only
          have hp2 := loop_pass_ext_sel Q (skcipher_chunked_vec E c tfm enc)
            (fun t => decide (t.np ≠ 0)) template
            (fun i t s ht hs => h2 i t s ht (by simpa using hs)) tcount 0 s4
          rw [← gen_pass_eq_loop, ← skcipher_pass2_eq_gen] at hp2
          generalize skcipher_pass2 E c tfm enc template tcount 0 s4 = P2 at hp2 ⊢
          obtain ⟨f2, s5⟩ := P2
          simp only at hp2
          have h5 := Ext.trans h4 hp2
          cases f2 with
          | stuck => exact h5
          | out ret => exact Ext.trans h5 (hout s5)
          | next => exact Ext.trans h5 (hout s5)
/-! ## C32: the chunked hash pass uses the one-shot digest only -/

theorem process_list_append {σ τ : Type} (vec : Nat → τ → State σ → Flow × State σ)
    (A B : List (Nat × τ)) (s : State σ) :
    process_list vec (A ++ B) s
      = two_passes (process_list vec A) (process_list vec B) s := by
  induction A generalizing s with
  | nil => rfl
  | cons a A ih =>
    obtain ⟨i, t⟩ := a
    simp only [List.cons_append, process_list, two_passes]
    rcases hv : vec i t s with ⟨f, s1⟩
    cases f with
    | next =>
      simp only
      exact ih s1
    | out r => rfl
    | stuck => rfl

theorem loop_pass_eq_list {σ τ : Type} (vec : Nat → τ → State σ → Flow × State σ)
    (sel : τ → Bool) (template : List τ) :
    ∀ (n i : Nat) (s : State σ), i + n ≤ template.length →
      loop_pass vec sel template n i s
        = process_list vec
            ((index_from i ((template.drop i).take n)).filter (fun p => sel p.2)) s := by
  intro n
  induction n with
  | zero =>
    intro i s _
    simp [loop_pass, index_from, process_list]
  | succ n ih =>
    intro i s h
    have hi : i < template.length := by omega
    rw [loop_pass, List.getElem?_eq_getElem hi, List.drop_eq_getElem_cons hi]
    simp only [List.take_succ_cons, index_from, List.filter_cons]
    by_cases hs : sel template[i] = true
    · rw [if_pos hs, if_pos hs]
      simp only [process_list]
      rcases hv : vec i template[i] s with ⟨f, s1⟩
      cases f with
      | next =>
        simp only
        exact ih (i + 1) s1 (by omega)
      | out r => rfl
      | stuck => rfl
    · rw [if_neg hs, if_neg hs]
      exact ih (i + 1) s (by omega)

theorem loop_pass_selected {σ τ : Type} (vec : Nat → τ → State σ → Flow × State σ)
    (sel : τ → Bool) (template : List τ) (tcount : Nat) (h : tcount ≤ template.length)
    (s : State σ) :
    loop_pass vec sel template tcount 0 s
      = process_list vec (selected sel template tcount) s := by
  rw [loop_pass_eq_list vec sel template tcount 0 s (by omega)]
  simp [selected, indexed]

theorem mem_index_from {τ : Type} (l : List τ) :
    ∀ (i j : Nat) (t : τ), (j, t) ∈ index_from i l ↔ i ≤ j ∧ l[j - i]? = some t := by
  induction l with
  | nil => intro i j t; simp [index_from]
  | cons a l ih =>
    intro i j t
    simp only [index_from, List.mem_cons, Prod.mk.injEq, ih]
    constructor
    · rintro (⟨rfl, rfl⟩ | ⟨h1, h2⟩)
      · simp
      · refine ⟨by omega, ?_⟩
        have : j - i = (j - (i + 1)) + 1 := by omega
        rw [this, List.getElem?_cons_succ]
        exact h2
    · rintro ⟨h1, h2⟩
      by_cases hji : j = i
      · subst hji
        simp only [Nat.sub_self, List.getElem?_cons_zero, Option.some.injEq] at h2
        exact Or.inl ⟨rfl, h2.symm⟩
      · right
        refine ⟨by omega, ?_⟩
        have : j - i = (j - (i + 1)) + 1 := by omega
        rw [this, List.getElem?_cons_succ] at h2
        exact h2

theorem index_from_increasing {τ : Type} (l : List τ) :
    ∀ i : Nat, (index_from i l).Pairwise (fun p q => p.1 < q.1) := by
  induction l with
  | nil => intro i; simp [index_from]
  | cons a l ih =>
    intro i
    simp only [index_from, List.pairwise_cons]
    refine ⟨?_, ih (i + 1)⟩
    rintro ⟨j, t⟩ hm
    have := ((mem_index_from l (i + 1) j t).1 hm).1
    show i < j
    omega

theorem mem_indexed {τ : Type} (template : List τ) (tcount j : Nat) (t : τ) :
    (j, t) ∈ indexed template tcount ↔ j < tcount ∧ template[j]? = some t := by
  unfold indexed
  rw [mem_index_from]
  simp only [Nat.zero_le, Nat.sub_zero, true_and, List.getElem?_take]
  constructor
  · intro h
    by_cases hj : j < tcount
    · rw [if_pos hj] at h; exact ⟨hj, h⟩
    · rw [if_neg hj] at h; simp at h
  · rintro ⟨hj, h⟩
    rw [if_pos hj]; exact h

theorem mem_selected {τ : Type} (sel : τ → Bool) (template : List τ) (tcount j : Nat)
    (t : τ) :
    (j, t) ∈ selected sel template tcount
      ↔ j < tcount ∧ template[j]? = some t ∧ sel t = true := by
  unfold selected
  rw [List.mem_filter, mem_indexed]
  exact and_assoc

theorem selected_increasing {τ : Type} (sel : τ → Bool) (template : List τ)
    (tcount : Nat) : (selected sel template tcount).Pairwise (fun p q => p.1 < q.1) :=
  List.Pairwise.sublist (List.filter_sublist _) (index_from_increasing _ 0)

theorem selected_partition {τ : Type} (np : τ → Nat) (template : List τ) (tcount : Nat) :
    (selected (fun t => decide (np t = 0)) template tcount
      ++ selected (fun t => decide (np t ≠ 0)) template tcount).Perm
      (indexed template tcount) := by
  unfold selected
  have h : (indexed template tcount).filter (fun p => decide (np p.2 ≠ 0))
      = (indexed template tcount).filter (fun p => ! decide (np p.2 = 0)) := by
    apply List.filter_congr
    intro x _
    simp
  rw [h]
  exact List.filter_append_perm _ _

/-- C31: for a table of at least `tcount` vectors, the first loop of `moto_test_hash` and
of `moto_test_skcipher` processes, one after the other and stopping at the first that does
not go on, exactly the vectors among the first `tcount` with `np == 0`, in increasing
table order, and the second loop exactly those with `np != 0`, in increasing table order;
the two lists together are a rearrangement of the first `tcount` vectors, so every vector
is handled by exactly one pass; and the runner starts the second loop, in the state the
first left, only when the first went through all its vectors, so every unchunked vector is
processed before any chunked one. -/
theorem two_pass_partition {σ : Type} (E : Env σ) (c : Config) :
    (∀ (tfm : crypto_ahash) (template : List moto_hash_testvec) (tcount : Nat)
      (use_digest : Bool) (inject_fault : Int), tcount ≤ template.length →
      (∀ s, hash_pass1 E c tfm template use_digest inject_fault tcount 0 s
        = process_list (hash_unchunked_vec E c tfm use_digest inject_fault)
            (selected (fun t => decide (t.np = 0)) template tcount) s) ∧
      (∀ s, hash_pass2 E c tfm template tcount 0 s
        = process_list (hash_chunked_vec E c tfm)
            (selected (fun t => decide (t.np ≠ 0)) template tcount) s) ∧
      (∀ (s s1 : State σ) (e : σ), moto_testmgr_alloc_buf E s = (0, s1) →
        E.ahash_request_alloc s1.env = (true, e) →
        moto_test_hash E c tfm template tcount use_digest inject_fault s
          = match two_passes
              (process_list (hash_unchunked_vec E c tfm use_digest inject_fault)
                (selected (fun t => decide (t.np = 0)) template tcount))
              (process_list (hash_chunked_vec E c tfm)
                (selected (fun t => decide (t.np ≠ 0)) template tcount))
              { env := e, xbuf := s1.xbuf, tresult := ⟨0, E.uninit_int s1.env⟩,
                trace := s1.trace ++ [.init_completion] ++ [.ahash_request_alloc true] } with
            | (.stuck, s5) => (none, s5)
            | (.out ret, s5) => (some ret, hash_out s5)
            | (.next, s5) => (some 0, hash_out s5)) ∧
      (∀ j t, (j, t) ∈ selected (fun t => decide (t.np = 0)) template tcount
        ↔ j < tcount ∧ template[j]? = some t ∧ t.np = 0) ∧
      (∀ j t, (j, t) ∈ selected (fun t => decide (t.np ≠ 0)) template tcount
        ↔ j < tcount ∧ template[j]? = some t ∧ t.np ≠ 0) ∧
      (selected (fun t => decide (t.np = 0)) template tcount).Pairwise
        (fun p q => p.1 < q.1) ∧
      (selected (fun t => decide (t.np ≠ 0)) template tcount).Pairwise
        (fun p q => p.1 < q.1) ∧
      (selected (fun t => decide (t.np = 0)) template tcount
        ++ selected (fun t => decide (t.np ≠ 0)) template tcount).Perm
        (indexed template tcount)) ∧
    (∀ (tfm : crypto_ablkcipher) (enc : Int) (template : List moto_cipher_testvec)
      (tcount : Nat) (inject_fault : Int), tcount ≤ template.length →
      (∀ s, skcipher_pass1 E c tfm enc template inject_fault tcount 0 s
        = process_list (skcipher_unchunked_vec E c tfm enc inject_fault)
            (selected (fun t => decide (t.np = 0)) template tcount) s) ∧
      (∀ s, skcipher_pass2 E c tfm enc template tcount 0 s
        = process_list (skcipher_chunked_vec E c tfm enc)
            (selected (fun t => decide (t.np ≠ 0)) template tcount) s) ∧
      (∀ (s s1 : State σ) (e : σ), moto_testmgr_alloc_buf E s = (0, s1) →
        E.ablkcipher_request_alloc s1.env = (true, e) →
        moto_test_skcipher E c tfm enc template tcount inject_fault s
          = match two_passes
              (process_list (skcipher_unchunked_vec E c tfm enc inject_fault)
                (selected (fun t => decide (t.np = 0)) template tcount))
              (process_list (skcipher_chunked_vec E c tfm enc)
                (selected (fun t => decide (t.np ≠ 0)) template tcount))
              { env := e, xbuf := s1.xbuf, tresult := ⟨0, E.uninit_int s1.env⟩,
                trace := s1.trace ++ [.init_completion]
                  ++ [.ablkcipher_request_alloc true] } with
            | (.stuck, s5) => (none, s5)
            | (.out ret, s5) => (some ret, skcipher_out s5)
            | (.next, s5) => (some 0, skcipher_out s5)) ∧
      (∀ j t, (j, t) ∈ selected (fun t => decide (t.np = 0)) template tcount
        ↔ j < tcount ∧ template[j]? = some t ∧ t.np = 0) ∧
      (∀ j t, (j, t) ∈ selected (fun t => decide (t.np ≠ 0)) template tcount
        ↔ j < tcount ∧ template[j]? = some t ∧ t.np ≠ 0) ∧
      (selected (fun t => decide (t.np = 0)) template tcount).Pairwise
        (fun p q => p.1 < q.1) ∧
      (selected (fun t => decide (t.np ≠ 0)) template tcount).Pairwise
        (fun p q => p.1 < q.1) ∧
      (selected (fun t => decide (t.np = 0)) template tcount
        ++ selected (fun t => decide (t.np ≠ 0)) template tcount).Perm
        (indexed template tcount)) := by
  constructor
  · intro tfm template tcount ud inj hlen
    have h1 : ∀ s, hash_pass1 E c tfm template ud inj tcount 0 s
        = process_list (hash_unchunked_vec E c tfm ud inj)
            (selected (fun t => decide (t.np = 0)) template tcount) s := by
      intro s
      rw [hash_pass1_eq_loop, loop_pass_selected _ _ _ _ hlen]
    have h2 : ∀ s, hash_pass2 E c tfm template tcount 0 s
        = process_list (hash_chunked_vec E c tfm)
            (selected (fun t => decide (t.np ≠ 0)) template tcount) s := by
      intro s
      rw [hash_pass2_eq_loop, loop_pass_selected _ _ _ _ hlen]
    refine ⟨h1, h2, ?_, ?_, ?_, selected_increasing _ _ _, selected_increasing _ _ _,
      selected_partition (fun t => t.np) template tcount⟩
    · intro s s1 e ha hr
      unfold moto_test_hash two_passes
      rw [ha]
      simp only [ne_eq, not_true_eq_false, if_false, hr, h1, h2]
      rcases process_list (hash_unchunked_vec E c tfm ud inj)
        (selected (fun t => decide (t.np = 0)) template tcount) _ with ⟨f1, s4⟩
      cases f1 <;> rfl
    · intro j t
      rw [mem_selected]
      simp
    · intro j t
      rw [mem_selected]
      simp
  · intro tfm enc template tcount inj hlen
    have h1 : ∀ s, skcipher_pass1 E c tfm enc template inj tcount 0 s
        = process_list (skcipher_unchunked_vec E c tfm enc inj)
            (selected (fun t => decide (t.np = 0)) template tcount) s := by
      intro s
      rw [skcipher_pass1_eq_gen, gen_pass_eq_loop, loop_pass_selected _ _ _ _ hlen]
    have h2 : ∀ s, skcipher_pass2 E c tfm enc template tcount 0 s
        = process_list (skcipher_chunked_vec E c tfm enc)
            (selected (fun t => decide (t.np ≠ 0)) template tcount) s := by
      intro s
      rw [skcipher_pass2_eq_gen, gen_pass_eq_loop, loop_pass_selected _ _ _ _ hlen]
    refine ⟨h1, h2, ?_, ?_, ?_, selected_increasing _ _ _, selected_increasing _ _ _,
      selected_partition (fun t => t.np) template tcount⟩
    · intro s s1 e ha hr
      unfold moto_test_skcipher two_passes
      rw [ha]
      simp only [ne_eq, not_true_eq_false, if_false, hr, h1, h2]
      rcases process_list (skcipher_unchunked_vec E c tfm enc inj)
        (selected (fun t => decide (t.np = 0)) template tcount) _ with ⟨f1, s4⟩
      cases f1 <;> rfl
    · intro j t
      rw [mem_selected]
      simp
    · intro j t
      rw [mem_selected]
      simp

set_option maxRecDepth 100000 in
/-- Witness for C31: in the SHA-1 table of three vectors the first loop processes vector 0
and the second loop vectors 1 and 2; the run of `moto_test_hash` over this table is the
processing of vector 0 followed by that of vectors 1 and 2. -/
theorem two_pass_partition_witness :
    3 ≤ moto_sha1_tv_template.length ∧
    (selected (fun t => decide (t.np = 0)) moto_sha1_tv_template 3).map Prod.fst = [0] ∧
    (selected (fun t => decide (t.np ≠ 0)) moto_sha1_tv_template 3).map Prod.fst = [1, 2] ∧
    (∀ s, hash_pass1 (sample_env 0 none) sample_config ⟨0, 20⟩ moto_sha1_tv_template true 0
        3 0 s
      = process_list (hash_unchunked_vec (sample_env 0 none) sample_config ⟨0, 20⟩ true 0)
          (selected (fun t => decide (t.np = 0)) moto_sha1_tv_template 3) s) :=
  ⟨by decide, by decide, by decide,
   ((two_pass_partition (sample_env 0 none) sample_config).1 ⟨0, 20⟩ moto_sha1_tv_template 3
     true 0 (by decide)).1⟩
/-! ## C33: both code paths of the unchunked hash pass -/

theorem ops_of_append (i : Nat) (A B : List Event) :
    ops_of i (A ++ B) = ops_of i A ++ ops_of i B := by
  unfold ops_of
  rw [List.filterMap_append]

theorem ops_of_other (i : Nat) (l : List Event) (h : ∀ e ∈ l, e.idx ≠ some i) :
    ops_of i l = [] := by
  unfold ops_of
  rw [List.filterMap_eq_nil_iff]
  intro e he
  cases e with
  | ahash_op j op sg n r =>
    have := h _ he
    simp only [Event.idx, ne_eq, Option.some.injEq] at this
    simp only
    rw [if_neg this]
  | _ => rfl

theorem segops_refl {σ : Type} (i : Nat) (s : State σ) : SegOps i [] s s :=
  ⟨[], by simp, rfl, by simp⟩

theorem segops_same {σ : Type} (i : Nat) (s s1 : State σ) (h : s1.trace = s.trace) :
    SegOps i [] s s1 :=
  ⟨[], by simp [h], rfl, by simp⟩

theorem segops_trans {σ : Type} {i : Nat} {o1 o2 : List HashOp} {s s1 s2 : State σ}
    (h1 : SegOps i o1 s s1) (h2 : SegOps i o2 s1 s2) : SegOps i (o1 ++ o2) s s2 := by
  obtain ⟨a, ha, hoa, hia⟩ := h1
  obtain ⟨b, hb, hob, hib⟩ := h2
  refine ⟨a ++ b, by rw [hb, ha, List.append_assoc], by rw [ops_of_append, hoa, hob], ?_⟩
  intro e he
  rcases List.mem_append.1 he with h | h
  · exact hia e h
  · exact hib e h

theorem segops_from {σ : Type} {i : Nat} {ops : List HashOp} (s0 s s1 : State σ)
    (h : s.trace = s0.trace) (h1 : SegOps i ops s s1) : SegOps i ops s0 s1 := by
  obtain ⟨seg, hs, ho, hi⟩ := h1
  exact ⟨seg, by rw [hs, h], ho, hi⟩

theorem async_op_segops {σ : Type} (i : Nat) (s : State σ) (r : OpResult) :
    SegOps i [] s (moto_do_one_async_hash_op s r).2 := by
  unfold moto_do_one_async_hash_op
  split
  · split
    · exact segops_refl i s
    · exact ⟨[.wait _, .INIT_COMPLETION], rfl, rfl, by
        intro e he; simp at he; rcases he with rfl | rfl <;> exact Or.inl rfl⟩
  · exact segops_refl i s

theorem hash_setkey_segops {σ : Type} (E : Env σ) (tfm : crypto_ahash) (i : Nat)
    (t : moto_hash_testvec) (s : State σ) :
    SegOps i [] s (hash_setkey E tfm i t s).2 := by
  unfold hash_setkey
  split
  · exact ⟨[.clear_flags, .ahash_setkey i t.key t.ksize _], rfl, rfl, by
      intro e he; simp at he; rcases he with rfl | rfl
      · exact Or.inl rfl
      · exact Or.inr rfl⟩
  · exact segops_refl i s

theorem ahash_call_segops {σ : Type} (E : Env σ) (tfm : crypto_ahash) (op : HashOp) (i : Nat)
    (sg : List scatterlist) (nbytes : Nat) (result : Nat → Nat) (s : State σ) :
    SegOps i [op] s (ahash_call E tfm op i sg nbytes result s).2.2 := by
  unfold ahash_call
  exact ⟨[.ahash_op i op sg nbytes _], rfl, by simp [ops_of], by
    intro e he; simp at he; subst he; exact Or.inr rfl⟩

theorem hash_op_sync_segops {σ : Type} (E : Env σ) (tfm : crypto_ahash) (op : HashOp)
    (i : Nat) (sg : List scatterlist) (nbytes : Nat) (result : Nat → Nat) (s : State σ) :
    SegOps i [op] s (hash_op_sync E tfm op i sg nbytes result s).2.2 := by
  unfold hash_op_sync
  have e1 := ahash_call_segops E tfm op i sg nbytes result s
  generalize ahash_call E tfm op i sg nbytes result s = C at e1 ⊢
  obtain ⟨r, result1, s1⟩ := C
  exact segops_trans e1 (async_op_segops i s1 r)

theorem hash_compute_segops {σ : Type} (E : Env σ) (tfm : crypto_ahash) (use_digest : Bool)
    (i : Nat) (sg : List scatterlist) (nbytes : Nat) (result : Nat → Nat) (s : State σ) :
    ∃ ops, SegOps i ops s (hash_compute E tfm use_digest i sg nbytes result s).2.2 ∧
      ((hash_compute E tfm use_digest i sg nbytes result s).1 = some 0 →
        ops = path_ops use_digest) := by
  unfold hash_compute path_ops
  cases use_digest with
  | true =>
    exact ⟨[.digest], hash_op_sync_segops E tfm .digest i sg nbytes result s, fun _ => rfl⟩
  | false =>
    simp only [Bool.false_eq_true, if_false]
    have e1 := hash_op_sync_segops E tfm .init i sg nbytes result s
    generalize hash_op_sync E tfm .init i sg nbytes result s = A at e1 ⊢
    obtain ⟨o1, result1, s1⟩ := A
    by_cases h1 : o1 = some 0
    · subst h1
      simp only
      have e2 := hash_op_sync_segops E tfm .update i sg nbytes result1 s1
      generalize hash_op_sync E tfm .update i sg nbytes result1 s1 = B at e2 ⊢
      obtain ⟨o2, result2, s2⟩ := B
      by_cases h2 : o2 = some 0
      · subst h2
        simp only
        exact ⟨[.init, .update, .final], segops_trans e1 (segops_trans e2
          (hash_op_sync_segops E tfm .final i sg nbytes result2 s2)), fun _ => rfl⟩
      · refine ⟨[.init, .update], ?_, ?_⟩
        · split
          · rename_i heq
            simp only [Prod.mk.injEq] at heq
            exact absurd heq.1 h2
          · exact segops_trans e1 e2
        · split
          · rename_i heq
            simp only [Prod.mk.injEq] at heq
            exact absurd heq.1 h2
          · intro h; exact absurd h h2
    · refine ⟨[.init], ?_, ?_⟩
      · split
        · rename_i heq
          simp only [Prod.mk.injEq] at heq
          exact absurd heq.1 h1
        · exact e1
      · split
        · rename_i heq
          simp only [Prod.mk.injEq] at heq
          exact absurd heq.1 h1
        · intro h; exact absurd h h1

theorem hash_unchunked_ops {σ : Type} (E : Env σ) (c : Config) (tfm : crypto_ahash)
    (use_digest : Bool) (inject_fault : Int) (i : Nat) (t : moto_hash_testvec)
    (s : State σ) :
    ∃ seg, (hash_unchunked_vec E c tfm use_digest inject_fault i t s).2.trace
        = s.trace ++ seg ∧
      UnchunkedOps use_digest i t
        (hash_unchunked_vec E c tfm use_digest inject_fault i t s).1 seg := by
  have hmk : ∀ (ops : List HashOp) (f : Flow) (s1 : State σ), SegOps i ops s s1 →
      f ≠ .next → (∀ r, f = .out r → r ≠ 0) →
      ∃ seg, s1.trace = s.trace ++ seg ∧ UnchunkedOps use_digest i t f seg := by
    intro ops f s1 hseg hn ho
    obtain ⟨seg, hs, _, hidx⟩ := hseg
    exact ⟨seg, hs, hidx, fun hf => absurd hf hn, ho⟩
  have hcmp : ∀ (ops : List HashOp) (f : Flow) (s3 : State σ) (cmp : Int),
      SegOps i ops s s3 → (f = .next → ops = path_ops use_digest ∧ cmp = 0) →
      (∀ r, f = .out r → r ≠ 0) →
      ∃ seg, (s3.log [.memcmp i 0 cmp]).trace = s.trace ++ seg ∧
        UnchunkedOps use_digest i t f seg := by
    intro ops f s3 cmp hseg hn ho
    obtain ⟨seg, hs, hops, hidx⟩ := hseg
    refine ⟨seg ++ [.memcmp i 0 cmp], by simp [State.log, hs], ?_, ?_, ho⟩
    · intro e he
      rcases List.mem_append.1 he with h | h
      · exact hidx e h
      · simp at h; subst h; exact Or.inr rfl
    · intro hf
      obtain ⟨hp, hc⟩ := hn hf
      subst hc
      refine ⟨?_, by simp⟩
      rw [ops_of_append, hops, hp]
      simp [ops_of]
  unfold hash_unchunked_vec
  simp only
  have hk := segops_from s _ _ rfl (hash_setkey_segops E tfm i t
    { s with xbuf := s.xbuf.memcpy 0 0 (byteAt t.plaintext) t.psize })
  generalize hash_setkey E tfm i t
    { s with xbuf := s.xbuf.memcpy 0 0 (byteAt t.plaintext) t.psize } = K at hk ⊢
  obtain ⟨kret, s2⟩ := K
  simp only at hk ⊢
  by_cases hne : kret ≠ 0
  · rw [if_pos hne]
    exact hmk [] _ s2 hk (by simp) (fun r h => by
      simp only [Flow.out.injEq] at h; rw [← h]; exact hne)
  · rw [if_neg hne]
    obtain ⟨ops, e1, hops⟩ := hash_compute_segops E tfm use_digest i [⟨0, 0, t.psize⟩]
      t.psize (fun _ => 0) s2
    generalize hash_compute E tfm use_digest i [⟨0, 0, t.psize⟩] t.psize (fun _ => 0) s2 = C
      at e1 hops ⊢
    obtain ⟨o, result, s3⟩ := C
    simp only at e1 hops
    cases o with
    | none =>
      exact hmk _ _ s3 (segops_trans hk e1) (by simp) (fun r h => by simp at h)
    | some ret =>
      simp only
      by_cases hr : ret ≠ 0
      · rw [if_pos hr]
        exact hmk _ _ s3 (segops_trans hk e1) (by simp) (fun r h => by
          simp only [Flow.out.injEq] at h; rw [← h]; exact hr)
      · rw [if_neg hr]
        have hr0 : ret = 0 := not_not.1 hr
        subst hr0
        have hp := hops rfl
        generalize memcmp (if c.FAULT_INJECTION = true ∧ inject_fault ≠ 0 then flip_first result
          else result) (byteAt t.digest) tfm.digestsize = cmp
        by_cases hc : cmp ≠ 0
        · rw [if_pos hc]
          exact hcmp _ _ s3 cmp (segops_trans hk e1) (fun h => by simp at h) (fun r h => by
            simp only [Flow.out.injEq] at h; rw [← h]; decide)
        · rw [if_neg hc]
          exact hcmp _ _ s3 cmp (segops_trans hk e1)
            (fun _ => ⟨by rw [hp]; simp, not_not.1 hc⟩) (fun r h => by simp at h)
theorem hash_run_shape_gen {σ : Type} (E : Env σ) (c : Config) (tfm : crypto_ahash)
    (template : List moto_hash_testvec) (tcount : Nat) (use_digest : Bool)
    (inject_fault : Int)
    (V1 V2 : Nat → moto_hash_testvec → Flow → List Event → Prop)
    (hv1 : ∀ i t s, ∃ seg,
      (hash_unchunked_vec E c tfm use_digest inject_fault i t s).2.trace = s.trace ++ seg ∧
      V1 i t (hash_unchunked_vec E c tfm use_digest inject_fault i t s).1 seg)
    (hv2 : ∀ i t s, ∃ seg, (hash_chunked_vec E c tfm i t s).2.trace = s.trace ++ seg ∧
      V2 i t (hash_chunked_vec E c tfm i t s).1 seg)
    (s : State σ) :
    ((moto_test_hash E c tfm template tcount use_digest inject_fault s).1 = some (-ENOMEM) ∧
      ∀ e ∈ new_events s (moto_test_hash E c tfm template tcount use_digest inject_fault s).2,
        e.isSetup = true) ∨
    RunShape V1 V2
      (fun t => decide (t.np = 0)) (fun t => decide (t.np ≠ 0)) template tcount hash_cleanup
      (moto_test_hash E c tfm template tcount use_digest inject_fault s).1
      (new_events s (moto_test_hash E c tfm template tcount use_digest inject_fault s).2) := by
  unfold moto_test_hash
  have ha := alloc_buf_setup E s
  generalize moto_testmgr_alloc_buf E s = A at ha ⊢
  obtain ⟨aret, s1⟩ := A
  simp only at ha ⊢
  obtain ⟨na, hna, hqa⟩ := ha
  by_cases h0 : aret ≠ 0
  · left
    rw [if_pos h0]
    refine ⟨rfl, ?_⟩
    rw [new_events_append s s1 na hna]
    exact hqa
  · rw [if_neg h0]
    cases hr : E.ahash_request_alloc s1.env with
    | mk ok e =>
      cases ok with
      | false =>
        left
        refine ⟨rfl, ?_⟩
        rw [new_events_append s _ (na ++ [.init_completion, .ahash_request_alloc false]
          ++ (List.range XBUFSIZE).map Event.free_page)
          (by rw [testmgr_buf_trace]; simp [hna, List.append_assoc])]
        intro ev hev
        simp only [List.mem_append, List.mem_cons, List.mem_singleton] at hev
        rcases hev with (h | h | h | h) | h
        · exact hqa ev h
        · subst h; rfl
        · subst h; rfl
        · simp at h
        · revert ev
          decide
      | true =>
        right
        simp only
        rw [hash_pass1_eq_loop]
        obtain ⟨n1, hn1, hP1⟩ := loop_pass_trace
          (hash_unchunked_vec E c tfm use_digest inject_fault)
          (fun t => decide (t.np = 0)) template V1 hv1 tcount 0
          { env := e, xbuf := s1.xbuf, tresult := ⟨0, E.uninit_int s1.env⟩,
            trace := s1.trace ++ [.init_completion] ++ [.ahash_request_alloc true] }
        generalize loop_pass (hash_unchunked_vec E c tfm use_digest inject_fault)
          (fun t => decide (t.np = 0)) template tcount 0
          { env := e, xbuf := s1.xbuf, tresult := ⟨0, E.uninit_int s1.env⟩,
            trace := s1.trace ++ [.init_completion] ++ [.ahash_request_alloc true] } = P1
          at hn1 hP1 ⊢
        obtain ⟨f1, s4⟩ := P1
        simp only at hn1 hP1 ⊢
        have hH : ∀ ev ∈ na ++ [Event.init_completion, Event.ahash_request_alloc true],
            ev.isSetup = true := by
          intro ev hev
          simp only [List.mem_append, List.mem_cons, List.mem_singleton] at hev
          rcases hev with h | h | h | h
          · exact hqa ev h
          · subst h; rfl
          · subst h; rfl
          · simp at h
        have ht4 : s4.trace = s.trace ++
            ((na ++ [Event.init_completion, Event.ahash_request_alloc true]) ++ n1) := by
          rw [hn1, hna]; simp [List.append_assoc]
        cases f1 with
        | stuck =>
          refine ⟨(na ++ [Event.init_completion, Event.ahash_request_alloc true]), n1, [],
            [], .stuck, .next, ?_, hH, hP1, fun h => by simp at h, fun _ => ⟨rfl, rfl⟩, rfl,
            Or.inr ⟨rfl, rfl⟩⟩
          rw [new_events_append s s4 _ ht4]
          simp
        | out r =>
          refine ⟨(na ++ [Event.init_completion, Event.ahash_request_alloc true]), n1, [],
            hash_cleanup, .out r, .next, ?_, hH, hP1, fun h => by simp at h,
            fun _ => ⟨rfl, rfl⟩, rfl, Or.inl rfl⟩
          rw [new_events_append s _
            ((na ++ [Event.init_completion, Event.ahash_request_alloc true]) ++ n1
              ++ hash_cleanup)
            (by rw [hash_out_trace, ht4, List.append_assoc])]
          simp [List.append_assoc]
        | next =>
          simp only
          rw [hash_pass2_eq_loop]
          obtain ⟨n2, hn2, hP2⟩ := loop_pass_trace (hash_chunked_vec E c tfm)
            (fun t => decide (t.np ≠ 0)) template V2 hv2 tcount 0 s4
          generalize loop_pass (hash_chunked_vec E c tfm)
            (fun t => decide (t.np ≠ 0)) template tcount 0 s4 = P2 at hn2 hP2 ⊢
          obtain ⟨f2, s5⟩ := P2
          simp only at hn2 hP2 ⊢
          have ht5 : s5.trace = s.trace ++
              ((na ++ [Event.init_completion, Event.ahash_request_alloc true]) ++ n1
                ++ n2) := by
            rw [hn2, ht4]; simp [List.append_assoc]
          cases f2 with
          | stuck =>
            refine ⟨(na ++ [Event.init_completion, Event.ahash_request_alloc true]), n1, n2,
              [], .next, .stuck, ?_, hH, hP1, fun _ => hP2, fun h => absurd rfl h, rfl,
              Or.inr ⟨rfl, rfl⟩⟩
            rw [new_events_append s s5 _ ht5]
            simp [List.append_assoc]
          | out r =>
            refine ⟨(na ++ [Event.init_completion, Event.ahash_request_alloc true]), n1, n2,
              hash_cleanup, .next, .out r, ?_, hH, hP1, fun _ => hP2, fun h => absurd rfl h,
              rfl, Or.inl rfl⟩
            rw [new_events_append s _
              ((na ++ [Event.init_completion, Event.ahash_request_alloc true]) ++ n1 ++ n2
                ++ hash_cleanup)
              (by rw [hash_out_trace, ht5, List.append_assoc])]
            simp [List.append_assoc]
          | next =>
            refine ⟨(na ++ [Event.init_completion, Event.ahash_request_alloc true]), n1, n2,
              hash_cleanup, .next, .next, ?_, hH, hP1, fun _ => hP2, fun h => absurd rfl h,
              rfl, Or.inl rfl⟩
            rw [new_events_append s _
              ((na ++ [Event.init_completion, Event.ahash_request_alloc true]) ++ n1 ++ n2
                ++ hash_cleanup)
              (by rw [hash_out_trace, ht5, List.append_assoc])]
            simp [List.append_assoc]

theorem pass_next_all {τ : Type} (V : Nat → τ → Flow → List Event → Prop) (sel : τ → Bool)
    (template : List τ)
    (hidx : ∀ i t f seg, V i t f seg → ∀ e ∈ seg, e.idx = none ∨ e.idx = some i)
    (i n : Nat) (f : Flow) (new : List Event) (h : PassTrace V sel template i n f new) :
    f = .next → ∀ j t, i ≤ j → j < i + n → template[j]? = some t → sel t = true →
      ∃ (seg pre post : List Event), V j t .next seg ∧ new = pre ++ (seg ++ post) ∧
        (∀ e ∈ pre, e.idx ≠ some j) ∧ (∀ e ∈ post, e.idx ≠ some j) := by
  induction h with
  | done i => intro _ j t h1 h2; omega
  | missing i n h => intro hf; simp at hf
  | skip i n t0 f new h hs rest ih =>
    intro hf j t h1 h2 ht hsel
    by_cases hji : j = i
    · subst hji
      rw [h] at ht
      simp only [Option.some.injEq] at ht
      subst ht
      rw [hs] at hsel
      simp at hsel
    · exact ih hf j t (by omega) (by omega) ht hsel
  | step i n t0 seg f new h hs hv rest ih =>
    intro hf j t h1 h2 ht hsel
    by_cases hji : j = i
    · subst hji
      rw [h] at ht
      simp only [Option.some.injEq] at ht
      subst ht
      refine ⟨seg, [], new, hv, rfl, by simp, ?_⟩
      intro e he hc
      have := pass_idx_bounds V sel template hidx _ _ _ _ rest e he j hc
      omega
    · obtain ⟨seg1, pre, post, hv1, hnew, hpre, hpost⟩ :=
        ih hf j t (by omega) (by omega) ht hsel
      refine ⟨seg1, seg ++ pre, post, hv1, by rw [hnew, List.append_assoc], ?_, hpost⟩
      intro e he hc
      rcases List.mem_append.1 he with h3 | h3
      · rcases hidx i t0 .next seg hv e h3 with h4 | h4
        · rw [h4] at hc; simp at hc
        · rw [h4] at hc
          simp only [Option.some.injEq] at hc
          exact hji hc.symm
      · exact hpre e h3 hc
  | stop i n t0 seg f h hs hv hf => intro hf1; exact absurd hf1 hf

theorem pass_out_segment {τ : Type} (V : Nat → τ → Flow → List Event → Prop) (sel : τ → Bool)
    (template : List τ) (i n : Nat) (f : Flow) (new : List Event)
    (h : PassTrace V sel template i n f new) :
    ∀ r, f = .out r → ∃ j t seg, V j t (.out r) seg := by
  induction h with
  | done i => intro r hf; simp at hf
  | missing i n h => intro r hf; simp at hf
  | skip i n t0 f new h hs rest ih => exact ih
  | step i n t0 seg f new h hs hv rest ih => exact ih
  | stop i n t0 seg f h hs hv hf =>
    intro r hr
    subst hr
    exact ⟨i, t0, seg, hv⟩

theorem hash_chunked_idx {σ : Type} (E : Env σ) (c : Config) (tfm : crypto_ahash)
    (i : Nat) (t : moto_hash_testvec) (s : State σ) :
    ∃ seg, (hash_chunked_vec E c tfm i t s).2.trace = s.trace ++ seg ∧
      IdxOnly i t (hash_chunked_vec E c tfm i t s).1 seg := by
  obtain ⟨seg, hs, hshape⟩ := hash_chunked_shape E c tfm i t s
  exact ⟨seg, hs, hash_shape_idx _ i t _ seg hshape⟩

theorem hash_run_ok_ops {σ : Type} (E : Env σ) (c : Config) (tfm : crypto_ahash)
    (template : List moto_hash_testvec) (tcount : Nat) (use_digest : Bool)
    (inject_fault : Int) (s s1 : State σ)
    (hrun : moto_test_hash E c tfm template tcount use_digest inject_fault s = (some 0, s1))
    (i : Nat) (t : moto_hash_testvec) (hi : i < tcount) (ht : template[i]? = some t)
    (hnp : t.np = 0) :
    ops_of i (new_events s s1) = path_ops use_digest ∧
    Event.memcmp i 0 0 ∈ new_events s s1 := by
  have hshape := hash_run_shape_gen E c tfm template tcount use_digest inject_fault
    (UnchunkedOps use_digest) IdxOnly
    (hash_unchunked_ops E c tfm use_digest inject_fault) (hash_chunked_idx E c tfm) s
  rw [hrun] at hshape
  simp only at hshape
  rcases hshape with ⟨h, _⟩ | hshape
  · exact absurd h (by decide)
  · obtain ⟨H, n1, n2, T, f1, f2, hnew, hH, hP1, hP2, hskip, hst, hT⟩ := hshape
    have hidx1 : ∀ i t f seg, UnchunkedOps use_digest i t f seg →
        ∀ e ∈ seg, e.idx = none ∨ e.idx = some i := fun _ _ _ _ h => h.1
    have hidx2 : ∀ i (t : moto_hash_testvec) f seg, IdxOnly i t f seg →
        ∀ e ∈ seg, e.idx = none ∨ e.idx = some i := fun _ _ _ _ h => h
    have hf1 : f1 = .next := by
      cases f1 with
      | next => rfl
      | stuck => simp [run_status] at hst
      | out r =>
        simp only [run_status, Option.some.injEq] at hst
        obtain ⟨j, t1, seg, hv⟩ := pass_out_segment _ _ _ _ _ _ _ hP1 r rfl
        exact absurd hst.symm (hv.2.2 r rfl)
    obtain ⟨seg, pre, post, hv, hn1, hpre, hpost⟩ :=
      pass_next_all _ _ template hidx1 0 tcount f1 n1 hP1 hf1 i t (by omega) (by omega) ht
        (by simpa using hnp)
    obtain ⟨hops, hmem⟩ := hv.2.1 rfl
    have hHo : ops_of i H = [] := by
      apply ops_of_other
      intro e he hc
      rw [setup_idx e (hH e he)] at hc
      simp at hc
    have hTo : ops_of i T = [] := by
      apply ops_of_other
      intro e he hc
      rcases hT with hT | ⟨hT, _⟩
      · rw [hT] at he
        rw [setup_idx e (hash_cleanup_setup e he)] at hc
        simp at hc
      · rw [hT] at he
        simp at he
    have h2o : ops_of i n2 = [] := by
      apply ops_of_other
      intro e he hc
      obtain ⟨t2, ht2, hs2⟩ := pass_sel _ _ template hidx2 0 tcount f2 n2 (hP2 hf1) e he i hc
      rw [ht] at ht2
      simp only [Option.some.injEq] at ht2
      subst ht2
      simp only [decide_eq_true_eq] at hs2
      exact hs2 hnp
    rw [hnew]
    constructor
    · rw [ops_of_append, ops_of_append, ops_of_append, hHo, hTo, h2o, hn1, ops_of_append,
        ops_of_append, ops_of_other i pre hpre, ops_of_other i post hpost, hops]
      simp
    · rw [hn1]
      simp only [List.mem_append]
      exact Or.inr (Or.inl (Or.inr (Or.inl hmem)))

theorem hash_run_extends {σ : Type} (E : Env σ) (c : Config) (tfm : crypto_ahash)
    (template : List moto_hash_testvec) (tcount : Nat) (use_digest : Bool)
    (inject_fault : Int) (s : State σ) :
    (moto_test_hash E c tfm template tcount use_digest inject_fault s).2.trace
      = s.trace
        ++ new_events s (moto_test_hash E c tfm template tcount use_digest inject_fault s).2 := by
  obtain ⟨new, hn, _⟩ := hash_run_ext (fun _ => True) (fun _ _ => trivial) E c tfm template
    tcount use_digest inject_fault
    (fun i t s _ _ => ext_mono (hash_unchunked_ns E c tfm use_digest inject_fault i t s)
      (fun _ _ => trivial))
    (fun i t s _ _ => ext_mono (hash_chunked_ns E c tfm i t s) (fun _ _ => trivial)) s
  rw [new_events_append s _ new hn, hn]

/-- C33: once the transform is loaded, `moto_alg_test_hash` runs `moto_test_hash` over the
entry's table with `use_digest` set; a run that does not return `0` is returned at once
(only the transform is released after it, nothing of a second run is called); after a run
that returned `0` it runs `moto_test_hash` again, from the state the first run left, with
`use_digest` clear, and returns that run's status.  So it returns `0` exactly when both
runs returned `0`, and then for every unchunked vector `i` of the table the hash
operations called are the one-shot digest in the first run and init, update, final in the
second, each run having compared the digest of vector `i` and found it equal. -/
theorem hash_both_paths {σ : Type} (E : Env σ) (c : Config) (desc : moto_alg_test_desc)
    (driver : List Nat) (type mask : Nat) (s s1 : State σ) (tfm : crypto_ahash) (env1 : σ)
    (hal : E.crypto_alloc_ahash s.env driver type mask = (.ok tfm, env1))
    (hs1 : s1 = { s with env := env1,
                         trace := s.trace ++ [.alloc_tfm .hash driver type mask true] }) :
    (∀ (err : Int) (s2 : State σ),
      moto_test_hash E c tfm desc.hash.vecs desc.hash.count true
        (simple_inject_fault c desc) s1 = (some err, s2) → err ≠ 0 →
      moto_alg_test_hash E c desc driver type mask s
        = (some err, s2.log [.free_tfm .hash])) ∧
    (∀ s2 : State σ,
      moto_test_hash E c tfm desc.hash.vecs desc.hash.count true
        (simple_inject_fault c desc) s1 = (none, s2) →
      moto_alg_test_hash E c desc driver type mask s = (none, s2)) ∧
    (∀ (s2 s3 : State σ),
      moto_test_hash E c tfm desc.hash.vecs desc.hash.count true
        (simple_inject_fault c desc) s1 = (some 0, s2) →
      (∀ err1, moto_test_hash E c tfm desc.hash.vecs desc.hash.count false
          (simple_inject_fault c desc) s2 = (some err1, s3) →
        moto_alg_test_hash E c desc driver type mask s
          = (some err1, s3.log [.free_tfm .hash])) ∧
      (moto_test_hash E c tfm desc.hash.vecs desc.hash.count false
          (simple_inject_fault c desc) s2 = (none, s3) →
        moto_alg_test_hash E c desc driver type mask s = (none, s3))) ∧
    ((moto_alg_test_hash E c desc driver type mask s).1 = some 0 ↔
      ∃ s2 s3 : State σ,
        moto_test_hash E c tfm desc.hash.vecs desc.hash.count true
          (simple_inject_fault c desc) s1 = (some 0, s2) ∧
        moto_test_hash E c tfm desc.hash.vecs desc.hash.count false
          (simple_inject_fault c desc) s2 = (some 0, s3)) ∧
    (∀ (s2 s3 : State σ),
      moto_test_hash E c tfm desc.hash.vecs desc.hash.count true
        (simple_inject_fault c desc) s1 = (some 0, s2) →
      moto_test_hash E c tfm desc.hash.vecs desc.hash.count false
        (simple_inject_fault c desc) s2 = (some 0, s3) →
      ∀ (i : Nat) (t : moto_hash_testvec), i < desc.hash.count →
        desc.hash.vecs[i]? = some t → t.np = 0 →
        ops_of i (new_events s1 s2) = [.digest] ∧
        Event.memcmp i 0 0 ∈ new_events s1 s2 ∧
        ops_of i (new_events s2 s3) = [.init, .update, .final] ∧
        Event.memcmp i 0 0 ∈ new_events s2 s3 ∧
        new_events s (moto_alg_test_hash E c desc driver type mask s).2
          = [.alloc_tfm .hash driver type mask true] ++ new_events s1 s2
              ++ new_events s2 s3 ++ [.free_tfm .hash] ∧
        ops_of i (new_events s (moto_alg_test_hash E c desc driver type mask s).2)
          = [.digest, .init, .update, .final]) := by
  subst hs1
  have hunf : moto_alg_test_hash E c desc driver type mask s
      = match moto_test_hash E c tfm desc.hash.vecs desc.hash.count true
          (simple_inject_fault c desc)
          { s with env := env1,
                   trace := s.trace ++ [.alloc_tfm .hash driver type mask true] } with
        | (none, s2) => (none, s2)
        | (some err, s2) =>
          if err = 0 then
            match moto_test_hash E c tfm desc.hash.vecs desc.hash.count false
              (simple_inject_fault c desc) s2 with
            | (none, s3) => (none, s3)
            | (some err1, s3) => (some err1, s3.log [.free_tfm .hash])
          else (some err, s2.log [.free_tfm .hash]) := by
    unfold moto_alg_test_hash
    rw [hal]
  have h1 : ∀ (err : Int) (s2 : State σ),
      moto_test_hash E c tfm desc.hash.vecs desc.hash.count true
        (simple_inject_fault c desc)
        { s with env := env1,
                 trace := s.trace ++ [.alloc_tfm .hash driver type mask true] }
        = (some err, s2) → err ≠ 0 →
      moto_alg_test_hash E c desc driver type mask s
        = (some err, s2.log [.free_tfm .hash]) := by
    intro err s2 hr he
    rw [hunf, hr]
    simp only
    rw [if_neg he]
  have h3 : ∀ (s2 s3 : State σ) (r : Option Int),
      moto_test_hash E c tfm desc.hash.vecs desc.hash.count true
        (simple_inject_fault c desc)
        { s with env := env1,
                 trace := s.trace ++ [.alloc_tfm .hash driver type mask true] }
        = (some 0, s2) →
      moto_test_hash E c tfm desc.hash.vecs desc.hash.count false
          (simple_inject_fault c desc) s2 = (r, s3) →
        moto_alg_test_hash E c desc driver type mask s
          = match r with
            | none => (none, s3)
            | some err1 => (some err1, s3.log [.free_tfm .hash]) := by
    intro s2 s3 r hr1 hr2
    rw [hunf, hr1]
    simp only [if_true]
    rw [hr2]
    cases r <;> rfl
  refine ⟨h1, ?_, ?_, ?_, ?_⟩
  · intro s2 hr
    rw [hunf, hr]
  · intro s2 s3 hr1
    exact ⟨fun err1 hr2 => h3 s2 s3 _ hr1 hr2, fun hr2 => h3 s2 s3 _ hr1 hr2⟩
  · constructor
    · intro h
      rcases hr1 : moto_test_hash E c tfm desc.hash.vecs desc.hash.count true
        (simple_inject_fault c desc)
        { s with env := env1,
                 trace := s.trace ++ [.alloc_tfm .hash driver type mask true] }
        with ⟨r1, s2⟩
      cases r1 with
      | none =>
        rw [hunf, hr1] at h
        simp at h
      | some err =>
        by_cases he : err = 0
        · subst he
          rcases hr2 : moto_test_hash E c tfm desc.hash.vecs desc.hash.count false
            (simple_inject_fault c desc) s2 with ⟨r2, s3⟩
          rw [h3 s2 s3 r2 hr1 hr2] at h
          cases r2 with
          | none => simp at h
          | some err1 =>
            simp only [Option.some.injEq] at h
            subst h
            exact ⟨s2, s3, rfl, hr2⟩
        · rw [h1 err s2 hr1 he] at h
          simp only [Option.some.injEq] at h
          exact absurd h he
    · rintro ⟨s2, s3, hr1, hr2⟩
      rw [h3 s2 s3 _ hr1 hr2]
  · intro s2 s3 hr1 hr2 i t hi ht hnp
    obtain ⟨ho1, hm1⟩ := hash_run_ok_ops E c tfm _ _ _ _ _ s2 hr1 i t hi ht hnp
    obtain ⟨ho2, hm2⟩ := hash_run_ok_ops E c tfm _ _ _ _ _ s3 hr2 i t hi ht hnp
    have ht2 := hash_run_extends E c tfm desc.hash.vecs desc.hash.count true
      (simple_inject_fault c desc)
      { s with env := env1, trace := s.trace ++ [.alloc_tfm .hash driver type mask true] }
    rw [hr1] at ht2
    have ht3 := hash_run_extends E c tfm desc.hash.vecs desc.hash.count false
      (simple_inject_fault c desc) s2
    rw [hr2] at ht3
    simp only at ht2 ht3
    have hnew : new_events s (moto_alg_test_hash E c desc driver type mask s).2
        = [.alloc_tfm .hash driver type mask true]
            ++ new_events (⟨env1, s.xbuf, s.tresult,
                s.trace ++ [.alloc_tfm .hash driver type mask true]⟩ : State σ) s2
            ++ new_events s2 s3 ++ [.free_tfm .hash] := by
      rw [h3 s2 s3 _ hr1 hr2]
      apply new_events_append
      simp only [State.log]
      rw [ht3, ht2]
      simp only [List.append_assoc]
    refine ⟨ho1, hm1, ho2, hm2, hnew, ?_⟩
    rw [hnew, ops_of_append, ops_of_append, ops_of_append, ho1, ho2]
    rfl

set_option maxRecDepth 100000 in
/-- Witness for C33: for an entry with one unchunked vector whose expected digest is all
zero and a provider that leaves the zeroed result buffer as it is, `moto_alg_test_hash`
returns `0`, and the hash operations called for vector 0 are digest, then init, update,
final. -/
theorem hash_both_paths_witness :
    (moto_alg_test_hash (sample_env 0 none) sample_config zero_hash_desc (ascii "zero") 0 0
      sample_state).1 = some 0 ∧
    ops_of 0 (new_events sample_state
      (moto_alg_test_hash (sample_env 0 none) sample_config zero_hash_desc (ascii "zero") 0 0
        sample_state).2) = [.digest, .init, .update, .final] := by
  have h := hash_both_paths (sample_env 0 none) sample_config zero_hash_desc (ascii "zero")
    0 0 sample_state _ ⟨0, 20⟩ () rfl rfl
  obtain ⟨s2, s3, hr1, hr2⟩ := h.2.2.2.1.1 (by decide)
  exact ⟨by decide,
    (h.2.2.2.2 s2 s3 hr1 hr2 0 zero_digest_vec (by decide) rfl rfl).2.2.2.2.2⟩
/-! ## No test function is called and no transform loaded inside a runner -/

theorem async_op_ni {σ : Type} (s : State σ) (r : OpResult) :
    Ext (fun e => e.isInvoke = false) s (moto_do_one_async_hash_op s r).2 := by
  unfold moto_do_one_async_hash_op
  split
  · split
    · exact Ext.refl _ _
    · exact ⟨[.wait _, .INIT_COMPLETION], rfl, by
        intro e he; simp at he; rcases he with rfl | rfl <;> rfl⟩
  · exact Ext.refl _ _

theorem inline_completion_ni {σ : Type} (s : State σ) (r : OpResult) :
    Ext (fun e => e.isInvoke = false) s (inline_completion s r).2 := by
  unfold inline_completion
  split
  · exact Ext.refl _ _
  · split
    · split
      · exact Ext.refl _ _
      · split
        · split
          · exact ⟨[.wait _, .INIT_COMPLETION], rfl, by
              intro e he; simp at he; rcases he with rfl | rfl <;> rfl⟩
          · exact ⟨[.wait _], rfl, by intro e he; simp at he; subst he; rfl⟩
        · exact ⟨[.wait _], rfl, by intro e he; simp at he; subst he; rfl⟩
    · exact Ext.refl _ _

theorem hash_setkey_ni {σ : Type} (E : Env σ) (tfm : crypto_ahash) (i : Nat)
    (t : moto_hash_testvec) (s : State σ) :
    Ext (fun e => e.isInvoke = false) s (hash_setkey E tfm i t s).2 := by
  unfold hash_setkey
  split
  · exact ⟨[.clear_flags, .ahash_setkey i t.key t.ksize _], rfl, by
      intro e he; simp at he; rcases he with rfl | rfl <;> rfl⟩
  · exact Ext.refl _ _

theorem ahash_call_ni {σ : Type} (E : Env σ) (tfm : crypto_ahash) (op : HashOp) (i : Nat)
    (sg : List scatterlist) (nbytes : Nat) (result : Nat → Nat) (s : State σ) :
    Ext (fun e => e.isInvoke = false) s (ahash_call E tfm op i sg nbytes result s).2.2 := by
  unfold ahash_call
  exact ⟨[.ahash_op i op sg nbytes _], rfl, by intro e he; simp at he; subst he; rfl⟩

theorem hash_op_sync_ni {σ : Type} (E : Env σ) (tfm : crypto_ahash) (op : HashOp)
    (i : Nat) (sg : List scatterlist) (nbytes : Nat) (result : Nat → Nat) (s : State σ) :
    Ext (fun e => e.isInvoke = false) s (hash_op_sync E tfm op i sg nbytes result s).2.2 := by
  unfold hash_op_sync
  have e1 := ahash_call_ni E tfm op i sg nbytes result s
  generalize ahash_call E tfm op i sg nbytes result s = C at e1 ⊢
  obtain ⟨r, result1, s1⟩ := C
  exact Ext.trans e1 (async_op_ni s1 r)

theorem hash_compute_ni {σ : Type} (E : Env σ) (tfm : crypto_ahash) (use_digest : Bool)
    (i : Nat) (sg : List scatterlist) (nbytes : Nat) (result : Nat → Nat) (s : State σ) :
    Ext (fun e => e.isInvoke = false) s
      (hash_compute E tfm use_digest i sg nbytes result s).2.2 := by
  unfold hash_compute
  split
  · exact hash_op_sync_ni E tfm .digest i sg nbytes result s
  · have e1 := hash_op_sync_ni E tfm .init i sg nbytes result s
    generalize hash_op_sync E tfm .init i sg nbytes result s = A at e1 ⊢
    obtain ⟨o1, result1, s1⟩ := A
    split
    · rename_i result1' s1' heq
      simp only [Prod.mk.injEq] at heq
      obtain ⟨_, rfl, rfl⟩ := heq
      have e2 := hash_op_sync_ni E tfm .update i sg nbytes result1 s1
      generalize hash_op_sync E tfm .update i sg nbytes result1 s1 = B at e2 ⊢
      obtain ⟨o2, result2, s2⟩ := B
      split
      · rename_i result2' s2' heq2
        simp only [Prod.mk.injEq] at heq2
        obtain ⟨_, rfl, rfl⟩ := heq2
        exact Ext.trans e1 (Ext.trans e2
          (hash_op_sync_ni E tfm .final i sg nbytes result2 s2))
      · exact Ext.trans e1 e2
    · exact e1

theorem memcmp_log_ni {σ : Type} (s : State σ) (i k : Nat) (cmp : Int) :
    Ext (fun e => e.isInvoke = false) s (s.log [.memcmp i k cmp]) :=
  Ext.log s _ (by intro e he; simp at he; subst he; rfl)

theorem hash_unchunked_ni {σ : Type} (E : Env σ) (c : Config) (tfm : crypto_ahash)
    (use_digest : Bool) (inject_fault : Int) (i : Nat) (t : moto_hash_testvec)
    (s : State σ) :
    Ext (fun e => e.isInvoke = false) s
      (hash_unchunked_vec E c tfm use_digest inject_fault i t s).2 := by
  unfold hash_unchunked_vec
  simp only
  have hk := ext_from s _ _ rfl (hash_setkey_ni E tfm i t
    { s with xbuf := s.xbuf.memcpy 0 0 (byteAt t.plaintext) t.psize })
  generalize hash_setkey E tfm i t
    { s with xbuf := s.xbuf.memcpy 0 0 (byteAt t.plaintext) t.psize } = K at hk ⊢
  obtain ⟨kret, s2⟩ := K
  simp only at hk ⊢
  by_cases hne : kret ≠ 0
  · rw [if_pos hne]
    exact hk
  · rw [if_neg hne]
    have e1 := hash_compute_ni E tfm use_digest i [⟨0, 0, t.psize⟩] t.psize (fun _ => 0) s2
    generalize hash_compute E tfm use_digest i [⟨0, 0, t.psize⟩] t.psize (fun _ => 0) s2 = C
      at e1 ⊢
    obtain ⟨o, result, s3⟩ := C
    simp only at e1
    cases o with
    | none => exact Ext.trans hk e1
    | some ret =>
      simp only
      by_cases hr : ret ≠ 0
      · rw [if_pos hr]
        exact Ext.trans hk e1
      · rw [if_neg hr]
        generalize memcmp (if c.FAULT_INJECTION = true ∧ inject_fault ≠ 0 then flip_first result
          else result) (byteAt t.digest) tfm.digestsize = cmp
        by_cases hc : cmp ≠ 0
        · rw [if_pos hc]
          exact Ext.trans hk (Ext.trans e1 (memcmp_log_ni s3 i 0 cmp))
        · rw [if_neg hc]
          exact Ext.trans hk (Ext.trans e1 (memcmp_log_ni s3 i 0 cmp))

theorem hash_chunked_ni {σ : Type} (E : Env σ) (c : Config) (tfm : crypto_ahash)
    (i : Nat) (t : moto_hash_testvec) (s : State σ) :
    Ext (fun e => e.isInvoke = false) s (hash_chunked_vec E c tfm i t s).2 := by
  unfold hash_chunked_vec
  cases hl : hash_layout c t s.xbuf t.np with
  | none => exact Ext.refl _ _
  | some l =>
    simp only
    have hk := ext_from s _ _ rfl (hash_setkey_ni E tfm i t { s with xbuf := l.xbuf })
    generalize hash_setkey E tfm i t { s with xbuf := l.xbuf } = K at hk ⊢
    obtain ⟨kret, s2⟩ := K
    simp only at hk ⊢
    by_cases hne : kret ≠ 0
    · rw [if_pos hne]
      exact hk
    · rw [if_neg hne]
      have e1 := ahash_call_ni E tfm .digest i l.sg t.psize (fun _ => 0) s2
      generalize ahash_call E tfm .digest i l.sg t.psize (fun _ => 0) s2 = C at e1 ⊢
      obtain ⟨r, result, s3⟩ := C
      simp only at e1 ⊢
      have e2 := inline_completion_ni s3 r
      generalize inline_completion s3 r = W at e2 ⊢
      obtain ⟨w, s4⟩ := W
      simp only at e2 ⊢
      cases w with
      | none => exact Ext.trans hk (Ext.trans e1 e2)
      | some ret =>
        simp only
        by_cases hr : ret ≠ 0
        · rw [if_pos hr]
          exact Ext.trans hk (Ext.trans e1 e2)
        · rw [if_neg hr]
          generalize memcmp result (byteAt t.digest) tfm.digestsize = cmp
          by_cases hc : cmp ≠ 0
          · rw [if_pos hc]
            exact Ext.trans hk (Ext.trans e1 (Ext.trans e2 (memcmp_log_ni s4 i 0 cmp)))
          · rw [if_neg hc]
            exact Ext.trans hk (Ext.trans e1 (Ext.trans e2 (memcmp_log_ni s4 i 0 cmp)))

theorem skcipher_setkey_ni {σ : Type} (E : Env σ) (tfm : crypto_ablkcipher) (i : Nat)
    (t : moto_cipher_testvec) (s : State σ) :
    Ext (fun e => e.isInvoke = false) s (skcipher_setkey E tfm i t s).2 := by
  refine ⟨_, skcipher_setkey_trace E tfm i t s, ?_⟩
  intro e he
  unfold flag_events at he
  simp only [List.mem_append, List.mem_singleton] at he
  rcases he with (rfl | he) | rfl
  · rfl
  · split at he
    · simp only [List.mem_singleton] at he; subst he; rfl
    · simp at he
  · rfl

theorem skcipher_call_ni {σ : Type} (E : Env σ) (tfm : crypto_ablkcipher) (enc : Int)
    (i : Nat) (sg : List scatterlist) (nbytes : Nat) (iv : List Nat) (s : State σ) :
    Ext (fun e => e.isInvoke = false) s (skcipher_call E tfm enc i sg nbytes iv s).2 := by
  unfold skcipher_call
  exact ⟨[.ablkcipher_crypt i _ sg nbytes iv _], rfl, by
    intro e he; simp at he; subst he; rfl⟩

theorem check_chunks_ni (c : Config) (t : moto_cipher_testvec) (i : Nat) (m : Mem) :
    ∀ (n k temp : Nat), ∀ e ∈ (skcipher_check_chunks c t i m n k temp).1,
      e.isInvoke = false := by
  intro n
  induction n with
  | zero => intro k temp e he; simp [skcipher_check_chunks] at he
  | succ n ih =>
    intro k temp e he
    simp only [skcipher_check_chunks] at he
    split at he
    · simp at he; subst he; rfl
    · split at he
      · simp at he; subst he; rfl
      · simp only [List.mem_cons] at he
        rcases he with rfl | he
        · rfl
        · exact ih _ _ e he

theorem skcipher_unchunked_ni {σ : Type} (E : Env σ) (c : Config) (tfm : crypto_ablkcipher)
    (enc : Int) (inject_fault : Int) (i : Nat) (t : moto_cipher_testvec) (s : State σ) :
    Ext (fun e => e.isInvoke = false) s
      (skcipher_unchunked_vec E c tfm enc inject_fault i t s).2 := by
  unfold skcipher_unchunked_vec
  by_cases hi : t.ilen > PAGE_SIZE c
  · rw [if_pos hi]
    exact Ext.refl _ _
  · rw [if_neg hi]
    simp only
    have hk := ext_from s _ _ rfl (skcipher_setkey_ni E tfm i t
      { s with xbuf := s.xbuf.memcpy 0 0 (byteAt t.input) t.ilen })
    generalize skcipher_setkey E tfm i t
      { s with xbuf := s.xbuf.memcpy 0 0 (byteAt t.input) t.ilen } = K at hk ⊢
    obtain ⟨ret, s2⟩ := K
    simp only at hk ⊢
    by_cases hf : (if ret = 0 then 1 else 0) = t.fail
    · rw [if_pos hf]
      exact hk
    · rw [if_neg hf]
      by_cases hne : ret ≠ 0
      · rw [if_pos hne]
        exact hk
      · rw [if_neg hne]
        have e1 := skcipher_call_ni E tfm enc i [⟨0, 0, t.ilen⟩] t.ilen (vec_iv c t) s2
        generalize skcipher_call E tfm enc i [⟨0, 0, t.ilen⟩] t.ilen (vec_iv c t) s2 = C
          at e1 ⊢
        obtain ⟨r, s3⟩ := C
        simp only at e1 ⊢
        have e2 := inline_completion_ni s3 r
        generalize inline_completion s3 r = W at e2 ⊢
        obtain ⟨w, s4⟩ := W
        simp only at e2 ⊢
        cases w with
        | none => exact Ext.trans hk (Ext.trans e1 e2)
        | some ret1 =>
          simp only
          by_cases hr : ret1 ≠ 0
          · rw [if_pos hr]
            exact Ext.trans hk (Ext.trans e1 e2)
          · rw [if_neg hr]
            have e3 : ∀ (m : Mem) (cmp : Int), Ext (fun e => e.isInvoke = false) s
                { s4 with xbuf := m, trace := s4.trace ++ [.memcmp i 0 cmp] } :=
              fun m cmp => Ext.trans hk (Ext.trans e1 (Ext.trans e2
                ⟨[.memcmp i 0 cmp], rfl, by intro e he; simp at he; subst he; rfl⟩))
            split <;> split <;> exact e3 _ _

theorem skcipher_chunked_ni {σ : Type} (E : Env σ) (c : Config) (tfm : crypto_ablkcipher)
    (enc : Int) (i : Nat) (t : moto_cipher_testvec) (s : State σ) :
    Ext (fun e => e.isInvoke = false) s (skcipher_chunked_vec E c tfm enc i t s).2 := by
  unfold skcipher_chunked_vec
  have hk := skcipher_setkey_ni E tfm i t s
  generalize skcipher_setkey E tfm i t s = K at hk ⊢
  obtain ⟨ret, s2⟩ := K
  simp only at hk ⊢
  by_cases hf : (if ret = 0 then 1 else 0) = t.fail
  · rw [if_pos hf]
    exact hk
  · rw [if_neg hf]
    by_cases hne : ret ≠ 0
    · rw [if_pos hne]
      exact hk
    · rw [if_neg hne]
      cases hl : skcipher_layout c t s2.xbuf t.np with
      | none => exact hk
      | some l =>
        simp only
        have e1 := ext_from s2 _ _ rfl (skcipher_call_ni E tfm enc i l.sg t.ilen (vec_iv c t)
          { s2 with xbuf := l.xbuf })
        generalize skcipher_call E tfm enc i l.sg t.ilen (vec_iv c t)
          { s2 with xbuf := l.xbuf } = C at e1 ⊢
        obtain ⟨r, s3⟩ := C
        simp only at e1 ⊢
        have e2 := inline_completion_ni s3 r
        generalize inline_completion s3 r = W at e2 ⊢
        obtain ⟨w, s4⟩ := W
        simp only at e2 ⊢
        cases w with
        | none => exact Ext.trans hk (Ext.trans e1 e2)
        | some ret1 =>
          simp only
          by_cases hr : ret1 ≠ 0
          · rw [if_pos hr]
            exact Ext.trans hk (Ext.trans e1 e2)
          · rw [if_neg hr]
            have e3 := check_chunks_ni c t i s4.xbuf t.np 0 0
            generalize skcipher_check_chunks c t i s4.xbuf t.np 0 0 = K2 at e3 ⊢
            obtain ⟨es, b⟩ := K2
            simp only at e3
            cases b with
            | true => exact Ext.trans hk (Ext.trans e1 (Ext.trans e2 (Ext.log s4 es e3)))
            | false => exact Ext.trans hk (Ext.trans e1 (Ext.trans e2 (Ext.log s4 es e3)))

theorem setup_not_invoke (e : Event) (h : e.isSetup = true) : e.isInvoke = false := by
  cases e <;> first | rfl | simp [Event.isSetup] at h

theorem hash_run_ni {σ : Type} (E : Env σ) (c : Config) (tfm : crypto_ahash)
    (template : List moto_hash_testvec) (tcount : Nat) (use_digest : Bool)
    (inject_fault : Int) (s : State σ) :
    Ext (fun e => e.isInvoke = false) s
      (moto_test_hash E c tfm template tcount use_digest inject_fault s).2 :=
  hash_run_ext _ setup_not_invoke E c tfm template tcount use_digest inject_fault
    (fun i t s _ _ => hash_unchunked_ni E c tfm use_digest inject_fault i t s)
    (fun i t s _ _ => hash_chunked_ni E c tfm i t s) s

theorem skcipher_run_ni {σ : Type} (E : Env σ) (c : Config) (tfm : crypto_ablkcipher)
    (enc : Int) (template : List moto_cipher_testvec) (tcount : Nat) (inject_fault : Int)
    (s : State σ) :
    Ext (fun e => e.isInvoke = false) s
      (moto_test_skcipher E c tfm enc template tcount inject_fault s).2 :=
  skcipher_run_ext _ setup_not_invoke E c tfm enc template tcount inject_fault
    (fun i t s _ _ => skcipher_unchunked_ni E c tfm enc inject_fault i t s)
    (fun i t s _ _ => skcipher_chunked_ni E c tfm enc i t s) s

theorem get_loop_ni {σ : Type} (E : Env σ) (tfm : crypto_rng) (i rlen : Nat) :
    ∀ (n : Nat) (result : Nat → Nat) (s : State σ),
      Ext (fun e => e.isInvoke = false) s (cprng_get_loop E tfm i rlen n result s).2.2 := by
  intro n
  induction n with
  | zero => intro result s; exact Ext.refl _ _
  | succ n ih =>
    intro result s
    rw [cprng_get_loop]
    rcases hg : E.crypto_rng_get_bytes s.env tfm rlen result with ⟨err, result1, e⟩
    simp only
    have h1 : Ext (fun e => e.isInvoke = false) s
        (⟨e, s.xbuf, s.tresult, s.trace ++ [.rng_get_bytes i rlen err]⟩ : State σ) :=
      ⟨[.rng_get_bytes i rlen err], rfl, by intro ev hev; simp at hev; subst hev; rfl⟩
    by_cases hne : err ≠ (rlen : Int)
    · rw [if_pos hne]
      exact h1
    · rw [if_neg hne]
      exact Ext.trans h1 (ih _ _)

theorem cprng_vec_ni {σ : Type} (E : Env σ) (c : Config) (tfm : crypto_rng)
    (inject_fault : Int) (i : Nat) (t : moto_cprng_testvec) (seed : Nat → Nat)
    (s : State σ) :
    Ext (fun e => e.isInvoke = false) s (cprng_vec E c tfm inject_fault i t seed s).2.2 := by
  rw [cprng_vec_unfold]
  generalize (List.range tfm.seedsize).map (cprng_seed t seed) = sd
  rcases hr : E.crypto_rng_reset s.env tfm sd tfm.seedsize with ⟨err, e⟩
  simp only
  have h1 : Ext (fun e => e.isInvoke = false) s
      (⟨e, s.xbuf, s.tresult, s.trace ++ [.rng_reset i sd tfm.seedsize err]⟩ : State σ) :=
    ⟨[.rng_reset i sd tfm.seedsize err], rfl, by
      intro ev hev; simp at hev; subst hev; rfl⟩
  by_cases hne : err ≠ 0
  · rw [if_pos hne]
    exact h1
  · rw [if_neg hne]
    have h2 := get_loop_ni E tfm i t.rlen t.loops (fun _ => 0)
      (⟨e, s.xbuf, s.tresult, s.trace ++ [.rng_reset i sd tfm.seedsize err]⟩ : State σ)
    generalize cprng_get_loop E tfm i t.rlen t.loops (fun _ => 0)
      (⟨e, s.xbuf, s.tresult, s.trace ++ [.rng_reset i sd tfm.seedsize err]⟩ : State σ) = G
      at h2 ⊢
    obtain ⟨o, result, s2⟩ := G
    simp only at h2
    cases o with
    | some err1 => exact Ext.trans h1 h2
    | none =>
      simp only
      generalize memcmp (if c.FAULT_INJECTION = true ∧ inject_fault ≠ 0 then flip_first result
        else result) (byteAt t.result) t.rlen = cmp
      by_cases hc : cmp ≠ 0
      · rw [if_pos hc]
        exact Ext.trans h1 (Ext.trans h2 (memcmp_log_ni s2 i 0 cmp))
      · rw [if_neg hc]
        exact Ext.trans h1 (Ext.trans h2 (memcmp_log_ni s2 i 0 cmp))

theorem cprng_loop_ni {σ : Type} (E : Env σ) (c : Config) (tfm : crypto_rng)
    (template : List moto_cprng_testvec) (inject_fault : Int) :
    ∀ (n i : Nat) (err : Int) (seed : Nat → Nat) (s : State σ),
      Ext (fun e => e.isInvoke = false) s
        (cprng_loop E c tfm template inject_fault n i err seed s).2 := by
  intro n
  induction n with
  | zero => intro i err seed s; exact Ext.refl _ _
  | succ n ih =>
    intro i err seed s
    rw [cprng_loop]
    cases template[i]? with
    | none => exact Ext.refl _ _
    | some t =>
      simp only
      have h1 := cprng_vec_ni E c tfm inject_fault i t seed s
      generalize cprng_vec E c tfm inject_fault i t seed s = V at h1 ⊢
      obtain ⟨o, seed1, s1⟩ := V
      cases o with
      | some err1 => exact h1
      | none => exact Ext.trans h1 (ih _ _ _ _)

theorem cprng_run_ni {σ : Type} (E : Env σ) (c : Config) (tfm : crypto_rng)
    (template : List moto_cprng_testvec) (tcount : Nat) (inject_fault : Int) (s : State σ) :
    Ext (fun e => e.isInvoke = false) s
      (moto_test_cprng E c tfm template tcount inject_fault s).2 := by
  unfold moto_test_cprng
  rcases hk : E.kmalloc s.env tfm.seedsize with ⟨o, e⟩
  cases o with
  | none =>
    exact ⟨[.kmalloc false], rfl, by intro ev hev; simp at hev; subst hev; rfl⟩
  | some seed =>
    simp only
    have h1 : Ext (fun e => e.isInvoke = false) s
        (⟨e, s.xbuf, s.tresult, s.trace ++ [.kmalloc true]⟩ : State σ) :=
      ⟨[.kmalloc true], rfl, by intro ev hev; simp at hev; subst hev; rfl⟩
    have h2 := cprng_loop_ni E c tfm template inject_fault tcount 0 0 seed
      (⟨e, s.xbuf, s.tresult, s.trace ++ [.kmalloc true]⟩ : State σ)
    generalize cprng_loop E c tfm template inject_fault tcount 0 0 seed
      (⟨e, s.xbuf, s.tresult, s.trace ++ [.kmalloc true]⟩ : State σ) = L at h2 ⊢
    obtain ⟨o, s1⟩ := L
    cases o with
    | none => exact Ext.trans h1 h2
    | some err =>
      exact Ext.trans h1 (Ext.trans h2 (Ext.log s1 _ (by
        intro ev hev; simp at hev; subst hev; rfl)))
/-! ## C40: the runners `moto_alg_test` invokes -/

theorem find_test_entry (name : List Nat) (i : Int) (h : moto_alg_find_test name = some i)
    (h0 : 0 ≤ i) :
    ∃ d, moto_alg_test_descs[i.toNat]? = some d ∧ d.alg = cstr name := by
  rcases find_test_cases name with ⟨h1, _⟩ | ⟨k, d, hk, hd, hz⟩
  · rw [h1] at h
    simp only [Option.some.injEq] at h
    omega
  · rw [hk] at h
    simp only [Option.some.injEq] at h
    subst h
    refine ⟨d, by simpa using hd, ?_⟩
    have := (strcmp_eq_zero_iff d.alg name).1 hz
    rw [registry_cstr d (List.getElem?_mem hd)] at this
    exact this

theorem registry_index_unique (i j : Nat) (d e : moto_alg_test_desc)
    (hd : moto_alg_test_descs[i]? = some d) (he : moto_alg_test_descs[j]? = some e)
    (h : d.alg = e.alg) : i = j := by
  have hz : strcmp d.alg e.alg = 0 := (strcmp_eq_zero_iff _ _).2 (by rw [h])
  have hz2 : strcmp e.alg d.alg = 0 := (strcmp_eq_zero_iff _ _).2 (by rw [h])
  rcases Nat.lt_trichotomy i j with hlt | heq | hgt
  · have := registry_sorted_idx i j d e hlt hd he
    omega
  · exact heq
  · have := registry_sorted_idx j i e d hgt he hd
    omega

theorem alg_test_hash_invokes {σ : Type} (E : Env σ) (c : Config) (desc : moto_alg_test_desc)
    (driver : List Nat) (type mask : Nat) (s : State σ) :
    ∃ ok body, (moto_alg_test_hash E c desc driver type mask s).2.trace
        = s.trace ++ (.alloc_tfm .hash driver type mask ok :: body) ∧
      ∀ e ∈ body, e.isInvoke = false := by
  have hmk : ∀ (ok : Bool) (s1 s2 : State σ),
      s1.trace = s.trace ++ [.alloc_tfm .hash driver type mask ok] →
      Ext (fun e => e.isInvoke = false) s1 s2 →
      ∃ ok body, s2.trace = s.trace ++ (.alloc_tfm .hash driver type mask ok :: body) ∧
        ∀ e ∈ body, e.isInvoke = false := by
    intro ok s1 s2 h1 h2
    obtain ⟨body, hb, hq⟩ := h2
    exact ⟨ok, body, by rw [hb, h1]; simp, hq⟩
  have hfree : ∀ s2 : State σ, Ext (fun e => e.isInvoke = false) s2
      (s2.log [.free_tfm .hash]) :=
    fun s2 => Ext.log s2 _ (by intro ev hev; simp at hev; subst hev; rfl)
  unfold moto_alg_test_hash
  rcases ha : E.crypto_alloc_ahash s.env driver type mask with ⟨r, env1⟩
  cases r with
  | error e => exact hmk false _ _ rfl (Ext.refl _ _)
  | ok tfm =>
    simp only
    have e1 := hash_run_ni E c tfm desc.hash.vecs desc.hash.count true
      (simple_inject_fault c desc)
      (⟨env1, s.xbuf, s.tresult, s.trace ++ [.alloc_tfm .hash driver type mask true]⟩ :
        State σ)
    generalize moto_test_hash E c tfm desc.hash.vecs desc.hash.count true
      (simple_inject_fault c desc)
      (⟨env1, s.xbuf, s.tresult, s.trace ++ [.alloc_tfm .hash driver type mask true]⟩ :
        State σ) = R1 at e1 ⊢
    obtain ⟨o1, s2⟩ := R1
    simp only at e1
    cases o1 with
    | none => exact hmk true _ _ rfl e1
    | some err =>
      simp only
      by_cases he : err = 0
      · rw [if_pos he]
        have e2 := hash_run_ni E c tfm desc.hash.vecs desc.hash.count false
          (simple_inject_fault c desc) s2
        generalize moto_test_hash E c tfm desc.hash.vecs desc.hash.count false
          (simple_inject_fault c desc) s2 = R2 at e2 ⊢
        obtain ⟨o2, s3⟩ := R2
        simp only at e2
        cases o2 with
        | none => exact hmk true _ _ rfl (Ext.trans e1 e2)
        | some err1 => exact hmk true _ _ rfl (Ext.trans e1 (Ext.trans e2 (hfree s3)))
      · rw [if_neg he]
        exact hmk true _ _ rfl (Ext.trans e1 (hfree s2))

theorem alg_test_cprng_invokes {σ : Type} (E : Env σ) (c : Config)
    (desc : moto_alg_test_desc) (driver : List Nat) (type mask : Nat) (s : State σ) :
    ∃ ok body, (moto_alg_test_cprng E c desc driver type mask s).2.trace
        = s.trace ++ (.alloc_tfm .cprng driver type mask ok :: body) ∧
      ∀ e ∈ body, e.isInvoke = false := by
  have hmk : ∀ (ok : Bool) (s1 s2 : State σ),
      s1.trace = s.trace ++ [.alloc_tfm .cprng driver type mask ok] →
      Ext (fun e => e.isInvoke = false) s1 s2 →
      ∃ ok body, s2.trace = s.trace ++ (.alloc_tfm .cprng driver type mask ok :: body) ∧
        ∀ e ∈ body, e.isInvoke = false := by
    intro ok s1 s2 h1 h2
    obtain ⟨body, hb, hq⟩ := h2
    exact ⟨ok, body, by rw [hb, h1]; simp, hq⟩
  have hfree : ∀ s2 : State σ, Ext (fun e => e.isInvoke = false) s2
      (s2.log [.free_tfm .cprng]) :=
    fun s2 => Ext.log s2 _ (by intro ev hev; simp at hev; subst hev; rfl)
  unfold moto_alg_test_cprng
  rcases ha : E.crypto_alloc_rng s.env driver type mask with ⟨r, env1⟩
  cases r with
  | error e => exact hmk false _ _ rfl (Ext.refl _ _)
  | ok tfm =>
    simp only
    have e1 := cprng_run_ni E c tfm desc.cprng.vecs desc.cprng.count
      (simple_inject_fault c desc)
      (⟨env1, s.xbuf, s.tresult, s.trace ++ [.alloc_tfm .cprng driver type mask true]⟩ :
        State σ)
    generalize moto_test_cprng E c tfm desc.cprng.vecs desc.cprng.count
      (simple_inject_fault c desc)
      (⟨env1, s.xbuf, s.tresult, s.trace ++ [.alloc_tfm .cprng driver type mask true]⟩ :
        State σ) = R1 at e1 ⊢
    obtain ⟨o1, s2⟩ := R1
    simp only at e1
    cases o1 with
    | none => exact hmk true _ _ rfl e1
    | some err => exact hmk true _ _ rfl (Ext.trans e1 (hfree s2))

theorem alg_test_skcipher_invokes {σ : Type} (E : Env σ) (c : Config)
    (desc : moto_alg_test_desc) (driver : List Nat) (type mask : Nat) (s : State σ) :
    ∃ ok body, (moto_alg_test_skcipher E c desc driver type mask s).2.trace
        = s.trace ++ (.alloc_tfm .skcipher driver type mask ok :: body) ∧
      ∀ e ∈ body, e.isInvoke = false := by
  have hmk : ∀ (ok : Bool) (s1 s2 : State σ),
      s1.trace = s.trace ++ [.alloc_tfm .skcipher driver type mask ok] →
      Ext (fun e => e.isInvoke = false) s1 s2 →
      ∃ ok body, s2.trace = s.trace ++ (.alloc_tfm .skcipher driver type mask ok :: body) ∧
        ∀ e ∈ body, e.isInvoke = false := by
    intro ok s1 s2 h1 h2
    obtain ⟨body, hb, hq⟩ := h2
    exact ⟨ok, body, by rw [hb, h1]; simp, hq⟩
  have hfree : ∀ s2 : State σ, Ext (fun e => e.isInvoke = false) s2
      (s2.log [.free_tfm .skcipher]) :=
    fun s2 => Ext.log s2 _ (by intro ev hev; simp at hev; subst hev; rfl)
  unfold moto_alg_test_skcipher
  rcases ha : E.crypto_alloc_ablkcipher s.env driver type mask with ⟨r, env1⟩
  cases r with
  | error e => exact hmk false _ _ rfl (Ext.refl _ _)
  | ok tfm =>
    simp only
    have hdec : ∀ (err : Int) (s1 s2 : State σ),
        s1.trace = s.trace ++ [.alloc_tfm .skcipher driver type mask true] →
        Ext (fun e => e.isInvoke = false) s1 s2 →
        ∃ ok body,
          (if err ≠ 0 then (some err, s2.log [.free_tfm .skcipher])
            else
              match desc.cipher.dec.vecs with
              | some vecs =>
                match moto_test_skcipher E c tfm DECRYPT vecs desc.cipher.dec.count
                    (skcipher_inject_fault c desc driver) s2 with
                | (none, s3) => (none, s3)
                | (some err1, s3) => (some err1, s3.log [.free_tfm .skcipher])
              | none => (some err, s2.log [.free_tfm .skcipher])).2.trace
            = s.trace ++ (.alloc_tfm .skcipher driver type mask ok :: body) ∧
          ∀ e ∈ body, e.isInvoke = false := by
      intro err s1 s2 hs1 e1
      by_cases he : err ≠ 0
      · rw [if_pos he]
        exact hmk true _ _ hs1 (Ext.trans e1 (hfree s2))
      · rw [if_neg he]
        cases hdv : desc.cipher.dec.vecs with
        | none => exact hmk true _ _ hs1 (Ext.trans e1 (hfree s2))
        | some vecs =>
          simp only
          have e2 := skcipher_run_ni E c tfm DECRYPT vecs desc.cipher.dec.count
            (skcipher_inject_fault c desc driver) s2
          generalize moto_test_skcipher E c tfm DECRYPT vecs desc.cipher.dec.count
            (skcipher_inject_fault c desc driver) s2 = R2 at e2 ⊢
          obtain ⟨o2, s3⟩ := R2
          simp only at e2
          cases o2 with
          | none => exact hmk true _ _ hs1 (Ext.trans e1 e2)
          | some err1 => exact hmk true _ _ hs1 (Ext.trans e1 (Ext.trans e2 (hfree s3)))
    cases hev : desc.cipher.enc.vecs with
    | none =>
      simp only
      exact hdec 0 _ _ rfl (Ext.refl _ _)
    | some vecs =>
      simp only
      have e1 := skcipher_run_ni E c tfm ENCRYPT vecs desc.cipher.enc.count
        (skcipher_inject_fault c desc driver)
        (⟨env1, s.xbuf, s.tresult, s.trace ++ [.alloc_tfm .skcipher driver type mask true]⟩ :
          State σ)
      generalize moto_test_skcipher E c tfm ENCRYPT vecs desc.cipher.enc.count
        (skcipher_inject_fault c desc driver)
        (⟨env1, s.xbuf, s.tresult, s.trace ++ [.alloc_tfm .skcipher driver type mask true]⟩ :
          State σ) = R1 at e1 ⊢
      obtain ⟨o1, s2⟩ := R1
      simp only at e1
      cases o1 with
      | none => exact hmk true _ _ rfl e1
      | some err => exact hdec err _ s2 rfl e1

theorem run_entry_invokes {σ : Type} (E : Env σ) (c : Config) (k : Nat)
    (d : moto_alg_test_desc) (hd : moto_alg_test_descs[k]? = some d)
    (driver : List Nat) (type mask : Nat) (s : State σ) :
    ∃ ok body, (run_entry E c k driver type mask s).2.trace
        = s.trace ++ (.test k driver type mask :: .alloc_tfm d.test driver type mask ok
            :: body) ∧
      ∀ e ∈ body, e.isInvoke = false := by
  unfold run_entry
  rw [hd]
  simp only
  cases hk : d.test with
  | cprng =>
    obtain ⟨ok, body, hb, hq⟩ := alg_test_cprng_invokes E c d driver type mask
      (s.log [.test k driver type mask])
    exact ⟨ok, body, by simp only; rw [hb]; simp [State.log], hq⟩
  | skcipher =>
    obtain ⟨ok, body, hb, hq⟩ := alg_test_skcipher_invokes E c d driver type mask
      (s.log [.test k driver type mask])
    exact ⟨ok, body, by simp only; rw [hb]; simp [State.log], hq⟩
  | hash =>
    obtain ⟨ok, body, hb, hq⟩ := alg_test_hash_invokes E c d driver type mask
      (s.log [.test k driver type mask])
    exact ⟨ok, body, by simp only; rw [hb]; simp [State.log], hq⟩

theorem filter_invoke_body (p : Event → Bool) (hp : ∀ e, p e = true → e.isInvoke = true)
    (body : List Event) (h : ∀ e ∈ body, e.isInvoke = false) : body.filter p = [] := by
  rw [List.filter_eq_nil_iff]
  intro e he hc
  have := hp e hc
  rw [h e he] at this
  simp at this

/-- C40: when the algorithm name resolves to entry `i` and the driver name to entry `j`,
and both calls return, `moto_alg_test` calls the test function of entry `i` (the entry whose
name is the algorithm name) first and that of entry `j` (the entry whose name is the
driver name) second, the second in the state the first left, and no other test function:
the calls through a function pointer made during the run are exactly these two, in this
order, each with the arguments `driver`, `type`, `mask`; each call loads its transform
once, under the driver name.  The two entries are the same one exactly when the two names
are the same; then the two calls have identical arguments. -/
theorem alg_test_invocations {σ : Type} (E : Env σ) (c : Config) (driver alg : List Nat)
    (type mask : Nat) (s s1 s2 : State σ) (i j : Int) (a b : Int)
    (hi : moto_alg_find_test alg = some i) (hj : moto_alg_find_test driver = some j)
    (h0i : 0 ≤ i) (h0j : 0 ≤ j)
    (h1 : run_entry E c i.toNat driver type mask s = (some a, s1))
    (h2 : run_entry E c j.toNat driver type mask s1 = (some b, s2)) :
    (∃ d e : moto_alg_test_desc, ∃ ok1 ok2 : Bool,
      moto_alg_test_descs[i.toNat]? = some d ∧ d.alg = cstr alg ∧
      moto_alg_test_descs[j.toNat]? = some e ∧ e.alg = cstr driver ∧
      (new_events s (moto_alg_test E c driver alg type mask s).2).filter Event.isInvoke
        = [.test i.toNat driver type mask, .alloc_tfm d.test driver type mask ok1,
           .test j.toNat driver type mask, .alloc_tfm e.test driver type mask ok2]) ∧
    (new_events s (moto_alg_test E c driver alg type mask s).2).filter Event.isTest
      = [.test i.toNat driver type mask, .test j.toNat driver type mask] ∧
    (moto_alg_test E c driver alg type mask s).2
      = s2.log [if a = 0 ∧ b = 0 then .printk_passed else .printk_not_passed] ∧
    (i = j ↔ cstr driver = cstr alg) ∧
    (cstr driver = cstr alg →
      run_entry E c j.toNat driver type mask = run_entry E c i.toNat driver type mask ∧
      (new_events s (moto_alg_test E c driver alg type mask s).2).filter Event.isTest
        = [.test i.toNat driver type mask, .test i.toNat driver type mask]) := by
  obtain ⟨d, hd, hda⟩ := find_test_entry alg i hi h0i
  obtain ⟨e, he, hea⟩ := find_test_entry driver j hj h0j
  obtain ⟨ok1, body1, hb1, hq1⟩ := run_entry_invokes E c i.toNat d hd driver type mask s
  obtain ⟨ok2, body2, hb2, hq2⟩ := run_entry_invokes E c j.toNat e he driver type mask s1
  rw [h1] at hb1
  rw [h2] at hb2
  simp only at hb1 hb2
  have hfin : (moto_alg_test E c driver alg type mask s).2
      = s2.log [if a = 0 ∧ b = 0 then .printk_passed else .printk_not_passed] := by
    have hno : ¬ (i < 0 ∧ j < 0) := by omega
    unfold moto_alg_test
    rw [hi, hj]
    simp only [hno, if_false, ge_iff_le, h0i, h0j, if_true, h1, h2, int_or_zero_left]
    by_cases hz : int_or a b = 0
    · rw [if_pos hz, if_pos ((int_or_eq_zero a b).1 hz)]
    · rw [if_neg hz, if_neg (fun h => hz ((int_or_eq_zero a b).2 h))]
  have hnew : new_events s (moto_alg_test E c driver alg type mask s).2
      = (.test i.toNat driver type mask :: .alloc_tfm d.test driver type mask ok1 :: body1)
        ++ ((.test j.toNat driver type mask :: .alloc_tfm e.test driver type mask ok2
              :: body2)
          ++ [if a = 0 ∧ b = 0 then .printk_passed else .printk_not_passed]) := by
    apply new_events_append
    rw [hfin]
    simp only [State.log]
    rw [hb2, hb1]
    simp only [List.append_assoc]
  have hlast : ∀ p : Event → Bool, (∀ e, p e = true → e.isInvoke = true) →
      [if a = 0 ∧ b = 0 then Event.printk_passed else Event.printk_not_passed].filter p
        = [] := by
    intro p hp
    apply filter_invoke_body p hp
    intro ev hev
    simp only [List.mem_singleton] at hev
    subst hev
    split <;> rfl
  have hinv : (new_events s (moto_alg_test E c driver alg type mask s).2).filter
      Event.isInvoke
      = [.test i.toNat driver type mask, .alloc_tfm d.test driver type mask ok1,
         .test j.toNat driver type mask, .alloc_tfm e.test driver type mask ok2] := by
    rw [hnew]
    simp only [List.filter_append, List.filter_cons, Event.isInvoke, if_true,
      filter_invoke_body _ (fun _ h => h) body1 hq1,
      filter_invoke_body _ (fun _ h => h) body2 hq2, hlast _ (fun _ h => h)]
    rfl
  have htest_inv : ∀ ev : Event, ev.isTest = true → ev.isInvoke = true := by
    intro ev h
    cases ev <;> first | rfl | simp [Event.isTest] at h
  have htest : (new_events s (moto_alg_test E c driver alg type mask s).2).filter
      Event.isTest
      = [.test i.toNat driver type mask, .test j.toNat driver type mask] := by
    rw [hnew]
    simp only [List.filter_append, List.filter_cons, Event.isTest, if_true,
      Bool.false_eq_true, if_false,
      filter_invoke_body _ htest_inv body1 hq1,
      filter_invoke_body _ htest_inv body2 hq2, hlast _ htest_inv]
    rfl
  have hsame : i = j ↔ cstr driver = cstr alg := by
    constructor
    · intro hij
      subst hij
      rw [hd] at he
      simp only [Option.some.injEq] at he
      subst he
      rw [← hda, ← hea]
    · intro hn
      have := registry_index_unique i.toNat j.toNat d e hd he (by rw [hda, hea, hn])
      omega
  refine ⟨⟨d, e, ok1, ok2, hd, hda, he, hea, hinv⟩, htest, hfin, hsame, ?_⟩
  intro hn
  have hij := hsame.2 hn
  subst hij
  exact ⟨rfl, htest⟩

set_option maxRecDepth 100000 in
/-- Witness for C40: algorithm "sha1" (entry 11) with driver "sha224" (entry 12), in an
environment where loading the transform fails with `-2`: the test function of entry 11 is
called first, that of entry 12 second, both with the driver name "sha224". -/
theorem alg_test_invocations_witness :
    moto_alg_find_test (ascii "sha1") = some 11 ∧
    moto_alg_find_test (ascii "sha224") = some 12 ∧
    (new_events sample_state
      (moto_alg_test (sample_env 0 (some (-2))) sample_config (ascii "sha224") (ascii "sha1")
        0 0 sample_state).2).filter Event.isTest
      = [.test 11 (ascii "sha224") 0 0, .test 12 (ascii "sha224") 0 0] :=
  ⟨by decide, by decide,
   (alg_test_invocations (sample_env 0 (some (-2))) sample_config (ascii "sha224")
     (ascii "sha1") 0 0 sample_state _ _ 11 12 (-2) (-2) (by decide) (by decide) (by decide)
     (by decide) rfl rfl).2.1⟩

end Moto
